import Mathlib

/-!
Multi-core MESI cache simulator: shallow embedding and verified properties.

The development embeds the simulator core of the repository (`main.hpp`, `cache.cpp`,
`bus.cpp`, and the cycle loop of `main.cpp`) as pure state-passing functions.

Modelling conventions.

* The C++ globals are gathered in one record `State`; the local variables of
  `runMulticoreSimulation` that survive a cycle (`tracePosition`, `currentCycle`) are in `SimState`.
* `vector`s indexed by core, set and way are total functions on `Nat`; an index outside the
  allocated range is undefined behaviour in the source and simply reads the initial value here.
* `int` values are unbounded `Int`s: counters and shifts are assumed not to overflow.  The
  geometry `s, E, b` is a triple of natural numbers.
* Tags are stored as `unsigned int`: a stored tag is the `int` tag reduced modulo `2 ^ 32`, and the
  comparison of a stored tag with an `int` tag converts the latter in the same way.
* A trace entry carries the integer that `convertHexToInt` returns for its address string, and an
  operation that is `R` or `W` (the only operations `loadProcessorTraces` lets through).
* `while` loops that scan `0 .. n-1` are `forLoop` (no `break`) or `findFirst` (search with `break`).
* `ghostLog` is a history variable that is not in the source: it records, at the source line
  where they happen, the events that the accounting properties count.  No function reads it.
-/

namespace CacheSim

/-! ## Data model -/

/-- Coherence state of a line, `enum class CoherenceState` of `main.hpp`. -/
inductive CoherenceState where
  | MODIFIED
  | EXCLUSIVE
  | SHARED
  | INVALID
  deriving DecidableEq, Repr

/-- Kinds of bus request, `enum class BusRequestType` of `bus.hpp`. -/
inductive BusRequestType where
  | READ_SHARED
  | READ_EXCLUSIVE
  | UPGRADE_REQUEST
  deriving DecidableEq, Repr

/-- Bus request, `struct BusTransaction` of `bus.hpp`. -/
structure BusTransaction where
  requestorId : Nat
  memoryAddress : Int
  reqType : BusRequestType
  deriving DecidableEq, Repr

/-- Data transfer on the bus, `struct BusDataTransfer` of `bus.hpp`. -/
structure BusDataTransfer where
  targetAddress : Int
  destinationCore : Nat
  isWriteOp : Bool
  isWritebackOp : Bool
  isInvalidation : Bool
  pendingCycles : Int
  deriving DecidableEq, Repr

/-- Operation of a trace entry: the character `R` or `W`. -/
inductive Op where
  | R
  | W
  deriving DecidableEq, Repr

/-- Trace entry: the operation and the value of `convertHexToInt` on the address string. -/
structure TraceEntry where
  op : Op
  addr : Int
  deriving DecidableEq, Repr

/-- Cache geometry: the globals `numSetBits`, `numBlockBits`, `associativity`. -/
structure Config where
  numSetBits : Nat
  numBlockBits : Nat
  associativity : Nat
  deriving DecidableEq, Repr

/-- Ghost events recorded in `State.ghostLog` (history variable, not in the source). -/
inductive Event where
  | readSharedServiced (core : Nat)
  | readExclusiveServiced (core : Nat)
  | upgradeServiced (core : Nat)
  | upgradeNotFound (core : Nat)
  | busyDropped (core : Nat)
  | dirtyEviction (core : Nat)
  | modifiedSnooped (core : Nat)
  | writebackCompleted (core : Nat)
  deriving DecidableEq, Repr

/-- The simulator globals of `main.cpp`, `bus.cpp` and `cache.cpp`.  The per-core fields of
`CacheUnit` and `coherenceTable` take the core index first, then the set, then the way. -/
structure State where
  isStalled : Nat → Bool
  tagArray : Nat → Nat → Nat → Int
  validBits : Nat → Nat → Nat → Bool
  lruOrder : Nat → Nat → List Nat
  dirtyFlags : Nat → Nat → Nat → Bool
  coherenceTable : Nat → Nat → Nat → CoherenceState
  pendingOperations : Nat → Int
  busOccupied : Bool
  busTickCounter : Int
  operationCounter : Int
  pendingRequests : List BusTransaction
  dataTransferQueue : List BusDataTransfer
  totalCycles : Nat → Int
  executedInstructions : Nat → Int
  readCount : Nat → Int
  writeCount : Nat → Int
  missCount : Nat → Int
  evictionCount : Nat → Int
  writebackCount : Nat → Int
  invalidationCount : Nat → Int
  trafficBytes : Nat → Int
  stalledCycles : Nat → Int
  busTransactionCount : Int
  totalBusTraffic : Int
  processorRunning : Nat → Bool
  ghostLog : List Event

/-- State of the cycle loop: the globals, the trace cursors and the cycle counter. -/
structure SimState where
  st : State
  tracePosition : Nat → Nat
  currentCycle : Int

/-! ## Array and loop primitives -/

/-- Assignment `f[i] = v` on a vector modelled as a function. -/
def set1 {α : Type} (f : Nat → α) (i : Nat) (v : α) : Nat → α :=
  fun i' => if i' = i then v else f i'

/-- Assignment `f[i][j] = v`. -/
def set2 {α : Type} (f : Nat → Nat → α) (i j : Nat) (v : α) : Nat → Nat → α :=
  fun i' j' => if i' = i ∧ j' = j then v else f i' j'

/-- Assignment `f[i][j][k] = v`. -/
def set3 {α : Type} (f : Nat → Nat → Nat → α) (i j k : Nat) (v : α) : Nat → Nat → Nat → α :=
  fun i' j' k' => if i' = i ∧ j' = j ∧ k' = k then v else f i' j' k'

/-- Loop `i = 0; while (i < n) { body(i); i++; }` without `break`. -/
def forLoop {σ : Type} : Nat → (Nat → σ → σ) → σ → σ
  | 0, _, s => s
  | n + 1, body, s => body n (forLoop n body s)

/-- Search loop `i = 0; while (i < n) { if (p(i)) { found = i; break; } i++; }`. -/
def findFirst : Nat → (Nat → Bool) → Option Nat
  | 0, _ => none
  | n + 1, p =>
    match findFirst n p with
    | some i => some i
    | none => if p n then some n else none

/-- Conversion of an `int` to `unsigned int`. -/
def toUnsigned (x : Int) : Int := x % 4294967296

/-- Conversion of an `unsigned int` to `int`. -/
def toSigned (x : Int) : Int :=
  if x % 4294967296 < 2147483648 then x % 4294967296 else x % 4294967296 - 4294967296

/-- Set index of an address: `(addr >> numBlockBits) & ((1 << numSetBits) - 1)`. -/
def setIndexOf (cfg : Config) (addr : Int) : Nat :=
  (Int.land (addr >>> cfg.numBlockBits) ((2 : Int) ^ cfg.numSetBits - 1)).toNat

/-- Tag of an address: `addr >> (numSetBits + numBlockBits)`. -/
def tagOf (cfg : Config) (addr : Int) : Int :=
  addr >>> (cfg.numSetBits + cfg.numBlockBits)

/-- Block size in bytes, `bytesPerBlock = 1 << numBlockBits`. -/
def bytesPerBlock (cfg : Config) : Int := (2 : Int) ^ cfg.numBlockBits

/-- Latency of a cache-to-cache transfer, `1 << (numBlockBits - 1)`. -/
def c2cLatency (cfg : Config) : Int := (2 : Int) ^ (cfg.numBlockBits - 1)

/-- Address of an evicted line: `(evictedTag << (s + b)) | (setIndex << b)`. -/
def evictedAddrOf (cfg : Config) (storedTag : Int) (setIndex : Nat) : Int :=
  Int.lor (toSigned storedTag * (2 : Int) ^ (cfg.numSetBits + cfg.numBlockBits))
    ((setIndex : Int) * (2 : Int) ^ cfg.numBlockBits)

/-- LRU update used on every hit and fill: `find`, `erase` if found, `push_back`. -/
def touchLru (l : List Nat) (way : Nat) : List Nat := l.erase way ++ [way]

/-! ## `main.hpp`: initial state -/

/-- Per-set LRU list built by `CacheUnit::initialize`: `lineIdx = 0 .. associativity-1` pushed
in order. -/
def initialLruList (cfg : Config) : List Nat :=
  forLoop cfg.associativity (fun lineIdx l => l ++ [lineIdx]) []

/-- LRU table built by `CacheUnit::initialize`: `totalSets = 1 << numSetBits` lists. -/
def initializeLruOrder (cfg : Config) : Nat → List Nat :=
  fun setIdx => if setIdx < 2 ^ cfg.numSetBits then initialLruList cfg else []

/-- Initial state: the global initialisers, then the initialisation loop of `main`
(`CacheUnit::initialize` and `coherenceTable[i].assign(.., INVALID)` for each core). -/
def initialState (cfg : Config) : State where
  isStalled := fun _ => false
  tagArray := fun _ _ _ => 0
  validBits := fun _ _ _ => false
  lruOrder := fun _ => initializeLruOrder cfg
  dirtyFlags := fun _ _ _ => false
  coherenceTable := fun _ _ _ => CoherenceState.INVALID
  pendingOperations := fun _ => -1
  busOccupied := false
  busTickCounter := 0
  operationCounter := 0
  pendingRequests := []
  dataTransferQueue := []
  totalCycles := fun _ => 0
  executedInstructions := fun _ => 0
  readCount := fun _ => 0
  writeCount := fun _ => 0
  missCount := fun _ => 0
  evictionCount := fun _ => 0
  writebackCount := fun _ => 0
  invalidationCount := fun _ => 0
  trafficBytes := fun _ => 0
  stalledCycles := fun _ => 0
  busTransactionCount := 0
  totalBusTraffic := 0
  processorRunning := fun _ => true
  ghostLog := []

/-- Initial state of the cycle loop. -/
def initialSim (cfg : Config) : SimState where
  st := initialState cfg
  tracePosition := fun _ => 0
  currentCycle := 0

/-! ## `cache.cpp` -/

/-- First way of the set whose state is `INVALID` (the search loop of the miss handlers). -/
def findInvalidWay (cfg : Config) (st : State) (processorId setIndex : Nat) : Option Nat :=
  findFirst cfg.associativity
    (fun wayIdx => st.coherenceTable processorId setIndex wayIdx == CoherenceState.INVALID)

/-- Victim choice of `processReadMiss` (`dirtyStalls = true`) and `processWriteMiss`
(`dirtyStalls = false`): the part of both functions before the metadata update.  An `INVALID`
way is erased from the LRU list; otherwise the front of the LRU list is popped, the eviction is
counted and, when that way is dirty, a writeback transfer is queued. -/
def selectVictim (cfg : Config) (dirtyStalls : Bool) (st : State) (processorId setIndex : Nat)
    (triggeredWriteback : Bool) : Nat × Bool × State :=
  match findInvalidWay cfg st processorId setIndex with
  | none =>
    let selectedWay := (st.lruOrder processorId setIndex).headD 0
    let st1 : State :=
      { st with
        lruOrder := set2 st.lruOrder processorId setIndex (st.lruOrder processorId setIndex).tail
        evictionCount := set1 st.evictionCount processorId (st.evictionCount processorId + 1) }
    if st1.dirtyFlags processorId setIndex selectedWay then
      let evictedAddr := evictedAddrOf cfg (st1.tagArray processorId setIndex selectedWay) setIndex
      (selectedWay, true,
        { st1 with
          isStalled := if dirtyStalls then set1 st1.isStalled processorId true else st1.isStalled
          dataTransferQueue :=
            st1.dataTransferQueue ++ [⟨evictedAddr, processorId, false, true, false, 100⟩]
          ghostLog := st1.ghostLog ++ [Event.dirtyEviction processorId] })
    else (selectedWay, triggeredWriteback, st1)
  | some selectedWay =>
    (selectedWay, triggeredWriteback,
      { st with
        lruOrder := set2 st.lruOrder processorId setIndex
          ((st.lruOrder processorId setIndex).erase selectedWay) })

/-- Metadata update that ends both miss handlers: tag, dirty flag, `push_back` on the LRU list. -/
def installLine (st : State) (processorId setIndex selectedWay : Nat) (tagValue : Int)
    (dirty : Bool) : State :=
  { st with
    tagArray := set3 st.tagArray processorId setIndex selectedWay (toUnsigned tagValue)
    dirtyFlags := set3 st.dirtyFlags processorId setIndex selectedWay dirty
    lruOrder := set2 st.lruOrder processorId setIndex
      (st.lruOrder processorId setIndex ++ [selectedWay]) }

/-- The function `processReadMiss`: returns the selected way, the flag `triggeredWriteback`
and the new state. -/
def processReadMiss (cfg : Config) (st : State) (processorId setIndex : Nat) (tagValue : Int)
    (triggeredWriteback : Bool) : Nat × Bool × State :=
  let r := selectVictim cfg true st processorId setIndex triggeredWriteback
  (r.1, r.2.1, installLine r.2.2 processorId setIndex r.1 tagValue false)

/-- The function `processWriteMiss`: as `processReadMiss`, except that the installed line is
dirty and the dirty-victim branch does not set `isStalled`. -/
def processWriteMiss (cfg : Config) (st : State) (processorId setIndex : Nat) (tagValue : Int)
    (triggeredWriteback : Bool) : Nat × Bool × State :=
  let r := selectVictim cfg false st processorId setIndex triggeredWriteback
  (r.1, r.2.1, installLine r.2.2 processorId setIndex r.1 tagValue true)

/-- Tag search of `executeMemoryOperation`: first way that is not `INVALID` and holds the tag. -/
def lookupWay (cfg : Config) (st : State) (processorId setIndex : Nat) (tagBits : Int) :
    Option Nat :=
  findFirst cfg.associativity
    (fun searchIdx =>
      st.coherenceTable processorId setIndex searchIdx != CoherenceState.INVALID
        && st.tagArray processorId setIndex searchIdx == toUnsigned tagBits)

/-- The function `executeMemoryOperation`. -/
def executeMemoryOperation (cfg : Config) (st0 : State) (traceEntry : TraceEntry)
    (processorId : Nat) : State :=
  let st : State := { st0 with operationCounter := st0.operationCounter + 1 }
  let memAddr := traceEntry.addr
  if st.pendingOperations processorId ≠ -1 then
    { st with totalCycles := set1 st.totalCycles processorId (st.totalCycles processorId + 1) }
  else
    let setIndex := setIndexOf cfg memAddr
    let tagBits := tagOf cfg memAddr
    match traceEntry.op with
    | Op.R =>
      match lookupWay cfg st processorId setIndex tagBits with
      | some matchedWay =>
        { st with
          lruOrder := set2 st.lruOrder processorId setIndex
            (touchLru (st.lruOrder processorId setIndex) matchedWay) }
      | none =>
        { st with
          pendingRequests :=
            st.pendingRequests ++ [⟨processorId, memAddr, BusRequestType.READ_SHARED⟩]
          isStalled := set1 st.isStalled processorId true }
    | Op.W =>
      match lookupWay cfg st processorId setIndex tagBits with
      | some matchedWay =>
        let currentState := st.coherenceTable processorId setIndex matchedWay
        if currentState = CoherenceState.EXCLUSIVE ∨ currentState = CoherenceState.MODIFIED then
          let st1 : State :=
            { st with
              lruOrder := set2 st.lruOrder processorId setIndex
                (touchLru (st.lruOrder processorId setIndex) matchedWay)
              dirtyFlags := set3 st.dirtyFlags processorId setIndex matchedWay true }
          if currentState = CoherenceState.EXCLUSIVE then
            { st1 with
              coherenceTable :=
                set3 st1.coherenceTable processorId setIndex matchedWay CoherenceState.MODIFIED }
          else st1
        else
          { st with
            pendingRequests :=
              st.pendingRequests ++ [⟨processorId, memAddr, BusRequestType.UPGRADE_REQUEST⟩]
            lruOrder := set2 st.lruOrder processorId setIndex
              (touchLru (st.lruOrder processorId setIndex) matchedWay) }
      | none =>
        { st with
          pendingRequests :=
            st.pendingRequests ++ [⟨processorId, memAddr, BusRequestType.READ_EXCLUSIVE⟩]
          isStalled := set1 st.isStalled processorId true }

/-! ## `bus.cpp` -/

/-- Snoop test on one way: the stored tag equals the tag and the line is not `INVALID`. -/
def holdsLine (st : State) (core setIndex : Nat) (tagBits : Int) (wayIdx : Nat) : Bool :=
  st.tagArray core setIndex wayIdx == toUnsigned tagBits
    && st.coherenceTable core setIndex wayIdx != CoherenceState.INVALID

/-- Inner snoop loop with `break`: first way of `core` that holds the line. -/
def findHolderWay (cfg : Config) (st : State) (core setIndex : Nat) (tagBits : Int) :
    Option Nat :=
  findFirst cfg.associativity (holdsLine st core setIndex tagBits)

/-- Outer snoop loop with `break` over the cores `0 .. 3` other than `exceptCore`: the first
core, and its first way, that holds the line.  It is the donor search of `READ_SHARED` and the
`othersHaveData` search of the data phase. -/
def findOtherHolder (cfg : Config) (st : State) (exceptCore setIndex : Nat) (tagBits : Int) :
    Option (Nat × Nat) :=
  match findFirst 4 (fun otherCore =>
      otherCore != exceptCore && (findHolderWay cfg st otherCore setIndex tagBits).isSome) with
  | none => none
  | some otherCore =>
    match findHolderWay cfg st otherCore setIndex tagBits with
    | none => none
    | some wayIdx => some (otherCore, wayIdx)

/-- Service of a `READ_SHARED` request (bus idle). -/
def serviceReadShared (cfg : Config) (st0 : State) (requestorCore : Nat) (targetAddr : Int)
    (setIndex : Nat) (tagBits : Int) : State :=
  let st : State :=
    { st0 with
      busOccupied := true
      busTransactionCount := st0.busTransactionCount + 1
      missCount := set1 st0.missCount requestorCore (st0.missCount requestorCore + 1)
      ghostLog := st0.ghostLog ++ [Event.readSharedServiced requestorCore] }
  match findOtherHolder cfg st requestorCore setIndex tagBits with
  | some (otherCore, wayIdx) =>
    let st1 : State :=
      { st with
        isStalled := set1 st.isStalled requestorCore true
        dataTransferQueue :=
          st.dataTransferQueue ++ [⟨targetAddr, requestorCore, false, false, false, c2cLatency cfg⟩]
        trafficBytes := set1 st.trafficBytes otherCore (st.trafficBytes otherCore + bytesPerBlock cfg) }
    if st1.coherenceTable otherCore setIndex wayIdx = CoherenceState.MODIFIED then
      let st2 : State :=
        { st1 with
          coherenceTable := set3 st1.coherenceTable otherCore setIndex wayIdx CoherenceState.SHARED
          isStalled := set1 st1.isStalled otherCore true
          dataTransferQueue :=
            st1.dataTransferQueue ++ [⟨targetAddr, otherCore, false, true, false, 100⟩]
          ghostLog := st1.ghostLog ++ [Event.modifiedSnooped otherCore] }
      let st3 : State :=
        if st2.processorRunning otherCore then
          { st2 with
            totalCycles := set1 st2.totalCycles otherCore
              (st2.totalCycles otherCore - (c2cLatency cfg + 101))
            stalledCycles := set1 st2.stalledCycles otherCore
              (st2.stalledCycles otherCore + (c2cLatency cfg + 1)) }
        else st2
      { st3 with pendingOperations := set1 st3.pendingOperations otherCore targetAddr }
    else if st1.coherenceTable otherCore setIndex wayIdx = CoherenceState.EXCLUSIVE then
      { st1 with
        coherenceTable := set3 st1.coherenceTable otherCore setIndex wayIdx CoherenceState.SHARED }
    else st1
  | none =>
    { st with
      isStalled := set1 st.isStalled requestorCore true
      dataTransferQueue :=
        st.dataTransferQueue ++ [⟨targetAddr, requestorCore, false, false, false, 100⟩] }

/-- Body of the `READ_EXCLUSIVE` snoop for one way of another core; the Boolean is
`foundInOther`. -/
def invalidateWay (targetAddr : Int) (setIndex : Nat) (tagBits : Int) (otherCore wayIdx : Nat)
    (acc : Bool × State) : Bool × State :=
  let st := acc.2
  if holdsLine st otherCore setIndex tagBits wayIdx then
    let st1 : State :=
      if st.coherenceTable otherCore setIndex wayIdx = CoherenceState.MODIFIED then
        let st2 : State :=
          { st with
            isStalled := set1 st.isStalled otherCore true
            dataTransferQueue :=
              st.dataTransferQueue ++ [⟨targetAddr, otherCore, false, true, false, 100⟩]
            ghostLog := st.ghostLog ++ [Event.modifiedSnooped otherCore] }
        let st3 : State :=
          if st2.processorRunning otherCore then
            { st2 with totalCycles := set1 st2.totalCycles otherCore (st2.totalCycles otherCore - 101) }
          else st2
        { st3 with pendingOperations := set1 st3.pendingOperations otherCore targetAddr }
      else st
    (true,
      { st1 with
        coherenceTable := set3 st1.coherenceTable otherCore setIndex wayIdx CoherenceState.INVALID })
  else acc

/-- Snoop loops of `READ_EXCLUSIVE`: every way of every core other than the requestor. -/
def invalidateOthers (cfg : Config) (requestorCore : Nat) (targetAddr : Int) (setIndex : Nat)
    (tagBits : Int) (acc : Bool × State) : Bool × State :=
  forLoop 4 (fun otherCore acc1 =>
    if otherCore != requestorCore then
      forLoop cfg.associativity (invalidateWay targetAddr setIndex tagBits otherCore) acc1
    else acc1) acc

/-- Service of a `READ_EXCLUSIVE` request (bus idle). -/
def serviceReadExclusive (cfg : Config) (st0 : State) (requestorCore : Nat) (targetAddr : Int)
    (setIndex : Nat) (tagBits : Int) : State :=
  let st : State :=
    { st0 with
      busOccupied := true
      busTransactionCount := st0.busTransactionCount + 1
      missCount := set1 st0.missCount requestorCore (st0.missCount requestorCore + 1)
      ghostLog := st0.ghostLog ++ [Event.readExclusiveServiced requestorCore] }
  let r := invalidateOthers cfg requestorCore targetAddr setIndex tagBits (false, st)
  let st1 : State := { r.2 with isStalled := set1 r.2.isStalled requestorCore true }
  let st2 : State :=
    if r.1 then
      { st1 with
        invalidationCount :=
          set1 st1.invalidationCount requestorCore (st1.invalidationCount requestorCore + 1) }
    else st1
  { st2 with
    dataTransferQueue :=
      st2.dataTransferQueue ++ [⟨targetAddr, requestorCore, true, false, false, 100⟩] }

/-- Body of the `UPGRADE_REQUEST` snoop for one way of another core. -/
def upgradeInvalidateWay (setIndex : Nat) (tagBits : Int) (otherCore searchWay : Nat)
    (st : State) : State :=
  if holdsLine st otherCore setIndex tagBits searchWay then
    { st with
      coherenceTable := set3 st.coherenceTable otherCore setIndex searchWay CoherenceState.INVALID }
  else st

/-- Snoop loops of `UPGRADE_REQUEST`: every way of every core other than the requestor. -/
def upgradeInvalidateOthers (cfg : Config) (requestorCore setIndex : Nat) (tagBits : Int)
    (st : State) : State :=
  forLoop 4 (fun otherCore st1 =>
    if otherCore != requestorCore then
      forLoop cfg.associativity (upgradeInvalidateWay setIndex tagBits otherCore) st1
    else st1) st

/-- Search of the requestor's own `SHARED` copy in `UPGRADE_REQUEST`. -/
def findSharedWay (cfg : Config) (st : State) (requestorCore setIndex : Nat) (tagBits : Int) :
    Option Nat :=
  findFirst cfg.associativity (fun wayIdx =>
    st.tagArray requestorCore setIndex wayIdx == toUnsigned tagBits
      && st.coherenceTable requestorCore setIndex wayIdx == CoherenceState.SHARED)

/-- Service of an `UPGRADE_REQUEST` (bus idle). -/
def serviceUpgrade (cfg : Config) (st : State) (requestorCore : Nat) (targetAddr : Int)
    (setIndex : Nat) (tagBits : Int) : State :=
  match findSharedWay cfg st requestorCore setIndex tagBits with
  | some targetWay =>
    let st1 : State :=
      { st with
        busTransactionCount := st.busTransactionCount + 1
        ghostLog := st.ghostLog ++ [Event.upgradeServiced requestorCore] }
    let st2 := upgradeInvalidateOthers cfg requestorCore setIndex tagBits st1
    { st2 with
      invalidationCount :=
        set1 st2.invalidationCount requestorCore (st2.invalidationCount requestorCore + 1)
      busOccupied := true
      coherenceTable :=
        set3 st2.coherenceTable requestorCore setIndex targetWay CoherenceState.MODIFIED
      dirtyFlags := set3 st2.dirtyFlags requestorCore setIndex targetWay true
      isStalled := set1 st2.isStalled requestorCore true
      dataTransferQueue :=
        st2.dataTransferQueue ++ [⟨targetAddr, requestorCore, false, false, true, 0⟩]
      pendingOperations := set1 st2.pendingOperations requestorCore 1 }
  | none => { st with ghostLog := st.ghostLog ++ [Event.upgradeNotFound requestorCore] }

/-- Body of the request loop of `processBusTransactions` for the request just dequeued. -/
def serviceRequest (cfg : Config) (st : State) (currentReq : BusTransaction) : State :=
  let requestorCore := currentReq.requestorId
  let targetAddr := currentReq.memoryAddress
  let setIndex := setIndexOf cfg targetAddr
  let tagBits := tagOf cfg targetAddr
  if st.busOccupied then
    { st with
      isStalled := set1 st.isStalled requestorCore true
      stalledCycles := set1 st.stalledCycles requestorCore (st.stalledCycles requestorCore + 1)
      ghostLog := st.ghostLog ++ [Event.busyDropped requestorCore] }
  else
    let st1 : State :=
      { st with pendingOperations := set1 st.pendingOperations requestorCore targetAddr }
    match currentReq.reqType with
    | BusRequestType.READ_SHARED =>
      serviceReadShared cfg st1 requestorCore targetAddr setIndex tagBits
    | BusRequestType.READ_EXCLUSIVE =>
      serviceReadExclusive cfg st1 requestorCore targetAddr setIndex tagBits
    | BusRequestType.UPGRADE_REQUEST =>
      serviceUpgrade cfg st1 requestorCore targetAddr setIndex tagBits

/-- Request loop `while (pendingRequests.size())`: dequeue the front request and service it.
The body never enqueues a request, so the loop runs once per queued request. -/
def requestLoop (cfg : Config) : List BusTransaction → State → State
  | [], st => st
  | currentReq :: rest, st =>
    requestLoop cfg rest (serviceRequest cfg { st with pendingRequests := rest } currentReq)

/-- Request phase of `processBusTransactions`. -/
def requestPhase (cfg : Config) (st : State) : State :=
  requestLoop cfg st.pendingRequests st

/-- Completion of the head transfer (its `pendingCycles` is `0`), up to but not including
the `erase` of the head. -/
def completeTransfer (cfg : Config) (st0 : State) (currentTransfer : BusDataTransfer) : State :=
  let destCore := currentTransfer.destinationCore
  let transferAddr := currentTransfer.targetAddress
  let st : State :=
    { st0 with
      totalBusTraffic := st0.totalBusTraffic + bytesPerBlock cfg
      trafficBytes := set1 st0.trafficBytes destCore (st0.trafficBytes destCore + bytesPerBlock cfg) }
  if !currentTransfer.isWritebackOp then
    let setIdx := setIndexOf cfg transferAddr
    let tagVal := tagOf cfg transferAddr
    let r : Bool × State :=
      if currentTransfer.isWriteOp then
        let m := processWriteMiss cfg st destCore setIdx tagVal false
        (m.2.1,
          { m.2.2 with
            coherenceTable :=
              set3 m.2.2.coherenceTable destCore setIdx m.1 CoherenceState.MODIFIED })
      else if !currentTransfer.isInvalidation then
        let m := processReadMiss cfg st destCore setIdx tagVal false
        let othersHaveData := (findOtherHolder cfg m.2.2 destCore setIdx tagVal).isSome
        (m.2.1,
          { m.2.2 with
            coherenceTable :=
              set3 m.2.2.coherenceTable destCore setIdx m.1
                (if othersHaveData then CoherenceState.SHARED else CoherenceState.EXCLUSIVE) })
      else (false, st)
    let st1 : State :=
      { r.2 with
        isStalled := set1 r.2.isStalled destCore false
        pendingOperations := set1 r.2.pendingOperations destCore (-1) }
    if r.1 then
      { st1 with
        isStalled := set1 st1.isStalled destCore true
        pendingOperations := set1 st1.pendingOperations destCore 1 }
    else st1
  else
    { st with
      writebackCount := set1 st.writebackCount destCore (st.writebackCount destCore + 1)
      isStalled := set1 st.isStalled destCore false
      pendingOperations := set1 st.pendingOperations destCore (-1)
      ghostLog := st.ghostLog ++ [Event.writebackCompleted destCore] }

/-- Data-transfer phase of `processBusTransactions`. -/
def dataPhase (cfg : Config) (st : State) : State :=
  match st.dataTransferQueue with
  | [] => st
  | currentTransfer :: rest =>
    if currentTransfer.pendingCycles = 0 then
      let st1 := completeTransfer cfg st currentTransfer
      let st2 : State := { st1 with dataTransferQueue := st1.dataTransferQueue.tail }
      if st2.dataTransferQueue.isEmpty then { st2 with busOccupied := false } else st2
    else
      { st with
        dataTransferQueue :=
          { currentTransfer with pendingCycles := currentTransfer.pendingCycles - 1 } :: rest }

/-- The function `processBusTransactions`: one bus tick. -/
def processBusTransactions (cfg : Config) (st : State) : State :=
  dataPhase cfg (requestPhase cfg { st with busTickCounter := st.busTickCounter + 1 })

/-! ## `main.cpp`: the cycle loop of `runMulticoreSimulation` -/

/-- First loop of a cycle, body for one core: a running core executes the entry under its
cursor, or stops running when the cursor is at the end of its trace. -/
def offerCore (cfg : Config) (allTraces : Nat → List TraceEntry) (procId : Nat)
    (sim : SimState) : SimState :=
  if !sim.st.processorRunning procId then sim
  else
    match (allTraces procId)[sim.tracePosition procId]? with
    | some currentOp => { sim with st := executeMemoryOperation cfg sim.st currentOp procId }
    | none =>
      { sim with st := { sim.st with processorRunning := set1 sim.st.processorRunning procId false } }

/-- Third loop of a cycle, body for one core: a running core that is not stalled advances. -/
def advanceCore (allTraces : Nat → List TraceEntry) (updateIdx : Nat) (sim : SimState) :
    SimState :=
  if !sim.st.isStalled updateIdx && sim.st.processorRunning updateIdx then
    let pos := sim.tracePosition updateIdx + 1
    let st1 : State :=
      { sim.st with
        executedInstructions :=
          set1 sim.st.executedInstructions updateIdx (sim.st.executedInstructions updateIdx + 1) }
    { sim with
      tracePosition := set1 sim.tracePosition updateIdx pos
      st :=
        if pos = (allTraces updateIdx).length then
          { st1 with processorRunning := set1 st1.processorRunning updateIdx false }
        else st1 }
  else sim

/-- The check that ends a cycle: the new value of `simulationActive`. -/
def simulationActive (sim : SimState) : Bool :=
  (findFirst 4 (fun checkIdx =>
    sim.st.processorRunning checkIdx || sim.st.isStalled checkIdx
      || !sim.st.dataTransferQueue.isEmpty)).isSome

/-- One iteration of the `while (simulationActive)` loop, up to the end-of-cycle check. -/
def cycle (cfg : Config) (allTraces : Nat → List TraceEntry) (sim : SimState) : SimState :=
  let sim1 := forLoop 4 (offerCore cfg allTraces) sim
  let sim2 : SimState := { sim1 with st := processBusTransactions cfg sim1.st }
  let sim3 := forLoop 4 (advanceCore allTraces) sim2
  { sim3 with currentCycle := sim3.currentCycle + 1 }

/-- State at the end of the `n`-th cycle (the loop runs them while `simulationActive`). -/
def cycles (cfg : Config) (allTraces : Nat → List TraceEntry) : Nat → SimState
  | 0 => initialSim cfg
  | n + 1 => cycle cfg allTraces (cycles cfg allTraces n)

/-- The `while (simulationActive)` loop with a bound on the number of iterations:
`none` when the bound is reached before the loop ends. -/
def cycleLoop (cfg : Config) (allTraces : Nat → List TraceEntry) : Nat → SimState → Option SimState
  | 0, _ => none
  | fuel + 1, sim =>
    let sim1 := cycle cfg allTraces sim
    if simulationActive sim1 then cycleLoop cfg allTraces fuel sim1 else some sim1

/-- Counting loop after the cycle loop: `readCount` and `writeCount` of one core. -/
def countOps (trace : List TraceEntry) (o : Op) : Int :=
  ((trace.filter (fun e => e.op == o)).length : Int)

/-- The function `runMulticoreSimulation` up to the report: the cycle loop from the initial
state, then the read and write counts. -/
def runMulticoreSimulation (cfg : Config) (allTraces : Nat → List TraceEntry) (fuel : Nat) :
    Option SimState :=
  match cycleLoop cfg allTraces fuel (initialSim cfg) with
  | none => none
  | some sim =>
    some { sim with
      st := { sim.st with
        readCount := fun c => sim.st.readCount c + countOps (allTraces c) Op.R
        writeCount := fun c => sim.st.writeCount c + countOps (allTraces c) Op.W } }

/-- Reported hit count, `cacheHits = readCount + writeCount - missCount`. -/
def cacheHits (st : State) (c : Nat) : Int :=
  st.readCount c + st.writeCount c - st.missCount c

/-- Traces of a run given as four lists (`processorTrace0 .. processorTrace3`). -/
def tracesOf (t0 t1 t2 t3 : List TraceEntry) : Nat → List TraceEntry
  | 0 => t0
  | 1 => t1
  | 2 => t2
  | 3 => t3
  | _ => []

/-! ## Properties: definitions -/

/-- The list `l2` is `l` with `way` moved to the back: the other ways keep their relative order. -/
def MovedToBack (l l2 : List Nat) (way : Nat) : Prop :=
  l2 = l.filter (fun x => x != way) ++ [way]

/-- The LRU list is a permutation of `0 .. E-1`. -/
def LruPerm (cfg : Config) (l : List Nat) : Prop :=
  l.Perm (List.range cfg.associativity)

/-- Default geometry `s = 2, E = 2, b = 4` of the end-to-end scenarios. -/
def scenarioConfig : Config := ⟨2, 4, 2⟩

/-- Core `core` holds the block of `addr` in state `cs`: some way of the set of `addr` stores
the tag of `addr` and is in state `cs`. -/
def HoldsBlock (cfg : Config) (st : State) (core : Nat) (addr : Int) (cs : CoherenceState) :
    Prop :=
  ∃ w, w < cfg.associativity
    ∧ (st.tagArray core (setIndexOf cfg addr) w = toUnsigned (tagOf cfg addr)
      ∧ st.coherenceTable core (setIndexOf cfg addr) w = cs)

instance (cfg : Config) (st : State) (core : Nat) (addr : Int) (cs : CoherenceState) :
    Decidable (HoldsBlock cfg st core addr cs) := by
  unfold HoldsBlock
  infer_instance

/-- Core `core` holds the block of `addr` in no state other than `INVALID`. -/
def HoldsNoValidCopy (cfg : Config) (st : State) (core : Nat) (addr : Int) : Prop :=
  ∀ w, w < cfg.associativity →
    st.tagArray core (setIndexOf cfg addr) w = toUnsigned (tagOf cfg addr) →
    st.coherenceTable core (setIndexOf cfg addr) w = CoherenceState.INVALID

instance (cfg : Config) (st : State) (core : Nat) (addr : Int) :
    Decidable (HoldsNoValidCopy cfg st core addr) := by
  unfold HoldsNoValidCopy
  infer_instance

/-- Decidable test of a property on the result of a bounded run (`false` when the run did
not end within the bound). -/
def checkFinal (r : Option SimState) (p : SimState → Bool) : Bool :=
  match r with
  | some sim => p sim
  | none => false

/-- Scenario S3: core 0 writes `0x2000`, core 1 reads `0x2000`. -/
def scenarioS3 : Nat → List TraceEntry :=
  tracesOf [⟨Op.W, 0x2000⟩] [⟨Op.R, 0x2000⟩] [] []

/-- Scenario S4: core 0 reads then writes `0x3000`, core 1 reads `0x3000`. -/
def scenarioS4 : Nat → List TraceEntry :=
  tracesOf [⟨Op.R, 0x3000⟩, ⟨Op.W, 0x3000⟩] [⟨Op.R, 0x3000⟩] [] []

/-- Core 0 writes `0x2000` once, reads it, then reads two more blocks of the same set
(`0x2040`, `0x2080`); core 1 reads `0x2000`. -/
def scenarioStaleDirty : Nat → List TraceEntry :=
  tracesOf [⟨Op.W, 0x2000⟩, ⟨Op.R, 0x2000⟩, ⟨Op.R, 0x2040⟩, ⟨Op.R, 0x2080⟩] [⟨Op.R, 0x2000⟩] [] []

/-- Core 0 writes `0x2000`, core 1 writes `0x2000`. -/
def scenarioWriteWrite : Nat → List TraceEntry :=
  tracesOf [⟨Op.W, 0x2000⟩] [⟨Op.W, 0x2000⟩] [] []

/-- Number of events of the log that satisfy `p`. -/
def countEvents (p : Event → Bool) (st : State) : Int :=
  ((st.ghostLog.countP p : Nat) : Int)

/-! ### Evaluation devices

The functions of this section are not in the source.  They are identity functions written with
a `match`, placed between two cycles so that the kernel evaluates every field of the state once
per cycle instead of walking back through all earlier cycles.  `refreshSim_eq` proves that they
change nothing, and `cycleLoopFast_eq` that the loop with them is the cycle loop. -/

/-- Identity on `Bool`. -/
def forceBool (b : Bool) : Bool :=
  match b with
  | true => true
  | false => false

/-- Identity on `Nat`. -/
def forceNat (n : Nat) : Nat :=
  match n with
  | 0 => 0
  | m + 1 => m + 1

/-- Identity on `Int`. -/
def forceInt (x : Int) : Int :=
  match x with
  | Int.ofNat n => Int.ofNat (forceNat n)
  | Int.negSucc n => Int.negSucc (forceNat n)

/-- Identity on lists. -/
def forceList {α : Type} (l : List α) : List α :=
  match l with
  | [] => []
  | x :: xs => x :: xs

/-- Identity on coherence states. -/
def forceCoherence (cs : CoherenceState) : CoherenceState :=
  match cs with
  | CoherenceState.MODIFIED => CoherenceState.MODIFIED
  | CoherenceState.EXCLUSIVE => CoherenceState.EXCLUSIVE
  | CoherenceState.SHARED => CoherenceState.SHARED
  | CoherenceState.INVALID => CoherenceState.INVALID

/-- Identity on states, field by field. -/
def refreshState (st : State) : State where
  isStalled := fun c => forceBool (st.isStalled c)
  tagArray := fun c s w => forceInt (st.tagArray c s w)
  validBits := fun c s w => forceBool (st.validBits c s w)
  lruOrder := fun c s => forceList (st.lruOrder c s)
  dirtyFlags := fun c s w => forceBool (st.dirtyFlags c s w)
  coherenceTable := fun c s w => forceCoherence (st.coherenceTable c s w)
  pendingOperations := fun c => forceInt (st.pendingOperations c)
  busOccupied := forceBool st.busOccupied
  busTickCounter := forceInt st.busTickCounter
  operationCounter := forceInt st.operationCounter
  pendingRequests := forceList st.pendingRequests
  dataTransferQueue := forceList st.dataTransferQueue
  totalCycles := fun c => forceInt (st.totalCycles c)
  executedInstructions := fun c => forceInt (st.executedInstructions c)
  readCount := fun c => forceInt (st.readCount c)
  writeCount := fun c => forceInt (st.writeCount c)
  missCount := fun c => forceInt (st.missCount c)
  evictionCount := fun c => forceInt (st.evictionCount c)
  writebackCount := fun c => forceInt (st.writebackCount c)
  invalidationCount := fun c => forceInt (st.invalidationCount c)
  trafficBytes := fun c => forceInt (st.trafficBytes c)
  stalledCycles := fun c => forceInt (st.stalledCycles c)
  busTransactionCount := forceInt st.busTransactionCount
  totalBusTraffic := forceInt st.totalBusTraffic
  processorRunning := fun c => forceBool (st.processorRunning c)
  ghostLog := forceList st.ghostLog

/-- Identity on loop states. -/
def refreshSim (sim : SimState) : SimState where
  st := refreshState sim.st
  tracePosition := fun c => forceNat (sim.tracePosition c)
  currentCycle := forceInt sim.currentCycle

/-- The cycle loop `cycleLoop` with `refreshSim` applied after every cycle. -/
def cycleLoopFast (cfg : Config) (allTraces : Nat → List TraceEntry) :
    Nat → SimState → Option SimState
  | 0, _ => none
  | fuel + 1, sim =>
    let sim1 := refreshSim (cycle cfg allTraces sim)
    if simulationActive sim1 then cycleLoopFast cfg allTraces fuel sim1 else some sim1

/-- The cycles function `cycles` with `refreshSim` applied after every cycle. -/
def cyclesFast (cfg : Config) (allTraces : Nat → List TraceEntry) : Nat → SimState
  | 0 => initialSim cfg
  | n + 1 => refreshSim (cycle cfg allTraces (cyclesFast cfg allTraces n))

/-- The function `runMulticoreSimulation` with `cycleLoopFast` for the cycle loop. -/
def runFast (cfg : Config) (allTraces : Nat → List TraceEntry) (fuel : Nat) : Option SimState :=
  match cycleLoopFast cfg allTraces fuel (initialSim cfg) with
  | none => none
  | some sim =>
    some { sim with
      st := { sim.st with
        readCount := fun c => sim.st.readCount c + countOps (allTraces c) Op.R
        writeCount := fun c => sim.st.writeCount c + countOps (allTraces c) Op.W } }

/-- Bus-busy predicate: `busOccupied` is set exactly when the data-transfer queue is not
empty. -/
def BusBusyInv (st : State) : Prop :=
  st.busOccupied = true ↔ st.dataTransferQueue ≠ []

/-- Log event: a `READ_SHARED` request was serviced. -/
def isReadSharedServiced : Event → Bool
  | Event.readSharedServiced _ => true
  | _ => false

/-- Log event: a `READ_EXCLUSIVE` request was serviced. -/
def isReadExclusiveServiced : Event → Bool
  | Event.readExclusiveServiced _ => true
  | _ => false

/-- Log event: an `UPGRADE_REQUEST` was serviced with the requestor's line found `SHARED`. -/
def isUpgradeServiced : Event → Bool
  | Event.upgradeServiced _ => true
  | _ => false

/-- The request `q`, dequeued in state `st`, is serviced as a bus transaction: the bus is idle
and, for an `UPGRADE_REQUEST`, the requestor holds the line in `SHARED`. -/
def requestServiced (cfg : Config) (st : State) (q : BusTransaction) : Bool :=
  !st.busOccupied
    && (q.reqType != BusRequestType.UPGRADE_REQUEST
      || (findSharedWay cfg st q.requestorId (setIndexOf cfg q.memoryAddress)
            (tagOf cfg q.memoryAddress)).isSome)

/-- Bus-transaction accounting: `busTransactionCount` is the number of serviced `READ_SHARED`,
`READ_EXCLUSIVE` and successful `UPGRADE` requests recorded in the log. -/
def TxnAccounting (st : State) : Prop :=
  st.busTransactionCount
    = countEvents isReadSharedServiced st + countEvents isReadExclusiveServiced st
      + countEvents isUpgradeServiced st

/-- Miss accounting: the sum of `missCount` over the four cores is the number of serviced
`READ_SHARED` and `READ_EXCLUSIVE` requests recorded in the log. -/
def MissAccounting (st : State) : Prop :=
  st.missCount 0 + st.missCount 1 + st.missCount 2 + st.missCount 3
    = countEvents isReadSharedServiced st + countEvents isReadExclusiveServiced st

/-- Log event: a dirty line of core `c` was displaced by an eviction. -/
def isDirtyEvictionOf (c : Nat) : Event → Bool
  | Event.dirtyEviction k => k == c
  | _ => false

/-- Log event: a `MODIFIED` line of core `c` was hit by another core's snoop. -/
def isModifiedSnoopedOf (c : Nat) : Event → Bool
  | Event.modifiedSnooped k => k == c
  | _ => false

/-- Log event: a writeback transfer with destination `c` completed. -/
def isWritebackCompletedOf (c : Nat) : Event → Bool
  | Event.writebackCompleted k => k == c
  | _ => false

/-- The transfer is a writeback with destination `c`. -/
def isWritebackFor (c : Nat) (t : BusDataTransfer) : Bool :=
  t.isWritebackOp && t.destinationCore == c

/-- Number of writeback transfers with destination `c` in the data-transfer queue. -/
def queuedWritebacks (c : Nat) (st : State) : Int :=
  ((st.dataTransferQueue.countP (isWritebackFor c) : Nat) : Int)

/-- Writeback accounting for core `c`: every dirty eviction and every snoop of a `MODIFIED` line
of `c` is a writeback that is either completed (counted in `writebackCount`) or still queued,
and `writebackCount` is the number of completed writeback transfers. -/
def WritebackAccounting (st : State) (c : Nat) : Prop :=
  countEvents (isDirtyEvictionOf c) st + countEvents (isModifiedSnoopedOf c) st
      = st.writebackCount c + queuedWritebacks c st
    ∧ st.writebackCount c = countEvents (isWritebackCompletedOf c) st

/-- The loop `while (simulationActive)` has ended in `sim`: no core is running, no core is
stalled and the data-transfer queue is empty. -/
def Terminated (sim : SimState) : Prop :=
  simulationActive sim = false

/-- The data phase entered in state `st` completes a writeback transfer with destination `c`:
the head of the queue has no cycle left and is such a transfer. -/
def completesWritebackFor (c : Nat) (st : State) : Bool :=
  match st.dataTransferQueue with
  | [] => false
  | t :: _ => t.pendingCycles == 0 && isWritebackFor c t

/-- Pending implies stalled: every core with a pending operation is stalled. -/
def PendingStalled (st : State) : Prop :=
  ∀ c, st.pendingOperations c ≠ -1 → st.isStalled c = true

/-- The requestor of `q` holds the line of `q` in state `SHARED` (the search of the
`UPGRADE_REQUEST` service succeeds). -/
def upgradeLineFound (cfg : Config) (st : State) (q : BusTransaction) : Prop :=
  (findSharedWay cfg st q.requestorId (setIndexOf cfg q.memoryAddress)
    (tagOf cfg q.memoryAddress)).isSome = true

/-- Some transfer of the data-transfer queue has destination `c`. -/
def hasTransferFor (c : Nat) (st : State) : Prop :=
  ∃ t ∈ st.dataTransferQueue, t.destinationCore = c

/-- Miss bound of core `c` between two cycles: the cursor is within the trace, and
`missCount[c]` is at most the number of retired entries, plus one while a transfer for `c` is
queued and `c` is running with an entry under its cursor. -/
def MissBound (tr : Nat → List TraceEntry) (sim : SimState) (c : Nat) : Prop :=
  sim.tracePosition c ≤ (tr c).length
    ∧ (sim.st.missCount c ≤ (sim.tracePosition c : Int)
      ∨ (sim.st.missCount c ≤ (sim.tracePosition c : Int) + 1
          ∧ hasTransferFor c sim.st
          ∧ sim.st.processorRunning c = true
          ∧ sim.tracePosition c < (tr c).length))

/-- Miss bound of core `c` between the bus tick and the cursor update: as `MissBound`, where
the extra miss may also belong to an entry that is about to be retired (the core is not
stalled). -/
def MissBoundMid (tr : Nat → List TraceEntry) (sim : SimState) (c : Nat) : Prop :=
  sim.tracePosition c ≤ (tr c).length
    ∧ (sim.st.missCount c ≤ (sim.tracePosition c : Int)
      ∨ (sim.st.missCount c ≤ (sim.tracePosition c : Int) + 1
          ∧ (hasTransferFor c sim.st ∨ sim.st.isStalled c = false)
          ∧ sim.st.processorRunning c = true
          ∧ sim.tracePosition c < (tr c).length))

/-- Single-writer predicate on the lines of cores `0 .. 3` and ways `0 .. E-1`: two distinct
lines of one set that are not `INVALID` and store the same tag are in different cores, and
both are `SHARED`.  So a tag held `MODIFIED` or `EXCLUSIVE` is held by no other line. -/
def CohInv (cfg : Config) (st : State) : Prop :=
  ∀ c c2 s w w2, c < 4 → c2 < 4 → w < cfg.associativity → w2 < cfg.associativity →
    (c ≠ c2 ∨ w ≠ w2) →
    st.coherenceTable c s w ≠ CoherenceState.INVALID →
    st.coherenceTable c2 s w2 ≠ CoherenceState.INVALID →
    st.tagArray c s w = st.tagArray c2 s w2 →
    c ≠ c2 ∧ st.coherenceTable c s w = CoherenceState.SHARED

/-- Step that keeps every tag and, on every line, keeps the state, invalidates the line,
downgrades a valid line to `SHARED`, or takes it from `EXCLUSIVE` to `MODIFIED`. -/
def CohStep (st st2 : State) : Prop :=
  st2.tagArray = st.tagArray
    ∧ ∀ c s w,
        st2.coherenceTable c s w = st.coherenceTable c s w
        ∨ st2.coherenceTable c s w = CoherenceState.INVALID
        ∨ (st2.coherenceTable c s w = CoherenceState.SHARED
            ∧ st.coherenceTable c s w ≠ CoherenceState.INVALID)
        ∨ (st.coherenceTable c s w = CoherenceState.EXCLUSIVE
            ∧ st2.coherenceTable c s w = CoherenceState.MODIFIED)

/-- Core `d` holds no valid copy of the tag in the set, on the ways `0 .. E-1`. -/
def NoCopy (cfg : Config) (st : State) (d s : Nat) (tag : Int) : Prop :=
  ∀ w, w < cfg.associativity → holdsLine st d s tag w = false

/-- No core of `0 .. 3` other than `d` holds a valid copy of the tag in the set. -/
def NoOtherCopy (cfg : Config) (st : State) (d s : Nat) (tag : Int) : Prop :=
  ∀ c, c < 4 → c ≠ d → ∀ w, w < cfg.associativity → holdsLine st c s tag w = false

/-- Every valid copy of the tag in a core of `0 .. 3` other than `d` is `SHARED`. -/
def OtherCopiesShared (cfg : Config) (st : State) (d s : Nat) (tag : Int) : Prop :=
  ∀ c, c < 4 → c ≠ d → ∀ w, w < cfg.associativity → holdsLine st c s tag w = true →
    st.coherenceTable c s w = CoherenceState.SHARED

/-- The transfer allocates a line when it completes: it is neither a writeback nor the
completion signal of an upgrade. -/
def isFill (t : BusDataTransfer) : Bool :=
  !t.isWritebackOp && (t.isWriteOp || !t.isInvalidation)

/-- What a queued fill relies on: its destination holds no copy of the block; no other core
holds one when the fill is a write fill, and the copies of the other cores are `SHARED` when
it is a read fill. -/
def FillSafe (cfg : Config) (st : State) (t : BusDataTransfer) : Prop :=
  NoCopy cfg st t.destinationCore (setIndexOf cfg t.targetAddress) (tagOf cfg t.targetAddress)
    ∧ (if t.isWriteOp = true then
        NoOtherCopy cfg st t.destinationCore (setIndexOf cfg t.targetAddress)
          (tagOf cfg t.targetAddress)
      else
        OtherCopiesShared cfg st t.destinationCore (setIndexOf cfg t.targetAddress)
          (tagOf cfg t.targetAddress))

/-- At most one fill is queued, and every queued fill is safe. -/
def FillsOk (cfg : Config) (st : State) : Prop :=
  st.dataTransferQueue.countP isFill ≤ 1
    ∧ ∀ t ∈ st.dataTransferQueue, isFill t = true → FillSafe cfg st t

/-- The requestor of a queued `READ_SHARED` or `READ_EXCLUSIVE` request holds no copy of the
block. -/
def RequestsOk (cfg : Config) (st : State) (q : List BusTransaction) : Prop :=
  ∀ r ∈ q, r.reqType ≠ BusRequestType.UPGRADE_REQUEST →
    NoCopy cfg st r.requestorId (setIndexOf cfg r.memoryAddress) (tagOf cfg r.memoryAddress)

/-- Invariant of the coherence protocol. -/
def ProtocolInv (cfg : Config) (st : State) : Prop :=
  CohInv cfg st ∧ BusBusyInv st ∧ FillsOk cfg st

/-- Core `core` holds a line of set `s` with stored tag `tag` in state `cs`, on one of the
ways `0 .. E-1`. -/
def HoldsLineIn (cfg : Config) (st : State) (core s : Nat) (tag : Int) (cs : CoherenceState) :
    Prop :=
  ∃ w, w < cfg.associativity ∧ (st.tagArray core s w = tag ∧ st.coherenceTable core s w = cs)

instance (cfg : Config) (st : State) (core s : Nat) (tag : Int) (cs : CoherenceState) :
    Decidable (HoldsLineIn cfg st core s tag cs) := by
  unfold HoldsLineIn
  infer_instance

/-- Scenario S5: the four cores write `0xABCD`. -/
def scenarioS5 : Nat → List TraceEntry :=
  tracesOf [⟨Op.W, 0xABCD⟩] [⟨Op.W, 0xABCD⟩] [⟨Op.W, 0xABCD⟩] [⟨Op.W, 0xABCD⟩]

/-- Scenario S2: core 0 and core 1 read `0x1000`. -/
def scenarioS2 : Nat → List TraceEntry :=
  tracesOf [⟨Op.R, 0x1000⟩] [⟨Op.R, 0x1000⟩] [] []

/-- Core 0 reads `0x3000` twice, then `0x2000`; core 1 writes `0x2000`, then reads `0x1000`.
Core 1's write is serviced while core 0 hits, and core 0's read of `0x2000` is serviced in
the cycle in which core 1 issues its read of `0x1000`. -/
def scenarioSkippedMiss : Nat → List TraceEntry :=
  tracesOf [⟨Op.R, 0x3000⟩, ⟨Op.R, 0x3000⟩, ⟨Op.R, 0x2000⟩]
    [⟨Op.W, 0x2000⟩, ⟨Op.R, 0x1000⟩] [] []

/-- Direct-mapped geometry `s = 2, E = 1, b = 4`. -/
def directMappedConfig : Config := ⟨2, 4, 1⟩

/-- Single read of core 0 on the direct-mapped geometry. -/
def scenarioDirectMapped : Nat → List TraceEntry :=
  tracesOf [⟨Op.R, 0x1000⟩] [] [] []

/-- Outcome `r = (way, triggeredWriteback, state)` of a miss handler called on the state `st` of
a direct-mapped cache: way 0 is chosen and receives the tag, the LRU list is `[0]` before and
after, and the eviction is counted unless way 0 was `INVALID`. -/
def DirectMappedFill (st : State) (core set : Nat) (tag : Int) (r : Nat × Bool × State) : Prop :=
  r.1 = 0
    ∧ r.2.2.tagArray core set 0 = toUnsigned tag
    ∧ st.lruOrder core set = [0]
    ∧ r.2.2.lruOrder core set = [0]
    ∧ r.2.2.evictionCount core
        = st.evictionCount core
          + (if st.coherenceTable core set 0 = CoherenceState.INVALID then 0 else 1)

/-- Outcome `r = (way, triggeredWriteback, state)` of a miss handler called on the state `st` with
the flag `tw`: the lowest `INVALID` way is chosen if there is one, without a writeback; otherwise
the front of the LRU list is chosen, and a writeback is queued and flagged exactly when that way
is dirty.  The chosen way receives the tag. -/
def VictimChoice (cfg : Config) (st : State) (core set : Nat) (tag : Int) (tw : Bool)
    (r : Nat × Bool × State) : Prop :=
  (∀ w, w < cfg.associativity → st.coherenceTable core set w = CoherenceState.INVALID →
      (∀ j, j < w → st.coherenceTable core set j ≠ CoherenceState.INVALID) →
      r.1 = w ∧ r.2.1 = tw ∧ r.2.2.dataTransferQueue = st.dataTransferQueue)
    ∧ ((∀ w, w < cfg.associativity → st.coherenceTable core set w ≠ CoherenceState.INVALID) →
        (st.lruOrder core set).head? = some r.1
        ∧ (st.dirtyFlags core set r.1 = true →
            r.2.1 = true
            ∧ r.2.2.dataTransferQueue
                = st.dataTransferQueue
                  ++ [⟨evictedAddrOf cfg (st.tagArray core set r.1) set, core,
                        false, true, false, 100⟩])
        ∧ (st.dirtyFlags core set r.1 = false →
            r.2.1 = tw ∧ r.2.2.dataTransferQueue = st.dataTransferQueue))
    ∧ r.1 < cfg.associativity
    ∧ r.2.2.tagArray core set r.1 = toUnsigned tag

/-- Single-core run: the traces of cores 1, 2 and 3 are empty. -/
def SingleCore (tr : Nat → List TraceEntry) : Prop :=
  tr 1 = [] ∧ tr 2 = [] ∧ tr 3 = []

/-- Invariant of the single-core runs: the lines of the cores other than core 0 are `INVALID`,
core 0 holds no `SHARED` line, every queued transfer is for core 0, and no invalidation has been
counted. -/
def SingleInv (st : State) : Prop :=
  (∀ c, c ≠ 0 → ∀ s w, st.coherenceTable c s w = CoherenceState.INVALID)
    ∧ (∀ s w, st.coherenceTable 0 s w ≠ CoherenceState.SHARED)
    ∧ (∀ t ∈ st.dataTransferQueue, t.destinationCore = 0)
    ∧ (∀ c, st.invalidationCount c = 0)

/-- State in which the data phase of cycle `n + 1` starts: the first loop and the request phase
of the cycle have run. -/
def dataPhaseEntry (cfg : Config) (tr : Nat → List TraceEntry) (n : Nat) : State :=
  requestPhase cfg
    { (forLoop 4 (offerCore cfg tr) (cycles cfg tr n)).st with
      busTickCounter := (forLoop 4 (offerCore cfg tr) (cycles cfg tr n)).st.busTickCounter + 1 }

/-- Request of a single-core run: a read or write miss of core 0. -/
def SingleRequest (r : BusTransaction) : Prop :=
  r.requestorId = 0 ∧ r.reqType ≠ BusRequestType.UPGRADE_REQUEST

/-- Single-core run with one write: core 0 writes `0x1000`. -/
def scenarioSingleWrite : Nat → List TraceEntry :=
  tracesOf [⟨Op.W, 0x1000⟩] [] [] []

/-- What the first loop of a cycle does for one core while the bus stays busy: nothing for a core
that is not running; a core with a pending operation only counts the cycle; a core whose access
misses, or hits a line it may not write, issues its request again. -/
inductive WaitKind where
  | idle
  | pending
  | miss (reqType : BusRequestType) (addr : Int)
  | upgrade (way : Nat) (addr : Int)
  deriving DecidableEq, Repr

/-- Kind of the next step of core `c`, or `none` when the core would make progress (a hit, or
the end of its trace) or is in a state the waiting cycles do not cover. -/
def classifyCore (cfg : Config) (tr : Nat → List TraceEntry) (sim : SimState) (c : Nat) :
    Option WaitKind :=
  if !sim.st.processorRunning c then some WaitKind.idle
  else
    match (tr c)[sim.tracePosition c]? with
    | none => none
    | some e =>
      if sim.st.pendingOperations c ≠ -1 then
        if sim.st.isStalled c then some WaitKind.pending else none
      else
        match e.op with
        | Op.R =>
          match lookupWay cfg sim.st c (setIndexOf cfg e.addr) (tagOf cfg e.addr) with
          | some _ => none
          | none => some (WaitKind.miss BusRequestType.READ_SHARED e.addr)
        | Op.W =>
          match lookupWay cfg sim.st c (setIndexOf cfg e.addr) (tagOf cfg e.addr) with
          | some w =>
            if sim.st.coherenceTable c (setIndexOf cfg e.addr) w = CoherenceState.EXCLUSIVE
                ∨ sim.st.coherenceTable c (setIndexOf cfg e.addr) w = CoherenceState.MODIFIED
            then none
            else some (WaitKind.upgrade w e.addr)
          | none => some (WaitKind.miss BusRequestType.READ_EXCLUSIVE e.addr)

/-- Effect of the first loop on the globals for a core of the given kind. -/
def offerWait (cfg : Config) (k : WaitKind) (c : Nat) (st : State) : State :=
  match k with
  | WaitKind.idle => st
  | WaitKind.pending =>
    { st with
      operationCounter := st.operationCounter + 1
      totalCycles := set1 st.totalCycles c (st.totalCycles c + 1) }
  | WaitKind.miss reqType addr =>
    { st with
      operationCounter := st.operationCounter + 1
      pendingRequests := st.pendingRequests ++ [⟨c, addr, reqType⟩]
      isStalled := set1 st.isStalled c true }
  | WaitKind.upgrade way addr =>
    { st with
      operationCounter := st.operationCounter + 1
      pendingRequests := st.pendingRequests ++ [⟨c, addr, BusRequestType.UPGRADE_REQUEST⟩]
      lruOrder := set2 st.lruOrder c (setIndexOf cfg addr)
        (touchLru (st.lruOrder c (setIndexOf cfg addr)) way) }

/-- Kinds of the four cores as a function of the core. -/
def kindsOf (k0 k1 k2 k3 : WaitKind) : Nat → WaitKind
  | 0 => k0
  | 1 => k1
  | 2 => k2
  | _ => k3

/-- First loop and bus tick of a cycle during which every core waits. -/
def waitTick (cfg : Config) (kinds : Nat → WaitKind) (st : State) : State :=
  processBusTransactions cfg (forLoop 4 (fun c st1 => offerWait cfg (kinds c) c st1) st)

/-- A cycle during which the bus stays busy and no core makes progress: the first loop acts
by `offerWait`, the third loop does nothing. -/
def cycleWait (cfg : Config) (kinds : Nat → WaitKind) (sim : SimState) : SimState :=
  { sim with
    st := waitTick cfg kinds sim.st
    currentCycle := sim.currentCycle + 1 }

/-- The function `cycleWait` iterated. -/
def waitN (cfg : Config) (kinds : Nat → WaitKind) : Nat → SimState → SimState
  | 0, sim => sim
  | n + 1, sim => waitN cfg kinds n (cycleWait cfg kinds sim)

/-- The function `cycle` iterated. -/
def cycleN (cfg : Config) (tr : Nat → List TraceEntry) : Nat → SimState → SimState
  | 0, sim => sim
  | n + 1, sim => cycleN cfg tr n (cycle cfg tr sim)

/-- The state is one in which the bus stays busy for the next cycles and every core waits:
the kinds of the cores and the number of cycles left to the head transfer. -/
def waitPlan (cfg : Config) (tr : Nat → List TraceEntry) (sim : SimState) :
    Option ((Nat → WaitKind) × Nat) :=
  if sim.st.busOccupied && sim.st.pendingRequests.isEmpty then
    match sim.st.dataTransferQueue with
    | [] => none
    | t :: _ =>
      if 0 < t.pendingCycles then
        match classifyCore cfg tr sim 0, classifyCore cfg tr sim 1, classifyCore cfg tr sim 2,
            classifyCore cfg tr sim 3 with
        | some k0, some k1, some k2, some k3 =>
          some (kindsOf k0 k1 k2 k3, t.pendingCycles.toNat)
        | _, _, _, _ => none
      else none
  else none

/-- The cycle loop, evaluated with the waiting cycles taken in one step.  The first argument
bounds the number of steps of the evaluation, the second is the bound of `cycleLoop`. -/
def cycleLoopWait (cfg : Config) (tr : Nat → List TraceEntry) :
    Nat → Nat → SimState → Option SimState
  | 0, _, _ => none
  | gas + 1, fuel, sim =>
    match waitPlan cfg tr sim with
    | some (kinds, p) =>
      if p ≤ fuel then cycleLoopWait cfg tr gas (fuel - p) (refreshSim (waitN cfg kinds p sim))
      else none
    | none =>
      match fuel with
      | 0 => none
      | fuel2 + 1 =>
        let sim1 := refreshSim (cycle cfg tr sim)
        if simulationActive sim1 then cycleLoopWait cfg tr gas fuel2 sim1 else some sim1

/-- The state `n` cycles after `sim`, evaluated with the waiting cycles taken in one step.  The
first argument bounds the number of steps of the evaluation. -/
def cyclesWait (cfg : Config) (tr : Nat → List TraceEntry) :
    Nat → Nat → SimState → Option SimState
  | 0, _, _ => none
  | gas + 1, n, sim =>
    match n with
    | 0 => some sim
    | n2 + 1 =>
      match waitPlan cfg tr sim with
      | some (kinds, p) =>
        if p ≤ n2 + 1 then
          cyclesWait cfg tr gas (n2 + 1 - p) (refreshSim (waitN cfg kinds p sim))
        else some (refreshSim (waitN cfg kinds (n2 + 1) sim))
      | none => cyclesWait cfg tr gas n2 (refreshSim (cycle cfg tr sim))

/-- The function `runMulticoreSimulation` with `cycleLoopWait` for the cycle loop. -/
def runWait (cfg : Config) (tr : Nat → List TraceEntry) (gas fuel : Nat) : Option SimState :=
  match cycleLoopWait cfg tr gas fuel (initialSim cfg) with
  | none => none
  | some sim =>
    some { sim with
      st := { sim.st with
        readCount := fun c => sim.st.readCount c + countOps (tr c) Op.R
        writeCount := fun c => sim.st.writeCount c + countOps (tr c) Op.W } }

/-- Fields that the waiting cycles leave unchanged, and the stall flags that they may only
set. -/
def WaitFrame (st st2 : State) : Prop :=
  st2.processorRunning = st.processorRunning
    ∧ st2.pendingOperations = st.pendingOperations
    ∧ st2.coherenceTable = st.coherenceTable
    ∧ st2.tagArray = st.tagArray
    ∧ st2.busOccupied = st.busOccupied
    ∧ ∀ c, st.isStalled c = true → st2.isStalled c = true

/-- The conditions under which the next `p` cycles are waiting cycles: the bus is busy, the
head transfer has `p ≥ 1` cycles left, no request is queued, and core `c` is of kind
`kinds c`. -/
def WaitOk (cfg : Config) (tr : Nat → List TraceEntry) (kinds : Nat → WaitKind)
    (sim : SimState) (p : Nat) : Prop :=
  sim.st.busOccupied = true
    ∧ sim.st.pendingRequests = []
    ∧ (∃ t rest, sim.st.dataTransferQueue = t :: rest ∧ t.pendingCycles = (p : Int))
    ∧ 0 < p
    ∧ ∀ c, c < 4 → classifyCore cfg tr sim c = some (kinds c)

/-- The access `e` of core `c` hits: some way of its set holds the tag in a state that allows
the access (any valid state for a read, `EXCLUSIVE` or `MODIFIED` for a write). -/
def Hits (cfg : Config) (st : State) (c : Nat) (e : TraceEntry) : Prop :=
  ∃ w, w < cfg.associativity
    ∧ st.coherenceTable c (setIndexOf cfg e.addr) w ≠ CoherenceState.INVALID
    ∧ st.tagArray c (setIndexOf cfg e.addr) w = toUnsigned (tagOf cfg e.addr)
    ∧ (e.op = Op.R
      ∨ st.coherenceTable c (setIndexOf cfg e.addr) w = CoherenceState.EXCLUSIVE
      ∨ st.coherenceTable c (setIndexOf cfg e.addr) w = CoherenceState.MODIFIED)

/-- Core `c` is running and the entry under its cursor does not hit: the core needs the bus. -/
def WaitsForBus (cfg : Config) (tr : Nat → List TraceEntry) (sim : SimState) (c : Nat) : Prop :=
  sim.st.processorRunning c = true
    ∧ ∃ e, (tr c)[sim.tracePosition c]? = some e ∧ ¬ Hits cfg sim.st c e

/-- Every stalled core has a transfer queued for it or needs the bus. -/
def StallJustified (cfg : Config) (tr : Nat → List TraceEntry) (sim : SimState) : Prop :=
  ∀ c, c < 4 → sim.st.isStalled c = true →
    hasTransferFor c sim.st ∨ WaitsForBus cfg tr sim c

/-- Every core with a pending operation has a transfer queued for it. -/
def PendingHasTransfer (st : State) : Prop :=
  ∀ c, st.pendingOperations c ≠ -1 → hasTransferFor c st

/-- No queued transfer has a negative number of cycles left. -/
def LatenciesOk (st : State) : Prop :=
  ∀ t ∈ st.dataTransferQueue, 0 ≤ t.pendingCycles

/-- Relation between the state `st0` before and `st` after a step that only appends transfers:
the appended transfers have no negative latency, and every core that the step has stalled or
given a pending operation has a transfer queued. -/
def Justified (st0 st : State) : Prop :=
  (∃ extra, st.dataTransferQueue = st0.dataTransferQueue ++ extra
      ∧ ∀ t ∈ extra, 0 ≤ t.pendingCycles)
    ∧ (∀ c, st.isStalled c = true → st0.isStalled c = true ∨ hasTransferFor c st)
    ∧ (∀ c, st.pendingOperations c ≠ -1 →
        st0.pendingOperations c ≠ -1 ∨ hasTransferFor c st)

/-- Weight of a queued transfer in the termination measure: the cycles it has left, one for
the cycle that completes it, and for a fill the weight of the writeback that its completion
may queue. -/
def transferWeight (t : BusDataTransfer) : Nat :=
  t.pendingCycles.toNat + 1 + (if isFill t = true then 102 else 0)

/-- Weight of the data-transfer queue. -/
def queueWeight (st : State) : Nat :=
  (st.dataTransferQueue.map transferWeight).sum

/-- State part of the termination invariant: the protocol invariant, no negative latency, and a
queued transfer for every pending operation. -/
def TermBase (cfg : Config) (st : State) : Prop :=
  ProtocolInv cfg st ∧ LatenciesOk st ∧ PendingHasTransfer st

/-- Termination invariant between two cycles. -/
def TermInv (cfg : Config) (tr : Nat → List TraceEntry) (sim : SimState) : Prop :=
  TermBase cfg sim.st ∧ sim.st.pendingRequests = [] ∧ StallJustified cfg tr sim

/-- Termination invariant after the first loop has offered the cores `0 .. i-1`: every queued
request comes from a core that needs the bus, every stalled core has a transfer queued or
needs the bus, with its request queued if it has been offered, and the cursor of every offered
core that still runs is inside its trace. -/
def TermOffered (cfg : Config) (tr : Nat → List TraceEntry) (i : Nat) (sim : SimState) : Prop :=
  TermBase cfg sim.st
    ∧ RequestsOk cfg sim.st sim.st.pendingRequests
    ∧ (∀ r ∈ sim.st.pendingRequests, r.reqType = BusRequestType.UPGRADE_REQUEST →
        upgradeLineFound cfg sim.st r)
    ∧ (∀ r ∈ sim.st.pendingRequests, r.requestorId < 4 ∧ WaitsForBus cfg tr sim r.requestorId)
    ∧ (∀ c, c < 4 → sim.st.isStalled c = true →
        hasTransferFor c sim.st
        ∨ (WaitsForBus cfg tr sim c
          ∧ (c < i → ∃ r ∈ sim.st.pendingRequests, r.requestorId = c)))
    ∧ (∀ c, c < i → sim.st.processorRunning c = true →
        sim.tracePosition c < (tr c).length)

/-- Termination invariant after the bus tick and during the third loop. -/
def TermTicked (cfg : Config) (tr : Nat → List TraceEntry) (sim : SimState) : Prop :=
  TermInv cfg tr sim
    ∧ ∀ c, c < 4 → sim.st.processorRunning c = true → sim.tracePosition c < (tr c).length

instance (c : Nat) (st : State) : Decidable (hasTransferFor c st) := by
  unfold hasTransferFor
  infer_instance

/-- Work left to core `c`: the entries not yet retired, and one while the core is running. -/
def remaining (tr : Nat → List TraceEntry) (sim : SimState) (c : Nat) : Nat :=
  (tr c).length - sim.tracePosition c + (if sim.st.processorRunning c = true then 1 else 0)

/-- First component of the termination measure: the work left to the four cores. -/
def workLeft (tr : Nat → List TraceEntry) (sim : SimState) : Nat :=
  remaining tr sim 0 + remaining tr sim 1 + remaining tr sim 2 + remaining tr sim 3

/-- Core `c` is running and no transfer is queued for it. -/
def unserved (sim : SimState) (c : Nat) : Nat :=
  if sim.st.processorRunning c = true ∧ ¬ hasTransferFor c sim.st then 1 else 0

/-- Second component of the termination measure: the running cores without a queued transfer. -/
def unservedCount (sim : SimState) : Nat :=
  unserved sim 0 + unserved sim 1 + unserved sim 2 + unserved sim 3

/-- Lexicographic order on the termination measure `(workLeft, unservedCount, queueWeight)`. -/
def MeasureLt (tr : Nat → List TraceEntry) (sim2 sim : SimState) : Prop :=
  workLeft tr sim2 < workLeft tr sim
    ∨ (workLeft tr sim2 = workLeft tr sim
      ∧ (unservedCount sim2 < unservedCount sim
        ∨ (unservedCount sim2 = unservedCount sim
          ∧ queueWeight sim2.st < queueWeight sim.st)))

/-- Block number of an address, `A >> b`. -/
def blockOf (cfg : Config) (addr : Int) : Int := addr >>> cfg.numBlockBits

/-- The entries of the four traces, core after core. -/
def allEntries (tr : Nat → List TraceEntry) : List TraceEntry := tr 0 ++ tr 1 ++ tr 2 ++ tr 3

/-- The addresses referenced by the four traces lie in pairwise distinct blocks. -/
def DistinctBlocks (cfg : Config) (tr : Nat → List TraceEntry) : Prop :=
  ((allEntries tr).map (fun e => blockOf cfg e.addr)).Nodup

/-- Every entry of the four traces is a read. -/
def AllReads (tr : Nat → List TraceEntry) : Prop :=
  ∀ e ∈ allEntries tr, e.op = Op.R

/-- Every address of the four traces is an `int`, as `convertHexToInt` returns it. -/
def IntAddresses (tr : Nat → List TraceEntry) : Prop :=
  ∀ e ∈ allEntries tr, -2147483648 ≤ e.addr ∧ e.addr < 2147483648

instance (cfg : Config) (tr : Nat → List TraceEntry) : Decidable (DistinctBlocks cfg tr) := by
  unfold DistinctBlocks
  infer_instance

instance (tr : Nat → List TraceEntry) : Decidable (AllReads tr) := by
  unfold AllReads
  infer_instance

instance (tr : Nat → List TraceEntry) : Decidable (IntAddresses tr) := by
  unfold IntAddresses
  infer_instance

/-- Index of the first entry of core `c` in `allEntries`. -/
def entryOffset (tr : Nat → List TraceEntry) (c : Nat) : Nat :=
  forLoop c (fun k n => n + (tr k).length) 0

/-- Two entries of the traces that a cache cannot tell apart (same set index, same stored tag)
are the same entry. -/
def LineDistinct (cfg : Config) (tr : Nat → List TraceEntry) : Prop :=
  ∀ (c1 c2 i1 i2 : Nat) (e1 e2 : TraceEntry), c1 < 4 → c2 < 4 → (tr c1)[i1]? = some e1 → (tr c2)[i2]? = some e2 →
    setIndexOf cfg e1.addr = setIndexOf cfg e2.addr →
    toUnsigned (tagOf cfg e1.addr) = toUnsigned (tagOf cfg e2.addr) → c1 = c2 ∧ i1 = i2

/-- During the third loop, from core `i` on: `1` for a core that is about to retire its entry
(it runs and is not stalled), `0` otherwise. -/
def advancing (i : Nat) (sim : SimState) (c : Nat) : Nat :=
  if i ≤ c ∧ c < 4 ∧ sim.st.isStalled c = false ∧ sim.st.processorRunning c = true then 1 else 0

/-- Number of cores `c` with a queued transfer, as `0` or `1`. -/
def transferCount (c : Nat) (st : State) : Nat :=
  if hasTransferFor c st then 1 else 0

/-- Every valid line holds the block of an entry that its core has fetched: an entry before the
cursor, or the entry under the cursor when the core is about to retire it. -/
def LinesBelow (cfg : Config) (tr : Nat → List TraceEntry) (i : Nat) (sim : SimState) : Prop :=
  ∀ c s w, sim.st.coherenceTable c s w ≠ CoherenceState.INVALID →
    c < 4 ∧ ∃ j e, j < sim.tracePosition c + advancing i sim c
      ∧ (tr c)[j]? = some e ∧ setIndexOf cfg e.addr = s
      ∧ sim.st.tagArray c s w = toUnsigned (tagOf cfg e.addr)

/-- The data-transfer queue of a run of reads of distinct blocks: at most one transfer, a read
fill for the entry under the cursor of its destination, which is running and stalled. -/
def ReadQueueOk (tr : Nat → List TraceEntry) (sim : SimState) : Prop :=
  sim.st.dataTransferQueue.length ≤ 1
    ∧ ∀ t ∈ sim.st.dataTransferQueue,
        t.isWriteOp = false ∧ t.isWritebackOp = false ∧ t.isInvalidation = false
        ∧ t.destinationCore < 4
        ∧ sim.st.isStalled t.destinationCore = true
        ∧ sim.st.processorRunning t.destinationCore = true
        ∧ ∃ e, (tr t.destinationCore)[sim.tracePosition t.destinationCore]? = some e
            ∧ e.addr = t.targetAddress

/-- The misses of core `c` are its retired entries, and the entry under its cursor once its
request has been serviced. -/
def MissesCounted (i : Nat) (sim : SimState) : Prop :=
  ∀ c, c < 4 → sim.st.missCount c
    = ((sim.tracePosition c + transferCount c sim.st + advancing i sim c : Nat) : Int)

/-- The cursor of a core is within its trace, and at its end when the core has stopped. -/
def CursorsOk (tr : Nat → List TraceEntry) (i : Nat) (sim : SimState) : Prop :=
  ∀ c, c < 4 → sim.tracePosition c + advancing i sim c ≤ (tr c).length
    ∧ (sim.st.processorRunning c = false → sim.tracePosition c = (tr c).length)

/-- Invariant of a run of reads of distinct blocks; `i` is the index of the third loop (`4`
outside of it). -/
def ReadInv (cfg : Config) (tr : Nat → List TraceEntry) (i : Nat) (sim : SimState) : Prop :=
  (∀ c s w, sim.st.dirtyFlags c s w = false)
    ∧ ReadQueueOk tr sim ∧ LinesBelow cfg tr i sim ∧ MissesCounted i sim ∧ CursorsOk tr i sim

/-- Every queued request is the `READ_SHARED` of a running core for the entry under its cursor. -/
def ReadRequestsOk (tr : Nat → List TraceEntry) (sim : SimState) : Prop :=
  ∀ r ∈ sim.st.pendingRequests,
    r.reqType = BusRequestType.READ_SHARED ∧ r.requestorId < 4
      ∧ sim.st.processorRunning r.requestorId = true
      ∧ ∃ e, (tr r.requestorId)[sim.tracePosition r.requestorId]? = some e
          ∧ e.addr = r.memoryAddress

/-- Invariant of a run of reads of distinct blocks after the first loop has offered the cores
`0 .. i-1`: every offered core that runs is stalled. -/
def ReadOffered (cfg : Config) (tr : Nat → List TraceEntry) (i : Nat) (sim : SimState) : Prop :=
  ReadInv cfg tr 4 sim ∧ ReadRequestsOk tr sim
    ∧ ∀ c, c < i → sim.st.processorRunning c = true → sim.st.isStalled c = true

/-- Reads of four distinct blocks: two by core 0 (in the same set), one by core 1, one by
core 2. -/
def scenarioDistinctReads : Nat → List TraceEntry :=
  tracesOf [⟨Op.R, 0x1000⟩, ⟨Op.R, 0x1040⟩] [⟨Op.R, 0x2000⟩] [⟨Op.R, 0x3010⟩] []

/-- Parameters of scenario S6: the geometry, the operation of the first access, and the three
addresses. -/
structure S6 where
  cfg : Config
  o : Op
  a0 : Int
  a1 : Int
  a2 : Int

/-- Address of the access number `p` of scenario S6. -/
def s6Addr (x : S6) (p : Nat) : Int :=
  match p with
  | 0 => x.a0
  | 1 => x.a1
  | _ => x.a2

/-- Operation of the access number `p` of scenario S6. -/
def s6Op (x : S6) (p : Nat) : Op :=
  match p with
  | 0 => x.o
  | _ => Op.R

/-- Traces of scenario S6: core 0 accesses `a0`, then reads `a1` and `a2`; the other cores have
empty traces. -/
def scenarioS6 (x : S6) : Nat → List TraceEntry :=
  tracesOf [⟨x.o, x.a0⟩, ⟨Op.R, x.a1⟩, ⟨Op.R, x.a2⟩] [] [] []

/-- Stored tag of the access number `p`. -/
def s6Tag (x : S6) (p : Nat) : Int := toUnsigned (tagOf x.cfg (s6Addr x p))

/-- Hypotheses of scenario S6: two ways per set, the three addresses are `int` values that decode
to the same set, with pairwise distinct tags. -/
def S6Hyp (x : S6) : Prop :=
  x.cfg.associativity = 2
    ∧ (∀ p, -2147483648 ≤ s6Addr x p ∧ s6Addr x p < 2147483648)
    ∧ (∀ p, setIndexOf x.cfg (s6Addr x p) = setIndexOf x.cfg x.a0)
    ∧ tagOf x.cfg x.a0 ≠ tagOf x.cfg x.a1
    ∧ tagOf x.cfg x.a0 ≠ tagOf x.cfg x.a2
    ∧ tagOf x.cfg x.a1 ≠ tagOf x.cfg x.a2

/-- Request that the access number `p` issues when it misses. -/
def s6Request (x : S6) (p : Nat) : BusTransaction :=
  ⟨0, s6Addr x p,
    if s6Op x p = Op.R then BusRequestType.READ_SHARED else BusRequestType.READ_EXCLUSIVE⟩

/-- The set of the three addresses in core 0 after `F` fills, and the lines of the other
cores: way 0 holds the first block, then the third one; way 1 holds the second block; the first
block is dirty while it is held if it was written; the LRU list alternates; the third fill is
the only eviction. -/
def S6Lines (x : S6) (F : Nat) (st : State) : Prop :=
  (st.coherenceTable 0 (setIndexOf x.cfg x.a0) 0 = CoherenceState.INVALID ↔ F = 0)
    ∧ (1 ≤ F → st.tagArray 0 (setIndexOf x.cfg x.a0) 0 = if F = 3 then s6Tag x 2 else s6Tag x 0)
    ∧ (st.dirtyFlags 0 (setIndexOf x.cfg x.a0) 0 = true ↔ ((F = 1 ∨ F = 2) ∧ x.o = Op.W))
    ∧ (st.coherenceTable 0 (setIndexOf x.cfg x.a0) 1 = CoherenceState.INVALID ↔ F ≤ 1)
    ∧ (2 ≤ F → st.tagArray 0 (setIndexOf x.cfg x.a0) 1 = s6Tag x 1)
    ∧ st.dirtyFlags 0 (setIndexOf x.cfg x.a0) 1 = false
    ∧ st.lruOrder 0 (setIndexOf x.cfg x.a0) = (if F % 2 = 1 then [1, 0] else [0, 1])
    ∧ st.evictionCount 0 = (if F = 3 then 1 else 0)
    ∧ (∀ c, c ≠ 0 → ∀ s w, st.coherenceTable c s w = CoherenceState.INVALID)

/-- State of core 0 in scenario S6: the lines after `F` fills, the cursor, the queue, and the
flags and counters of core 0. -/
def S6Core (x : S6) (F pos : Nat) (q : List BusDataTransfer) (run stl : Bool)
    (pend wbc : Int) (sim : SimState) : Prop :=
  S6Lines x F sim.st
    ∧ sim.tracePosition 0 = pos
    ∧ sim.st.dataTransferQueue = q
    ∧ sim.st.processorRunning 0 = run
    ∧ sim.st.isStalled 0 = stl
    ∧ sim.st.pendingOperations 0 = pend
    ∧ sim.st.writebackCount 0 = wbc

/-- Stages of a run of scenario S6: core 0 is about to offer the access `p`; it has offered it;
the fill of the access `p` is queued; the writeback of the first block is queued; the fill of
the access `p` (or the writeback) has completed and core 0 is about to retire the access; the
trace is consumed. -/
inductive S6Kind where
  | idle (p : Nat)
  | offered (p : Nat)
  | fill (p : Nat)
  | writeback
  | released (p : Nat)
  | done

/-- The state is in the stage `k` of scenario S6. -/
def S6View (x : S6) (k : S6Kind) (sim : SimState) : Prop :=
  match k with
  | S6Kind.idle p => p < 3 ∧ S6Core x p p [] true false (-1) 0 sim
  | S6Kind.offered p => p < 3 ∧ S6Core x p p [] true true (-1) 0 sim
  | S6Kind.fill p =>
    p < 3 ∧ ∃ pc, S6Core x p p [⟨s6Addr x p, 0, decide (s6Op x p = Op.W), false, false, pc⟩]
      true true (s6Addr x p) 0 sim
  | S6Kind.writeback =>
    x.o = Op.W ∧ ∃ a pc, S6Core x 3 2 [⟨a, 0, false, true, false, pc⟩] true true 1 0 sim
  | S6Kind.released p =>
    p < 3 ∧ S6Core x (p + 1) p [] true false (-1) (if p = 2 ∧ x.o = Op.W then 1 else 0) sim
  | S6Kind.done => S6Core x 3 3 [] false false (-1) (if x.o = Op.W then 1 else 0) sim

/-- Requests that may be queued after the first loop in the stage `k`. -/
def S6Requests (x : S6) (k : S6Kind) (reqs : List BusTransaction) : Prop :=
  match k with
  | S6Kind.offered p => reqs = [s6Request x p]
  | S6Kind.fill p => reqs = [] ∨ reqs = [s6Request x p]
  | _ => reqs = []

/-- Stages in which a cycle may start. -/
def S6Kind.between : S6Kind → Prop
  | S6Kind.idle _ => True
  | S6Kind.fill _ => True
  | S6Kind.writeback => True
  | S6Kind.done => True
  | _ => False

/-- Stages after the first loop. -/
def S6Kind.afterOffers : S6Kind → Prop
  | S6Kind.offered _ => True
  | S6Kind.fill _ => True
  | S6Kind.writeback => True
  | S6Kind.done => True
  | _ => False

/-- Stages after the bus tick. -/
def S6Kind.afterTick : S6Kind → Prop
  | S6Kind.fill _ => True
  | S6Kind.writeback => True
  | S6Kind.released _ => True
  | S6Kind.done => True
  | _ => False

/-- The cores `1 .. i-1` have stopped. -/
def OthersStopped (i : Nat) (sim : SimState) : Prop :=
  ∀ c, 1 ≤ c → c < i → sim.st.processorRunning c = false

/-- Invariant of scenario S6 between two cycles. -/
def S6Between (x : S6) (sim : SimState) : Prop :=
  ∃ k, S6Kind.between k ∧ S6View x k sim

/-- Invariant of scenario S6 in the first loop, before the iteration `i`. -/
def S6Offered (x : S6) (i : Nat) (sim : SimState) : Prop :=
  (i = 0 ∧ sim.st.pendingRequests = [] ∧ S6Between x sim)
    ∨ (1 ≤ i ∧ OthersStopped i sim
      ∧ ∃ k, S6Kind.afterOffers k ∧ S6View x k sim ∧ S6Requests x k sim.st.pendingRequests)

/-- Invariant of scenario S6 after the bus tick. -/
def S6Ticked (x : S6) (sim : SimState) : Prop :=
  OthersStopped 4 sim ∧ ∃ k, S6Kind.afterTick k ∧ S6View x k sim

/-- Invariant of scenario S6 in the third loop, before the iteration `i`. -/
def S6Advanced (x : S6) (i : Nat) (sim : SimState) : Prop :=
  (i = 0 ∧ S6Ticked x sim) ∨ (1 ≤ i ∧ OthersStopped 4 sim ∧ S6Between x sim)

/-- Outcome of scenario S6 for core 0: one eviction, `wb` writebacks, the block of `A` is no
longer held (it was the evicted one), and the blocks of `B` and `C` are held. -/
def S6Outcome (cfg : Config) (A B C : Int) (wb : Int) (sim : SimState) : Prop :=
  sim.st.evictionCount 0 = 1
    ∧ sim.st.writebackCount 0 = wb
    ∧ HoldsNoValidCopy cfg sim.st 0 A
    ∧ (∃ cs, cs ≠ CoherenceState.INVALID ∧ HoldsBlock cfg sim.st 0 B cs)
    ∧ (∃ cs, cs ≠ CoherenceState.INVALID ∧ HoldsBlock cfg sim.st 0 C cs)

/-! ### Contracts of the access engine -/

/-- Concrete input: the initial state of the default geometry in which way 0 of set 0 of core
`c` holds the block of address `0x1000` in state `cs`. -/
def lineState (c : Nat) (cs : CoherenceState) : State :=
  { initialState scenarioConfig with
    tagArray :=
      set3 (initialState scenarioConfig).tagArray c 0 0 (toUnsigned (tagOf scenarioConfig 0x1000))
    coherenceTable := set3 (initialState scenarioConfig).coherenceTable c 0 0 cs }

/-- Concrete input: the initial state of the default geometry in which core `c` has the pending
address `0x1000`. -/
def pendingState (c : Nat) : State :=
  { initialState scenarioConfig with
    pendingOperations := set1 (initialState scenarioConfig).pendingOperations c 0x1000 }

/-- Effect `st2` of a call of `executeMemoryOperation` on `st` for a core with a pending
operation: nothing is enqueued, no tag, coherence state, dirty flag, LRU list or stalled flag
changes, and `totalCycles[core]` is one more.  The last conjunct gives the whole state: apart from
`totalCycles[core]` only the call counter `operationCounter` of `cache.cpp`, which the program
increments at every call and never reads, has changed. -/
def SkippedAccess (st : State) (core : Nat) (st2 : State) : Prop :=
  st2.pendingRequests = st.pendingRequests
    ∧ st2.dataTransferQueue = st.dataTransferQueue
    ∧ st2.tagArray = st.tagArray
    ∧ st2.coherenceTable = st.coherenceTable
    ∧ st2.dirtyFlags = st.dirtyFlags
    ∧ st2.lruOrder = st.lruOrder
    ∧ st2.isStalled = st.isStalled
    ∧ st2.totalCycles core = st.totalCycles core + 1
    ∧ (∀ k, k ≠ core → st2.totalCycles k = st.totalCycles k)
    ∧ st2 = { st with
        operationCounter := st.operationCounter + 1
        totalCycles := set1 st.totalCycles core (st.totalCycles core + 1) }

/-- Effect `st2` of a call of `executeMemoryOperation` on `st` for the entry `e` of a core with
no pending operation, by operation and by the result of the tag search among the ways that are
not `INVALID`: the request enqueued (if any) and the stalled flag.  The call never changes
`missCount`, a tag, or a line, dirty flag or LRU list of another core. -/
def RequestClassified (cfg : Config) (st : State) (e : TraceEntry) (core : Nat)
    (st2 : State) : Prop :=
  let s := setIndexOf cfg e.addr
  let tag := tagOf cfg e.addr
  (st2.pendingRequests = st.pendingRequests
      ∨ ∃ k, st2.pendingRequests = st.pendingRequests ++ [⟨core, e.addr, k⟩])
    ∧ (e.op = Op.R → lookupWay cfg st core s tag = none →
        st2.pendingRequests
            = st.pendingRequests ++ [⟨core, e.addr, BusRequestType.READ_SHARED⟩]
          ∧ st2.isStalled = set1 st.isStalled core true)
    ∧ (e.op = Op.W → lookupWay cfg st core s tag = none →
        st2.pendingRequests
            = st.pendingRequests ++ [⟨core, e.addr, BusRequestType.READ_EXCLUSIVE⟩]
          ∧ st2.isStalled = set1 st.isStalled core true)
    ∧ (e.op = Op.W → ∀ w, lookupWay cfg st core s tag = some w →
        st.coherenceTable core s w = CoherenceState.SHARED →
        st2.pendingRequests
            = st.pendingRequests ++ [⟨core, e.addr, BusRequestType.UPGRADE_REQUEST⟩]
          ∧ st2.isStalled = st.isStalled)
    ∧ (e.op = Op.W → ∀ w, lookupWay cfg st core s tag = some w →
        (st.coherenceTable core s w = CoherenceState.MODIFIED
          ∨ st.coherenceTable core s w = CoherenceState.EXCLUSIVE) →
        st2.pendingRequests = st.pendingRequests ∧ st2.isStalled = st.isStalled)
    ∧ (e.op = Op.R → ∀ w, lookupWay cfg st core s tag = some w →
        st2.pendingRequests = st.pendingRequests ∧ st2.isStalled = st.isStalled)
    ∧ (∀ w, lookupWay cfg st core s tag = some w →
        w < cfg.associativity
          ∧ st.tagArray core s w = toUnsigned tag
          ∧ (st.coherenceTable core s w = CoherenceState.MODIFIED
            ∨ st.coherenceTable core s w = CoherenceState.EXCLUSIVE
            ∨ st.coherenceTable core s w = CoherenceState.SHARED))
    ∧ (lookupWay cfg st core s tag = none →
        ∀ w, w < cfg.associativity →
          st.coherenceTable core s w = CoherenceState.INVALID
            ∨ st.tagArray core s w ≠ toUnsigned tag)
    ∧ st2.missCount = st.missCount
    ∧ st2.tagArray = st.tagArray
    ∧ st2.dataTransferQueue = st.dataTransferQueue
    ∧ ∀ k, k ≠ core →
        st2.coherenceTable k = st.coherenceTable k
          ∧ st2.dirtyFlags k = st.dirtyFlags k
          ∧ st2.lruOrder k = st.lruOrder k
          ∧ st2.isStalled k = st.isStalled k

/-- Effect `st2` of a call of `executeMemoryOperation` on `st` that hits way `w` of set `s` of
the core without a bus request: the way moves to the back of the LRU list of the set; a write
also leaves the line `MODIFIED` and dirty.  Apart from the call counter `operationCounter`
nothing else changes. -/
def LocalHit (st : State) (core s w : Nat) (isWrite : Bool) (st2 : State) : Prop :=
  st2.lruOrder core s = (st.lruOrder core s).erase w ++ [w]
    ∧ (isWrite = true →
        st2.coherenceTable core s w = CoherenceState.MODIFIED ∧ st2.dirtyFlags core s w = true)
    ∧ st2.pendingRequests = st.pendingRequests
    ∧ st2.isStalled = st.isStalled
    ∧ st2
      = { st with
          operationCounter := st.operationCounter + 1
          lruOrder := set2 st.lruOrder core s ((st.lruOrder core s).erase w ++ [w])
          dirtyFlags := if isWrite then set3 st.dirtyFlags core s w true else st.dirtyFlags
          coherenceTable :=
            if isWrite then set3 st.coherenceTable core s w CoherenceState.MODIFIED
            else st.coherenceTable }

/-! ### Contracts of the request phase -/

/-- Concrete input: the initial state of the default geometry with the bus occupied by a
transfer for core 2 and two requests queued, of cores 0 and 1. -/
def busyState : State :=
  { initialState scenarioConfig with
    busOccupied := true
    dataTransferQueue := [⟨0x3000, 2, false, false, false, 50⟩]
    pendingRequests :=
      [⟨0, 0x1000, BusRequestType.READ_SHARED⟩, ⟨1, 0x2000, BusRequestType.READ_EXCLUSIVE⟩] }

/-- State `st2` reached by the request phase of a call of `processBusTransactions` entered in
the state `st` with the bus occupied: every queued request is dropped, which sets `isStalled` of
its requestor and adds one to `stalledCycles` of its requestor; no line, tag, dirty flag, LRU
list, pending address, miss, invalidation or transaction count changes and no transfer is
enqueued.  The last conjunct gives the whole state (`busTickCounter` is incremented on entry of
`processBusTransactions`; the history variable `ghostLog` is left out). -/
def BusyDrop (st st2 : State) : Prop :=
  (∀ r ∈ st.pendingRequests, st2.isStalled r.requestorId = true)
    ∧ (∀ c, (∀ r ∈ st.pendingRequests, r.requestorId ≠ c) → st2.isStalled c = st.isStalled c)
    ∧ (∀ c, st2.stalledCycles c
        = st.stalledCycles c + (st.pendingRequests.countP (fun r => r.requestorId == c) : Nat))
    ∧ st2.coherenceTable = st.coherenceTable
    ∧ st2.tagArray = st.tagArray
    ∧ st2.dirtyFlags = st.dirtyFlags
    ∧ st2.lruOrder = st.lruOrder
    ∧ st2.pendingOperations = st.pendingOperations
    ∧ st2.missCount = st.missCount
    ∧ st2.invalidationCount = st.invalidationCount
    ∧ st2.busTransactionCount = st.busTransactionCount
    ∧ st2.dataTransferQueue = st.dataTransferQueue
    ∧ st2.busOccupied = true
    ∧ st2.pendingRequests = []
    ∧ { st2 with ghostLog := st.ghostLog }
      = { st with
          busTickCounter := st.busTickCounter + 1
          pendingRequests := []
          isStalled := fun c =>
            st.isStalled c || st.pendingRequests.any (fun r => r.requestorId == c)
          stalledCycles := fun c =>
            st.stalledCycles c
              + (st.pendingRequests.countP (fun r => r.requestorId == c) : Nat) }

/-- No way of the requestor of `q` holds the line of `q` in state `SHARED`. -/
def NoSharedCopy (cfg : Config) (st : State) (q : BusTransaction) : Prop :=
  ∀ w, w < cfg.associativity →
    ¬ (st.tagArray q.requestorId (setIndexOf cfg q.memoryAddress) w
          = toUnsigned (tagOf cfg q.memoryAddress)
        ∧ st.coherenceTable q.requestorId (setIndexOf cfg q.memoryAddress) w
          = CoherenceState.SHARED)

/-- Effect `st2` on `st` of the body of the request loop for an `UPGRADE_REQUEST` `q` that is
dropped because the requestor holds no `SHARED` copy: the pending address of the requestor has
been set to the address of the request, and nothing else has changed (the history variable
`ghostLog` is left out). -/
def SilentDrop (st : State) (q : BusTransaction) (st2 : State) : Prop :=
  st2.pendingOperations q.requestorId = q.memoryAddress
    ∧ (∀ c, c ≠ q.requestorId → st2.pendingOperations c = st.pendingOperations c)
    ∧ st2.coherenceTable = st.coherenceTable
    ∧ st2.dirtyFlags = st.dirtyFlags
    ∧ st2.lruOrder = st.lruOrder
    ∧ st2.isStalled = st.isStalled
    ∧ st2.busOccupied = st.busOccupied
    ∧ st2.dataTransferQueue = st.dataTransferQueue
    ∧ { st2 with ghostLog := st.ghostLog }
      = { st with
          pendingOperations := set1 st.pendingOperations q.requestorId q.memoryAddress }

/-- Concrete input: the initial state of the default geometry with one request queued, an
`UPGRADE_REQUEST` of core 0 for address `0x1000`. -/
def droppedUpgradeState : State :=
  { initialState scenarioConfig with
    pendingRequests := [⟨0, 0x1000, BusRequestType.UPGRADE_REQUEST⟩] }

/-! ### Contracts of the services -/

/-- Effect `st2` on `st` of the service of the `READ_SHARED` request `q` with the bus idle.
Either no other core holds the line and a fill of latency 100 is queued, or the donor is the
lowest-indexed other core `d` that holds the line (way `w`, its first holding way): the state of
that way becomes `SHARED` and no other state changes, a fill of latency `2^(b-1)` is queued, and
exactly when the donor was `MODIFIED` a writeback of latency 100 for the donor is queued after
the fill and the donor is stalled with the pending address of the request.  The miss and the
transaction are counted and no line becomes `INVALID`. -/
def ReadSharedService (cfg : Config) (st : State) (q : BusTransaction) (st2 : State) : Prop :=
  let r := q.requestorId
  let addr := q.memoryAddress
  let s := setIndexOf cfg addr
  let tag := tagOf cfg addr
  st2.missCount = set1 st.missCount r (st.missCount r + 1)
    ∧ st2.busTransactionCount = st.busTransactionCount + 1
    ∧ st2.tagArray = st.tagArray
    ∧ (∀ c s2 w, st2.coherenceTable c s2 w = CoherenceState.INVALID →
        st.coherenceTable c s2 w = CoherenceState.INVALID)
    ∧ (((∀ c, c < 4 → c ≠ r → ∀ w, w < cfg.associativity → holdsLine st c s tag w = false)
        ∧ st2.coherenceTable = st.coherenceTable
        ∧ st2.dataTransferQueue
          = st.dataTransferQueue ++ [⟨addr, r, false, false, false, 100⟩]
        ∧ st2.isStalled = set1 st.isStalled r true
        ∧ st2.pendingOperations = set1 st.pendingOperations r addr)
      ∨ ∃ d w, d < 4 ∧ d ≠ r ∧ w < cfg.associativity ∧ holdsLine st d s tag w = true
          ∧ (∀ c, c < d → c ≠ r → ∀ w2, w2 < cfg.associativity →
              holdsLine st c s tag w2 = false)
          ∧ (∀ w2, w2 < w → holdsLine st d s tag w2 = false)
          ∧ st2.coherenceTable = set3 st.coherenceTable d s w CoherenceState.SHARED
          ∧ (st.coherenceTable d s w = CoherenceState.MODIFIED →
              st2.dataTransferQueue
                = st.dataTransferQueue
                  ++ [⟨addr, r, false, false, false, (2 : Int) ^ (cfg.numBlockBits - 1)⟩,
                      ⟨addr, d, false, true, false, 100⟩]
              ∧ st2.isStalled = set1 (set1 st.isStalled r true) d true
              ∧ st2.pendingOperations = set1 (set1 st.pendingOperations r addr) d addr)
          ∧ (st.coherenceTable d s w ≠ CoherenceState.MODIFIED →
              st2.dataTransferQueue
                = st.dataTransferQueue
                  ++ [⟨addr, r, false, false, false, (2 : Int) ^ (cfg.numBlockBits - 1)⟩]
              ∧ st2.isStalled = set1 st.isStalled r true
              ∧ st2.pendingOperations = set1 st.pendingOperations r addr))

/-- Invariant of the snoop loops of `READ_EXCLUSIVE` started in the state `st`, where `P c w`
says that way `w` of core `c` has been visited: the ways not visited have their state of `st`,
the flag `foundInOther` tells whether a visited way held the line, and the transfers queued so
far are the writebacks of the visited ways that held the line `MODIFIED`. -/
def ExclusiveSnoop (st : State) (addr : Int) (s : Nat) (tag : Int) (P : Nat → Nat → Prop)
    (acc : Bool × State) : Prop :=
  acc.2.tagArray = st.tagArray
    ∧ (∀ c w, ¬ P c w → acc.2.coherenceTable c s w = st.coherenceTable c s w)
    ∧ (acc.1 = true ↔ ∃ c w, P c w ∧ holdsLine st c s tag w = true)
    ∧ ∃ wbs, acc.2.dataTransferQueue = st.dataTransferQueue ++ wbs
        ∧ (∀ t ∈ wbs, ∃ c w, P c w ∧ holdsLine st c s tag w = true
            ∧ st.coherenceTable c s w = CoherenceState.MODIFIED
            ∧ t = ⟨addr, c, false, true, false, 100⟩)
        ∧ ∀ c w, P c w → holdsLine st c s tag w = true →
            st.coherenceTable c s w = CoherenceState.MODIFIED →
            (⟨addr, c, false, true, false, 100⟩ : BusDataTransfer) ∈ wbs

/-- Effect `st2` on `st` of the service of the `READ_EXCLUSIVE` request `q` with the bus idle:
no other core holds the line any more; `invalidationCount` of the requestor is one more when
some other core held the line and unchanged otherwise; the transfers queued are writebacks of
latency 100, one for each way of another core that held the line `MODIFIED`, followed by the
write fill of latency 100 of the requestor.  The miss and the transaction are counted. -/
def ReadExclusiveService (cfg : Config) (st : State) (q : BusTransaction) (st2 : State) : Prop :=
  let r := q.requestorId
  let addr := q.memoryAddress
  let s := setIndexOf cfg addr
  let tag := tagOf cfg addr
  (∀ c, c < 4 → c ≠ r → ∀ w, w < cfg.associativity → holdsLine st2 c s tag w = false)
    ∧ ((∃ c w, c < 4 ∧ c ≠ r ∧ w < cfg.associativity ∧ holdsLine st c s tag w = true) →
        st2.invalidationCount = set1 st.invalidationCount r (st.invalidationCount r + 1))
    ∧ ((∀ c, c < 4 → c ≠ r → ∀ w, w < cfg.associativity → holdsLine st c s tag w = false) →
        st2.invalidationCount = st.invalidationCount)
    ∧ (∃ wbs, st2.dataTransferQueue
          = st.dataTransferQueue ++ wbs ++ [⟨addr, r, true, false, false, 100⟩]
        ∧ (∀ t ∈ wbs, ∃ c w, c < 4 ∧ c ≠ r ∧ w < cfg.associativity
            ∧ holdsLine st c s tag w = true
            ∧ st.coherenceTable c s w = CoherenceState.MODIFIED
            ∧ t = ⟨addr, c, false, true, false, 100⟩)
        ∧ ∀ c w, c < 4 → c ≠ r → w < cfg.associativity → holdsLine st c s tag w = true →
            st.coherenceTable c s w = CoherenceState.MODIFIED →
            (⟨addr, c, false, true, false, 100⟩ : BusDataTransfer) ∈ wbs)
    ∧ st2.missCount = set1 st.missCount r (st.missCount r + 1)
    ∧ st2.busTransactionCount = st.busTransactionCount + 1
    ∧ st2.tagArray = st.tagArray
    ∧ st2.isStalled r = true

/-- The requestor of `q` holds the line of `q` in state `SHARED` in some way. -/
def HoldsSharedCopy (cfg : Config) (st : State) (q : BusTransaction) : Prop :=
  ∃ w, w < cfg.associativity
    ∧ st.tagArray q.requestorId (setIndexOf cfg q.memoryAddress) w
      = toUnsigned (tagOf cfg q.memoryAddress)
    ∧ st.coherenceTable q.requestorId (setIndexOf cfg q.memoryAddress) w
      = CoherenceState.SHARED

/-- State `st2` at the end of the call of `processBusTransactions` entered in `st` that serviced
the `UPGRADE_REQUEST` `q` of core `r`: a way of `r` that held the line `SHARED` holds it
`MODIFIED` and dirty, no other core holds the line, `invalidationCount[r]` and
`busTransactionCount` are one more, the completion transfer has been popped (empty queue, bus
idle), `r` is not stalled and has no pending address. -/
def UpgradeCompleted (cfg : Config) (st : State) (q : BusTransaction) (st2 : State) : Prop :=
  let r := q.requestorId
  let s := setIndexOf cfg q.memoryAddress
  let tag := tagOf cfg q.memoryAddress
  (∃ w, w < cfg.associativity
      ∧ st.tagArray r s w = toUnsigned tag
      ∧ st.coherenceTable r s w = CoherenceState.SHARED
      ∧ st2.tagArray r s w = toUnsigned tag
      ∧ st2.coherenceTable r s w = CoherenceState.MODIFIED
      ∧ st2.dirtyFlags r s w = true)
    ∧ (∀ c, c < 4 → c ≠ r → ∀ w, w < cfg.associativity → holdsLine st2 c s tag w = false)
    ∧ st2.invalidationCount r = st.invalidationCount r + 1
    ∧ st2.busTransactionCount = st.busTransactionCount + 1
    ∧ st2.dataTransferQueue = []
    ∧ st2.busOccupied = false
    ∧ st2.isStalled r = false
    ∧ st2.pendingOperations r = -1
    ∧ st2.pendingRequests = []

/-- Concrete input: core 0 holds the block of `0x1000` in state `SHARED`, as does core 1, and
the `UPGRADE_REQUEST` of core 0 for that block is queued, followed by a read miss of core 2. -/
def upgradeState : State :=
  { initialState scenarioConfig with
    tagArray := fun c s w =>
      if (c = 0 ∨ c = 1) ∧ s = 0 ∧ w = 0 then toUnsigned (tagOf scenarioConfig 0x1000) else 0
    coherenceTable := fun c s w =>
      if (c = 0 ∨ c = 1) ∧ s = 0 ∧ w = 0 then CoherenceState.SHARED else CoherenceState.INVALID
    pendingRequests :=
      [⟨0, 0x1000, BusRequestType.UPGRADE_REQUEST⟩, ⟨2, 0x2000, BusRequestType.READ_SHARED⟩] }

/-! ### Bus tick and cursor update -/

/-- Sum of `missCount` over the four cores. -/
def totalMisses (st : State) : Int :=
  st.missCount 0 + st.missCount 1 + st.missCount 2 + st.missCount 3

/-- State `st2` at the return of a call of `processBusTransactions` entered in `st`: at most one
request has been serviced (`busTransactionCount` is the same or one more; `missCount` is the
same or one more for a single core), at most one transfer, the head, has left the data-transfer
queue, nothing has been serviced when the bus was occupied on entry, and the request queue is
empty. -/
def BusTick (st st2 : State) : Prop :=
  (st2.busTransactionCount = st.busTransactionCount
      ∨ st2.busTransactionCount = st.busTransactionCount + 1)
    ∧ (st2.missCount = st.missCount
      ∨ ∃ r, st2.missCount = set1 st.missCount r (st.missCount r + 1))
    ∧ (totalMisses st2 = totalMisses st ∨ totalMisses st2 = totalMisses st + 1)
    ∧ (∃ kept extra, kept.length ≤ 1
        ∧ st2.dataTransferQueue = kept ++ st.dataTransferQueue.tail ++ extra)
    ∧ (st.busOccupied = true →
        st2.busTransactionCount = st.busTransactionCount
          ∧ st2.missCount = st.missCount
          ∧ st2.invalidationCount = st.invalidationCount)
    ∧ st2.pendingRequests = []

/-- State of the cycle loop after the first loop of a cycle and the bus tick, before the
cursor update. -/
def afterBusTick (cfg : Config) (allTraces : Nat → List TraceEntry) (sim : SimState) :
    SimState :=
  { forLoop 4 (offerCore cfg allTraces) sim with
    st := processBusTransactions cfg (forLoop 4 (offerCore cfg allTraces) sim).st }

/-- Cursor update of core `c` in a cycle that starts in `sim`, is in `mid` after the bus tick
and ends in `nxt`: the cursor and `executedInstructions[c]` are those of `sim` when `c` is
stalled after the bus tick or is not running, and one more otherwise, in which case `c` stops
running exactly when the cursor reaches the length of the trace; the cursor stays within the
trace. -/
def CursorAdvance (tr : Nat → List TraceEntry) (c : Nat) (sim mid nxt : SimState) : Prop :=
  mid.tracePosition c = sim.tracePosition c
    ∧ mid.st.executedInstructions c = sim.st.executedInstructions c
    ∧ (sim.st.processorRunning c = false → mid.st.processorRunning c = false)
    ∧ ((mid.st.isStalled c = true ∨ mid.st.processorRunning c = false) →
        nxt.tracePosition c = sim.tracePosition c
          ∧ nxt.st.executedInstructions c = sim.st.executedInstructions c
          ∧ nxt.st.processorRunning c = mid.st.processorRunning c)
    ∧ (mid.st.isStalled c = false → mid.st.processorRunning c = true →
        nxt.tracePosition c = sim.tracePosition c + 1
          ∧ nxt.st.executedInstructions c = sim.st.executedInstructions c + 1
          ∧ (nxt.st.processorRunning c = false ↔ nxt.tracePosition c = (tr c).length))
    ∧ sim.tracePosition c ≤ (tr c).length
    ∧ nxt.tracePosition c ≤ (tr c).length

/-! ### Retired references, address decomposition and transfer latency -/

/-- Invariant of the cycle loop on the retired counts: `executedInstructions[c]` is the cursor
of core `c`, and a core that has stopped running has its cursor at or past the end of its
trace. -/
def RetiredInv (tr : Nat → List TraceEntry) (sim : SimState) : Prop :=
  ∀ c, sim.st.executedInstructions c = (sim.tracePosition c : Int)
    ∧ (sim.st.processorRunning c = false → (tr c).length ≤ sim.tracePosition c)

/-- State returned by `runMulticoreSimulation`: every core of `0 .. 3` has retired as many
references as its trace has entries, its cursor is at the end of its trace, its reads and
writes add up to the same number, and so do the sums over the four cores. -/
def RetiredOnce (tr : Nat → List TraceEntry) (sim : SimState) : Prop :=
  (∀ c, c < 4 →
      sim.st.executedInstructions c = ((tr c).length : Int)
        ∧ sim.tracePosition c = (tr c).length
        ∧ sim.st.readCount c + sim.st.writeCount c = ((tr c).length : Int))
    ∧ sim.st.executedInstructions 0 + sim.st.executedInstructions 1
        + sim.st.executedInstructions 2 + sim.st.executedInstructions 3
      = (sim.st.readCount 0 + sim.st.writeCount 0) + (sim.st.readCount 1 + sim.st.writeCount 1)
        + (sim.st.readCount 2 + sim.st.writeCount 2) + (sim.st.readCount 3 + sim.st.writeCount 3)

/-- Round trip of the address decomposition for the address `a`: the set index is below `2^s`
and `a >> b = tag * 2^s + set_index`; an address has the same set index and tag as `a` exactly
when it lies in the same block; and the eviction address built from the stored tag and the set
index decodes to the same set index and tag and is `a` with its `b` offset bits cleared. -/
def AddressRoundTrip (cfg : Config) (a : Int) : Prop :=
  setIndexOf cfg a < 2 ^ cfg.numSetBits
    ∧ blockOf cfg a = tagOf cfg a * (2 : Int) ^ cfg.numSetBits + (setIndexOf cfg a : Int)
    ∧ (∀ a2 : Int,
        (setIndexOf cfg a2 = setIndexOf cfg a ∧ tagOf cfg a2 = tagOf cfg a)
          ↔ blockOf cfg a2 = blockOf cfg a)
    ∧ setIndexOf cfg (evictedAddrOf cfg (toUnsigned (tagOf cfg a)) (setIndexOf cfg a))
      = setIndexOf cfg a
    ∧ tagOf cfg (evictedAddrOf cfg (toUnsigned (tagOf cfg a)) (setIndexOf cfg a)) = tagOf cfg a
    ∧ evictedAddrOf cfg (toUnsigned (tagOf cfg a)) (setIndexOf cfg a)
      = a - a % (2 : Int) ^ cfg.numBlockBits

/-- Sequence of states in which `s (k + 1)` is reached from `s k` by one call of
`processBusTransactions`, possibly preceded and followed by steps that leave the data-transfer
queue alone (in a run: the accesses of the first loop before the call and the cursor update
after it). -/
def QueueTicks (cfg : Config) (s : Nat → State) : Prop :=
  ∀ k, ∃ st, st.dataTransferQueue = (s k).dataTransferQueue
    ∧ (s (k + 1)).dataTransferQueue = (processBusTransactions cfg st).dataTransferQueue

/-- Countdown of the head transfer `t`, whose `pendingCycles` is `n` in `s 0`: after each of
the next `n` calls it is still at the head with one cycle less, the transfers behind it being
unchanged (transfers may have been appended), and the call number `n + 1` removes it. -/
def TransferCountdown (s : Nat → State) (t : BusDataTransfer) (rest : List BusDataTransfer)
    (n : Nat) : Prop :=
  (∀ j, j ≤ n → ∃ extra, (s j).dataTransferQueue
      = { t with pendingCycles := (n : Int) - (j : Int) } :: (rest ++ extra))
    ∧ ∃ extra, (s (n + 1)).dataTransferQueue = rest ++ extra

/-- One call of `processBusTransactions` on a state whose queue is `t :: rest`, where `entry`
is the state in which its data phase starts: when `pendingCycles` of `t` is not `0` the data
phase only decrements it, by one, and changes nothing else; when it is `0` the data phase
applies the transfer (`completeTransfer`) and pops it, releasing the bus if the queue is then
empty. -/
def HeadTick (cfg : Config) : Prop :=
  ∀ (st : State) (t : BusDataTransfer) (rest : List BusDataTransfer),
    st.dataTransferQueue = t :: rest →
    ∃ extra entry,
      entry = requestPhase cfg { st with busTickCounter := st.busTickCounter + 1 }
        ∧ entry.dataTransferQueue = t :: (rest ++ extra)
        ∧ (t.pendingCycles ≠ 0 →
            processBusTransactions cfg st
              = { entry with
                  dataTransferQueue :=
                    { t with pendingCycles := t.pendingCycles - 1 } :: (rest ++ extra) })
        ∧ (t.pendingCycles = 0 →
            processBusTransactions cfg st
              = { completeTransfer cfg entry t with
                  dataTransferQueue := (completeTransfer cfg entry t).dataTransferQueue.tail
                  busOccupied :=
                    if (completeTransfer cfg entry t).dataTransferQueue.tail.isEmpty then false
                    else (completeTransfer cfg entry t).busOccupied })

/-! ### Causes of a writeback -/

/-- Every way of set `s` of core `p` is occupied: none is `INVALID`, so the search of the miss
handlers for an `INVALID` way fails and the LRU victim is evicted. -/
def setFull (cfg : Config) (st : State) (p s : Nat) : Bool :=
  (List.range cfg.associativity).all
    (fun w => st.coherenceTable p s w != CoherenceState.INVALID)

/-- A miss handler called for core `p` on set `s` displaces a dirty line: the set is full and
the way at the front of its LRU list, the victim, has its dirty flag set. -/
def displacesDirty (cfg : Config) (st : State) (p s : Nat) : Bool :=
  setFull cfg st p s && st.dirtyFlags p s ((st.lruOrder p s).headD 0)

/-- The data phase entered in `st` completes a fill of core `c` (the head transfer has no cycle
left and is a read fill or a write fill for `c`) whose miss handler displaces a dirty line. -/
def fillDisplacesDirty (cfg : Config) (st : State) (c : Nat) : Bool :=
  match st.dataTransferQueue with
  | [] => false
  | t :: _ =>
    t.pendingCycles == 0 && !t.isWritebackOp && (t.isWriteOp || !t.isInvalidation)
      && t.destinationCore == c
      && displacesDirty cfg st c (setIndexOf cfg t.targetAddress)

/-- Number of ways below `j` of set `s` of core `c` that hold the tag in state `MODIFIED`. -/
def modifiedWaysBelow (st : State) (c s : Nat) (tag : Int) (j : Nat) : Nat :=
  ((List.range j).filter
    (fun w => holdsLine st c s tag w
      && st.coherenceTable c s w == CoherenceState.MODIFIED)).length

/-- Number of `MODIFIED` lines of core `c` hit by the snoop of the request `q` dequeued in the
state `st`: none when the bus is occupied (the request is dropped) and for an
`UPGRADE_REQUEST`; for a `READ_SHARED`, one when the donor is core `c` and its line is
`MODIFIED`; for a `READ_EXCLUSIVE`, the number of ways of `c`, a core of `0 .. 3` other than the
requestor, that hold the line `MODIFIED`. -/
def snoopedModified (cfg : Config) (st : State) (q : BusTransaction) (c : Nat) : Nat :=
  if st.busOccupied then 0
  else
    match q.reqType with
    | BusRequestType.READ_SHARED =>
      match findOtherHolder cfg st q.requestorId (setIndexOf cfg q.memoryAddress)
          (tagOf cfg q.memoryAddress) with
      | some (d, w) =>
        if d = c ∧ st.coherenceTable d (setIndexOf cfg q.memoryAddress) w
            = CoherenceState.MODIFIED then 1 else 0
      | none => 0
    | BusRequestType.READ_EXCLUSIVE =>
      if c < 4 ∧ c ≠ q.requestorId then
        modifiedWaysBelow st c (setIndexOf cfg q.memoryAddress) (tagOf cfg q.memoryAddress)
          cfg.associativity
      else 0
    | BusRequestType.UPGRADE_REQUEST => 0

/-- Number of `MODIFIED` lines of core `c` hit by the snoops of the request loop run on the
requests `qs` from the state `st`: the sum of `snoopedModified` over the requests, each taken in
the state in which it is dequeued. -/
def requestLoopSnooped (cfg : Config) (c : Nat) : List BusTransaction → State → Nat
  | [], _ => 0
  | currentReq :: rest, st =>
    snoopedModified cfg { st with pendingRequests := rest } currentReq c
      + requestLoopSnooped cfg c rest
          (serviceRequest cfg { st with pendingRequests := rest } currentReq)

/-- Number of writebacks of core `c` caused by the call of `processBusTransactions` entered in
`st`: the `MODIFIED` lines of `c` hit by the snoops of its request phase, plus one when its data
phase completes a fill of `c` that displaces a dirty line. -/
def tickCauses (cfg : Config) (c : Nat) (st : State) : Nat :=
  requestLoopSnooped cfg c st.pendingRequests
      { st with busTickCounter := st.busTickCounter + 1 }
    + (if fillDisplacesDirty cfg
          (requestPhase cfg { st with busTickCounter := st.busTickCounter + 1 }) c
        then 1 else 0)

/-- Number of writebacks of core `c` caused in the first `n` cycles of the run: the sum of
`tickCauses` over the bus ticks of these cycles. -/
def runCauses (cfg : Config) (tr : Nat → List TraceEntry) (c : Nat) : Nat → Nat
  | 0 => 0
  | n + 1 =>
    runCauses cfg tr c n + tickCauses cfg c (forLoop 4 (offerCore cfg tr) (cycles cfg tr n)).st

/-! ## Lemmas and theorems -/

/-! ### Arrays and loops -/

@[simp] theorem set1_same {α : Type} (f : Nat → α) (i : Nat) (v : α) : set1 f i v i = v := by
  simp [set1]

theorem set1_of_ne {α : Type} (f : Nat → α) (i j : Nat) (v : α) (h : j ≠ i) :
    set1 f i v j = f j := by
  simp [set1, h]

theorem set1_apply {α : Type} (f : Nat → α) (i j : Nat) (v : α) :
    set1 f i v j = if j = i then v else f j := rfl

theorem set2_apply {α : Type} (f : Nat → Nat → α) (i j i2 j2 : Nat) (v : α) :
    set2 f i j v i2 j2 = if i2 = i ∧ j2 = j then v else f i2 j2 := rfl

theorem set3_apply {α : Type} (f : Nat → Nat → Nat → α) (i j k i2 j2 k2 : Nat) (v : α) :
    set3 f i j k v i2 j2 k2 = if i2 = i ∧ j2 = j ∧ k2 = k then v else f i2 j2 k2 := rfl

@[simp] theorem set2_same {α : Type} (f : Nat → Nat → α) (i j : Nat) (v : α) :
    set2 f i j v i j = v := by
  simp [set2]

@[simp] theorem set3_same {α : Type} (f : Nat → Nat → Nat → α) (i j k : Nat) (v : α) :
    set3 f i j k v i j k = v := by
  simp [set3]

/-- A property kept by every iteration of a loop holds after the loop. -/
theorem forLoop_preserves {σ : Type} (P : σ → Prop) (body : Nat → σ → σ) (n : Nat)
    (hbody : ∀ i s, i < n → P s → P (body i s)) (s : σ) (hs : P s) :
    P (forLoop n body s) := by
  induction n with
  | zero => exact hs
  | succ k ih =>
    simp only [forLoop]
    exact hbody k _ (Nat.lt_succ_self k)
      (ih (fun i s hi h => hbody i s (Nat.lt_succ_of_lt hi) h))

/-- Loop rule with an invariant indexed by the number of iterations done. -/
theorem forLoop_indexed {σ : Type} (Q : Nat → σ → Prop) (body : Nat → σ → σ) (n : Nat)
    (hbody : ∀ i s, i < n → Q i s → Q (i + 1) (body i s)) (s : σ) (hs : Q 0 s) :
    Q n (forLoop n body s) := by
  induction n with
  | zero => exact hs
  | succ k ih =>
    simp only [forLoop]
    exact hbody k _ (Nat.lt_succ_self k)
      (ih (fun i s hi h => hbody i s (Nat.lt_succ_of_lt hi) h))

theorem findFirst_some {n : Nat} {p : Nat → Bool} {i : Nat} (h : findFirst n p = some i) :
    i < n ∧ p i = true ∧ ∀ j, j < i → p j = false := by
  induction n with
  | zero => simp [findFirst] at h
  | succ k ih =>
    simp only [findFirst] at h
    cases hk : findFirst k p with
    | some j =>
      rw [hk] at h
      simp only [Option.some.injEq] at h
      subst h
      obtain ⟨h1, h2, h3⟩ := ih hk
      exact ⟨Nat.lt_succ_of_lt h1, h2, h3⟩
    | none =>
      rw [hk] at h
      by_cases hp : p k = true
      · simp only [hp, if_true, Option.some.injEq] at h
        subst h
        refine ⟨Nat.lt_succ_self _, hp, ?_⟩
        intro j hj
        have hnone : ∀ m, ∀ q : Nat → Bool, findFirst m q = none → ∀ j, j < m → q j = false := by
          intro m q
          induction m with
          | zero => intro _ j hj; exact absurd hj (Nat.not_lt_zero j)
          | succ m ihm =>
            intro hm j hj
            simp only [findFirst] at hm
            cases hm2 : findFirst m q with
            | some x => rw [hm2] at hm; simp at hm
            | none =>
              rw [hm2] at hm
              by_cases hq : q m = true
              · simp [hq] at hm
              · rcases Nat.lt_succ_iff_lt_or_eq.mp hj with h1 | h1
                · exact ihm hm2 j h1
                · subst h1; simpa using hq
        exact hnone k p hk j hj
      · simp [hp] at h

theorem findFirst_none {n : Nat} {p : Nat → Bool} (h : findFirst n p = none) :
    ∀ j, j < n → p j = false := by
  induction n with
  | zero => intro j hj; exact absurd hj (Nat.not_lt_zero j)
  | succ m ihm =>
    intro j hj
    simp only [findFirst] at h
    cases hm2 : findFirst m p with
    | some x => rw [hm2] at h; simp at h
    | none =>
      rw [hm2] at h
      by_cases hq : p m = true
      · simp [hq] at h
      · rcases Nat.lt_succ_iff_lt_or_eq.mp hj with h1 | h1
        · exact ihm hm2 j h1
        · subst h1; simpa using hq

theorem findFirst_isSome_of {n : Nat} {p : Nat → Bool} {i : Nat} (hi : i < n) (hp : p i = true) :
    (findFirst n p).isSome = true := by
  cases h : findFirst n p with
  | some j => rfl
  | none =>
    have := findFirst_none h i hi
    rw [hp] at this
    exact absurd this (by decide)

/-! ### LRU lists -/

theorem set2_of_ne {α : Type} (f : Nat → Nat → α) (i j i2 j2 : Nat) (v : α)
    (h : i2 ≠ i ∨ j2 ≠ j) : set2 f i j v i2 j2 = f i2 j2 := by
  simp only [set2_apply]
  rcases h with h | h
  · simp [h]
  · simp [h]

theorem initialLruList_eq (cfg : Config) : initialLruList cfg = List.range cfg.associativity := by
  unfold initialLruList
  induction cfg.associativity with
  | zero => rfl
  | succ n ih => simp only [forLoop, ih, List.range_succ]

theorem touchLru_movedToBack {cfg : Config} {l : List Nat} {way : Nat} (hl : LruPerm cfg l)
    (hw : way < cfg.associativity) :
    MovedToBack l (touchLru l way) way ∧ LruPerm cfg (touchLru l way) := by
  have hnd : l.Nodup := (List.Perm.nodup_iff hl).mpr (List.nodup_range _)
  have hmem : way ∈ l := (List.Perm.mem_iff hl).mpr (List.mem_range.mpr hw)
  refine ⟨?_, ?_⟩
  · unfold MovedToBack touchLru
    rw [List.Nodup.erase_eq_filter hnd]
  · unfold LruPerm touchLru
    exact ((List.perm_append_singleton way (l.erase way)).trans
      (List.perm_cons_erase hmem).symm).trans hl

theorem popFront_movedToBack {cfg : Config} {l : List Nat} (hE : 1 ≤ cfg.associativity)
    (hl : LruPerm cfg l) :
    l.headD 0 < cfg.associativity ∧ MovedToBack l (l.tail ++ [l.headD 0]) (l.headD 0)
      ∧ LruPerm cfg (l.tail ++ [l.headD 0]) := by
  have hnd : l.Nodup := (List.Perm.nodup_iff hl).mpr (List.nodup_range _)
  cases l with
  | nil =>
    have h0 := hl.length_eq
    simp at h0
    omega
  | cons h t =>
    have hmem : h ∈ List.range cfg.associativity := (List.Perm.mem_iff hl).mp (List.mem_cons_self h t)
    have hnot : h ∉ t := (List.nodup_cons.mp hnd).1
    refine ⟨List.mem_range.mp hmem, ?_, ?_⟩
    · unfold MovedToBack
      simp only [List.headD_cons, List.tail_cons, List.append_cancel_right_eq]
      have : List.filter (fun x => x != h) t = t := by
        rw [List.filter_eq_self]
        intro a ha
        simp only [bne_iff_ne, ne_eq]
        intro hah
        exact hnot (hah ▸ ha)
      simp [List.filter_cons, this]
    · unfold LruPerm
      simp only [List.headD_cons, List.tail_cons]
      exact (List.perm_append_singleton h t).trans hl

theorem findInvalidWay_lt {cfg : Config} {st : State} {c s w : Nat}
    (h : findInvalidWay cfg st c s = some w) : w < cfg.associativity :=
  (findFirst_some h).1

theorem lookupWay_lt {cfg : Config} {st : State} {c s w : Nat} {tag : Int}
    (h : lookupWay cfg st c s tag = some w) : w < cfg.associativity :=
  (findFirst_some h).1

/-- Effect of the victim choice followed by the metadata update on the LRU lists. -/
theorem selectVictim_lru (cfg : Config) (hE : 1 ≤ cfg.associativity) (ds : Bool) (st : State)
    (core set : Nat) (tw : Bool) (tag : Int) (dirty : Bool)
    (hl : LruPerm cfg (st.lruOrder core set)) :
    let r := selectVictim cfg ds st core set tw
    let st2 := installLine r.2.2 core set r.1 tag dirty
    r.1 < cfg.associativity
      ∧ MovedToBack (st.lruOrder core set) (st2.lruOrder core set) r.1
      ∧ LruPerm cfg (st2.lruOrder core set)
      ∧ ∀ c s, (c ≠ core ∨ s ≠ set) → st2.lruOrder c s = st.lruOrder c s := by
  intro r st2
  simp only [r, st2, selectVictim, installLine]
  cases hf : findInvalidWay cfg st core set with
  | none =>
    obtain ⟨h1, h2, h3⟩ := popFront_movedToBack hE hl
    by_cases hd : st.dirtyFlags core set ((st.lruOrder core set).headD 0) = true
    · simp only [hd, if_true, set2_same]
      refine ⟨h1, h2, h3, ?_⟩
      intro c s hcs
      simp only [set2_of_ne _ _ _ _ _ _ hcs]
    · rw [Bool.not_eq_true] at hd
      simp only [hd, Bool.false_eq_true, if_false, set2_same]
      refine ⟨h1, h2, h3, ?_⟩
      intro c s hcs
      simp only [set2_of_ne _ _ _ _ _ _ hcs]
  | some w =>
    have hw := findInvalidWay_lt hf
    obtain ⟨h2, h3⟩ := touchLru_movedToBack hl hw
    simp only [set2_same]
    refine ⟨hw, h2, h3, ?_⟩
    intro c s hcs
    simp only [set2_of_ne _ _ _ _ _ _ hcs]

/-- Effect of `executeMemoryOperation` on the LRU lists. -/
theorem executeMemoryOperation_lru (cfg : Config) (st : State) (e : TraceEntry) (core : Nat) :
    (∀ way, st.pendingOperations core = -1 →
        lookupWay cfg st core (setIndexOf cfg e.addr) (tagOf cfg e.addr) = some way →
        (executeMemoryOperation cfg st e core).lruOrder core (setIndexOf cfg e.addr)
          = touchLru (st.lruOrder core (setIndexOf cfg e.addr)) way)
    ∧ (∀ c s, (c ≠ core ∨ s ≠ setIndexOf cfg e.addr) →
        (executeMemoryOperation cfg st e core).lruOrder c s = st.lruOrder c s)
    ∧ (st.pendingOperations core ≠ -1
          ∨ lookupWay cfg st core (setIndexOf cfg e.addr) (tagOf cfg e.addr) = none →
        (executeMemoryOperation cfg st e core).lruOrder = st.lruOrder) := by
  have hlk : ∀ tag, lookupWay cfg { st with operationCounter := st.operationCounter + 1 } core
      (setIndexOf cfg e.addr) tag = lookupWay cfg st core (setIndexOf cfg e.addr) tag := fun _ => rfl
  refine ⟨?_, ?_, ?_⟩
  · intro way hp hw
    unfold executeMemoryOperation
    simp only [hp, ne_eq, not_true_eq_false, if_false, hlk, hw]
    cases e.op
    · simp only [set2_same]
    · simp only
      split_ifs <;> simp
  · intro c s hcs
    unfold executeMemoryOperation
    simp only [hlk]
    have hset : ∀ l : List Nat, set2 st.lruOrder core (setIndexOf cfg e.addr) l c s = st.lruOrder c s := by
      intro l
      exact set2_of_ne _ _ _ _ _ _ hcs
    by_cases hp : st.pendingOperations core = -1
    · simp only [hp, ne_eq, not_true_eq_false, if_false]
      cases e.op <;> cases lookupWay cfg st core (setIndexOf cfg e.addr) (tagOf cfg e.addr)
        <;> simp only [hset] <;> split_ifs <;> simp [hset]
    · simp [hp]
  · intro h
    unfold executeMemoryOperation
    simp only [hlk]
    by_cases hp : st.pendingOperations core = -1
    · rcases h with h | h
      · exact absurd hp h
      · simp only [hp, ne_eq, not_true_eq_false, if_false, h]
        cases e.op <;> rfl
    · simp [hp]


/-- **C3** (LRU permutation invariant).  For `E ≥ 1`: `CacheUnit::initialize` makes the LRU list
of every allocated set equal to `[0, 1, ..., E-1]`; an access that hits in
`executeMemoryOperation` (read hit, write hit on `MODIFIED`/`EXCLUSIVE`, write hit on `SHARED`:
the core has no pending operation and the tag search finds `way`) maps a list that is a
permutation of `0 .. E-1` to a permutation of `0 .. E-1` in which `way` is at the back and the
other ways keep their relative order, and leaves every other LRU list unchanged (all of them
when the core is pending or the access misses); `processReadMiss` and `processWriteMiss` return
a way `< E` and do the same with the way they install into. -/
theorem lru_permutation_invariant (cfg : Config) (hE : 1 ≤ cfg.associativity) :
    (∀ setIdx, setIdx < 2 ^ cfg.numSetBits →
        initializeLruOrder cfg setIdx = List.range cfg.associativity)
    ∧ (∀ (st : State) (e : TraceEntry) (core way : Nat),
        st.pendingOperations core = -1 →
        lookupWay cfg st core (setIndexOf cfg e.addr) (tagOf cfg e.addr) = some way →
        LruPerm cfg (st.lruOrder core (setIndexOf cfg e.addr)) →
        way < cfg.associativity
          ∧ MovedToBack (st.lruOrder core (setIndexOf cfg e.addr))
              ((executeMemoryOperation cfg st e core).lruOrder core (setIndexOf cfg e.addr)) way
          ∧ LruPerm cfg
              ((executeMemoryOperation cfg st e core).lruOrder core (setIndexOf cfg e.addr)))
    ∧ (∀ (st : State) (e : TraceEntry) (core c s : Nat),
        (c ≠ core ∨ s ≠ setIndexOf cfg e.addr) →
        (executeMemoryOperation cfg st e core).lruOrder c s = st.lruOrder c s)
    ∧ (∀ (st : State) (e : TraceEntry) (core : Nat),
        (st.pendingOperations core ≠ -1
          ∨ lookupWay cfg st core (setIndexOf cfg e.addr) (tagOf cfg e.addr) = none) →
        (executeMemoryOperation cfg st e core).lruOrder = st.lruOrder)
    ∧ (∀ (st : State) (core set : Nat) (tag : Int) (tw : Bool),
        LruPerm cfg (st.lruOrder core set) →
        (processReadMiss cfg st core set tag tw).1 < cfg.associativity
          ∧ MovedToBack (st.lruOrder core set)
              ((processReadMiss cfg st core set tag tw).2.2.lruOrder core set)
              (processReadMiss cfg st core set tag tw).1
          ∧ LruPerm cfg ((processReadMiss cfg st core set tag tw).2.2.lruOrder core set)
          ∧ ∀ c s, (c ≠ core ∨ s ≠ set) →
              (processReadMiss cfg st core set tag tw).2.2.lruOrder c s = st.lruOrder c s)
    ∧ (∀ (st : State) (core set : Nat) (tag : Int) (tw : Bool),
        LruPerm cfg (st.lruOrder core set) →
        (processWriteMiss cfg st core set tag tw).1 < cfg.associativity
          ∧ MovedToBack (st.lruOrder core set)
              ((processWriteMiss cfg st core set tag tw).2.2.lruOrder core set)
              (processWriteMiss cfg st core set tag tw).1
          ∧ LruPerm cfg ((processWriteMiss cfg st core set tag tw).2.2.lruOrder core set)
          ∧ ∀ c s, (c ≠ core ∨ s ≠ set) →
              (processWriteMiss cfg st core set tag tw).2.2.lruOrder c s = st.lruOrder c s) := by
  refine ⟨?_, ?_, ?_, ?_, ?_, ?_⟩
  · intro setIdx h
    simp [initializeLruOrder, h, initialLruList_eq]
  · intro st e core way hp hw hl
    have hlt := lookupWay_lt hw
    rw [(executeMemoryOperation_lru cfg st e core).1 way hp hw]
    exact ⟨hlt, touchLru_movedToBack hl hlt⟩
  · intro st e core c s h
    exact (executeMemoryOperation_lru cfg st e core).2.1 c s h
  · intro st e core h
    exact (executeMemoryOperation_lru cfg st e core).2.2 h
  · intro st core set tag tw hl
    exact selectVictim_lru cfg hE true st core set tw tag false hl
  · intro st core set tag tw hl
    exact selectVictim_lru cfg hE false st core set tw tag true hl

/-- Witness for `lru_permutation_invariant`: the default geometry, and a read fill into set 0
of core 0 from the initial state. -/
theorem lru_permutation_invariant_witness :
    1 ≤ scenarioConfig.associativity
    ∧ LruPerm scenarioConfig ((initialState scenarioConfig).lruOrder 0 0)
    ∧ MovedToBack ((initialState scenarioConfig).lruOrder 0 0)
        ((processReadMiss scenarioConfig (initialState scenarioConfig) 0 0 5 false).2.2.lruOrder 0 0)
        (processReadMiss scenarioConfig (initialState scenarioConfig) 0 0 5 false).1 :=
  ⟨by decide, List.Perm.refl _,
    ((lru_permutation_invariant scenarioConfig (by decide)).2.2.2.2.1
      (initialState scenarioConfig) 0 0 5 false (List.Perm.refl _)).2.1⟩

/-! ### Bounded runs -/

theorem checkFinal_elim {r : Option SimState} {p : SimState → Bool} (h : checkFinal r p = true) :
    ∃ sim, r = some sim ∧ p sim = true := by
  cases r with
  | none => simp [checkFinal] at h
  | some sim => exact ⟨sim, rfl, h⟩

/-- The result of the cycle loop does not depend on the bound. -/
theorem cycleLoop_unique (cfg : Config) (tr : Nat → List TraceEntry) :
    ∀ (f1 f2 : Nat) (sim a b : SimState),
      cycleLoop cfg tr f1 sim = some a → cycleLoop cfg tr f2 sim = some b → a = b := by
  intro f1
  induction f1 with
  | zero => intro f2 sim a b h; simp [cycleLoop] at h
  | succ k ih =>
    intro f2 sim a b h1 h2
    cases f2 with
    | zero => simp [cycleLoop] at h2
    | succ m =>
      simp only [cycleLoop] at h1 h2
      by_cases hact : simulationActive (cycle cfg tr sim) = true
      · simp only [hact, if_true] at h1 h2
        exact ih m _ a b h1 h2
      · simp only [hact] at h1 h2
        simp only [Bool.false_eq_true, if_false, Option.some.injEq] at h1 h2
        rw [← h1, ← h2]

/-- The result of a run does not depend on the bound. -/
theorem runMulticoreSimulation_unique (cfg : Config) (tr : Nat → List TraceEntry)
    (f1 f2 : Nat) (a b : SimState)
    (h1 : runMulticoreSimulation cfg tr f1 = some a)
    (h2 : runMulticoreSimulation cfg tr f2 = some b) : a = b := by
  unfold runMulticoreSimulation at h1 h2
  cases hc1 : cycleLoop cfg tr f1 (initialSim cfg) with
  | none => rw [hc1] at h1; simp at h1
  | some s1 =>
    cases hc2 : cycleLoop cfg tr f2 (initialSim cfg) with
    | none => rw [hc2] at h2; simp at h2
    | some s2 =>
      rw [hc1] at h1
      rw [hc2] at h2
      have := cycleLoop_unique cfg tr f1 f2 _ s1 s2 hc1 hc2
      subst this
      simp only [Option.some.injEq] at h1 h2
      rw [← h1, ← h2]


/-! ### Evaluation devices are identities -/

@[simp] theorem forceBool_eq (b : Bool) : forceBool b = b := by cases b <;> rfl

@[simp] theorem forceNat_eq (n : Nat) : forceNat n = n := by cases n <;> rfl

@[simp] theorem forceInt_eq (x : Int) : forceInt x = x := by
  cases x <;> simp [forceInt]

@[simp] theorem forceList_eq {α : Type} (l : List α) : forceList l = l := by cases l <;> rfl

@[simp] theorem forceCoherence_eq (cs : CoherenceState) : forceCoherence cs = cs := by
  cases cs <;> rfl

@[simp] theorem refreshState_eq (st : State) : refreshState st = st := by
  cases st
  simp [refreshState]

@[simp] theorem refreshSim_eq (sim : SimState) : refreshSim sim = sim := by
  cases sim
  simp [refreshSim]

theorem cycleLoopFast_eq (cfg : Config) (tr : Nat → List TraceEntry) (fuel : Nat)
    (sim : SimState) : cycleLoopFast cfg tr fuel sim = cycleLoop cfg tr fuel sim := by
  induction fuel generalizing sim with
  | zero => rfl
  | succ n ih => simp only [cycleLoopFast, cycleLoop, refreshSim_eq, ih]

theorem cyclesFast_eq (cfg : Config) (tr : Nat → List TraceEntry) (n : Nat) :
    cyclesFast cfg tr n = cycles cfg tr n := by
  induction n with
  | zero => rfl
  | succ n ih => simp only [cyclesFast, cycles, refreshSim_eq, ih]

theorem runFast_eq (cfg : Config) (tr : Nat → List TraceEntry) (fuel : Nat) :
    runFast cfg tr fuel = runMulticoreSimulation cfg tr fuel := by
  simp only [runFast, runMulticoreSimulation, cycleLoopFast_eq]

/-- A property checked on the fast run holds of the result of the run. -/
theorem checkFinal_run {cfg : Config} {tr : Nat → List TraceEntry} {fuel : Nat}
    {p : SimState → Bool} (h : checkFinal (runFast cfg tr fuel) p = true) :
    ∃ sim, runMulticoreSimulation cfg tr fuel = some sim ∧ p sim = true := by
  rw [runFast_eq] at h
  exact checkFinal_elim h

/-! ### Waiting cycles -/

theorem advanceCore_stays (tr : Nat → List TraceEntry) (i : Nat) (sim : SimState)
    (h : ¬ (sim.st.isStalled i = false ∧ sim.st.processorRunning i = true)) :
    advanceCore tr i sim = sim := by
  unfold advanceCore
  dsimp only
  split
  · rename_i hcond
    simp only [Bool.and_eq_true, Bool.not_eq_true'] at hcond
    exact absurd hcond h
  · rfl

theorem waitFrame_refl (st : State) : WaitFrame st st :=
  ⟨rfl, rfl, rfl, rfl, rfl, fun _ h => h⟩

theorem waitFrame_trans {st st2 st3 : State} (h1 : WaitFrame st st2) (h2 : WaitFrame st2 st3) :
    WaitFrame st st3 :=
  ⟨h2.1.trans h1.1, h2.2.1.trans h1.2.1, h2.2.2.1.trans h1.2.2.1,
    h2.2.2.2.1.trans h1.2.2.2.1, h2.2.2.2.2.1.trans h1.2.2.2.2.1,
    fun c h => h2.2.2.2.2.2 c (h1.2.2.2.2.2 c h)⟩

theorem lookupWay_congr {cfg : Config} {st st2 : State} (hc : st2.coherenceTable = st.coherenceTable)
    (ht : st2.tagArray = st.tagArray) (c s : Nat) (tag : Int) :
    lookupWay cfg st2 c s tag = lookupWay cfg st c s tag := by
  unfold lookupWay
  rw [hc, ht]

/-- The kind of a core is the same in a state that differs by waiting steps. -/
theorem classifyCore_frame {cfg : Config} {tr : Nat → List TraceEntry} {sim : SimState}
    {st2 : State} {c : Nat} {k : WaitKind} (h : classifyCore cfg tr sim c = some k)
    (hf : WaitFrame sim.st st2) :
    classifyCore cfg tr { sim with st := st2 } c = some k := by
  obtain ⟨h1, h2, h3, h4, _, h6⟩ := hf
  unfold classifyCore at h ⊢
  dsimp only at h ⊢
  rw [h1, h2, h3]
  simp only [lookupWay_congr h3 h4]
  by_cases hr : (!sim.st.processorRunning c) = true
  · rw [if_pos hr] at h ⊢
    exact h
  · rw [if_neg hr] at h ⊢
    cases he : (tr c)[sim.tracePosition c]? with
    | none => rw [he] at h; exact absurd h (by simp)
    | some e =>
      rw [he] at h
      dsimp only at h ⊢
      by_cases hp : sim.st.pendingOperations c ≠ -1
      · rw [if_pos hp] at h ⊢
        by_cases hs : sim.st.isStalled c = true
        · rw [if_pos hs] at h
          rw [if_pos (h6 c hs)]
          exact h
        · rw [if_neg hs] at h
          exact absurd h (by simp)
      · rw [if_neg hp] at h ⊢
        exact h

/-- A running core that has a kind is stalled with a pending operation, or issues a request. -/
theorem classifyCore_running {cfg : Config} {tr : Nat → List TraceEntry} {sim : SimState}
    {c : Nat} {k : WaitKind} (h : classifyCore cfg tr sim c = some k)
    (hr : sim.st.processorRunning c = true) :
    (k = WaitKind.pending ∧ sim.st.isStalled c = true)
      ∨ (∃ ty a, k = WaitKind.miss ty a) ∨ (∃ w a, k = WaitKind.upgrade w a) := by
  unfold classifyCore at h
  rw [if_neg (by rw [hr]; decide)] at h
  cases he : (tr c)[sim.tracePosition c]? with
  | none => rw [he] at h; exact absurd h (by simp)
  | some e =>
    rw [he] at h
    dsimp only at h
    by_cases hp : sim.st.pendingOperations c ≠ -1
    · rw [if_pos hp] at h
      by_cases hs : sim.st.isStalled c = true
      · rw [if_pos hs] at h
        simp only [Option.some.injEq] at h
        exact Or.inl ⟨h.symm, hs⟩
      · rw [if_neg hs] at h
        exact absurd h (by simp)
    · rw [if_neg hp] at h
      split at h
      · split at h
        · exact absurd h (by simp)
        · simp only [Option.some.injEq] at h
          exact Or.inr (Or.inl ⟨_, _, h.symm⟩)
      · split at h
        · split at h
          · exact absurd h (by simp)
          · simp only [Option.some.injEq] at h
            exact Or.inr (Or.inr ⟨_, _, h.symm⟩)
        · simp only [Option.some.injEq] at h
          exact Or.inr (Or.inl ⟨_, _, h.symm⟩)

/-- The first loop acts on a core that has a kind as `offerWait` does. -/
theorem offerCore_wait {cfg : Config} {tr : Nat → List TraceEntry} {sim : SimState} {c : Nat}
    {k : WaitKind} (h : classifyCore cfg tr sim c = some k) :
    offerCore cfg tr c sim = { sim with st := offerWait cfg k c sim.st } := by
  unfold classifyCore at h
  unfold offerCore
  by_cases hr : (!sim.st.processorRunning c) = true
  · rw [if_pos hr] at h ⊢
    simp only [Option.some.injEq] at h
    rw [← h]
    rfl
  · rw [if_neg hr] at h ⊢
    cases he : (tr c)[sim.tracePosition c]? with
    | none => rw [he] at h; exact absurd h (by simp)
    | some e =>
      rw [he] at h
      dsimp only at h ⊢
      unfold executeMemoryOperation
      dsimp only
      by_cases hp : sim.st.pendingOperations c ≠ -1
      · rw [if_pos hp] at h ⊢
        by_cases hs : sim.st.isStalled c = true
        · rw [if_pos hs] at h
          simp only [Option.some.injEq] at h
          rw [← h]
          rfl
        · rw [if_neg hs] at h
          exact absurd h (by simp)
      · rw [if_neg hp] at h ⊢
        cases hop : e.op with
        | R =>
          rw [hop] at h
          dsimp only at h ⊢
          cases hl : lookupWay cfg sim.st c (setIndexOf cfg e.addr) (tagOf cfg e.addr) with
          | some w => rw [hl] at h; exact absurd h (by simp)
          | none =>
            rw [hl] at h
            simp only [Option.some.injEq] at h
            rw [← h]
            have hl2 : lookupWay cfg
                { sim.st with operationCounter := sim.st.operationCounter + 1 } c
                (setIndexOf cfg e.addr) (tagOf cfg e.addr) = none := hl
            rw [hl2]
            rfl
        | W =>
          rw [hop] at h
          dsimp only at h ⊢
          cases hl : lookupWay cfg sim.st c (setIndexOf cfg e.addr) (tagOf cfg e.addr) with
          | some w =>
            rw [hl] at h
            dsimp only at h
            have hl2 : lookupWay cfg
                { sim.st with operationCounter := sim.st.operationCounter + 1 } c
                (setIndexOf cfg e.addr) (tagOf cfg e.addr) = some w := hl
            rw [hl2]
            dsimp only
            split at h
            · exact absurd h (by simp)
            · rename_i hx
              simp only [Option.some.injEq] at h
              rw [← h, if_neg hx]
              rfl
          | none =>
            rw [hl] at h
            simp only [Option.some.injEq] at h
            rw [← h]
            have hl2 : lookupWay cfg
                { sim.st with operationCounter := sim.st.operationCounter + 1 } c
                (setIndexOf cfg e.addr) (tagOf cfg e.addr) = none := hl
            rw [hl2]
            rfl

theorem offerWait_frame (cfg : Config) (k : WaitKind) (c : Nat) (st : State) :
    WaitFrame st (offerWait cfg k c st)
      ∧ (offerWait cfg k c st).dataTransferQueue = st.dataTransferQueue
      ∧ (offerWait cfg k c st).busTickCounter = st.busTickCounter
      ∧ ∃ extra, (offerWait cfg k c st).pendingRequests = st.pendingRequests ++ extra := by
  cases k with
  | idle => exact ⟨waitFrame_refl st, rfl, rfl, [], by simp [offerWait]⟩
  | pending => exact ⟨⟨rfl, rfl, rfl, rfl, rfl, fun _ h => h⟩, rfl, rfl, [], by simp [offerWait]⟩
  | miss ty a =>
    refine ⟨⟨rfl, rfl, rfl, rfl, rfl, ?_⟩, rfl, rfl, _, rfl⟩
    intro c2 h
    simp only [offerWait, set1_apply]
    split
    · rfl
    · exact h
  | upgrade w a => exact ⟨⟨rfl, rfl, rfl, rfl, rfl, fun _ h => h⟩, rfl, rfl, _, rfl⟩



/-- The first loop of a waiting cycle: it is the loop of `offerWait`, which keeps the frame,
and every running core is stalled or has a request queued after it. -/
theorem offerLoop_wait {cfg : Config} {tr : Nat → List TraceEntry} {sim : SimState}
    {kinds : Nat → WaitKind} (hk : ∀ c, c < 4 → classifyCore cfg tr sim c = some (kinds c)) :
    forLoop 4 (offerCore cfg tr) sim
        = { sim with st := forLoop 4 (fun c st => offerWait cfg (kinds c) c st) sim.st }
      ∧ WaitFrame sim.st (forLoop 4 (fun c st => offerWait cfg (kinds c) c st) sim.st)
      ∧ (forLoop 4 (fun c st => offerWait cfg (kinds c) c st) sim.st).dataTransferQueue
          = sim.st.dataTransferQueue
      ∧ ∀ c, c < 4 → sim.st.processorRunning c = true →
          (forLoop 4 (fun c st => offerWait cfg (kinds c) c st) sim.st).isStalled c = true
          ∨ ∃ r ∈ (forLoop 4 (fun c st => offerWait cfg (kinds c) c st) sim.st).pendingRequests,
              r.requestorId = c := by
  have key : ∀ n, n ≤ 4 →
      forLoop n (offerCore cfg tr) sim
          = { sim with st := forLoop n (fun c st => offerWait cfg (kinds c) c st) sim.st }
        ∧ WaitFrame sim.st (forLoop n (fun c st => offerWait cfg (kinds c) c st) sim.st)
        ∧ (forLoop n (fun c st => offerWait cfg (kinds c) c st) sim.st).dataTransferQueue
            = sim.st.dataTransferQueue
        ∧ ∀ c, c < n → sim.st.processorRunning c = true →
            (forLoop n (fun c st => offerWait cfg (kinds c) c st) sim.st).isStalled c = true
            ∨ ∃ r ∈ (forLoop n (fun c st => offerWait cfg (kinds c) c st)
                  sim.st).pendingRequests, r.requestorId = c := by
    intro n
    induction n with
    | zero =>
      intro _
      exact ⟨rfl, waitFrame_refl _, rfl, fun c hc => absurd hc (Nat.not_lt_zero c)⟩
    | succ m ih =>
      intro hm
      obtain ⟨h1, h2, h3, h4⟩ := ih (by omega)
      obtain ⟨f1, f2, _, extra, f4⟩ := offerWait_frame cfg (kinds m) m
        (forLoop m (fun c st => offerWait cfg (kinds c) c st) sim.st)
      simp only [forLoop]
      refine ⟨?_, waitFrame_trans h2 f1, f2.trans h3, ?_⟩
      · rw [h1]
        exact offerCore_wait (classifyCore_frame (hk m (by omega)) h2)
      · intro c hc hr
        rcases Nat.lt_succ_iff_lt_or_eq.mp hc with hlt | heq
        · rcases h4 c hlt hr with hs | ⟨r, hr1, hr2⟩
          · exact Or.inl (f1.2.2.2.2.2 c hs)
          · exact Or.inr ⟨r, by rw [f4]; exact List.mem_append_left _ hr1, hr2⟩
        · subst heq
          rcases classifyCore_running (hk c (by omega)) hr with ⟨_, hs⟩ | ⟨ty, a, hkk⟩
              | ⟨w, a, hkk⟩
          · exact Or.inl (f1.2.2.2.2.2 c (h2.2.2.2.2.2 c hs))
          · rw [hkk]
            exact Or.inl (by simp [offerWait])
          · rw [hkk]
            exact Or.inr ⟨⟨c, a, BusRequestType.UPGRADE_REQUEST⟩, by simp [offerWait], rfl⟩
  exact key 4 (Nat.le_refl 4)

/-- The request loop while the bus is busy: every request is dropped and its core is left
stalled. -/
theorem requestLoop_busy (cfg : Config) :
    ∀ (q : List BusTransaction) (st : State), st.busOccupied = true →
      WaitFrame st (requestLoop cfg q st)
        ∧ (requestLoop cfg q st).dataTransferQueue = st.dataTransferQueue
        ∧ (requestLoop cfg q st).pendingRequests = (match q with | [] => st.pendingRequests | _ :: _ => [])
        ∧ ∀ r ∈ q, (requestLoop cfg q st).isStalled r.requestorId = true := by
  intro q
  induction q with
  | nil =>
    intro st _
    exact ⟨waitFrame_refl st, rfl, rfl, fun r hr => absurd hr (List.not_mem_nil r)⟩
  | cons r rest ih =>
    intro st hb
    simp only [requestLoop]
    have hs : serviceRequest cfg { st with pendingRequests := rest } r
        = { st with
            pendingRequests := rest
            isStalled := set1 st.isStalled r.requestorId true
            stalledCycles := set1 st.stalledCycles r.requestorId
              (st.stalledCycles r.requestorId + 1)
            ghostLog := st.ghostLog ++ [Event.busyDropped r.requestorId] } := by
      unfold serviceRequest
      dsimp only
      rw [if_pos hb]
    rw [hs]
    obtain ⟨g1, g2, g3, g4⟩ := ih
      { st with
        pendingRequests := rest
        isStalled := set1 st.isStalled r.requestorId true
        stalledCycles := set1 st.stalledCycles r.requestorId
          (st.stalledCycles r.requestorId + 1)
        ghostLog := st.ghostLog ++ [Event.busyDropped r.requestorId] } hb
    have hf : WaitFrame st
        { st with
          pendingRequests := rest
          isStalled := set1 st.isStalled r.requestorId true
          stalledCycles := set1 st.stalledCycles r.requestorId
            (st.stalledCycles r.requestorId + 1)
          ghostLog := st.ghostLog ++ [Event.busyDropped r.requestorId] } := by
      refine ⟨rfl, rfl, rfl, rfl, rfl, ?_⟩
      intro c h
      simp only [set1_apply]
      split
      · rfl
      · exact h
    refine ⟨waitFrame_trans hf g1, g2, ?_, ?_⟩
    · rw [g3]
      cases rest <;> rfl
    · intro r2 hr2
      rcases List.mem_cons.mp hr2 with heq | hmem
      · rw [heq]
        exact g1.2.2.2.2.2 r.requestorId (by simp)
      · exact g4 r2 hmem

/-- The data phase while the head transfer has cycles left only counts one cycle down. -/
theorem dataPhase_waits (cfg : Config) (st : State) (t : BusDataTransfer)
    (rest : List BusDataTransfer) (hq : st.dataTransferQueue = t :: rest)
    (hp : t.pendingCycles ≠ 0) :
    dataPhase cfg st
      = { st with
          dataTransferQueue := { t with pendingCycles := t.pendingCycles - 1 } :: rest } := by
  unfold dataPhase
  split
  · rename_i hnil
    rw [hq] at hnil
    exact absurd hnil (by simp)
  · rename_i t2 rest2 hcons
    rw [hq] at hcons
    simp only [List.cons.injEq] at hcons
    obtain ⟨h1, h2⟩ := hcons
    subst h1 h2
    rw [if_neg hp]

/-- A waiting cycle: the cycle is `cycleWait`, the frame is kept, the head transfer has one
cycle less, and no request is left. -/
theorem cycle_wait {cfg : Config} {tr : Nat → List TraceEntry} {kinds : Nat → WaitKind}
    {sim : SimState} {p : Nat} (h : WaitOk cfg tr kinds sim p) :
    cycle cfg tr sim = cycleWait cfg kinds sim
      ∧ WaitFrame sim.st (cycleWait cfg kinds sim).st
      ∧ (cycleWait cfg kinds sim).tracePosition = sim.tracePosition
      ∧ (cycleWait cfg kinds sim).st.pendingRequests = []
      ∧ ∃ t rest, (cycleWait cfg kinds sim).st.dataTransferQueue = t :: rest
          ∧ t.pendingCycles = (p : Int) - 1 := by
  obtain ⟨hb, hreq, ⟨t, rest, hq, hpc⟩, hp, hk⟩ := h
  obtain ⟨o1, o2, o3, o4⟩ := offerLoop_wait hk
  generalize hst1 : forLoop 4 (fun c st => offerWait cfg (kinds c) c st) sim.st = st1
    at o1 o2 o3 o4
  have hb1 : ({ st1 with busTickCounter := st1.busTickCounter + 1 } : State).busOccupied
      = true := o2.2.2.2.2.1.trans hb
  obtain ⟨r1, r2, r3, r4⟩ := requestLoop_busy cfg st1.pendingRequests
    { st1 with busTickCounter := st1.busTickCounter + 1 } hb1
  have hpc0 : t.pendingCycles ≠ 0 := by rw [hpc]; omega
  have hrp : requestPhase cfg { st1 with busTickCounter := st1.busTickCounter + 1 }
      = requestLoop cfg st1.pendingRequests
          { st1 with busTickCounter := st1.busTickCounter + 1 } := rfl
  generalize hst2 : requestLoop cfg st1.pendingRequests
    { st1 with busTickCounter := st1.busTickCounter + 1 } = st2 at r1 r2 r3 r4 hrp
  have hq2 : st2.dataTransferQueue = t :: rest := r2.trans (o3.trans hq)
  have htick : waitTick cfg kinds sim.st
      = { st2 with
          dataTransferQueue := { t with pendingCycles := t.pendingCycles - 1 } :: rest } := by
    unfold waitTick processBusTransactions
    rw [hst1, hrp]
    exact dataPhase_waits cfg st2 t rest hq2 hpc0
  have hf1 : WaitFrame sim.st st2 :=
    waitFrame_trans (waitFrame_trans o2 ⟨rfl, rfl, rfl, rfl, rfl, fun _ h => h⟩) r1
  have hframe : WaitFrame sim.st (waitTick cfg kinds sim.st) := by
    rw [htick]
    exact ⟨hf1.1, hf1.2.1, hf1.2.2.1, hf1.2.2.2.1, hf1.2.2.2.2.1, hf1.2.2.2.2.2⟩
  have hstalled : ∀ c, c < 4 → sim.st.processorRunning c = true →
      (waitTick cfg kinds sim.st).isStalled c = true := by
    intro c hc hr
    rw [htick]
    show st2.isStalled c = true
    rcases o4 c hc hr with hs | ⟨r, hr1, hr2⟩
    · exact r1.2.2.2.2.2 c hs
    · rw [← hr2]
      exact r4 r hr1
  have hreq2 : (waitTick cfg kinds sim.st).pendingRequests = [] := by
    rw [htick]
    show st2.pendingRequests = []
    rw [r3]
    split
    · rename_i hnil
      exact hnil
    · rfl
  refine ⟨?_, hframe, rfl, hreq2, ?_⟩
  · have hoff : forLoop 4 (offerCore cfg tr) sim = { sim with st := st1 } := o1
    have hpbt : processBusTransactions cfg st1 = waitTick cfg kinds sim.st := by
      unfold waitTick
      rw [hst1]
    unfold cycle cycleWait
    dsimp only
    rw [hoff]
    dsimp only
    rw [hpbt]
    generalize hst3 : waitTick cfg kinds sim.st = st3 at hframe hstalled
    have hadv : forLoop 4 (advanceCore tr)
        { st := st3, tracePosition := sim.tracePosition, currentCycle := sim.currentCycle }
        = { st := st3, tracePosition := sim.tracePosition,
            currentCycle := sim.currentCycle } := by
      refine forLoop_indexed
        (fun _ s3 =>
          s3 = { st := st3, tracePosition := sim.tracePosition,
                 currentCycle := sim.currentCycle })
        (advanceCore tr) 4 ?_ _ rfl
      intro i s3 hi hs3
      rw [hs3]
      apply advanceCore_stays
      intro hcon
      have hrun : sim.st.processorRunning i = true := by
        have h2 : st3.processorRunning i = true := hcon.2
        rw [hframe.1] at h2
        exact h2
      have hst := hstalled i hi hrun
      have hns : st3.isStalled i = false := hcon.1
      rw [hst] at hns
      exact absurd hns (by decide)
    rw [hadv]
  · refine ⟨{ t with pendingCycles := t.pendingCycles - 1 }, rest, ?_, ?_⟩
    · show (waitTick cfg kinds sim.st).dataTransferQueue = _
      rw [htick]
    · show t.pendingCycles - 1 = _
      rw [hpc]

theorem waitOk_next {cfg : Config} {tr : Nat → List TraceEntry} {kinds : Nat → WaitKind}
    {sim : SimState} {p : Nat} (h : WaitOk cfg tr kinds sim (p + 2)) :
    WaitOk cfg tr kinds (cycleWait cfg kinds sim) (p + 1) := by
  obtain ⟨_, hf, _, hr, t, rest, hq, hpc⟩ := cycle_wait h
  refine ⟨hf.2.2.2.2.1.trans h.1, hr, ⟨t, rest, hq, ?_⟩, Nat.succ_pos p, ?_⟩
  · rw [hpc]
    push_cast
    omega
  · intro c hc
    exact classifyCore_frame (h.2.2.2.2 c hc) hf

theorem simulationActive_of_queue {sim : SimState} {t : BusDataTransfer}
    {rest : List BusDataTransfer} (h : sim.st.dataTransferQueue = t :: rest) :
    simulationActive sim = true := by
  unfold simulationActive
  refine findFirst_isSome_of (Nat.succ_pos 3) ?_
  simp [h]

/-- Waiting cycles taken together: while the head transfer has cycles left, the cycles are
the waiting cycles and the loop goes on. -/
theorem cycleN_wait {cfg : Config} {tr : Nat → List TraceEntry} {kinds : Nat → WaitKind} :
    ∀ (j : Nat) (sim : SimState) (p : Nat), WaitOk cfg tr kinds sim p → j ≤ p →
      cycleN cfg tr j sim = waitN cfg kinds j sim
        ∧ ∀ f, cycleLoop cfg tr (j + f) sim = cycleLoop cfg tr f (waitN cfg kinds j sim) := by
  intro j
  induction j with
  | zero =>
    intro sim p _ _
    exact ⟨rfl, fun f => by rw [Nat.zero_add]; rfl⟩
  | succ k ih =>
    intro sim p h hj
    obtain ⟨hc, _, _, _, t, rest, hq, _⟩ := cycle_wait h
    have hact := simulationActive_of_queue hq
    have hstep : ∀ f, cycleLoop cfg tr (k + 1 + f) sim
        = cycleLoop cfg tr (k + f) (cycleWait cfg kinds sim) := by
      intro f
      rw [show k + 1 + f = (k + f) + 1 by omega]
      simp only [cycleLoop]
      rw [hc, if_pos hact]
    rcases Nat.eq_zero_or_pos k with hk0 | hkpos
    · subst hk0
      refine ⟨by simp only [cycleN, waitN]; rw [hc], ?_⟩
      intro f
      rw [hstep f]
      simp only [waitN, Nat.zero_add]
    · obtain ⟨q, hq2⟩ : ∃ q, p = q + 2 := ⟨p - 2, by omega⟩
      subst hq2
      obtain ⟨i1, i2⟩ := ih (cycleWait cfg kinds sim) (q + 1) (waitOk_next h) (by omega)
      refine ⟨by simp only [cycleN, waitN]; rw [hc]; exact i1, ?_⟩
      intro f
      rw [hstep f, i2 f]
      simp only [waitN]

theorem waitPlan_spec {cfg : Config} {tr : Nat → List TraceEntry} {sim : SimState}
    {kinds : Nat → WaitKind} {p : Nat} (h : waitPlan cfg tr sim = some (kinds, p)) :
    WaitOk cfg tr kinds sim p := by
  unfold waitPlan at h
  split at h
  · rename_i hcond
    simp only [Bool.and_eq_true, List.isEmpty_iff] at hcond
    split at h
    · exact absurd h (by simp)
    · rename_i t rest hq
      split at h
      · rename_i hpos
        split at h
        · rename_i k0 k1 k2 k3 h0 h1 h2 h3
          simp only [Option.some.injEq, Prod.mk.injEq] at h
          obtain ⟨hk, hp⟩ := h
          subst hk hp
          refine ⟨hcond.1, hcond.2, ⟨t, rest, hq, ?_⟩, ?_, ?_⟩
          · rw [Int.toNat_of_nonneg (Int.le_of_lt hpos)]
          · omega
          · intro c hc
            match c, hc with
            | 0, _ => exact h0
            | 1, _ => exact h1
            | 2, _ => exact h2
            | 3, _ => exact h3
        · exact absurd h (by simp)
      · exact absurd h (by simp)
  · exact absurd h (by simp)

/-- The loop evaluated with waiting cycles returns what the cycle loop returns. -/
theorem cycleLoopWait_sound (cfg : Config) (tr : Nat → List TraceEntry) :
    ∀ (gas fuel : Nat) (sim r : SimState),
      cycleLoopWait cfg tr gas fuel sim = some r → cycleLoop cfg tr fuel sim = some r := by
  intro gas
  induction gas with
  | zero => intro fuel sim r h; simp [cycleLoopWait] at h
  | succ g ih =>
    intro fuel sim r h
    simp only [cycleLoopWait] at h
    split at h
    · rename_i kinds p hplan
      split at h
      · rename_i hle
        rw [refreshSim_eq] at h
        have := ih _ _ _ h
        have hj := (cycleN_wait p sim p (waitPlan_spec hplan) (Nat.le_refl p)).2 (fuel - p)
        rw [show p + (fuel - p) = fuel by omega] at hj
        rw [hj]
        exact this
      · exact absurd h (by simp)
    · split at h
      · exact absurd h (by simp)
      · rename_i fuel2
        rw [refreshSim_eq] at h
        simp only [cycleLoop]
        split at h
        · rename_i hact
          rw [if_pos hact]
          exact ih _ _ _ h
        · rename_i hact
          rw [if_neg hact]
          exact h

theorem runWait_sound {cfg : Config} {tr : Nat → List TraceEntry} {gas fuel : Nat}
    {r : SimState} (h : runWait cfg tr gas fuel = some r) :
    runMulticoreSimulation cfg tr fuel = some r := by
  unfold runWait at h
  unfold runMulticoreSimulation
  split at h
  · exact absurd h (by simp)
  · rename_i sim hs
    rw [cycleLoopWait_sound cfg tr gas fuel _ sim hs]
    exact h

/-- A property checked on the run evaluated with waiting cycles holds of the result of the
run. -/
theorem checkFinal_runWait {cfg : Config} {tr : Nat → List TraceEntry} {gas fuel : Nat}
    {p : SimState → Bool} (h : checkFinal (runWait cfg tr gas fuel) p = true) :
    ∃ sim, runMulticoreSimulation cfg tr fuel = some sim ∧ p sim = true := by
  obtain ⟨sim, hs, hp⟩ := checkFinal_elim h
  exact ⟨sim, runWait_sound hs, hp⟩

theorem cycleN_succ (cfg : Config) (tr : Nat → List TraceEntry) (n : Nat) (sim : SimState) :
    cycleN cfg tr (n + 1) sim = cycle cfg tr (cycleN cfg tr n sim) := by
  induction n generalizing sim with
  | zero => rfl
  | succ k ih =>
    show cycleN cfg tr (k + 1) (cycle cfg tr sim) = _
    rw [ih]
    rfl

theorem cycleN_add (cfg : Config) (tr : Nat → List TraceEntry) (m n : Nat) (sim : SimState) :
    cycleN cfg tr (m + n) sim = cycleN cfg tr n (cycleN cfg tr m sim) := by
  induction m generalizing sim with
  | zero => rw [Nat.zero_add]; rfl
  | succ k ih =>
    rw [show k + 1 + n = (k + n) + 1 by omega]
    show cycleN cfg tr (k + n) (cycle cfg tr sim) = _
    rw [ih]
    rfl

theorem cycles_eq_cycleN (cfg : Config) (tr : Nat → List TraceEntry) (n : Nat) :
    cycles cfg tr n = cycleN cfg tr n (initialSim cfg) := by
  induction n with
  | zero => rfl
  | succ k ih => rw [cycleN_succ, ← ih]; rfl

/-- The evaluation with waiting cycles returns the state `n` cycles later. -/
theorem cyclesWait_sound (cfg : Config) (tr : Nat → List TraceEntry) :
    ∀ (gas n : Nat) (sim r : SimState),
      cyclesWait cfg tr gas n sim = some r → cycleN cfg tr n sim = r := by
  intro gas
  induction gas with
  | zero => intro n sim r h; simp [cyclesWait] at h
  | succ g ih =>
    intro n sim r h
    cases n with
    | zero =>
      simp only [cyclesWait, Option.some.injEq] at h
      exact h
    | succ n2 =>
      simp only [cyclesWait] at h
      split at h
      · rename_i kinds p hplan
        split at h
        · rename_i hle
          rw [refreshSim_eq] at h
          have h1 := ih _ _ _ h
          have h2 := (cycleN_wait p sim p (waitPlan_spec hplan) (Nat.le_refl p)).1
          rw [show n2 + 1 = p + (n2 + 1 - p) by omega, cycleN_add, h2]
          exact h1
        · rename_i hle
          rw [refreshSim_eq] at h
          simp only [Option.some.injEq] at h
          rw [(cycleN_wait (n2 + 1) sim p (waitPlan_spec hplan) (by omega)).1]
          exact h
      · rw [refreshSim_eq] at h
        exact ih n2 (cycle cfg tr sim) r h

/-- A property checked on the state after `n` cycles evaluated with waiting cycles holds of
`cycles cfg tr n`. -/
theorem checkFinal_cyclesWait {cfg : Config} {tr : Nat → List TraceEntry} {gas n : Nat}
    {p : SimState → Bool}
    (h : checkFinal (cyclesWait cfg tr gas n (initialSim cfg)) p = true) :
    p (cycles cfg tr n) = true := by
  obtain ⟨sim, hs, hp⟩ := checkFinal_elim h
  rw [cycles_eq_cycleN, cyclesWait_sound cfg tr gas n _ sim hs]
  exact hp

/-! ### End-to-end scenarios -/

/-- Scenario S3 evaluated: the run ends within 300 cycles, and the facts about its final state
that the theorems below use. -/
theorem scenarioS3_evaluated :
    checkFinal (runWait scenarioConfig scenarioS3 100 300) (fun sim =>
      decide (HoldsBlock scenarioConfig sim.st 0 0x2000 CoherenceState.SHARED)
        && decide (HoldsBlock scenarioConfig sim.st 1 0x2000 CoherenceState.SHARED)
        && decide (sim.st.writebackCount 0 = 1)
        && decide (sim.st.invalidationCount 0 = 0 ∧ sim.st.invalidationCount 1 = 0
          ∧ sim.st.invalidationCount 2 = 0 ∧ sim.st.invalidationCount 3 = 0)
        && decide (sim.st.missCount 0 = 1 ∧ sim.st.missCount 1 = 1
          ∧ sim.st.missCount 2 = 0 ∧ sim.st.missCount 3 = 0)
        && decide (sim.st.dirtyFlags 0 0 0 = true
          ∧ sim.st.coherenceTable 0 0 0 = CoherenceState.SHARED)) = true := by
  decide!

/-- Scenario S4 evaluated. -/
theorem scenarioS4_evaluated :
    checkFinal (runWait scenarioConfig scenarioS4 100 300) (fun sim =>
      decide (HoldsBlock scenarioConfig sim.st 0 0x3000 CoherenceState.SHARED)
        && decide (HoldsBlock scenarioConfig sim.st 1 0x3000 CoherenceState.SHARED)
        && decide (sim.st.invalidationCount 0 = 0)
        && decide (sim.st.missCount 0 = 1 ∧ sim.st.missCount 1 = 1)
        && decide (countEvents (fun e => e == Event.upgradeServiced 0) sim.st = 0)) = true := by
  decide!

/-- Two writers of one block, evaluated. -/
theorem scenarioWriteWrite_evaluated :
    checkFinal (runWait scenarioConfig scenarioWriteWrite 100 400) (fun sim =>
      decide (sim.st.dirtyFlags 0 0 0 = true)
        && decide (sim.st.coherenceTable 0 0 0 = CoherenceState.INVALID)) = true := by
  decide!

/-- Eviction of a downgraded line, evaluated. -/
theorem scenarioStaleDirty_evaluated :
    checkFinal (runWait scenarioConfig scenarioStaleDirty 100 600) (fun sim =>
      decide (sim.st.writebackCount 0 = 2)
        && decide (countEvents (fun e => e == Event.modifiedSnooped 0) sim.st = 1)
        && decide (countEvents (fun e => e == Event.dirtyEviction 0) sim.st = 1)) = true := by
  decide!

/-- **C10** (scenario S3).  With `s = 2, E = 2, b = 4`, core 0 = `[W 0x2000]`,
core 1 = `[R 0x2000]` and cores 2, 3 empty, the run terminates; at the end core 0 and core 1
both hold the block of `0x2000` in state `SHARED`, `writebackCount[0] = 1`,
`invalidationCount = [0,0,0,0]` and `missCount = [1,1,0,0]`. -/
theorem scenario_S3_outcome :
    ∃ fuel sim, runMulticoreSimulation scenarioConfig scenarioS3 fuel = some sim
      ∧ HoldsBlock scenarioConfig sim.st 0 0x2000 CoherenceState.SHARED
      ∧ HoldsBlock scenarioConfig sim.st 1 0x2000 CoherenceState.SHARED
      ∧ sim.st.writebackCount 0 = 1
      ∧ (sim.st.invalidationCount 0 = 0 ∧ sim.st.invalidationCount 1 = 0
          ∧ sim.st.invalidationCount 2 = 0 ∧ sim.st.invalidationCount 3 = 0)
      ∧ (sim.st.missCount 0 = 1 ∧ sim.st.missCount 1 = 1
          ∧ sim.st.missCount 2 = 0 ∧ sim.st.missCount 3 = 0) := by
  obtain ⟨sim, hs, hp⟩ := checkFinal_runWait scenarioS3_evaluated
  simp only [Bool.and_eq_true, decide_eq_true_eq] at hp
  exact ⟨300, sim, hs, hp.1.1.1.1.1, hp.1.1.1.1.2, hp.1.1.1.2, hp.1.1.2, hp.1.2⟩

/-- **C9, counterexample** (scenario S4 as claimed).  No run of scenario S4 terminates with
core 0 holding the block of `0x3000` in `MODIFIED`, core 1 holding no valid copy of it and
`invalidationCount[0] = 1`. -/
theorem scenario_S4_claim_fails :
    ¬ ∃ fuel sim, runMulticoreSimulation scenarioConfig scenarioS4 fuel = some sim
      ∧ HoldsBlock scenarioConfig sim.st 0 0x3000 CoherenceState.MODIFIED
      ∧ HoldsNoValidCopy scenarioConfig sim.st 1 0x3000
      ∧ sim.st.invalidationCount 0 = 1 := by
  rintro ⟨fuel, sim, hs, _, _, hinv⟩
  obtain ⟨sim0, hs0, hp⟩ := checkFinal_runWait scenarioS4_evaluated
  simp only [Bool.and_eq_true, decide_eq_true_eq] at hp
  have := runMulticoreSimulation_unique _ _ _ _ _ _ hs hs0
  subst this
  rw [hp.1.1.2] at hinv
  exact absurd hinv (by decide)

/-- **C9, amended** (scenario S4).  With `s = 2, E = 2, b = 4`, core 0 = `[R 0x3000, W 0x3000]`,
core 1 = `[R 0x3000]` and cores 2, 3 empty, the run terminates; core 0's write hits its
`EXCLUSIVE` copy before core 1's read is serviced, so no `UPGRADE` of core 0 is serviced: at
the end core 0 and core 1 both hold the block of `0x3000` in `SHARED`,
`invalidationCount[0] = 0` and `missCount[0] = missCount[1] = 1`. -/
theorem scenario_S4_outcome :
    ∃ fuel sim, runMulticoreSimulation scenarioConfig scenarioS4 fuel = some sim
      ∧ HoldsBlock scenarioConfig sim.st 0 0x3000 CoherenceState.SHARED
      ∧ HoldsBlock scenarioConfig sim.st 1 0x3000 CoherenceState.SHARED
      ∧ sim.st.invalidationCount 0 = 0
      ∧ (sim.st.missCount 0 = 1 ∧ sim.st.missCount 1 = 1)
      ∧ countEvents (fun e => e == Event.upgradeServiced 0) sim.st = 0 := by
  obtain ⟨sim, hs, hp⟩ := checkFinal_runWait scenarioS4_evaluated
  simp only [Bool.and_eq_true, decide_eq_true_eq] at hp
  exact ⟨300, sim, hs, hp.1.1.1.1, hp.1.1.1.2, hp.1.1.2, hp.1.2, hp.2⟩

/-- **C2, failing inputs** (dirty implies `MODIFIED`).  The snoop paths change the state of a
`MODIFIED` line without clearing its dirty flag.  Scenario S3 ends with way 0 of set 0 of
core 0 dirty and `SHARED` (downgraded by core 1's `READ_SHARED`).  When core 0 and core 1 both
write `0x2000`, the run ends with that way dirty and `INVALID`.  When core 0 writes `0x2000`
once and later evicts the downgraded line, the stale flag queues a second writeback of the
same data: the run ends with `writebackCount[0] = 2`, one for the snoop and one for the
eviction. -/
theorem dirty_flag_survives_snoop :
    (∃ sim, runMulticoreSimulation scenarioConfig scenarioS3 300 = some sim
        ∧ sim.st.dirtyFlags 0 0 0 = true
        ∧ sim.st.coherenceTable 0 0 0 = CoherenceState.SHARED)
    ∧ (∃ sim, runMulticoreSimulation scenarioConfig scenarioWriteWrite 400 = some sim
        ∧ sim.st.dirtyFlags 0 0 0 = true
        ∧ sim.st.coherenceTable 0 0 0 = CoherenceState.INVALID)
    ∧ (∃ sim, runMulticoreSimulation scenarioConfig scenarioStaleDirty 600 = some sim
        ∧ sim.st.writebackCount 0 = 2
        ∧ countEvents (fun e => e == Event.modifiedSnooped 0) sim.st = 1
        ∧ countEvents (fun e => e == Event.dirtyEviction 0) sim.st = 1) := by
  refine ⟨?_, ?_, ?_⟩
  · obtain ⟨sim, hs, hp⟩ := checkFinal_runWait scenarioS3_evaluated
    simp only [Bool.and_eq_true, decide_eq_true_eq] at hp
    exact ⟨sim, hs, hp.2⟩
  · obtain ⟨sim, hs, hp⟩ := checkFinal_runWait scenarioWriteWrite_evaluated
    simp only [Bool.and_eq_true, decide_eq_true_eq] at hp
    exact ⟨sim, hs, hp.1, hp.2⟩
  · obtain ⟨sim, hs, hp⟩ := checkFinal_runWait scenarioStaleDirty_evaluated
    simp only [Bool.and_eq_true, decide_eq_true_eq] at hp
    exact ⟨sim, hs, hp.1.1, hp.1.2, hp.2⟩

/-! ### Frame lemmas: fields that a function leaves unchanged -/

theorem executeMemoryOperation_frame (cfg : Config) (st : State) (e : TraceEntry) (c : Nat) :
    (executeMemoryOperation cfg st e c).tagArray = st.tagArray
      ∧ (executeMemoryOperation cfg st e c).validBits = st.validBits
      ∧ (executeMemoryOperation cfg st e c).pendingOperations = st.pendingOperations
      ∧ (executeMemoryOperation cfg st e c).busOccupied = st.busOccupied
      ∧ (executeMemoryOperation cfg st e c).busTickCounter = st.busTickCounter
      ∧ (executeMemoryOperation cfg st e c).dataTransferQueue = st.dataTransferQueue
      ∧ (executeMemoryOperation cfg st e c).executedInstructions = st.executedInstructions
      ∧ (executeMemoryOperation cfg st e c).readCount = st.readCount
      ∧ (executeMemoryOperation cfg st e c).writeCount = st.writeCount
      ∧ (executeMemoryOperation cfg st e c).missCount = st.missCount
      ∧ (executeMemoryOperation cfg st e c).evictionCount = st.evictionCount
      ∧ (executeMemoryOperation cfg st e c).writebackCount = st.writebackCount
      ∧ (executeMemoryOperation cfg st e c).invalidationCount = st.invalidationCount
      ∧ (executeMemoryOperation cfg st e c).trafficBytes = st.trafficBytes
      ∧ (executeMemoryOperation cfg st e c).stalledCycles = st.stalledCycles
      ∧ (executeMemoryOperation cfg st e c).busTransactionCount = st.busTransactionCount
      ∧ (executeMemoryOperation cfg st e c).totalBusTraffic = st.totalBusTraffic
      ∧ (executeMemoryOperation cfg st e c).processorRunning = st.processorRunning
      ∧ (executeMemoryOperation cfg st e c).ghostLog = st.ghostLog := by
  unfold executeMemoryOperation
  try dsimp only
  repeat' split
  all_goals exact ⟨rfl, rfl, rfl, rfl, rfl, rfl, rfl, rfl, rfl, rfl, rfl, rfl, rfl, rfl, rfl, rfl, rfl, rfl, rfl⟩

@[simp] theorem executeMemoryOperation_tagArray (cfg : Config) (st : State) (e : TraceEntry) (c : Nat) :
    (executeMemoryOperation cfg st e c).tagArray = st.tagArray :=
  (executeMemoryOperation_frame cfg st e c).1

@[simp] theorem executeMemoryOperation_validBits (cfg : Config) (st : State) (e : TraceEntry) (c : Nat) :
    (executeMemoryOperation cfg st e c).validBits = st.validBits :=
  (executeMemoryOperation_frame cfg st e c).2.1

@[simp] theorem executeMemoryOperation_pendingOperations (cfg : Config) (st : State) (e : TraceEntry) (c : Nat) :
    (executeMemoryOperation cfg st e c).pendingOperations = st.pendingOperations :=
  (executeMemoryOperation_frame cfg st e c).2.2.1

@[simp] theorem executeMemoryOperation_busOccupied (cfg : Config) (st : State) (e : TraceEntry) (c : Nat) :
    (executeMemoryOperation cfg st e c).busOccupied = st.busOccupied :=
  (executeMemoryOperation_frame cfg st e c).2.2.2.1

@[simp] theorem executeMemoryOperation_busTickCounter (cfg : Config) (st : State) (e : TraceEntry) (c : Nat) :
    (executeMemoryOperation cfg st e c).busTickCounter = st.busTickCounter :=
  (executeMemoryOperation_frame cfg st e c).2.2.2.2.1

@[simp] theorem executeMemoryOperation_dataTransferQueue (cfg : Config) (st : State) (e : TraceEntry) (c : Nat) :
    (executeMemoryOperation cfg st e c).dataTransferQueue = st.dataTransferQueue :=
  (executeMemoryOperation_frame cfg st e c).2.2.2.2.2.1

@[simp] theorem executeMemoryOperation_executedInstructions (cfg : Config) (st : State) (e : TraceEntry) (c : Nat) :
    (executeMemoryOperation cfg st e c).executedInstructions = st.executedInstructions :=
  (executeMemoryOperation_frame cfg st e c).2.2.2.2.2.2.1

@[simp] theorem executeMemoryOperation_readCount (cfg : Config) (st : State) (e : TraceEntry) (c : Nat) :
    (executeMemoryOperation cfg st e c).readCount = st.readCount :=
  (executeMemoryOperation_frame cfg st e c).2.2.2.2.2.2.2.1

@[simp] theorem executeMemoryOperation_writeCount (cfg : Config) (st : State) (e : TraceEntry) (c : Nat) :
    (executeMemoryOperation cfg st e c).writeCount = st.writeCount :=
  (executeMemoryOperation_frame cfg st e c).2.2.2.2.2.2.2.2.1

@[simp] theorem executeMemoryOperation_missCount (cfg : Config) (st : State) (e : TraceEntry) (c : Nat) :
    (executeMemoryOperation cfg st e c).missCount = st.missCount :=
  (executeMemoryOperation_frame cfg st e c).2.2.2.2.2.2.2.2.2.1

@[simp] theorem executeMemoryOperation_evictionCount (cfg : Config) (st : State) (e : TraceEntry) (c : Nat) :
    (executeMemoryOperation cfg st e c).evictionCount = st.evictionCount :=
  (executeMemoryOperation_frame cfg st e c).2.2.2.2.2.2.2.2.2.2.1

@[simp] theorem executeMemoryOperation_writebackCount (cfg : Config) (st : State) (e : TraceEntry) (c : Nat) :
    (executeMemoryOperation cfg st e c).writebackCount = st.writebackCount :=
  (executeMemoryOperation_frame cfg st e c).2.2.2.2.2.2.2.2.2.2.2.1

@[simp] theorem executeMemoryOperation_invalidationCount (cfg : Config) (st : State) (e : TraceEntry) (c : Nat) :
    (executeMemoryOperation cfg st e c).invalidationCount = st.invalidationCount :=
  (executeMemoryOperation_frame cfg st e c).2.2.2.2.2.2.2.2.2.2.2.2.1

@[simp] theorem executeMemoryOperation_trafficBytes (cfg : Config) (st : State) (e : TraceEntry) (c : Nat) :
    (executeMemoryOperation cfg st e c).trafficBytes = st.trafficBytes :=
  (executeMemoryOperation_frame cfg st e c).2.2.2.2.2.2.2.2.2.2.2.2.2.1

@[simp] theorem executeMemoryOperation_stalledCycles (cfg : Config) (st : State) (e : TraceEntry) (c : Nat) :
    (executeMemoryOperation cfg st e c).stalledCycles = st.stalledCycles :=
  (executeMemoryOperation_frame cfg st e c).2.2.2.2.2.2.2.2.2.2.2.2.2.2.1

@[simp] theorem executeMemoryOperation_busTransactionCount (cfg : Config) (st : State) (e : TraceEntry) (c : Nat) :
    (executeMemoryOperation cfg st e c).busTransactionCount = st.busTransactionCount :=
  (executeMemoryOperation_frame cfg st e c).2.2.2.2.2.2.2.2.2.2.2.2.2.2.2.1

@[simp] theorem executeMemoryOperation_totalBusTraffic (cfg : Config) (st : State) (e : TraceEntry) (c : Nat) :
    (executeMemoryOperation cfg st e c).totalBusTraffic = st.totalBusTraffic :=
  (executeMemoryOperation_frame cfg st e c).2.2.2.2.2.2.2.2.2.2.2.2.2.2.2.2.1

@[simp] theorem executeMemoryOperation_processorRunning (cfg : Config) (st : State) (e : TraceEntry) (c : Nat) :
    (executeMemoryOperation cfg st e c).processorRunning = st.processorRunning :=
  (executeMemoryOperation_frame cfg st e c).2.2.2.2.2.2.2.2.2.2.2.2.2.2.2.2.2.1

@[simp] theorem executeMemoryOperation_ghostLog (cfg : Config) (st : State) (e : TraceEntry) (c : Nat) :
    (executeMemoryOperation cfg st e c).ghostLog = st.ghostLog :=
  (executeMemoryOperation_frame cfg st e c).2.2.2.2.2.2.2.2.2.2.2.2.2.2.2.2.2.2

theorem selectVictim_frame (cfg : Config) (ds : Bool) (st : State) (c s : Nat) (tw : Bool) :
    (selectVictim cfg ds st c s tw).2.2.tagArray = st.tagArray
      ∧ (selectVictim cfg ds st c s tw).2.2.validBits = st.validBits
      ∧ (selectVictim cfg ds st c s tw).2.2.dirtyFlags = st.dirtyFlags
      ∧ (selectVictim cfg ds st c s tw).2.2.coherenceTable = st.coherenceTable
      ∧ (selectVictim cfg ds st c s tw).2.2.pendingOperations = st.pendingOperations
      ∧ (selectVictim cfg ds st c s tw).2.2.busOccupied = st.busOccupied
      ∧ (selectVictim cfg ds st c s tw).2.2.busTickCounter = st.busTickCounter
      ∧ (selectVictim cfg ds st c s tw).2.2.operationCounter = st.operationCounter
      ∧ (selectVictim cfg ds st c s tw).2.2.pendingRequests = st.pendingRequests
      ∧ (selectVictim cfg ds st c s tw).2.2.totalCycles = st.totalCycles
      ∧ (selectVictim cfg ds st c s tw).2.2.executedInstructions = st.executedInstructions
      ∧ (selectVictim cfg ds st c s tw).2.2.readCount = st.readCount
      ∧ (selectVictim cfg ds st c s tw).2.2.writeCount = st.writeCount
      ∧ (selectVictim cfg ds st c s tw).2.2.missCount = st.missCount
      ∧ (selectVictim cfg ds st c s tw).2.2.writebackCount = st.writebackCount
      ∧ (selectVictim cfg ds st c s tw).2.2.invalidationCount = st.invalidationCount
      ∧ (selectVictim cfg ds st c s tw).2.2.trafficBytes = st.trafficBytes
      ∧ (selectVictim cfg ds st c s tw).2.2.stalledCycles = st.stalledCycles
      ∧ (selectVictim cfg ds st c s tw).2.2.busTransactionCount = st.busTransactionCount
      ∧ (selectVictim cfg ds st c s tw).2.2.totalBusTraffic = st.totalBusTraffic
      ∧ (selectVictim cfg ds st c s tw).2.2.processorRunning = st.processorRunning := by
  unfold selectVictim
  try dsimp only
  repeat' split
  all_goals exact ⟨rfl, rfl, rfl, rfl, rfl, rfl, rfl, rfl, rfl, rfl, rfl, rfl, rfl, rfl, rfl, rfl, rfl, rfl, rfl, rfl, rfl⟩

@[simp] theorem selectVictim_tagArray (cfg : Config) (ds : Bool) (st : State) (c s : Nat) (tw : Bool) :
    (selectVictim cfg ds st c s tw).2.2.tagArray = st.tagArray :=
  (selectVictim_frame cfg ds st c s tw).1

@[simp] theorem selectVictim_validBits (cfg : Config) (ds : Bool) (st : State) (c s : Nat) (tw : Bool) :
    (selectVictim cfg ds st c s tw).2.2.validBits = st.validBits :=
  (selectVictim_frame cfg ds st c s tw).2.1

@[simp] theorem selectVictim_dirtyFlags (cfg : Config) (ds : Bool) (st : State) (c s : Nat) (tw : Bool) :
    (selectVictim cfg ds st c s tw).2.2.dirtyFlags = st.dirtyFlags :=
  (selectVictim_frame cfg ds st c s tw).2.2.1

@[simp] theorem selectVictim_coherenceTable (cfg : Config) (ds : Bool) (st : State) (c s : Nat) (tw : Bool) :
    (selectVictim cfg ds st c s tw).2.2.coherenceTable = st.coherenceTable :=
  (selectVictim_frame cfg ds st c s tw).2.2.2.1

@[simp] theorem selectVictim_pendingOperations (cfg : Config) (ds : Bool) (st : State) (c s : Nat) (tw : Bool) :
    (selectVictim cfg ds st c s tw).2.2.pendingOperations = st.pendingOperations :=
  (selectVictim_frame cfg ds st c s tw).2.2.2.2.1

@[simp] theorem selectVictim_busOccupied (cfg : Config) (ds : Bool) (st : State) (c s : Nat) (tw : Bool) :
    (selectVictim cfg ds st c s tw).2.2.busOccupied = st.busOccupied :=
  (selectVictim_frame cfg ds st c s tw).2.2.2.2.2.1

@[simp] theorem selectVictim_busTickCounter (cfg : Config) (ds : Bool) (st : State) (c s : Nat) (tw : Bool) :
    (selectVictim cfg ds st c s tw).2.2.busTickCounter = st.busTickCounter :=
  (selectVictim_frame cfg ds st c s tw).2.2.2.2.2.2.1

@[simp] theorem selectVictim_operationCounter (cfg : Config) (ds : Bool) (st : State) (c s : Nat) (tw : Bool) :
    (selectVictim cfg ds st c s tw).2.2.operationCounter = st.operationCounter :=
  (selectVictim_frame cfg ds st c s tw).2.2.2.2.2.2.2.1

@[simp] theorem selectVictim_pendingRequests (cfg : Config) (ds : Bool) (st : State) (c s : Nat) (tw : Bool) :
    (selectVictim cfg ds st c s tw).2.2.pendingRequests = st.pendingRequests :=
  (selectVictim_frame cfg ds st c s tw).2.2.2.2.2.2.2.2.1

@[simp] theorem selectVictim_totalCycles (cfg : Config) (ds : Bool) (st : State) (c s : Nat) (tw : Bool) :
    (selectVictim cfg ds st c s tw).2.2.totalCycles = st.totalCycles :=
  (selectVictim_frame cfg ds st c s tw).2.2.2.2.2.2.2.2.2.1

@[simp] theorem selectVictim_executedInstructions (cfg : Config) (ds : Bool) (st : State) (c s : Nat) (tw : Bool) :
    (selectVictim cfg ds st c s tw).2.2.executedInstructions = st.executedInstructions :=
  (selectVictim_frame cfg ds st c s tw).2.2.2.2.2.2.2.2.2.2.1

@[simp] theorem selectVictim_readCount (cfg : Config) (ds : Bool) (st : State) (c s : Nat) (tw : Bool) :
    (selectVictim cfg ds st c s tw).2.2.readCount = st.readCount :=
  (selectVictim_frame cfg ds st c s tw).2.2.2.2.2.2.2.2.2.2.2.1

@[simp] theorem selectVictim_writeCount (cfg : Config) (ds : Bool) (st : State) (c s : Nat) (tw : Bool) :
    (selectVictim cfg ds st c s tw).2.2.writeCount = st.writeCount :=
  (selectVictim_frame cfg ds st c s tw).2.2.2.2.2.2.2.2.2.2.2.2.1

@[simp] theorem selectVictim_missCount (cfg : Config) (ds : Bool) (st : State) (c s : Nat) (tw : Bool) :
    (selectVictim cfg ds st c s tw).2.2.missCount = st.missCount :=
  (selectVictim_frame cfg ds st c s tw).2.2.2.2.2.2.2.2.2.2.2.2.2.1

@[simp] theorem selectVictim_writebackCount (cfg : Config) (ds : Bool) (st : State) (c s : Nat) (tw : Bool) :
    (selectVictim cfg ds st c s tw).2.2.writebackCount = st.writebackCount :=
  (selectVictim_frame cfg ds st c s tw).2.2.2.2.2.2.2.2.2.2.2.2.2.2.1

@[simp] theorem selectVictim_invalidationCount (cfg : Config) (ds : Bool) (st : State) (c s : Nat) (tw : Bool) :
    (selectVictim cfg ds st c s tw).2.2.invalidationCount = st.invalidationCount :=
  (selectVictim_frame cfg ds st c s tw).2.2.2.2.2.2.2.2.2.2.2.2.2.2.2.1

@[simp] theorem selectVictim_trafficBytes (cfg : Config) (ds : Bool) (st : State) (c s : Nat) (tw : Bool) :
    (selectVictim cfg ds st c s tw).2.2.trafficBytes = st.trafficBytes :=
  (selectVictim_frame cfg ds st c s tw).2.2.2.2.2.2.2.2.2.2.2.2.2.2.2.2.1

@[simp] theorem selectVictim_stalledCycles (cfg : Config) (ds : Bool) (st : State) (c s : Nat) (tw : Bool) :
    (selectVictim cfg ds st c s tw).2.2.stalledCycles = st.stalledCycles :=
  (selectVictim_frame cfg ds st c s tw).2.2.2.2.2.2.2.2.2.2.2.2.2.2.2.2.2.1

@[simp] theorem selectVictim_busTransactionCount (cfg : Config) (ds : Bool) (st : State) (c s : Nat) (tw : Bool) :
    (selectVictim cfg ds st c s tw).2.2.busTransactionCount = st.busTransactionCount :=
  (selectVictim_frame cfg ds st c s tw).2.2.2.2.2.2.2.2.2.2.2.2.2.2.2.2.2.2.1

@[simp] theorem selectVictim_totalBusTraffic (cfg : Config) (ds : Bool) (st : State) (c s : Nat) (tw : Bool) :
    (selectVictim cfg ds st c s tw).2.2.totalBusTraffic = st.totalBusTraffic :=
  (selectVictim_frame cfg ds st c s tw).2.2.2.2.2.2.2.2.2.2.2.2.2.2.2.2.2.2.2.1

@[simp] theorem selectVictim_processorRunning (cfg : Config) (ds : Bool) (st : State) (c s : Nat) (tw : Bool) :
    (selectVictim cfg ds st c s tw).2.2.processorRunning = st.processorRunning :=
  (selectVictim_frame cfg ds st c s tw).2.2.2.2.2.2.2.2.2.2.2.2.2.2.2.2.2.2.2.2

theorem installLine_frame (st : State) (c s w : Nat) (tag : Int) (d : Bool) :
    (installLine st c s w tag d).isStalled = st.isStalled
      ∧ (installLine st c s w tag d).validBits = st.validBits
      ∧ (installLine st c s w tag d).coherenceTable = st.coherenceTable
      ∧ (installLine st c s w tag d).pendingOperations = st.pendingOperations
      ∧ (installLine st c s w tag d).busOccupied = st.busOccupied
      ∧ (installLine st c s w tag d).busTickCounter = st.busTickCounter
      ∧ (installLine st c s w tag d).operationCounter = st.operationCounter
      ∧ (installLine st c s w tag d).pendingRequests = st.pendingRequests
      ∧ (installLine st c s w tag d).dataTransferQueue = st.dataTransferQueue
      ∧ (installLine st c s w tag d).totalCycles = st.totalCycles
      ∧ (installLine st c s w tag d).executedInstructions = st.executedInstructions
      ∧ (installLine st c s w tag d).readCount = st.readCount
      ∧ (installLine st c s w tag d).writeCount = st.writeCount
      ∧ (installLine st c s w tag d).missCount = st.missCount
      ∧ (installLine st c s w tag d).evictionCount = st.evictionCount
      ∧ (installLine st c s w tag d).writebackCount = st.writebackCount
      ∧ (installLine st c s w tag d).invalidationCount = st.invalidationCount
      ∧ (installLine st c s w tag d).trafficBytes = st.trafficBytes
      ∧ (installLine st c s w tag d).stalledCycles = st.stalledCycles
      ∧ (installLine st c s w tag d).busTransactionCount = st.busTransactionCount
      ∧ (installLine st c s w tag d).totalBusTraffic = st.totalBusTraffic
      ∧ (installLine st c s w tag d).processorRunning = st.processorRunning
      ∧ (installLine st c s w tag d).ghostLog = st.ghostLog := by
  exact ⟨rfl, rfl, rfl, rfl, rfl, rfl, rfl, rfl, rfl, rfl, rfl, rfl, rfl, rfl, rfl, rfl, rfl, rfl, rfl, rfl, rfl, rfl, rfl⟩

@[simp] theorem installLine_isStalled (st : State) (c s w : Nat) (tag : Int) (d : Bool) :
    (installLine st c s w tag d).isStalled = st.isStalled :=
  (installLine_frame st c s w tag d).1

@[simp] theorem installLine_validBits (st : State) (c s w : Nat) (tag : Int) (d : Bool) :
    (installLine st c s w tag d).validBits = st.validBits :=
  (installLine_frame st c s w tag d).2.1

@[simp] theorem installLine_coherenceTable (st : State) (c s w : Nat) (tag : Int) (d : Bool) :
    (installLine st c s w tag d).coherenceTable = st.coherenceTable :=
  (installLine_frame st c s w tag d).2.2.1

@[simp] theorem installLine_pendingOperations (st : State) (c s w : Nat) (tag : Int) (d : Bool) :
    (installLine st c s w tag d).pendingOperations = st.pendingOperations :=
  (installLine_frame st c s w tag d).2.2.2.1

@[simp] theorem installLine_busOccupied (st : State) (c s w : Nat) (tag : Int) (d : Bool) :
    (installLine st c s w tag d).busOccupied = st.busOccupied :=
  (installLine_frame st c s w tag d).2.2.2.2.1

@[simp] theorem installLine_busTickCounter (st : State) (c s w : Nat) (tag : Int) (d : Bool) :
    (installLine st c s w tag d).busTickCounter = st.busTickCounter :=
  (installLine_frame st c s w tag d).2.2.2.2.2.1

@[simp] theorem installLine_operationCounter (st : State) (c s w : Nat) (tag : Int) (d : Bool) :
    (installLine st c s w tag d).operationCounter = st.operationCounter :=
  (installLine_frame st c s w tag d).2.2.2.2.2.2.1

@[simp] theorem installLine_pendingRequests (st : State) (c s w : Nat) (tag : Int) (d : Bool) :
    (installLine st c s w tag d).pendingRequests = st.pendingRequests :=
  (installLine_frame st c s w tag d).2.2.2.2.2.2.2.1

@[simp] theorem installLine_dataTransferQueue (st : State) (c s w : Nat) (tag : Int) (d : Bool) :
    (installLine st c s w tag d).dataTransferQueue = st.dataTransferQueue :=
  (installLine_frame st c s w tag d).2.2.2.2.2.2.2.2.1

@[simp] theorem installLine_totalCycles (st : State) (c s w : Nat) (tag : Int) (d : Bool) :
    (installLine st c s w tag d).totalCycles = st.totalCycles :=
  (installLine_frame st c s w tag d).2.2.2.2.2.2.2.2.2.1

@[simp] theorem installLine_executedInstructions (st : State) (c s w : Nat) (tag : Int) (d : Bool) :
    (installLine st c s w tag d).executedInstructions = st.executedInstructions :=
  (installLine_frame st c s w tag d).2.2.2.2.2.2.2.2.2.2.1

@[simp] theorem installLine_readCount (st : State) (c s w : Nat) (tag : Int) (d : Bool) :
    (installLine st c s w tag d).readCount = st.readCount :=
  (installLine_frame st c s w tag d).2.2.2.2.2.2.2.2.2.2.2.1

@[simp] theorem installLine_writeCount (st : State) (c s w : Nat) (tag : Int) (d : Bool) :
    (installLine st c s w tag d).writeCount = st.writeCount :=
  (installLine_frame st c s w tag d).2.2.2.2.2.2.2.2.2.2.2.2.1

@[simp] theorem installLine_missCount (st : State) (c s w : Nat) (tag : Int) (d : Bool) :
    (installLine st c s w tag d).missCount = st.missCount :=
  (installLine_frame st c s w tag d).2.2.2.2.2.2.2.2.2.2.2.2.2.1

@[simp] theorem installLine_evictionCount (st : State) (c s w : Nat) (tag : Int) (d : Bool) :
    (installLine st c s w tag d).evictionCount = st.evictionCount :=
  (installLine_frame st c s w tag d).2.2.2.2.2.2.2.2.2.2.2.2.2.2.1

@[simp] theorem installLine_writebackCount (st : State) (c s w : Nat) (tag : Int) (d : Bool) :
    (installLine st c s w tag d).writebackCount = st.writebackCount :=
  (installLine_frame st c s w tag d).2.2.2.2.2.2.2.2.2.2.2.2.2.2.2.1

@[simp] theorem installLine_invalidationCount (st : State) (c s w : Nat) (tag : Int) (d : Bool) :
    (installLine st c s w tag d).invalidationCount = st.invalidationCount :=
  (installLine_frame st c s w tag d).2.2.2.2.2.2.2.2.2.2.2.2.2.2.2.2.1

@[simp] theorem installLine_trafficBytes (st : State) (c s w : Nat) (tag : Int) (d : Bool) :
    (installLine st c s w tag d).trafficBytes = st.trafficBytes :=
  (installLine_frame st c s w tag d).2.2.2.2.2.2.2.2.2.2.2.2.2.2.2.2.2.1

@[simp] theorem installLine_stalledCycles (st : State) (c s w : Nat) (tag : Int) (d : Bool) :
    (installLine st c s w tag d).stalledCycles = st.stalledCycles :=
  (installLine_frame st c s w tag d).2.2.2.2.2.2.2.2.2.2.2.2.2.2.2.2.2.2.1

@[simp] theorem installLine_busTransactionCount (st : State) (c s w : Nat) (tag : Int) (d : Bool) :
    (installLine st c s w tag d).busTransactionCount = st.busTransactionCount :=
  (installLine_frame st c s w tag d).2.2.2.2.2.2.2.2.2.2.2.2.2.2.2.2.2.2.2.1

@[simp] theorem installLine_totalBusTraffic (st : State) (c s w : Nat) (tag : Int) (d : Bool) :
    (installLine st c s w tag d).totalBusTraffic = st.totalBusTraffic :=
  (installLine_frame st c s w tag d).2.2.2.2.2.2.2.2.2.2.2.2.2.2.2.2.2.2.2.2.1

@[simp] theorem installLine_processorRunning (st : State) (c s w : Nat) (tag : Int) (d : Bool) :
    (installLine st c s w tag d).processorRunning = st.processorRunning :=
  (installLine_frame st c s w tag d).2.2.2.2.2.2.2.2.2.2.2.2.2.2.2.2.2.2.2.2.2.1

@[simp] theorem installLine_ghostLog (st : State) (c s w : Nat) (tag : Int) (d : Bool) :
    (installLine st c s w tag d).ghostLog = st.ghostLog :=
  (installLine_frame st c s w tag d).2.2.2.2.2.2.2.2.2.2.2.2.2.2.2.2.2.2.2.2.2.2

theorem invalidateWay_frame (a : Int) (s : Nat) (tag : Int) (oc w : Nat) (b : Bool) (st : State) :
    (invalidateWay a s tag oc w (b, st)).2.tagArray = st.tagArray
      ∧ (invalidateWay a s tag oc w (b, st)).2.validBits = st.validBits
      ∧ (invalidateWay a s tag oc w (b, st)).2.lruOrder = st.lruOrder
      ∧ (invalidateWay a s tag oc w (b, st)).2.dirtyFlags = st.dirtyFlags
      ∧ (invalidateWay a s tag oc w (b, st)).2.busOccupied = st.busOccupied
      ∧ (invalidateWay a s tag oc w (b, st)).2.busTickCounter = st.busTickCounter
      ∧ (invalidateWay a s tag oc w (b, st)).2.operationCounter = st.operationCounter
      ∧ (invalidateWay a s tag oc w (b, st)).2.pendingRequests = st.pendingRequests
      ∧ (invalidateWay a s tag oc w (b, st)).2.executedInstructions = st.executedInstructions
      ∧ (invalidateWay a s tag oc w (b, st)).2.readCount = st.readCount
      ∧ (invalidateWay a s tag oc w (b, st)).2.writeCount = st.writeCount
      ∧ (invalidateWay a s tag oc w (b, st)).2.missCount = st.missCount
      ∧ (invalidateWay a s tag oc w (b, st)).2.evictionCount = st.evictionCount
      ∧ (invalidateWay a s tag oc w (b, st)).2.writebackCount = st.writebackCount
      ∧ (invalidateWay a s tag oc w (b, st)).2.invalidationCount = st.invalidationCount
      ∧ (invalidateWay a s tag oc w (b, st)).2.trafficBytes = st.trafficBytes
      ∧ (invalidateWay a s tag oc w (b, st)).2.stalledCycles = st.stalledCycles
      ∧ (invalidateWay a s tag oc w (b, st)).2.busTransactionCount = st.busTransactionCount
      ∧ (invalidateWay a s tag oc w (b, st)).2.totalBusTraffic = st.totalBusTraffic
      ∧ (invalidateWay a s tag oc w (b, st)).2.processorRunning = st.processorRunning := by
  unfold invalidateWay
  try dsimp only
  repeat' split
  all_goals exact ⟨rfl, rfl, rfl, rfl, rfl, rfl, rfl, rfl, rfl, rfl, rfl, rfl, rfl, rfl, rfl, rfl, rfl, rfl, rfl, rfl⟩

@[simp] theorem invalidateWay_tagArray (a : Int) (s : Nat) (tag : Int) (oc w : Nat) (b : Bool) (st : State) :
    (invalidateWay a s tag oc w (b, st)).2.tagArray = st.tagArray :=
  (invalidateWay_frame a s tag oc w b st).1

@[simp] theorem invalidateWay_validBits (a : Int) (s : Nat) (tag : Int) (oc w : Nat) (b : Bool) (st : State) :
    (invalidateWay a s tag oc w (b, st)).2.validBits = st.validBits :=
  (invalidateWay_frame a s tag oc w b st).2.1

@[simp] theorem invalidateWay_lruOrder (a : Int) (s : Nat) (tag : Int) (oc w : Nat) (b : Bool) (st : State) :
    (invalidateWay a s tag oc w (b, st)).2.lruOrder = st.lruOrder :=
  (invalidateWay_frame a s tag oc w b st).2.2.1

@[simp] theorem invalidateWay_dirtyFlags (a : Int) (s : Nat) (tag : Int) (oc w : Nat) (b : Bool) (st : State) :
    (invalidateWay a s tag oc w (b, st)).2.dirtyFlags = st.dirtyFlags :=
  (invalidateWay_frame a s tag oc w b st).2.2.2.1

@[simp] theorem invalidateWay_busOccupied (a : Int) (s : Nat) (tag : Int) (oc w : Nat) (b : Bool) (st : State) :
    (invalidateWay a s tag oc w (b, st)).2.busOccupied = st.busOccupied :=
  (invalidateWay_frame a s tag oc w b st).2.2.2.2.1

@[simp] theorem invalidateWay_busTickCounter (a : Int) (s : Nat) (tag : Int) (oc w : Nat) (b : Bool) (st : State) :
    (invalidateWay a s tag oc w (b, st)).2.busTickCounter = st.busTickCounter :=
  (invalidateWay_frame a s tag oc w b st).2.2.2.2.2.1

@[simp] theorem invalidateWay_operationCounter (a : Int) (s : Nat) (tag : Int) (oc w : Nat) (b : Bool) (st : State) :
    (invalidateWay a s tag oc w (b, st)).2.operationCounter = st.operationCounter :=
  (invalidateWay_frame a s tag oc w b st).2.2.2.2.2.2.1

@[simp] theorem invalidateWay_pendingRequests (a : Int) (s : Nat) (tag : Int) (oc w : Nat) (b : Bool) (st : State) :
    (invalidateWay a s tag oc w (b, st)).2.pendingRequests = st.pendingRequests :=
  (invalidateWay_frame a s tag oc w b st).2.2.2.2.2.2.2.1

@[simp] theorem invalidateWay_executedInstructions (a : Int) (s : Nat) (tag : Int) (oc w : Nat) (b : Bool) (st : State) :
    (invalidateWay a s tag oc w (b, st)).2.executedInstructions = st.executedInstructions :=
  (invalidateWay_frame a s tag oc w b st).2.2.2.2.2.2.2.2.1

@[simp] theorem invalidateWay_readCount (a : Int) (s : Nat) (tag : Int) (oc w : Nat) (b : Bool) (st : State) :
    (invalidateWay a s tag oc w (b, st)).2.readCount = st.readCount :=
  (invalidateWay_frame a s tag oc w b st).2.2.2.2.2.2.2.2.2.1

@[simp] theorem invalidateWay_writeCount (a : Int) (s : Nat) (tag : Int) (oc w : Nat) (b : Bool) (st : State) :
    (invalidateWay a s tag oc w (b, st)).2.writeCount = st.writeCount :=
  (invalidateWay_frame a s tag oc w b st).2.2.2.2.2.2.2.2.2.2.1

@[simp] theorem invalidateWay_missCount (a : Int) (s : Nat) (tag : Int) (oc w : Nat) (b : Bool) (st : State) :
    (invalidateWay a s tag oc w (b, st)).2.missCount = st.missCount :=
  (invalidateWay_frame a s tag oc w b st).2.2.2.2.2.2.2.2.2.2.2.1

@[simp] theorem invalidateWay_evictionCount (a : Int) (s : Nat) (tag : Int) (oc w : Nat) (b : Bool) (st : State) :
    (invalidateWay a s tag oc w (b, st)).2.evictionCount = st.evictionCount :=
  (invalidateWay_frame a s tag oc w b st).2.2.2.2.2.2.2.2.2.2.2.2.1

@[simp] theorem invalidateWay_writebackCount (a : Int) (s : Nat) (tag : Int) (oc w : Nat) (b : Bool) (st : State) :
    (invalidateWay a s tag oc w (b, st)).2.writebackCount = st.writebackCount :=
  (invalidateWay_frame a s tag oc w b st).2.2.2.2.2.2.2.2.2.2.2.2.2.1

@[simp] theorem invalidateWay_invalidationCount (a : Int) (s : Nat) (tag : Int) (oc w : Nat) (b : Bool) (st : State) :
    (invalidateWay a s tag oc w (b, st)).2.invalidationCount = st.invalidationCount :=
  (invalidateWay_frame a s tag oc w b st).2.2.2.2.2.2.2.2.2.2.2.2.2.2.1

@[simp] theorem invalidateWay_trafficBytes (a : Int) (s : Nat) (tag : Int) (oc w : Nat) (b : Bool) (st : State) :
    (invalidateWay a s tag oc w (b, st)).2.trafficBytes = st.trafficBytes :=
  (invalidateWay_frame a s tag oc w b st).2.2.2.2.2.2.2.2.2.2.2.2.2.2.2.1

@[simp] theorem invalidateWay_stalledCycles (a : Int) (s : Nat) (tag : Int) (oc w : Nat) (b : Bool) (st : State) :
    (invalidateWay a s tag oc w (b, st)).2.stalledCycles = st.stalledCycles :=
  (invalidateWay_frame a s tag oc w b st).2.2.2.2.2.2.2.2.2.2.2.2.2.2.2.2.1

@[simp] theorem invalidateWay_busTransactionCount (a : Int) (s : Nat) (tag : Int) (oc w : Nat) (b : Bool) (st : State) :
    (invalidateWay a s tag oc w (b, st)).2.busTransactionCount = st.busTransactionCount :=
  (invalidateWay_frame a s tag oc w b st).2.2.2.2.2.2.2.2.2.2.2.2.2.2.2.2.2.1

@[simp] theorem invalidateWay_totalBusTraffic (a : Int) (s : Nat) (tag : Int) (oc w : Nat) (b : Bool) (st : State) :
    (invalidateWay a s tag oc w (b, st)).2.totalBusTraffic = st.totalBusTraffic :=
  (invalidateWay_frame a s tag oc w b st).2.2.2.2.2.2.2.2.2.2.2.2.2.2.2.2.2.2.1

@[simp] theorem invalidateWay_processorRunning (a : Int) (s : Nat) (tag : Int) (oc w : Nat) (b : Bool) (st : State) :
    (invalidateWay a s tag oc w (b, st)).2.processorRunning = st.processorRunning :=
  (invalidateWay_frame a s tag oc w b st).2.2.2.2.2.2.2.2.2.2.2.2.2.2.2.2.2.2.2

theorem upgradeInvalidateWay_frame (s : Nat) (tag : Int) (oc w : Nat) (st : State) :
    (upgradeInvalidateWay s tag oc w st).isStalled = st.isStalled
      ∧ (upgradeInvalidateWay s tag oc w st).tagArray = st.tagArray
      ∧ (upgradeInvalidateWay s tag oc w st).validBits = st.validBits
      ∧ (upgradeInvalidateWay s tag oc w st).lruOrder = st.lruOrder
      ∧ (upgradeInvalidateWay s tag oc w st).dirtyFlags = st.dirtyFlags
      ∧ (upgradeInvalidateWay s tag oc w st).pendingOperations = st.pendingOperations
      ∧ (upgradeInvalidateWay s tag oc w st).busOccupied = st.busOccupied
      ∧ (upgradeInvalidateWay s tag oc w st).busTickCounter = st.busTickCounter
      ∧ (upgradeInvalidateWay s tag oc w st).operationCounter = st.operationCounter
      ∧ (upgradeInvalidateWay s tag oc w st).pendingRequests = st.pendingRequests
      ∧ (upgradeInvalidateWay s tag oc w st).dataTransferQueue = st.dataTransferQueue
      ∧ (upgradeInvalidateWay s tag oc w st).totalCycles = st.totalCycles
      ∧ (upgradeInvalidateWay s tag oc w st).executedInstructions = st.executedInstructions
      ∧ (upgradeInvalidateWay s tag oc w st).readCount = st.readCount
      ∧ (upgradeInvalidateWay s tag oc w st).writeCount = st.writeCount
      ∧ (upgradeInvalidateWay s tag oc w st).missCount = st.missCount
      ∧ (upgradeInvalidateWay s tag oc w st).evictionCount = st.evictionCount
      ∧ (upgradeInvalidateWay s tag oc w st).writebackCount = st.writebackCount
      ∧ (upgradeInvalidateWay s tag oc w st).invalidationCount = st.invalidationCount
      ∧ (upgradeInvalidateWay s tag oc w st).trafficBytes = st.trafficBytes
      ∧ (upgradeInvalidateWay s tag oc w st).stalledCycles = st.stalledCycles
      ∧ (upgradeInvalidateWay s tag oc w st).busTransactionCount = st.busTransactionCount
      ∧ (upgradeInvalidateWay s tag oc w st).totalBusTraffic = st.totalBusTraffic
      ∧ (upgradeInvalidateWay s tag oc w st).processorRunning = st.processorRunning
      ∧ (upgradeInvalidateWay s tag oc w st).ghostLog = st.ghostLog := by
  unfold upgradeInvalidateWay
  try dsimp only
  repeat' split
  all_goals exact ⟨rfl, rfl, rfl, rfl, rfl, rfl, rfl, rfl, rfl, rfl, rfl, rfl, rfl, rfl, rfl, rfl, rfl, rfl, rfl, rfl, rfl, rfl, rfl, rfl, rfl⟩

@[simp] theorem upgradeInvalidateWay_isStalled (s : Nat) (tag : Int) (oc w : Nat) (st : State) :
    (upgradeInvalidateWay s tag oc w st).isStalled = st.isStalled :=
  (upgradeInvalidateWay_frame s tag oc w st).1

@[simp] theorem upgradeInvalidateWay_tagArray (s : Nat) (tag : Int) (oc w : Nat) (st : State) :
    (upgradeInvalidateWay s tag oc w st).tagArray = st.tagArray :=
  (upgradeInvalidateWay_frame s tag oc w st).2.1

@[simp] theorem upgradeInvalidateWay_validBits (s : Nat) (tag : Int) (oc w : Nat) (st : State) :
    (upgradeInvalidateWay s tag oc w st).validBits = st.validBits :=
  (upgradeInvalidateWay_frame s tag oc w st).2.2.1

@[simp] theorem upgradeInvalidateWay_lruOrder (s : Nat) (tag : Int) (oc w : Nat) (st : State) :
    (upgradeInvalidateWay s tag oc w st).lruOrder = st.lruOrder :=
  (upgradeInvalidateWay_frame s tag oc w st).2.2.2.1

@[simp] theorem upgradeInvalidateWay_dirtyFlags (s : Nat) (tag : Int) (oc w : Nat) (st : State) :
    (upgradeInvalidateWay s tag oc w st).dirtyFlags = st.dirtyFlags :=
  (upgradeInvalidateWay_frame s tag oc w st).2.2.2.2.1

@[simp] theorem upgradeInvalidateWay_pendingOperations (s : Nat) (tag : Int) (oc w : Nat) (st : State) :
    (upgradeInvalidateWay s tag oc w st).pendingOperations = st.pendingOperations :=
  (upgradeInvalidateWay_frame s tag oc w st).2.2.2.2.2.1

@[simp] theorem upgradeInvalidateWay_busOccupied (s : Nat) (tag : Int) (oc w : Nat) (st : State) :
    (upgradeInvalidateWay s tag oc w st).busOccupied = st.busOccupied :=
  (upgradeInvalidateWay_frame s tag oc w st).2.2.2.2.2.2.1

@[simp] theorem upgradeInvalidateWay_busTickCounter (s : Nat) (tag : Int) (oc w : Nat) (st : State) :
    (upgradeInvalidateWay s tag oc w st).busTickCounter = st.busTickCounter :=
  (upgradeInvalidateWay_frame s tag oc w st).2.2.2.2.2.2.2.1

@[simp] theorem upgradeInvalidateWay_operationCounter (s : Nat) (tag : Int) (oc w : Nat) (st : State) :
    (upgradeInvalidateWay s tag oc w st).operationCounter = st.operationCounter :=
  (upgradeInvalidateWay_frame s tag oc w st).2.2.2.2.2.2.2.2.1

@[simp] theorem upgradeInvalidateWay_pendingRequests (s : Nat) (tag : Int) (oc w : Nat) (st : State) :
    (upgradeInvalidateWay s tag oc w st).pendingRequests = st.pendingRequests :=
  (upgradeInvalidateWay_frame s tag oc w st).2.2.2.2.2.2.2.2.2.1

@[simp] theorem upgradeInvalidateWay_dataTransferQueue (s : Nat) (tag : Int) (oc w : Nat) (st : State) :
    (upgradeInvalidateWay s tag oc w st).dataTransferQueue = st.dataTransferQueue :=
  (upgradeInvalidateWay_frame s tag oc w st).2.2.2.2.2.2.2.2.2.2.1

@[simp] theorem upgradeInvalidateWay_totalCycles (s : Nat) (tag : Int) (oc w : Nat) (st : State) :
    (upgradeInvalidateWay s tag oc w st).totalCycles = st.totalCycles :=
  (upgradeInvalidateWay_frame s tag oc w st).2.2.2.2.2.2.2.2.2.2.2.1

@[simp] theorem upgradeInvalidateWay_executedInstructions (s : Nat) (tag : Int) (oc w : Nat) (st : State) :
    (upgradeInvalidateWay s tag oc w st).executedInstructions = st.executedInstructions :=
  (upgradeInvalidateWay_frame s tag oc w st).2.2.2.2.2.2.2.2.2.2.2.2.1

@[simp] theorem upgradeInvalidateWay_readCount (s : Nat) (tag : Int) (oc w : Nat) (st : State) :
    (upgradeInvalidateWay s tag oc w st).readCount = st.readCount :=
  (upgradeInvalidateWay_frame s tag oc w st).2.2.2.2.2.2.2.2.2.2.2.2.2.1

@[simp] theorem upgradeInvalidateWay_writeCount (s : Nat) (tag : Int) (oc w : Nat) (st : State) :
    (upgradeInvalidateWay s tag oc w st).writeCount = st.writeCount :=
  (upgradeInvalidateWay_frame s tag oc w st).2.2.2.2.2.2.2.2.2.2.2.2.2.2.1

@[simp] theorem upgradeInvalidateWay_missCount (s : Nat) (tag : Int) (oc w : Nat) (st : State) :
    (upgradeInvalidateWay s tag oc w st).missCount = st.missCount :=
  (upgradeInvalidateWay_frame s tag oc w st).2.2.2.2.2.2.2.2.2.2.2.2.2.2.2.1

@[simp] theorem upgradeInvalidateWay_evictionCount (s : Nat) (tag : Int) (oc w : Nat) (st : State) :
    (upgradeInvalidateWay s tag oc w st).evictionCount = st.evictionCount :=
  (upgradeInvalidateWay_frame s tag oc w st).2.2.2.2.2.2.2.2.2.2.2.2.2.2.2.2.1

@[simp] theorem upgradeInvalidateWay_writebackCount (s : Nat) (tag : Int) (oc w : Nat) (st : State) :
    (upgradeInvalidateWay s tag oc w st).writebackCount = st.writebackCount :=
  (upgradeInvalidateWay_frame s tag oc w st).2.2.2.2.2.2.2.2.2.2.2.2.2.2.2.2.2.1

@[simp] theorem upgradeInvalidateWay_invalidationCount (s : Nat) (tag : Int) (oc w : Nat) (st : State) :
    (upgradeInvalidateWay s tag oc w st).invalidationCount = st.invalidationCount :=
  (upgradeInvalidateWay_frame s tag oc w st).2.2.2.2.2.2.2.2.2.2.2.2.2.2.2.2.2.2.1

@[simp] theorem upgradeInvalidateWay_trafficBytes (s : Nat) (tag : Int) (oc w : Nat) (st : State) :
    (upgradeInvalidateWay s tag oc w st).trafficBytes = st.trafficBytes :=
  (upgradeInvalidateWay_frame s tag oc w st).2.2.2.2.2.2.2.2.2.2.2.2.2.2.2.2.2.2.2.1

@[simp] theorem upgradeInvalidateWay_stalledCycles (s : Nat) (tag : Int) (oc w : Nat) (st : State) :
    (upgradeInvalidateWay s tag oc w st).stalledCycles = st.stalledCycles :=
  (upgradeInvalidateWay_frame s tag oc w st).2.2.2.2.2.2.2.2.2.2.2.2.2.2.2.2.2.2.2.2.1

@[simp] theorem upgradeInvalidateWay_busTransactionCount (s : Nat) (tag : Int) (oc w : Nat) (st : State) :
    (upgradeInvalidateWay s tag oc w st).busTransactionCount = st.busTransactionCount :=
  (upgradeInvalidateWay_frame s tag oc w st).2.2.2.2.2.2.2.2.2.2.2.2.2.2.2.2.2.2.2.2.2.1

@[simp] theorem upgradeInvalidateWay_totalBusTraffic (s : Nat) (tag : Int) (oc w : Nat) (st : State) :
    (upgradeInvalidateWay s tag oc w st).totalBusTraffic = st.totalBusTraffic :=
  (upgradeInvalidateWay_frame s tag oc w st).2.2.2.2.2.2.2.2.2.2.2.2.2.2.2.2.2.2.2.2.2.2.1

@[simp] theorem upgradeInvalidateWay_processorRunning (s : Nat) (tag : Int) (oc w : Nat) (st : State) :
    (upgradeInvalidateWay s tag oc w st).processorRunning = st.processorRunning :=
  (upgradeInvalidateWay_frame s tag oc w st).2.2.2.2.2.2.2.2.2.2.2.2.2.2.2.2.2.2.2.2.2.2.2.1

@[simp] theorem upgradeInvalidateWay_ghostLog (s : Nat) (tag : Int) (oc w : Nat) (st : State) :
    (upgradeInvalidateWay s tag oc w st).ghostLog = st.ghostLog :=
  (upgradeInvalidateWay_frame s tag oc w st).2.2.2.2.2.2.2.2.2.2.2.2.2.2.2.2.2.2.2.2.2.2.2.2

theorem serviceReadShared_frame (cfg : Config) (st : State) (r : Nat) (a : Int) (s : Nat) (tag : Int) :
    (serviceReadShared cfg st r a s tag).tagArray = st.tagArray
      ∧ (serviceReadShared cfg st r a s tag).validBits = st.validBits
      ∧ (serviceReadShared cfg st r a s tag).lruOrder = st.lruOrder
      ∧ (serviceReadShared cfg st r a s tag).dirtyFlags = st.dirtyFlags
      ∧ (serviceReadShared cfg st r a s tag).busTickCounter = st.busTickCounter
      ∧ (serviceReadShared cfg st r a s tag).operationCounter = st.operationCounter
      ∧ (serviceReadShared cfg st r a s tag).pendingRequests = st.pendingRequests
      ∧ (serviceReadShared cfg st r a s tag).executedInstructions = st.executedInstructions
      ∧ (serviceReadShared cfg st r a s tag).readCount = st.readCount
      ∧ (serviceReadShared cfg st r a s tag).writeCount = st.writeCount
      ∧ (serviceReadShared cfg st r a s tag).evictionCount = st.evictionCount
      ∧ (serviceReadShared cfg st r a s tag).writebackCount = st.writebackCount
      ∧ (serviceReadShared cfg st r a s tag).invalidationCount = st.invalidationCount
      ∧ (serviceReadShared cfg st r a s tag).totalBusTraffic = st.totalBusTraffic
      ∧ (serviceReadShared cfg st r a s tag).processorRunning = st.processorRunning := by
  unfold serviceReadShared
  try dsimp only
  repeat' split
  all_goals exact ⟨rfl, rfl, rfl, rfl, rfl, rfl, rfl, rfl, rfl, rfl, rfl, rfl, rfl, rfl, rfl⟩

@[simp] theorem serviceReadShared_tagArray (cfg : Config) (st : State) (r : Nat) (a : Int) (s : Nat) (tag : Int) :
    (serviceReadShared cfg st r a s tag).tagArray = st.tagArray :=
  (serviceReadShared_frame cfg st r a s tag).1

@[simp] theorem serviceReadShared_validBits (cfg : Config) (st : State) (r : Nat) (a : Int) (s : Nat) (tag : Int) :
    (serviceReadShared cfg st r a s tag).validBits = st.validBits :=
  (serviceReadShared_frame cfg st r a s tag).2.1

@[simp] theorem serviceReadShared_lruOrder (cfg : Config) (st : State) (r : Nat) (a : Int) (s : Nat) (tag : Int) :
    (serviceReadShared cfg st r a s tag).lruOrder = st.lruOrder :=
  (serviceReadShared_frame cfg st r a s tag).2.2.1

@[simp] theorem serviceReadShared_dirtyFlags (cfg : Config) (st : State) (r : Nat) (a : Int) (s : Nat) (tag : Int) :
    (serviceReadShared cfg st r a s tag).dirtyFlags = st.dirtyFlags :=
  (serviceReadShared_frame cfg st r a s tag).2.2.2.1

@[simp] theorem serviceReadShared_busTickCounter (cfg : Config) (st : State) (r : Nat) (a : Int) (s : Nat) (tag : Int) :
    (serviceReadShared cfg st r a s tag).busTickCounter = st.busTickCounter :=
  (serviceReadShared_frame cfg st r a s tag).2.2.2.2.1

@[simp] theorem serviceReadShared_operationCounter (cfg : Config) (st : State) (r : Nat) (a : Int) (s : Nat) (tag : Int) :
    (serviceReadShared cfg st r a s tag).operationCounter = st.operationCounter :=
  (serviceReadShared_frame cfg st r a s tag).2.2.2.2.2.1

@[simp] theorem serviceReadShared_pendingRequests (cfg : Config) (st : State) (r : Nat) (a : Int) (s : Nat) (tag : Int) :
    (serviceReadShared cfg st r a s tag).pendingRequests = st.pendingRequests :=
  (serviceReadShared_frame cfg st r a s tag).2.2.2.2.2.2.1

@[simp] theorem serviceReadShared_executedInstructions (cfg : Config) (st : State) (r : Nat) (a : Int) (s : Nat) (tag : Int) :
    (serviceReadShared cfg st r a s tag).executedInstructions = st.executedInstructions :=
  (serviceReadShared_frame cfg st r a s tag).2.2.2.2.2.2.2.1

@[simp] theorem serviceReadShared_readCount (cfg : Config) (st : State) (r : Nat) (a : Int) (s : Nat) (tag : Int) :
    (serviceReadShared cfg st r a s tag).readCount = st.readCount :=
  (serviceReadShared_frame cfg st r a s tag).2.2.2.2.2.2.2.2.1

@[simp] theorem serviceReadShared_writeCount (cfg : Config) (st : State) (r : Nat) (a : Int) (s : Nat) (tag : Int) :
    (serviceReadShared cfg st r a s tag).writeCount = st.writeCount :=
  (serviceReadShared_frame cfg st r a s tag).2.2.2.2.2.2.2.2.2.1

@[simp] theorem serviceReadShared_evictionCount (cfg : Config) (st : State) (r : Nat) (a : Int) (s : Nat) (tag : Int) :
    (serviceReadShared cfg st r a s tag).evictionCount = st.evictionCount :=
  (serviceReadShared_frame cfg st r a s tag).2.2.2.2.2.2.2.2.2.2.1

@[simp] theorem serviceReadShared_writebackCount (cfg : Config) (st : State) (r : Nat) (a : Int) (s : Nat) (tag : Int) :
    (serviceReadShared cfg st r a s tag).writebackCount = st.writebackCount :=
  (serviceReadShared_frame cfg st r a s tag).2.2.2.2.2.2.2.2.2.2.2.1

@[simp] theorem serviceReadShared_invalidationCount (cfg : Config) (st : State) (r : Nat) (a : Int) (s : Nat) (tag : Int) :
    (serviceReadShared cfg st r a s tag).invalidationCount = st.invalidationCount :=
  (serviceReadShared_frame cfg st r a s tag).2.2.2.2.2.2.2.2.2.2.2.2.1

@[simp] theorem serviceReadShared_totalBusTraffic (cfg : Config) (st : State) (r : Nat) (a : Int) (s : Nat) (tag : Int) :
    (serviceReadShared cfg st r a s tag).totalBusTraffic = st.totalBusTraffic :=
  (serviceReadShared_frame cfg st r a s tag).2.2.2.2.2.2.2.2.2.2.2.2.2.1

@[simp] theorem serviceReadShared_processorRunning (cfg : Config) (st : State) (r : Nat) (a : Int) (s : Nat) (tag : Int) :
    (serviceReadShared cfg st r a s tag).processorRunning = st.processorRunning :=
  (serviceReadShared_frame cfg st r a s tag).2.2.2.2.2.2.2.2.2.2.2.2.2.2

theorem invalidateOthers_frame (cfg : Config) (r : Nat) (a : Int) (s : Nat) (tag : Int)
    (b : Bool) (st : State) :
    (invalidateOthers cfg r a s tag (b, st)).2.tagArray = st.tagArray ∧ (invalidateOthers cfg r a s tag (b, st)).2.validBits = st.validBits ∧ (invalidateOthers cfg r a s tag (b, st)).2.lruOrder = st.lruOrder ∧ (invalidateOthers cfg r a s tag (b, st)).2.dirtyFlags = st.dirtyFlags ∧ (invalidateOthers cfg r a s tag (b, st)).2.busOccupied = st.busOccupied ∧ (invalidateOthers cfg r a s tag (b, st)).2.busTickCounter = st.busTickCounter ∧ (invalidateOthers cfg r a s tag (b, st)).2.operationCounter = st.operationCounter ∧ (invalidateOthers cfg r a s tag (b, st)).2.pendingRequests = st.pendingRequests ∧ (invalidateOthers cfg r a s tag (b, st)).2.executedInstructions = st.executedInstructions ∧ (invalidateOthers cfg r a s tag (b, st)).2.readCount = st.readCount ∧ (invalidateOthers cfg r a s tag (b, st)).2.writeCount = st.writeCount ∧ (invalidateOthers cfg r a s tag (b, st)).2.missCount = st.missCount ∧ (invalidateOthers cfg r a s tag (b, st)).2.evictionCount = st.evictionCount ∧ (invalidateOthers cfg r a s tag (b, st)).2.writebackCount = st.writebackCount ∧ (invalidateOthers cfg r a s tag (b, st)).2.invalidationCount = st.invalidationCount ∧ (invalidateOthers cfg r a s tag (b, st)).2.trafficBytes = st.trafficBytes ∧ (invalidateOthers cfg r a s tag (b, st)).2.stalledCycles = st.stalledCycles ∧ (invalidateOthers cfg r a s tag (b, st)).2.busTransactionCount = st.busTransactionCount ∧ (invalidateOthers cfg r a s tag (b, st)).2.totalBusTraffic = st.totalBusTraffic ∧ (invalidateOthers cfg r a s tag (b, st)).2.processorRunning = st.processorRunning := by
  unfold invalidateOthers
  refine forLoop_preserves (fun acc : Bool × State => acc.2.tagArray = st.tagArray ∧ acc.2.validBits = st.validBits ∧ acc.2.lruOrder = st.lruOrder ∧ acc.2.dirtyFlags = st.dirtyFlags ∧ acc.2.busOccupied = st.busOccupied ∧ acc.2.busTickCounter = st.busTickCounter ∧ acc.2.operationCounter = st.operationCounter ∧ acc.2.pendingRequests = st.pendingRequests ∧ acc.2.executedInstructions = st.executedInstructions ∧ acc.2.readCount = st.readCount ∧ acc.2.writeCount = st.writeCount ∧ acc.2.missCount = st.missCount ∧ acc.2.evictionCount = st.evictionCount ∧ acc.2.writebackCount = st.writebackCount ∧ acc.2.invalidationCount = st.invalidationCount ∧ acc.2.trafficBytes = st.trafficBytes ∧ acc.2.stalledCycles = st.stalledCycles ∧ acc.2.busTransactionCount = st.busTransactionCount ∧ acc.2.totalBusTraffic = st.totalBusTraffic ∧ acc.2.processorRunning = st.processorRunning) _ _ ?_ _ ⟨rfl, rfl, rfl, rfl, rfl, rfl, rfl, rfl, rfl, rfl, rfl, rfl, rfl, rfl, rfl, rfl, rfl, rfl, rfl, rfl⟩
  intro oc acc _ h
  dsimp only
  split
  · refine forLoop_preserves (fun acc : Bool × State => acc.2.tagArray = st.tagArray ∧ acc.2.validBits = st.validBits ∧ acc.2.lruOrder = st.lruOrder ∧ acc.2.dirtyFlags = st.dirtyFlags ∧ acc.2.busOccupied = st.busOccupied ∧ acc.2.busTickCounter = st.busTickCounter ∧ acc.2.operationCounter = st.operationCounter ∧ acc.2.pendingRequests = st.pendingRequests ∧ acc.2.executedInstructions = st.executedInstructions ∧ acc.2.readCount = st.readCount ∧ acc.2.writeCount = st.writeCount ∧ acc.2.missCount = st.missCount ∧ acc.2.evictionCount = st.evictionCount ∧ acc.2.writebackCount = st.writebackCount ∧ acc.2.invalidationCount = st.invalidationCount ∧ acc.2.trafficBytes = st.trafficBytes ∧ acc.2.stalledCycles = st.stalledCycles ∧ acc.2.busTransactionCount = st.busTransactionCount ∧ acc.2.totalBusTraffic = st.totalBusTraffic ∧ acc.2.processorRunning = st.processorRunning) _ _ ?_ _ h
    intro w acc2 _ h2
    have h3 := invalidateWay_frame a s tag oc w acc2.1 acc2.2
    simp only [Prod.mk.eta] at h3
    simp only [h3, h2, and_self]
  · exact h

@[simp] theorem invalidateOthers_tagArray (cfg : Config) (r : Nat) (a : Int) (s : Nat) (tag : Int)
    (b : Bool) (st : State) :
    (invalidateOthers cfg r a s tag (b, st)).2.tagArray = st.tagArray :=
  (invalidateOthers_frame cfg r a s tag b st).1

@[simp] theorem invalidateOthers_validBits (cfg : Config) (r : Nat) (a : Int) (s : Nat) (tag : Int)
    (b : Bool) (st : State) :
    (invalidateOthers cfg r a s tag (b, st)).2.validBits = st.validBits :=
  (invalidateOthers_frame cfg r a s tag b st).2.1

@[simp] theorem invalidateOthers_lruOrder (cfg : Config) (r : Nat) (a : Int) (s : Nat) (tag : Int)
    (b : Bool) (st : State) :
    (invalidateOthers cfg r a s tag (b, st)).2.lruOrder = st.lruOrder :=
  (invalidateOthers_frame cfg r a s tag b st).2.2.1

@[simp] theorem invalidateOthers_dirtyFlags (cfg : Config) (r : Nat) (a : Int) (s : Nat) (tag : Int)
    (b : Bool) (st : State) :
    (invalidateOthers cfg r a s tag (b, st)).2.dirtyFlags = st.dirtyFlags :=
  (invalidateOthers_frame cfg r a s tag b st).2.2.2.1

@[simp] theorem invalidateOthers_busOccupied (cfg : Config) (r : Nat) (a : Int) (s : Nat) (tag : Int)
    (b : Bool) (st : State) :
    (invalidateOthers cfg r a s tag (b, st)).2.busOccupied = st.busOccupied :=
  (invalidateOthers_frame cfg r a s tag b st).2.2.2.2.1

@[simp] theorem invalidateOthers_busTickCounter (cfg : Config) (r : Nat) (a : Int) (s : Nat) (tag : Int)
    (b : Bool) (st : State) :
    (invalidateOthers cfg r a s tag (b, st)).2.busTickCounter = st.busTickCounter :=
  (invalidateOthers_frame cfg r a s tag b st).2.2.2.2.2.1

@[simp] theorem invalidateOthers_operationCounter (cfg : Config) (r : Nat) (a : Int) (s : Nat) (tag : Int)
    (b : Bool) (st : State) :
    (invalidateOthers cfg r a s tag (b, st)).2.operationCounter = st.operationCounter :=
  (invalidateOthers_frame cfg r a s tag b st).2.2.2.2.2.2.1

@[simp] theorem invalidateOthers_pendingRequests (cfg : Config) (r : Nat) (a : Int) (s : Nat) (tag : Int)
    (b : Bool) (st : State) :
    (invalidateOthers cfg r a s tag (b, st)).2.pendingRequests = st.pendingRequests :=
  (invalidateOthers_frame cfg r a s tag b st).2.2.2.2.2.2.2.1

@[simp] theorem invalidateOthers_executedInstructions (cfg : Config) (r : Nat) (a : Int) (s : Nat) (tag : Int)
    (b : Bool) (st : State) :
    (invalidateOthers cfg r a s tag (b, st)).2.executedInstructions = st.executedInstructions :=
  (invalidateOthers_frame cfg r a s tag b st).2.2.2.2.2.2.2.2.1

@[simp] theorem invalidateOthers_readCount (cfg : Config) (r : Nat) (a : Int) (s : Nat) (tag : Int)
    (b : Bool) (st : State) :
    (invalidateOthers cfg r a s tag (b, st)).2.readCount = st.readCount :=
  (invalidateOthers_frame cfg r a s tag b st).2.2.2.2.2.2.2.2.2.1

@[simp] theorem invalidateOthers_writeCount (cfg : Config) (r : Nat) (a : Int) (s : Nat) (tag : Int)
    (b : Bool) (st : State) :
    (invalidateOthers cfg r a s tag (b, st)).2.writeCount = st.writeCount :=
  (invalidateOthers_frame cfg r a s tag b st).2.2.2.2.2.2.2.2.2.2.1

@[simp] theorem invalidateOthers_missCount (cfg : Config) (r : Nat) (a : Int) (s : Nat) (tag : Int)
    (b : Bool) (st : State) :
    (invalidateOthers cfg r a s tag (b, st)).2.missCount = st.missCount :=
  (invalidateOthers_frame cfg r a s tag b st).2.2.2.2.2.2.2.2.2.2.2.1

@[simp] theorem invalidateOthers_evictionCount (cfg : Config) (r : Nat) (a : Int) (s : Nat) (tag : Int)
    (b : Bool) (st : State) :
    (invalidateOthers cfg r a s tag (b, st)).2.evictionCount = st.evictionCount :=
  (invalidateOthers_frame cfg r a s tag b st).2.2.2.2.2.2.2.2.2.2.2.2.1

@[simp] theorem invalidateOthers_writebackCount (cfg : Config) (r : Nat) (a : Int) (s : Nat) (tag : Int)
    (b : Bool) (st : State) :
    (invalidateOthers cfg r a s tag (b, st)).2.writebackCount = st.writebackCount :=
  (invalidateOthers_frame cfg r a s tag b st).2.2.2.2.2.2.2.2.2.2.2.2.2.1

@[simp] theorem invalidateOthers_invalidationCount (cfg : Config) (r : Nat) (a : Int) (s : Nat) (tag : Int)
    (b : Bool) (st : State) :
    (invalidateOthers cfg r a s tag (b, st)).2.invalidationCount = st.invalidationCount :=
  (invalidateOthers_frame cfg r a s tag b st).2.2.2.2.2.2.2.2.2.2.2.2.2.2.1

@[simp] theorem invalidateOthers_trafficBytes (cfg : Config) (r : Nat) (a : Int) (s : Nat) (tag : Int)
    (b : Bool) (st : State) :
    (invalidateOthers cfg r a s tag (b, st)).2.trafficBytes = st.trafficBytes :=
  (invalidateOthers_frame cfg r a s tag b st).2.2.2.2.2.2.2.2.2.2.2.2.2.2.2.1

@[simp] theorem invalidateOthers_stalledCycles (cfg : Config) (r : Nat) (a : Int) (s : Nat) (tag : Int)
    (b : Bool) (st : State) :
    (invalidateOthers cfg r a s tag (b, st)).2.stalledCycles = st.stalledCycles :=
  (invalidateOthers_frame cfg r a s tag b st).2.2.2.2.2.2.2.2.2.2.2.2.2.2.2.2.1

@[simp] theorem invalidateOthers_busTransactionCount (cfg : Config) (r : Nat) (a : Int) (s : Nat) (tag : Int)
    (b : Bool) (st : State) :
    (invalidateOthers cfg r a s tag (b, st)).2.busTransactionCount = st.busTransactionCount :=
  (invalidateOthers_frame cfg r a s tag b st).2.2.2.2.2.2.2.2.2.2.2.2.2.2.2.2.2.1

@[simp] theorem invalidateOthers_totalBusTraffic (cfg : Config) (r : Nat) (a : Int) (s : Nat) (tag : Int)
    (b : Bool) (st : State) :
    (invalidateOthers cfg r a s tag (b, st)).2.totalBusTraffic = st.totalBusTraffic :=
  (invalidateOthers_frame cfg r a s tag b st).2.2.2.2.2.2.2.2.2.2.2.2.2.2.2.2.2.2.1

@[simp] theorem invalidateOthers_processorRunning (cfg : Config) (r : Nat) (a : Int) (s : Nat) (tag : Int)
    (b : Bool) (st : State) :
    (invalidateOthers cfg r a s tag (b, st)).2.processorRunning = st.processorRunning :=
  (invalidateOthers_frame cfg r a s tag b st).2.2.2.2.2.2.2.2.2.2.2.2.2.2.2.2.2.2.2

theorem upgradeInvalidateOthers_frame (cfg : Config) (r s : Nat) (tag : Int) (st : State) :
    (upgradeInvalidateOthers cfg r s tag st).isStalled = st.isStalled ∧ (upgradeInvalidateOthers cfg r s tag st).tagArray = st.tagArray ∧ (upgradeInvalidateOthers cfg r s tag st).validBits = st.validBits ∧ (upgradeInvalidateOthers cfg r s tag st).lruOrder = st.lruOrder ∧ (upgradeInvalidateOthers cfg r s tag st).dirtyFlags = st.dirtyFlags ∧ (upgradeInvalidateOthers cfg r s tag st).pendingOperations = st.pendingOperations ∧ (upgradeInvalidateOthers cfg r s tag st).busOccupied = st.busOccupied ∧ (upgradeInvalidateOthers cfg r s tag st).busTickCounter = st.busTickCounter ∧ (upgradeInvalidateOthers cfg r s tag st).operationCounter = st.operationCounter ∧ (upgradeInvalidateOthers cfg r s tag st).pendingRequests = st.pendingRequests ∧ (upgradeInvalidateOthers cfg r s tag st).dataTransferQueue = st.dataTransferQueue ∧ (upgradeInvalidateOthers cfg r s tag st).totalCycles = st.totalCycles ∧ (upgradeInvalidateOthers cfg r s tag st).executedInstructions = st.executedInstructions ∧ (upgradeInvalidateOthers cfg r s tag st).readCount = st.readCount ∧ (upgradeInvalidateOthers cfg r s tag st).writeCount = st.writeCount ∧ (upgradeInvalidateOthers cfg r s tag st).missCount = st.missCount ∧ (upgradeInvalidateOthers cfg r s tag st).evictionCount = st.evictionCount ∧ (upgradeInvalidateOthers cfg r s tag st).writebackCount = st.writebackCount ∧ (upgradeInvalidateOthers cfg r s tag st).invalidationCount = st.invalidationCount ∧ (upgradeInvalidateOthers cfg r s tag st).trafficBytes = st.trafficBytes ∧ (upgradeInvalidateOthers cfg r s tag st).stalledCycles = st.stalledCycles ∧ (upgradeInvalidateOthers cfg r s tag st).busTransactionCount = st.busTransactionCount ∧ (upgradeInvalidateOthers cfg r s tag st).totalBusTraffic = st.totalBusTraffic ∧ (upgradeInvalidateOthers cfg r s tag st).processorRunning = st.processorRunning ∧ (upgradeInvalidateOthers cfg r s tag st).ghostLog = st.ghostLog := by
  unfold upgradeInvalidateOthers
  refine forLoop_preserves (fun acc : State => acc.isStalled = st.isStalled ∧ acc.tagArray = st.tagArray ∧ acc.validBits = st.validBits ∧ acc.lruOrder = st.lruOrder ∧ acc.dirtyFlags = st.dirtyFlags ∧ acc.pendingOperations = st.pendingOperations ∧ acc.busOccupied = st.busOccupied ∧ acc.busTickCounter = st.busTickCounter ∧ acc.operationCounter = st.operationCounter ∧ acc.pendingRequests = st.pendingRequests ∧ acc.dataTransferQueue = st.dataTransferQueue ∧ acc.totalCycles = st.totalCycles ∧ acc.executedInstructions = st.executedInstructions ∧ acc.readCount = st.readCount ∧ acc.writeCount = st.writeCount ∧ acc.missCount = st.missCount ∧ acc.evictionCount = st.evictionCount ∧ acc.writebackCount = st.writebackCount ∧ acc.invalidationCount = st.invalidationCount ∧ acc.trafficBytes = st.trafficBytes ∧ acc.stalledCycles = st.stalledCycles ∧ acc.busTransactionCount = st.busTransactionCount ∧ acc.totalBusTraffic = st.totalBusTraffic ∧ acc.processorRunning = st.processorRunning ∧ acc.ghostLog = st.ghostLog) _ _ ?_ _ ⟨rfl, rfl, rfl, rfl, rfl, rfl, rfl, rfl, rfl, rfl, rfl, rfl, rfl, rfl, rfl, rfl, rfl, rfl, rfl, rfl, rfl, rfl, rfl, rfl, rfl⟩
  intro oc acc _ h
  dsimp only
  split
  · refine forLoop_preserves (fun acc : State => acc.isStalled = st.isStalled ∧ acc.tagArray = st.tagArray ∧ acc.validBits = st.validBits ∧ acc.lruOrder = st.lruOrder ∧ acc.dirtyFlags = st.dirtyFlags ∧ acc.pendingOperations = st.pendingOperations ∧ acc.busOccupied = st.busOccupied ∧ acc.busTickCounter = st.busTickCounter ∧ acc.operationCounter = st.operationCounter ∧ acc.pendingRequests = st.pendingRequests ∧ acc.dataTransferQueue = st.dataTransferQueue ∧ acc.totalCycles = st.totalCycles ∧ acc.executedInstructions = st.executedInstructions ∧ acc.readCount = st.readCount ∧ acc.writeCount = st.writeCount ∧ acc.missCount = st.missCount ∧ acc.evictionCount = st.evictionCount ∧ acc.writebackCount = st.writebackCount ∧ acc.invalidationCount = st.invalidationCount ∧ acc.trafficBytes = st.trafficBytes ∧ acc.stalledCycles = st.stalledCycles ∧ acc.busTransactionCount = st.busTransactionCount ∧ acc.totalBusTraffic = st.totalBusTraffic ∧ acc.processorRunning = st.processorRunning ∧ acc.ghostLog = st.ghostLog) _ _ ?_ _ h
    intro w acc2 _ h2
    have h3 := upgradeInvalidateWay_frame s tag oc w acc2
    simp only [h3, h2, and_self]
  · exact h

@[simp] theorem upgradeInvalidateOthers_isStalled (cfg : Config) (r s : Nat) (tag : Int) (st : State) :
    (upgradeInvalidateOthers cfg r s tag st).isStalled = st.isStalled :=
  (upgradeInvalidateOthers_frame cfg r s tag st).1

@[simp] theorem upgradeInvalidateOthers_tagArray (cfg : Config) (r s : Nat) (tag : Int) (st : State) :
    (upgradeInvalidateOthers cfg r s tag st).tagArray = st.tagArray :=
  (upgradeInvalidateOthers_frame cfg r s tag st).2.1

@[simp] theorem upgradeInvalidateOthers_validBits (cfg : Config) (r s : Nat) (tag : Int) (st : State) :
    (upgradeInvalidateOthers cfg r s tag st).validBits = st.validBits :=
  (upgradeInvalidateOthers_frame cfg r s tag st).2.2.1

@[simp] theorem upgradeInvalidateOthers_lruOrder (cfg : Config) (r s : Nat) (tag : Int) (st : State) :
    (upgradeInvalidateOthers cfg r s tag st).lruOrder = st.lruOrder :=
  (upgradeInvalidateOthers_frame cfg r s tag st).2.2.2.1

@[simp] theorem upgradeInvalidateOthers_dirtyFlags (cfg : Config) (r s : Nat) (tag : Int) (st : State) :
    (upgradeInvalidateOthers cfg r s tag st).dirtyFlags = st.dirtyFlags :=
  (upgradeInvalidateOthers_frame cfg r s tag st).2.2.2.2.1

@[simp] theorem upgradeInvalidateOthers_pendingOperations (cfg : Config) (r s : Nat) (tag : Int) (st : State) :
    (upgradeInvalidateOthers cfg r s tag st).pendingOperations = st.pendingOperations :=
  (upgradeInvalidateOthers_frame cfg r s tag st).2.2.2.2.2.1

@[simp] theorem upgradeInvalidateOthers_busOccupied (cfg : Config) (r s : Nat) (tag : Int) (st : State) :
    (upgradeInvalidateOthers cfg r s tag st).busOccupied = st.busOccupied :=
  (upgradeInvalidateOthers_frame cfg r s tag st).2.2.2.2.2.2.1

@[simp] theorem upgradeInvalidateOthers_busTickCounter (cfg : Config) (r s : Nat) (tag : Int) (st : State) :
    (upgradeInvalidateOthers cfg r s tag st).busTickCounter = st.busTickCounter :=
  (upgradeInvalidateOthers_frame cfg r s tag st).2.2.2.2.2.2.2.1

@[simp] theorem upgradeInvalidateOthers_operationCounter (cfg : Config) (r s : Nat) (tag : Int) (st : State) :
    (upgradeInvalidateOthers cfg r s tag st).operationCounter = st.operationCounter :=
  (upgradeInvalidateOthers_frame cfg r s tag st).2.2.2.2.2.2.2.2.1

@[simp] theorem upgradeInvalidateOthers_pendingRequests (cfg : Config) (r s : Nat) (tag : Int) (st : State) :
    (upgradeInvalidateOthers cfg r s tag st).pendingRequests = st.pendingRequests :=
  (upgradeInvalidateOthers_frame cfg r s tag st).2.2.2.2.2.2.2.2.2.1

@[simp] theorem upgradeInvalidateOthers_dataTransferQueue (cfg : Config) (r s : Nat) (tag : Int) (st : State) :
    (upgradeInvalidateOthers cfg r s tag st).dataTransferQueue = st.dataTransferQueue :=
  (upgradeInvalidateOthers_frame cfg r s tag st).2.2.2.2.2.2.2.2.2.2.1

@[simp] theorem upgradeInvalidateOthers_totalCycles (cfg : Config) (r s : Nat) (tag : Int) (st : State) :
    (upgradeInvalidateOthers cfg r s tag st).totalCycles = st.totalCycles :=
  (upgradeInvalidateOthers_frame cfg r s tag st).2.2.2.2.2.2.2.2.2.2.2.1

@[simp] theorem upgradeInvalidateOthers_executedInstructions (cfg : Config) (r s : Nat) (tag : Int) (st : State) :
    (upgradeInvalidateOthers cfg r s tag st).executedInstructions = st.executedInstructions :=
  (upgradeInvalidateOthers_frame cfg r s tag st).2.2.2.2.2.2.2.2.2.2.2.2.1

@[simp] theorem upgradeInvalidateOthers_readCount (cfg : Config) (r s : Nat) (tag : Int) (st : State) :
    (upgradeInvalidateOthers cfg r s tag st).readCount = st.readCount :=
  (upgradeInvalidateOthers_frame cfg r s tag st).2.2.2.2.2.2.2.2.2.2.2.2.2.1

@[simp] theorem upgradeInvalidateOthers_writeCount (cfg : Config) (r s : Nat) (tag : Int) (st : State) :
    (upgradeInvalidateOthers cfg r s tag st).writeCount = st.writeCount :=
  (upgradeInvalidateOthers_frame cfg r s tag st).2.2.2.2.2.2.2.2.2.2.2.2.2.2.1

@[simp] theorem upgradeInvalidateOthers_missCount (cfg : Config) (r s : Nat) (tag : Int) (st : State) :
    (upgradeInvalidateOthers cfg r s tag st).missCount = st.missCount :=
  (upgradeInvalidateOthers_frame cfg r s tag st).2.2.2.2.2.2.2.2.2.2.2.2.2.2.2.1

@[simp] theorem upgradeInvalidateOthers_evictionCount (cfg : Config) (r s : Nat) (tag : Int) (st : State) :
    (upgradeInvalidateOthers cfg r s tag st).evictionCount = st.evictionCount :=
  (upgradeInvalidateOthers_frame cfg r s tag st).2.2.2.2.2.2.2.2.2.2.2.2.2.2.2.2.1

@[simp] theorem upgradeInvalidateOthers_writebackCount (cfg : Config) (r s : Nat) (tag : Int) (st : State) :
    (upgradeInvalidateOthers cfg r s tag st).writebackCount = st.writebackCount :=
  (upgradeInvalidateOthers_frame cfg r s tag st).2.2.2.2.2.2.2.2.2.2.2.2.2.2.2.2.2.1

@[simp] theorem upgradeInvalidateOthers_invalidationCount (cfg : Config) (r s : Nat) (tag : Int) (st : State) :
    (upgradeInvalidateOthers cfg r s tag st).invalidationCount = st.invalidationCount :=
  (upgradeInvalidateOthers_frame cfg r s tag st).2.2.2.2.2.2.2.2.2.2.2.2.2.2.2.2.2.2.1

@[simp] theorem upgradeInvalidateOthers_trafficBytes (cfg : Config) (r s : Nat) (tag : Int) (st : State) :
    (upgradeInvalidateOthers cfg r s tag st).trafficBytes = st.trafficBytes :=
  (upgradeInvalidateOthers_frame cfg r s tag st).2.2.2.2.2.2.2.2.2.2.2.2.2.2.2.2.2.2.2.1

@[simp] theorem upgradeInvalidateOthers_stalledCycles (cfg : Config) (r s : Nat) (tag : Int) (st : State) :
    (upgradeInvalidateOthers cfg r s tag st).stalledCycles = st.stalledCycles :=
  (upgradeInvalidateOthers_frame cfg r s tag st).2.2.2.2.2.2.2.2.2.2.2.2.2.2.2.2.2.2.2.2.1

@[simp] theorem upgradeInvalidateOthers_busTransactionCount (cfg : Config) (r s : Nat) (tag : Int) (st : State) :
    (upgradeInvalidateOthers cfg r s tag st).busTransactionCount = st.busTransactionCount :=
  (upgradeInvalidateOthers_frame cfg r s tag st).2.2.2.2.2.2.2.2.2.2.2.2.2.2.2.2.2.2.2.2.2.1

@[simp] theorem upgradeInvalidateOthers_totalBusTraffic (cfg : Config) (r s : Nat) (tag : Int) (st : State) :
    (upgradeInvalidateOthers cfg r s tag st).totalBusTraffic = st.totalBusTraffic :=
  (upgradeInvalidateOthers_frame cfg r s tag st).2.2.2.2.2.2.2.2.2.2.2.2.2.2.2.2.2.2.2.2.2.2.1

@[simp] theorem upgradeInvalidateOthers_processorRunning (cfg : Config) (r s : Nat) (tag : Int) (st : State) :
    (upgradeInvalidateOthers cfg r s tag st).processorRunning = st.processorRunning :=
  (upgradeInvalidateOthers_frame cfg r s tag st).2.2.2.2.2.2.2.2.2.2.2.2.2.2.2.2.2.2.2.2.2.2.2.1

@[simp] theorem upgradeInvalidateOthers_ghostLog (cfg : Config) (r s : Nat) (tag : Int) (st : State) :
    (upgradeInvalidateOthers cfg r s tag st).ghostLog = st.ghostLog :=
  (upgradeInvalidateOthers_frame cfg r s tag st).2.2.2.2.2.2.2.2.2.2.2.2.2.2.2.2.2.2.2.2.2.2.2.2

theorem serviceReadExclusive_frame (cfg : Config) (st : State) (r : Nat) (a : Int) (s : Nat) (tag : Int) :
    (serviceReadExclusive cfg st r a s tag).tagArray = st.tagArray
      ∧ (serviceReadExclusive cfg st r a s tag).validBits = st.validBits
      ∧ (serviceReadExclusive cfg st r a s tag).lruOrder = st.lruOrder
      ∧ (serviceReadExclusive cfg st r a s tag).dirtyFlags = st.dirtyFlags
      ∧ (serviceReadExclusive cfg st r a s tag).busTickCounter = st.busTickCounter
      ∧ (serviceReadExclusive cfg st r a s tag).operationCounter = st.operationCounter
      ∧ (serviceReadExclusive cfg st r a s tag).pendingRequests = st.pendingRequests
      ∧ (serviceReadExclusive cfg st r a s tag).executedInstructions = st.executedInstructions
      ∧ (serviceReadExclusive cfg st r a s tag).readCount = st.readCount
      ∧ (serviceReadExclusive cfg st r a s tag).writeCount = st.writeCount
      ∧ (serviceReadExclusive cfg st r a s tag).evictionCount = st.evictionCount
      ∧ (serviceReadExclusive cfg st r a s tag).writebackCount = st.writebackCount
      ∧ (serviceReadExclusive cfg st r a s tag).trafficBytes = st.trafficBytes
      ∧ (serviceReadExclusive cfg st r a s tag).stalledCycles = st.stalledCycles
      ∧ (serviceReadExclusive cfg st r a s tag).totalBusTraffic = st.totalBusTraffic
      ∧ (serviceReadExclusive cfg st r a s tag).processorRunning = st.processorRunning := by
  unfold serviceReadExclusive
  try dsimp only
  repeat' split
  all_goals simp

@[simp] theorem serviceReadExclusive_tagArray (cfg : Config) (st : State) (r : Nat) (a : Int) (s : Nat) (tag : Int) :
    (serviceReadExclusive cfg st r a s tag).tagArray = st.tagArray :=
  (serviceReadExclusive_frame cfg st r a s tag).1

@[simp] theorem serviceReadExclusive_validBits (cfg : Config) (st : State) (r : Nat) (a : Int) (s : Nat) (tag : Int) :
    (serviceReadExclusive cfg st r a s tag).validBits = st.validBits :=
  (serviceReadExclusive_frame cfg st r a s tag).2.1

@[simp] theorem serviceReadExclusive_lruOrder (cfg : Config) (st : State) (r : Nat) (a : Int) (s : Nat) (tag : Int) :
    (serviceReadExclusive cfg st r a s tag).lruOrder = st.lruOrder :=
  (serviceReadExclusive_frame cfg st r a s tag).2.2.1

@[simp] theorem serviceReadExclusive_dirtyFlags (cfg : Config) (st : State) (r : Nat) (a : Int) (s : Nat) (tag : Int) :
    (serviceReadExclusive cfg st r a s tag).dirtyFlags = st.dirtyFlags :=
  (serviceReadExclusive_frame cfg st r a s tag).2.2.2.1

@[simp] theorem serviceReadExclusive_busTickCounter (cfg : Config) (st : State) (r : Nat) (a : Int) (s : Nat) (tag : Int) :
    (serviceReadExclusive cfg st r a s tag).busTickCounter = st.busTickCounter :=
  (serviceReadExclusive_frame cfg st r a s tag).2.2.2.2.1

@[simp] theorem serviceReadExclusive_operationCounter (cfg : Config) (st : State) (r : Nat) (a : Int) (s : Nat) (tag : Int) :
    (serviceReadExclusive cfg st r a s tag).operationCounter = st.operationCounter :=
  (serviceReadExclusive_frame cfg st r a s tag).2.2.2.2.2.1

@[simp] theorem serviceReadExclusive_pendingRequests (cfg : Config) (st : State) (r : Nat) (a : Int) (s : Nat) (tag : Int) :
    (serviceReadExclusive cfg st r a s tag).pendingRequests = st.pendingRequests :=
  (serviceReadExclusive_frame cfg st r a s tag).2.2.2.2.2.2.1

@[simp] theorem serviceReadExclusive_executedInstructions (cfg : Config) (st : State) (r : Nat) (a : Int) (s : Nat) (tag : Int) :
    (serviceReadExclusive cfg st r a s tag).executedInstructions = st.executedInstructions :=
  (serviceReadExclusive_frame cfg st r a s tag).2.2.2.2.2.2.2.1

@[simp] theorem serviceReadExclusive_readCount (cfg : Config) (st : State) (r : Nat) (a : Int) (s : Nat) (tag : Int) :
    (serviceReadExclusive cfg st r a s tag).readCount = st.readCount :=
  (serviceReadExclusive_frame cfg st r a s tag).2.2.2.2.2.2.2.2.1

@[simp] theorem serviceReadExclusive_writeCount (cfg : Config) (st : State) (r : Nat) (a : Int) (s : Nat) (tag : Int) :
    (serviceReadExclusive cfg st r a s tag).writeCount = st.writeCount :=
  (serviceReadExclusive_frame cfg st r a s tag).2.2.2.2.2.2.2.2.2.1

@[simp] theorem serviceReadExclusive_evictionCount (cfg : Config) (st : State) (r : Nat) (a : Int) (s : Nat) (tag : Int) :
    (serviceReadExclusive cfg st r a s tag).evictionCount = st.evictionCount :=
  (serviceReadExclusive_frame cfg st r a s tag).2.2.2.2.2.2.2.2.2.2.1

@[simp] theorem serviceReadExclusive_writebackCount (cfg : Config) (st : State) (r : Nat) (a : Int) (s : Nat) (tag : Int) :
    (serviceReadExclusive cfg st r a s tag).writebackCount = st.writebackCount :=
  (serviceReadExclusive_frame cfg st r a s tag).2.2.2.2.2.2.2.2.2.2.2.1

@[simp] theorem serviceReadExclusive_trafficBytes (cfg : Config) (st : State) (r : Nat) (a : Int) (s : Nat) (tag : Int) :
    (serviceReadExclusive cfg st r a s tag).trafficBytes = st.trafficBytes :=
  (serviceReadExclusive_frame cfg st r a s tag).2.2.2.2.2.2.2.2.2.2.2.2.1

@[simp] theorem serviceReadExclusive_stalledCycles (cfg : Config) (st : State) (r : Nat) (a : Int) (s : Nat) (tag : Int) :
    (serviceReadExclusive cfg st r a s tag).stalledCycles = st.stalledCycles :=
  (serviceReadExclusive_frame cfg st r a s tag).2.2.2.2.2.2.2.2.2.2.2.2.2.1

@[simp] theorem serviceReadExclusive_totalBusTraffic (cfg : Config) (st : State) (r : Nat) (a : Int) (s : Nat) (tag : Int) :
    (serviceReadExclusive cfg st r a s tag).totalBusTraffic = st.totalBusTraffic :=
  (serviceReadExclusive_frame cfg st r a s tag).2.2.2.2.2.2.2.2.2.2.2.2.2.2.1

@[simp] theorem serviceReadExclusive_processorRunning (cfg : Config) (st : State) (r : Nat) (a : Int) (s : Nat) (tag : Int) :
    (serviceReadExclusive cfg st r a s tag).processorRunning = st.processorRunning :=
  (serviceReadExclusive_frame cfg st r a s tag).2.2.2.2.2.2.2.2.2.2.2.2.2.2.2

theorem serviceUpgrade_frame (cfg : Config) (st : State) (r : Nat) (a : Int) (s : Nat) (tag : Int) :
    (serviceUpgrade cfg st r a s tag).tagArray = st.tagArray
      ∧ (serviceUpgrade cfg st r a s tag).validBits = st.validBits
      ∧ (serviceUpgrade cfg st r a s tag).lruOrder = st.lruOrder
      ∧ (serviceUpgrade cfg st r a s tag).busTickCounter = st.busTickCounter
      ∧ (serviceUpgrade cfg st r a s tag).operationCounter = st.operationCounter
      ∧ (serviceUpgrade cfg st r a s tag).pendingRequests = st.pendingRequests
      ∧ (serviceUpgrade cfg st r a s tag).totalCycles = st.totalCycles
      ∧ (serviceUpgrade cfg st r a s tag).executedInstructions = st.executedInstructions
      ∧ (serviceUpgrade cfg st r a s tag).readCount = st.readCount
      ∧ (serviceUpgrade cfg st r a s tag).writeCount = st.writeCount
      ∧ (serviceUpgrade cfg st r a s tag).missCount = st.missCount
      ∧ (serviceUpgrade cfg st r a s tag).evictionCount = st.evictionCount
      ∧ (serviceUpgrade cfg st r a s tag).writebackCount = st.writebackCount
      ∧ (serviceUpgrade cfg st r a s tag).trafficBytes = st.trafficBytes
      ∧ (serviceUpgrade cfg st r a s tag).stalledCycles = st.stalledCycles
      ∧ (serviceUpgrade cfg st r a s tag).totalBusTraffic = st.totalBusTraffic
      ∧ (serviceUpgrade cfg st r a s tag).processorRunning = st.processorRunning := by
  unfold serviceUpgrade
  try dsimp only
  repeat' split
  all_goals simp

@[simp] theorem serviceUpgrade_tagArray (cfg : Config) (st : State) (r : Nat) (a : Int) (s : Nat) (tag : Int) :
    (serviceUpgrade cfg st r a s tag).tagArray = st.tagArray :=
  (serviceUpgrade_frame cfg st r a s tag).1

@[simp] theorem serviceUpgrade_validBits (cfg : Config) (st : State) (r : Nat) (a : Int) (s : Nat) (tag : Int) :
    (serviceUpgrade cfg st r a s tag).validBits = st.validBits :=
  (serviceUpgrade_frame cfg st r a s tag).2.1

@[simp] theorem serviceUpgrade_lruOrder (cfg : Config) (st : State) (r : Nat) (a : Int) (s : Nat) (tag : Int) :
    (serviceUpgrade cfg st r a s tag).lruOrder = st.lruOrder :=
  (serviceUpgrade_frame cfg st r a s tag).2.2.1

@[simp] theorem serviceUpgrade_busTickCounter (cfg : Config) (st : State) (r : Nat) (a : Int) (s : Nat) (tag : Int) :
    (serviceUpgrade cfg st r a s tag).busTickCounter = st.busTickCounter :=
  (serviceUpgrade_frame cfg st r a s tag).2.2.2.1

@[simp] theorem serviceUpgrade_operationCounter (cfg : Config) (st : State) (r : Nat) (a : Int) (s : Nat) (tag : Int) :
    (serviceUpgrade cfg st r a s tag).operationCounter = st.operationCounter :=
  (serviceUpgrade_frame cfg st r a s tag).2.2.2.2.1

@[simp] theorem serviceUpgrade_pendingRequests (cfg : Config) (st : State) (r : Nat) (a : Int) (s : Nat) (tag : Int) :
    (serviceUpgrade cfg st r a s tag).pendingRequests = st.pendingRequests :=
  (serviceUpgrade_frame cfg st r a s tag).2.2.2.2.2.1

@[simp] theorem serviceUpgrade_totalCycles (cfg : Config) (st : State) (r : Nat) (a : Int) (s : Nat) (tag : Int) :
    (serviceUpgrade cfg st r a s tag).totalCycles = st.totalCycles :=
  (serviceUpgrade_frame cfg st r a s tag).2.2.2.2.2.2.1

@[simp] theorem serviceUpgrade_executedInstructions (cfg : Config) (st : State) (r : Nat) (a : Int) (s : Nat) (tag : Int) :
    (serviceUpgrade cfg st r a s tag).executedInstructions = st.executedInstructions :=
  (serviceUpgrade_frame cfg st r a s tag).2.2.2.2.2.2.2.1

@[simp] theorem serviceUpgrade_readCount (cfg : Config) (st : State) (r : Nat) (a : Int) (s : Nat) (tag : Int) :
    (serviceUpgrade cfg st r a s tag).readCount = st.readCount :=
  (serviceUpgrade_frame cfg st r a s tag).2.2.2.2.2.2.2.2.1

@[simp] theorem serviceUpgrade_writeCount (cfg : Config) (st : State) (r : Nat) (a : Int) (s : Nat) (tag : Int) :
    (serviceUpgrade cfg st r a s tag).writeCount = st.writeCount :=
  (serviceUpgrade_frame cfg st r a s tag).2.2.2.2.2.2.2.2.2.1

@[simp] theorem serviceUpgrade_missCount (cfg : Config) (st : State) (r : Nat) (a : Int) (s : Nat) (tag : Int) :
    (serviceUpgrade cfg st r a s tag).missCount = st.missCount :=
  (serviceUpgrade_frame cfg st r a s tag).2.2.2.2.2.2.2.2.2.2.1

@[simp] theorem serviceUpgrade_evictionCount (cfg : Config) (st : State) (r : Nat) (a : Int) (s : Nat) (tag : Int) :
    (serviceUpgrade cfg st r a s tag).evictionCount = st.evictionCount :=
  (serviceUpgrade_frame cfg st r a s tag).2.2.2.2.2.2.2.2.2.2.2.1

@[simp] theorem serviceUpgrade_writebackCount (cfg : Config) (st : State) (r : Nat) (a : Int) (s : Nat) (tag : Int) :
    (serviceUpgrade cfg st r a s tag).writebackCount = st.writebackCount :=
  (serviceUpgrade_frame cfg st r a s tag).2.2.2.2.2.2.2.2.2.2.2.2.1

@[simp] theorem serviceUpgrade_trafficBytes (cfg : Config) (st : State) (r : Nat) (a : Int) (s : Nat) (tag : Int) :
    (serviceUpgrade cfg st r a s tag).trafficBytes = st.trafficBytes :=
  (serviceUpgrade_frame cfg st r a s tag).2.2.2.2.2.2.2.2.2.2.2.2.2.1

@[simp] theorem serviceUpgrade_stalledCycles (cfg : Config) (st : State) (r : Nat) (a : Int) (s : Nat) (tag : Int) :
    (serviceUpgrade cfg st r a s tag).stalledCycles = st.stalledCycles :=
  (serviceUpgrade_frame cfg st r a s tag).2.2.2.2.2.2.2.2.2.2.2.2.2.2.1

@[simp] theorem serviceUpgrade_totalBusTraffic (cfg : Config) (st : State) (r : Nat) (a : Int) (s : Nat) (tag : Int) :
    (serviceUpgrade cfg st r a s tag).totalBusTraffic = st.totalBusTraffic :=
  (serviceUpgrade_frame cfg st r a s tag).2.2.2.2.2.2.2.2.2.2.2.2.2.2.2.1

@[simp] theorem serviceUpgrade_processorRunning (cfg : Config) (st : State) (r : Nat) (a : Int) (s : Nat) (tag : Int) :
    (serviceUpgrade cfg st r a s tag).processorRunning = st.processorRunning :=
  (serviceUpgrade_frame cfg st r a s tag).2.2.2.2.2.2.2.2.2.2.2.2.2.2.2.2

theorem serviceRequest_frame (cfg : Config) (st : State) (q : BusTransaction) :
    (serviceRequest cfg st q).tagArray = st.tagArray
      ∧ (serviceRequest cfg st q).validBits = st.validBits
      ∧ (serviceRequest cfg st q).lruOrder = st.lruOrder
      ∧ (serviceRequest cfg st q).busTickCounter = st.busTickCounter
      ∧ (serviceRequest cfg st q).operationCounter = st.operationCounter
      ∧ (serviceRequest cfg st q).pendingRequests = st.pendingRequests
      ∧ (serviceRequest cfg st q).executedInstructions = st.executedInstructions
      ∧ (serviceRequest cfg st q).readCount = st.readCount
      ∧ (serviceRequest cfg st q).writeCount = st.writeCount
      ∧ (serviceRequest cfg st q).evictionCount = st.evictionCount
      ∧ (serviceRequest cfg st q).writebackCount = st.writebackCount
      ∧ (serviceRequest cfg st q).totalBusTraffic = st.totalBusTraffic
      ∧ (serviceRequest cfg st q).processorRunning = st.processorRunning := by
  unfold serviceRequest
  try dsimp only
  repeat' split
  all_goals simp

@[simp] theorem serviceRequest_tagArray (cfg : Config) (st : State) (q : BusTransaction) :
    (serviceRequest cfg st q).tagArray = st.tagArray :=
  (serviceRequest_frame cfg st q).1

@[simp] theorem serviceRequest_validBits (cfg : Config) (st : State) (q : BusTransaction) :
    (serviceRequest cfg st q).validBits = st.validBits :=
  (serviceRequest_frame cfg st q).2.1

@[simp] theorem serviceRequest_lruOrder (cfg : Config) (st : State) (q : BusTransaction) :
    (serviceRequest cfg st q).lruOrder = st.lruOrder :=
  (serviceRequest_frame cfg st q).2.2.1

@[simp] theorem serviceRequest_busTickCounter (cfg : Config) (st : State) (q : BusTransaction) :
    (serviceRequest cfg st q).busTickCounter = st.busTickCounter :=
  (serviceRequest_frame cfg st q).2.2.2.1

@[simp] theorem serviceRequest_operationCounter (cfg : Config) (st : State) (q : BusTransaction) :
    (serviceRequest cfg st q).operationCounter = st.operationCounter :=
  (serviceRequest_frame cfg st q).2.2.2.2.1

@[simp] theorem serviceRequest_pendingRequests (cfg : Config) (st : State) (q : BusTransaction) :
    (serviceRequest cfg st q).pendingRequests = st.pendingRequests :=
  (serviceRequest_frame cfg st q).2.2.2.2.2.1

@[simp] theorem serviceRequest_executedInstructions (cfg : Config) (st : State) (q : BusTransaction) :
    (serviceRequest cfg st q).executedInstructions = st.executedInstructions :=
  (serviceRequest_frame cfg st q).2.2.2.2.2.2.1

@[simp] theorem serviceRequest_readCount (cfg : Config) (st : State) (q : BusTransaction) :
    (serviceRequest cfg st q).readCount = st.readCount :=
  (serviceRequest_frame cfg st q).2.2.2.2.2.2.2.1

@[simp] theorem serviceRequest_writeCount (cfg : Config) (st : State) (q : BusTransaction) :
    (serviceRequest cfg st q).writeCount = st.writeCount :=
  (serviceRequest_frame cfg st q).2.2.2.2.2.2.2.2.1

@[simp] theorem serviceRequest_evictionCount (cfg : Config) (st : State) (q : BusTransaction) :
    (serviceRequest cfg st q).evictionCount = st.evictionCount :=
  (serviceRequest_frame cfg st q).2.2.2.2.2.2.2.2.2.1

@[simp] theorem serviceRequest_writebackCount (cfg : Config) (st : State) (q : BusTransaction) :
    (serviceRequest cfg st q).writebackCount = st.writebackCount :=
  (serviceRequest_frame cfg st q).2.2.2.2.2.2.2.2.2.2.1

@[simp] theorem serviceRequest_totalBusTraffic (cfg : Config) (st : State) (q : BusTransaction) :
    (serviceRequest cfg st q).totalBusTraffic = st.totalBusTraffic :=
  (serviceRequest_frame cfg st q).2.2.2.2.2.2.2.2.2.2.2.1

@[simp] theorem serviceRequest_processorRunning (cfg : Config) (st : State) (q : BusTransaction) :
    (serviceRequest cfg st q).processorRunning = st.processorRunning :=
  (serviceRequest_frame cfg st q).2.2.2.2.2.2.2.2.2.2.2.2

theorem completeTransfer_frame (cfg : Config) (st : State) (t : BusDataTransfer) :
    (completeTransfer cfg st t).validBits = st.validBits
      ∧ (completeTransfer cfg st t).busOccupied = st.busOccupied
      ∧ (completeTransfer cfg st t).busTickCounter = st.busTickCounter
      ∧ (completeTransfer cfg st t).operationCounter = st.operationCounter
      ∧ (completeTransfer cfg st t).pendingRequests = st.pendingRequests
      ∧ (completeTransfer cfg st t).totalCycles = st.totalCycles
      ∧ (completeTransfer cfg st t).executedInstructions = st.executedInstructions
      ∧ (completeTransfer cfg st t).readCount = st.readCount
      ∧ (completeTransfer cfg st t).writeCount = st.writeCount
      ∧ (completeTransfer cfg st t).missCount = st.missCount
      ∧ (completeTransfer cfg st t).invalidationCount = st.invalidationCount
      ∧ (completeTransfer cfg st t).stalledCycles = st.stalledCycles
      ∧ (completeTransfer cfg st t).busTransactionCount = st.busTransactionCount
      ∧ (completeTransfer cfg st t).processorRunning = st.processorRunning := by
  unfold completeTransfer processWriteMiss processReadMiss
  try dsimp only
  repeat' split
  all_goals simp

@[simp] theorem completeTransfer_validBits (cfg : Config) (st : State) (t : BusDataTransfer) :
    (completeTransfer cfg st t).validBits = st.validBits :=
  (completeTransfer_frame cfg st t).1

@[simp] theorem completeTransfer_busOccupied (cfg : Config) (st : State) (t : BusDataTransfer) :
    (completeTransfer cfg st t).busOccupied = st.busOccupied :=
  (completeTransfer_frame cfg st t).2.1

@[simp] theorem completeTransfer_busTickCounter (cfg : Config) (st : State) (t : BusDataTransfer) :
    (completeTransfer cfg st t).busTickCounter = st.busTickCounter :=
  (completeTransfer_frame cfg st t).2.2.1

@[simp] theorem completeTransfer_operationCounter (cfg : Config) (st : State) (t : BusDataTransfer) :
    (completeTransfer cfg st t).operationCounter = st.operationCounter :=
  (completeTransfer_frame cfg st t).2.2.2.1

@[simp] theorem completeTransfer_pendingRequests (cfg : Config) (st : State) (t : BusDataTransfer) :
    (completeTransfer cfg st t).pendingRequests = st.pendingRequests :=
  (completeTransfer_frame cfg st t).2.2.2.2.1

@[simp] theorem completeTransfer_totalCycles (cfg : Config) (st : State) (t : BusDataTransfer) :
    (completeTransfer cfg st t).totalCycles = st.totalCycles :=
  (completeTransfer_frame cfg st t).2.2.2.2.2.1

@[simp] theorem completeTransfer_executedInstructions (cfg : Config) (st : State) (t : BusDataTransfer) :
    (completeTransfer cfg st t).executedInstructions = st.executedInstructions :=
  (completeTransfer_frame cfg st t).2.2.2.2.2.2.1

@[simp] theorem completeTransfer_readCount (cfg : Config) (st : State) (t : BusDataTransfer) :
    (completeTransfer cfg st t).readCount = st.readCount :=
  (completeTransfer_frame cfg st t).2.2.2.2.2.2.2.1

@[simp] theorem completeTransfer_writeCount (cfg : Config) (st : State) (t : BusDataTransfer) :
    (completeTransfer cfg st t).writeCount = st.writeCount :=
  (completeTransfer_frame cfg st t).2.2.2.2.2.2.2.2.1

@[simp] theorem completeTransfer_missCount (cfg : Config) (st : State) (t : BusDataTransfer) :
    (completeTransfer cfg st t).missCount = st.missCount :=
  (completeTransfer_frame cfg st t).2.2.2.2.2.2.2.2.2.1

@[simp] theorem completeTransfer_invalidationCount (cfg : Config) (st : State) (t : BusDataTransfer) :
    (completeTransfer cfg st t).invalidationCount = st.invalidationCount :=
  (completeTransfer_frame cfg st t).2.2.2.2.2.2.2.2.2.2.1

@[simp] theorem completeTransfer_stalledCycles (cfg : Config) (st : State) (t : BusDataTransfer) :
    (completeTransfer cfg st t).stalledCycles = st.stalledCycles :=
  (completeTransfer_frame cfg st t).2.2.2.2.2.2.2.2.2.2.2.1

@[simp] theorem completeTransfer_busTransactionCount (cfg : Config) (st : State) (t : BusDataTransfer) :
    (completeTransfer cfg st t).busTransactionCount = st.busTransactionCount :=
  (completeTransfer_frame cfg st t).2.2.2.2.2.2.2.2.2.2.2.2.1

@[simp] theorem completeTransfer_processorRunning (cfg : Config) (st : State) (t : BusDataTransfer) :
    (completeTransfer cfg st t).processorRunning = st.processorRunning :=
  (completeTransfer_frame cfg st t).2.2.2.2.2.2.2.2.2.2.2.2.2

/-! ### Lifting invariants to the bus tick and to the cycle loop -/

/-- The request loop empties the request queue. -/
theorem requestLoop_pendingRequests (cfg : Config) (q : List BusTransaction) (st : State)
    (h : st.pendingRequests = q) : (requestLoop cfg q st).pendingRequests = [] := by
  induction q generalizing st with
  | nil => simpa [requestLoop] using h
  | cons r rest ih =>
    simp only [requestLoop]
    apply ih
    simp

/-- A property kept by dequeuing and by the service of one request is kept by the request
loop. -/
theorem requestLoop_preserves (cfg : Config) (P : State → Prop)
    (hdeq : ∀ st rest, P st → P { st with pendingRequests := rest })
    (hreq : ∀ st q, P st → P (serviceRequest cfg st q)) :
    ∀ (q : List BusTransaction) (st : State), P st → P (requestLoop cfg q st) := by
  intro q
  induction q with
  | nil => intro st h; exact h
  | cons r rest ih =>
    intro st h
    simp only [requestLoop]
    exact ih _ (hreq _ _ (hdeq _ _ h))

/-- A property kept by the parts of a bus tick is kept by `processBusTransactions`. -/
theorem processBusTransactions_preserves (cfg : Config) (P : State → Prop)
    (htick : ∀ st, P st → P { st with busTickCounter := st.busTickCounter + 1 })
    (hdeq : ∀ st rest, P st → P { st with pendingRequests := rest })
    (hreq : ∀ st q, P st → P (serviceRequest cfg st q))
    (hdata : ∀ st, P st → P (dataPhase cfg st)) :
    ∀ st, P st → P (processBusTransactions cfg st) := by
  intro st h
  unfold processBusTransactions requestPhase
  exact hdata _ (requestLoop_preserves cfg P hdeq hreq _ _ (htick _ h))

/-- A property of the globals kept by the steps of a cycle holds at the end of every cycle. -/
theorem cycles_preserves (cfg : Config) (tr : Nat → List TraceEntry) (P : State → Prop)
    (h0 : P (initialState cfg))
    (hexec : ∀ st e c, P st → P (executeMemoryOperation cfg st e c))
    (hrun : ∀ st c, P st → P { st with processorRunning := set1 st.processorRunning c false })
    (hbus : ∀ st, P st → P (processBusTransactions cfg st))
    (hexi : ∀ st c, P st → P { st with
      executedInstructions := set1 st.executedInstructions c (st.executedInstructions c + 1) }) :
    ∀ n, P (cycles cfg tr n).st
      ∧ P (forLoop 4 (offerCore cfg tr) (cycles cfg tr n)).st
      ∧ P (processBusTransactions cfg (forLoop 4 (offerCore cfg tr) (cycles cfg tr n)).st) := by
  have hoffer : ∀ sim : SimState, P sim.st → P (forLoop 4 (offerCore cfg tr) sim).st := by
    intro sim h
    refine forLoop_preserves (fun s : SimState => P s.st) _ _ ?_ _ h
    intro i s _ hs
    unfold offerCore
    dsimp only
    split
    · exact hs
    · split
      · exact hexec _ _ _ hs
      · exact hrun _ _ hs
  have hadv : ∀ sim : SimState, P sim.st → P (forLoop 4 (advanceCore tr) sim).st := by
    intro sim h
    refine forLoop_preserves (fun s : SimState => P s.st) _ _ ?_ _ h
    intro i s _ hs
    unfold advanceCore
    dsimp only
    split
    · split
      · exact hrun _ _ (hexi _ _ hs)
      · exact hexi _ _ hs
    · exact hs
  have hcyc : ∀ n, P (cycles cfg tr n).st := by
    intro n
    induction n with
    | zero => exact h0
    | succ k ih =>
      simp only [cycles, cycle]
      exact hadv _ (hbus _ (hoffer _ ih))
  intro n
  exact ⟨hcyc n, hoffer _ (hcyc n), hbus _ (hoffer _ (hcyc n))⟩

/-! ### Bus-busy invariant -/

theorem busBusy_executeMemoryOperation (cfg : Config) (st : State) (e : TraceEntry) (c : Nat)
    (h : BusBusyInv st) : BusBusyInv (executeMemoryOperation cfg st e c) := by
  unfold BusBusyInv at *
  simpa using h

theorem invalidateOthers_queue_ne_nil (cfg : Config) (r : Nat) (a : Int) (s : Nat) (tag : Int)
    (st : State) (t : BusDataTransfer) :
    (invalidateOthers cfg r a s tag (false, st)).2.dataTransferQueue ++ [t] ≠ [] := by
  simp

theorem busBusy_serviceRequest (cfg : Config) (st : State) (q : BusTransaction)
    (h : BusBusyInv st) : BusBusyInv (serviceRequest cfg st q) := by
  unfold BusBusyInv at *
  unfold serviceRequest
  dsimp only
  split
  · simpa using h
  · split
    · unfold serviceReadShared
      dsimp only
      repeat' split
      all_goals simp
    · unfold serviceReadExclusive
      dsimp only
      repeat' split
      all_goals simp
    · unfold serviceUpgrade
      dsimp only
      split
      · simp
      · simpa using h

theorem selectVictim_queue_prefix (cfg : Config) (ds : Bool) (st : State) (c s : Nat) (tw : Bool) :
    ∃ extra, (selectVictim cfg ds st c s tw).2.2.dataTransferQueue
      = st.dataTransferQueue ++ extra := by
  unfold selectVictim
  dsimp only
  repeat' split
  all_goals first
    | exact ⟨[], (List.append_nil _).symm⟩
    | exact ⟨_, rfl⟩

theorem completeTransfer_queue_prefix (cfg : Config) (st : State) (t : BusDataTransfer) :
    ∃ extra, (completeTransfer cfg st t).dataTransferQueue = st.dataTransferQueue ++ extra := by
  unfold completeTransfer processWriteMiss processReadMiss
  dsimp only
  repeat' split
  all_goals first
    | exact ⟨[], (List.append_nil _).symm⟩
    | (simp only [installLine_dataTransferQueue]; exact selectVictim_queue_prefix _ _ _ _ _ _)

theorem busBusy_dataPhase (cfg : Config) (st : State) (h : BusBusyInv st) :
    BusBusyInv (dataPhase cfg st) := by
  unfold BusBusyInv at *
  unfold dataPhase
  split
  · exact h
  · rename_i t rest hq
    have hb : st.busOccupied = true := h.mpr (by simp [hq])
    dsimp only
    split
    · obtain ⟨extra, hx⟩ := completeTransfer_queue_prefix cfg st t
      split
      · rename_i hemp
        simp only [List.isEmpty_iff] at hemp
        simp [hemp]
      · rename_i hemp
        simp only [List.isEmpty_iff] at hemp
        simp [hemp, hb]
    · simp [hb]

/-- **C5** (bus-busy invariant).  The predicate "`busOccupied` is set iff the data-transfer
queue is not empty" holds in the initial state and is kept by every call of
`executeMemoryOperation` and of `processBusTransactions`, from any state; so in every run it
holds at the end of every cycle, after the first loop of every cycle and after every bus tick:
there an empty queue implies `busOccupied = false` and a non-empty one `busOccupied = true`. -/
theorem bus_busy_invariant (cfg : Config) :
    BusBusyInv (initialState cfg)
    ∧ (∀ (st : State) (e : TraceEntry) (c : Nat),
        BusBusyInv st → BusBusyInv (executeMemoryOperation cfg st e c))
    ∧ (∀ st : State, BusBusyInv st → BusBusyInv (processBusTransactions cfg st))
    ∧ (∀ (tr : Nat → List TraceEntry) (n : Nat),
        BusBusyInv (cycles cfg tr n).st
        ∧ ((processBusTransactions cfg
              (forLoop 4 (offerCore cfg tr) (cycles cfg tr n)).st).dataTransferQueue = [] →
            (processBusTransactions cfg
              (forLoop 4 (offerCore cfg tr) (cycles cfg tr n)).st).busOccupied = false)
        ∧ ((processBusTransactions cfg
              (forLoop 4 (offerCore cfg tr) (cycles cfg tr n)).st).dataTransferQueue ≠ [] →
            (processBusTransactions cfg
              (forLoop 4 (offerCore cfg tr) (cycles cfg tr n)).st).busOccupied = true)) := by
  have h0 : BusBusyInv (initialState cfg) := by
    simp [BusBusyInv, initialState]
  have hbus : ∀ st : State, BusBusyInv st → BusBusyInv (processBusTransactions cfg st) :=
    processBusTransactions_preserves cfg BusBusyInv (fun st h => h) (fun st rest h => h)
      (busBusy_serviceRequest cfg) (busBusy_dataPhase cfg)
  refine ⟨h0, busBusy_executeMemoryOperation cfg, hbus, ?_⟩
  intro tr n
  obtain ⟨h1, _, h3⟩ := cycles_preserves cfg tr BusBusyInv h0
    (busBusy_executeMemoryOperation cfg) (fun st c h => h) hbus (fun st c h => h) n
  refine ⟨h1, ?_, ?_⟩
  · intro hq
    unfold BusBusyInv at h3
    cases hb : (processBusTransactions cfg
        (forLoop 4 (offerCore cfg tr) (cycles cfg tr n)).st).busOccupied with
    | false => rfl
    | true => exact absurd hq (h3.mp hb)
  · intro hq
    exact h3.mpr hq

/-- Witness for `bus_busy_invariant`: the predicate holds after one access of core 0 and one
bus tick from the initial state of the default geometry. -/
theorem bus_busy_invariant_witness :
    BusBusyInv (initialState scenarioConfig)
    ∧ BusBusyInv (processBusTransactions scenarioConfig
        (executeMemoryOperation scenarioConfig (initialState scenarioConfig) ⟨Op.R, 0x1000⟩ 0)) :=
  ⟨(bus_busy_invariant scenarioConfig).1,
    (bus_busy_invariant scenarioConfig).2.2.1 _
      ((bus_busy_invariant scenarioConfig).2.1 _ ⟨Op.R, 0x1000⟩ 0
        (bus_busy_invariant scenarioConfig).1)⟩

theorem dataPhase_frame (cfg : Config) (st : State) :
    (dataPhase cfg st).validBits = st.validBits
      ∧ (dataPhase cfg st).busTickCounter = st.busTickCounter
      ∧ (dataPhase cfg st).operationCounter = st.operationCounter
      ∧ (dataPhase cfg st).pendingRequests = st.pendingRequests
      ∧ (dataPhase cfg st).totalCycles = st.totalCycles
      ∧ (dataPhase cfg st).executedInstructions = st.executedInstructions
      ∧ (dataPhase cfg st).readCount = st.readCount
      ∧ (dataPhase cfg st).writeCount = st.writeCount
      ∧ (dataPhase cfg st).missCount = st.missCount
      ∧ (dataPhase cfg st).invalidationCount = st.invalidationCount
      ∧ (dataPhase cfg st).stalledCycles = st.stalledCycles
      ∧ (dataPhase cfg st).busTransactionCount = st.busTransactionCount
      ∧ (dataPhase cfg st).processorRunning = st.processorRunning := by
  unfold dataPhase
  try dsimp only
  repeat' split
  all_goals simp

@[simp] theorem dataPhase_validBits (cfg : Config) (st : State) :
    (dataPhase cfg st).validBits = st.validBits :=
  (dataPhase_frame cfg st).1

@[simp] theorem dataPhase_busTickCounter (cfg : Config) (st : State) :
    (dataPhase cfg st).busTickCounter = st.busTickCounter :=
  (dataPhase_frame cfg st).2.1

@[simp] theorem dataPhase_operationCounter (cfg : Config) (st : State) :
    (dataPhase cfg st).operationCounter = st.operationCounter :=
  (dataPhase_frame cfg st).2.2.1

@[simp] theorem dataPhase_pendingRequests (cfg : Config) (st : State) :
    (dataPhase cfg st).pendingRequests = st.pendingRequests :=
  (dataPhase_frame cfg st).2.2.2.1

@[simp] theorem dataPhase_totalCycles (cfg : Config) (st : State) :
    (dataPhase cfg st).totalCycles = st.totalCycles :=
  (dataPhase_frame cfg st).2.2.2.2.1

@[simp] theorem dataPhase_executedInstructions (cfg : Config) (st : State) :
    (dataPhase cfg st).executedInstructions = st.executedInstructions :=
  (dataPhase_frame cfg st).2.2.2.2.2.1

@[simp] theorem dataPhase_readCount (cfg : Config) (st : State) :
    (dataPhase cfg st).readCount = st.readCount :=
  (dataPhase_frame cfg st).2.2.2.2.2.2.1

@[simp] theorem dataPhase_writeCount (cfg : Config) (st : State) :
    (dataPhase cfg st).writeCount = st.writeCount :=
  (dataPhase_frame cfg st).2.2.2.2.2.2.2.1

@[simp] theorem dataPhase_missCount (cfg : Config) (st : State) :
    (dataPhase cfg st).missCount = st.missCount :=
  (dataPhase_frame cfg st).2.2.2.2.2.2.2.2.1

@[simp] theorem dataPhase_invalidationCount (cfg : Config) (st : State) :
    (dataPhase cfg st).invalidationCount = st.invalidationCount :=
  (dataPhase_frame cfg st).2.2.2.2.2.2.2.2.2.1

@[simp] theorem dataPhase_stalledCycles (cfg : Config) (st : State) :
    (dataPhase cfg st).stalledCycles = st.stalledCycles :=
  (dataPhase_frame cfg st).2.2.2.2.2.2.2.2.2.2.1

@[simp] theorem dataPhase_busTransactionCount (cfg : Config) (st : State) :
    (dataPhase cfg st).busTransactionCount = st.busTransactionCount :=
  (dataPhase_frame cfg st).2.2.2.2.2.2.2.2.2.2.2.1

@[simp] theorem dataPhase_processorRunning (cfg : Config) (st : State) :
    (dataPhase cfg st).processorRunning = st.processorRunning :=
  (dataPhase_frame cfg st).2.2.2.2.2.2.2.2.2.2.2.2

theorem requestLoop_frame (cfg : Config) (q : List BusTransaction) (st : State) :
    (requestLoop cfg q st).tagArray = st.tagArray
      ∧ (requestLoop cfg q st).validBits = st.validBits
      ∧ (requestLoop cfg q st).lruOrder = st.lruOrder
      ∧ (requestLoop cfg q st).busTickCounter = st.busTickCounter
      ∧ (requestLoop cfg q st).operationCounter = st.operationCounter
      ∧ (requestLoop cfg q st).executedInstructions = st.executedInstructions
      ∧ (requestLoop cfg q st).readCount = st.readCount
      ∧ (requestLoop cfg q st).writeCount = st.writeCount
      ∧ (requestLoop cfg q st).evictionCount = st.evictionCount
      ∧ (requestLoop cfg q st).writebackCount = st.writebackCount
      ∧ (requestLoop cfg q st).totalBusTraffic = st.totalBusTraffic
      ∧ (requestLoop cfg q st).processorRunning = st.processorRunning := by
  induction q generalizing st with
  | nil => exact ⟨rfl, rfl, rfl, rfl, rfl, rfl, rfl, rfl, rfl, rfl, rfl, rfl⟩
  | cons r rest ih =>
    simp only [requestLoop]
    have h := ih (serviceRequest cfg { st with pendingRequests := rest } r)
    simp only [serviceRequest_tagArray, serviceRequest_validBits, serviceRequest_lruOrder, serviceRequest_busTickCounter, serviceRequest_operationCounter, serviceRequest_executedInstructions, serviceRequest_readCount, serviceRequest_writeCount, serviceRequest_evictionCount, serviceRequest_writebackCount, serviceRequest_totalBusTraffic, serviceRequest_processorRunning] at h
    exact h

@[simp] theorem requestLoop_tagArray (cfg : Config) (q : List BusTransaction) (st : State) :
    (requestLoop cfg q st).tagArray = st.tagArray :=
  (requestLoop_frame cfg q st).1

@[simp] theorem requestLoop_validBits (cfg : Config) (q : List BusTransaction) (st : State) :
    (requestLoop cfg q st).validBits = st.validBits :=
  (requestLoop_frame cfg q st).2.1

@[simp] theorem requestLoop_lruOrder (cfg : Config) (q : List BusTransaction) (st : State) :
    (requestLoop cfg q st).lruOrder = st.lruOrder :=
  (requestLoop_frame cfg q st).2.2.1

@[simp] theorem requestLoop_busTickCounter (cfg : Config) (q : List BusTransaction) (st : State) :
    (requestLoop cfg q st).busTickCounter = st.busTickCounter :=
  (requestLoop_frame cfg q st).2.2.2.1

@[simp] theorem requestLoop_operationCounter (cfg : Config) (q : List BusTransaction) (st : State) :
    (requestLoop cfg q st).operationCounter = st.operationCounter :=
  (requestLoop_frame cfg q st).2.2.2.2.1

@[simp] theorem requestLoop_executedInstructions (cfg : Config) (q : List BusTransaction) (st : State) :
    (requestLoop cfg q st).executedInstructions = st.executedInstructions :=
  (requestLoop_frame cfg q st).2.2.2.2.2.1

@[simp] theorem requestLoop_readCount (cfg : Config) (q : List BusTransaction) (st : State) :
    (requestLoop cfg q st).readCount = st.readCount :=
  (requestLoop_frame cfg q st).2.2.2.2.2.2.1

@[simp] theorem requestLoop_writeCount (cfg : Config) (q : List BusTransaction) (st : State) :
    (requestLoop cfg q st).writeCount = st.writeCount :=
  (requestLoop_frame cfg q st).2.2.2.2.2.2.2.1

@[simp] theorem requestLoop_evictionCount (cfg : Config) (q : List BusTransaction) (st : State) :
    (requestLoop cfg q st).evictionCount = st.evictionCount :=
  (requestLoop_frame cfg q st).2.2.2.2.2.2.2.2.1

@[simp] theorem requestLoop_writebackCount (cfg : Config) (q : List BusTransaction) (st : State) :
    (requestLoop cfg q st).writebackCount = st.writebackCount :=
  (requestLoop_frame cfg q st).2.2.2.2.2.2.2.2.2.1

@[simp] theorem requestLoop_totalBusTraffic (cfg : Config) (q : List BusTransaction) (st : State) :
    (requestLoop cfg q st).totalBusTraffic = st.totalBusTraffic :=
  (requestLoop_frame cfg q st).2.2.2.2.2.2.2.2.2.2.1

@[simp] theorem requestLoop_processorRunning (cfg : Config) (q : List BusTransaction) (st : State) :
    (requestLoop cfg q st).processorRunning = st.processorRunning :=
  (requestLoop_frame cfg q st).2.2.2.2.2.2.2.2.2.2.2

theorem processBusTransactions_frame (cfg : Config) (st : State) :
    (processBusTransactions cfg st).validBits = st.validBits
      ∧ (processBusTransactions cfg st).operationCounter = st.operationCounter
      ∧ (processBusTransactions cfg st).executedInstructions = st.executedInstructions
      ∧ (processBusTransactions cfg st).readCount = st.readCount
      ∧ (processBusTransactions cfg st).writeCount = st.writeCount
      ∧ (processBusTransactions cfg st).processorRunning = st.processorRunning := by
  unfold processBusTransactions requestPhase
  simp

@[simp] theorem processBusTransactions_validBits (cfg : Config) (st : State) :
    (processBusTransactions cfg st).validBits = st.validBits :=
  (processBusTransactions_frame cfg st).1

@[simp] theorem processBusTransactions_operationCounter (cfg : Config) (st : State) :
    (processBusTransactions cfg st).operationCounter = st.operationCounter :=
  (processBusTransactions_frame cfg st).2.1

@[simp] theorem processBusTransactions_executedInstructions (cfg : Config) (st : State) :
    (processBusTransactions cfg st).executedInstructions = st.executedInstructions :=
  (processBusTransactions_frame cfg st).2.2.1

@[simp] theorem processBusTransactions_readCount (cfg : Config) (st : State) :
    (processBusTransactions cfg st).readCount = st.readCount :=
  (processBusTransactions_frame cfg st).2.2.2.1

@[simp] theorem processBusTransactions_writeCount (cfg : Config) (st : State) :
    (processBusTransactions cfg st).writeCount = st.writeCount :=
  (processBusTransactions_frame cfg st).2.2.2.2.1

@[simp] theorem processBusTransactions_processorRunning (cfg : Config) (st : State) :
    (processBusTransactions cfg st).processorRunning = st.processorRunning :=
  (processBusTransactions_frame cfg st).2.2.2.2.2

/-! ### Phase-wise invariants of the cycle loop -/

/-- Request loop rule with an invariant on the requests still queued and the state. -/
theorem requestLoop_invariant (cfg : Config) (R : List BusTransaction → State → Prop)
    (hstep : ∀ r rest st, R (r :: rest) st →
      R rest (serviceRequest cfg { st with pendingRequests := rest } r)) :
    ∀ (q : List BusTransaction) (st : State), R q st → R [] (requestLoop cfg q st) := by
  intro q
  induction q with
  | nil => intro st h; exact h
  | cons r rest ih =>
    intro st h
    simp only [requestLoop]
    exact ih _ (hstep r rest st h)

/-- Cycle rule with one predicate per phase: `I` between cycles, `A i` after the first loop
has offered cores `0 .. i-1`, `B` after the bus tick, `C i` after the third loop has advanced
cores `0 .. i-1`. -/
theorem cycles_phases (cfg : Config) (tr : Nat → List TraceEntry)
    (I : SimState → Prop) (A : Nat → SimState → Prop) (B : SimState → Prop)
    (C : Nat → SimState → Prop)
    (h0 : I (initialSim cfg))
    (hIA : ∀ sim, I sim → A 0 sim)
    (hA : ∀ i sim, i < 4 → A i sim → A (i + 1) (offerCore cfg tr i sim))
    (hAB : ∀ sim, A 4 sim → B { sim with st := processBusTransactions cfg sim.st })
    (hBC : ∀ sim, B sim → C 0 sim)
    (hC : ∀ i sim, i < 4 → C i sim → C (i + 1) (advanceCore tr i sim))
    (hCI : ∀ sim, C 4 sim → I { sim with currentCycle := sim.currentCycle + 1 }) :
    ∀ n, I (cycles cfg tr n)
      ∧ A 4 (forLoop 4 (offerCore cfg tr) (cycles cfg tr n))
      ∧ B { forLoop 4 (offerCore cfg tr) (cycles cfg tr n) with
            st := processBusTransactions cfg
              (forLoop 4 (offerCore cfg tr) (cycles cfg tr n)).st } := by
  have hoffer : ∀ sim, I sim → A 4 (forLoop 4 (offerCore cfg tr) sim) := fun sim h =>
    forLoop_indexed A _ 4 hA sim (hIA sim h)
  have hcyc : ∀ n, I (cycles cfg tr n) := by
    intro n
    induction n with
    | zero => exact h0
    | succ k ih =>
      simp only [cycles, cycle]
      exact hCI _ (forLoop_indexed C _ 4 hC _ (hBC _ (hAB _ (hoffer _ ih))))
  intro n
  exact ⟨hcyc n, hoffer _ (hcyc n), hAB _ (hoffer _ (hcyc n))⟩

/-! ### Bus-transaction accounting -/

theorem countEvents_append (p : Event → Bool) (st : State) (l : List Event) :
    countEvents p { st with ghostLog := st.ghostLog ++ l }
      = countEvents p st + ((l.countP p : Nat) : Int) := by
  simp [countEvents, List.countP_append]

theorem countEvents_congr (p : Event → Bool) {st st2 : State} (h : st2.ghostLog = st.ghostLog) :
    countEvents p st2 = countEvents p st := by
  simp [countEvents, h]

/-- The snoop loops of `READ_EXCLUSIVE` log `modifiedSnooped` events only. -/
theorem invalidateOthers_countP (cfg : Config) (r : Nat) (a : Int) (s : Nat) (tag : Int)
    (p : Event → Bool) (hp : ∀ c, p (Event.modifiedSnooped c) = false) (b : Bool) (st : State) :
    (invalidateOthers cfg r a s tag (b, st)).2.ghostLog.countP p = st.ghostLog.countP p := by
  unfold invalidateOthers
  refine forLoop_preserves
    (fun acc : Bool × State => acc.2.ghostLog.countP p = st.ghostLog.countP p) _ _ ?_ _ rfl
  intro oc acc _ h
  dsimp only
  split
  · refine forLoop_preserves
      (fun acc : Bool × State => acc.2.ghostLog.countP p = st.ghostLog.countP p) _ _ ?_ _ h
    intro w acc2 _ h2
    rw [← h2]
    unfold invalidateWay
    dsimp only
    repeat' split
    all_goals simp [List.countP_append, hp]
  · exact h

/-- Effect of the service of one request on `busTransactionCount` and on the three counts of
serviced requests of the log. -/
theorem serviceRequest_accounting (cfg : Config) (st : State) (q : BusTransaction) :
    (serviceRequest cfg st q).busTransactionCount
        = st.busTransactionCount + (if requestServiced cfg st q = true then 1 else 0)
    ∧ countEvents isReadSharedServiced (serviceRequest cfg st q)
        = countEvents isReadSharedServiced st
          + (if requestServiced cfg st q = true ∧ q.reqType = BusRequestType.READ_SHARED
              then 1 else 0)
    ∧ countEvents isReadExclusiveServiced (serviceRequest cfg st q)
        = countEvents isReadExclusiveServiced st
          + (if requestServiced cfg st q = true ∧ q.reqType = BusRequestType.READ_EXCLUSIVE
              then 1 else 0)
    ∧ countEvents isUpgradeServiced (serviceRequest cfg st q)
        = countEvents isUpgradeServiced st
          + (if requestServiced cfg st q = true ∧ q.reqType = BusRequestType.UPGRADE_REQUEST
              then 1 else 0) := by
  unfold serviceRequest
  dsimp only
  cases hb : st.busOccupied with
  | true =>
    have hs : requestServiced cfg st q = false := by simp [requestServiced, hb]
    simp [hs, countEvents, List.countP_append, isReadSharedServiced, isReadExclusiveServiced,
      isUpgradeServiced]
  | false =>
    cases hk : q.reqType with
    | READ_SHARED =>
      have hs : requestServiced cfg st q = true := by simp [requestServiced, hb, hk]
      simp only [hs, Bool.false_eq_true, if_false, true_and, if_true, reduceCtorEq]
      unfold serviceReadShared
      dsimp only
      repeat' split
      all_goals simp [countEvents, List.countP_append, isReadSharedServiced,
        isReadExclusiveServiced, isUpgradeServiced]
    | READ_EXCLUSIVE =>
      have hs : requestServiced cfg st q = true := by simp [requestServiced, hb, hk]
      simp only [hs, Bool.false_eq_true, if_false, true_and, if_true, reduceCtorEq]
      unfold serviceReadExclusive
      dsimp only
      have h1 := invalidateOthers_countP cfg q.requestorId q.memoryAddress
        (setIndexOf cfg q.memoryAddress) (tagOf cfg q.memoryAddress)
        isReadSharedServiced (fun _ => rfl) false
      have h2 := invalidateOthers_countP cfg q.requestorId q.memoryAddress
        (setIndexOf cfg q.memoryAddress) (tagOf cfg q.memoryAddress)
        isReadExclusiveServiced (fun _ => rfl) false
      have h3 := invalidateOthers_countP cfg q.requestorId q.memoryAddress
        (setIndexOf cfg q.memoryAddress) (tagOf cfg q.memoryAddress)
        isUpgradeServiced (fun _ => rfl) false
      repeat' split
      all_goals simp [countEvents, h1, h2, h3, List.countP_append, isReadSharedServiced,
        isReadExclusiveServiced, isUpgradeServiced]
    | UPGRADE_REQUEST =>
      unfold serviceUpgrade
      simp only [Bool.false_eq_true, if_false]
      split
      · rename_i w hw
        have hs : requestServiced cfg st q = true := by
          have hw2 : findSharedWay cfg st q.requestorId (setIndexOf cfg q.memoryAddress)
              (tagOf cfg q.memoryAddress) = some w := hw
          simp [requestServiced, hb, hk, hw2]
        simp [hs, countEvents, List.countP_append, isReadSharedServiced,
          isReadExclusiveServiced, isUpgradeServiced]
      · rename_i hw
        have hs : requestServiced cfg st q = false := by
          have hw2 : findSharedWay cfg st q.requestorId (setIndexOf cfg q.memoryAddress)
              (tagOf cfg q.memoryAddress) = none := hw
          simp [requestServiced, hb, hk, hw2]
        simp [hs, countEvents, List.countP_append, isReadSharedServiced,
          isReadExclusiveServiced, isUpgradeServiced]


/-- The requests that `executeMemoryOperation` enqueues: at most one, made by the core itself
for the address of the entry, only when the core has no pending operation; an
`UPGRADE_REQUEST` is enqueued only when the core holds the line in state `SHARED`. -/
theorem executeMemoryOperation_requests (cfg : Config) (st : State) (e : TraceEntry) (c : Nat) :
    ∃ extra, (executeMemoryOperation cfg st e c).pendingRequests = st.pendingRequests ++ extra
      ∧ ∀ r ∈ extra, r.requestorId = c ∧ r.memoryAddress = e.addr
          ∧ st.pendingOperations c = -1
          ∧ (r.reqType = BusRequestType.UPGRADE_REQUEST →
              (findSharedWay cfg st c (setIndexOf cfg e.addr) (tagOf cfg e.addr)).isSome = true) := by
  unfold executeMemoryOperation
  dsimp only
  split
  · exact ⟨[], by simp⟩
  · rename_i hp
    have hp2 : st.pendingOperations c = -1 := by
      by_contra hne
      exact hp hne
    split
    · split
      · exact ⟨[], by simp⟩
      · exact ⟨_, rfl, by simp [hp2]⟩
    · split
      · rename_i w hw
        split
        · split
          · exact ⟨[], by simp⟩
          · exact ⟨[], by simp⟩
        · rename_i hstate
          refine ⟨_, rfl, ?_⟩
          intro r hr
          simp only [List.mem_singleton] at hr
          subst hr
          refine ⟨rfl, rfl, hp2, fun _ => ?_⟩
          have hw2 : lookupWay cfg st c (setIndexOf cfg e.addr) (tagOf cfg e.addr) = some w := hw
          obtain ⟨hlt, hpw, _⟩ := findFirst_some hw2
          simp only [Bool.and_eq_true, bne_iff_ne, ne_eq, beq_iff_eq] at hpw
          apply findFirst_isSome_of hlt
          have hsh : st.coherenceTable c (setIndexOf cfg e.addr) w = CoherenceState.SHARED := by
            have h1 := hpw.1
            have h2 : ¬ (st.coherenceTable c (setIndexOf cfg e.addr) w = CoherenceState.EXCLUSIVE
                ∨ st.coherenceTable c (setIndexOf cfg e.addr) w = CoherenceState.MODIFIED) :=
              hstate
            cases hcs : st.coherenceTable c (setIndexOf cfg e.addr) w with
            | MODIFIED => exact absurd (Or.inr hcs) h2
            | EXCLUSIVE => exact absurd (Or.inl hcs) h2
            | SHARED => rfl
            | INVALID => exact absurd hcs h1
          simp [hpw.2, hsh]
      · exact ⟨_, rfl, by simp [hp2]⟩

theorem selectVictim_countP (cfg : Config) (ds : Bool) (st : State) (c s : Nat) (tw : Bool)
    (p : Event → Bool) (hp : ∀ k, p (Event.dirtyEviction k) = false) :
    (selectVictim cfg ds st c s tw).2.2.ghostLog.countP p = st.ghostLog.countP p := by
  unfold selectVictim
  dsimp only
  repeat' split
  all_goals simp [List.countP_append, hp]

theorem completeTransfer_countP (cfg : Config) (st : State) (t : BusDataTransfer)
    (p : Event → Bool) (hp : ∀ k, p (Event.dirtyEviction k) = false)
    (hp2 : ∀ k, p (Event.writebackCompleted k) = false) :
    (completeTransfer cfg st t).ghostLog.countP p = st.ghostLog.countP p := by
  unfold completeTransfer processWriteMiss processReadMiss
  dsimp only
  repeat' split
  all_goals simp [List.countP_append, hp, hp2, selectVictim_countP]

theorem dataPhase_countP (cfg : Config) (st : State)
    (p : Event → Bool) (hp : ∀ k, p (Event.dirtyEviction k) = false)
    (hp2 : ∀ k, p (Event.writebackCompleted k) = false) :
    (dataPhase cfg st).ghostLog.countP p = st.ghostLog.countP p := by
  unfold dataPhase
  dsimp only
  repeat' split
  all_goals simp [completeTransfer_countP, hp, hp2]


/-- A property of the globals that does not depend on the request queue and is kept by the
steps of a cycle, where the cores that access and request are among `0 .. 3`, holds at the end
of every cycle, after the first loop of a cycle and after the bus tick. -/
theorem cycles_preserves_bounded (cfg : Config) (tr : Nat → List TraceEntry) (P : State → Prop)
    (h0 : P (initialState cfg))
    (hexec : ∀ st e c, c < 4 → P st → P (executeMemoryOperation cfg st e c))
    (hrun : ∀ st c, P st → P { st with processorRunning := set1 st.processorRunning c false })
    (htick : ∀ st, P st → P { st with busTickCounter := st.busTickCounter + 1 })
    (hdeq : ∀ st rest, P st → P { st with pendingRequests := rest })
    (hreq : ∀ st q, q.requestorId < 4 → P st → P (serviceRequest cfg st q))
    (hdata : ∀ st, P st → P (dataPhase cfg st))
    (hexi : ∀ st c, P st → P { st with
      executedInstructions := set1 st.executedInstructions c (st.executedInstructions c + 1) }) :
    ∀ n, P (cycles cfg tr n).st
      ∧ P (forLoop 4 (offerCore cfg tr) (cycles cfg tr n)).st
      ∧ P (processBusTransactions cfg (forLoop 4 (offerCore cfg tr) (cycles cfg tr n)).st) := by
  have h := cycles_phases cfg tr
    (fun sim => P sim.st ∧ sim.st.pendingRequests = [])
    (fun _ sim => P sim.st ∧ ∀ r ∈ sim.st.pendingRequests, r.requestorId < 4)
    (fun sim => P sim.st ∧ sim.st.pendingRequests = [])
    (fun _ sim => P sim.st ∧ sim.st.pendingRequests = [])
    ⟨h0, rfl⟩
    (fun sim hs => ⟨hs.1, by simp [hs.2]⟩)
    (by
      intro i sim hi hs
      unfold offerCore
      dsimp only
      split
      · exact hs
      · split
        · rename_i e _
          refine ⟨hexec _ _ _ hi hs.1, ?_⟩
          obtain ⟨extra, hx, hr⟩ := executeMemoryOperation_requests cfg sim.st e i
          intro r hmem
          rw [hx, List.mem_append] at hmem
          rcases hmem with hmem | hmem
          · exact hs.2 r hmem
          · rw [(hr r hmem).1]; exact hi
        · exact ⟨hrun _ _ hs.1, hs.2⟩)
    (by
      intro sim hs
      dsimp only
      unfold processBusTransactions requestPhase
      have hloop := requestLoop_invariant cfg
        (fun q st => P st ∧ st.pendingRequests = q ∧ ∀ r ∈ q, r.requestorId < 4)
        (by
          intro r rest st hR
          refine ⟨hreq _ _ (hR.2.2 r (List.mem_cons_self _ _)) (hdeq _ _ hR.1), ?_, ?_⟩
          · simp
          · intro r2 h2
            exact hR.2.2 r2 (List.mem_cons_of_mem _ h2))
        sim.st.pendingRequests { sim.st with busTickCounter := sim.st.busTickCounter + 1 }
        ⟨htick _ hs.1, rfl, hs.2⟩
      refine ⟨hdata _ hloop.1, ?_⟩
      have := hloop.2.1
      simpa using this)
    (fun sim hs => hs)
    (by
      intro i sim _ hs
      unfold advanceCore
      dsimp only
      split
      · split
        · exact ⟨hrun _ _ (hexi _ _ hs.1), hs.2⟩
        · exact ⟨hexi _ _ hs.1, hs.2⟩
      · exact hs)
    (fun sim hs => hs)
  intro n
  exact ⟨(h n).1.1, (h n).2.1.1, (h n).2.2.1⟩


/-- Effect of the service of one request on `missCount`. -/
theorem serviceRequest_missCount (cfg : Config) (st : State) (q : BusTransaction) (c : Nat) :
    (serviceRequest cfg st q).missCount c
      = st.missCount c
        + (if requestServiced cfg st q = true ∧ q.reqType ≠ BusRequestType.UPGRADE_REQUEST
              ∧ c = q.requestorId then 1 else 0) := by
  unfold serviceRequest
  dsimp only
  cases hb : st.busOccupied with
  | true =>
    have hs : requestServiced cfg st q = false := by simp [requestServiced, hb]
    simp [hs]
  | false =>
    cases hk : q.reqType with
    | READ_SHARED =>
      have hs : requestServiced cfg st q = true := by simp [requestServiced, hb, hk]
      simp only [hs, Bool.false_eq_true, if_false, true_and, ne_eq, reduceCtorEq,
        not_false_eq_true]
      unfold serviceReadShared
      dsimp only
      repeat' split
      all_goals simp_all [set1_apply]
    | READ_EXCLUSIVE =>
      have hs : requestServiced cfg st q = true := by simp [requestServiced, hb, hk]
      simp only [hs, Bool.false_eq_true, if_false, true_and, ne_eq, reduceCtorEq,
        not_false_eq_true]
      unfold serviceReadExclusive
      dsimp only
      repeat' split
      all_goals simp_all [set1_apply]
    | UPGRADE_REQUEST =>
      simp

theorem missSum_serviceRequest (cfg : Config) (st : State) (q : BusTransaction)
    (hq : q.requestorId < 4) :
    (serviceRequest cfg st q).missCount 0 + (serviceRequest cfg st q).missCount 1
        + (serviceRequest cfg st q).missCount 2 + (serviceRequest cfg st q).missCount 3
      = st.missCount 0 + st.missCount 1 + st.missCount 2 + st.missCount 3
        + (if requestServiced cfg st q = true ∧ q.reqType ≠ BusRequestType.UPGRADE_REQUEST
            then 1 else 0) := by
  simp only [serviceRequest_missCount]
  have h4 : q.requestorId = 0 ∨ q.requestorId = 1 ∨ q.requestorId = 2 ∨ q.requestorId = 3 := by
    omega
  by_cases hs : requestServiced cfg st q = true ∧ q.reqType ≠ BusRequestType.UPGRADE_REQUEST
  · rcases h4 with h | h | h | h <;> simp [hs.1, hs.2, h] <;> omega
  · have : ∀ c, ¬ (requestServiced cfg st q = true
        ∧ q.reqType ≠ BusRequestType.UPGRADE_REQUEST ∧ c = q.requestorId) :=
      fun c hc => hs ⟨hc.1, hc.2.1⟩
    simp only [this, hs, if_false, add_zero]

/-- The accounting predicates are kept by the steps of a cycle. -/
theorem accounting_serviceRequest (cfg : Config) (st : State) (q : BusTransaction)
    (hq : q.requestorId < 4) (h : TxnAccounting st ∧ MissAccounting st) :
    TxnAccounting (serviceRequest cfg st q) ∧ MissAccounting (serviceRequest cfg st q) := by
  obtain ⟨h1, h2, h3, h4⟩ := serviceRequest_accounting cfg st q
  have h5 := missSum_serviceRequest cfg st q hq
  unfold TxnAccounting MissAccounting at *
  rw [h1, h2, h3, h4, h5, h.1, h.2]
  cases hk : q.reqType <;> by_cases hs : requestServiced cfg st q = true <;>
    simp [hs] <;> omega

theorem accounting_dataPhase (cfg : Config) (st : State)
    (h : TxnAccounting st ∧ MissAccounting st) :
    TxnAccounting (dataPhase cfg st) ∧ MissAccounting (dataPhase cfg st) := by
  unfold TxnAccounting MissAccounting countEvents at *
  simp only [dataPhase_busTransactionCount, dataPhase_missCount,
    dataPhase_countP cfg st isReadSharedServiced (fun _ => rfl) (fun _ => rfl),
    dataPhase_countP cfg st isReadExclusiveServiced (fun _ => rfl) (fun _ => rfl),
    dataPhase_countP cfg st isUpgradeServiced (fun _ => rfl) (fun _ => rfl)]
  exact h

/-- **C6** (bus-transaction accounting).  The service of one request adds 1 to
`busTransactionCount` exactly when the request is serviced (the bus is idle and, for an
`UPGRADE`, the requestor's line is found `SHARED`) and the log then records one serviced
request of that kind; a request dropped because the bus is busy and an `UPGRADE` whose line is
not found add nothing.  `executeMemoryOperation` and the data phase change neither the counter
nor the log counts.  Hence in every run, at the end of every cycle, after the first loop of a
cycle and after the bus tick, `busTransactionCount` is the number of serviced `READ_SHARED`
plus serviced `READ_EXCLUSIVE` plus successful `UPGRADE` requests, and equals the sum of
`missCount` over the four cores plus the number of successful upgrades. -/
theorem bus_transaction_accounting (cfg : Config) :
    (∀ (st : State) (q : BusTransaction),
      (serviceRequest cfg st q).busTransactionCount
          = st.busTransactionCount + (if requestServiced cfg st q = true then 1 else 0)
      ∧ countEvents isReadSharedServiced (serviceRequest cfg st q)
          = countEvents isReadSharedServiced st
            + (if requestServiced cfg st q = true ∧ q.reqType = BusRequestType.READ_SHARED
                then 1 else 0)
      ∧ countEvents isReadExclusiveServiced (serviceRequest cfg st q)
          = countEvents isReadExclusiveServiced st
            + (if requestServiced cfg st q = true ∧ q.reqType = BusRequestType.READ_EXCLUSIVE
                then 1 else 0)
      ∧ countEvents isUpgradeServiced (serviceRequest cfg st q)
          = countEvents isUpgradeServiced st
            + (if requestServiced cfg st q = true ∧ q.reqType = BusRequestType.UPGRADE_REQUEST
                then 1 else 0))
    ∧ (∀ (st : State) (e : TraceEntry) (c : Nat),
        (executeMemoryOperation cfg st e c).busTransactionCount = st.busTransactionCount
        ∧ (executeMemoryOperation cfg st e c).ghostLog = st.ghostLog)
    ∧ (∀ st : State,
        (dataPhase cfg st).busTransactionCount = st.busTransactionCount
        ∧ countEvents isReadSharedServiced (dataPhase cfg st)
            = countEvents isReadSharedServiced st
        ∧ countEvents isReadExclusiveServiced (dataPhase cfg st)
            = countEvents isReadExclusiveServiced st
        ∧ countEvents isUpgradeServiced (dataPhase cfg st) = countEvents isUpgradeServiced st)
    ∧ (∀ (tr : Nat → List TraceEntry) (n : Nat) (st : State),
        (st = (cycles cfg tr n).st
          ∨ st = (forLoop 4 (offerCore cfg tr) (cycles cfg tr n)).st
          ∨ st = processBusTransactions cfg
              (forLoop 4 (offerCore cfg tr) (cycles cfg tr n)).st) →
        st.busTransactionCount
            = countEvents isReadSharedServiced st + countEvents isReadExclusiveServiced st
              + countEvents isUpgradeServiced st
        ∧ st.busTransactionCount
            = (st.missCount 0 + st.missCount 1 + st.missCount 2 + st.missCount 3)
              + countEvents isUpgradeServiced st) := by
  refine ⟨serviceRequest_accounting cfg, fun st e c => ⟨by simp, by simp⟩, ?_, ?_⟩
  · intro st
    refine ⟨by simp, ?_, ?_, ?_⟩
    · simp [countEvents, dataPhase_countP cfg st isReadSharedServiced (fun _ => rfl)
        (fun _ => rfl)]
    · simp [countEvents, dataPhase_countP cfg st isReadExclusiveServiced (fun _ => rfl)
        (fun _ => rfl)]
    · simp [countEvents, dataPhase_countP cfg st isUpgradeServiced (fun _ => rfl)
        (fun _ => rfl)]
  · intro tr n st hst
    have h := cycles_preserves_bounded cfg tr (fun s => TxnAccounting s ∧ MissAccounting s)
      (by simp [TxnAccounting, MissAccounting, countEvents, initialState])
      (by
        intro s e c _ hs
        unfold TxnAccounting MissAccounting countEvents at *
        simpa using hs)
      (fun s c hs => hs) (fun s hs => hs) (fun s rest hs => hs)
      (fun s q hq hs => accounting_serviceRequest cfg s q hq hs)
      (accounting_dataPhase cfg)
      (fun s c hs => hs) n
    have hP : TxnAccounting st ∧ MissAccounting st := by
      rcases hst with h1 | h1 | h1
      · rw [h1]; exact h.1
      · rw [h1]; exact h.2.1
      · rw [h1]; exact h.2.2
    unfold TxnAccounting MissAccounting at hP
    refine ⟨hP.1, ?_⟩
    rw [hP.1, hP.2]

/-- Witness for `bus_transaction_accounting`: the accounting equations at the end of the first
cycle of scenario S3. -/
theorem bus_transaction_accounting_witness :
    (cycles scenarioConfig scenarioS3 1).st.busTransactionCount
        = countEvents isReadSharedServiced (cycles scenarioConfig scenarioS3 1).st
          + countEvents isReadExclusiveServiced (cycles scenarioConfig scenarioS3 1).st
          + countEvents isUpgradeServiced (cycles scenarioConfig scenarioS3 1).st
    ∧ (cycles scenarioConfig scenarioS3 1).st.busTransactionCount
        = ((cycles scenarioConfig scenarioS3 1).st.missCount 0
            + (cycles scenarioConfig scenarioS3 1).st.missCount 1
            + (cycles scenarioConfig scenarioS3 1).st.missCount 2
            + (cycles scenarioConfig scenarioS3 1).st.missCount 3)
          + countEvents isUpgradeServiced (cycles scenarioConfig scenarioS3 1).st :=
  (bus_transaction_accounting scenarioConfig).2.2.2 scenarioS3 1 _ (Or.inl rfl)

/-! ### Termination of the cycle loop -/

/-- When the cycle loop returns, its result is the state at the end of some cycle, and the
end-of-cycle check has failed there. -/
theorem cycleLoop_result (cfg : Config) (tr : Nat → List TraceEntry) :
    ∀ (fuel n : Nat) (sim : SimState),
      cycleLoop cfg tr fuel (cycles cfg tr n) = some sim →
      ∃ m, n < m ∧ sim = cycles cfg tr m ∧ Terminated sim := by
  intro fuel
  induction fuel with
  | zero => intro n sim h; simp [cycleLoop] at h
  | succ k ih =>
    intro n sim h
    simp only [cycleLoop] at h
    by_cases hact : simulationActive (cycle cfg tr (cycles cfg tr n)) = true
    · simp only [hact, if_true] at h
      obtain ⟨m, hm, hs, ht⟩ := ih (n + 1) sim h
      exact ⟨m, by omega, hs, ht⟩
    · simp only [hact, Bool.false_eq_true, if_false, Option.some.injEq] at h
      refine ⟨n + 1, by omega, h.symm, ?_⟩
      unfold Terminated
      rw [← h]
      simpa using hact

/-- The result of `runMulticoreSimulation` is the state at the end of some cycle, where the
loop has ended, with the read and write counts added. -/
theorem runMulticoreSimulation_result (cfg : Config) (tr : Nat → List TraceEntry) (fuel : Nat)
    (sim : SimState) (h : runMulticoreSimulation cfg tr fuel = some sim) :
    ∃ m, 0 < m ∧ Terminated (cycles cfg tr m)
      ∧ sim.tracePosition = (cycles cfg tr m).tracePosition
      ∧ sim.st = { (cycles cfg tr m).st with
          readCount := fun c => (cycles cfg tr m).st.readCount c + countOps (tr c) Op.R
          writeCount := fun c => (cycles cfg tr m).st.writeCount c + countOps (tr c) Op.W } := by
  unfold runMulticoreSimulation at h
  cases hc : cycleLoop cfg tr fuel (initialSim cfg) with
  | none => rw [hc] at h; simp at h
  | some s1 =>
    rw [hc] at h
    simp only [Option.some.injEq] at h
    obtain ⟨m, hm, hs, ht⟩ := cycleLoop_result cfg tr fuel 0 s1 hc
    refine ⟨m, hm, hs ▸ ht, ?_, ?_⟩
    · rw [← h, hs]
    · rw [← h, hs]

/-- When the loop has ended, the data-transfer queue is empty and no core `0 .. 3` is running
or stalled. -/
theorem terminated_elim {sim : SimState} (h : Terminated sim) :
    sim.st.dataTransferQueue = []
      ∧ ∀ c, c < 4 → sim.st.processorRunning c = false ∧ sim.st.isStalled c = false := by
  unfold Terminated simulationActive at h
  have hn : findFirst 4 (fun checkIdx =>
      sim.st.processorRunning checkIdx || sim.st.isStalled checkIdx
        || !sim.st.dataTransferQueue.isEmpty) = none := by
    cases hf : findFirst 4 (fun checkIdx =>
      sim.st.processorRunning checkIdx || sim.st.isStalled checkIdx
        || !sim.st.dataTransferQueue.isEmpty) with
    | none => rfl
    | some i => rw [hf] at h; simp at h
  have h0 := findFirst_none hn
  refine ⟨?_, ?_⟩
  · have := h0 0 (by decide)
    simp only [Bool.or_eq_false_iff, Bool.not_eq_false', List.isEmpty_iff] at this
    exact this.2
  · intro c hc
    have := h0 c hc
    simp only [Bool.or_eq_false_iff] at this
    exact ⟨this.1.1, this.1.2⟩


/-! ### Writeback accounting -/

theorem writebackAccounting_executeMemoryOperation (cfg : Config) (st : State) (e : TraceEntry)
    (k c : Nat) (h : WritebackAccounting st c) :
    WritebackAccounting (executeMemoryOperation cfg st e k) c := by
  unfold WritebackAccounting countEvents queuedWritebacks at *
  simpa using h

/-- The body of the `READ_EXCLUSIVE` snoop keeps the writeback accounting. -/
theorem writebackAccounting_invalidateWay (a : Int) (s : Nat) (tag : Int) (oc w : Nat)
    (acc : Bool × State) (c : Nat) (h : WritebackAccounting acc.2 c) :
    WritebackAccounting (invalidateWay a s tag oc w acc).2 c := by
  unfold WritebackAccounting countEvents queuedWritebacks at *
  unfold invalidateWay
  dsimp only
  repeat' split
  all_goals
    try simp only [List.countP_append, List.countP_cons, List.countP_nil, isDirtyEvictionOf,
      isModifiedSnoopedOf, isWritebackCompletedOf, isWritebackFor, Bool.true_and,
      Nat.cast_add, zero_add]
    first
      | exact h
      | (by_cases hoc : oc = c
         · simp [hoc]; omega
         · simp [hoc]; omega)

theorem writebackAccounting_invalidateOthers (cfg : Config) (r : Nat) (a : Int) (s : Nat)
    (tag : Int) (acc : Bool × State) (c : Nat) (h : WritebackAccounting acc.2 c) :
    WritebackAccounting (invalidateOthers cfg r a s tag acc).2 c := by
  unfold invalidateOthers
  refine forLoop_preserves (fun x : Bool × State => WritebackAccounting x.2 c) _ _ ?_ _ h
  intro oc x _ hx
  dsimp only
  split
  · refine forLoop_preserves (fun x : Bool × State => WritebackAccounting x.2 c) _ _ ?_ _ hx
    intro w x2 _ hx2
    exact writebackAccounting_invalidateWay a s tag oc w x2 c hx2
  · exact hx

theorem writebackAccounting_serviceRequest (cfg : Config) (st : State) (q : BusTransaction)
    (c : Nat) (h : WritebackAccounting st c) : WritebackAccounting (serviceRequest cfg st q) c := by
  unfold serviceRequest
  dsimp only
  split
  · unfold WritebackAccounting countEvents queuedWritebacks at *
    simpa [List.countP_append, isDirtyEvictionOf, isModifiedSnoopedOf,
      isWritebackCompletedOf] using h
  · split
    · unfold serviceReadShared
      unfold WritebackAccounting countEvents queuedWritebacks at *
      dsimp only
      repeat' split
      all_goals
        simp only [List.countP_append, List.countP_cons, List.countP_nil, isDirtyEvictionOf,
          isModifiedSnoopedOf, isWritebackCompletedOf, isWritebackFor, Bool.true_and,
          Bool.false_and, Nat.cast_add, zero_add, add_zero, Bool.false_eq_true, if_false,
          Nat.cast_zero]
        first
          | exact h
          | (rename_i oc _ _ _ _
             by_cases hoc : oc = c
             · simp [hoc]; omega
             · simp [hoc]; omega)
    · unfold serviceReadExclusive
      dsimp only
      have hst : WritebackAccounting
          { st with
            pendingOperations := set1 st.pendingOperations q.requestorId q.memoryAddress
            busOccupied := true
            busTransactionCount := st.busTransactionCount + 1
            missCount := set1 st.missCount q.requestorId (st.missCount q.requestorId + 1)
            ghostLog := st.ghostLog ++ [Event.readExclusiveServiced q.requestorId] } c := by
        unfold WritebackAccounting countEvents queuedWritebacks at *
        simpa [List.countP_append, isDirtyEvictionOf, isModifiedSnoopedOf,
          isWritebackCompletedOf] using h
      have hl := writebackAccounting_invalidateOthers cfg q.requestorId q.memoryAddress
        (setIndexOf cfg q.memoryAddress) (tagOf cfg q.memoryAddress) (false, _) c hst
      unfold WritebackAccounting countEvents queuedWritebacks at hl ⊢
      repeat' split
      all_goals
        simpa [List.countP_append, isWritebackFor] using hl
    · unfold serviceUpgrade
      dsimp only
      unfold WritebackAccounting countEvents queuedWritebacks at *
      split
      · simpa [List.countP_append, isDirtyEvictionOf, isModifiedSnoopedOf,
          isWritebackCompletedOf, isWritebackFor] using h
      · simpa [List.countP_append, isDirtyEvictionOf, isModifiedSnoopedOf,
          isWritebackCompletedOf] using h


/-- Writebacks queued and logged by the victim choice. -/
theorem selectVictim_writeback (cfg : Config) (ds : Bool) (st : State) (core set : Nat)
    (tw : Bool) (c : Nat) :
    ∃ extra, (selectVictim cfg ds st core set tw).2.2.dataTransferQueue
        = st.dataTransferQueue ++ extra
      ∧ (selectVictim cfg ds st core set tw).2.2.ghostLog.countP (isDirtyEvictionOf c)
        = st.ghostLog.countP (isDirtyEvictionOf c) + extra.countP (isWritebackFor c)
      ∧ (selectVictim cfg ds st core set tw).2.2.ghostLog.countP (isModifiedSnoopedOf c)
        = st.ghostLog.countP (isModifiedSnoopedOf c)
      ∧ (selectVictim cfg ds st core set tw).2.2.ghostLog.countP (isWritebackCompletedOf c)
        = st.ghostLog.countP (isWritebackCompletedOf c) := by
  unfold selectVictim
  dsimp only
  split
  · split
    · refine ⟨_, rfl, ?_, ?_, ?_⟩
      · by_cases hc : core = c <;>
          simp [List.countP_append, isDirtyEvictionOf, isWritebackFor, hc]
      · simp [List.countP_append, isModifiedSnoopedOf]
      · simp [List.countP_append, isWritebackCompletedOf]
    · exact ⟨[], by simp⟩
  · exact ⟨[], by simp⟩

/-- Writebacks queued, logged and counted by the completion of a transfer. -/
theorem completeTransfer_writeback (cfg : Config) (st : State) (t : BusDataTransfer) (c : Nat) :
    ∃ extra, (completeTransfer cfg st t).dataTransferQueue = st.dataTransferQueue ++ extra
      ∧ (completeTransfer cfg st t).ghostLog.countP (isDirtyEvictionOf c)
        = st.ghostLog.countP (isDirtyEvictionOf c) + extra.countP (isWritebackFor c)
      ∧ (completeTransfer cfg st t).ghostLog.countP (isModifiedSnoopedOf c)
        = st.ghostLog.countP (isModifiedSnoopedOf c)
      ∧ (completeTransfer cfg st t).ghostLog.countP (isWritebackCompletedOf c)
        = st.ghostLog.countP (isWritebackCompletedOf c)
          + (if isWritebackFor c t = true then 1 else 0)
      ∧ (completeTransfer cfg st t).writebackCount c
        = st.writebackCount c + (if isWritebackFor c t = true then 1 else 0) := by
  unfold completeTransfer
  dsimp only
  by_cases hwb : t.isWritebackOp = true
  · simp only [hwb, Bool.not_true, Bool.false_eq_true, if_false]
    refine ⟨[], by simp, by simp [List.countP_append, isDirtyEvictionOf], ?_, ?_, ?_⟩
    · simp [List.countP_append, isModifiedSnoopedOf]
    · by_cases hc : t.destinationCore = c <;>
        simp [List.countP_append, isWritebackCompletedOf, isWritebackFor, hwb, hc]
    · by_cases hc : t.destinationCore = c
      · simp [isWritebackFor, hwb, hc]
      · have hc2 : ¬ c = t.destinationCore := fun h => hc h.symm
        simp [isWritebackFor, hwb, hc, hc2, set1_apply]
  · have hwf : isWritebackFor c t = false := by simp [isWritebackFor, hwb]
    simp only [hwb, hwf, Bool.not_false, if_true, Bool.false_eq_true, if_false, add_zero]
    unfold processWriteMiss processReadMiss
    dsimp only
    by_cases hw : t.isWriteOp = true
    · simp only [hw, if_true]
      obtain ⟨extra, h1, h2, h3, h4⟩ := selectVictim_writeback cfg false
        { st with
          totalBusTraffic := st.totalBusTraffic + bytesPerBlock cfg
          trafficBytes := set1 st.trafficBytes t.destinationCore
            (st.trafficBytes t.destinationCore + bytesPerBlock cfg) }
        t.destinationCore (setIndexOf cfg t.targetAddress) false c
      refine ⟨extra, ?_, ?_, ?_, ?_, ?_⟩
      · split <;> simpa using h1
      · split <;> simpa using h2
      · split <;> simpa using h3
      · split <;> simpa using h4
      · split <;> simp
    · simp only [hw, Bool.false_eq_true, if_false]
      by_cases hi : t.isInvalidation = true
      · simp only [hi, Bool.not_true, Bool.false_eq_true, if_false]
        exact ⟨[], by simp⟩
      · simp only [hi, Bool.not_false, if_true]
        obtain ⟨extra, h1, h2, h3, h4⟩ := selectVictim_writeback cfg true
          { st with
            totalBusTraffic := st.totalBusTraffic + bytesPerBlock cfg
            trafficBytes := set1 st.trafficBytes t.destinationCore
              (st.trafficBytes t.destinationCore + bytesPerBlock cfg) }
          t.destinationCore (setIndexOf cfg t.targetAddress) false c
        refine ⟨extra, ?_, ?_, ?_, ?_, ?_⟩
        · split <;> simpa using h1
        · split <;> simpa using h2
        · split <;> simpa using h3
        · split <;> simpa using h4
        · split <;> simp

theorem writebackAccounting_dataPhase (cfg : Config) (st : State) (c : Nat)
    (h : WritebackAccounting st c) : WritebackAccounting (dataPhase cfg st) c := by
  unfold dataPhase
  split
  · exact h
  · rename_i t rest hq
    dsimp only
    split
    · obtain ⟨extra, h1, h2, h3, h4, h5⟩ := completeTransfer_writeback cfg st t c
      have hgoal : WritebackAccounting
          { completeTransfer cfg st t with
            dataTransferQueue := (completeTransfer cfg st t).dataTransferQueue.tail } c := by
        unfold WritebackAccounting countEvents queuedWritebacks at *
        simp only [h2, h3, h4, h5, h1, hq, List.cons_append, List.tail_cons,
          List.countP_append, Nat.cast_add]
        rw [hq] at h
        simp only [List.countP_cons, Nat.cast_add] at h
        by_cases hw : isWritebackFor c t = true
        · simp only [hw, if_true, Nat.cast_one] at h ⊢
          omega
        · simp only [hw, Bool.false_eq_true, if_false, Nat.cast_zero, add_zero] at h ⊢
          omega
      split
      · unfold WritebackAccounting countEvents queuedWritebacks at hgoal ⊢
        exact hgoal
      · exact hgoal
    · unfold WritebackAccounting countEvents queuedWritebacks at *
      rw [hq] at h
      simpa [List.countP_cons, isWritebackFor] using h


theorem dataPhase_writebackCount (cfg : Config) (st : State) (c : Nat) :
    (dataPhase cfg st).writebackCount c
      = st.writebackCount c + (if completesWritebackFor c st = true then 1 else 0) := by
  unfold dataPhase completesWritebackFor
  split
  · simp
  · rename_i t rest hq
    dsimp only
    by_cases hz : t.pendingCycles = 0
    · obtain ⟨_, _, _, _, _, h5⟩ := completeTransfer_writeback cfg st t c
      simp only [hz, if_true, beq_self_eq_true, Bool.true_and]
      split <;> simpa using h5
    · simp [hz]

theorem writebackAccounting_cycles (cfg : Config) (tr : Nat → List TraceEntry) (c n : Nat) :
    WritebackAccounting (cycles cfg tr n).st c :=
  (cycles_preserves_bounded cfg tr (fun s => WritebackAccounting s c)
    (by simp [WritebackAccounting, countEvents, queuedWritebacks, initialState])
    (fun s e k _ hs => writebackAccounting_executeMemoryOperation cfg s e k c hs)
    (fun s k hs => hs) (fun s hs => hs) (fun s rest hs => hs)
    (fun s q _ hs => writebackAccounting_serviceRequest cfg s q c hs)
    (fun s hs => writebackAccounting_dataPhase cfg s c hs)
    (fun s k hs => hs) n).1

/-! ### Pending implies stalled -/

/-- The access engine never clears a stalled flag. -/
theorem executeMemoryOperation_isStalled_mono (cfg : Config) (st : State) (e : TraceEntry)
    (k c : Nat) (h : st.isStalled c = true) :
    (executeMemoryOperation cfg st e k).isStalled c = true := by
  unfold executeMemoryOperation
  dsimp only
  repeat' split
  all_goals simp [set1_apply, h]

/-- The access engine changes no tag, and the only state change is `EXCLUSIVE` to
`MODIFIED` on a line of the accessing core. -/
theorem executeMemoryOperation_coherence (cfg : Config) (st : State) (e : TraceEntry)
    (k c s w : Nat) :
    (executeMemoryOperation cfg st e k).coherenceTable c s w = st.coherenceTable c s w
      ∨ (c = k ∧ st.coherenceTable c s w = CoherenceState.EXCLUSIVE
          ∧ (executeMemoryOperation cfg st e k).coherenceTable c s w
              = CoherenceState.MODIFIED) := by
  unfold executeMemoryOperation
  dsimp only
  split
  · exact Or.inl rfl
  · split
    · split <;> exact Or.inl rfl
    · split
      · rename_i mw _
        split
        · split
          · rename_i hx
            simp only [set3_apply]
            by_cases hc : c = k ∧ s = setIndexOf cfg e.addr ∧ w = mw
            · rw [if_pos hc]
              obtain ⟨h1, h2, h3⟩ := hc
              subst h1 h2 h3
              exact Or.inr ⟨rfl, hx, rfl⟩
            · rw [if_neg hc]
              exact Or.inl rfl
          · exact Or.inl rfl
        · exact Or.inl rfl
      · exact Or.inl rfl

theorem pendingStalled_executeMemoryOperation (cfg : Config) (st : State) (e : TraceEntry)
    (k : Nat) (h : PendingStalled st) : PendingStalled (executeMemoryOperation cfg st e k) := by
  intro c hc
  rw [executeMemoryOperation_pendingOperations] at hc
  exact executeMemoryOperation_isStalled_mono cfg st e k c (h c hc)

/-- A `SHARED` line found before an access is still found after it. -/
theorem upgradeLineFound_executeMemoryOperation (cfg : Config) (st : State) (e : TraceEntry)
    (k : Nat) (q : BusTransaction) (h : upgradeLineFound cfg st q) :
    upgradeLineFound cfg (executeMemoryOperation cfg st e k) q := by
  unfold upgradeLineFound findSharedWay at *
  cases hf : findFirst cfg.associativity (fun wayIdx =>
      st.tagArray q.requestorId (setIndexOf cfg q.memoryAddress) wayIdx
          == toUnsigned (tagOf cfg q.memoryAddress)
        && st.coherenceTable q.requestorId (setIndexOf cfg q.memoryAddress) wayIdx
          == CoherenceState.SHARED) with
  | none => rw [hf] at h; simp at h
  | some w =>
    obtain ⟨hlt, hp, _⟩ := findFirst_some hf
    apply findFirst_isSome_of hlt
    simp only [Bool.and_eq_true, beq_iff_eq] at hp ⊢
    refine ⟨by simpa using hp.1, ?_⟩
    rcases executeMemoryOperation_coherence cfg st e k q.requestorId
        (setIndexOf cfg q.memoryAddress) w with h1 | ⟨_, h2, _⟩
    · rw [h1]; exact hp.2
    · rw [hp.2] at h2; exact absurd h2 (by decide)


/-- Pending implies stalled for every core other than `r`. -/
theorem pendingStalledExcept_invalidateOthers (cfg : Config) (r : Nat) (a : Int) (s : Nat)
    (tag : Int) (acc : Bool × State) (x : Nat)
    (h : ∀ c, c ≠ x → acc.2.pendingOperations c ≠ -1 → acc.2.isStalled c = true) :
    ∀ c, c ≠ x → (invalidateOthers cfg r a s tag acc).2.pendingOperations c ≠ -1 →
      (invalidateOthers cfg r a s tag acc).2.isStalled c = true := by
  unfold invalidateOthers
  refine forLoop_preserves (fun y : Bool × State =>
    ∀ c, c ≠ x → y.2.pendingOperations c ≠ -1 → y.2.isStalled c = true) _ _ ?_ _ h
  intro oc y _ hy
  dsimp only
  split
  · refine forLoop_preserves (fun y : Bool × State =>
      ∀ c, c ≠ x → y.2.pendingOperations c ≠ -1 → y.2.isStalled c = true) _ _ ?_ _ hy
    intro w y2 _ hy2
    unfold invalidateWay
    dsimp only
    repeat' split
    all_goals
      intro c hcx hc
      first
        | exact hy2 c hcx hc
        | (simp only [set1_apply] at hc ⊢
           by_cases hco : c = oc
           · simp [hco]
           · simp only [hco, if_false] at hc ⊢
             exact hy2 c hcx hc)
  · exact hy

/-- The service of a request keeps "pending implies stalled", provided that an
`UPGRADE_REQUEST` serviced with the bus idle finds its line. -/
theorem pendingStalled_serviceRequest (cfg : Config) (st : State) (q : BusTransaction)
    (h : PendingStalled st)
    (hup : st.busOccupied = false → q.reqType = BusRequestType.UPGRADE_REQUEST →
      upgradeLineFound cfg st q) :
    PendingStalled (serviceRequest cfg st q) := by
  unfold serviceRequest
  dsimp only
  cases hb : st.busOccupied with
  | true =>
    simp only [if_true]
    intro c hc
    simp only [set1_apply] at hc ⊢
    by_cases hcr : c = q.requestorId
    · simp [hcr]
    · simp only [hcr, if_false]
      exact h c hc
  | false =>
    simp only [Bool.false_eq_true, if_false]
    cases hk : q.reqType with
    | READ_SHARED =>
      dsimp only
      unfold serviceReadShared
      dsimp only
      repeat' split
      all_goals
        intro c hc
        simp only [set1_apply] at hc ⊢
        by_cases hcr : c = q.requestorId
        · simp [hcr]
        · simp only [hcr, if_false] at hc ⊢
          first
            | exact h c hc
            | (rename_i oc _ _ _ _
               by_cases hco : c = oc
               · simp [hco]
               · simp only [hco, if_false] at hc ⊢
                 exact h c hc)
    | READ_EXCLUSIVE =>
      dsimp only
      unfold serviceReadExclusive
      dsimp only
      have hl := pendingStalledExcept_invalidateOthers cfg q.requestorId q.memoryAddress
        (setIndexOf cfg q.memoryAddress) (tagOf cfg q.memoryAddress)
        (false,
          { st with
            pendingOperations := set1 st.pendingOperations q.requestorId q.memoryAddress
            busOccupied := true
            busTransactionCount := st.busTransactionCount + 1
            missCount := set1 st.missCount q.requestorId (st.missCount q.requestorId + 1)
            ghostLog := st.ghostLog ++ [Event.readExclusiveServiced q.requestorId] })
        q.requestorId
        (by
          intro c hcx hc
          simp only [set1_apply, hcx, if_false] at hc
          exact h c hc)
      repeat' split
      all_goals
        intro c hc
        simp only [set1_apply] at hc ⊢
        by_cases hcr : c = q.requestorId
        · simp [hcr]
        · simp only [hcr, if_false]
          exact hl c hcr hc
    | UPGRADE_REQUEST =>
      dsimp only
      have hfound := hup hb hk
      unfold upgradeLineFound at hfound
      unfold serviceUpgrade
      dsimp only
      split
      · intro c hc
        simp only [set1_apply, upgradeInvalidateOthers_isStalled,
          upgradeInvalidateOthers_pendingOperations] at hc ⊢
        by_cases hcr : c = q.requestorId
        · simp [hcr]
        · simp only [hcr, if_false] at hc ⊢
          exact h c hc
      · rename_i hnone
        have hnone2 : findSharedWay cfg st q.requestorId (setIndexOf cfg q.memoryAddress)
            (tagOf cfg q.memoryAddress) = none := hnone
        rw [hnone2] at hfound
        simp at hfound

/-- Once the bus is busy, or once a request has been serviced, the bus is busy. -/
theorem serviceRequest_busOccupied (cfg : Config) (st : State) (q : BusTransaction)
    (hup : st.busOccupied = false → q.reqType = BusRequestType.UPGRADE_REQUEST →
      upgradeLineFound cfg st q) :
    (serviceRequest cfg st q).busOccupied = true := by
  unfold serviceRequest
  dsimp only
  cases hb : st.busOccupied with
  | true => simp
  | false =>
    simp only [Bool.false_eq_true, if_false]
    cases hk : q.reqType with
    | READ_SHARED =>
      dsimp only
      unfold serviceReadShared
      dsimp only
      repeat' split
      all_goals rfl
    | READ_EXCLUSIVE =>
      dsimp only
      unfold serviceReadExclusive
      dsimp only
      repeat' split
      all_goals simp
    | UPGRADE_REQUEST =>
      dsimp only
      have hfound := hup hb hk
      unfold upgradeLineFound at hfound
      unfold serviceUpgrade
      dsimp only
      split
      · rfl
      · rename_i hnone
        have hnone2 : findSharedWay cfg st q.requestorId (setIndexOf cfg q.memoryAddress)
            (tagOf cfg q.memoryAddress) = none := hnone
        rw [hnone2] at hfound
        simp at hfound

/-- The victim choice never clears a stalled flag and changes no pending operation. -/
theorem selectVictim_isStalled_mono (cfg : Config) (ds : Bool) (st : State) (core set : Nat)
    (tw : Bool) (c : Nat) (h : st.isStalled c = true) :
    (selectVictim cfg ds st core set tw).2.2.isStalled c = true := by
  unfold selectVictim
  dsimp only
  repeat' split
  all_goals simp [set1_apply, h]

theorem pendingStalled_completeTransfer (cfg : Config) (st : State) (t : BusDataTransfer)
    (h : PendingStalled st) : PendingStalled (completeTransfer cfg st t) := by
  unfold completeTransfer processWriteMiss processReadMiss
  dsimp only
  repeat' split
  all_goals
    intro c hc
    simp only [set1_apply, installLine_pendingOperations, selectVictim_pendingOperations,
      installLine_isStalled] at hc ⊢
    by_cases hcd : c = t.destinationCore
    · simp [hcd] at hc ⊢
    · simp only [hcd, if_false] at hc ⊢
      first
        | exact h c hc
        | exact selectVictim_isStalled_mono _ _ _ _ _ _ c (h c hc)

theorem pendingStalled_dataPhase (cfg : Config) (st : State) (h : PendingStalled st) :
    PendingStalled (dataPhase cfg st) := by
  unfold dataPhase
  split
  · exact h
  · dsimp only
    split
    · split
      · exact pendingStalled_completeTransfer cfg st _ h
      · exact pendingStalled_completeTransfer cfg st _ h
    · exact h

/-- Invariant of the cycle loop behind "pending implies stalled": between the first loop of a
cycle and the bus tick, every queued `UPGRADE_REQUEST` finds its line. -/
theorem pendingStalled_cycles (cfg : Config) (tr : Nat → List TraceEntry) (n : Nat) :
    PendingStalled (cycles cfg tr n).st ∧ (cycles cfg tr n).st.pendingRequests = [] := by
  refine (cycles_phases cfg tr
    (fun sim => PendingStalled sim.st ∧ sim.st.pendingRequests = [])
    (fun _ sim => PendingStalled sim.st
      ∧ ∀ r ∈ sim.st.pendingRequests, r.reqType = BusRequestType.UPGRADE_REQUEST →
          upgradeLineFound cfg sim.st r)
    (fun sim => PendingStalled sim.st ∧ sim.st.pendingRequests = [])
    (fun _ sim => PendingStalled sim.st ∧ sim.st.pendingRequests = [])
    ?_ ?_ ?_ ?_ ?_ ?_ ?_ n).1
  · refine ⟨?_, rfl⟩
    intro c hc
    simp [initialSim, initialState] at hc
  · intro sim hs
    exact ⟨hs.1, by simp [hs.2]⟩
  · intro i sim _ hs
    unfold offerCore
    dsimp only
    split
    · exact hs
    · split
      · rename_i e _
        refine ⟨pendingStalled_executeMemoryOperation cfg _ e i hs.1, ?_⟩
        obtain ⟨extra, hx, hr⟩ := executeMemoryOperation_requests cfg sim.st e i
        intro r hmem hk
        apply upgradeLineFound_executeMemoryOperation
        rw [hx, List.mem_append] at hmem
        rcases hmem with hmem | hmem
        · exact hs.2 r hmem hk
        · obtain ⟨h1, h2, _, h4⟩ := hr r hmem
          unfold upgradeLineFound
          rw [h1, h2]
          exact h4 hk
      · exact hs
  · intro sim hs
    dsimp only
    unfold processBusTransactions requestPhase
    have hloop := requestLoop_invariant cfg
      (fun q st => PendingStalled st ∧ st.pendingRequests = q
        ∧ (st.busOccupied = false → ∀ r ∈ q, r.reqType = BusRequestType.UPGRADE_REQUEST →
            upgradeLineFound cfg st r))
      (by
        intro r rest st hR
        have hup : ({ st with pendingRequests := rest } : State).busOccupied = false →
            r.reqType = BusRequestType.UPGRADE_REQUEST →
            upgradeLineFound cfg { st with pendingRequests := rest } r :=
          fun hb hk => hR.2.2 hb r (List.mem_cons_self _ _) hk
        refine ⟨pendingStalled_serviceRequest cfg _ r hR.1 hup, by simp, ?_⟩
        intro hb
        rw [serviceRequest_busOccupied cfg _ r hup] at hb
        exact absurd hb (by decide))
      sim.st.pendingRequests { sim.st with busTickCounter := sim.st.busTickCounter + 1 }
      ⟨hs.1, rfl, fun _ => hs.2⟩
    refine ⟨pendingStalled_dataPhase cfg _ hloop.1, ?_⟩
    have := hloop.2.1
    simpa using this
  · intro sim hs
    exact hs
  · intro i sim _ hs
    unfold advanceCore
    dsimp only
    split
    · split
      · exact hs
      · exact hs
    · exact hs
  · intro sim hs
    exact hs

/-- **C4** (pending implies stalled).  In every run, at the end of every cycle, every core
whose `pendingOperations` entry is not `-1` has `isStalled = true`. -/
theorem pending_implies_stalled (cfg : Config) (tr : Nat → List TraceEntry) (n c : Nat)
    (h : (cycles cfg tr n).st.pendingOperations c ≠ -1) :
    (cycles cfg tr n).st.isStalled c = true :=
  (pendingStalled_cycles cfg tr n).1 c h

/-- Witness for `pending_implies_stalled`: after the first cycle of scenario S3, core 0 has
its write miss pending. -/
theorem pending_implies_stalled_witness :
    (cycles scenarioConfig scenarioS3 1).st.pendingOperations 0 ≠ -1
    ∧ (cycles scenarioConfig scenarioS3 1).st.isStalled 0 = true :=
  ⟨by decide!, pending_implies_stalled scenarioConfig scenarioS3 1 0 (by decide!)⟩

/-! ### Transfers queued by the service of a request -/

/-- A `READ_SHARED` service queues one fill for the requestor, then writebacks only. -/
theorem serviceReadShared_queue (cfg : Config) (st : State) (r : Nat) (a : Int) (s : Nat)
    (tag : Int) :
    ∃ lat wbs, (serviceReadShared cfg st r a s tag).dataTransferQueue
        = st.dataTransferQueue ++ ⟨a, r, false, false, false, lat⟩ :: wbs
      ∧ ∀ t ∈ wbs, t.isWritebackOp = true := by
  unfold serviceReadShared
  dsimp only
  repeat' split
  all_goals first
    | exact ⟨_, [], rfl, by simp⟩
    | exact ⟨_, [_], List.append_assoc _ _ _, by simp⟩

/-- The snoop loops of `READ_EXCLUSIVE` queue writebacks only. -/
theorem invalidateOthers_queue (cfg : Config) (r : Nat) (a : Int) (s : Nat) (tag : Int)
    (b : Bool) (st : State) :
    ∃ wbs, (invalidateOthers cfg r a s tag (b, st)).2.dataTransferQueue
        = st.dataTransferQueue ++ wbs
      ∧ ∀ t ∈ wbs, t.isWritebackOp = true := by
  unfold invalidateOthers
  refine forLoop_preserves (fun acc : Bool × State =>
    ∃ wbs, acc.2.dataTransferQueue = st.dataTransferQueue ++ wbs
      ∧ ∀ t ∈ wbs, t.isWritebackOp = true) _ _ ?_ _ ⟨[], by simp, by simp⟩
  intro oc acc _ h
  dsimp only
  split
  · refine forLoop_preserves (fun acc : Bool × State =>
      ∃ wbs, acc.2.dataTransferQueue = st.dataTransferQueue ++ wbs
        ∧ ∀ t ∈ wbs, t.isWritebackOp = true) _ _ ?_ _ h
    intro w acc2 _ h2
    obtain ⟨wbs, hq, hw⟩ := h2
    unfold invalidateWay
    dsimp only
    repeat' split
    all_goals first
      | exact ⟨wbs, hq, hw⟩
      | (refine ⟨wbs ++ [_], by simp only [hq, List.append_assoc]; rfl, ?_⟩
         intro t ht
         rcases List.mem_append.mp ht with h1 | h1
         · exact hw t h1
         · rw [List.mem_singleton.mp h1])
  · exact h

/-- A `READ_EXCLUSIVE` service queues writebacks, then one write fill for the requestor. -/
theorem serviceReadExclusive_queue (cfg : Config) (st : State) (r : Nat) (a : Int) (s : Nat)
    (tag : Int) :
    ∃ wbs, (serviceReadExclusive cfg st r a s tag).dataTransferQueue
        = st.dataTransferQueue ++ wbs ++ [⟨a, r, true, false, false, 100⟩]
      ∧ ∀ t ∈ wbs, t.isWritebackOp = true := by
  unfold serviceReadExclusive
  dsimp only
  obtain ⟨wbs, hq, hw⟩ := invalidateOthers_queue cfg r a s tag false
    { st with
      busOccupied := true
      busTransactionCount := st.busTransactionCount + 1
      missCount := set1 st.missCount r (st.missCount r + 1)
      ghostLog := st.ghostLog ++ [Event.readExclusiveServiced r] }
  repeat' split
  all_goals exact ⟨wbs, by simp only [hq], hw⟩

/-- An `UPGRADE_REQUEST` service queues at most the completion signal of the requestor. -/
theorem serviceUpgrade_queue (cfg : Config) (st : State) (r : Nat) (a : Int) (s : Nat)
    (tag : Int) :
    (serviceUpgrade cfg st r a s tag).dataTransferQueue = st.dataTransferQueue
      ∨ (serviceUpgrade cfg st r a s tag).dataTransferQueue
          = st.dataTransferQueue ++ [⟨a, r, false, false, true, 0⟩] := by
  unfold serviceUpgrade
  dsimp only
  split
  · right; simp
  · left; rfl

/-! ### Hit and miss accounting -/

/-- A `READ_SHARED` or `READ_EXCLUSIVE` request serviced with the bus idle queues a transfer
for the requestor. -/
theorem serviceRequest_hasTransferFor (cfg : Config) (st : State) (q : BusTransaction)
    (hb : st.busOccupied = false) (hk : q.reqType ≠ BusRequestType.UPGRADE_REQUEST) :
    hasTransferFor q.requestorId (serviceRequest cfg st q) := by
  unfold hasTransferFor serviceRequest
  dsimp only
  split
  · rename_i h
    rw [hb] at h
    exact absurd h (by decide)
  · split
    · obtain ⟨lat, wbs, h, _⟩ := serviceReadShared_queue cfg
        { st with pendingOperations := set1 st.pendingOperations q.requestorId q.memoryAddress }
        q.requestorId q.memoryAddress (setIndexOf cfg q.memoryAddress)
        (tagOf cfg q.memoryAddress)
      rw [h]
      exact ⟨⟨q.memoryAddress, q.requestorId, false, false, false, lat⟩, by simp, rfl⟩
    · obtain ⟨wbs, h, _⟩ := serviceReadExclusive_queue cfg
        { st with pendingOperations := set1 st.pendingOperations q.requestorId q.memoryAddress }
        q.requestorId q.memoryAddress (setIndexOf cfg q.memoryAddress)
        (tagOf cfg q.memoryAddress)
      rw [h]
      exact ⟨⟨q.memoryAddress, q.requestorId, true, false, false, 100⟩, by simp, rfl⟩
    · rename_i hq
      exact absurd hq hk

/-- The victim choice only appends to the queue, and reports a writeback only when it has
queued one for the core. -/
theorem selectVictim_triggered (cfg : Config) (ds : Bool) (st : State) (c s : Nat) :
    ∃ extra, (selectVictim cfg ds st c s false).2.2.dataTransferQueue
        = st.dataTransferQueue ++ extra
      ∧ ((selectVictim cfg ds st c s false).2.1 = true →
          ∃ t2 ∈ extra, t2.destinationCore = c) := by
  unfold selectVictim
  dsimp only
  split
  · split
    · exact ⟨[⟨_, c, false, true, false, 100⟩], rfl,
        fun _ => ⟨_, List.mem_singleton.mpr rfl, rfl⟩⟩
    · exact ⟨[], by simp, by simp⟩
  · exact ⟨[], by simp, by simp⟩

/-- The completion of a transfer only appends to the queue, and leaves the destination
stalled only when it has appended a transfer for it. -/
theorem completeTransfer_stalled (cfg : Config) (st : State) (t : BusDataTransfer) :
    ∃ extra, (completeTransfer cfg st t).dataTransferQueue = st.dataTransferQueue ++ extra
      ∧ ((completeTransfer cfg st t).isStalled t.destinationCore = true →
          ∃ t2 ∈ extra, t2.destinationCore = t.destinationCore) := by
  have key := fun ds => selectVictim_triggered cfg ds
    { st with
      totalBusTraffic := st.totalBusTraffic + bytesPerBlock cfg
      trafficBytes := set1 st.trafficBytes t.destinationCore
        (st.trafficBytes t.destinationCore + bytesPerBlock cfg) }
    t.destinationCore (setIndexOf cfg t.targetAddress)
  unfold completeTransfer processWriteMiss processReadMiss
  dsimp only
  cases hwb : t.isWritebackOp with
  | true => exact ⟨[], by simp, by simp⟩
  | false =>
    simp only [Bool.not_false, if_true]
    cases hw : t.isWriteOp with
    | true =>
      simp only [if_true]
      obtain ⟨extra, hx, hs⟩ := key false
      split
      · rename_i h
        exact ⟨extra, hx, fun _ => hs h⟩
      · exact ⟨extra, hx, by simp⟩
    | false =>
      simp only [Bool.false_eq_true, if_false]
      cases hi : t.isInvalidation with
      | true => exact ⟨[], by simp, by simp⟩
      | false =>
        simp only [Bool.not_false, if_true]
        obtain ⟨extra, hx, hs⟩ := key true
        split
        · rename_i h
          exact ⟨extra, hx, fun _ => hs h⟩
        · exact ⟨extra, hx, by simp⟩

/-- The service of a request only appends to the data-transfer queue. -/
theorem serviceRequest_queue_append (cfg : Config) (st : State) (q : BusTransaction) :
    ∃ extra, (serviceRequest cfg st q).dataTransferQueue = st.dataTransferQueue ++ extra := by
  unfold serviceRequest
  dsimp only
  split
  · exact ⟨[], by simp⟩
  · split
    · obtain ⟨lat, wbs, h, _⟩ := serviceReadShared_queue cfg
        { st with pendingOperations := set1 st.pendingOperations q.requestorId q.memoryAddress }
        q.requestorId q.memoryAddress (setIndexOf cfg q.memoryAddress)
        (tagOf cfg q.memoryAddress)
      exact ⟨_, h⟩
    · obtain ⟨wbs, h, _⟩ := serviceReadExclusive_queue cfg
        { st with pendingOperations := set1 st.pendingOperations q.requestorId q.memoryAddress }
        q.requestorId q.memoryAddress (setIndexOf cfg q.memoryAddress)
        (tagOf cfg q.memoryAddress)
      exact ⟨wbs ++ [⟨q.memoryAddress, q.requestorId, true, false, false, 100⟩],
        by rw [h, List.append_assoc]⟩
    · rcases serviceUpgrade_queue cfg
        { st with pendingOperations := set1 st.pendingOperations q.requestorId q.memoryAddress }
        q.requestorId q.memoryAddress (setIndexOf cfg q.memoryAddress)
        (tagOf cfg q.memoryAddress) with h | h
      · exact ⟨[], by rw [h]; simp⟩
      · exact ⟨_, h⟩

theorem hasTransferFor_of_append {c : Nat} {st st2 : State} {extra : List BusDataTransfer}
    (h : st2.dataTransferQueue = st.dataTransferQueue ++ extra)
    (hc : hasTransferFor c st) : hasTransferFor c st2 := by
  obtain ⟨t, ht, hd⟩ := hc
  exact ⟨t, by rw [h]; exact List.mem_append_left _ ht, hd⟩

/-- After the data phase a core that had a queued transfer still has one, or is not stalled. -/
theorem dataPhase_hasTransferFor (cfg : Config) (st : State) (c : Nat)
    (h : hasTransferFor c st) :
    hasTransferFor c (dataPhase cfg st) ∨ (dataPhase cfg st).isStalled c = false := by
  obtain ⟨t2, ht2, hd2⟩ := h
  unfold dataPhase
  split
  · rename_i hq
    rw [hq] at ht2
    exact absurd ht2 (List.not_mem_nil _)
  · rename_i t rest hq
    rw [hq] at ht2
    dsimp only
    obtain ⟨extra, hx, hst⟩ := completeTransfer_stalled cfg st t
    have hstall : ∀ (b : Bool) (q : List BusDataTransfer),
        ({ completeTransfer cfg st t with dataTransferQueue := q, busOccupied := b } :
          State).isStalled = (completeTransfer cfg st t).isStalled := fun _ _ => rfl
    have hres : hasTransferFor c
          { completeTransfer cfg st t with
            dataTransferQueue := (completeTransfer cfg st t).dataTransferQueue.tail }
        ∨ (completeTransfer cfg st t).isStalled c = false := by
      rw [hq] at hx
      by_cases hc : t.destinationCore = c
      · cases hs : (completeTransfer cfg st t).isStalled c with
        | false => exact Or.inr rfl
        | true =>
          left
          rw [← hc] at hs
          obtain ⟨t3, ht3, hd3⟩ := hst hs
          refine ⟨t3, ?_, hd3.trans hc⟩
          show t3 ∈ (completeTransfer cfg st t).dataTransferQueue.tail
          rw [hx]
          simp [ht3]
      · left
        refine ⟨t2, ?_, hd2⟩
        show t2 ∈ (completeTransfer cfg st t).dataTransferQueue.tail
        rw [hx]
        rcases List.mem_cons.mp ht2 with h1 | h1
        · rw [h1] at hd2
          exact absurd hd2 hc
        · simp [h1]
    split
    · split
      · rcases hres with ⟨t3, ht3, hd3⟩ | hres
        · exact Or.inl ⟨t3, ht3, hd3⟩
        · exact Or.inr hres
      · exact hres
    · left
      rcases List.mem_cons.mp ht2 with h1 | h1
      · exact ⟨_, List.mem_cons_self _ _, by rw [← h1]; exact hd2⟩
      · exact ⟨t2, List.mem_cons_of_mem _ h1, hd2⟩

theorem missBound_congr (tr : Nat → List TraceEntry) (sim sim2 : SimState) (c : Nat)
    (hp : sim2.tracePosition c = sim.tracePosition c)
    (hm : sim2.st.missCount c = sim.st.missCount c)
    (hq : hasTransferFor c sim.st → hasTransferFor c sim2.st)
    (hr : sim2.st.processorRunning c = sim.st.processorRunning c)
    (h : MissBound tr sim c) : MissBound tr sim2 c := by
  unfold MissBound at *
  rw [hp, hm, hr]
  rcases h with ⟨h1, h2 | ⟨h2, h3, h4, h5⟩⟩
  · exact ⟨h1, Or.inl h2⟩
  · exact ⟨h1, Or.inr ⟨h2, hq h3, h4, h5⟩⟩

theorem missBound_mid (tr : Nat → List TraceEntry) (sim sim2 : SimState) (c : Nat)
    (hp : sim2.tracePosition c = sim.tracePosition c)
    (hm : sim2.st.missCount c = sim.st.missCount c)
    (hq : hasTransferFor c sim.st → hasTransferFor c sim2.st ∨ sim2.st.isStalled c = false)
    (hr : sim2.st.processorRunning c = sim.st.processorRunning c)
    (h : MissBound tr sim c) : MissBoundMid tr sim2 c := by
  unfold MissBound at h
  unfold MissBoundMid
  rw [hp, hm, hr]
  rcases h with ⟨h1, h2 | ⟨h2, h3, h4, h5⟩⟩
  · exact ⟨h1, Or.inl h2⟩
  · exact ⟨h1, Or.inr ⟨h2, hq h3, h4, h5⟩⟩

theorem missBoundMid_congr (tr : Nat → List TraceEntry) (sim sim2 : SimState) (c : Nat)
    (hp : sim2.tracePosition c = sim.tracePosition c)
    (hm : sim2.st.missCount c = sim.st.missCount c)
    (hq : sim2.st.dataTransferQueue = sim.st.dataTransferQueue)
    (hs : sim2.st.isStalled c = sim.st.isStalled c)
    (hr : sim2.st.processorRunning c = sim.st.processorRunning c)
    (h : MissBoundMid tr sim c) : MissBoundMid tr sim2 c := by
  unfold MissBoundMid hasTransferFor at *
  rw [hp, hm, hq, hs, hr]
  exact h

/-- Request phase: the miss bound of every core is kept, given that the requestor of every
queued request is running with an entry under its cursor. -/
theorem missBound_requestLoop (cfg : Config) (tr : Nat → List TraceEntry) (sim : SimState)
    (q : List BusTransaction) (st : State)
    (hbb : BusBusyInv st) (hq : st.pendingRequests = q)
    (hmb : ∀ c, c < 4 → MissBound tr { sim with st := st } c)
    (hreq : ∀ r ∈ q, st.processorRunning r.requestorId = true
      ∧ sim.tracePosition r.requestorId < (tr r.requestorId).length) :
    BusBusyInv (requestLoop cfg q st) ∧ (requestLoop cfg q st).pendingRequests = []
      ∧ ∀ c, c < 4 → MissBound tr { sim with st := requestLoop cfg q st } c := by
  have hloop := requestLoop_invariant cfg
    (fun q st => BusBusyInv st ∧ st.pendingRequests = q
      ∧ (∀ c, c < 4 → MissBound tr { sim with st := st } c)
      ∧ ∀ r ∈ q, st.processorRunning r.requestorId = true
          ∧ sim.tracePosition r.requestorId < (tr r.requestorId).length)
    (by
      intro r rest st ⟨h1, _, h3, h4⟩
      have hbb2 : BusBusyInv { st with pendingRequests := rest } := h1
      refine ⟨busBusy_serviceRequest cfg _ r hbb2, by simp, ?_, ?_⟩
      · intro c hc
        have hm : (serviceRequest cfg { st with pendingRequests := rest } r).missCount c
            = st.missCount c
              + (if requestServiced cfg { st with pendingRequests := rest } r = true
                  ∧ r.reqType ≠ BusRequestType.UPGRADE_REQUEST ∧ c = r.requestorId
                then 1 else 0) :=
          serviceRequest_missCount cfg { st with pendingRequests := rest } r c
        obtain ⟨extra, hx⟩ := serviceRequest_queue_append cfg { st with pendingRequests := rest } r
        by_cases hcase : requestServiced cfg { st with pendingRequests := rest } r = true
            ∧ r.reqType ≠ BusRequestType.UPGRADE_REQUEST ∧ c = r.requestorId
        · rw [if_pos hcase] at hm
          obtain ⟨hs, hk, hcr⟩ := hcase
          have hb : st.busOccupied = false := by
            simp only [requestServiced, Bool.and_eq_true, Bool.not_eq_true'] at hs
            exact hs.1
          have hempty : st.dataTransferQueue = [] := by
            by_contra hne
            have := h1.mpr hne
            rw [hb] at this
            exact absurd this (by decide)
          have hold := h3 c hc
          unfold MissBound at hold ⊢
          dsimp only at hold ⊢
          have hr := h4 r (List.mem_cons_self _ _)
          rcases hold with ⟨hl, h2 | ⟨_, ⟨t, ht, _⟩, _, _⟩⟩
          · refine ⟨hl, Or.inr ⟨?_, ?_, ?_, ?_⟩⟩
            · rw [hm]
              omega
            · rw [hcr]
              exact serviceRequest_hasTransferFor cfg _ r hb hk
            · rw [serviceRequest_processorRunning, hcr]
              exact hr.1
            · rw [hcr]
              exact hr.2
          · rw [hempty] at ht
            exact absurd ht (List.not_mem_nil _)
        · rw [if_neg hcase, add_zero] at hm
          exact missBound_congr tr { sim with st := st }
            { sim with st := serviceRequest cfg { st with pendingRequests := rest } r } c
            rfl hm (hasTransferFor_of_append hx) (by simp) (h3 c hc)
      · intro r2 hr2
        rw [serviceRequest_processorRunning]
        exact h4 r2 (List.mem_cons_of_mem _ hr2))
    q st ⟨hbb, hq, hmb, hreq⟩
  exact ⟨hloop.1, hloop.2.1, hloop.2.2.1⟩

/-- Third loop of a cycle: what the body for core `i` leaves unchanged. -/
theorem advanceCore_frame (tr : Nat → List TraceEntry) (i : Nat) (sim : SimState) :
    (advanceCore tr i sim).st.missCount = sim.st.missCount
      ∧ (advanceCore tr i sim).st.dataTransferQueue = sim.st.dataTransferQueue
      ∧ (advanceCore tr i sim).st.isStalled = sim.st.isStalled
      ∧ (advanceCore tr i sim).st.busOccupied = sim.st.busOccupied
      ∧ (advanceCore tr i sim).st.pendingRequests = sim.st.pendingRequests
      ∧ ∀ c, c ≠ i →
          (advanceCore tr i sim).st.processorRunning c = sim.st.processorRunning c
          ∧ (advanceCore tr i sim).tracePosition c = sim.tracePosition c := by
  unfold advanceCore
  dsimp only
  split
  · split
    · exact ⟨rfl, rfl, rfl, rfl, rfl, fun c hc => ⟨set1_of_ne _ _ _ _ hc, set1_of_ne _ _ _ _ hc⟩⟩
    · exact ⟨rfl, rfl, rfl, rfl, rfl, fun c hc => ⟨rfl, set1_of_ne _ _ _ _ hc⟩⟩
  · exact ⟨rfl, rfl, rfl, rfl, rfl, fun _ _ => ⟨rfl, rfl⟩⟩

theorem advanceCore_advances (tr : Nat → List TraceEntry) (i : Nat) (sim : SimState)
    (hs : sim.st.isStalled i = false) (hr : sim.st.processorRunning i = true) :
    (advanceCore tr i sim).tracePosition i = sim.tracePosition i + 1 := by
  unfold advanceCore
  simp [hs, hr]

/-- The miss bound of every core holds at the end of every cycle. -/
theorem missBound_cycles (cfg : Config) (tr : Nat → List TraceEntry) (n : Nat) :
    ∀ c, c < 4 → MissBound tr (cycles cfg tr n) c := by
  refine (cycles_phases cfg tr
    (fun sim => (∀ c, c < 4 → MissBound tr sim c) ∧ BusBusyInv sim.st
      ∧ sim.st.pendingRequests = [])
    (fun i sim => (∀ c, c < 4 → MissBound tr sim c) ∧ BusBusyInv sim.st
      ∧ (∀ r ∈ sim.st.pendingRequests, sim.st.processorRunning r.requestorId = true
          ∧ sim.tracePosition r.requestorId < (tr r.requestorId).length)
      ∧ ∀ c, c < i → sim.st.processorRunning c = true →
          sim.tracePosition c < (tr c).length)
    (fun sim => (∀ c, c < 4 → MissBoundMid tr sim c
        ∧ (sim.st.processorRunning c = true → sim.tracePosition c < (tr c).length))
      ∧ BusBusyInv sim.st ∧ sim.st.pendingRequests = [])
    (fun i sim => (∀ c, c < 4 → (c < i → MissBound tr sim c)
        ∧ (i ≤ c → MissBoundMid tr sim c
            ∧ (sim.st.processorRunning c = true → sim.tracePosition c < (tr c).length)))
      ∧ BusBusyInv sim.st ∧ sim.st.pendingRequests = [])
    ?_ ?_ ?_ ?_ ?_ ?_ ?_ n).1.1
  · refine ⟨?_, ?_, rfl⟩
    · intro c _
      exact ⟨Nat.zero_le _, Or.inl (le_refl _)⟩
    · simp [BusBusyInv, initialSim, initialState]
  · intro sim ⟨h1, h2, h3⟩
    exact ⟨h1, h2, by simp [h3], fun c hc => absurd hc (Nat.not_lt_zero c)⟩
  · intro i sim _ ⟨h1, h2, h3, h4⟩
    unfold offerCore
    dsimp only
    split
    · rename_i hrun
      refine ⟨h1, h2, h3, ?_⟩
      intro c hc hr
      rcases Nat.lt_succ_iff_lt_or_eq.mp hc with hlt | heq
      · exact h4 c hlt hr
      · rw [heq] at hr
        simp [hr] at hrun
    · rename_i hrun
      split
      · rename_i e he
        have hpos : sim.tracePosition i < (tr i).length := by
          rcases List.getElem?_eq_some.mp he with ⟨hlt, _⟩
          exact hlt
        have hri : sim.st.processorRunning i = true := by
          simpa using hrun
        refine ⟨?_, busBusy_executeMemoryOperation cfg _ e i h2, ?_, ?_⟩
        · intro c hc
          exact missBound_congr tr sim
            { sim with st := executeMemoryOperation cfg sim.st e i } c rfl (by simp)
            (fun h => by
              obtain ⟨t, ht, hd⟩ := h
              exact ⟨t, by simpa using ht, hd⟩)
            (by simp) (h1 c hc)
        · obtain ⟨extra, hx, hr⟩ := executeMemoryOperation_requests cfg sim.st e i
          intro r hmem
          simp only [executeMemoryOperation_processorRunning]
          rw [hx, List.mem_append] at hmem
          rcases hmem with hmem | hmem
          · exact h3 r hmem
          · rw [(hr r hmem).1]
            exact ⟨hri, hpos⟩
        · intro c hc hr
          simp only [executeMemoryOperation_processorRunning] at hr
          rcases Nat.lt_succ_iff_lt_or_eq.mp hc with hlt | heq
          · exact h4 c hlt hr
          · rw [heq]
            exact hpos
      · rename_i he
        have hpos : (tr i).length ≤ sim.tracePosition i := List.getElem?_eq_none_iff.mp he
        refine ⟨?_, h2, ?_, ?_⟩
        · intro c hc
          have hold := h1 c hc
          unfold MissBound at hold ⊢
          dsimp only
          rcases hold with ⟨hl, hm | ⟨hm, ht, hr, hp⟩⟩
          · exact ⟨hl, Or.inl hm⟩
          · refine ⟨hl, Or.inr ⟨hm, ht, ?_, hp⟩⟩
            rw [set1_of_ne]
            · exact hr
            · intro hci
              rw [hci] at hp
              omega
        · intro r hmem
          dsimp only
          have := h3 r hmem
          rw [set1_of_ne]
          · exact this
          · intro hci
            rw [hci] at this
            omega
        · intro c hc hr
          dsimp only at hr ⊢
          rcases Nat.lt_succ_iff_lt_or_eq.mp hc with hlt | heq
          · rw [set1_of_ne _ _ _ _ (Nat.ne_of_lt hlt)] at hr
            exact h4 c hlt hr
          · rw [heq, set1_same] at hr
            exact absurd hr (by decide)
  · intro sim ⟨h1, h2, h3, h4⟩
    dsimp only
    unfold processBusTransactions requestPhase
    dsimp only
    obtain ⟨hb, hq, hm⟩ := missBound_requestLoop cfg tr sim sim.st.pendingRequests
      { sim.st with busTickCounter := sim.st.busTickCounter + 1 } h2 rfl
      (fun c hc => h1 c hc) h3
    refine ⟨?_, busBusy_dataPhase cfg _ hb, by simp [hq]⟩
    intro c hc
    refine ⟨missBound_mid tr
      { sim with
        st := requestLoop cfg sim.st.pendingRequests
          { sim.st with busTickCounter := sim.st.busTickCounter + 1 } }
      { sim with
        st := dataPhase cfg (requestLoop cfg sim.st.pendingRequests
          { sim.st with busTickCounter := sim.st.busTickCounter + 1 }) }
      c rfl (by simp)
      (dataPhase_hasTransferFor cfg _ c) (by simp) (hm c hc), ?_⟩
    intro hr
    simp only [dataPhase_processorRunning, requestLoop_processorRunning] at hr
    exact h4 c hc hr
  · intro sim ⟨h1, h2, h3⟩
    exact ⟨fun c hc => ⟨fun h => absurd h (Nat.not_lt_zero c), fun _ => h1 c hc⟩, h2, h3⟩
  · intro i sim hi ⟨h1, h2, h3⟩
    obtain ⟨f1, f2, f3, f4, f5, f6⟩ := advanceCore_frame tr i sim
    refine ⟨?_, by unfold BusBusyInv at *; rw [f4, f2]; exact h2, by rw [f5]; exact h3⟩
    intro c hc
    by_cases hci : c = i
    · rw [hci]
      refine ⟨fun _ => ?_, fun h => absurd h (by omega)⟩
      have hmid := (h1 i hi).2 (le_refl _)
      by_cases hcond : sim.st.isStalled i = false ∧ sim.st.processorRunning i = true
      · have hpos := advanceCore_advances tr i sim hcond.1 hcond.2
        have hp := hmid.2 hcond.2
        unfold MissBound
        rw [hpos, f1]
        refine ⟨by omega, Or.inl ?_⟩
        rcases hmid.1.2 with hm | ⟨hm, _⟩
        · push_cast
          omega
        · push_cast
          omega
      · rw [advanceCore_stays tr i sim hcond]
        rcases hmid.1 with ⟨hl, hm | ⟨hm, ht, hr, hp⟩⟩
        · exact ⟨hl, Or.inl hm⟩
        · refine ⟨hl, Or.inr ⟨hm, ?_, hr, hp⟩⟩
          rcases ht with ht | ht
          · exact ht
          · exact absurd ⟨ht, hr⟩ hcond
    · obtain ⟨g1, g2⟩ := f6 c hci
      refine ⟨fun hlt => ?_, fun hle => ⟨?_, ?_⟩⟩
      · exact missBound_congr tr sim _ c g2 (by rw [f1])
          (fun h => by
            obtain ⟨t, ht, hd⟩ := h
            exact ⟨t, by rw [f2]; exact ht, hd⟩)
          g1 ((h1 c hc).1 (by omega))
      · exact missBoundMid_congr tr sim _ c g2 (by rw [f1]) f2 (by rw [f3]) g1
          ((h1 c hc).2 (by omega)).1
      · intro hr
        rw [g2]
        rw [g1] at hr
        exact ((h1 c hc).2 (by omega)).2 hr
  · intro sim ⟨h1, h2, h3⟩
    exact ⟨fun c hc => (h1 c hc).1 hc, h2, h3⟩

/-- The counting loop counts every entry of a trace once, as a read or as a write. -/
theorem countOps_total (l : List TraceEntry) :
    countOps l Op.R + countOps l Op.W = (l.length : Int) := by
  unfold countOps
  induction l with
  | nil => rfl
  | cons e rest ih =>
    cases ho : e.op with
    | R =>
      simp only [List.filter_cons, ho, beq_self_eq_true, if_true, List.length_cons]
      have : (Op.R == Op.W) = false := by decide
      simp only [this, Bool.false_eq_true, if_false]
      push_cast
      omega
    | W =>
      simp only [List.filter_cons, ho, beq_self_eq_true, if_true, List.length_cons]
      have : (Op.W == Op.R) = false := by decide
      simp only [this, Bool.false_eq_true, if_false]
      push_cast
      omega

/-- The cycle loop leaves `readCount` and `writeCount` at zero. -/
theorem counts_zero_cycles (cfg : Config) (tr : Nat → List TraceEntry) (n : Nat) :
    (cycles cfg tr n).st.readCount = (fun _ => 0)
      ∧ (cycles cfg tr n).st.writeCount = (fun _ => 0) := by
  refine (cycles_preserves cfg tr
    (fun st => st.readCount = (fun _ => 0) ∧ st.writeCount = (fun _ => 0))
    ⟨rfl, rfl⟩ ?_ ?_ ?_ ?_ n).1
  · intro st e c h
    simpa using h
  · intro st c h
    exact h
  · intro st h
    simpa using h
  · intro st c h
    exact h

/-- **C7** (hit and miss accounting).  When `runMulticoreSimulation` terminates, for every
core `c` of `0 .. 3` the reported hit count `cacheHits = readCount + writeCount - missCount` is
non-negative, `cacheHits + missCount = readCount + writeCount`, the reads and writes of `c`
add up to the length of its trace, and `missCount[c]` is at most that length. -/
theorem hit_miss_accounting (cfg : Config) (tr : Nat → List TraceEntry) (fuel : Nat)
    (sim : SimState) (h : runMulticoreSimulation cfg tr fuel = some sim) (c : Nat)
    (hc : c < 4) :
    0 ≤ cacheHits sim.st c
      ∧ cacheHits sim.st c + sim.st.missCount c = sim.st.readCount c + sim.st.writeCount c
      ∧ sim.st.readCount c + sim.st.writeCount c = ((tr c).length : Int)
      ∧ sim.st.missCount c ≤ ((tr c).length : Int) := by
  obtain ⟨m, _, hterm, _, hst⟩ := runMulticoreSimulation_result cfg tr fuel sim h
  obtain ⟨hr0, hw0⟩ := counts_zero_cycles cfg tr m
  have hrun := ((terminated_elim hterm).2 c hc).1
  have hmiss : sim.st.missCount c ≤ ((tr c).length : Int) := by
    rw [hst]
    rcases missBound_cycles cfg tr m c hc with ⟨hl, hm | ⟨_, _, hr, _⟩⟩
    · have : ((cycles cfg tr m).tracePosition c : Int) ≤ ((tr c).length : Int) := by
        exact_mod_cast hl
      exact le_trans hm this
    · rw [hrun] at hr
      exact absurd hr (by decide)
  have hrw : sim.st.readCount c + sim.st.writeCount c = ((tr c).length : Int) := by
    rw [hst]
    show (cycles cfg tr m).st.readCount c + countOps (tr c) Op.R
      + ((cycles cfg tr m).st.writeCount c + countOps (tr c) Op.W) = _
    rw [hr0, hw0, ← countOps_total (tr c)]
    ring
  unfold cacheHits
  refine ⟨by omega, by ring, hrw, hmiss⟩

/-- Witness for `hit_miss_accounting`: scenario S3 terminates; core 0 has one reference and
one miss, so no hit. -/
theorem hit_miss_accounting_witness :
    ∃ sim, runMulticoreSimulation scenarioConfig scenarioS3 300 = some sim
      ∧ 0 ≤ cacheHits sim.st 0
      ∧ cacheHits sim.st 0 + sim.st.missCount 0 = sim.st.readCount 0 + sim.st.writeCount 0
      ∧ sim.st.readCount 0 + sim.st.writeCount 0 = ((scenarioS3 0).length : Int)
      ∧ sim.st.missCount 0 ≤ ((scenarioS3 0).length : Int) := by
  obtain ⟨sim, hs, _⟩ := checkFinal_runWait scenarioS3_evaluated
  exact ⟨sim, hs, hit_miss_accounting scenarioConfig scenarioS3 300 sim hs 0 (by decide)⟩

/-! ### MESI single-writer invariant -/

theorem cohStep_refl (st : State) : CohStep st st :=
  ⟨rfl, fun _ _ _ => Or.inl rfl⟩

theorem cohStep_of_eq {st st2 : State} (ht : st2.tagArray = st.tagArray)
    (hc : st2.coherenceTable = st.coherenceTable) : CohStep st st2 :=
  ⟨ht, fun c s w => Or.inl (by rw [hc])⟩

theorem cohStep_trans {st st2 st3 : State} (h1 : CohStep st st2) (h2 : CohStep st2 st3) :
    CohStep st st3 := by
  refine ⟨h2.1.trans h1.1, ?_⟩
  intro c s w
  rcases h2.2 c s w with a | a | ⟨a, b⟩ | ⟨a, b⟩
  · rw [a]
    exact h1.2 c s w
  · exact Or.inr (Or.inl a)
  · refine Or.inr (Or.inr (Or.inl ⟨a, ?_⟩))
    rcases h1.2 c s w with x | x | ⟨x, y⟩ | ⟨x, y⟩
    · rw [← x]; exact b
    · exact absurd x b
    · exact y
    · rw [x]; decide
  · rcases h1.2 c s w with x | x | ⟨x, y⟩ | ⟨x, y⟩
    · exact Or.inr (Or.inr (Or.inr ⟨by rw [← x]; exact a, b⟩))
    · rw [x] at a; exact absurd a (by decide)
    · rw [x] at a; exact absurd a (by decide)
    · rw [y] at a; exact absurd a (by decide)

/-- A line that is valid after a step was valid before it. -/
theorem cohStep_valid {st st2 : State} (h : CohStep st st2) {c s w : Nat}
    (hv : st2.coherenceTable c s w ≠ CoherenceState.INVALID) :
    st.coherenceTable c s w ≠ CoherenceState.INVALID := by
  rcases h.2 c s w with a | a | ⟨_, b⟩ | ⟨a, _⟩
  · rw [← a]; exact hv
  · exact absurd a hv
  · exact b
  · rw [a]; decide

/-- A line that is valid after a step and was `SHARED` before it is `SHARED`. -/
theorem cohStep_shared {st st2 : State} (h : CohStep st st2) {c s w : Nat}
    (hv : st2.coherenceTable c s w ≠ CoherenceState.INVALID)
    (hs : st.coherenceTable c s w = CoherenceState.SHARED) :
    st2.coherenceTable c s w = CoherenceState.SHARED := by
  rcases h.2 c s w with a | a | ⟨a, _⟩ | ⟨a, _⟩
  · rw [a]; exact hs
  · exact absurd a hv
  · exact a
  · rw [hs] at a; exact absurd a (by decide)

theorem holdsLine_iff (st : State) (c s : Nat) (tag : Int) (w : Nat) :
    holdsLine st c s tag w = true
      ↔ st.tagArray c s w = toUnsigned tag
        ∧ st.coherenceTable c s w ≠ CoherenceState.INVALID := by
  simp [holdsLine]

/-- A copy held after a step was held before it. -/
theorem cohStep_holdsLine {st st2 : State} (h : CohStep st st2) {c s w : Nat} {tag : Int}
    (hl : holdsLine st2 c s tag w = true) : holdsLine st c s tag w = true := by
  rw [holdsLine_iff] at hl ⊢
  exact ⟨by rw [← hl.1, h.1], cohStep_valid h hl.2⟩

theorem cohStep_holdsLine_false {st st2 : State} (h : CohStep st st2) {c s w : Nat}
    {tag : Int} (hl : holdsLine st c s tag w = false) : holdsLine st2 c s tag w = false := by
  cases hx : holdsLine st2 c s tag w with
  | false => rfl
  | true =>
    rw [cohStep_holdsLine h hx] at hl
    exact absurd hl (by decide)

theorem cohInv_cohStep {cfg : Config} {st st2 : State} (h : CohStep st st2)
    (hi : CohInv cfg st) : CohInv cfg st2 := by
  intro c c2 s w w2 hc hc2 hw hw2 hne hv hv2 ht
  rw [h.1] at ht
  obtain ⟨h1, h2⟩ := hi c c2 s w w2 hc hc2 hw hw2 hne (cohStep_valid h hv)
    (cohStep_valid h hv2) ht
  exact ⟨h1, cohStep_shared h hv h2⟩

theorem noCopy_cohStep {cfg : Config} {st st2 : State} (h : CohStep st st2) {d s : Nat}
    {tag : Int} (hn : NoCopy cfg st d s tag) : NoCopy cfg st2 d s tag :=
  fun w hw => cohStep_holdsLine_false h (hn w hw)

theorem noOtherCopy_cohStep {cfg : Config} {st st2 : State} (h : CohStep st st2) {d s : Nat}
    {tag : Int} (hn : NoOtherCopy cfg st d s tag) : NoOtherCopy cfg st2 d s tag :=
  fun c hc hcd w hw => cohStep_holdsLine_false h (hn c hc hcd w hw)

theorem otherCopiesShared_cohStep {cfg : Config} {st st2 : State} (h : CohStep st st2)
    {d s : Nat} {tag : Int} (hn : OtherCopiesShared cfg st d s tag) :
    OtherCopiesShared cfg st2 d s tag := by
  intro c hc hcd w hw hl
  exact cohStep_shared h ((holdsLine_iff _ _ _ _ _).mp hl).2
    (hn c hc hcd w hw (cohStep_holdsLine h hl))

theorem fillSafe_cohStep {cfg : Config} {st st2 : State} (h : CohStep st st2)
    {t : BusDataTransfer} (hf : FillSafe cfg st t) : FillSafe cfg st2 t := by
  unfold FillSafe at *
  refine ⟨noCopy_cohStep h hf.1, ?_⟩
  have h2 := hf.2
  split
  · rename_i hw
    rw [if_pos hw] at h2
    exact noOtherCopy_cohStep h h2
  · rename_i hw
    rw [if_neg hw] at h2
    exact otherCopiesShared_cohStep h h2

/-! #### Holder searches -/

theorem findOtherHolder_some {cfg : Config} {st : State} {r s : Nat} {tag : Int} {d w : Nat}
    (h : findOtherHolder cfg st r s tag = some (d, w)) :
    d < 4 ∧ d ≠ r ∧ w < cfg.associativity ∧ holdsLine st d s tag w = true := by
  unfold findOtherHolder at h
  split at h
  · exact absurd h (by simp)
  · rename_i oc hoc
    split at h
    · exact absurd h (by simp)
    · rename_i wi hwi
      simp only [Option.some.injEq, Prod.mk.injEq] at h
      obtain ⟨h1, h2⟩ := h
      subst h1 h2
      obtain ⟨a, b, _⟩ := findFirst_some hoc
      simp only [Bool.and_eq_true, bne_iff_ne, ne_eq] at b
      unfold findHolderWay at hwi
      obtain ⟨x, y, _⟩ := findFirst_some hwi
      exact ⟨a, b.1, x, y⟩

theorem findOtherHolder_none {cfg : Config} {st : State} {r s : Nat} {tag : Int}
    (h : findOtherHolder cfg st r s tag = none) : NoOtherCopy cfg st r s tag := by
  intro c hc hcr w hw
  unfold findOtherHolder at h
  split at h
  · rename_i hoc
    have := findFirst_none hoc c hc
    simp only [Bool.and_eq_false_imp, bne_iff_ne, ne_eq] at this
    have hn := this hcr
    cases hx : findHolderWay cfg st c s tag with
    | none =>
      unfold findHolderWay at hx
      exact findFirst_none hx w hw
    | some x => rw [hx] at hn; simp at hn
  · rename_i oc hoc
    split at h
    · rename_i hwi
      obtain ⟨_, b, _⟩ := findFirst_some hoc
      simp only [Bool.and_eq_true] at b
      rw [hwi] at b
      simp at b
    · exact absurd h (by simp)

/-! #### Snoop loops -/

/-- Two nested snoop loops over the ways of the cores other than `r`: when the body for a
way is a `CohStep` after which that way does not hold the block, the loops are a `CohStep`
after which no other core holds the block. -/
theorem snoopLoops_post {σ : Type} (π : σ → State) (body : Nat → Nat → σ → σ)
    (cfg : Config) (r s : Nat) (tag : Int)
    (hbody : ∀ c w x, CohStep (π x) (π (body c w x))
      ∧ holdsLine (π (body c w x)) c s tag w = false) (x : σ) :
    CohStep (π x)
        (π (forLoop 4 (fun oc acc =>
          if oc != r then forLoop cfg.associativity (body oc) acc else acc) x))
      ∧ NoOtherCopy cfg
        (π (forLoop 4 (fun oc acc =>
          if oc != r then forLoop cfg.associativity (body oc) acc else acc) x)) r s tag := by
  have key := forLoop_indexed
    (fun i acc => CohStep (π x) (π acc)
      ∧ ∀ c, c < i → c ≠ r → ∀ w, w < cfg.associativity → holdsLine (π acc) c s tag w = false)
    (fun oc acc => if oc != r then forLoop cfg.associativity (body oc) acc else acc) 4
    (by
      intro i acc _ ⟨h1, h2⟩
      dsimp only
      split
      · rename_i hir
        have inner := forLoop_indexed
          (fun j acc2 => CohStep (π acc) (π acc2)
            ∧ ∀ w, w < j → holdsLine (π acc2) i s tag w = false)
          (body i) cfg.associativity
          (by
            intro j acc2 _ ⟨g1, g2⟩
            obtain ⟨b1, b2⟩ := hbody i j acc2
            refine ⟨cohStep_trans g1 b1, ?_⟩
            intro w hw
            rcases Nat.lt_succ_iff_lt_or_eq.mp hw with hlt | heq
            · exact cohStep_holdsLine_false b1 (g2 w hlt)
            · rw [heq]; exact b2)
          acc ⟨cohStep_refl _, fun w hw => absurd hw (Nat.not_lt_zero w)⟩
        refine ⟨cohStep_trans h1 inner.1, ?_⟩
        intro c hc hcr w hw
        rcases Nat.lt_succ_iff_lt_or_eq.mp hc with hlt | heq
        · exact cohStep_holdsLine_false inner.1 (h2 c hlt hcr w hw)
        · rw [heq]; exact inner.2 w hw
      · rename_i hir
        simp only [bne_iff_ne, ne_eq, Decidable.not_not] at hir
        refine ⟨h1, ?_⟩
        intro c hc hcr w hw
        rcases Nat.lt_succ_iff_lt_or_eq.mp hc with hlt | heq
        · exact h2 c hlt hcr w hw
        · exact absurd (heq.trans hir) hcr)
    x ⟨cohStep_refl _, fun c hc => absurd hc (Nat.not_lt_zero c)⟩
  exact ⟨key.1, fun c hc hcr w hw => key.2 c hc hcr w hw⟩

theorem holdsLine_invalidated (st st2 : State) (c s : Nat) (tag : Int) (w : Nat)
    (h : st2.coherenceTable = set3 st.coherenceTable c s w CoherenceState.INVALID) :
    holdsLine st2 c s tag w = false := by
  simp [holdsLine, h]

theorem cohStep_invalidated (st st2 : State) (c s w : Nat)
    (ht : st2.tagArray = st.tagArray)
    (h : st2.coherenceTable = set3 st.coherenceTable c s w CoherenceState.INVALID) :
    CohStep st st2 := by
  refine ⟨ht, ?_⟩
  intro c2 s2 w2
  rw [h, set3_apply]
  split
  · exact Or.inr (Or.inl rfl)
  · exact Or.inl rfl

theorem invalidateWay_step (a : Int) (s : Nat) (tag : Int) (c w : Nat) (acc : Bool × State) :
    CohStep acc.2 (invalidateWay a s tag c w acc).2
      ∧ holdsLine (invalidateWay a s tag c w acc).2 c s tag w = false := by
  unfold invalidateWay
  dsimp only
  split
  · split
    · split
      · exact ⟨cohStep_invalidated _ _ c s w rfl rfl, holdsLine_invalidated acc.2 _ c s tag w rfl⟩
      · exact ⟨cohStep_invalidated _ _ c s w rfl rfl, holdsLine_invalidated acc.2 _ c s tag w rfl⟩
    · exact ⟨cohStep_invalidated _ _ c s w rfl rfl, holdsLine_invalidated acc.2 _ c s tag w rfl⟩
  · rename_i h
    rw [Bool.not_eq_true] at h
    exact ⟨cohStep_refl _, h⟩

theorem upgradeInvalidateWay_step (s : Nat) (tag : Int) (c w : Nat) (st : State) :
    CohStep st (upgradeInvalidateWay s tag c w st)
      ∧ holdsLine (upgradeInvalidateWay s tag c w st) c s tag w = false := by
  unfold upgradeInvalidateWay
  split
  · exact ⟨cohStep_invalidated _ _ c s w rfl rfl, holdsLine_invalidated st _ c s tag w rfl⟩
  · rename_i h
    rw [Bool.not_eq_true] at h
    exact ⟨cohStep_refl _, h⟩

theorem invalidateOthers_post (cfg : Config) (r : Nat) (a : Int) (s : Nat) (tag : Int)
    (acc : Bool × State) :
    CohStep acc.2 (invalidateOthers cfg r a s tag acc).2
      ∧ NoOtherCopy cfg (invalidateOthers cfg r a s tag acc).2 r s tag :=
  snoopLoops_post Prod.snd (invalidateWay a s tag) cfg r s tag
    (fun c w x => invalidateWay_step a s tag c w x) acc

theorem upgradeInvalidateOthers_post (cfg : Config) (r s : Nat) (tag : Int) (st : State) :
    CohStep st (upgradeInvalidateOthers cfg r s tag st)
      ∧ NoOtherCopy cfg (upgradeInvalidateOthers cfg r s tag st) r s tag :=
  snoopLoops_post id (upgradeInvalidateWay s tag) cfg r s tag
    (fun c w x => upgradeInvalidateWay_step s tag c w x) st

/-! #### Services -/

theorem holdsLine_congr {st st2 : State} (ht : st2.tagArray = st.tagArray)
    (hc : st2.coherenceTable = st.coherenceTable) (c s : Nat) (tag : Int) (w : Nat) :
    holdsLine st2 c s tag w = holdsLine st c s tag w := by
  simp [holdsLine, ht, hc]

/-- After a step that leaves the first holder found `SHARED`, the copies of the block in the
cores other than the requestor are `SHARED`. -/
theorem otherCopiesShared_of_donor {cfg : Config} {st st2 : State} {r s : Nat} {tag : Int}
    {d w : Nat} (hi : CohInv cfg st) (hd : d < 4) (hw : w < cfg.associativity)
    (hl : holdsLine st d s tag w = true) (hstep : CohStep st st2)
    (hdw : st2.coherenceTable d s w = CoherenceState.SHARED
      ∨ st2.coherenceTable d s w = CoherenceState.INVALID) :
    OtherCopiesShared cfg st2 r s tag := by
  intro c hc _ w2 hw2 hl2
  have hl1 := cohStep_holdsLine hstep hl2
  have hv2 := ((holdsLine_iff _ _ _ _ _).mp hl2).2
  by_cases hsame : c = d ∧ w2 = w
  · obtain ⟨h1, h2⟩ := hsame
    subst h1 h2
    rcases hdw with h | h
    · exact h
    · exact absurd h hv2
  · have hne : c ≠ d ∨ w2 ≠ w := by
      by_contra hcon
      push_neg at hcon
      exact hsame hcon
    rw [holdsLine_iff] at hl1 hl
    exact cohStep_shared hstep hv2
      (hi c d s w2 w hc hd hw2 hw hne hl1.2 hl.2 (hl1.1.trans hl.1.symm)).2

theorem cohStep_downgraded (st st2 : State) (c s w : Nat)
    (hv : st.coherenceTable c s w ≠ CoherenceState.INVALID)
    (ht : st2.tagArray = st.tagArray)
    (h : st2.coherenceTable = set3 st.coherenceTable c s w CoherenceState.SHARED) :
    CohStep st st2 := by
  refine ⟨ht, ?_⟩
  intro c2 s2 w2
  rw [h, set3_apply]
  split
  · rename_i heq
    obtain ⟨h1, h2, h3⟩ := heq
    subst h1 h2 h3
    exact Or.inr (Or.inr (Or.inl ⟨rfl, hv⟩))
  · exact Or.inl rfl

theorem readShared_donor_post {cfg : Config} {st0 st2 : State} {r s : Nat} {tag : Int}
    {d w : Nat} (hi : CohInv cfg st0) (hd : d < 4) (hw : w < cfg.associativity)
    (hl : holdsLine st0 d s tag w = true) (ht : st2.tagArray = st0.tagArray)
    (hc : st2.coherenceTable = set3 st0.coherenceTable d s w CoherenceState.SHARED) :
    CohStep st0 st2 ∧ OtherCopiesShared cfg st2 r s tag := by
  have hstep : CohStep st0 st2 :=
    cohStep_downgraded st0 st2 d s w ((holdsLine_iff _ _ _ _ _).mp hl).2 ht hc
  exact ⟨hstep, otherCopiesShared_of_donor hi hd hw hl hstep
    (Or.inl (by rw [hc]; exact set3_same _ _ _ _ _))⟩

theorem readShared_same_post {cfg : Config} {st0 st2 : State} {r s : Nat} {tag : Int}
    {d w : Nat} (hi : CohInv cfg st0) (hd : d < 4) (hw : w < cfg.associativity)
    (hl : holdsLine st0 d s tag w = true)
    (hs : st0.coherenceTable d s w = CoherenceState.SHARED)
    (ht : st2.tagArray = st0.tagArray) (hc : st2.coherenceTable = st0.coherenceTable) :
    CohStep st0 st2 ∧ OtherCopiesShared cfg st2 r s tag := by
  have hstep : CohStep st0 st2 := cohStep_of_eq ht hc
  exact ⟨hstep, otherCopiesShared_of_donor hi hd hw hl hstep (Or.inl (by rw [hc]; exact hs))⟩

/-- Service of `READ_SHARED`: a `CohStep`, after which the copies of the block in the other
cores are `SHARED`. -/
theorem serviceReadShared_post (cfg : Config) (st0 : State) (r : Nat) (a : Int) (s : Nat)
    (tag : Int) (hi : CohInv cfg st0) :
    CohStep st0 (serviceReadShared cfg st0 r a s tag)
      ∧ OtherCopiesShared cfg (serviceReadShared cfg st0 r a s tag) r s tag := by
  unfold serviceReadShared
  dsimp only
  split
  · rename_i d w hfind
    obtain ⟨hd, _, hw, hl0⟩ := findOtherHolder_some hfind
    have hl : holdsLine st0 d s tag w = true := hl0
    have hv := ((holdsLine_iff _ _ _ _ _).mp hl).2
    split
    · split
      · exact readShared_donor_post hi hd hw hl rfl rfl
      · exact readShared_donor_post hi hd hw hl rfl rfl
    · rename_i hm
      split
      · exact readShared_donor_post hi hd hw hl rfl rfl
      · rename_i he
        have hm2 : st0.coherenceTable d s w ≠ CoherenceState.MODIFIED := hm
        have he2 : st0.coherenceTable d s w ≠ CoherenceState.EXCLUSIVE := he
        have hsh : st0.coherenceTable d s w = CoherenceState.SHARED := by
          cases hx : st0.coherenceTable d s w with
          | MODIFIED => exact absurd hx hm2
          | EXCLUSIVE => exact absurd hx he2
          | SHARED => rfl
          | INVALID => exact absurd hx hv
        exact readShared_same_post hi hd hw hl hsh rfl rfl
  · rename_i hfind
    have hno : NoOtherCopy cfg st0 r s tag := findOtherHolder_none hfind
    refine ⟨cohStep_of_eq rfl rfl, ?_⟩
    intro c hc hcr w hw hl
    have : holdsLine st0 c s tag w = true := hl
    rw [hno c hc hcr w hw] at this
    exact absurd this (by decide)

/-- Service of `READ_EXCLUSIVE`: a `CohStep`, after which no other core holds the block. -/
theorem serviceReadExclusive_post (cfg : Config) (st0 : State) (r : Nat) (a : Int) (s : Nat)
    (tag : Int) :
    CohStep st0 (serviceReadExclusive cfg st0 r a s tag)
      ∧ NoOtherCopy cfg (serviceReadExclusive cfg st0 r a s tag) r s tag := by
  obtain ⟨h1, h2⟩ := invalidateOthers_post cfg r a s tag
    (false, { st0 with
      busOccupied := true
      busTransactionCount := st0.busTransactionCount + 1
      missCount := set1 st0.missCount r (st0.missCount r + 1)
      ghostLog := st0.ghostLog ++ [Event.readExclusiveServiced r] })
  have hfr : (serviceReadExclusive cfg st0 r a s tag).tagArray
        = (invalidateOthers cfg r a s tag
            (false, { st0 with
              busOccupied := true
              busTransactionCount := st0.busTransactionCount + 1
              missCount := set1 st0.missCount r (st0.missCount r + 1)
              ghostLog := st0.ghostLog ++ [Event.readExclusiveServiced r] })).2.tagArray
      ∧ (serviceReadExclusive cfg st0 r a s tag).coherenceTable
        = (invalidateOthers cfg r a s tag
            (false, { st0 with
              busOccupied := true
              busTransactionCount := st0.busTransactionCount + 1
              missCount := set1 st0.missCount r (st0.missCount r + 1)
              ghostLog := st0.ghostLog ++ [Event.readExclusiveServiced r] })).2.coherenceTable := by
    unfold serviceReadExclusive
    dsimp only
    split <;> exact ⟨rfl, rfl⟩
  have hstep2 : CohStep _ (serviceReadExclusive cfg st0 r a s tag) :=
    cohStep_of_eq hfr.1 hfr.2
  have hstep0 : CohStep st0 (invalidateOthers cfg r a s tag
      (false, { st0 with
        busOccupied := true
        busTransactionCount := st0.busTransactionCount + 1
        missCount := set1 st0.missCount r (st0.missCount r + 1)
        ghostLog := st0.ghostLog ++ [Event.readExclusiveServiced r] })).2 := h1
  exact ⟨cohStep_trans hstep0 hstep2, noOtherCopy_cohStep hstep2 h2⟩

/-- Installation of a line with the tag of a block in way `v` of core `d`, in state `X`:
the single-writer predicate is kept when `d` holds no copy of the block on another way and
every copy of another core is `SHARED`, the state `X` being `SHARED` when there is one. -/
theorem cohInv_install {cfg : Config} {st st2 : State} {d s v : Nat} {tag : Int}
    {X : CoherenceState} (hi : CohInv cfg st)
    (ht : st2.tagArray = set3 st.tagArray d s v (toUnsigned tag))
    (hc : st2.coherenceTable = set3 st.coherenceTable d s v X)
    (hown : d < 4 → ∀ w, w < cfg.associativity → w ≠ v → holdsLine st d s tag w = false)
    (hoth : ∀ c, c < 4 → c ≠ d → ∀ w, w < cfg.associativity →
      holdsLine st c s tag w = true →
        X = CoherenceState.SHARED ∧ st.coherenceTable c s w = CoherenceState.SHARED) :
    CohInv cfg st2 := by
  intro c c2 s0 w w2 hc1 hc2 hw hw2 hne hv hv2 htag
  rw [hc] at hv hv2 ⊢
  rw [ht] at htag
  rw [set3_apply] at hv hv2 htag ⊢
  rw [set3_apply] at htag
  by_cases h1 : c = d ∧ s0 = s ∧ w = v
  · by_cases h2 : c2 = d ∧ s0 = s ∧ w2 = v
    · exfalso
      rcases hne with h | h
      · exact h (h1.1.trans h2.1.symm)
      · exact h (h1.2.2.trans h2.2.2.symm)
    · rw [if_pos h1] at htag hv ⊢
      rw [if_neg h2] at htag hv2
      obtain ⟨e1, e2, e3⟩ := h1
      subst e1 e2 e3
      have hl : holdsLine st c2 s0 tag w2 = true :=
        (holdsLine_iff _ _ _ _ _).mpr ⟨htag.symm, hv2⟩
      by_cases hcc : c2 = c
      · subst hcc
        have hww : w2 ≠ w := fun h => h2 ⟨rfl, rfl, h⟩
        rw [hown hc1 w2 hw2 hww] at hl
        exact absurd hl (by decide)
      · exact ⟨fun h => hcc h.symm, (hoth c2 hc2 hcc w2 hw2 hl).1⟩
  · by_cases h2 : c2 = d ∧ s0 = s ∧ w2 = v
    · rw [if_neg h1] at htag hv ⊢
      rw [if_pos h2] at htag hv2
      obtain ⟨e1, e2, e3⟩ := h2
      subst e1 e2 e3
      have hl : holdsLine st c s0 tag w = true :=
        (holdsLine_iff _ _ _ _ _).mpr ⟨htag, hv⟩
      by_cases hcc : c = c2
      · subst hcc
        have hww : w ≠ w2 := fun h => h1 ⟨rfl, rfl, h⟩
        rw [hown hc2 w hw hww] at hl
        exact absurd hl (by decide)
      · exact ⟨hcc, (hoth c hc1 hcc w hw hl).2⟩
    · rw [if_neg h1] at htag hv ⊢
      rw [if_neg h2] at htag hv2
      exact hi c c2 s0 w w2 hc1 hc2 hw hw2 hne hv hv2 htag

theorem set3_eq_self {α : Type} (f : Nat → Nat → Nat → α) (i j k : Nat) (v : α)
    (h : f i j k = v) : set3 f i j k v = f := by
  funext a b c
  rw [set3_apply]
  split
  · rename_i heq
    obtain ⟨h1, h2, h3⟩ := heq
    subst h1 h2 h3
    exact h.symm
  · rfl

/-- Service of `UPGRADE_REQUEST`: the single-writer predicate is kept. -/
theorem serviceUpgrade_cohInv (cfg : Config) (st : State) (r : Nat) (a : Int) (s : Nat)
    (tag : Int) (hi : CohInv cfg st) :
    CohInv cfg (serviceUpgrade cfg st r a s tag) := by
  unfold serviceUpgrade
  split
  · rename_i tw hfind
    dsimp only
    obtain ⟨htw, hp, _⟩ := findFirst_some hfind
    simp only [Bool.and_eq_true, beq_iff_eq] at hp
    obtain ⟨hstep, hno⟩ := upgradeInvalidateOthers_post cfg r s tag
      { st with
        busTransactionCount := st.busTransactionCount + 1
        ghostLog := st.ghostLog ++ [Event.upgradeServiced r] }
    have hstep0 : CohStep st (upgradeInvalidateOthers cfg r s tag
      { st with
        busTransactionCount := st.busTransactionCount + 1
        ghostLog := st.ghostLog ++ [Event.upgradeServiced r] }) := hstep
    refine cohInv_install (cohInv_cohStep hstep0 hi)
      (set3_eq_self _ r s tw (toUnsigned tag) (by rw [hstep0.1]; exact hp.1)).symm rfl ?_ ?_
    · intro hr w hw hne
      cases hx : holdsLine (upgradeInvalidateOthers cfg r s tag
        { st with
          busTransactionCount := st.busTransactionCount + 1
          ghostLog := st.ghostLog ++ [Event.upgradeServiced r] }) r s tag w with
      | false => rfl
      | true =>
        exfalso
        have hl := (holdsLine_iff _ _ _ _ _).mp (cohStep_holdsLine hstep0 hx)
        have hv : st.coherenceTable r s tw ≠ CoherenceState.INVALID := by
          rw [hp.2]; decide
        exact (hi r r s w tw hr hr hw htw (Or.inr hne) hl.2 hv (hl.1.trans hp.1.symm)).1 rfl
    · intro c hc hcr w hw hl
      rw [hno c hc hcr w hw] at hl
      exact absurd hl (by decide)
  · exact hi

theorem processWriteMiss_tags (cfg : Config) (st : State) (d s : Nat) (tag : Int) (tw : Bool) :
    (processWriteMiss cfg st d s tag tw).2.2.tagArray
        = set3 st.tagArray d s (processWriteMiss cfg st d s tag tw).1 (toUnsigned tag)
      ∧ (processWriteMiss cfg st d s tag tw).2.2.coherenceTable = st.coherenceTable := by
  simp [processWriteMiss, installLine]

theorem processReadMiss_tags (cfg : Config) (st : State) (d s : Nat) (tag : Int) (tw : Bool) :
    (processReadMiss cfg st d s tag tw).2.2.tagArray
        = set3 st.tagArray d s (processReadMiss cfg st d s tag tw).1 (toUnsigned tag)
      ∧ (processReadMiss cfg st d s tag tw).2.2.coherenceTable = st.coherenceTable := by
  simp [processReadMiss, installLine]

/-- Effect of the completion of a transfer on tags and states: none for a transfer that is
not a fill; a fill installs the tag of its block in one way of its destination, `MODIFIED`
for a write fill, and for a read fill `SHARED`, or `EXCLUSIVE` when no other core holds the
block. -/
theorem completeTransfer_effect (cfg : Config) (st : State) (t : BusDataTransfer) :
    (isFill t = false →
        (completeTransfer cfg st t).tagArray = st.tagArray
        ∧ (completeTransfer cfg st t).coherenceTable = st.coherenceTable)
      ∧ (isFill t = true → ∃ v X,
          (completeTransfer cfg st t).tagArray
            = set3 st.tagArray t.destinationCore (setIndexOf cfg t.targetAddress) v
                (toUnsigned (tagOf cfg t.targetAddress))
          ∧ (completeTransfer cfg st t).coherenceTable
            = set3 st.coherenceTable t.destinationCore (setIndexOf cfg t.targetAddress) v X
          ∧ (t.isWriteOp = true → X = CoherenceState.MODIFIED)
          ∧ (t.isWriteOp = false →
              X = CoherenceState.SHARED
              ∨ (X = CoherenceState.EXCLUSIVE
                  ∧ NoOtherCopy cfg st t.destinationCore (setIndexOf cfg t.targetAddress)
                      (tagOf cfg t.targetAddress)))) := by
  unfold completeTransfer isFill
  dsimp only
  cases hwb : t.isWritebackOp with
  | true => exact ⟨fun _ => ⟨rfl, rfl⟩, fun h => by simp at h⟩
  | false =>
    simp only [Bool.not_false, if_true, Bool.true_and]
    cases hw : t.isWriteOp with
    | true =>
      simp only [if_true, Bool.true_or]
      refine ⟨fun h => by simp at h, fun _ => ?_⟩
      obtain ⟨h1, h2⟩ := processWriteMiss_tags cfg
        { st with
          totalBusTraffic := st.totalBusTraffic + bytesPerBlock cfg
          trafficBytes := set1 st.trafficBytes t.destinationCore
            (st.trafficBytes t.destinationCore + bytesPerBlock cfg) }
        t.destinationCore (setIndexOf cfg t.targetAddress) (tagOf cfg t.targetAddress) false
      refine ⟨(processWriteMiss cfg
        { st with
          totalBusTraffic := st.totalBusTraffic + bytesPerBlock cfg
          trafficBytes := set1 st.trafficBytes t.destinationCore
            (st.trafficBytes t.destinationCore + bytesPerBlock cfg) }
        t.destinationCore (setIndexOf cfg t.targetAddress) (tagOf cfg t.targetAddress) false).1,
        CoherenceState.MODIFIED, ?_, ?_, fun _ => rfl, fun h => by simp at h⟩
      · split
        · exact h1
        · exact h1
      · split
        · show set3 _ _ _ _ _ = _
          rw [h2]
        · show set3 _ _ _ _ _ = _
          rw [h2]
    | false =>
      simp only [Bool.false_eq_true, if_false, Bool.false_or]
      cases hinv : t.isInvalidation with
      | true => exact ⟨fun _ => ⟨rfl, rfl⟩, fun h => by simp at h⟩
      | false =>
        simp only [Bool.not_false, if_true]
        refine ⟨fun h => by simp at h, fun _ => ?_⟩
        obtain ⟨h1, h2⟩ := processReadMiss_tags cfg
          { st with
            totalBusTraffic := st.totalBusTraffic + bytesPerBlock cfg
            trafficBytes := set1 st.trafficBytes t.destinationCore
              (st.trafficBytes t.destinationCore + bytesPerBlock cfg) }
          t.destinationCore (setIndexOf cfg t.targetAddress) (tagOf cfg t.targetAddress) false
        refine ⟨(processReadMiss cfg
          { st with
            totalBusTraffic := st.totalBusTraffic + bytesPerBlock cfg
            trafficBytes := set1 st.trafficBytes t.destinationCore
              (st.trafficBytes t.destinationCore + bytesPerBlock cfg) }
          t.destinationCore (setIndexOf cfg t.targetAddress) (tagOf cfg t.targetAddress)
            false).1,
          (if (findOtherHolder cfg (processReadMiss cfg
              { st with
                totalBusTraffic := st.totalBusTraffic + bytesPerBlock cfg
                trafficBytes := set1 st.trafficBytes t.destinationCore
                  (st.trafficBytes t.destinationCore + bytesPerBlock cfg) }
              t.destinationCore (setIndexOf cfg t.targetAddress) (tagOf cfg t.targetAddress)
                false).2.2
              t.destinationCore (setIndexOf cfg t.targetAddress)
              (tagOf cfg t.targetAddress)).isSome = true
            then CoherenceState.SHARED else CoherenceState.EXCLUSIVE),
          ?_, ?_, fun h => by simp at h, fun _ => ?_⟩
        · split
          · exact h1
          · exact h1
        · split
          · show set3 _ _ _ _ _ = _
            rw [h2]
          · show set3 _ _ _ _ _ = _
            rw [h2]
        · split
          · exact Or.inl rfl
          · rename_i hoth
            refine Or.inr ⟨rfl, ?_⟩
            rw [Bool.not_eq_true] at hoth
            have hoth2 := Option.not_isSome_iff_eq_none.mp (by rw [hoth]; decide)
            have hno := findOtherHolder_none hoth2
            intro c hc hcd w hw2
            have := hno c hc hcd w hw2
            simp only [holdsLine, h1, h2] at this ⊢
            rw [set3_apply, if_neg (fun h => hcd h.1)] at this
            exact this

/-! #### The access engine -/

theorem executeMemoryOperation_cohStep (cfg : Config) (st : State) (e : TraceEntry) (k : Nat) :
    CohStep st (executeMemoryOperation cfg st e k) := by
  refine ⟨executeMemoryOperation_tagArray cfg st e k, ?_⟩
  intro c s w
  rcases executeMemoryOperation_coherence cfg st e k c s w with h | ⟨_, h1, h2⟩
  · exact Or.inl h
  · exact Or.inr (Or.inr (Or.inr ⟨h1, h2⟩))

/-- The access engine queues a `READ_SHARED` or `READ_EXCLUSIVE` request only when the core
holds no copy of the block. -/
theorem executeMemoryOperation_noCopy (cfg : Config) (st : State) (e : TraceEntry) (c : Nat) :
    ∃ extra, (executeMemoryOperation cfg st e c).pendingRequests = st.pendingRequests ++ extra
      ∧ ∀ r ∈ extra, r.reqType ≠ BusRequestType.UPGRADE_REQUEST →
          NoCopy cfg st r.requestorId (setIndexOf cfg r.memoryAddress)
            (tagOf cfg r.memoryAddress) := by
  have hmiss : ∀ st1 : State, st1.tagArray = st.tagArray →
      st1.coherenceTable = st.coherenceTable →
      lookupWay cfg st1 c (setIndexOf cfg e.addr) (tagOf cfg e.addr) = none →
      NoCopy cfg st c (setIndexOf cfg e.addr) (tagOf cfg e.addr) := by
    intro st1 ht hc hl w hw
    unfold lookupWay at hl
    have := findFirst_none hl w hw
    rw [ht, hc] at this
    unfold holdsLine
    rw [Bool.and_comm]
    exact this
  unfold executeMemoryOperation
  dsimp only
  split
  · exact ⟨[], by simp, by simp⟩
  · split
    · split
      · exact ⟨[], by simp, by simp⟩
      · rename_i hl
        refine ⟨[⟨c, e.addr, BusRequestType.READ_SHARED⟩], rfl, ?_⟩
        intro r hr _
        rw [List.mem_singleton.mp hr]
        exact hmiss _ rfl rfl hl
    · split
      · split
        · split
          · exact ⟨[], by simp, by simp⟩
          · exact ⟨[], by simp, by simp⟩
        · refine ⟨[⟨c, e.addr, BusRequestType.UPGRADE_REQUEST⟩], rfl, ?_⟩
          intro r hr hk
          rw [List.mem_singleton.mp hr] at hk
          exact absurd rfl hk
      · rename_i hl
        refine ⟨[⟨c, e.addr, BusRequestType.READ_EXCLUSIVE⟩], rfl, ?_⟩
        intro r hr _
        rw [List.mem_singleton.mp hr]
        exact hmiss _ rfl rfl hl

/-! #### Queued fills -/

theorem isFill_writeback {t : BusDataTransfer} (h : t.isWritebackOp = true) :
    isFill t = false := by
  simp [isFill, h]

theorem countP_isFill_writebacks {wbs : List BusDataTransfer}
    (h : ∀ t ∈ wbs, t.isWritebackOp = true) : wbs.countP isFill = 0 := by
  rw [List.countP_eq_zero]
  intro t ht
  rw [isFill_writeback (h t ht)]
  decide

theorem fillSafe_congr {cfg : Config} {st st2 : State} (ht : st2.tagArray = st.tagArray)
    (hc : st2.coherenceTable = st.coherenceTable) {t : BusDataTransfer}
    (h : FillSafe cfg st t) : FillSafe cfg st2 t :=
  fillSafe_cohStep (cohStep_of_eq ht hc) h

theorem cohInv_congr {cfg : Config} {st st2 : State} (ht : st2.tagArray = st.tagArray)
    (hc : st2.coherenceTable = st.coherenceTable) (h : CohInv cfg st) : CohInv cfg st2 :=
  cohInv_cohStep (cohStep_of_eq ht hc) h

theorem fillsOk_cohStep {cfg : Config} {st st2 : State} (h : CohStep st st2)
    (hq : st2.dataTransferQueue = st.dataTransferQueue) (hf : FillsOk cfg st) :
    FillsOk cfg st2 := by
  unfold FillsOk at *
  rw [hq]
  exact ⟨hf.1, fun t ht hfill => fillSafe_cohStep h (hf.2 t ht hfill)⟩

/-- The service of a request keeps the single-writer predicate and the safety of the queued
fills, given that the requestor of a `READ_SHARED` or `READ_EXCLUSIVE` request serviced with
the bus idle holds no copy of the block. -/
theorem serviceRequest_protocol (cfg : Config) (st : State) (q : BusTransaction)
    (hi : ProtocolInv cfg st)
    (hreq : st.busOccupied = false → q.reqType ≠ BusRequestType.UPGRADE_REQUEST →
      NoCopy cfg st q.requestorId (setIndexOf cfg q.memoryAddress)
        (tagOf cfg q.memoryAddress)) :
    ProtocolInv cfg (serviceRequest cfg st q) := by
  obtain ⟨hcoh, hbb, hfills⟩ := hi
  refine ⟨?_, busBusy_serviceRequest cfg st q hbb, ?_⟩
  · unfold serviceRequest
    dsimp only
    split
    · exact cohInv_congr rfl rfl hcoh
    · split
      · have hc1 : CohInv cfg
            { st with
              pendingOperations := set1 st.pendingOperations q.requestorId q.memoryAddress } :=
          cohInv_congr rfl rfl hcoh
        exact cohInv_cohStep (serviceReadShared_post cfg _ _ _ _ _ hc1).1 hc1
      · have hc1 : CohInv cfg
            { st with
              pendingOperations := set1 st.pendingOperations q.requestorId q.memoryAddress } :=
          cohInv_congr rfl rfl hcoh
        exact cohInv_cohStep (serviceReadExclusive_post cfg _ _ _ _ _).1 hc1
      · have hc1 : CohInv cfg
            { st with
              pendingOperations := set1 st.pendingOperations q.requestorId q.memoryAddress } :=
          cohInv_congr rfl rfl hcoh
        exact serviceUpgrade_cohInv cfg _ _ _ _ _ hc1
  · cases hb : st.busOccupied with
    | true =>
      have : serviceRequest cfg st q =
          { st with
            isStalled := set1 st.isStalled q.requestorId true
            stalledCycles := set1 st.stalledCycles q.requestorId
              (st.stalledCycles q.requestorId + 1)
            ghostLog := st.ghostLog ++ [Event.busyDropped q.requestorId] } := by
        unfold serviceRequest
        dsimp only
        rw [if_pos hb]
      rw [this]
      exact fillsOk_cohStep (cohStep_of_eq rfl rfl) rfl hfills
    | false =>
      have hempty : st.dataTransferQueue = [] := by
        by_contra hne
        have := hbb.mpr hne
        rw [hb] at this
        exact absurd this (by decide)
      unfold serviceRequest
      dsimp only
      rw [if_neg (by rw [hb]; decide)]
      split
      · rename_i hk
        have hnc := hreq hb (by rw [hk]; decide)
        have hcoh1 : CohInv cfg
            { st with
              pendingOperations := set1 st.pendingOperations q.requestorId q.memoryAddress } :=
          cohInv_congr rfl rfl hcoh
        obtain ⟨hstep1, hsh⟩ := serviceReadShared_post cfg _ q.requestorId q.memoryAddress
          (setIndexOf cfg q.memoryAddress) (tagOf cfg q.memoryAddress) hcoh1
        have hstep : CohStep st (serviceReadShared cfg
            { st with
              pendingOperations := set1 st.pendingOperations q.requestorId q.memoryAddress }
            q.requestorId q.memoryAddress (setIndexOf cfg q.memoryAddress)
            (tagOf cfg q.memoryAddress)) := hstep1
        obtain ⟨lat, wbs, hq, hw⟩ := serviceReadShared_queue cfg
          { st with
            pendingOperations := set1 st.pendingOperations q.requestorId q.memoryAddress }
          q.requestorId q.memoryAddress (setIndexOf cfg q.memoryAddress)
          (tagOf cfg q.memoryAddress)
        have hq2 : (serviceReadShared cfg
            { st with
              pendingOperations := set1 st.pendingOperations q.requestorId q.memoryAddress }
            q.requestorId q.memoryAddress (setIndexOf cfg q.memoryAddress)
            (tagOf cfg q.memoryAddress)).dataTransferQueue
              = ⟨q.memoryAddress, q.requestorId, false, false, false, lat⟩ :: wbs := by
          rw [hq]
          show st.dataTransferQueue ++ _ = _
          rw [hempty]
          rfl
        unfold FillsOk
        rw [hq2]
        refine ⟨?_, ?_⟩
        · rw [List.countP_cons, countP_isFill_writebacks hw]
          simp [isFill]
        · intro t ht hfill
          rcases List.mem_cons.mp ht with h1 | h1
          · rw [h1]
            exact ⟨noCopy_cohStep hstep hnc, by simpa using hsh⟩
          · rw [isFill_writeback (hw t h1)] at hfill
            exact absurd hfill (by decide)
      · rename_i hk
        have hnc := hreq hb (by rw [hk]; decide)
        obtain ⟨hstep, hno⟩ := serviceReadExclusive_post cfg
          { st with
            pendingOperations := set1 st.pendingOperations q.requestorId q.memoryAddress }
          q.requestorId q.memoryAddress
          (setIndexOf cfg q.memoryAddress) (tagOf cfg q.memoryAddress)
        obtain ⟨wbs, hq, hw⟩ := serviceReadExclusive_queue cfg
          { st with
            pendingOperations := set1 st.pendingOperations q.requestorId q.memoryAddress }
          q.requestorId q.memoryAddress (setIndexOf cfg q.memoryAddress)
          (tagOf cfg q.memoryAddress)
        have hq2 : (serviceReadExclusive cfg
            { st with
              pendingOperations := set1 st.pendingOperations q.requestorId q.memoryAddress }
            q.requestorId q.memoryAddress (setIndexOf cfg q.memoryAddress)
            (tagOf cfg q.memoryAddress)).dataTransferQueue
              = wbs ++ [⟨q.memoryAddress, q.requestorId, true, false, false, 100⟩] := by
          rw [hq]
          show st.dataTransferQueue ++ _ ++ _ = _
          rw [hempty]
          rfl
        have hstep0 : CohStep st (serviceReadExclusive cfg
            { st with
              pendingOperations := set1 st.pendingOperations q.requestorId q.memoryAddress }
            q.requestorId q.memoryAddress (setIndexOf cfg q.memoryAddress)
            (tagOf cfg q.memoryAddress)) := hstep
        unfold FillsOk
        rw [hq2]
        refine ⟨?_, ?_⟩
        · rw [List.countP_append, countP_isFill_writebacks hw]
          simp [isFill]
        · intro t ht hfill
          rcases List.mem_append.mp ht with h1 | h1
          · rw [isFill_writeback (hw t h1)] at hfill
            exact absurd hfill (by decide)
          · rw [List.mem_singleton.mp h1]
            exact ⟨noCopy_cohStep hstep0 hnc, by simpa using hno⟩
      · rcases serviceUpgrade_queue cfg
          { st with
            pendingOperations := set1 st.pendingOperations q.requestorId q.memoryAddress }
          q.requestorId q.memoryAddress (setIndexOf cfg q.memoryAddress)
          (tagOf cfg q.memoryAddress) with hq | hq
        · have hq2 : (serviceUpgrade cfg
              { st with
                pendingOperations := set1 st.pendingOperations q.requestorId q.memoryAddress }
              q.requestorId q.memoryAddress (setIndexOf cfg q.memoryAddress)
              (tagOf cfg q.memoryAddress)).dataTransferQueue = [] := by
            rw [hq]
            exact hempty
          unfold FillsOk
          rw [hq2]
          exact ⟨by simp, fun t ht => absurd ht (List.not_mem_nil _)⟩
        · have hq2 : (serviceUpgrade cfg
              { st with
                pendingOperations := set1 st.pendingOperations q.requestorId q.memoryAddress }
              q.requestorId q.memoryAddress (setIndexOf cfg q.memoryAddress)
              (tagOf cfg q.memoryAddress)).dataTransferQueue
                = [⟨q.memoryAddress, q.requestorId, false, false, true, 0⟩] := by
            rw [hq]
            show st.dataTransferQueue ++ _ = _
            rw [hempty]
            rfl
          unfold FillsOk
          rw [hq2]
          refine ⟨by simp [isFill], ?_⟩
          intro t ht hfill
          rw [List.mem_singleton.mp ht] at hfill
          simp [isFill] at hfill

/-! #### The data phase -/

theorem selectVictim_writebacks (cfg : Config) (ds : Bool) (st : State) (c s : Nat)
    (tw : Bool) :
    ∃ extra, (selectVictim cfg ds st c s tw).2.2.dataTransferQueue
        = st.dataTransferQueue ++ extra
      ∧ ∀ t ∈ extra, t.isWritebackOp = true := by
  unfold selectVictim
  dsimp only
  split
  · split
    · refine ⟨[⟨_, c, false, true, false, 100⟩], rfl, ?_⟩
      intro t ht
      rw [List.mem_singleton.mp ht]
    · exact ⟨[], by simp, by simp⟩
  · exact ⟨[], by simp, by simp⟩

/-- The completion of a transfer appends writebacks only to the queue. -/
theorem completeTransfer_writebacks (cfg : Config) (st : State) (t : BusDataTransfer) :
    ∃ extra, (completeTransfer cfg st t).dataTransferQueue = st.dataTransferQueue ++ extra
      ∧ ∀ t2 ∈ extra, t2.isWritebackOp = true := by
  have key := fun ds => selectVictim_writebacks cfg ds
    { st with
      totalBusTraffic := st.totalBusTraffic + bytesPerBlock cfg
      trafficBytes := set1 st.trafficBytes t.destinationCore
        (st.trafficBytes t.destinationCore + bytesPerBlock cfg) }
    t.destinationCore (setIndexOf cfg t.targetAddress) false
  unfold completeTransfer processWriteMiss processReadMiss
  dsimp only
  cases hwb : t.isWritebackOp with
  | true => exact ⟨[], by simp, by simp⟩
  | false =>
    simp only [Bool.not_false, if_true]
    cases hw : t.isWriteOp with
    | true =>
      simp only [if_true]
      obtain ⟨extra, hx, hs⟩ := key false
      split
      · exact ⟨extra, hx, hs⟩
      · exact ⟨extra, hx, hs⟩
    | false =>
      simp only [Bool.false_eq_true, if_false]
      cases hi : t.isInvalidation with
      | true => exact ⟨[], by simp, by simp⟩
      | false =>
        simp only [Bool.not_false, if_true]
        obtain ⟨extra, hx, hs⟩ := key true
        split
        · exact ⟨extra, hx, hs⟩
        · exact ⟨extra, hx, hs⟩

/-- State after the completion of the head transfer `t` of the queue `t :: rest`. -/
theorem protocol_completed {cfg : Config} {st res : State} {t : BusDataTransfer}
    {rest extra : List BusDataTransfer}
    (hcoh : CohInv cfg st) (hfills : FillsOk cfg st)
    (hq : st.dataTransferQueue = t :: rest)
    (hwb : ∀ t2 ∈ extra, t2.isWritebackOp = true)
    (hrt : res.tagArray = (completeTransfer cfg st t).tagArray)
    (hrc : res.coherenceTable = (completeTransfer cfg st t).coherenceTable)
    (hrq : res.dataTransferQueue = rest ++ extra) :
    CohInv cfg res ∧ FillsOk cfg res := by
  obtain ⟨hcnt, hsafe⟩ := hfills
  rw [hq] at hcnt hsafe
  obtain ⟨hnf, hf⟩ := completeTransfer_effect cfg st t
  have hmem : ∀ t2 ∈ rest ++ extra, isFill t2 = true → t2 ∈ rest := by
    intro t2 ht2 hfill
    rcases List.mem_append.mp ht2 with h | h
    · exact h
    · rw [isFill_writeback (hwb t2 h)] at hfill
      exact absurd hfill (by decide)
  cases hfill : isFill t with
  | false =>
    obtain ⟨ht, hc⟩ := hnf hfill
    have ht2 : res.tagArray = st.tagArray := hrt.trans ht
    have hc2 : res.coherenceTable = st.coherenceTable := hrc.trans hc
    refine ⟨cohInv_congr ht2 hc2 hcoh, ?_, ?_⟩
    · rw [hrq, List.countP_append, countP_isFill_writebacks hwb]
      rw [List.countP_cons] at hcnt
      omega
    · rw [hrq]
      intro t2 ht2m hfill2
      exact fillSafe_congr ht2 hc2
        (hsafe t2 (List.mem_cons_of_mem _ (hmem t2 ht2m hfill2)) hfill2)
  | true =>
    obtain ⟨v, X, ht, hc, hwX, hrX⟩ := hf hfill
    obtain ⟨hnc, hoth⟩ := hsafe t (List.mem_cons_self _ _) hfill
    have hrest : rest.countP isFill = 0 := by
      rw [List.countP_cons, hfill] at hcnt
      simp only [if_true] at hcnt
      omega
    refine ⟨?_, ?_, ?_⟩
    · refine cohInv_install hcoh (hrt.trans ht) (hrc.trans hc)
        (fun _ w hw _ => hnc w hw) ?_
      intro c hc4 hcd w hw hl
      cases hwo : t.isWriteOp with
      | true =>
        rw [if_pos hwo] at hoth
        rw [hoth c hc4 hcd w hw] at hl
        exact absurd hl (by decide)
      | false =>
        rw [if_neg (by rw [hwo]; decide)] at hoth
        rcases hrX hwo with hX | ⟨_, hno⟩
        · exact ⟨hX, hoth c hc4 hcd w hw hl⟩
        · rw [hno c hc4 hcd w hw] at hl
          exact absurd hl (by decide)
    · rw [hrq, List.countP_append, countP_isFill_writebacks hwb, hrest]
      decide
    · rw [hrq]
      intro t2 ht2m hfill2
      have := hmem t2 ht2m hfill2
      rw [List.countP_eq_zero] at hrest
      exact absurd hfill2 (hrest t2 this)

/-- The data phase keeps the protocol invariant. -/
theorem dataPhase_protocol (cfg : Config) (st : State) (hi : ProtocolInv cfg st) :
    ProtocolInv cfg (dataPhase cfg st) := by
  obtain ⟨hcoh, hbb, hfills⟩ := hi
  have key : CohInv cfg (dataPhase cfg st) ∧ FillsOk cfg (dataPhase cfg st) := by
    unfold dataPhase
    split
    · exact ⟨hcoh, hfills⟩
    · rename_i t rest hq
      dsimp only
      split
      · obtain ⟨extra, hx, hwb⟩ := completeTransfer_writebacks cfg st t
        have hqq : (completeTransfer cfg st t).dataTransferQueue.tail = rest ++ extra := by
          rw [hx, hq]
          rfl
        split
        · exact protocol_completed hcoh hfills hq hwb rfl rfl hqq
        · exact protocol_completed hcoh hfills hq hwb rfl rfl hqq
      · obtain ⟨hcnt, hsafe⟩ := hfills
        rw [hq] at hcnt hsafe
        refine ⟨cohInv_congr rfl rfl hcoh, ?_, ?_⟩
        · show List.countP isFill (_ :: rest) ≤ 1
          rw [List.countP_cons] at hcnt ⊢
          exact hcnt
        · intro t2 ht2 hfill2
          have ht2m : t2 ∈ ({ t with pendingCycles := t.pendingCycles - 1 } :
              BusDataTransfer) :: rest := ht2
          rcases List.mem_cons.mp ht2m with h | h
          · rw [h] at hfill2 ⊢
            exact fillSafe_congr rfl rfl (hsafe t (List.mem_cons_self _ _) hfill2)
          · exact fillSafe_congr rfl rfl (hsafe t2 (List.mem_cons_of_mem _ h) hfill2)
  exact ⟨key.1, busBusy_dataPhase cfg st hbb, key.2⟩

/-! #### The cycle loop -/

theorem protocolInv_congr {cfg : Config} {st st2 : State} (ht : st2.tagArray = st.tagArray)
    (hc : st2.coherenceTable = st.coherenceTable) (hb : st2.busOccupied = st.busOccupied)
    (hq : st2.dataTransferQueue = st.dataTransferQueue) (h : ProtocolInv cfg st) :
    ProtocolInv cfg st2 := by
  obtain ⟨h1, h2, h3⟩ := h
  refine ⟨cohInv_congr ht hc h1, ?_, fillsOk_cohStep (cohStep_of_eq ht hc) hq h3⟩
  unfold BusBusyInv at *
  rw [hb, hq]
  exact h2

/-- A service that leaves the bus idle is a `CohStep`. -/
theorem serviceRequest_idle_cohStep (cfg : Config) (st : State) (q : BusTransaction)
    (h : (serviceRequest cfg st q).busOccupied = false) :
    CohStep st (serviceRequest cfg st q) := by
  revert h
  unfold serviceRequest
  dsimp only
  split
  · intro _
    exact cohStep_of_eq rfl rfl
  · split
    · unfold serviceReadShared
      dsimp only
      repeat' split
      all_goals (intro h; simp at h)
    · unfold serviceReadExclusive
      dsimp only
      repeat' split
      all_goals (intro h; simp at h)
    · unfold serviceUpgrade
      dsimp only
      split
      · intro h
        simp at h
      · intro _
        exact cohStep_of_eq rfl rfl

theorem requestsOk_cohStep {cfg : Config} {st st2 : State} (h : CohStep st st2)
    {q : List BusTransaction} (hr : RequestsOk cfg st q) : RequestsOk cfg st2 q :=
  fun r hm hk => noCopy_cohStep h (hr r hm hk)

theorem advanceCore_protocol (cfg : Config) (tr : Nat → List TraceEntry) (i : Nat)
    (sim : SimState)
    (h : ProtocolInv cfg sim.st ∧ sim.st.pendingRequests = []) :
    ProtocolInv cfg (advanceCore tr i sim).st
      ∧ (advanceCore tr i sim).st.pendingRequests = [] := by
  unfold advanceCore
  dsimp only
  split
  · split
    · exact ⟨protocolInv_congr rfl rfl rfl rfl h.1, h.2⟩
    · exact ⟨protocolInv_congr rfl rfl rfl rfl h.1, h.2⟩
  · exact h

/-- The protocol invariant holds at the end of every cycle. -/
theorem protocol_cycles (cfg : Config) (tr : Nat → List TraceEntry) (n : Nat) :
    ProtocolInv cfg (cycles cfg tr n).st := by
  refine (cycles_phases cfg tr
    (fun sim => ProtocolInv cfg sim.st ∧ sim.st.pendingRequests = [])
    (fun _ sim => ProtocolInv cfg sim.st ∧ RequestsOk cfg sim.st sim.st.pendingRequests)
    (fun sim => ProtocolInv cfg sim.st ∧ sim.st.pendingRequests = [])
    (fun _ sim => ProtocolInv cfg sim.st ∧ sim.st.pendingRequests = [])
    ?_ ?_ ?_ ?_ ?_ ?_ ?_ n).1.1
  · refine ⟨⟨?_, ?_, ?_, ?_⟩, rfl⟩
    · intro c c2 s w w2 _ _ _ _ _ hv
      exact absurd rfl hv
    · simp [BusBusyInv, initialSim, initialState]
    · simp [initialSim, initialState]
    · intro t ht
      simp [initialSim, initialState] at ht
  · intro sim ⟨h1, h2⟩
    refine ⟨h1, ?_⟩
    rw [h2]
    intro r hr
    exact absurd hr (List.not_mem_nil _)
  · intro i sim _ ⟨h1, h2⟩
    unfold offerCore
    dsimp only
    split
    · exact ⟨h1, h2⟩
    · split
      · rename_i e _
        have hstep := executeMemoryOperation_cohStep cfg sim.st e i
        refine ⟨⟨cohInv_cohStep hstep h1.1,
          busBusy_executeMemoryOperation cfg _ e i h1.2.1,
          fillsOk_cohStep hstep (by simp) h1.2.2⟩, ?_⟩
        obtain ⟨extra, hx, hr⟩ := executeMemoryOperation_noCopy cfg sim.st e i
        intro r hmem hk
        rw [hx, List.mem_append] at hmem
        rcases hmem with hmem | hmem
        · exact noCopy_cohStep hstep (h2 r hmem hk)
        · exact noCopy_cohStep hstep (hr r hmem hk)
      · exact ⟨protocolInv_congr rfl rfl rfl rfl h1, fun r hm hk => h2 r hm hk⟩
  · intro sim ⟨h1, h2⟩
    dsimp only
    unfold processBusTransactions requestPhase
    have hloop := requestLoop_invariant cfg
      (fun q st => ProtocolInv cfg st ∧ st.pendingRequests = q
        ∧ (st.busOccupied = false → RequestsOk cfg st q))
      (by
        intro r rest st ⟨g1, _, g3⟩
        have g1b : ProtocolInv cfg { st with pendingRequests := rest } :=
          protocolInv_congr rfl rfl rfl rfl g1
        refine ⟨serviceRequest_protocol cfg _ r g1b
          (fun hb hk => g3 hb r (List.mem_cons_self _ _) hk), by simp, ?_⟩
        intro hb
        have hstep := serviceRequest_idle_cohStep cfg { st with pendingRequests := rest } r hb
        have hb0 : st.busOccupied = false := by
          cases hx : st.busOccupied with
          | false => rfl
          | true =>
            exfalso
            have : (serviceRequest cfg { st with pendingRequests := rest } r).busOccupied
                = true := by
              unfold serviceRequest
              dsimp only
              rw [if_pos hx]
              exact hx
            rw [this] at hb
            exact absurd hb (by decide)
        have hstep2 : CohStep st (serviceRequest cfg { st with pendingRequests := rest } r) :=
          hstep
        exact requestsOk_cohStep hstep2
          (fun r2 hm hk => g3 hb0 r2 (List.mem_cons_of_mem _ hm) hk))
      sim.st.pendingRequests { sim.st with busTickCounter := sim.st.busTickCounter + 1 }
      ⟨protocolInv_congr rfl rfl rfl rfl h1, rfl, fun _ => h2⟩
    refine ⟨dataPhase_protocol cfg _ hloop.1, ?_⟩
    have := hloop.2.1
    simpa using this
  · intro sim hs
    exact hs
  · intro i sim _ hs
    exact advanceCore_protocol cfg tr i sim hs
  · intro sim hs
    exact hs

/-- **C1** (MESI single-writer invariant).  For every geometry with `E ≥ 1` and `b ≥ 1` and
all traces, in the state at the end of every cycle, for every set index `s` and tag: if a core
`c` of `0 .. 3` holds a line of set `s` with that tag in state `MODIFIED` or `EXCLUSIVE`, then
no other core of `0 .. 3` holds a line of set `s` with that tag in a state other than
`INVALID`. -/
theorem mesi_single_writer (cfg : Config) (tr : Nat → List TraceEntry) (n : Nat)
    (_hE : 1 ≤ cfg.associativity) (_hb : 1 ≤ cfg.numBlockBits)
    (s : Nat) (tag : Int) (c c2 : Nat) (hc : c < 4) (hc2 : c2 < 4) (hne : c ≠ c2)
    (hown : HoldsLineIn cfg (cycles cfg tr n).st c s tag CoherenceState.MODIFIED
      ∨ HoldsLineIn cfg (cycles cfg tr n).st c s tag CoherenceState.EXCLUSIVE)
    (cs : CoherenceState) (hcs : cs ≠ CoherenceState.INVALID) :
    ¬ HoldsLineIn cfg (cycles cfg tr n).st c2 s tag cs := by
  intro ⟨w2, hw2, ht2, hs2⟩
  have hinv := (protocol_cycles cfg tr n).1
  have hkey : ∀ w, w < cfg.associativity → (cycles cfg tr n).st.tagArray c s w = tag →
      (cycles cfg tr n).st.coherenceTable c s w ≠ CoherenceState.INVALID →
      (cycles cfg tr n).st.coherenceTable c s w = CoherenceState.SHARED := by
    intro w hw ht hv
    exact (hinv c c2 s w w2 hc hc2 hw hw2 (Or.inl hne) hv (by rw [hs2]; exact hcs)
      (ht.trans ht2.symm)).2
  rcases hown with ⟨w, hw, ht, hs⟩ | ⟨w, hw, ht, hs⟩
  · have := hkey w hw ht (by rw [hs]; decide)
    rw [hs] at this
    exact absurd this (by decide)
  · have := hkey w hw ht (by rw [hs]; decide)
    rw [hs] at this
    exact absurd this (by decide)

/-- Scenario S3 at the end of cycle 101: the write fill of core 0 has completed, and core 0
holds the block of `0x2000` (set 0, tag `0x80`) in state `MODIFIED`. -/
theorem scenarioS3_cycle101_evaluated :
    checkFinal (cyclesWait scenarioConfig scenarioS3 100 101 (initialSim scenarioConfig))
      (fun sim => decide (HoldsLineIn scenarioConfig sim.st 0 0 128 CoherenceState.MODIFIED))
      = true := by
  decide!

/-- Witness for `mesi_single_writer`: in scenario S3 at the end of cycle 101, core 0 holds
the block of `0x2000` in state `MODIFIED` and core 1 does not hold it in state `SHARED`. -/
theorem mesi_single_writer_witness :
    HoldsLineIn scenarioConfig (cycles scenarioConfig scenarioS3 101).st 0 0 128
        CoherenceState.MODIFIED
      ∧ ¬ HoldsLineIn scenarioConfig (cycles scenarioConfig scenarioS3 101).st 1 0 128
          CoherenceState.SHARED := by
  have h : HoldsLineIn scenarioConfig (cycles scenarioConfig scenarioS3 101).st 0 0 128
      CoherenceState.MODIFIED :=
    of_decide_eq_true (checkFinal_cyclesWait scenarioS3_cycle101_evaluated)
  exact ⟨h, mesi_single_writer scenarioConfig scenarioS3 101 (by decide) (by decide) 0 128 0 1
    (by decide) (by decide) (by decide) (Or.inl h) CoherenceState.SHARED (by decide)⟩

/-! ### More end-to-end scenarios -/

/-- Scenario S5 evaluated. -/
theorem scenarioS5_evaluated :
    checkFinal (runWait scenarioConfig scenarioS5 100 800) (fun sim =>
      decide (sim.st.invalidationCount 0 + sim.st.invalidationCount 1
          + sim.st.invalidationCount 2 + sim.st.invalidationCount 3 = 3)
        && decide (HoldsBlock scenarioConfig sim.st 3 0xABCD CoherenceState.MODIFIED)
        && decide (HoldsNoValidCopy scenarioConfig sim.st 0 0xABCD
          ∧ HoldsNoValidCopy scenarioConfig sim.st 1 0xABCD
          ∧ HoldsNoValidCopy scenarioConfig sim.st 2 0xABCD)) = true := by
  decide!

/-- **C11** (scenario S5).  With `s = 2, E = 2, b = 4` and the four cores having the trace
`[W 0xABCD]`, the run terminates with `invalidationCount` summing to 3 over the four cores;
at the end exactly one core holds the block of `0xABCD` in `MODIFIED` (core 3, the last
writer) and the other three hold no valid copy of it. -/
theorem scenario_S5_outcome :
    ∃ fuel sim, runMulticoreSimulation scenarioConfig scenarioS5 fuel = some sim
      ∧ sim.st.invalidationCount 0 + sim.st.invalidationCount 1
          + sim.st.invalidationCount 2 + sim.st.invalidationCount 3 = 3
      ∧ (∃ c, c < 4 ∧ HoldsBlock scenarioConfig sim.st c 0xABCD CoherenceState.MODIFIED
          ∧ ∀ c2, c2 < 4 → c2 ≠ c → HoldsNoValidCopy scenarioConfig sim.st c2 0xABCD) := by
  obtain ⟨sim, hs, hp⟩ := checkFinal_runWait scenarioS5_evaluated
  simp only [Bool.and_eq_true, decide_eq_true_eq] at hp
  refine ⟨800, sim, hs, hp.1.1, 3, by decide, hp.1.2, ?_⟩
  intro c2 hc2 hne
  have : c2 = 0 ∨ c2 = 1 ∨ c2 = 2 := by omega
  rcases this with h | h | h
  · rw [h]; exact hp.2.1
  · rw [h]; exact hp.2.2.1
  · rw [h]; exact hp.2.2.2

/-- Scenario S2 evaluated: the final state. -/
theorem scenarioS2_evaluated :
    checkFinal (runWait scenarioConfig scenarioS2 100 200) (fun sim =>
      decide (HoldsBlock scenarioConfig sim.st 0 0x1000 CoherenceState.SHARED)
        && decide (HoldsBlock scenarioConfig sim.st 1 0x1000 CoherenceState.SHARED)
        && decide (sim.st.missCount 0 = 1 ∧ sim.st.missCount 1 = 1
          ∧ sim.st.missCount 2 = 0 ∧ sim.st.missCount 3 = 0)
        && decide (sim.st.invalidationCount 0 = 0 ∧ sim.st.invalidationCount 1 = 0
          ∧ sim.st.invalidationCount 2 = 0 ∧ sim.st.invalidationCount 3 = 0)) = true := by
  decide!

/-- Scenario S2 evaluated: the end of cycle 101, in which the fill of core 0 completes. -/
theorem scenarioS2_cycle101_evaluated :
    checkFinal (cyclesWait scenarioConfig scenarioS2 100 101 (initialSim scenarioConfig))
      (fun sim => decide (HoldsBlock scenarioConfig sim.st 0 0x1000 CoherenceState.EXCLUSIVE
        ∧ HoldsNoValidCopy scenarioConfig sim.st 1 0x1000
        ∧ sim.st.dataTransferQueue = [])) = true := by
  decide!

/-- Scenario S2 evaluated: the end of cycle 102, in which the request of core 1 is serviced. -/
theorem scenarioS2_cycle102_evaluated :
    checkFinal (cyclesWait scenarioConfig scenarioS2 100 102 (initialSim scenarioConfig))
      (fun sim => decide (HoldsBlock scenarioConfig sim.st 0 0x1000 CoherenceState.SHARED
        ∧ sim.st.dataTransferQueue
            = [⟨0x1000, 1, false, false, false, c2cLatency scenarioConfig - 1⟩])) = true := by
  decide!

/-- **C12** (scenario S2).  With `s = 2, E = 2, b = 4`, core 0 = `[R 0x1000]`,
core 1 = `[R 0x1000]` and cores 2, 3 empty: at the end of cycle 101 the fill of core 0 has
installed the block in `EXCLUSIVE` and core 1 holds no copy; in cycle 102 the request of core 1
is serviced as a cache-to-cache transfer (the queued fill for core 1 has the latency
`1 << (b - 1)`, less the cycle elapsed) and core 0 goes from `EXCLUSIVE` to `SHARED`; the run
terminates with both cores holding the block in `SHARED`, `missCount = [1,1,0,0]` and
`invalidationCount = [0,0,0,0]`. -/
theorem scenario_S2_outcome :
    (HoldsBlock scenarioConfig (cycles scenarioConfig scenarioS2 101).st 0 0x1000
          CoherenceState.EXCLUSIVE
        ∧ HoldsNoValidCopy scenarioConfig (cycles scenarioConfig scenarioS2 101).st 1 0x1000
        ∧ (cycles scenarioConfig scenarioS2 101).st.dataTransferQueue = [])
    ∧ (HoldsBlock scenarioConfig (cycles scenarioConfig scenarioS2 102).st 0 0x1000
          CoherenceState.SHARED
        ∧ (cycles scenarioConfig scenarioS2 102).st.dataTransferQueue
            = [⟨0x1000, 1, false, false, false, c2cLatency scenarioConfig - 1⟩])
    ∧ ∃ fuel sim, runMulticoreSimulation scenarioConfig scenarioS2 fuel = some sim
      ∧ HoldsBlock scenarioConfig sim.st 0 0x1000 CoherenceState.SHARED
      ∧ HoldsBlock scenarioConfig sim.st 1 0x1000 CoherenceState.SHARED
      ∧ (sim.st.missCount 0 = 1 ∧ sim.st.missCount 1 = 1
          ∧ sim.st.missCount 2 = 0 ∧ sim.st.missCount 3 = 0)
      ∧ (sim.st.invalidationCount 0 = 0 ∧ sim.st.invalidationCount 1 = 0
          ∧ sim.st.invalidationCount 2 = 0 ∧ sim.st.invalidationCount 3 = 0) := by
  refine ⟨?_, ?_, ?_⟩
  · exact of_decide_eq_true (checkFinal_cyclesWait scenarioS2_cycle101_evaluated)
  · exact of_decide_eq_true (checkFinal_cyclesWait scenarioS2_cycle102_evaluated)
  · obtain ⟨sim, hs, hp⟩ := checkFinal_runWait scenarioS2_evaluated
    simp only [Bool.and_eq_true, decide_eq_true_eq] at hp
    exact ⟨200, sim, hs, hp.1.1.1, hp.1.1.2, hp.1.2, hp.2⟩

/-- The skipped-miss scenario evaluated. -/
theorem scenarioSkippedMiss_evaluated :
    checkFinal (runWait scenarioConfig scenarioSkippedMiss 100 400) (fun sim =>
      decide (sim.tracePosition 1 = 2)
        && decide (sim.st.missCount 1 = 1)
        && decide (countEvents (fun e => e == Event.readSharedServiced 1) sim.st = 0)
        && decide (countEvents (fun e => e == Event.readExclusiveServiced 1) sim.st = 1)
        && decide (HoldsNoValidCopy scenarioConfig sim.st 1 0x1000)
        && decide (sim.st.ghostLog.reverse.take 4
            = [Event.writebackCompleted 1, Event.busyDropped 1, Event.modifiedSnooped 1,
                Event.readSharedServiced 0])) = true := by
  decide!

/-- **C19, failing input** (dropped requests are re-issued).  Core 0 = `[R 0x3000, R 0x3000,
R 0x2000]`, core 1 = `[W 0x2000, R 0x1000]`, cores 2 and 3 empty, `s = 2, E = 2, b = 4`.  In
the cycle in which core 1 issues the request of `R 0x1000`, the `READ_SHARED` of core 0 for
`0x2000` is serviced first and snoops core 1's `MODIFIED` line; the request of core 1 is
dropped, and the completion of core 1's writeback clears its stall.  The run terminates with
both entries of core 1 retired, although the only request of core 1 ever serviced is the
`READ_EXCLUSIVE` of its write: no `READ_SHARED` of core 1 is serviced, `missCount[1] = 1`, core 1
does not hold the block of `0x1000`, and the log ends with the snoop of core 1's line, the
drop of core 1's request and the completion of core 1's writeback. -/
theorem dropped_miss_is_skipped :
    ∃ sim, runMulticoreSimulation scenarioConfig scenarioSkippedMiss 400 = some sim
      ∧ sim.tracePosition 1 = (scenarioSkippedMiss 1).length
      ∧ sim.st.missCount 1 = 1
      ∧ countEvents (fun e => e == Event.readSharedServiced 1) sim.st = 0
      ∧ countEvents (fun e => e == Event.readExclusiveServiced 1) sim.st = 1
      ∧ HoldsNoValidCopy scenarioConfig sim.st 1 0x1000
      ∧ sim.st.ghostLog.reverse.take 4
          = [Event.writebackCompleted 1, Event.busyDropped 1, Event.modifiedSnooped 1,
              Event.readSharedServiced 0] := by
  obtain ⟨sim, hs, hp⟩ := checkFinal_runWait scenarioSkippedMiss_evaluated
  simp only [Bool.and_eq_true, decide_eq_true_eq] at hp
  exact ⟨sim, hs, hp.1.1.1.1.1, hp.1.1.1.1.2, hp.1.1.1.2, hp.1.1.2, hp.1.2, hp.2⟩

/-! ### Victim selection of the miss handlers -/

theorem findFirst_eq_some {n : Nat} {p : Nat → Bool} {i : Nat} (hi : i < n) (hp : p i = true)
    (hlow : ∀ j, j < i → p j = false) : findFirst n p = some i := by
  cases h : findFirst n p with
  | none =>
    have := findFirst_none h i hi
    rw [hp] at this
    exact absurd this (by decide)
  | some v =>
    obtain ⟨_, hv, hvl⟩ := findFirst_some h
    rcases Nat.lt_trichotomy v i with hlt | heq | hgt
    · rw [hlow v hlt] at hv
      exact absurd hv (by decide)
    · rw [heq]
    · rw [hvl i hgt] at hp
      exact absurd hp (by decide)

theorem findFirst_eq_none {n : Nat} {p : Nat → Bool} (h : ∀ j, j < n → p j = false) :
    findFirst n p = none := by
  cases hf : findFirst n p with
  | none => rfl
  | some v =>
    obtain ⟨hv, hp, _⟩ := findFirst_some hf
    rw [h v hv] at hp
    exact absurd hp (by decide)

/-- Victim choice when the lowest `INVALID` way of the set is `w`. -/
theorem selectVictim_invalid (cfg : Config) (ds : Bool) (st : State) (core set : Nat)
    (tw : Bool) (w : Nat) (hw : w < cfg.associativity)
    (hinv : st.coherenceTable core set w = CoherenceState.INVALID)
    (hlow : ∀ j, j < w → st.coherenceTable core set j ≠ CoherenceState.INVALID) :
    (selectVictim cfg ds st core set tw).1 = w
      ∧ (selectVictim cfg ds st core set tw).2.1 = tw
      ∧ (selectVictim cfg ds st core set tw).2.2.dataTransferQueue = st.dataTransferQueue
      ∧ (selectVictim cfg ds st core set tw).2.2.evictionCount = st.evictionCount
      ∧ (selectVictim cfg ds st core set tw).2.2.lruOrder core set
          = (st.lruOrder core set).erase w := by
  have hf : findInvalidWay cfg st core set = some w := by
    unfold findInvalidWay
    refine findFirst_eq_some hw (by simp [hinv]) ?_
    intro j hj
    have := hlow j hj
    simp [this]
  unfold selectVictim
  rw [hf]
  exact ⟨rfl, rfl, rfl, rfl, by simp⟩

/-- Victim choice when no way of the set is `INVALID`. -/
theorem selectVictim_full (cfg : Config) (ds : Bool) (st : State) (core set : Nat)
    (tw : Bool)
    (hfull : ∀ w, w < cfg.associativity →
      st.coherenceTable core set w ≠ CoherenceState.INVALID) :
    (selectVictim cfg ds st core set tw).1 = (st.lruOrder core set).headD 0
      ∧ (selectVictim cfg ds st core set tw).2.2.evictionCount core
          = st.evictionCount core + 1
      ∧ (selectVictim cfg ds st core set tw).2.2.lruOrder core set
          = (st.lruOrder core set).tail
      ∧ (st.dirtyFlags core set ((st.lruOrder core set).headD 0) = true →
          (selectVictim cfg ds st core set tw).2.1 = true
          ∧ (selectVictim cfg ds st core set tw).2.2.dataTransferQueue
              = st.dataTransferQueue
                ++ [⟨evictedAddrOf cfg (st.tagArray core set ((st.lruOrder core set).headD 0))
                      set, core, false, true, false, 100⟩])
      ∧ (st.dirtyFlags core set ((st.lruOrder core set).headD 0) = false →
          (selectVictim cfg ds st core set tw).2.1 = tw
          ∧ (selectVictim cfg ds st core set tw).2.2.dataTransferQueue
              = st.dataTransferQueue) := by
  have hf : findInvalidWay cfg st core set = none := by
    unfold findInvalidWay
    refine findFirst_eq_none ?_
    intro j hj
    have := hfull j hj
    simp [this]
  unfold selectVictim
  rw [hf]
  dsimp only
  cases hd : st.dirtyFlags core set ((st.lruOrder core set).headD 0) with
  | true =>
    rw [if_pos rfl]
    refine ⟨rfl, by simp, by simp, fun _ => ⟨rfl, rfl⟩, fun h => ?_⟩
    exact absurd h (by decide)
  | false =>
    rw [if_neg (by decide)]
    refine ⟨rfl, by simp, by simp, fun h => ?_, fun _ => ⟨rfl, rfl⟩⟩
    exact absurd h (by decide)

theorem lruPerm_nonempty {cfg : Config} {l : List Nat} (hE : 1 ≤ cfg.associativity)
    (hl : LruPerm cfg l) : l.head? = some (l.headD 0) := by
  cases l with
  | nil =>
    have h0 := hl.length_eq
    simp at h0
    omega
  | cons h t => rfl

/-- Both miss handlers are the victim choice followed by the metadata update; the outcome of
that composition. -/
theorem missHandler_victimChoice (cfg : Config) (hE : 1 ≤ cfg.associativity) (ds dirty : Bool)
    (st : State) (core set : Nat) (tag : Int) (tw : Bool)
    (hl : LruPerm cfg (st.lruOrder core set)) :
    VictimChoice cfg st core set tag tw
      ((selectVictim cfg ds st core set tw).1, (selectVictim cfg ds st core set tw).2.1,
        installLine (selectVictim cfg ds st core set tw).2.2 core set
          (selectVictim cfg ds st core set tw).1 tag dirty) := by
  refine ⟨?_, ?_, ?_, ?_⟩
  · intro w hw hinv hlow
    obtain ⟨h1, h2, h3, _, _⟩ := selectVictim_invalid cfg ds st core set tw w hw hinv hlow
    exact ⟨h1, h2, by simp only [installLine]; exact h3⟩
  · intro hfull
    obtain ⟨h1, _, _, h4, h5⟩ := selectVictim_full cfg ds st core set tw hfull
    dsimp only
    rw [h1]
    refine ⟨lruPerm_nonempty hE hl, ?_, ?_⟩
    · intro hd
      exact ⟨(h4 hd).1, by simp only [installLine]; exact (h4 hd).2⟩
    · intro hd
      exact ⟨(h5 hd).1, by simp only [installLine]; exact (h5 hd).2⟩
  · exact (selectVictim_lru cfg hE ds st core set tw tag dirty hl).1
  · simp [installLine]

theorem lruPerm_directMapped {cfg : Config} {l : List Nat} (hE : cfg.associativity = 1)
    (hl : LruPerm cfg l) : l = [0] := by
  unfold LruPerm at hl
  rw [hE] at hl
  exact List.perm_singleton.mp hl

/-- The miss handlers on a direct-mapped cache. -/
theorem missHandler_directMapped (cfg : Config) (hE : cfg.associativity = 1) (ds dirty : Bool)
    (st : State) (core set : Nat) (tag : Int) (tw : Bool)
    (hl : LruPerm cfg (st.lruOrder core set)) :
    DirectMappedFill st core set tag
      ((selectVictim cfg ds st core set tw).1, (selectVictim cfg ds st core set tw).2.1,
        installLine (selectVictim cfg ds st core set tw).2.2 core set
          (selectVictim cfg ds st core set tw).1 tag dirty) := by
  have hl0 := lruPerm_directMapped hE hl
  unfold DirectMappedFill
  dsimp only
  by_cases h0 : st.coherenceTable core set 0 = CoherenceState.INVALID
  · obtain ⟨h1, _, _, h4, h5⟩ :=
      selectVictim_invalid cfg ds st core set tw 0 (by omega) h0 (fun j hj => absurd hj (by omega))
    rw [h1, if_pos h0]
    refine ⟨rfl, by simp [installLine], hl0, ?_, ?_⟩
    · simp only [installLine, set2_same]
      rw [h5, hl0]
      rfl
    · simp only [installLine]
      rw [h4]
      simp
  · have hfull : ∀ w, w < cfg.associativity →
        st.coherenceTable core set w ≠ CoherenceState.INVALID := by
      intro w hw
      have : w = 0 := by omega
      rw [this]
      exact h0
    obtain ⟨h1, h2, h3, _, _⟩ := selectVictim_full cfg ds st core set tw hfull
    rw [h1, if_neg h0, hl0]
    refine ⟨rfl, by simp [installLine], rfl, ?_, ?_⟩
    · simp only [installLine, set2_same]
      rw [h3, hl0]
      rfl
    · simp only [installLine]
      exact h2

theorem initialState_lruPerm (cfg : Config) (set : Nat) (hs : set < 2 ^ cfg.numSetBits)
    (core : Nat) : LruPerm cfg ((initialState cfg).lruOrder core set) := by
  unfold LruPerm
  simp only [initialState, initializeLruOrder, if_pos hs, initialLruList_eq]
  exact List.Perm.refl _

/-- Single read on the direct-mapped geometry, evaluated. -/
theorem scenarioDirectMapped_evaluated :
    checkFinal (runWait directMappedConfig scenarioDirectMapped 100 200) (fun sim =>
      decide (sim.st.missCount 0 = 1) && decide (sim.st.evictionCount 0 = 0)
        && decide (HoldsBlock directMappedConfig sim.st 0 0x1000 CoherenceState.EXCLUSIVE))
      = true := by
  decide!

/-- Claim C17, as amended: with `E = 1` and the LRU list of the target set a permutation of
`{0}`, every call of `processReadMiss` and of `processWriteMiss` returns way 0, stores the new
tag in way 0 and leaves the LRU list `[0]`; `evictionCount` of the core grows by one when way 0
held a line that was not `INVALID`, and is unchanged when way 0 was `INVALID`. -/
theorem direct_mapped_fill (cfg : Config) (hE : cfg.associativity = 1) (st : State)
    (core set : Nat) (tag : Int) (tw : Bool) (hl : LruPerm cfg (st.lruOrder core set)) :
    DirectMappedFill st core set tag (processReadMiss cfg st core set tag tw)
      ∧ DirectMappedFill st core set tag (processWriteMiss cfg st core set tag tw) :=
  ⟨missHandler_directMapped cfg hE true false st core set tag tw hl,
    missHandler_directMapped cfg hE false true st core set tag tw hl⟩

theorem direct_mapped_fill_witness :
    directMappedConfig.associativity = 1
      ∧ LruPerm directMappedConfig ((initialState directMappedConfig).lruOrder 0 0)
      ∧ DirectMappedFill (initialState directMappedConfig) 0 0 64
          (processReadMiss directMappedConfig (initialState directMappedConfig) 0 0 64 false)
      ∧ DirectMappedFill (initialState directMappedConfig) 0 0 64
          (processWriteMiss directMappedConfig (initialState directMappedConfig) 0 0 64 false) :=
  ⟨rfl, initialState_lruPerm directMappedConfig 0 (by decide) 0,
    direct_mapped_fill directMappedConfig rfl (initialState directMappedConfig) 0 0 64 false
      (initialState_lruPerm directMappedConfig 0 (by decide) 0)⟩

/-- Claim C17, counterexample: on the initial state of a direct-mapped cache, whose sets hold
no line, neither miss handler counts an eviction; and the run whose only access is one read of
core 0 ends with one miss serviced, the line installed, and `evictionCount[0] = 0`. -/
theorem direct_mapped_cold_fill_not_counted :
    directMappedConfig.associativity = 1
      ∧ LruPerm directMappedConfig ((initialState directMappedConfig).lruOrder 0 0)
      ∧ (processReadMiss directMappedConfig (initialState directMappedConfig) 0 0 64
            false).2.2.evictionCount 0 = (initialState directMappedConfig).evictionCount 0
      ∧ (processWriteMiss directMappedConfig (initialState directMappedConfig) 0 0 64
            false).2.2.evictionCount 0 = (initialState directMappedConfig).evictionCount 0
      ∧ ∃ sim, runMulticoreSimulation directMappedConfig scenarioDirectMapped 200 = some sim
          ∧ sim.st.missCount 0 = 1 ∧ sim.st.evictionCount 0 = 0
          ∧ HoldsBlock directMappedConfig sim.st 0 0x1000 CoherenceState.EXCLUSIVE := by
  refine ⟨rfl, initialState_lruPerm directMappedConfig 0 (by decide) 0, ?_, ?_, ?_⟩
  · have h : (processReadMiss directMappedConfig (initialState directMappedConfig) 0 0 64
          false).2.2.evictionCount 0 = _ :=
      (missHandler_directMapped directMappedConfig rfl true false
        (initialState directMappedConfig) 0 0 64 false
        (initialState_lruPerm directMappedConfig 0 (by decide) 0)).2.2.2.2
    rw [h]
    simp [initialState]
  · have h : (processWriteMiss directMappedConfig (initialState directMappedConfig) 0 0 64
          false).2.2.evictionCount 0 = _ :=
      (missHandler_directMapped directMappedConfig rfl false true
        (initialState directMappedConfig) 0 0 64 false
        (initialState_lruPerm directMappedConfig 0 (by decide) 0)).2.2.2.2
    rw [h]
    simp [initialState]
  · obtain ⟨sim, hs, hp⟩ := checkFinal_runWait scenarioDirectMapped_evaluated
    simp only [Bool.and_eq_true, decide_eq_true_eq] at hp
    exact ⟨sim, hs, hp.1.1, hp.1.2, hp.2⟩

/-- Claim C20, as amended: for `E ≥ 1` and an LRU list that is a permutation of `0 .. E-1`,
`processReadMiss` and `processWriteMiss` install the new tag in the lowest-indexed `INVALID`
way of the set if there is one, leaving `triggeredWriteback` and the transfer queue unchanged;
otherwise they install it in the way at the front of the LRU list, and set
`triggeredWriteback` and queue the writeback (latency 100, address of the victim, destination
the same core) exactly when that way is dirty. -/
theorem victim_selection (cfg : Config) (hE : 1 ≤ cfg.associativity) (st : State)
    (core set : Nat) (tag : Int) (tw : Bool) (hl : LruPerm cfg (st.lruOrder core set)) :
    VictimChoice cfg st core set tag tw (processReadMiss cfg st core set tag tw)
      ∧ VictimChoice cfg st core set tag tw (processWriteMiss cfg st core set tag tw) :=
  ⟨missHandler_victimChoice cfg hE true false st core set tag tw hl,
    missHandler_victimChoice cfg hE false true st core set tag tw hl⟩

theorem victim_selection_witness :
    1 ≤ scenarioConfig.associativity
      ∧ LruPerm scenarioConfig ((initialState scenarioConfig).lruOrder 0 0)
      ∧ VictimChoice scenarioConfig (initialState scenarioConfig) 0 0 64 false
          (processReadMiss scenarioConfig (initialState scenarioConfig) 0 0 64 false)
      ∧ VictimChoice scenarioConfig (initialState scenarioConfig) 0 0 64 false
          (processWriteMiss scenarioConfig (initialState scenarioConfig) 0 0 64 false) :=
  ⟨by decide, initialState_lruPerm scenarioConfig 0 (by decide) 0,
    victim_selection scenarioConfig (by decide) (initialState scenarioConfig) 0 0 64 false
      (initialState_lruPerm scenarioConfig 0 (by decide) 0)⟩

/-- Claim C20, counterexample: at the end of the run in which cores 0 and 1 both write
`0x1000`, way 0 of set 0 of core 0 is `INVALID` with its dirty flag still set; both miss
handlers choose that way for any tag, do not set `triggeredWriteback` and queue no writeback. -/
theorem victim_selection_stale_dirty :
    ∃ sim, runMulticoreSimulation scenarioConfig scenarioWriteWrite 400 = some sim
      ∧ sim.st.coherenceTable 0 0 0 = CoherenceState.INVALID
      ∧ sim.st.dirtyFlags 0 0 0 = true
      ∧ ∀ tag : Int,
          (processReadMiss scenarioConfig sim.st 0 0 tag false).1 = 0
          ∧ (processReadMiss scenarioConfig sim.st 0 0 tag false).2.1 = false
          ∧ (processReadMiss scenarioConfig sim.st 0 0 tag false).2.2.dataTransferQueue
              = sim.st.dataTransferQueue
          ∧ (processWriteMiss scenarioConfig sim.st 0 0 tag false).1 = 0
          ∧ (processWriteMiss scenarioConfig sim.st 0 0 tag false).2.1 = false
          ∧ (processWriteMiss scenarioConfig sim.st 0 0 tag false).2.2.dataTransferQueue
              = sim.st.dataTransferQueue := by
  obtain ⟨sim, hs, hp⟩ := checkFinal_runWait scenarioWriteWrite_evaluated
  simp only [Bool.and_eq_true, decide_eq_true_eq] at hp
  refine ⟨sim, hs, hp.2, hp.1, ?_⟩
  intro tag
  obtain ⟨h1, h2, h3, _, _⟩ := selectVictim_invalid scenarioConfig true sim.st 0 0 false 0
    (by decide) hp.2 (fun j hj => absurd hj (by omega))
  obtain ⟨g1, g2, g3, _, _⟩ := selectVictim_invalid scenarioConfig false sim.st 0 0 false 0
    (by decide) hp.2 (fun j hj => absurd hj (by omega))
  exact ⟨h1, h2, by simp only [processReadMiss, installLine]; exact h3,
    g1, g2, by simp only [processWriteMiss, installLine]; exact g3⟩

/-! ### Runs in which some cores have empty traces -/

/-- Cycle rule for a property `P` of the globals in runs where only the cores in `act` have a
trace: `P` has to be kept by the accesses of those cores and by the service of the requests that
satisfy `Rq`, which the requests issued by those accesses do.  `P` then holds between cycles,
after the first loop, after the request phase and after the bus tick, and the requests queued
after the first loop satisfy `Rq`. -/
theorem cycles_preserves_active (cfg : Config) (tr : Nat → List TraceEntry) (act : Nat → Prop)
    (Rq : BusTransaction → Prop) (P : State → Prop)
    (hact : ∀ c, c < 4 → ¬ act c → tr c = [])
    (h0 : P (initialState cfg))
    (hexec : ∀ st e c, c < 4 → act c → P st → P (executeMemoryOperation cfg st e c))
    (hRq : ∀ st e c, c < 4 → act c → P st → ∀ extra,
      (executeMemoryOperation cfg st e c).pendingRequests = st.pendingRequests ++ extra →
      ∀ r ∈ extra, Rq r)
    (hrun : ∀ st c, P st → P { st with processorRunning := set1 st.processorRunning c false })
    (htick : ∀ st, P st → P { st with busTickCounter := st.busTickCounter + 1 })
    (hdeq : ∀ st rest, P st → P { st with pendingRequests := rest })
    (hreq : ∀ st q, Rq q → P st → P (serviceRequest cfg st q))
    (hdata : ∀ st, P st → P (dataPhase cfg st))
    (hexi : ∀ st c, P st → P { st with
      executedInstructions := set1 st.executedInstructions c (st.executedInstructions c + 1) }) :
    ∀ n, P (cycles cfg tr n).st
      ∧ (P (forLoop 4 (offerCore cfg tr) (cycles cfg tr n)).st
        ∧ ∀ r ∈ (forLoop 4 (offerCore cfg tr) (cycles cfg tr n)).st.pendingRequests, Rq r)
      ∧ P (dataPhaseEntry cfg tr n)
      ∧ P (processBusTransactions cfg (forLoop 4 (offerCore cfg tr) (cycles cfg tr n)).st) := by
  have hloop : ∀ st : State, P st → (∀ r ∈ st.pendingRequests, Rq r) →
      P (requestPhase cfg { st with busTickCounter := st.busTickCounter + 1 })
        ∧ (requestPhase cfg { st with busTickCounter := st.busTickCounter + 1 }).pendingRequests
            = [] := by
    intro st hP hR
    unfold requestPhase
    have hl := requestLoop_invariant cfg
      (fun q st => P st ∧ st.pendingRequests = q ∧ ∀ r ∈ q, Rq r)
      (by
        intro r rest st hR
        refine ⟨hreq _ _ (hR.2.2 r (List.mem_cons_self _ _)) (hdeq _ _ hR.1), ?_, ?_⟩
        · simp
        · intro r2 h2
          exact hR.2.2 r2 (List.mem_cons_of_mem _ h2))
      st.pendingRequests { st with busTickCounter := st.busTickCounter + 1 }
      ⟨htick _ hP, rfl, hR⟩
    exact ⟨hl.1, hl.2.1⟩
  have h := cycles_phases cfg tr
    (fun sim => P sim.st ∧ sim.st.pendingRequests = [])
    (fun _ sim => P sim.st ∧ ∀ r ∈ sim.st.pendingRequests, Rq r)
    (fun sim => P sim.st ∧ sim.st.pendingRequests = [])
    (fun _ sim => P sim.st ∧ sim.st.pendingRequests = [])
    ⟨h0, rfl⟩
    (fun sim hs => ⟨hs.1, by simp [hs.2]⟩)
    (by
      intro i sim hi hs
      unfold offerCore
      dsimp only
      split
      · exact hs
      · split
        · rename_i e he
          by_cases ha : act i
          · refine ⟨hexec _ _ _ hi ha hs.1, ?_⟩
            obtain ⟨extra, hx, _⟩ := executeMemoryOperation_requests cfg sim.st e i
            intro r hmem
            rw [hx, List.mem_append] at hmem
            rcases hmem with hmem | hmem
            · exact hs.2 r hmem
            · exact hRq _ _ _ hi ha hs.1 extra hx r hmem
          · rw [hact i hi ha] at he
            simp at he
        · exact ⟨hrun _ _ hs.1, hs.2⟩)
    (by
      intro sim hs
      dsimp only
      unfold processBusTransactions
      obtain ⟨h1, h2⟩ := hloop sim.st hs.1 hs.2
      refine ⟨hdata _ h1, ?_⟩
      simpa using h2)
    (fun sim hs => hs)
    (by
      intro i sim _ hs
      unfold advanceCore
      dsimp only
      split
      · split
        · exact ⟨hrun _ _ (hexi _ _ hs.1), hs.2⟩
        · exact ⟨hexi _ _ hs.1, hs.2⟩
      · exact hs)
    (fun sim hs => hs)
  intro n
  exact ⟨(h n).1.1, (h n).2.1, (hloop _ (h n).2.1.1 (h n).2.1.2).1, (h n).2.2.1⟩

/-! ### Single-core runs -/

theorem findOtherHolder_none_of_invalid {cfg : Config} {st : State} {r s : Nat} {tag : Int}
    (h : ∀ c, c ≠ r → ∀ w, st.coherenceTable c s w = CoherenceState.INVALID) :
    findOtherHolder cfg st r s tag = none := by
  cases hf : findOtherHolder cfg st r s tag with
  | none => rfl
  | some p =>
    obtain ⟨d, w⟩ := p
    obtain ⟨_, hd, _, hh⟩ := findOtherHolder_some hf
    simp [holdsLine, h d hd w] at hh

theorem invalidateOthers_noop (cfg : Config) (r : Nat) (a : Int) (s : Nat) (tag : Int)
    (b : Bool) (st : State)
    (h : ∀ c, c ≠ r → ∀ w, st.coherenceTable c s w = CoherenceState.INVALID) :
    invalidateOthers cfg r a s tag (b, st) = (b, st) := by
  unfold invalidateOthers
  refine forLoop_preserves (fun acc => acc = (b, st)) _ 4 ?_ (b, st) rfl
  intro oc acc _ hacc
  dsimp only
  split
  · rename_i hne
    simp only [bne_iff_ne, ne_eq] at hne
    refine forLoop_preserves (fun acc2 => acc2 = (b, st)) _ cfg.associativity ?_ acc hacc
    intro w acc2 _ hacc2
    dsimp only at hacc2 ⊢
    rw [hacc2]
    unfold invalidateWay
    dsimp only
    rw [if_neg]
    simp [holdsLine, h oc hne w]
  · exact hacc

theorem findSharedWay_none_of {cfg : Config} {st : State} {r s : Nat} {tag : Int}
    (h : ∀ w, st.coherenceTable r s w ≠ CoherenceState.SHARED) :
    findSharedWay cfg st r s tag = none := by
  cases hf : findSharedWay cfg st r s tag with
  | none => rfl
  | some w =>
    unfold findSharedWay at hf
    obtain ⟨_, hp, _⟩ := findFirst_some hf
    simp only [Bool.and_eq_true, beq_iff_eq] at hp
    exact absurd hp.2 (h w)

/-- Completion of a fill when the lines of all other cores are `INVALID`: the tag is installed
in one way of the destination, `MODIFIED` for a write fill and `EXCLUSIVE` for a read fill. -/
theorem completeTransfer_alone (cfg : Config) (st : State) (t : BusDataTransfer)
    (ha : ∀ c, c ≠ t.destinationCore → ∀ s w, st.coherenceTable c s w = CoherenceState.INVALID)
    (hf : isFill t = true) :
    ∃ v, (completeTransfer cfg st t).tagArray
          = set3 st.tagArray t.destinationCore (setIndexOf cfg t.targetAddress) v
              (toUnsigned (tagOf cfg t.targetAddress))
      ∧ (completeTransfer cfg st t).coherenceTable
          = set3 st.coherenceTable t.destinationCore (setIndexOf cfg t.targetAddress) v
              (if t.isWriteOp = true then CoherenceState.MODIFIED
                else CoherenceState.EXCLUSIVE) := by
  unfold isFill at hf
  unfold completeTransfer
  dsimp only
  cases hwb : t.isWritebackOp with
  | true => rw [hwb] at hf; simp at hf
  | false =>
    simp only [Bool.not_false, if_true]
    cases hw : t.isWriteOp with
    | true =>
      simp only [if_true]
      obtain ⟨h1, h2⟩ := processWriteMiss_tags cfg
        { st with
          totalBusTraffic := st.totalBusTraffic + bytesPerBlock cfg
          trafficBytes := set1 st.trafficBytes t.destinationCore
            (st.trafficBytes t.destinationCore + bytesPerBlock cfg) }
        t.destinationCore (setIndexOf cfg t.targetAddress) (tagOf cfg t.targetAddress) false
      refine ⟨(processWriteMiss cfg
        { st with
          totalBusTraffic := st.totalBusTraffic + bytesPerBlock cfg
          trafficBytes := set1 st.trafficBytes t.destinationCore
            (st.trafficBytes t.destinationCore + bytesPerBlock cfg) }
        t.destinationCore (setIndexOf cfg t.targetAddress) (tagOf cfg t.targetAddress) false).1,
        ?_, ?_⟩
      · split
        · exact h1
        · exact h1
      · split
        · show set3 _ _ _ _ _ = _
          rw [h2]
        · show set3 _ _ _ _ _ = _
          rw [h2]
    | false =>
      simp only [Bool.false_eq_true, if_false]
      cases hinv : t.isInvalidation with
      | true => rw [hwb, hw, hinv] at hf; simp at hf
      | false =>
        simp only [Bool.not_false, if_true]
        obtain ⟨h1, h2⟩ := processReadMiss_tags cfg
          { st with
            totalBusTraffic := st.totalBusTraffic + bytesPerBlock cfg
            trafficBytes := set1 st.trafficBytes t.destinationCore
              (st.trafficBytes t.destinationCore + bytesPerBlock cfg) }
          t.destinationCore (setIndexOf cfg t.targetAddress) (tagOf cfg t.targetAddress) false
        have hnone : findOtherHolder cfg (processReadMiss cfg
            { st with
              totalBusTraffic := st.totalBusTraffic + bytesPerBlock cfg
              trafficBytes := set1 st.trafficBytes t.destinationCore
                (st.trafficBytes t.destinationCore + bytesPerBlock cfg) }
            t.destinationCore (setIndexOf cfg t.targetAddress) (tagOf cfg t.targetAddress)
              false).2.2
            t.destinationCore (setIndexOf cfg t.targetAddress)
            (tagOf cfg t.targetAddress) = none := by
          apply findOtherHolder_none_of_invalid
          intro c hc w
          rw [h2]
          exact ha c hc _ w
        rw [hnone]
        refine ⟨(processReadMiss cfg
          { st with
            totalBusTraffic := st.totalBusTraffic + bytesPerBlock cfg
            trafficBytes := set1 st.trafficBytes t.destinationCore
              (st.trafficBytes t.destinationCore + bytesPerBlock cfg) }
          t.destinationCore (setIndexOf cfg t.targetAddress) (tagOf cfg t.targetAddress)
            false).1, ?_, ?_⟩
        · split
          · exact h1
          · exact h1
        · split
          · show set3 _ _ _ _ _ = _
            rw [h2]
            rfl
          · show set3 _ _ _ _ _ = _
            rw [h2]
            rfl

/-- The completion of a transfer appends to the queue only transfers for its destination. -/
theorem completeTransfer_queue_dest (cfg : Config) (st : State) (t : BusDataTransfer) :
    ∃ extra, (completeTransfer cfg st t).dataTransferQueue = st.dataTransferQueue ++ extra
      ∧ ∀ t2 ∈ extra, t2.destinationCore = t.destinationCore := by
  have key : ∀ ds tw, ∃ extra, (selectVictim cfg ds
      { st with
        totalBusTraffic := st.totalBusTraffic + bytesPerBlock cfg
        trafficBytes := set1 st.trafficBytes t.destinationCore
          (st.trafficBytes t.destinationCore + bytesPerBlock cfg) }
      t.destinationCore (setIndexOf cfg t.targetAddress) tw).2.2.dataTransferQueue
        = st.dataTransferQueue ++ extra
      ∧ ∀ t2 ∈ extra, t2.destinationCore = t.destinationCore := by
    intro ds tw
    unfold selectVictim
    dsimp only
    split
    · split
      · refine ⟨[⟨_, t.destinationCore, false, true, false, 100⟩], rfl, ?_⟩
        intro t2 ht2
        rw [List.mem_singleton.mp ht2]
      · exact ⟨[], by simp, by simp⟩
    · exact ⟨[], by simp, by simp⟩
  unfold completeTransfer processWriteMiss processReadMiss
  dsimp only
  cases hwb : t.isWritebackOp with
  | true => exact ⟨[], by simp, by simp⟩
  | false =>
    simp only [Bool.not_false, if_true]
    cases hw : t.isWriteOp with
    | true =>
      simp only [if_true]
      obtain ⟨extra, h1, h2⟩ := key false false
      refine ⟨extra, ?_, h2⟩
      split
      · simp only [installLine]; exact h1
      · simp only [installLine]; exact h1
    | false =>
      simp only [Bool.false_eq_true, if_false]
      cases hinv : t.isInvalidation with
      | true => exact ⟨[], by simp, by simp⟩
      | false =>
        simp only [Bool.not_false, if_true]
        obtain ⟨extra, h1, h2⟩ := key true false
        refine ⟨extra, ?_, h2⟩
        split
        · simp only [installLine]; exact h1
        · simp only [installLine]; exact h1

theorem singleInv_executeMemoryOperation (cfg : Config) (st : State) (e : TraceEntry)
    (h : SingleInv st) : SingleInv (executeMemoryOperation cfg st e 0) := by
  obtain ⟨ha, hb, hd, he⟩ := h
  refine ⟨?_, ?_, ?_, ?_⟩
  · intro c hc s w
    rcases executeMemoryOperation_coherence cfg st e 0 c s w with h1 | h1
    · rw [h1]; exact ha c hc s w
    · exact absurd h1.1 hc
  · intro s w
    rcases executeMemoryOperation_coherence cfg st e 0 0 s w with h1 | h1
    · rw [h1]; exact hb s w
    · rw [h1.2.2]; decide
  · rw [(executeMemoryOperation_frame cfg st e 0).2.2.2.2.2.1]
    exact hd
  · intro c
    rw [(executeMemoryOperation_frame cfg st e 0).2.2.2.2.2.2.2.2.2.2.2.2.1]
    exact he c

theorem singleRequest_executeMemoryOperation (cfg : Config) (st : State) (e : TraceEntry)
    (h : SingleInv st) (extra : List BusTransaction)
    (hx : (executeMemoryOperation cfg st e 0).pendingRequests = st.pendingRequests ++ extra) :
    ∀ r ∈ extra, SingleRequest r := by
  obtain ⟨extra2, hx2, hr⟩ := executeMemoryOperation_requests cfg st e 0
  rw [hx] at hx2
  have hee := List.append_cancel_left hx2
  intro r hmem
  rw [hee] at hmem
  obtain ⟨h1, _, _, h4⟩ := hr r hmem
  refine ⟨h1, ?_⟩
  intro hu
  have := h4 hu
  rw [findSharedWay_none_of (fun w => h.2.1 _ w)] at this
  simp at this

theorem singleInv_serviceRequest (cfg : Config) (st : State) (q : BusTransaction)
    (hq : SingleRequest q) (h : SingleInv st) : SingleInv (serviceRequest cfg st q) := by
  obtain ⟨ha, hb, hd, he⟩ := h
  obtain ⟨hq0, hqt⟩ := hq
  unfold serviceRequest
  dsimp only
  split
  · exact ⟨ha, hb, hd, he⟩
  · split
    · unfold serviceReadShared
      dsimp only
      split
      · rename_i oc w hf
        obtain ⟨_, hne, _, hh⟩ := findOtherHolder_some hf
        rw [hq0] at hne
        simp [holdsLine, ha oc hne] at hh
      · refine ⟨ha, hb, ?_, he⟩
        intro t ht
        simp only [List.mem_append, List.mem_singleton] at ht
        rcases ht with ht | ht
        · exact hd t ht
        · rw [ht]; exact hq0
    · unfold serviceReadExclusive
      dsimp only
      rw [invalidateOthers_noop cfg q.requestorId q.memoryAddress _ _ false _
        (by intro c hc w; rw [hq0] at hc; exact ha c hc _ w)]
      dsimp only
      rw [if_neg (by decide)]
      refine ⟨ha, hb, ?_, he⟩
      intro t ht
      simp only [List.mem_append, List.mem_singleton] at ht
      rcases ht with ht | ht
      · exact hd t ht
      · rw [ht]; exact hq0
    · rename_i hu
      exact absurd hu hqt

theorem singleInv_dataPhase (cfg : Config) (st : State) (h : SingleInv st) :
    SingleInv (dataPhase cfg st) := by
  obtain ⟨ha, hb, hd, he⟩ := h
  unfold dataPhase
  split
  · exact ⟨ha, hb, hd, he⟩
  · rename_i t rest hq
    have ht0 : t.destinationCore = 0 := hd t (by rw [hq]; exact List.mem_cons_self _ _)
    split
    · have hcoh : (∀ c, c ≠ 0 → ∀ s w,
            (completeTransfer cfg st t).coherenceTable c s w = CoherenceState.INVALID)
          ∧ (∀ s w, (completeTransfer cfg st t).coherenceTable 0 s w
              ≠ CoherenceState.SHARED) := by
        cases hfill : isFill t with
        | false =>
          rw [((completeTransfer_effect cfg st t).1 hfill).2]
          exact ⟨ha, hb⟩
        | true =>
          obtain ⟨v, _, h2⟩ := completeTransfer_alone cfg st t
            (by intro c hc s w; rw [ht0] at hc; exact ha c hc s w) hfill
          rw [h2, ht0]
          refine ⟨?_, ?_⟩
          · intro c hc s w
            rw [set3_apply, if_neg (fun hx => hc hx.1)]
            exact ha c hc s w
          · intro s w
            rw [set3_apply]
            split
            · split <;> decide
            · exact hb s w
      obtain ⟨extra, hx, hdest⟩ := completeTransfer_queue_dest cfg st t
      have hqueue : ∀ t2 ∈ (completeTransfer cfg st t).dataTransferQueue.tail,
          t2.destinationCore = 0 := by
        intro t2 ht2
        have hm := List.mem_of_mem_tail ht2
        rw [hx, List.mem_append] at hm
        rcases hm with hm | hm
        · exact hd t2 hm
        · rw [hdest t2 hm]; exact ht0
      have hinv : ∀ c, (completeTransfer cfg st t).invalidationCount c = 0 := by
        intro c
        rw [(completeTransfer_frame cfg st t).2.2.2.2.2.2.2.2.2.2.1]
        exact he c
      dsimp only
      split
      · exact ⟨hcoh.1, hcoh.2, hqueue, hinv⟩
      · exact ⟨hcoh.1, hcoh.2, hqueue, hinv⟩
    · refine ⟨ha, hb, ?_, he⟩
      intro t2 ht2
      simp only [List.mem_cons] at ht2
      rcases ht2 with ht2 | ht2
      · rw [ht2]; exact ht0
      · exact hd t2 (by rw [hq]; exact List.mem_cons_of_mem _ ht2)

theorem singleInv_initialState (cfg : Config) : SingleInv (initialState cfg) := by
  refine ⟨?_, ?_, ?_, ?_⟩
  · intro c _ s w; rfl
  · intro s w; simp [initialState]
  · intro t ht; simp [initialState] at ht
  · intro c; rfl

/-- The invariant of single-core runs holds between cycles, after the first loop, when the
data phase starts and after the bus tick, and no request queued by the first loop is an
`UPGRADE_REQUEST`. -/
theorem singleInv_cycles (cfg : Config) (tr : Nat → List TraceEntry) (hs : SingleCore tr)
    (n : Nat) :
    SingleInv (cycles cfg tr n).st
      ∧ (SingleInv (forLoop 4 (offerCore cfg tr) (cycles cfg tr n)).st
        ∧ ∀ r ∈ (forLoop 4 (offerCore cfg tr) (cycles cfg tr n)).st.pendingRequests,
            SingleRequest r)
      ∧ SingleInv (dataPhaseEntry cfg tr n)
      ∧ SingleInv (processBusTransactions cfg
          (forLoop 4 (offerCore cfg tr) (cycles cfg tr n)).st) :=
  cycles_preserves_active cfg tr (fun c => c = 0) SingleRequest SingleInv
    (by
      intro c hc hne
      obtain ⟨h1, h2, h3⟩ := hs
      match c, hc, hne with
      | 0, _, hne => exact absurd rfl hne
      | 1, _, _ => exact h1
      | 2, _, _ => exact h2
      | 3, _, _ => exact h3)
    (singleInv_initialState cfg)
    (by intro st e c _ hc0 hP; rw [hc0]; exact singleInv_executeMemoryOperation cfg st e hP)
    (by
      intro st e c _ hc0 hP extra hx
      rw [hc0] at hx
      exact singleRequest_executeMemoryOperation cfg st e hP extra hx)
    (fun st c hP => hP)
    (fun st hP => hP)
    (fun st rest hP => hP)
    (fun st q hq hP => singleInv_serviceRequest cfg st q hq hP)
    (fun st hP => singleInv_dataPhase cfg st hP)
    (fun st c hP => hP)
    n

/-- The third loop of a cycle leaves the lines and the event counters unchanged. -/
theorem advanceCore_lines (tr : Nat → List TraceEntry) (i : Nat) (sim : SimState) :
    (advanceCore tr i sim).st.tagArray = sim.st.tagArray
      ∧ (advanceCore tr i sim).st.coherenceTable = sim.st.coherenceTable
      ∧ (advanceCore tr i sim).st.dirtyFlags = sim.st.dirtyFlags
      ∧ (advanceCore tr i sim).st.lruOrder = sim.st.lruOrder
      ∧ (advanceCore tr i sim).st.pendingOperations = sim.st.pendingOperations
      ∧ (advanceCore tr i sim).st.evictionCount = sim.st.evictionCount
      ∧ (advanceCore tr i sim).st.writebackCount = sim.st.writebackCount
      ∧ (advanceCore tr i sim).st.invalidationCount = sim.st.invalidationCount := by
  unfold advanceCore
  dsimp only
  split
  · split
    · exact ⟨rfl, rfl, rfl, rfl, rfl, rfl, rfl, rfl⟩
    · exact ⟨rfl, rfl, rfl, rfl, rfl, rfl, rfl, rfl⟩
  · exact ⟨rfl, rfl, rfl, rfl, rfl, rfl, rfl, rfl⟩

/-- The lines and the event counters at the end of a cycle are those left by its bus tick. -/
theorem cycle_lines (cfg : Config) (tr : Nat → List TraceEntry) (sim : SimState) :
    (cycle cfg tr sim).st.tagArray
        = (processBusTransactions cfg (forLoop 4 (offerCore cfg tr) sim).st).tagArray
      ∧ (cycle cfg tr sim).st.coherenceTable
        = (processBusTransactions cfg (forLoop 4 (offerCore cfg tr) sim).st).coherenceTable
      ∧ (cycle cfg tr sim).st.dirtyFlags
        = (processBusTransactions cfg (forLoop 4 (offerCore cfg tr) sim).st).dirtyFlags
      ∧ (cycle cfg tr sim).st.lruOrder
        = (processBusTransactions cfg (forLoop 4 (offerCore cfg tr) sim).st).lruOrder
      ∧ (cycle cfg tr sim).st.pendingOperations
        = (processBusTransactions cfg (forLoop 4 (offerCore cfg tr) sim).st).pendingOperations
      ∧ (cycle cfg tr sim).st.evictionCount
        = (processBusTransactions cfg (forLoop 4 (offerCore cfg tr) sim).st).evictionCount
      ∧ (cycle cfg tr sim).st.writebackCount
        = (processBusTransactions cfg (forLoop 4 (offerCore cfg tr) sim).st).writebackCount
      ∧ (cycle cfg tr sim).st.invalidationCount
        = (processBusTransactions cfg (forLoop 4 (offerCore cfg tr) sim).st).invalidationCount := by
  unfold cycle
  dsimp only
  exact forLoop_preserves
    (fun s3 : SimState =>
      s3.st.tagArray
          = (processBusTransactions cfg (forLoop 4 (offerCore cfg tr) sim).st).tagArray
        ∧ s3.st.coherenceTable
          = (processBusTransactions cfg (forLoop 4 (offerCore cfg tr) sim).st).coherenceTable
        ∧ s3.st.dirtyFlags
          = (processBusTransactions cfg (forLoop 4 (offerCore cfg tr) sim).st).dirtyFlags
        ∧ s3.st.lruOrder
          = (processBusTransactions cfg (forLoop 4 (offerCore cfg tr) sim).st).lruOrder
        ∧ s3.st.pendingOperations
          = (processBusTransactions cfg (forLoop 4 (offerCore cfg tr) sim).st).pendingOperations
        ∧ s3.st.evictionCount
          = (processBusTransactions cfg (forLoop 4 (offerCore cfg tr) sim).st).evictionCount
        ∧ s3.st.writebackCount
          = (processBusTransactions cfg (forLoop 4 (offerCore cfg tr) sim).st).writebackCount
        ∧ s3.st.invalidationCount
          = (processBusTransactions cfg (forLoop 4 (offerCore cfg tr) sim).st).invalidationCount)
    (advanceCore tr) 4
    (by
      intro i s3 _ h
      obtain ⟨a1, a2, a3, a4, a5, a6, a7, a8⟩ := advanceCore_lines tr i s3
      rw [a1, a2, a3, a4, a5, a6, a7, a8]
      exact h)
    _ ⟨rfl, rfl, rfl, rfl, rfl, rfl, rfl, rfl⟩

/-- The data phase that starts with a head transfer without cycles left completes it: tags and
states afterwards are those left by the completion. -/
theorem dataPhase_completes (cfg : Config) (st : State) (t : BusDataTransfer)
    (rest : List BusDataTransfer) (hq : st.dataTransferQueue = t :: rest)
    (hp : t.pendingCycles = 0) :
    (dataPhase cfg st).tagArray = (completeTransfer cfg st t).tagArray
      ∧ (dataPhase cfg st).coherenceTable = (completeTransfer cfg st t).coherenceTable := by
  unfold dataPhase
  rw [hq]
  dsimp only
  rw [if_pos hp]
  split <;> exact ⟨rfl, rfl⟩

/-- Single write of core 0, evaluated at the fill: when the data phase of cycle 101 starts the
write fill is at the head of the queue without cycles left and core 0 holds no copy; at the end
of that cycle core 0 holds the block `MODIFIED`. -/
theorem scenarioSingleWrite_evaluated :
    (checkFinal (cyclesWait scenarioConfig scenarioSingleWrite 100 100
        (initialSim scenarioConfig))
      (fun sim => decide ((requestPhase scenarioConfig
          { (forLoop 4 (offerCore scenarioConfig scenarioSingleWrite) sim).st with
            busTickCounter :=
              (forLoop 4 (offerCore scenarioConfig scenarioSingleWrite) sim).st.busTickCounter
                + 1 }).dataTransferQueue = [⟨0x1000, 0, true, false, false, 0⟩]
        ∧ HoldsNoValidCopy scenarioConfig (requestPhase scenarioConfig
          { (forLoop 4 (offerCore scenarioConfig scenarioSingleWrite) sim).st with
            busTickCounter :=
              (forLoop 4 (offerCore scenarioConfig scenarioSingleWrite) sim).st.busTickCounter
                + 1 }) 0 0x1000))
      && checkFinal (cyclesWait scenarioConfig scenarioSingleWrite 100 101
        (initialSim scenarioConfig))
      (fun sim => decide (HoldsBlock scenarioConfig sim.st 0 0x1000 CoherenceState.MODIFIED
        ∧ ¬ HoldsBlock scenarioConfig sim.st 0 0x1000 CoherenceState.EXCLUSIVE))) = true := by
  decide!

theorem scenarioSingleWrite_fill :
    (dataPhaseEntry scenarioConfig scenarioSingleWrite 100).dataTransferQueue
        = [⟨0x1000, 0, true, false, false, 0⟩]
      ∧ HoldsNoValidCopy scenarioConfig (dataPhaseEntry scenarioConfig scenarioSingleWrite 100)
          0 0x1000
      ∧ HoldsBlock scenarioConfig (cycles scenarioConfig scenarioSingleWrite 101).st 0
          0x1000 CoherenceState.MODIFIED
      ∧ ¬ HoldsBlock scenarioConfig (cycles scenarioConfig scenarioSingleWrite 101).st 0
          0x1000 CoherenceState.EXCLUSIVE := by
  have h := scenarioSingleWrite_evaluated
  rw [Bool.and_eq_true] at h
  have h1 := of_decide_eq_true (checkFinal_cyclesWait h.1)
  have h2 := of_decide_eq_true (checkFinal_cyclesWait h.2)
  exact ⟨h1.1, h1.2, h2.1, h2.2⟩

/-- Claim C14, as amended: when cores 1, 2 and 3 have empty traces, every fill completed by
the data phase of a cycle is a fill for core 0 and installs its block in one way of core 0 in
state `EXCLUSIVE` when it was caused by a read miss and in state `MODIFIED` when it was caused
by a write miss. -/
theorem single_core_fill_state (cfg : Config) (tr : Nat → List TraceEntry)
    (hs : SingleCore tr) (n : Nat) (t : BusDataTransfer) (rest : List BusDataTransfer)
    (hq : (dataPhaseEntry cfg tr n).dataTransferQueue = t :: rest)
    (hp : t.pendingCycles = 0) (hf : isFill t = true) :
    t.destinationCore = 0
      ∧ ∃ v, (cycles cfg tr (n + 1)).st.tagArray
            = set3 (dataPhaseEntry cfg tr n).tagArray 0 (setIndexOf cfg t.targetAddress) v
                (toUnsigned (tagOf cfg t.targetAddress))
        ∧ (cycles cfg tr (n + 1)).st.coherenceTable
            = set3 (dataPhaseEntry cfg tr n).coherenceTable 0 (setIndexOf cfg t.targetAddress) v
                (if t.isWriteOp = true then CoherenceState.MODIFIED
                  else CoherenceState.EXCLUSIVE) := by
  have hinv := (singleInv_cycles cfg tr hs n).2.2.1
  have ht0 : t.destinationCore = 0 := hinv.2.2.1 t (by rw [hq]; exact List.mem_cons_self _ _)
  refine ⟨ht0, ?_⟩
  obtain ⟨v, h1, h2⟩ := completeTransfer_alone cfg (dataPhaseEntry cfg tr n) t
    (by intro c hc s w; rw [ht0] at hc; exact hinv.1 c hc s w) hf
  obtain ⟨d1, d2⟩ := dataPhase_completes cfg (dataPhaseEntry cfg tr n) t rest hq hp
  obtain ⟨c1, c2, _⟩ := cycle_lines cfg tr (cycles cfg tr n)
  rw [ht0] at h1 h2
  refine ⟨v, ?_, ?_⟩
  · show (cycle cfg tr (cycles cfg tr n)).st.tagArray = _
    rw [c1]
    exact d1.trans h1
  · show (cycle cfg tr (cycles cfg tr n)).st.coherenceTable = _
    rw [c2]
    exact d2.trans h2

theorem single_core_fill_state_witness :
    SingleCore scenarioSingleWrite
      ∧ (dataPhaseEntry scenarioConfig scenarioSingleWrite 100).dataTransferQueue
          = [⟨0x1000, 0, true, false, false, 0⟩]
      ∧ ∃ v, (cycles scenarioConfig scenarioSingleWrite 101).st.coherenceTable
          = set3 (dataPhaseEntry scenarioConfig scenarioSingleWrite 100).coherenceTable 0
              (setIndexOf scenarioConfig 0x1000) v CoherenceState.MODIFIED := by
  refine ⟨⟨rfl, rfl, rfl⟩, scenarioSingleWrite_fill.1, ?_⟩
  obtain ⟨_, v, _, h⟩ := single_core_fill_state scenarioConfig scenarioSingleWrite
    ⟨rfl, rfl, rfl⟩ 100 ⟨0x1000, 0, true, false, false, 0⟩ [] scenarioSingleWrite_fill.1
    rfl rfl
  exact ⟨v, h⟩

/-- Claim C14, counterexample: in the single-core run whose only access is a write of core 0
to `0x1000`, the fill completed in cycle 101 is the fill of that write miss; core 0 holds no
copy of the block before it, and holds the block `MODIFIED`, not `EXCLUSIVE`, after it. -/
theorem single_core_write_fill_modified :
    SingleCore scenarioSingleWrite
      ∧ (dataPhaseEntry scenarioConfig scenarioSingleWrite 100).dataTransferQueue
          = [⟨0x1000, 0, true, false, false, 0⟩]
      ∧ HoldsNoValidCopy scenarioConfig (dataPhaseEntry scenarioConfig scenarioSingleWrite 100)
          0 0x1000
      ∧ HoldsBlock scenarioConfig (cycles scenarioConfig scenarioSingleWrite 101).st 0
          0x1000 CoherenceState.MODIFIED
      ∧ ¬ HoldsBlock scenarioConfig (cycles scenarioConfig scenarioSingleWrite 101).st 0
          0x1000 CoherenceState.EXCLUSIVE :=
  ⟨⟨rfl, rfl, rfl⟩, scenarioSingleWrite_fill⟩

/-- Claim C15: when cores 1, 2 and 3 have empty traces, `invalidationCount[c] = 0` for every
core `c` at the end of every cycle, after the first loop of a cycle, when its data phase starts
and after its bus tick; no request queued by the first loop is an `UPGRADE_REQUEST`, core 0
holds no `SHARED` line and the other cores hold no valid line. -/
theorem single_core_no_invalidations (cfg : Config) (tr : Nat → List TraceEntry)
    (hs : SingleCore tr) (_hE : 1 ≤ cfg.associativity) (_hb : 1 ≤ cfg.numBlockBits)
    (n c : Nat) :
    (cycles cfg tr n).st.invalidationCount c = 0
      ∧ (forLoop 4 (offerCore cfg tr) (cycles cfg tr n)).st.invalidationCount c = 0
      ∧ (dataPhaseEntry cfg tr n).invalidationCount c = 0
      ∧ (processBusTransactions cfg
          (forLoop 4 (offerCore cfg tr) (cycles cfg tr n)).st).invalidationCount c = 0
      ∧ (∀ r ∈ (forLoop 4 (offerCore cfg tr) (cycles cfg tr n)).st.pendingRequests,
          r.requestorId = 0 ∧ r.reqType ≠ BusRequestType.UPGRADE_REQUEST)
      ∧ (∀ s w, (cycles cfg tr n).st.coherenceTable 0 s w ≠ CoherenceState.SHARED)
      ∧ (∀ c2, c2 ≠ 0 → ∀ s w,
          (cycles cfg tr n).st.coherenceTable c2 s w = CoherenceState.INVALID) := by
  obtain ⟨h1, ⟨h2, hr⟩, h3, h4⟩ := singleInv_cycles cfg tr hs n
  exact ⟨h1.2.2.2 c, h2.2.2.2 c, h3.2.2.2 c, h4.2.2.2 c, hr, h1.2.1, h1.1⟩

theorem single_core_no_invalidations_witness :
    SingleCore scenarioSingleWrite
      ∧ 1 ≤ scenarioConfig.associativity ∧ 1 ≤ scenarioConfig.numBlockBits
      ∧ (cycles scenarioConfig scenarioSingleWrite 101).st.invalidationCount 0 = 0 :=
  ⟨⟨rfl, rfl, rfl⟩, by decide, by decide,
    (single_core_no_invalidations scenarioConfig scenarioSingleWrite ⟨rfl, rfl, rfl⟩
      (by decide) (by decide) 101 0).1⟩

/-! ### Termination: accesses -/

theorem lookupWay_none_not_hits {cfg : Config} {st : State} {c : Nat} {e : TraceEntry}
    (h : lookupWay cfg st c (setIndexOf cfg e.addr) (tagOf cfg e.addr) = none) :
    ¬ Hits cfg st c e := by
  intro ⟨w, hw, hv, ht, _⟩
  unfold lookupWay at h
  have := findFirst_none h w hw
  simp [hv, ht] at this

/-- Effect of an access on the fields that the termination argument follows: either no request
is issued and no stall flag changes, the core having a pending operation or the access being a
hit; or one request of the core is issued, the core had no pending operation, and the access
is not a hit. -/
theorem executeMemoryOperation_effect (cfg : Config) (st : State) (e : TraceEntry) (c : Nat) :
    ((executeMemoryOperation cfg st e c).pendingRequests = st.pendingRequests
        ∧ (executeMemoryOperation cfg st e c).isStalled = st.isStalled
        ∧ (st.pendingOperations c ≠ -1 ∨ Hits cfg st c e))
      ∨ (∃ r, (executeMemoryOperation cfg st e c).pendingRequests = st.pendingRequests ++ [r]
          ∧ r.requestorId = c
          ∧ st.pendingOperations c = -1
          ∧ (∀ c2, st.isStalled c2 = true →
              (executeMemoryOperation cfg st e c).isStalled c2 = true)
          ∧ (∀ c2, c2 ≠ c → (executeMemoryOperation cfg st e c).isStalled c2 = st.isStalled c2)
          ∧ (CohInv cfg st → c < 4 → ¬ Hits cfg st c e)) := by
  unfold executeMemoryOperation
  dsimp only
  split
  · rename_i hp
    exact Or.inl ⟨rfl, rfl, Or.inl hp⟩
  · rename_i hp
    have hp2 : st.pendingOperations c = -1 := by
      by_contra hne
      exact hp hne
    cases hop : e.op with
    | R =>
      dsimp only
      cases hl : lookupWay cfg st c (setIndexOf cfg e.addr) (tagOf cfg e.addr) with
      | some w =>
        have hl2 : lookupWay cfg { st with operationCounter := st.operationCounter + 1 } c
            (setIndexOf cfg e.addr) (tagOf cfg e.addr) = some w := hl
        rw [hl2]
        dsimp only
        refine Or.inl ⟨rfl, rfl, Or.inr ?_⟩
        unfold lookupWay at hl
        obtain ⟨hw, hpw, _⟩ := findFirst_some hl
        simp only [Bool.and_eq_true, bne_iff_ne, ne_eq, beq_iff_eq] at hpw
        exact ⟨w, hw, hpw.1, hpw.2, Or.inl hop⟩
      | none =>
        have hl2 : lookupWay cfg { st with operationCounter := st.operationCounter + 1 } c
            (setIndexOf cfg e.addr) (tagOf cfg e.addr) = none := hl
        rw [hl2]
        dsimp only
        refine Or.inr ⟨_, rfl, rfl, hp2, ?_, ?_, fun _ _ => lookupWay_none_not_hits hl⟩
        · intro c2 h
          simp only [set1_apply]
          split
          · rfl
          · exact h
        · intro c2 hne
          simp only [set1_apply, if_neg hne]
    | W =>
      dsimp only
      cases hl : lookupWay cfg st c (setIndexOf cfg e.addr) (tagOf cfg e.addr) with
      | some w =>
        have hl2 : lookupWay cfg { st with operationCounter := st.operationCounter + 1 } c
            (setIndexOf cfg e.addr) (tagOf cfg e.addr) = some w := hl
        rw [hl2]
        dsimp only
        unfold lookupWay at hl
        obtain ⟨hw, hpw, _⟩ := findFirst_some hl
        simp only [Bool.and_eq_true, bne_iff_ne, ne_eq, beq_iff_eq] at hpw
        split
        · rename_i hx
          have hhit : Hits cfg st c e := ⟨w, hw, hpw.1, hpw.2, Or.inr hx⟩
          split
          · exact Or.inl ⟨rfl, rfl, Or.inr hhit⟩
          · exact Or.inl ⟨rfl, rfl, Or.inr hhit⟩
        · rename_i hx
          refine Or.inr ⟨_, rfl, rfl, hp2, fun _ h => h, fun _ _ => rfl, ?_⟩
          intro hcoh hc ⟨w2, hw2, hv2, ht2, hs2⟩
          have hx2 : ¬ (st.coherenceTable c (setIndexOf cfg e.addr) w = CoherenceState.EXCLUSIVE
              ∨ st.coherenceTable c (setIndexOf cfg e.addr) w = CoherenceState.MODIFIED) := hx
          by_cases hww : w2 = w
          · subst hww
            rcases hs2 with h | h
            · rw [hop] at h
              exact absurd h (by decide)
            · exact hx2 h
          · exact (hcoh c c (setIndexOf cfg e.addr) w2 w hc hc hw2 hw (Or.inr hww) hv2 hpw.1
              (ht2.trans hpw.2.symm)).1 rfl
      | none =>
        have hl2 : lookupWay cfg { st with operationCounter := st.operationCounter + 1 } c
            (setIndexOf cfg e.addr) (tagOf cfg e.addr) = none := hl
        rw [hl2]
        dsimp only
        refine Or.inr ⟨_, rfl, rfl, hp2, ?_, ?_, fun _ _ => lookupWay_none_not_hits hl⟩
        · intro c2 h
          simp only [set1_apply]
          split
          · rfl
          · exact h
        · intro c2 hne
          simp only [set1_apply, if_neg hne]

/-- An access that does not hit stays so after a step that only invalidates, downgrades or
takes lines from `EXCLUSIVE` to `MODIFIED`. -/
theorem not_hits_cohStep {cfg : Config} {st st2 : State} (h : CohStep st st2) {c : Nat}
    {e : TraceEntry} (hn : ¬ Hits cfg st c e) : ¬ Hits cfg st2 c e := by
  intro ⟨w, hw, hv, ht, hs⟩
  apply hn
  rw [h.1] at ht
  refine ⟨w, hw, cohStep_valid h hv, ht, ?_⟩
  rcases hs with hs | hs | hs
  · exact Or.inl hs
  · rcases h.2 c (setIndexOf cfg e.addr) w with h1 | h1 | h1 | h1
    · rw [h1] at hs; exact Or.inr (Or.inl hs)
    · rw [h1] at hs; exact absurd hs (by decide)
    · rw [h1.1] at hs; exact absurd hs (by decide)
    · exact Or.inr (Or.inl h1.1)
  · rcases h.2 c (setIndexOf cfg e.addr) w with h1 | h1 | h1 | h1
    · rw [h1] at hs; exact Or.inr (Or.inr hs)
    · rw [h1] at hs; exact absurd hs (by decide)
    · rw [h1.1] at hs; exact absurd hs (by decide)
    · exact Or.inr (Or.inl h1.1)

/-! ### Termination: the service of a request -/

theorem justified_same {st0 st : State} (hq : st.dataTransferQueue = st0.dataTransferQueue)
    (hs : st.isStalled = st0.isStalled) (hp : st.pendingOperations = st0.pendingOperations) :
    Justified st0 st :=
  ⟨⟨[], by rw [hq, List.append_nil], fun _ h => absurd h (List.not_mem_nil _)⟩,
    fun c h => Or.inl (by rw [← hs]; exact h), fun c h => Or.inl (by rw [← hp]; exact h)⟩

theorem justified_refl (st : State) : Justified st st := justified_same rfl rfl rfl

theorem hasTransferFor_append {c : Nat} {st st2 : State} {extra : List BusDataTransfer}
    (hq : st2.dataTransferQueue = st.dataTransferQueue ++ extra) (h : hasTransferFor c st) :
    hasTransferFor c st2 := by
  obtain ⟨t, ht, hd⟩ := h
  exact ⟨t, by rw [hq]; exact List.mem_append_left _ ht, hd⟩

theorem justified_trans {st0 st1 st2 : State} (h1 : Justified st0 st1) (h2 : Justified st1 st2) :
    Justified st0 st2 := by
  obtain ⟨⟨e1, q1, p1⟩, s1, o1⟩ := h1
  obtain ⟨⟨e2, q2, p2⟩, s2, o2⟩ := h2
  refine ⟨⟨e1 ++ e2, by rw [q2, q1, List.append_assoc], ?_⟩, ?_, ?_⟩
  · intro t ht
    rcases List.mem_append.mp ht with h | h
    · exact p1 t h
    · exact p2 t h
  · intro c h
    rcases s2 c h with h | h
    · rcases s1 c h with h | h
      · exact Or.inl h
      · exact Or.inr (hasTransferFor_append q2 h)
    · exact Or.inr h
  · intro c h
    rcases o2 c h with h | h
    · rcases o1 c h with h | h
      · exact Or.inl h
      · exact Or.inr (hasTransferFor_append q2 h)
    · exact Or.inr h

/-- A step that appends one transfer and stalls or marks pending only its destination. -/
theorem justified_push {st0 st : State} (t : BusDataTransfer)
    (hq : st.dataTransferQueue = st0.dataTransferQueue ++ [t]) (hp : 0 ≤ t.pendingCycles)
    (hs : ∀ c, c ≠ t.destinationCore → st.isStalled c = st0.isStalled c)
    (ho : ∀ c, c ≠ t.destinationCore → st.pendingOperations c = st0.pendingOperations c) :
    Justified st0 st := by
  have ht : hasTransferFor t.destinationCore st :=
    ⟨t, by rw [hq]; exact List.mem_append_right _ (List.mem_singleton.mpr rfl), rfl⟩
  refine ⟨⟨[t], hq, ?_⟩, ?_, ?_⟩
  · intro t2 h2
    rw [List.mem_singleton.mp h2]
    exact hp
  · intro c h
    by_cases hc : c = t.destinationCore
    · rw [hc]; exact Or.inr ht
    · rw [hs c hc] at h; exact Or.inl h
  · intro c h
    by_cases hc : c = t.destinationCore
    · rw [hc]; exact Or.inr ht
    · rw [ho c hc] at h; exact Or.inl h

theorem c2cLatency_nonneg (cfg : Config) : 0 ≤ c2cLatency cfg := by
  unfold c2cLatency
  positivity

theorem serviceReadShared_justified (cfg : Config) (st : State) (r : Nat) (a : Int) (s : Nat)
    (tag : Int) :
    Justified st (serviceReadShared cfg st r a s tag)
      ∧ hasTransferFor r (serviceReadShared cfg st r a s tag) := by
  obtain ⟨lat, wbs, hq, _⟩ := serviceReadShared_queue cfg st r a s tag
  refine ⟨?_, ⟨⟨a, r, false, false, false, lat⟩, by rw [hq]; simp, rfl⟩⟩
  unfold serviceReadShared
  dsimp only
  split
  · rename_i oc w _
    have h1 : Justified st
        { st with
          busOccupied := true
          busTransactionCount := st.busTransactionCount + 1
          missCount := set1 st.missCount r (st.missCount r + 1)
          ghostLog := st.ghostLog ++ [Event.readSharedServiced r]
          isStalled := set1 st.isStalled r true
          dataTransferQueue :=
            st.dataTransferQueue ++ [⟨a, r, false, false, false, c2cLatency cfg⟩]
          trafficBytes := set1 st.trafficBytes oc (st.trafficBytes oc + bytesPerBlock cfg) } :=
      justified_push ⟨a, r, false, false, false, c2cLatency cfg⟩ rfl (c2cLatency_nonneg cfg)
        (fun c hc => set1_of_ne _ _ _ _ hc) (fun _ _ => rfl)
    split
    · refine justified_trans h1 ?_
      split
      · exact justified_push ⟨a, oc, false, true, false, 100⟩ rfl (by simp)
          (fun c hc => set1_of_ne _ _ _ _ hc) (fun c hc => set1_of_ne _ _ _ _ hc)
      · exact justified_push ⟨a, oc, false, true, false, 100⟩ rfl (by simp)
          (fun c hc => set1_of_ne _ _ _ _ hc) (fun c hc => set1_of_ne _ _ _ _ hc)
    · split
      · exact justified_trans h1 (justified_same rfl rfl rfl)
      · exact h1
  · exact justified_push ⟨a, r, false, false, false, 100⟩ rfl (by simp)
      (fun c hc => set1_of_ne _ _ _ _ hc) (fun _ _ => rfl)

theorem invalidateWay_justified (a : Int) (s : Nat) (tag : Int) (oc w : Nat)
    (acc : Bool × State) : Justified acc.2 (invalidateWay a s tag oc w acc).2 := by
  unfold invalidateWay
  dsimp only
  split
  · split
    · refine justified_trans
        (?_ : Justified acc.2
          { acc.2 with
            isStalled := set1 acc.2.isStalled oc true
            dataTransferQueue := acc.2.dataTransferQueue ++ [⟨a, oc, false, true, false, 100⟩]
            ghostLog := acc.2.ghostLog ++ [Event.modifiedSnooped oc]
            pendingOperations := set1 acc.2.pendingOperations oc a }) ?_
      · exact justified_push ⟨a, oc, false, true, false, 100⟩ rfl (by simp)
          (fun c hc => set1_of_ne _ _ _ _ hc) (fun c hc => set1_of_ne _ _ _ _ hc)
      · split
        · exact justified_same rfl rfl rfl
        · exact justified_same rfl rfl rfl
    · exact justified_same rfl rfl rfl
  · exact justified_refl _

theorem invalidateOthers_justified (cfg : Config) (r : Nat) (a : Int) (s : Nat) (tag : Int)
    (acc : Bool × State) : Justified acc.2 (invalidateOthers cfg r a s tag acc).2 := by
  unfold invalidateOthers
  refine forLoop_preserves (fun y : Bool × State => Justified acc.2 y.2) _ _ ?_ _
    (justified_refl _)
  intro oc y _ hy
  dsimp only
  split
  · refine forLoop_preserves (fun y2 : Bool × State => Justified acc.2 y2.2) _ _ ?_ _ hy
    intro w y2 _ hy2
    exact justified_trans hy2 (invalidateWay_justified a s tag oc w y2)
  · exact hy

theorem serviceReadExclusive_justified (cfg : Config) (st : State) (r : Nat) (a : Int)
    (s : Nat) (tag : Int) :
    Justified st (serviceReadExclusive cfg st r a s tag)
      ∧ hasTransferFor r (serviceReadExclusive cfg st r a s tag) := by
  obtain ⟨wbs, hq, _⟩ := serviceReadExclusive_queue cfg st r a s tag
  refine ⟨?_, ⟨⟨a, r, true, false, false, 100⟩, by rw [hq]; simp, rfl⟩⟩
  unfold serviceReadExclusive
  dsimp only
  have h1 := invalidateOthers_justified cfg r a s tag
    (false,
      { st with
        busOccupied := true
        busTransactionCount := st.busTransactionCount + 1
        missCount := set1 st.missCount r (st.missCount r + 1)
        ghostLog := st.ghostLog ++ [Event.readExclusiveServiced r] })
  have h0 : Justified st
      { st with
        busOccupied := true
        busTransactionCount := st.busTransactionCount + 1
        missCount := set1 st.missCount r (st.missCount r + 1)
        ghostLog := st.ghostLog ++ [Event.readExclusiveServiced r] } :=
    justified_same rfl rfl rfl
  refine justified_trans (justified_trans h0 h1) ?_
  split
  · exact justified_push ⟨a, r, true, false, false, 100⟩ rfl (by simp)
      (fun c hc => set1_of_ne _ _ _ _ hc) (fun _ _ => rfl)
  · exact justified_push ⟨a, r, true, false, false, 100⟩ rfl (by simp)
      (fun c hc => set1_of_ne _ _ _ _ hc) (fun _ _ => rfl)

theorem serviceUpgrade_justified (cfg : Config) (st : State) (r : Nat) (a : Int) (s : Nat)
    (tag : Int) (hfound : (findSharedWay cfg st r s tag).isSome = true) :
    Justified st (serviceUpgrade cfg st r a s tag)
      ∧ hasTransferFor r (serviceUpgrade cfg st r a s tag) := by
  unfold serviceUpgrade
  split
  · rename_i w hw
    dsimp only
    obtain ⟨f1, _, _, _, _, f6, _, _, _, _, f11, _⟩ := upgradeInvalidateOthers_frame cfg r s tag
      { st with
        busTransactionCount := st.busTransactionCount + 1
        ghostLog := st.ghostLog ++ [Event.upgradeServiced r] }
    refine ⟨justified_push ⟨a, r, false, false, true, 0⟩ ?_ (by simp) ?_ ?_, ?_⟩
    · show _ ++ _ = _
      rw [f11]
    · intro c hc
      show set1 _ _ _ _ = _
      rw [set1_of_ne _ _ _ _ hc, f1]
    · intro c hc
      show set1 _ _ _ _ = _
      rw [set1_of_ne _ _ _ _ hc, f6]
    · exact ⟨⟨a, r, false, false, true, 0⟩, by simp, rfl⟩
  · rename_i hnone
    rw [hnone] at hfound
    exact absurd hfound (by simp)

/-- Service of a request with the bus idle: only transfers are appended, the requestor has a
transfer queued, and every core that is stalled or has a pending operation afterwards was so
before or has a transfer queued. -/
theorem serviceRequest_justified (cfg : Config) (st : State) (q : BusTransaction)
    (hb : st.busOccupied = false)
    (hup : q.reqType = BusRequestType.UPGRADE_REQUEST → upgradeLineFound cfg st q) :
    Justified st (serviceRequest cfg st q)
      ∧ hasTransferFor q.requestorId (serviceRequest cfg st q) := by
  have key : ∀ st2 : State,
      Justified { st with
          pendingOperations := set1 st.pendingOperations q.requestorId q.memoryAddress } st2
        ∧ hasTransferFor q.requestorId st2 →
      Justified st st2 ∧ hasTransferFor q.requestorId st2 := by
    intro st2 ⟨⟨hq, hs, ho⟩, ht⟩
    refine ⟨⟨hq, hs, ?_⟩, ht⟩
    intro c hc
    rcases ho c hc with h | h
    · by_cases hcr : c = q.requestorId
      · rw [hcr]; exact Or.inr ht
      · have h2 : set1 st.pendingOperations q.requestorId q.memoryAddress c ≠ -1 := h
        rw [set1_of_ne _ _ _ _ hcr] at h2
        exact Or.inl h2
    · exact Or.inr h
  unfold serviceRequest
  dsimp only
  rw [if_neg (by rw [hb]; decide)]
  split
  · exact key _ (serviceReadShared_justified cfg _ _ _ _ _)
  · exact key _ (serviceReadExclusive_justified cfg _ _ _ _ _)
  · rename_i hk
    exact key _ (serviceUpgrade_justified cfg _ _ _ _ _ (hup hk))

theorem not_hits_of_lines {cfg : Config} {st st2 : State} {c : Nat} {e : TraceEntry}
    (hc : ∀ s w, st2.coherenceTable c s w = st.coherenceTable c s w)
    (ht : ∀ s w, st2.tagArray c s w = st.tagArray c s w) (h : ¬ Hits cfg st c e) :
    ¬ Hits cfg st2 c e := by
  intro ⟨w, hw, hv, htag, hs⟩
  rw [hc] at hv
  rw [ht] at htag
  rw [hc] at hs
  exact h ⟨w, hw, hv, htag, hs⟩

/-- The service of a request keeps the accesses of the other cores from hitting. -/
theorem serviceRequest_not_hits (cfg : Config) (st : State) (q : BusTransaction)
    (hi : CohInv cfg st) (c : Nat) (e : TraceEntry) (hc : c ≠ q.requestorId)
    (h : ¬ Hits cfg st c e) : ¬ Hits cfg (serviceRequest cfg st q) c e := by
  unfold serviceRequest
  dsimp only
  split
  · exact not_hits_of_lines (fun _ _ => rfl) (fun _ _ => rfl) h
  · have hi1 : CohInv cfg
        { st with
          pendingOperations := set1 st.pendingOperations q.requestorId q.memoryAddress } :=
      cohInv_congr rfl rfl hi
    have h1 : ¬ Hits cfg
        { st with
          pendingOperations := set1 st.pendingOperations q.requestorId q.memoryAddress } c e :=
      not_hits_of_lines (fun _ _ => rfl) (fun _ _ => rfl) h
    split
    · exact not_hits_cohStep (serviceReadShared_post cfg _ _ _ _ _ hi1).1 h1
    · exact not_hits_cohStep (serviceReadExclusive_post cfg _ _ _ _ _).1 h1
    · unfold serviceUpgrade
      split
      · dsimp only
        have hstep := (upgradeInvalidateOthers_post cfg q.requestorId
          (setIndexOf cfg q.memoryAddress) (tagOf cfg q.memoryAddress)
          { st with
            pendingOperations := set1 st.pendingOperations q.requestorId q.memoryAddress
            busTransactionCount := st.busTransactionCount + 1
            ghostLog := st.ghostLog ++ [Event.upgradeServiced q.requestorId] }).1
        have h2 := not_hits_cohStep hstep
          (not_hits_of_lines (fun _ _ => rfl) (fun _ _ => rfl) h1 :
            ¬ Hits cfg
              { st with
                pendingOperations := set1 st.pendingOperations q.requestorId q.memoryAddress
                busTransactionCount := st.busTransactionCount + 1
                ghostLog := st.ghostLog ++ [Event.upgradeServiced q.requestorId] } c e)
        exact not_hits_of_lines
          (by
            intro s w
            show set3 _ _ _ _ _ _ _ _ = _
            rw [set3_apply, if_neg (fun hx => hc hx.1)])
          (by intro s w; rfl) h2
      · exact not_hits_of_lines (fun _ _ => rfl) (fun _ _ => rfl) h1

/-! ### Termination: the data phase -/

theorem selectVictim_summary (cfg : Config) (ds : Bool) (st : State) (c s : Nat) :
    (∀ c2, c2 ≠ c → (selectVictim cfg ds st c s false).2.2.isStalled c2 = st.isStalled c2)
      ∧ (selectVictim cfg ds st c s false).2.2.pendingOperations = st.pendingOperations
      ∧ (((selectVictim cfg ds st c s false).2.1 = false
          ∧ (selectVictim cfg ds st c s false).2.2.dataTransferQueue = st.dataTransferQueue)
        ∨ ((selectVictim cfg ds st c s false).2.1 = true
          ∧ ∃ a, (selectVictim cfg ds st c s false).2.2.dataTransferQueue
              = st.dataTransferQueue ++ [⟨a, c, false, true, false, 100⟩])) := by
  unfold selectVictim
  dsimp only
  split
  · split
    · refine ⟨?_, rfl, Or.inr ⟨rfl, _, rfl⟩⟩
      intro c2 hc2
      dsimp only
      split
      · exact set1_of_ne _ _ _ _ hc2
      · rfl
    · exact ⟨fun _ _ => rfl, rfl, Or.inl ⟨rfl, rfl⟩⟩
  · exact ⟨fun _ _ => rfl, rfl, Or.inl ⟨rfl, rfl⟩⟩

/-- Completion of a transfer, as far as stalls, pending operations and the queue go: the cores
other than the destination are not touched; the destination is released, or, after a fill
that evicted a dirty line, is left with a writeback queued for it. -/
theorem completeTransfer_summary (cfg : Config) (st : State) (t : BusDataTransfer) :
    (∀ c, c ≠ t.destinationCore →
        (completeTransfer cfg st t).isStalled c = st.isStalled c
        ∧ (completeTransfer cfg st t).pendingOperations c = st.pendingOperations c)
      ∧ (((completeTransfer cfg st t).dataTransferQueue = st.dataTransferQueue
          ∧ (completeTransfer cfg st t).isStalled t.destinationCore = false
          ∧ (completeTransfer cfg st t).pendingOperations t.destinationCore = -1)
        ∨ (isFill t = true
          ∧ ∃ a, (completeTransfer cfg st t).dataTransferQueue
              = st.dataTransferQueue ++ [⟨a, t.destinationCore, false, true, false, 100⟩])) := by
  have key : ∀ (ds dirty : Bool) (X : CoherenceState),
      isFill t = true →
      let r := selectVictim cfg ds
        { st with
          totalBusTraffic := st.totalBusTraffic + bytesPerBlock cfg
          trafficBytes := set1 st.trafficBytes t.destinationCore
            (st.trafficBytes t.destinationCore + bytesPerBlock cfg) }
        t.destinationCore (setIndexOf cfg t.targetAddress) false
      let m : State := installLine r.2.2 t.destinationCore (setIndexOf cfg t.targetAddress) r.1
        (tagOf cfg t.targetAddress) dirty
      let m2 : State :=
        { m with
          coherenceTable := set3 m.coherenceTable t.destinationCore
            (setIndexOf cfg t.targetAddress) r.1 X }
      let st1 : State :=
        { m2 with
          isStalled := set1 m2.isStalled t.destinationCore false
          pendingOperations := set1 m2.pendingOperations t.destinationCore (-1) }
      let res : State :=
        if r.2.1 = true then
          { st1 with
            isStalled := set1 st1.isStalled t.destinationCore true
            pendingOperations := set1 st1.pendingOperations t.destinationCore 1 }
        else st1
      (∀ c, c ≠ t.destinationCore →
          res.isStalled c = st.isStalled c ∧ res.pendingOperations c = st.pendingOperations c)
        ∧ ((res.dataTransferQueue = st.dataTransferQueue
            ∧ res.isStalled t.destinationCore = false
            ∧ res.pendingOperations t.destinationCore = -1)
          ∨ (isFill t = true
            ∧ ∃ a, res.dataTransferQueue
                = st.dataTransferQueue ++ [⟨a, t.destinationCore, false, true, false, 100⟩])) := by
    intro ds dirty X hfill
    obtain ⟨h1, h2, h3⟩ := selectVictim_summary cfg ds
      { st with
        totalBusTraffic := st.totalBusTraffic + bytesPerBlock cfg
        trafficBytes := set1 st.trafficBytes t.destinationCore
          (st.trafficBytes t.destinationCore + bytesPerBlock cfg) }
      t.destinationCore (setIndexOf cfg t.targetAddress)
    generalize selectVictim cfg ds
      { st with
        totalBusTraffic := st.totalBusTraffic + bytesPerBlock cfg
        trafficBytes := set1 st.trafficBytes t.destinationCore
          (st.trafficBytes t.destinationCore + bytesPerBlock cfg) }
      t.destinationCore (setIndexOf cfg t.targetAddress) false = sv at h1 h2 h3
    intro r m m2 st1 res
    rcases h3 with ⟨ht, hq⟩ | ⟨ht, a, hq⟩
    · have hres : res = st1 := by
        show (if sv.2.1 = true then _ else st1) = st1
        rw [ht]
        rfl
      rw [hres]
      refine ⟨?_, Or.inl ⟨hq, by simp [st1], by simp [st1]⟩⟩
      intro c hc
      refine ⟨?_, ?_⟩
      · show set1 sv.2.2.isStalled t.destinationCore false c = _
        rw [set1_of_ne _ _ _ _ hc]
        exact h1 c hc
      · show set1 sv.2.2.pendingOperations t.destinationCore (-1) c = _
        rw [set1_of_ne _ _ _ _ hc, h2]
    · have hres : res = { st1 with
            isStalled := set1 st1.isStalled t.destinationCore true
            pendingOperations := set1 st1.pendingOperations t.destinationCore 1 } := by
        show (if sv.2.1 = true then _ else st1) = _
        rw [ht]
        rfl
      rw [hres]
      refine ⟨?_, Or.inr ⟨hfill, a, hq⟩⟩
      intro c hc
      refine ⟨?_, ?_⟩
      · show set1 (set1 sv.2.2.isStalled t.destinationCore false) t.destinationCore true c = _
        rw [set1_of_ne _ _ _ _ hc, set1_of_ne _ _ _ _ hc]
        exact h1 c hc
      · show set1 (set1 sv.2.2.pendingOperations t.destinationCore (-1))
          t.destinationCore 1 c = _
        rw [set1_of_ne _ _ _ _ hc, set1_of_ne _ _ _ _ hc, h2]
  unfold completeTransfer
  dsimp only
  cases hwb : t.isWritebackOp with
  | true =>
    simp only [Bool.not_true, Bool.false_eq_true, if_false]
    refine ⟨fun c hc => ⟨set1_of_ne _ _ _ _ hc, set1_of_ne _ _ _ _ hc⟩, Or.inl ?_⟩
    simp
  | false =>
    simp only [Bool.not_false, if_true]
    cases hw : t.isWriteOp with
    | true =>
      simp only [if_true]
      exact key false true CoherenceState.MODIFIED (by simp [isFill, hwb, hw])
    | false =>
      simp only [Bool.false_eq_true, if_false]
      cases hinv : t.isInvalidation with
      | true =>
        simp only [Bool.not_true, Bool.false_eq_true, if_false]
        refine ⟨fun c hc => ⟨set1_of_ne _ _ _ _ hc, set1_of_ne _ _ _ _ hc⟩, Or.inl ?_⟩
        simp
      | false =>
        simp only [Bool.not_false, if_true]
        exact key true false _ (by simp [isFill, hwb, hw, hinv])

/-- The three cases of the data phase: the queue is empty and nothing happens; the head
transfer has cycles left and one is counted down; the head transfer completes. -/
theorem dataPhase_cases (cfg : Config) (st : State) :
    (st.dataTransferQueue = [] ∧ dataPhase cfg st = st)
      ∨ (∃ t rest, st.dataTransferQueue = t :: rest ∧ t.pendingCycles ≠ 0
          ∧ dataPhase cfg st
            = { st with
                dataTransferQueue :=
                  { t with pendingCycles := t.pendingCycles - 1 } :: rest })
      ∨ (∃ t rest, st.dataTransferQueue = t :: rest ∧ t.pendingCycles = 0
          ∧ (dataPhase cfg st).processorRunning = st.processorRunning
          ∧ (∀ c, c ≠ t.destinationCore →
              (dataPhase cfg st).isStalled c = st.isStalled c
              ∧ (dataPhase cfg st).pendingOperations c = st.pendingOperations c
              ∧ (∀ s w, (dataPhase cfg st).coherenceTable c s w = st.coherenceTable c s w)
              ∧ (∀ s w, (dataPhase cfg st).tagArray c s w = st.tagArray c s w))
          ∧ (((dataPhase cfg st).dataTransferQueue = rest
              ∧ (dataPhase cfg st).isStalled t.destinationCore = false
              ∧ (dataPhase cfg st).pendingOperations t.destinationCore = -1)
            ∨ (isFill t = true
              ∧ ∃ a, (dataPhase cfg st).dataTransferQueue
                  = rest ++ [⟨a, t.destinationCore, false, true, false, 100⟩]))) := by
  cases hq : st.dataTransferQueue with
  | nil =>
    refine Or.inl ⟨rfl, ?_⟩
    unfold dataPhase
    rw [hq]
  | cons t rest =>
    by_cases hp : t.pendingCycles = 0
    · refine Or.inr (Or.inr ⟨t, rest, rfl, hp, ?_⟩)
      obtain ⟨c1, c2⟩ := completeTransfer_summary cfg st t
      have hlines : ∀ c, c ≠ t.destinationCore → ∀ s w,
          (completeTransfer cfg st t).coherenceTable c s w = st.coherenceTable c s w
          ∧ (completeTransfer cfg st t).tagArray c s w = st.tagArray c s w := by
        intro c hc s w
        cases hf : isFill t with
        | false =>
          obtain ⟨e1, e2⟩ := (completeTransfer_effect cfg st t).1 hf
          rw [e1, e2]
          exact ⟨rfl, rfl⟩
        | true =>
          obtain ⟨v, X, e1, e2, _⟩ := (completeTransfer_effect cfg st t).2 hf
          rw [e1, e2, set3_apply, set3_apply, if_neg (fun hx => hc hx.1),
            if_neg (fun hx => hc hx.1)]
          exact ⟨rfl, rfl⟩
      have hrun := (completeTransfer_frame cfg st t).2.2.2.2.2.2.2.2.2.2.2.2.2
      have hd : (dataPhase cfg st).processorRunning = (completeTransfer cfg st t).processorRunning
          ∧ (dataPhase cfg st).isStalled = (completeTransfer cfg st t).isStalled
          ∧ (dataPhase cfg st).pendingOperations = (completeTransfer cfg st t).pendingOperations
          ∧ (dataPhase cfg st).coherenceTable = (completeTransfer cfg st t).coherenceTable
          ∧ (dataPhase cfg st).tagArray = (completeTransfer cfg st t).tagArray
          ∧ (dataPhase cfg st).dataTransferQueue
              = (completeTransfer cfg st t).dataTransferQueue.tail := by
        unfold dataPhase
        rw [hq]
        dsimp only
        rw [if_pos hp]
        split <;> exact ⟨rfl, rfl, rfl, rfl, rfl, rfl⟩
      obtain ⟨d1, d2, d3, d4, d5, d6⟩ := hd
      refine ⟨d1.trans hrun, ?_, ?_⟩
      · intro c hc
        rw [d2, d3, d4, d5]
        exact ⟨(c1 c hc).1, (c1 c hc).2, fun s w => (hlines c hc s w).1,
          fun s w => (hlines c hc s w).2⟩
      · rw [d2, d3, d6]
        rcases c2 with ⟨g1, g2, g3⟩ | ⟨g1, a, g2⟩
        · refine Or.inl ⟨?_, g2, g3⟩
          rw [g1, hq]
          rfl
        · refine Or.inr ⟨g1, a, ?_⟩
          rw [g2, hq]
          rfl
    · exact Or.inr (Or.inl ⟨t, rest, rfl, hp, dataPhase_waits cfg st t rest hq hp⟩)

/-! ### Termination: the invariant -/

theorem hasTransferFor_congr {c : Nat} {st st2 : State}
    (hq : st2.dataTransferQueue = st.dataTransferQueue) (h : hasTransferFor c st) :
    hasTransferFor c st2 := by
  unfold hasTransferFor at *
  rw [hq]
  exact h

theorem waitsForBus_step {cfg : Config} {tr : Nat → List TraceEntry} (sim sim2 : SimState)
    {c : Nat} (hrun : sim2.st.processorRunning c = sim.st.processorRunning c)
    (hpos : sim2.tracePosition c = sim.tracePosition c)
    (hh : ∀ e, ¬ Hits cfg sim.st c e → ¬ Hits cfg sim2.st c e)
    (h : WaitsForBus cfg tr sim c) : WaitsForBus cfg tr sim2 c := by
  obtain ⟨h1, e, h2, h3⟩ := h
  exact ⟨hrun.trans h1, e, by rw [hpos]; exact h2, hh e h3⟩

theorem termBase_congr {cfg : Config} {st st2 : State} (ht : st2.tagArray = st.tagArray)
    (hc : st2.coherenceTable = st.coherenceTable) (hb : st2.busOccupied = st.busOccupied)
    (hq : st2.dataTransferQueue = st.dataTransferQueue)
    (hp : st2.pendingOperations = st.pendingOperations) (h : TermBase cfg st) :
    TermBase cfg st2 := by
  obtain ⟨h1, h2, h3⟩ := h
  refine ⟨protocolInv_congr ht hc hb hq h1, ?_, ?_⟩
  · unfold LatenciesOk
    rw [hq]
    exact h2
  · intro c hne
    rw [hp] at hne
    exact hasTransferFor_congr hq (h3 c hne)

theorem termInv_initial (cfg : Config) (tr : Nat → List TraceEntry) :
    TermInv cfg tr (initialSim cfg) := by
  refine ⟨⟨⟨?_, ?_, ?_, ?_⟩, ?_, ?_⟩, rfl, ?_⟩
  · intro c c2 s w w2 _ _ _ _ _ hv
    exact absurd rfl hv
  · simp [BusBusyInv, initialSim, initialState]
  · simp [initialSim, initialState]
  · intro t ht
    simp [initialSim, initialState] at ht
  · intro t ht
    simp [initialSim, initialState] at ht
  · intro c hc
    simp [initialSim, initialState] at hc
  · intro c _ hs
    simp [initialSim, initialState] at hs

/-- The first loop keeps the termination invariant. -/
theorem termOffered_offerCore (cfg : Config) (tr : Nat → List TraceEntry) (i : Nat)
    (sim : SimState) (hi : i < 4) (h : TermOffered cfg tr i sim) :
    TermOffered cfg tr (i + 1) (offerCore cfg tr i sim) := by
  obtain ⟨hbase, hrok, hupg, hreq, hst, hpos⟩ := h
  unfold offerCore
  dsimp only
  by_cases hr : (!sim.st.processorRunning i) = true
  · rw [if_pos hr]
    have hr2 : sim.st.processorRunning i = false := by simpa using hr
    refine ⟨hbase, hrok, hupg, hreq, ?_, ?_⟩
    · intro c hc hs
      rcases hst c hc hs with h1 | ⟨h1, h2⟩
      · exact Or.inl h1
      · refine Or.inr ⟨h1, ?_⟩
        intro hlt
        rcases Nat.lt_succ_iff_lt_or_eq.mp hlt with h3 | h3
        · exact h2 h3
        · rw [h3] at h1
          exact absurd (h1.1.symm.trans hr2) (by decide)
    · intro c hlt hrun
      rcases Nat.lt_succ_iff_lt_or_eq.mp hlt with h3 | h3
      · exact hpos c h3 hrun
      · rw [h3, hr2] at hrun
        exact absurd hrun (by decide)
  · rw [if_neg hr]
    have hr2 : sim.st.processorRunning i = true := by simpa using hr
    cases he : (tr i)[sim.tracePosition i]? with
    | none =>
      dsimp only
      have hnw : ¬ WaitsForBus cfg tr sim i := by
        intro ⟨_, e, h2, _⟩
        rw [he] at h2
        exact absurd h2 (by simp)
      have hw : ∀ c, WaitsForBus cfg tr sim c →
          WaitsForBus cfg tr
            { sim with
              st := { sim.st with
                processorRunning := set1 sim.st.processorRunning i false } } c := by
        intro c hwc
        have hci : c ≠ i := fun hx => hnw (hx ▸ hwc)
        exact waitsForBus_step sim
          { sim with
            st := { sim.st with processorRunning := set1 sim.st.processorRunning i false } }
          (set1_of_ne _ _ _ _ hci) rfl (fun _ hh => hh) hwc
      refine ⟨termBase_congr rfl rfl rfl rfl rfl hbase, hrok, hupg, ?_, ?_, ?_⟩
      · intro r hmem
        exact ⟨(hreq r hmem).1, hw _ (hreq r hmem).2⟩
      · intro c hc hs
        rcases hst c hc hs with h1 | ⟨h1, h2⟩
        · exact Or.inl h1
        · refine Or.inr ⟨hw c h1, ?_⟩
          intro hlt
          rcases Nat.lt_succ_iff_lt_or_eq.mp hlt with h3 | h3
          · exact h2 h3
          · exact absurd (h3 ▸ h1) hnw
      · intro c hlt hrun
        have hrun2 : set1 sim.st.processorRunning i false c = true := hrun
        rcases Nat.lt_succ_iff_lt_or_eq.mp hlt with h3 | h3
        · rw [set1_of_ne _ _ _ _ (Nat.ne_of_lt h3)] at hrun2
          exact hpos c h3 hrun2
        · rw [h3] at hrun2
          simp at hrun2
    | some e =>
      dsimp only
      have hstep := executeMemoryOperation_cohStep cfg sim.st e i
      have hposi : sim.tracePosition i < (tr i).length := by
        have := List.getElem?_eq_some_iff.mp he
        exact this.1
      have hbase2 : TermBase cfg (executeMemoryOperation cfg sim.st e i) := by
        refine ⟨⟨cohInv_cohStep hstep hbase.1.1,
          busBusy_executeMemoryOperation cfg _ e i hbase.1.2.1,
          fillsOk_cohStep hstep (by simp) hbase.1.2.2⟩, ?_, ?_⟩
        · unfold LatenciesOk
          rw [executeMemoryOperation_dataTransferQueue]
          exact hbase.2.1
        · intro c hne
          rw [executeMemoryOperation_pendingOperations] at hne
          exact hasTransferFor_congr (by simp) (hbase.2.2 c hne)
      have hw : ∀ c, WaitsForBus cfg tr sim c →
          WaitsForBus cfg tr { sim with st := executeMemoryOperation cfg sim.st e i } c :=
        fun c hwc => waitsForBus_step sim
          { sim with st := executeMemoryOperation cfg sim.st e i } (by simp) rfl
          (fun _ hh => not_hits_cohStep hstep hh) hwc
      have hrok2 : RequestsOk cfg (executeMemoryOperation cfg sim.st e i)
          (executeMemoryOperation cfg sim.st e i).pendingRequests := by
        obtain ⟨extra, hx, hr⟩ := executeMemoryOperation_noCopy cfg sim.st e i
        intro r hmem hk
        rw [hx, List.mem_append] at hmem
        rcases hmem with hmem | hmem
        · exact noCopy_cohStep hstep (hrok r hmem hk)
        · exact noCopy_cohStep hstep (hr r hmem hk)
      have hupg2 : ∀ r ∈ (executeMemoryOperation cfg sim.st e i).pendingRequests,
          r.reqType = BusRequestType.UPGRADE_REQUEST →
          upgradeLineFound cfg (executeMemoryOperation cfg sim.st e i) r := by
        obtain ⟨extra, hx, hr⟩ := executeMemoryOperation_requests cfg sim.st e i
        intro r hmem hk
        apply upgradeLineFound_executeMemoryOperation
        rw [hx, List.mem_append] at hmem
        rcases hmem with hmem | hmem
        · exact hupg r hmem hk
        · obtain ⟨h1, h2, _, h4⟩ := hr r hmem
          unfold upgradeLineFound
          rw [h1, h2]
          exact h4 hk
      refine ⟨hbase2, hrok2, hupg2, ?_, ?_, ?_⟩
      · intro r hmem
        rcases executeMemoryOperation_effect cfg sim.st e i with ⟨g1, _, _⟩
            | ⟨r2, g1, g2, _, _, _, g6⟩
        · rw [g1] at hmem
          exact ⟨(hreq r hmem).1, hw _ (hreq r hmem).2⟩
        · rw [g1, List.mem_append, List.mem_singleton] at hmem
          rcases hmem with hmem | hmem
          · exact ⟨(hreq r hmem).1, hw _ (hreq r hmem).2⟩
          · rw [hmem, g2]
            exact ⟨hi, hw i ⟨hr2, e, he, g6 hbase.1.1 hi⟩⟩
      · intro c hc hs
        rcases executeMemoryOperation_effect cfg sim.st e i with ⟨g1, g2, g3⟩
            | ⟨r2, g1, g2, g3, g4, g5, g6⟩
        · have hs0 : sim.st.isStalled c = true := by
            have : (executeMemoryOperation cfg sim.st e i).isStalled c = true := hs
            rw [g2] at this
            exact this
          rcases hst c hc hs0 with h1 | ⟨h1, h2⟩
          · exact Or.inl (hasTransferFor_congr (by simp) h1)
          · by_cases hci : c = i
            · subst hci
              rcases g3 with g3 | g3
              · exact Or.inl (hasTransferFor_congr (by simp) (hbase.2.2 c g3))
              · obtain ⟨_, e2, he2, hn2⟩ := h1
                rw [he] at he2
                simp only [Option.some.injEq] at he2
                rw [← he2] at hn2
                exact absurd g3 hn2
            · refine Or.inr ⟨hw c h1, ?_⟩
              intro hlt
              have hlt2 : c < i := by omega
              obtain ⟨r, hr1, hr2⟩ := h2 hlt2
              exact ⟨r, by rw [g1]; exact hr1, hr2⟩
        · by_cases hci : c = i
          · subst hci
            refine Or.inr ⟨hw c ⟨hr2, e, he, g6 hbase.1.1 hi⟩, fun _ => ⟨r2, ?_, g2⟩⟩
            rw [g1]
            exact List.mem_append_right _ (List.mem_singleton.mpr rfl)
          · have hs0 : sim.st.isStalled c = true := by
              have : (executeMemoryOperation cfg sim.st e i).isStalled c = true := hs
              rw [g5 c hci] at this
              exact this
            rcases hst c hc hs0 with h1 | ⟨h1, h2⟩
            · exact Or.inl (hasTransferFor_congr (by simp) h1)
            · refine Or.inr ⟨hw c h1, ?_⟩
              intro hlt
              have hlt2 : c < i := by omega
              obtain ⟨r, hr1, hr3⟩ := h2 hlt2
              exact ⟨r, by rw [g1]; exact List.mem_append_left _ hr1, hr3⟩
      · intro c hlt hrun
        have hrun2 : sim.st.processorRunning c = true := by
          have : (executeMemoryOperation cfg sim.st e i).processorRunning c = true := hrun
          rw [executeMemoryOperation_processorRunning] at this
          exact this
        rcases Nat.lt_succ_iff_lt_or_eq.mp hlt with h3 | h3
        · exact hpos c h3 hrun2
        · rw [h3]
          exact hposi

/-- The data phase keeps the termination invariant. -/
theorem dataPhase_term (cfg : Config) (tr : Nat → List TraceEntry) (sim : SimState)
    (st : State) (hbase : TermBase cfg st) (hsj : StallJustified cfg tr { sim with st := st }) :
    TermBase cfg (dataPhase cfg st)
      ∧ StallJustified cfg tr { sim with st := dataPhase cfg st } := by
  obtain ⟨hprot, hlat, hpend⟩ := hbase
  have hprot2 := dataPhase_protocol cfg st hprot
  rcases dataPhase_cases cfg st with ⟨_, heq⟩ | ⟨t, rest, hq, hp, heq⟩
      | ⟨t, rest, hq, hp, hrun, hoth, hdest⟩
  · rw [heq]
    exact ⟨⟨hprot, hlat, hpend⟩, hsj⟩
  · have hT : ∀ c, hasTransferFor c st → hasTransferFor c (dataPhase cfg st) := by
      intro c ⟨t2, ht2, hd2⟩
      rw [hq] at ht2
      rw [heq]
      rcases List.mem_cons.mp ht2 with h | h
      · exact ⟨{ t with pendingCycles := t.pendingCycles - 1 }, List.mem_cons_self _ _,
          by rw [← hd2, h]⟩
      · exact ⟨t2, List.mem_cons_of_mem _ h, hd2⟩
    refine ⟨⟨hprot2, ?_, ?_⟩, ?_⟩
    · intro t2 ht2
      rw [heq] at ht2
      rcases List.mem_cons.mp ht2 with h | h
      · rw [h]
        have := hlat t (by rw [hq]; exact List.mem_cons_self _ _)
        show 0 ≤ t.pendingCycles - 1
        omega
      · exact hlat t2 (by rw [hq]; exact List.mem_cons_of_mem _ h)
    · intro c hne
      have hne2 : st.pendingOperations c ≠ -1 := by
        rw [heq] at hne
        exact hne
      exact hT c (hpend c hne2)
    · intro c hc hs
      have hs2 : st.isStalled c = true := by
        have : (dataPhase cfg st).isStalled c = true := hs
        rw [heq] at this
        exact this
      rcases hsj c hc hs2 with h | h
      · exact Or.inl (hT c h)
      · refine Or.inr (waitsForBus_step { sim with st := st }
          { sim with st := dataPhase cfg st } ?_ rfl ?_ h)
        · show (dataPhase cfg st).processorRunning c = st.processorRunning c
          rw [heq]
        · intro e hh
          refine not_hits_of_lines ?_ ?_ hh
          · intro s w
            show (dataPhase cfg st).coherenceTable c s w = st.coherenceTable c s w
            rw [heq]
          · intro s w
            show (dataPhase cfg st).tagArray c s w = st.tagArray c s w
            rw [heq]
  · have hT : ∀ c, c ≠ t.destinationCore → hasTransferFor c st →
        hasTransferFor c (dataPhase cfg st) := by
      intro c hc ⟨t2, ht2, hd2⟩
      rw [hq] at ht2
      have hmem : t2 ∈ rest := by
        rcases List.mem_cons.mp ht2 with h | h
        · rw [h] at hd2
          exact absurd hd2.symm hc
        · exact h
      rcases hdest with ⟨g1, _, _⟩ | ⟨_, a, g1⟩
      · exact ⟨t2, by rw [g1]; exact hmem, hd2⟩
      · exact ⟨t2, by rw [g1]; exact List.mem_append_left _ hmem, hd2⟩
    refine ⟨⟨hprot2, ?_, ?_⟩, ?_⟩
    · intro t2 ht2
      rcases hdest with ⟨g1, _, _⟩ | ⟨_, a, g1⟩
      · rw [g1] at ht2
        exact hlat t2 (by rw [hq]; exact List.mem_cons_of_mem _ ht2)
      · rw [g1] at ht2
        rcases List.mem_append.mp ht2 with h | h
        · exact hlat t2 (by rw [hq]; exact List.mem_cons_of_mem _ h)
        · rw [List.mem_singleton.mp h]
          simp
    · intro c hne
      by_cases hc : c = t.destinationCore
      · rcases hdest with ⟨_, _, g3⟩ | ⟨_, a, g1⟩
        · rw [hc, g3] at hne
          exact absurd rfl hne
        · exact ⟨⟨a, t.destinationCore, false, true, false, 100⟩,
            (by rw [g1]; exact List.mem_append_right _ (List.mem_singleton.mpr rfl)),
            hc.symm⟩
      · rw [(hoth c hc).2.1] at hne
        exact hT c hc (hpend c hne)
    · intro c hc4 hs
      have hs1 : (dataPhase cfg st).isStalled c = true := hs
      by_cases hc : c = t.destinationCore
      · rcases hdest with ⟨_, g2, _⟩ | ⟨_, a, g1⟩
        · rw [hc, g2] at hs1
          exact absurd hs1 (by decide)
        · exact Or.inl ⟨⟨a, t.destinationCore, false, true, false, 100⟩,
            (by rw [g1]; exact List.mem_append_right _ (List.mem_singleton.mpr rfl)),
            hc.symm⟩
      · rw [(hoth c hc).1] at hs1
        rcases hsj c hc4 hs1 with h | h
        · exact Or.inl (hT c hc h)
        · refine Or.inr (waitsForBus_step { sim with st := st }
            { sim with st := dataPhase cfg st } ?_ rfl ?_ h)
          · show (dataPhase cfg st).processorRunning c = st.processorRunning c
            rw [hrun]
          · intro e hh
            exact not_hits_of_lines (fun s w => (hoth c hc).2.2.1 s w)
              (fun s w => (hoth c hc).2.2.2 s w) hh

/-- The bus tick takes the invariant after the first loop to the invariant before the third
loop. -/
theorem termTicked_tick (cfg : Config) (tr : Nat → List TraceEntry) (sim : SimState)
    (h : TermOffered cfg tr 4 sim) :
    TermTicked cfg tr { sim with st := processBusTransactions cfg sim.st } := by
  obtain ⟨hbase, hrok, hupg, hreq, hst, hpos⟩ := h
  have hloop := requestLoop_invariant cfg
    (fun q st => TermBase cfg st ∧ st.pendingRequests = q
      ∧ st.processorRunning = sim.st.processorRunning
      ∧ (st.busOccupied = false → RequestsOk cfg st q
          ∧ ∀ r ∈ q, r.reqType = BusRequestType.UPGRADE_REQUEST → upgradeLineFound cfg st r)
      ∧ (∀ r ∈ q, r.requestorId < 4
          ∧ (hasTransferFor r.requestorId st
            ∨ WaitsForBus cfg tr { sim with st := st } r.requestorId))
      ∧ StallJustified cfg tr { sim with st := st })
    (by
      intro r rest st ⟨gbase, _, grun, gidle, greq, gsj⟩
      have gprot0 : ProtocolInv cfg { st with pendingRequests := rest } :=
        protocolInv_congr rfl rfl rfl rfl gbase.1
      have hup : ({ st with pendingRequests := rest } : State).busOccupied = false →
          r.reqType = BusRequestType.UPGRADE_REQUEST →
          upgradeLineFound cfg { st with pendingRequests := rest } r :=
        fun hb hk => (gidle hb).2 r (List.mem_cons_self _ _) hk
      have hprot2 := serviceRequest_protocol cfg _ r gprot0
        (fun hb hk => (gidle hb).1 r (List.mem_cons_self _ _) hk)
      have hbusy2 := serviceRequest_busOccupied cfg _ r hup
      obtain ⟨extra, hqa⟩ := serviceRequest_queue_append cfg { st with pendingRequests := rest } r
      have hT : ∀ c, hasTransferFor c st →
          hasTransferFor c (serviceRequest cfg { st with pendingRequests := rest } r) :=
        fun c hc => hasTransferFor_append hqa hc
      have hW : ∀ c, c ≠ r.requestorId → WaitsForBus cfg tr { sim with st := st } c →
          WaitsForBus cfg tr
            { sim with st := serviceRequest cfg { st with pendingRequests := rest } r } c := by
        intro c hc hw
        refine waitsForBus_step { sim with st := st }
          { sim with st := serviceRequest cfg { st with pendingRequests := rest } r }
          ?_ rfl ?_ hw
        · show (serviceRequest cfg _ r).processorRunning c = st.processorRunning c
          rw [serviceRequest_processorRunning]
        · intro e hh
          exact serviceRequest_not_hits cfg _ r gprot0.1 c e hc hh
      by_cases hb : st.busOccupied = true
      · have hsv : serviceRequest cfg { st with pendingRequests := rest } r
            = { st with
                pendingRequests := rest
                isStalled := set1 st.isStalled r.requestorId true
                stalledCycles := set1 st.stalledCycles r.requestorId
                  (st.stalledCycles r.requestorId + 1)
                ghostLog := st.ghostLog ++ [Event.busyDropped r.requestorId] } := by
          unfold serviceRequest
          dsimp only
          rw [if_pos hb]
        have hWall : ∀ c, WaitsForBus cfg tr { sim with st := st } c →
            WaitsForBus cfg tr
              { sim with st := serviceRequest cfg { st with pendingRequests := rest } r } c := by
          intro c hw
          rw [hsv]
          exact waitsForBus_step { sim with st := st } _ rfl rfl
            (fun e hh => not_hits_of_lines (fun _ _ => rfl) (fun _ _ => rfl) hh) hw
        refine ⟨⟨hprot2, ?_, ?_⟩, by simp, ?_, ?_, ?_, ?_⟩
        · rw [hsv]
          exact gbase.2.1
        · rw [hsv]
          exact gbase.2.2
        · rw [serviceRequest_processorRunning]
          exact grun
        · intro hb2
          rw [hbusy2] at hb2
          exact absurd hb2 (by decide)
        · intro r2 hr2
          obtain ⟨g1, g2⟩ := greq r2 (List.mem_cons_of_mem _ hr2)
          refine ⟨g1, ?_⟩
          rcases g2 with g2 | g2
          · exact Or.inl (hT _ g2)
          · exact Or.inr (hWall _ g2)
        · intro c hc hs
          have hs1 : (serviceRequest cfg { st with pendingRequests := rest } r).isStalled c
              = true := hs
          by_cases hcr : c = r.requestorId
          · rcases (greq r (List.mem_cons_self _ _)).2 with g2 | g2
            · exact Or.inl (hcr ▸ hT _ g2)
            · exact Or.inr (hcr ▸ hWall _ g2)
          · rw [hsv] at hs1
            have hs2 : set1 st.isStalled r.requestorId true c = true := hs1
            rw [set1_of_ne _ _ _ _ hcr] at hs2
            rcases gsj c hc hs2 with g | g
            · exact Or.inl (hT c g)
            · exact Or.inr (hWall c g)
      · have hb : st.busOccupied = false := by simpa using hb
        obtain ⟨⟨⟨ex2, hq2, hlat2⟩, hjs, hjp⟩, hTr⟩ := serviceRequest_justified cfg
          { st with pendingRequests := rest } r hb (hup hb)
        have hWT : ∀ c, WaitsForBus cfg tr { sim with st := st } c →
            hasTransferFor c (serviceRequest cfg { st with pendingRequests := rest } r)
            ∨ WaitsForBus cfg tr
              { sim with st := serviceRequest cfg { st with pendingRequests := rest } r } c := by
          intro c hw
          by_cases hcr : c = r.requestorId
          · exact Or.inl (hcr ▸ hTr)
          · exact Or.inr (hW c hcr hw)
        refine ⟨⟨hprot2, ?_, ?_⟩, by simp, ?_, ?_, ?_, ?_⟩
        · intro t ht
          rw [hq2] at ht
          rcases List.mem_append.mp ht with h1 | h1
          · exact gbase.2.1 t h1
          · exact hlat2 t h1
        · intro c hne
          rcases hjp c hne with h1 | h1
          · exact hT c (gbase.2.2 c h1)
          · exact h1
        · rw [serviceRequest_processorRunning]
          exact grun
        · intro hb2
          rw [hbusy2] at hb2
          exact absurd hb2 (by decide)
        · intro r2 hr2
          obtain ⟨g1, g2⟩ := greq r2 (List.mem_cons_of_mem _ hr2)
          refine ⟨g1, ?_⟩
          rcases g2 with g2 | g2
          · exact Or.inl (hT _ g2)
          · exact hWT _ g2
        · intro c hc hs
          rcases hjs c hs with h1 | h1
          · rcases gsj c hc h1 with g | g
            · exact Or.inl (hT c g)
            · exact hWT c g
          · exact Or.inl h1)
    sim.st.pendingRequests { sim.st with busTickCounter := sim.st.busTickCounter + 1 }
    ⟨termBase_congr rfl rfl rfl rfl rfl hbase, rfl, rfl, fun _ => ⟨hrok, hupg⟩,
      fun r hr => ⟨(hreq r hr).1, Or.inr (hreq r hr).2⟩,
      fun c hc hs => by
        rcases hst c hc hs with h1 | h1
        · exact Or.inl h1
        · exact Or.inr h1.1⟩
  obtain ⟨lbase, lreq, lrun, _, _, lsj⟩ := hloop
  have hd := dataPhase_term cfg tr sim _ lbase lsj
  refine ⟨⟨?_, ?_, ?_⟩, ?_⟩
  · exact hd.1
  · show (dataPhase cfg _).pendingRequests = []
    rw [dataPhase_pendingRequests]
    exact lreq
  · exact hd.2
  · intro c hc hrun
    have hrun2 : (dataPhase cfg (requestPhase cfg
        { sim.st with busTickCounter := sim.st.busTickCounter + 1 })).processorRunning c
        = true := hrun
    rw [dataPhase_processorRunning] at hrun2
    have hrun3 : sim.st.processorRunning c = true := by
      have := congrFun lrun c
      unfold requestPhase at hrun2
      rw [this] at hrun2
      exact hrun2
    exact hpos c hc hrun3

/-- The third loop keeps the invariant. -/
theorem termTicked_advanceCore (cfg : Config) (tr : Nat → List TraceEntry) (i : Nat)
    (sim : SimState) (hi : i < 4) (h : TermTicked cfg tr sim) :
    TermTicked cfg tr (advanceCore tr i sim) := by
  obtain ⟨⟨hbase, hreq, hsj⟩, hpos⟩ := h
  unfold advanceCore
  dsimp only
  split
  · rename_i hcond
    simp only [Bool.and_eq_true, Bool.not_eq_true'] at hcond
    have key : ∀ (st2 : State) (sim2 : SimState),
        sim2.st = st2 → st2.tagArray = sim.st.tagArray →
        st2.coherenceTable = sim.st.coherenceTable → st2.busOccupied = sim.st.busOccupied →
        st2.dataTransferQueue = sim.st.dataTransferQueue →
        st2.pendingOperations = sim.st.pendingOperations →
        st2.pendingRequests = sim.st.pendingRequests →
        st2.isStalled = sim.st.isStalled →
        (∀ c, c ≠ i → st2.processorRunning c = sim.st.processorRunning c) →
        (∀ c, c ≠ i → sim2.tracePosition c = sim.tracePosition c) →
        (st2.processorRunning i = true → sim2.tracePosition i < (tr i).length) →
        TermTicked cfg tr sim2 := by
      intro st2 sim2 e0 e1 e2 e3 e4 e5 e6 e7 e8 e9 e10
      refine ⟨⟨?_, ?_, ?_⟩, ?_⟩
      · rw [e0]
        exact termBase_congr e1 e2 e3 e4 e5 hbase
      · rw [e0, e6]
        exact hreq
      · intro c hc hs
        rw [e0, e7] at hs
        have hci : c ≠ i := by
          intro hx
          rw [hx, hcond.1] at hs
          exact absurd hs (by decide)
        rcases hsj c hc hs with g | g
        · exact Or.inl (hasTransferFor_congr (by rw [e0, e4]) g)
        · refine Or.inr (waitsForBus_step sim sim2 ?_ (e9 c hci) ?_ g)
          · rw [e0]
            exact e8 c hci
          · intro e hh
            rw [e0]
            exact not_hits_of_lines (fun s w => by rw [e2]) (fun s w => by rw [e1]) hh
      · intro c hc hrun
        by_cases hci : c = i
        · rw [hci] at hrun ⊢
          rw [e0] at hrun
          exact e10 hrun
        · rw [e9 c hci]
          rw [e0, e8 c hci] at hrun
          exact hpos c hc hrun
    have hposi := hpos i
    split
    · rename_i hend
      refine key _ _ rfl rfl rfl rfl rfl rfl rfl rfl ?_ ?_ ?_
      · intro c hc
        exact set1_of_ne _ _ _ _ hc
      · intro c hc
        exact set1_of_ne _ _ _ _ hc
      · intro hrun
        have : set1 sim.st.processorRunning i false i = true := hrun
        simp at this
    · rename_i hend
      refine key _ _ rfl rfl rfl rfl rfl rfl rfl rfl ?_ ?_ ?_
      · intro c hc
        rfl
      · intro c hc
        exact set1_of_ne _ _ _ _ hc
      · intro hrun
        show set1 sim.tracePosition i (sim.tracePosition i + 1) i < _
        rw [set1_same]
        have := hposi hi hcond.2
        omega
  · exact ⟨⟨hbase, hreq, hsj⟩, hpos⟩

/-- One cycle from a state that satisfies the termination invariant: the invariants of its
phases. -/
theorem termInv_cycle (cfg : Config) (tr : Nat → List TraceEntry) (sim : SimState)
    (h : TermInv cfg tr sim) :
    TermOffered cfg tr 4 (forLoop 4 (offerCore cfg tr) sim)
      ∧ TermTicked cfg tr
          { forLoop 4 (offerCore cfg tr) sim with
            st := processBusTransactions cfg (forLoop 4 (offerCore cfg tr) sim).st }
      ∧ TermTicked cfg tr (forLoop 4 (advanceCore tr)
          { forLoop 4 (offerCore cfg tr) sim with
            st := processBusTransactions cfg (forLoop 4 (offerCore cfg tr) sim).st })
      ∧ TermInv cfg tr (cycle cfg tr sim) := by
  obtain ⟨hbase, hreq, hsj⟩ := h
  have h0 : TermOffered cfg tr 0 sim := by
    refine ⟨hbase, ?_, ?_, ?_, ?_, ?_⟩
    · rw [hreq]
      intro r hr
      exact absurd hr (List.not_mem_nil _)
    · rw [hreq]
      intro r hr
      exact absurd hr (List.not_mem_nil _)
    · rw [hreq]
      intro r hr
      exact absurd hr (List.not_mem_nil _)
    · intro c hc hs
      rcases hsj c hc hs with g | g
      · exact Or.inl g
      · exact Or.inr ⟨g, fun hlt => absurd hlt (Nat.not_lt_zero c)⟩
    · intro c hlt
      exact absurd hlt (Nat.not_lt_zero c)
  have h1 := forLoop_indexed (TermOffered cfg tr) (offerCore cfg tr) 4
    (fun i s hi hs => termOffered_offerCore cfg tr i s hi hs) sim h0
  have h2 := termTicked_tick cfg tr _ h1
  have h3 := forLoop_indexed (fun _ s => TermTicked cfg tr s) (advanceCore tr) 4
    (fun i s hi hs => termTicked_advanceCore cfg tr i s hi hs) _ h2
  refine ⟨h1, h2, h3, ?_⟩
  unfold cycle
  exact h3.1

/-! ### Termination: the measure -/

theorem offerCore_mono (cfg : Config) (tr : Nat → List TraceEntry) (i : Nat) (sim : SimState) :
    (offerCore cfg tr i sim).tracePosition = sim.tracePosition
      ∧ (offerCore cfg tr i sim).st.dataTransferQueue = sim.st.dataTransferQueue
      ∧ ∀ c, (offerCore cfg tr i sim).st.processorRunning c = true →
          sim.st.processorRunning c = true := by
  unfold offerCore
  dsimp only
  split
  · exact ⟨rfl, rfl, fun _ h => h⟩
  · split
    · refine ⟨rfl, by simp, ?_⟩
      intro c h
      rw [executeMemoryOperation_processorRunning] at h
      exact h
    · refine ⟨rfl, rfl, ?_⟩
      intro c h
      have h2 : set1 sim.st.processorRunning i false c = true := h
      rw [set1_apply] at h2
      split at h2
      · exact absurd h2 (by decide)
      · exact h2

theorem offerLoop_mono (cfg : Config) (tr : Nat → List TraceEntry) (sim : SimState) :
    (forLoop 4 (offerCore cfg tr) sim).tracePosition = sim.tracePosition
      ∧ (forLoop 4 (offerCore cfg tr) sim).st.dataTransferQueue = sim.st.dataTransferQueue
      ∧ ∀ c, (forLoop 4 (offerCore cfg tr) sim).st.processorRunning c = true →
          sim.st.processorRunning c = true :=
  forLoop_preserves
    (fun s => s.tracePosition = sim.tracePosition
      ∧ s.st.dataTransferQueue = sim.st.dataTransferQueue
      ∧ ∀ c, s.st.processorRunning c = true → sim.st.processorRunning c = true)
    (offerCore cfg tr) 4
    (by
      intro i s _ ⟨h1, h2, h3⟩
      obtain ⟨g1, g2, g3⟩ := offerCore_mono cfg tr i s
      exact ⟨g1.trans h1, g2.trans h2, fun c h => h3 c (g3 c h)⟩)
    sim ⟨rfl, rfl, fun _ h => h⟩

theorem requestLoop_queue_append (cfg : Config) (q : List BusTransaction) (st : State) :
    ∃ extra, (requestLoop cfg q st).dataTransferQueue = st.dataTransferQueue ++ extra :=
  requestLoop_preserves cfg
    (fun s => ∃ extra, s.dataTransferQueue = st.dataTransferQueue ++ extra)
    (fun s rest h => h)
    (by
      intro s r ⟨e1, h1⟩
      obtain ⟨e2, h2⟩ := serviceRequest_queue_append cfg s r
      exact ⟨e1 ++ e2, by rw [h2, h1, List.append_assoc]⟩)
    q st ⟨[], by simp⟩

theorem transferWeight_pos (t : BusDataTransfer) : 0 < transferWeight t := by
  unfold transferWeight
  omega

/-- Effect of the bus tick on the queue in the state left by the first loop: a transfer queued
for a core stays queued unless the core is released; the weight of a queue that is not empty
decreases; with the bus idle the first request is serviced, and without a request nothing
happens. -/
theorem tick_effect (cfg : Config) (tr : Nat → List TraceEntry) (sim : SimState)
    (h : TermOffered cfg tr 4 sim) :
    (∀ c, hasTransferFor c sim.st →
        hasTransferFor c (processBusTransactions cfg sim.st)
        ∨ (processBusTransactions cfg sim.st).isStalled c = false)
      ∧ (sim.st.dataTransferQueue ≠ [] →
          queueWeight (processBusTransactions cfg sim.st) < queueWeight sim.st)
      ∧ (sim.st.dataTransferQueue = [] → ∀ r rest, sim.st.pendingRequests = r :: rest →
          hasTransferFor r.requestorId (processBusTransactions cfg sim.st)
          ∨ (processBusTransactions cfg sim.st).isStalled r.requestorId = false)
      ∧ (sim.st.dataTransferQueue = [] → sim.st.pendingRequests = [] →
          (processBusTransactions cfg sim.st).dataTransferQueue = []
          ∧ (processBusTransactions cfg sim.st).isStalled = sim.st.isStalled) := by
  obtain ⟨hbase, _, hupg, _, _, _⟩ := h
  refine ⟨?_, ?_, ?_, ?_⟩
  · intro c hc
    unfold processBusTransactions requestPhase
    obtain ⟨extra, hx⟩ := requestLoop_queue_append cfg sim.st.pendingRequests
      { sim.st with busTickCounter := sim.st.busTickCounter + 1 }
    exact dataPhase_hasTransferFor cfg _ c (hasTransferFor_append hx hc)
  · intro hne
    have hb : sim.st.busOccupied = true := hbase.1.2.1.mpr hne
    obtain ⟨_, r2, _, _⟩ := requestLoop_busy cfg sim.st.pendingRequests
      { sim.st with busTickCounter := sim.st.busTickCounter + 1 } hb
    have hq2 : (requestPhase cfg
        { sim.st with busTickCounter := sim.st.busTickCounter + 1 }).dataTransferQueue
        = sim.st.dataTransferQueue := r2
    have hlat : ∀ t ∈ (requestPhase cfg
        { sim.st with busTickCounter := sim.st.busTickCounter + 1 }).dataTransferQueue,
        0 ≤ t.pendingCycles := by
      rw [hq2]
      exact hbase.2.1
    unfold processBusTransactions
    generalize requestPhase cfg
      { sim.st with busTickCounter := sim.st.busTickCounter + 1 } = st2 at hq2 hlat
    unfold queueWeight
    rw [← hq2]
    rcases dataPhase_cases cfg st2 with ⟨hnil, _⟩ | ⟨t, rest, hq, hp, heq⟩
        | ⟨t, rest, hq, hp, _, _, hdest⟩
    · rw [hq2] at hnil
      exact absurd hnil hne
    · rw [heq, hq]
      simp only [List.map_cons, List.sum_cons]
      have h0 := hlat t (by rw [hq]; exact List.mem_cons_self _ _)
      have hw : transferWeight { t with pendingCycles := t.pendingCycles - 1 }
          < transferWeight t := by
        unfold transferWeight isFill
        dsimp only
        omega
      omega
    · rcases hdest with ⟨g1, _, _⟩ | ⟨g0, a, g1⟩
      · rw [g1, hq]
        simp only [List.map_cons, List.sum_cons]
        have := transferWeight_pos t
        omega
      · rw [g1, hq]
        simp only [List.map_cons, List.sum_cons, List.map_append, List.sum_append, List.map_nil,
          List.sum_nil]
        have hw1 : transferWeight ⟨a, t.destinationCore, false, true, false, 100⟩ = 101 := by
          simp [transferWeight, isFill]
        have hw2 : 103 ≤ transferWeight t := by
          unfold transferWeight
          rw [if_pos g0]
          omega
        omega
  · intro hnil r rest hreq
    have hb : sim.st.busOccupied = false := by
      cases hx : sim.st.busOccupied with
      | false => rfl
      | true => exact absurd hnil (hbase.1.2.1.mp hx)
    unfold processBusTransactions requestPhase
    dsimp only
    rw [hreq]
    simp only [requestLoop]
    have hup : r.reqType = BusRequestType.UPGRADE_REQUEST →
        upgradeLineFound cfg
          { sim.st with
            busTickCounter := sim.st.busTickCounter + 1
            pendingRequests := rest } r :=
      fun hk => hupg r (by rw [hreq]; exact List.mem_cons_self _ _) hk
    obtain ⟨_, hT⟩ := serviceRequest_justified cfg
      { sim.st with
        busTickCounter := sim.st.busTickCounter + 1
        pendingRequests := rest } r hb hup
    obtain ⟨extra, hx⟩ := requestLoop_queue_append cfg rest
      (serviceRequest cfg
        { sim.st with
          busTickCounter := sim.st.busTickCounter + 1
          pendingRequests := rest } r)
    exact dataPhase_hasTransferFor cfg _ _ (hasTransferFor_append hx hT)
  · intro hnil hreq
    have hrp : requestPhase cfg { sim.st with busTickCounter := sim.st.busTickCounter + 1 }
        = { sim.st with busTickCounter := sim.st.busTickCounter + 1 } := by
      unfold requestPhase
      have hreq2 : ({ sim.st with busTickCounter := sim.st.busTickCounter + 1 }
          : State).pendingRequests = [] := hreq
      rw [hreq2]
      rfl
    unfold processBusTransactions
    rw [hrp]
    rcases dataPhase_cases cfg { sim.st with busTickCounter := sim.st.busTickCounter + 1 }
      with ⟨_, heq⟩ | ⟨t, rest, hq, _⟩ | ⟨t, rest, hq, _⟩
    · rw [heq]
      exact ⟨hnil, rfl⟩
    · have hq2 : sim.st.dataTransferQueue = t :: rest := hq
      rw [hnil] at hq2
      exact absurd hq2 (by simp)
    · have hq2 : sim.st.dataTransferQueue = t :: rest := hq
      rw [hnil] at hq2
      exact absurd hq2 (by simp)

theorem remaining_congr (tr : Nat → List TraceEntry) {sim sim2 : SimState} {c : Nat}
    (h1 : sim2.tracePosition c = sim.tracePosition c)
    (h2 : sim2.st.processorRunning c = sim.st.processorRunning c) :
    remaining tr sim2 c = remaining tr sim c := by
  unfold remaining
  rw [h1, h2]

theorem remaining_mono (tr : Nat → List TraceEntry) {sim sim2 : SimState} {c : Nat}
    (h1 : sim2.tracePosition c = sim.tracePosition c)
    (h2 : sim2.st.processorRunning c = true → sim.st.processorRunning c = true) :
    remaining tr sim2 c ≤ remaining tr sim c
      ∧ (remaining tr sim2 c = remaining tr sim c →
          sim2.st.processorRunning c = sim.st.processorRunning c) := by
  unfold remaining
  rw [h1]
  cases hr2 : sim2.st.processorRunning c with
  | true =>
    rw [h2 hr2]
    exact ⟨Nat.le_refl _, fun _ => rfl⟩
  | false =>
    cases hr : sim.st.processorRunning c with
    | true =>
      refine ⟨by simp, ?_⟩
      intro h
      simp at h
    | false => exact ⟨Nat.le_refl _, fun _ => rfl⟩

theorem advanceCore_remaining (tr : Nat → List TraceEntry) (i : Nat) (sim : SimState) :
    remaining tr (advanceCore tr i sim) i ≤ remaining tr sim i
      ∧ ((advanceCore tr i sim).st.processorRunning i = true → sim.st.processorRunning i = true)
      ∧ (sim.st.isStalled i = false → sim.st.processorRunning i = true →
          sim.tracePosition i < (tr i).length →
          remaining tr (advanceCore tr i sim) i < remaining tr sim i) := by
  unfold advanceCore remaining
  dsimp only
  split
  · rename_i hcond
    simp only [Bool.and_eq_true, Bool.not_eq_true'] at hcond
    split
    · rename_i hlen
      simp only [set1_same, hcond.2, if_true]
      refine ⟨by simp; omega, fun _ => trivial, ?_⟩
      intro _ _ hlt
      simp
      omega
    · simp only [set1_same, hcond.2, if_true]
      refine ⟨by omega, fun _ => trivial, ?_⟩
      intro _ _ hlt
      omega
  · rename_i hcond
    simp only [Bool.and_eq_true, Bool.not_eq_true'] at hcond
    refine ⟨Nat.le_refl _, fun h => h, ?_⟩
    intro h1 h2 _
    exact absurd ⟨h1, h2⟩ hcond

/-- Effect of the third loop on the work left: it never grows, and it decreases for every core
that is running and not stalled. -/
theorem advanceLoop_remaining (tr : Nat → List TraceEntry) (sim : SimState)
    (hpos : ∀ c, c < 4 → sim.st.processorRunning c = true →
      sim.tracePosition c < (tr c).length) :
    (forLoop 4 (advanceCore tr) sim).st.dataTransferQueue = sim.st.dataTransferQueue
      ∧ (forLoop 4 (advanceCore tr) sim).st.isStalled = sim.st.isStalled
      ∧ (∀ c, (forLoop 4 (advanceCore tr) sim).st.processorRunning c = true →
          sim.st.processorRunning c = true)
      ∧ (∀ c, remaining tr (forLoop 4 (advanceCore tr) sim) c ≤ remaining tr sim c)
      ∧ (∀ c, c < 4 → sim.st.isStalled c = false → sim.st.processorRunning c = true →
          remaining tr (forLoop 4 (advanceCore tr) sim) c < remaining tr sim c) := by
  have h := forLoop_indexed
    (fun i s => s.st.dataTransferQueue = sim.st.dataTransferQueue
      ∧ s.st.isStalled = sim.st.isStalled
      ∧ (∀ c, i ≤ c → s.st.processorRunning c = sim.st.processorRunning c
          ∧ s.tracePosition c = sim.tracePosition c)
      ∧ (∀ c, s.st.processorRunning c = true → sim.st.processorRunning c = true)
      ∧ (∀ c, remaining tr s c ≤ remaining tr sim c)
      ∧ (∀ c, c < i → sim.st.isStalled c = false → sim.st.processorRunning c = true →
          remaining tr s c < remaining tr sim c))
    (advanceCore tr) 4
    (by
      intro i s hi ⟨h1, h2, h3, h4, h5, h6⟩
      obtain ⟨_, f2, f3, _, _, f6⟩ := advanceCore_frame tr i s
      obtain ⟨g1, g2, g3⟩ := advanceCore_remaining tr i s
      refine ⟨f2.trans h1, f3.trans h2, ?_, ?_, ?_, ?_⟩
      · intro c hc
        have hne : c ≠ i := by omega
        exact ⟨((f6 c hne).1).trans (h3 c (by omega)).1, ((f6 c hne).2).trans (h3 c (by omega)).2⟩
      · intro c hc
        by_cases hci : c = i
        · subst hci
          exact h4 c (g2 hc)
        · rw [(f6 c hci).1] at hc
          exact h4 c hc
      · intro c
        by_cases hci : c = i
        · subst hci
          exact Nat.le_trans g1 (h5 c)
        · rw [remaining_congr tr (f6 c hci).2 (f6 c hci).1]
          exact h5 c
      · intro c hc hs hr
        by_cases hci : c = i
        · subst hci
          have e1 := (h3 c (Nat.le_refl c)).1
          have e2 := (h3 c (Nat.le_refl c)).2
          have hs2 : s.st.isStalled c = false := by rw [h2]; exact hs
          have hr2 : s.st.processorRunning c = true := by rw [e1]; exact hr
          have hlt : s.tracePosition c < (tr c).length := by
            rw [e2]
            exact hpos c hi hr
          exact Nat.lt_of_lt_of_le (g3 hs2 hr2 hlt) (h5 c)
        · rw [remaining_congr tr (f6 c hci).2 (f6 c hci).1]
          exact h6 c (by omega) hs hr)
    sim ⟨rfl, rfl, fun _ _ => ⟨rfl, rfl⟩, fun _ h => h, fun _ => Nat.le_refl _,
      fun c hc => absurd hc (Nat.not_lt_zero c)⟩
  exact ⟨h.1, h.2.1, h.2.2.2.1, h.2.2.2.2.1, h.2.2.2.2.2⟩

theorem advanceLoop_stays (tr : Nat → List TraceEntry) (sim : SimState)
    (h : ∀ c, c < 4 → ¬ (sim.st.isStalled c = false ∧ sim.st.processorRunning c = true)) :
    forLoop 4 (advanceCore tr) sim = sim :=
  forLoop_preserves (fun s => s = sim) (advanceCore tr) 4
    (by
      intro i s hi hs
      rw [hs]
      exact advanceCore_stays tr i sim (h i hi))
    sim rfl

theorem processBusTransactions_running (cfg : Config) (st : State) :
    (processBusTransactions cfg st).processorRunning = st.processorRunning := by
  simp

theorem unserved_le_one (sim : SimState) (c : Nat) : unserved sim c ≤ 1 := by
  unfold unserved
  split <;> omega

theorem simulationActive_false {sim : SimState} (hq : sim.st.dataTransferQueue = [])
    (h : ∀ c, c < 4 → sim.st.processorRunning c = false ∧ sim.st.isStalled c = false) :
    simulationActive sim = false := by
  unfold simulationActive
  cases hf : findFirst 4 (fun checkIdx =>
      sim.st.processorRunning checkIdx || sim.st.isStalled checkIdx
        || !sim.st.dataTransferQueue.isEmpty) with
  | none => rfl
  | some i =>
    obtain ⟨hi, hp, _⟩ := findFirst_some hf
    simp only [(h i hi).1, (h i hi).2, hq, List.isEmpty_nil] at hp
    exact absurd hp (by decide)

/-- Progress of one cycle from a state that satisfies the termination invariant: either the
simulation is over at the end-of-cycle check, or the measure has decreased. -/
theorem cycle_progress (cfg : Config) (tr : Nat → List TraceEntry) (sim : SimState)
    (h : TermInv cfg tr sim) :
    simulationActive (cycle cfg tr sim) = false ∨ MeasureLt tr (cycle cfg tr sim) sim := by
  obtain ⟨hoff, htick, _, _⟩ := termInv_cycle cfg tr sim h
  obtain ⟨o1, o2, o3⟩ := offerLoop_mono cfg tr sim
  obtain ⟨t2, t3, t4, t5⟩ := tick_effect cfg tr _ hoff
  obtain ⟨a1, a2, a3, a4, a5⟩ := advanceLoop_remaining tr
    { forLoop 4 (offerCore cfg tr) sim with
      st := processBusTransactions cfg (forLoop 4 (offerCore cfg tr) sim).st } htick.2
  have hcyc : cycle cfg tr sim
      = { forLoop 4 (advanceCore tr)
            { forLoop 4 (offerCore cfg tr) sim with
              st := processBusTransactions cfg (forLoop 4 (offerCore cfg tr) sim).st } with
          currentCycle := (forLoop 4 (advanceCore tr)
            { forLoop 4 (offerCore cfg tr) sim with
              st := processBusTransactions cfg
                (forLoop 4 (offerCore cfg tr) sim).st }).currentCycle + 1 } := rfl
  generalize hs1 : forLoop 4 (offerCore cfg tr) sim = sim1 at *
  have hrun2 : (processBusTransactions cfg sim1.st).processorRunning
      = sim1.st.processorRunning := processBusTransactions_running cfg sim1.st
  generalize hs2 : ({ sim1 with st := processBusTransactions cfg sim1.st } : SimState)
    = sim2 at *
  have e2st : sim2.st = processBusTransactions cfg sim1.st := by rw [← hs2]
  have e2pos : sim2.tracePosition = sim1.tracePosition := by rw [← hs2]
  generalize hs3 : forLoop 4 (advanceCore tr) sim2 = sim3 at *
  have hw : workLeft tr (cycle cfg tr sim) = workLeft tr sim3 := by rw [hcyc]; rfl
  have hu : unservedCount (cycle cfg tr sim) = unservedCount sim3 := by rw [hcyc]; rfl
  have hqw : queueWeight (cycle cfg tr sim).st = queueWeight sim3.st := by rw [hcyc]
  have hact : simulationActive (cycle cfg tr sim) = simulationActive sim3 := by rw [hcyc]; rfl
  rw [hact]
  unfold MeasureLt
  rw [hw, hu, hqw]
  -- the work left never grows
  have hrem2 : ∀ c, remaining tr sim2 c ≤ remaining tr sim c
      ∧ (remaining tr sim2 c = remaining tr sim c →
          sim2.st.processorRunning c = sim.st.processorRunning c) := by
    intro c
    apply remaining_mono tr
    · rw [e2pos, o1]
    · intro hr
      rw [e2st, hrun2] at hr
      exact o3 c hr
  by_cases hadv : ∃ c, c < 4 ∧ sim2.st.isStalled c = false ∧ sim2.st.processorRunning c = true
  · obtain ⟨c, hc, hs, hr⟩ := hadv
    right
    left
    have hlt := a5 c hc hs hr
    have l0 := Nat.le_trans (a4 0) (hrem2 0).1
    have l1 := Nat.le_trans (a4 1) (hrem2 1).1
    have l2 := Nat.le_trans (a4 2) (hrem2 2).1
    have l3 := Nat.le_trans (a4 3) (hrem2 3).1
    have hc2 := Nat.lt_of_lt_of_le hlt (hrem2 c).1
    unfold workLeft
    have hcases : c = 0 ∨ c = 1 ∨ c = 2 ∨ c = 3 := by omega
    rcases hcases with rfl | rfl | rfl | rfl <;> omega
  · have hno : ∀ c, c < 4 →
        ¬ (sim2.st.isStalled c = false ∧ sim2.st.processorRunning c = true) :=
      fun c hc hx => hadv ⟨c, hc, hx.1, hx.2⟩
    have h32 : sim3 = sim2 := by
      rw [← hs3]
      exact advanceLoop_stays tr sim2 hno
    rw [h32]
    by_cases hwl : workLeft tr sim2 < workLeft tr sim
    · exact Or.inr (Or.inl hwl)
    · have hweq : ∀ c, c < 4 → remaining tr sim2 c = remaining tr sim c := by
        have l0 := (hrem2 0).1
        have l1 := (hrem2 1).1
        have l2 := (hrem2 2).1
        have l3 := (hrem2 3).1
        unfold workLeft at hwl
        intro c hc
        have hcases : c = 0 ∨ c = 1 ∨ c = 2 ∨ c = 3 := by omega
        rcases hcases with rfl | rfl | rfl | rfl <;> omega
      have hrun : ∀ c, c < 4 → sim2.st.processorRunning c = sim.st.processorRunning c :=
        fun c hc => (hrem2 c).2 (hweq c hc)
      have hwl2 : workLeft tr sim2 = workLeft tr sim := by
        unfold workLeft
        rw [hweq 0 (by decide), hweq 1 (by decide), hweq 2 (by decide), hweq 3 (by decide)]
      -- a transfer queued for a running core stays queued
      have hkeep : ∀ c, c < 4 → sim2.st.processorRunning c = true →
          hasTransferFor c sim.st → hasTransferFor c sim2.st := by
        intro c hc hr hT
        have hT1 : hasTransferFor c sim1.st := hasTransferFor_congr o2 hT
        rcases t2 c hT1 with g | g
        · rw [e2st]
          exact g
        · rw [← e2st] at g
          exact absurd ⟨g, hr⟩ (hno c hc)
      have hule : ∀ c, c < 4 → unserved sim2 c ≤ unserved sim c := by
        intro c hc
        unfold unserved
        rw [hrun c hc]
        by_cases hr : sim.st.processorRunning c = true
        · by_cases hT : hasTransferFor c sim.st
          · have hT2 := hkeep c hc ((hrun c hc).trans hr) hT
            rw [if_neg (fun hx => hx.2 hT2)]
            exact Nat.zero_le _
          · have h1 : (if sim.st.processorRunning c = true ∧ ¬ hasTransferFor c sim.st
                then 1 else 0) = 1 := if_pos ⟨hr, hT⟩
            rw [h1]
            split <;> omega
        · rw [if_neg (fun hx => hr hx.1)]
          exact Nat.zero_le _
      by_cases hq : sim.st.dataTransferQueue = []
      · cases hreq : sim1.st.pendingRequests with
        | nil =>
          left
          obtain ⟨q2, s2⟩ := t5 (o2.trans hq) hreq
          have hst1 : ∀ c, c < 4 → sim1.st.isStalled c = false := by
            intro c hc
            cases hx : sim1.st.isStalled c with
            | false => rfl
            | true =>
              rcases hoff.2.2.2.2.1 c hc hx with ⟨t, ht, _⟩ | ⟨_, g⟩
              · rw [o2, hq] at ht
                exact absurd ht (List.not_mem_nil _)
              · obtain ⟨r, hr, _⟩ := g hc
                rw [hreq] at hr
                exact absurd hr (List.not_mem_nil _)
          apply simulationActive_false
          · rw [e2st]
            exact q2
          · intro c hc
            have hs : sim2.st.isStalled c = false := by
              rw [e2st, s2]
              exact hst1 c hc
            refine ⟨?_, hs⟩
            cases hr : sim2.st.processorRunning c with
            | false => rfl
            | true => exact absurd ⟨hs, hr⟩ (hno c hc)
        | cons r rest =>
          right
          right
          refine ⟨hwl2, Or.inl ?_⟩
          obtain ⟨hr4, hwait⟩ := hoff.2.2.2.1 r (by rw [hreq]; exact List.mem_cons_self _ _)
          have hr1 : sim1.st.processorRunning r.requestorId = true := hwait.1
          have hr2 : sim2.st.processorRunning r.requestorId = true := by
            rw [e2st, hrun2]
            exact hr1
          have hr0 : sim.st.processorRunning r.requestorId = true := o3 _ hr1
          have hT2 : hasTransferFor r.requestorId sim2.st := by
            rcases t4 (o2.trans hq) r rest hreq with g | g
            · rw [e2st]
              exact g
            · rw [← e2st] at g
              exact absurd ⟨g, hr2⟩ (hno _ hr4)
          have hnT : ¬ hasTransferFor r.requestorId sim.st := by
            rintro ⟨t, ht, _⟩
            rw [hq] at ht
            exact absurd ht (List.not_mem_nil _)
          have hu1 : unserved sim r.requestorId = 1 := by
            unfold unserved
            rw [if_pos ⟨hr0, hnT⟩]
          have hu0 : unserved sim2 r.requestorId = 0 := by
            unfold unserved
            rw [if_neg (fun hx => hx.2 hT2)]
          have l0 := hule 0 (by decide)
          have l1 := hule 1 (by decide)
          have l2 := hule 2 (by decide)
          have l3 := hule 3 (by decide)
          unfold unservedCount
          have hcases : r.requestorId = 0 ∨ r.requestorId = 1 ∨ r.requestorId = 2
              ∨ r.requestorId = 3 := by omega
          rcases hcases with e | e | e | e <;> rw [e] at hu1 hu0 <;> omega
      · right
        right
        refine ⟨hwl2, ?_⟩
        have hqlt : queueWeight sim2.st < queueWeight sim.st := by
          have hq1 : sim1.st.dataTransferQueue ≠ [] := by
            rw [o2]
            exact hq
          have := t3 hq1
          rw [← e2st] at this
          have he : queueWeight sim1.st = queueWeight sim.st := by
            unfold queueWeight
            rw [o2]
          rw [← he]
          exact this
        have l0 := hule 0 (by decide)
        have l1 := hule 1 (by decide)
        have l2 := hule 2 (by decide)
        have l3 := hule 3 (by decide)
        unfold unservedCount
        by_cases hlt : unserved sim2 0 + unserved sim2 1 + unserved sim2 2 + unserved sim2 3
            < unserved sim 0 + unserved sim 1 + unserved sim 2 + unserved sim 3
        · exact Or.inl hlt
        · exact Or.inr ⟨by omega, hqlt⟩

theorem measureLt_key (tr : Nat → List TraceEntry) (sim2 sim : SimState)
    (h : MeasureLt tr sim2 sim) :
    5 * workLeft tr sim2 + unservedCount sim2 < 5 * workLeft tr sim + unservedCount sim
      ∨ (5 * workLeft tr sim2 + unservedCount sim2 = 5 * workLeft tr sim + unservedCount sim
        ∧ queueWeight sim2.st < queueWeight sim.st) := by
  have b0 := unserved_le_one sim2 0
  have b1 := unserved_le_one sim2 1
  have b2 := unserved_le_one sim2 2
  have b3 := unserved_le_one sim2 3
  unfold MeasureLt at h
  unfold unservedCount at h ⊢
  rcases h with h | ⟨h1, h | ⟨h2, h3⟩⟩
  · left
    omega
  · left
    omega
  · right
    exact ⟨by omega, h3⟩

/-- From every state that satisfies the termination invariant the cycle loop returns, given
enough fuel. -/
theorem cycleLoop_terminates (cfg : Config) (tr : Nat → List TraceEntry) :
    ∀ (a b : Nat) (sim : SimState), TermInv cfg tr sim →
      5 * workLeft tr sim + unservedCount sim = a → queueWeight sim.st = b →
      ∃ fuel r, cycleLoop cfg tr fuel sim = some r := by
  intro a
  induction a using Nat.strong_induction_on with
  | _ a iha =>
    intro b
    induction b using Nat.strong_induction_on with
    | _ b ihb =>
      intro sim hinv ha hb
      by_cases hact : simulationActive (cycle cfg tr sim) = true
      · have hinv2 := (termInv_cycle cfg tr sim hinv).2.2.2
        rcases cycle_progress cfg tr sim hinv with hstop | hlt
        · rw [hstop] at hact
          exact absurd hact (by decide)
        · rcases measureLt_key tr _ _ hlt with h1 | ⟨h1, h2⟩
          · obtain ⟨fuel, r, hr⟩ := iha _ (by rw [← ha]; exact h1) _ (cycle cfg tr sim) hinv2
              rfl rfl
            refine ⟨fuel + 1, r, ?_⟩
            simp only [cycleLoop, hact, if_true]
            exact hr
          · obtain ⟨fuel, r, hr⟩ := ihb _ (by rw [← hb]; exact h2) (cycle cfg tr sim) hinv2
              (by rw [h1, ha]) rfl
            refine ⟨fuel + 1, r, ?_⟩
            simp only [cycleLoop, hact, if_true]
            exact hr
      · refine ⟨1, cycle cfg tr sim, ?_⟩
        simp only [cycleLoop, hact]
        rfl

theorem cycleLoop_more_fuel (cfg : Config) (tr : Nat → List TraceEntry) :
    ∀ (fuel k : Nat) (sim r : SimState), cycleLoop cfg tr fuel sim = some r →
      cycleLoop cfg tr (fuel + k) sim = some r := by
  intro fuel
  induction fuel with
  | zero =>
    intro k sim r h
    simp [cycleLoop] at h
  | succ n ih =>
    intro k sim r h
    rw [Nat.add_right_comm]
    simp only [cycleLoop] at h ⊢
    split
    · rename_i hact
      rw [if_pos hact] at h
      exact ih k _ r h
    · rename_i hact
      rw [if_neg hact] at h
      exact h

/-- Claim C18 (termination): for every geometry with `E ≥ 1` and `b ≥ 1` (and any `s`) and
any four finite traces, `runMulticoreSimulation` returns for some amount of fuel and every
larger one; in the state it returns no core is running, no core is stalled and the
data-transfer queue is empty, and that state is reached after finitely many cycles. -/
theorem simulation_terminates (cfg : Config) (tr : Nat → List TraceEntry)
    (_hE : 1 ≤ cfg.associativity) (_hb : 1 ≤ cfg.numBlockBits) :
    ∃ fuel sim, (∀ k, runMulticoreSimulation cfg tr (fuel + k) = some sim)
      ∧ sim.st.dataTransferQueue = []
      ∧ (∀ c, c < 4 → sim.st.processorRunning c = false ∧ sim.st.isStalled c = false)
      ∧ ∃ n, 0 < n ∧ simulationActive (cycles cfg tr n) = false
          ∧ sim.tracePosition = (cycles cfg tr n).tracePosition := by
  obtain ⟨fuel, r, hr⟩ := cycleLoop_terminates cfg tr _ _ (initialSim cfg)
    (termInv_initial cfg tr) rfl rfl
  have hrun : ∀ k, runMulticoreSimulation cfg tr (fuel + k)
      = some { r with
          st := { r.st with
            readCount := fun c => r.st.readCount c + countOps (tr c) Op.R
            writeCount := fun c => r.st.writeCount c + countOps (tr c) Op.W } } := by
    intro k
    unfold runMulticoreSimulation
    rw [cycleLoop_more_fuel cfg tr fuel k _ r hr]
  obtain ⟨m, hm, hterm, hpos, hst⟩ := runMulticoreSimulation_result cfg tr (fuel + 0) _ (hrun 0)
  obtain ⟨hq, hcores⟩ := terminated_elim hterm
  refine ⟨fuel, _, hrun, ?_, ?_, m, hm, hterm, hpos⟩
  · rw [hst]
    exact hq
  · intro c hc
    rw [hst]
    exact hcores c hc

theorem simulation_terminates_witness :
    1 ≤ scenarioConfig.associativity ∧ 1 ≤ scenarioConfig.numBlockBits
      ∧ ∃ fuel sim, (∀ k, runMulticoreSimulation scenarioConfig scenarioSingleWrite (fuel + k)
            = some sim)
          ∧ sim.st.dataTransferQueue = []
          ∧ (∀ c, c < 4 → sim.st.processorRunning c = false ∧ sim.st.isStalled c = false)
          ∧ ∃ n, 0 < n ∧ simulationActive (cycles scenarioConfig scenarioSingleWrite n) = false
              ∧ sim.tracePosition = (cycles scenarioConfig scenarioSingleWrite n).tracePosition :=
  ⟨by decide, by decide,
    simulation_terminates scenarioConfig scenarioSingleWrite (by decide) (by decide)⟩

/-! ### Address decoding -/

theorem nat_ldiff_mask (s m : Nat) : Nat.ldiff (2 ^ s - 1) m = 2 ^ s - (m % 2 ^ s + 1) := by
  apply Nat.eq_of_testBit_eq
  intro i
  rw [Nat.testBit_ldiff, Nat.testBit_two_pow_sub_one,
    Nat.testBit_two_pow_sub_succ (Nat.mod_lt _ (Nat.two_pow_pos s)), Nat.testBit_mod_two_pow]
  by_cases h : i < s <;> simp [h]

theorem int_land_mask (x : Int) (s : Nat) : Int.land x ((2 : Int) ^ s - 1) = x % (2 : Int) ^ s := by
  have hc : ((2 : Int) ^ s) = ((2 ^ s : Nat) : Int) := by push_cast; rfl
  have hpos := Nat.two_pow_pos s
  have hm : ((2 : Int) ^ s - 1) = ((2 ^ s - 1 : Nat) : Int) := by
    rw [hc]
    omega
  rw [hm]
  cases x with
  | ofNat n =>
    show ((n &&& (2 ^ s - 1) : Nat) : Int) = _
    rw [Nat.and_pow_two_sub_one_eq_mod, hc]
    simp
  | negSucc m =>
    show ((Nat.ldiff (2 ^ s - 1) m : Nat) : Int) = _
    rw [nat_ldiff_mask, hc]
    have h1 := Nat.mod_lt m hpos
    rw [Int.negSucc_emod m (by omega)]
    generalize 2 ^ s = p at *
    have h2 : ((m : Int) % (p : Int)) = ((m % p : Nat) : Int) := by simp
    rw [h2]
    omega

theorem setIndexOf_eq (cfg : Config) (a : Int) :
    (setIndexOf cfg a : Int) = blockOf cfg a % (2 : Int) ^ cfg.numSetBits := by
  unfold setIndexOf blockOf
  rw [int_land_mask]
  exact Int.toNat_of_nonneg (Int.emod_nonneg _ (by positivity))

theorem tagOf_eq (cfg : Config) (a : Int) :
    tagOf cfg a = blockOf cfg a / (2 : Int) ^ cfg.numSetBits := by
  unfold tagOf blockOf
  rw [Nat.add_comm, Int.shiftRight_add, Int.shiftRight_eq_div_pow (a >>> cfg.numBlockBits)]
  norm_cast

theorem tagOf_range (cfg : Config) (a : Int) (h1 : -2147483648 ≤ a) (h2 : a < 2147483648) :
    -2147483648 ≤ tagOf cfg a ∧ tagOf cfg a < 2147483648 := by
  unfold tagOf
  rw [Int.shiftRight_eq_div_pow]
  have hpos : (0 : Int) < ((2 ^ (cfg.numSetBits + cfg.numBlockBits) : Nat) : Int) := by positivity
  generalize ((2 ^ (cfg.numSetBits + cfg.numBlockBits) : Nat) : Int) = d at *
  constructor
  · rw [Int.le_ediv_iff_mul_le hpos]
    nlinarith
  · rw [Int.ediv_lt_iff_lt_mul hpos]
    nlinarith

/-- Two `int` addresses with the same set index and the same stored tag lie in the same block. -/
theorem same_line_same_block (cfg : Config) (a1 a2 : Int)
    (h1 : -2147483648 ≤ a1 ∧ a1 < 2147483648) (h2 : -2147483648 ≤ a2 ∧ a2 < 2147483648)
    (hs : setIndexOf cfg a1 = setIndexOf cfg a2)
    (ht : toUnsigned (tagOf cfg a1) = toUnsigned (tagOf cfg a2)) :
    blockOf cfg a1 = blockOf cfg a2 := by
  have r1 := tagOf_range cfg a1 h1.1 h1.2
  have r2 := tagOf_range cfg a2 h2.1 h2.2
  have ht2 : tagOf cfg a1 = tagOf cfg a2 := by
    unfold toUnsigned at ht
    omega
  have hs2 : (setIndexOf cfg a1 : Int) = (setIndexOf cfg a2 : Int) := by rw [hs]
  rw [setIndexOf_eq, setIndexOf_eq] at hs2
  rw [tagOf_eq, tagOf_eq] at ht2
  rw [← Int.ediv_add_emod (blockOf cfg a1) ((2 : Int) ^ cfg.numSetBits),
    ← Int.ediv_add_emod (blockOf cfg a2) ((2 : Int) ^ cfg.numSetBits), hs2, ht2]

/-! ### Entries in distinct blocks -/

theorem allEntries_get (tr : Nat → List TraceEntry) (c i : Nat) (e : TraceEntry) (hc : c < 4)
    (h : (tr c)[i]? = some e) :
    (allEntries tr)[entryOffset tr c + i]? = some e ∧ i < (tr c).length := by
  have hi : i < (tr c).length := by
    rcases Nat.lt_or_ge i (tr c).length with g | g
    · exact g
    · rw [List.getElem?_eq_none g] at h
      exact absurd h (by simp)
  refine ⟨?_, hi⟩
  have hcases : c = 0 ∨ c = 1 ∨ c = 2 ∨ c = 3 := by omega
  unfold allEntries
  rcases hcases with rfl | rfl | rfl | rfl
  · simp only [entryOffset, forLoop, Nat.zero_add]
    rw [List.getElem?_append_left (by simp; omega), List.getElem?_append_left (by simp; omega),
      List.getElem?_append_left hi]
    exact h
  · simp only [entryOffset, forLoop, Nat.zero_add]
    rw [List.getElem?_append_left (by simp; omega), List.getElem?_append_left (by simp; omega),
      List.getElem?_append_right (by omega)]
    rw [Nat.add_sub_cancel_left]
    exact h
  · simp only [entryOffset, forLoop, Nat.zero_add]
    rw [List.getElem?_append_left (by simp; omega),
      List.getElem?_append_right (by simp)]
    have he : (tr 0).length + (tr 1).length + i - (tr 0 ++ tr 1).length = i := by
      simp
    rw [he]
    exact h
  · simp only [entryOffset, forLoop, Nat.zero_add]
    rw [List.getElem?_append_right (by simp; omega)]
    have he : (tr 0).length + (tr 1).length + (tr 2).length + i
        - (tr 0 ++ tr 1 ++ tr 2).length = i := by
      simp
      omega
    rw [he]
    exact h

theorem nodup_index {α : Type} (l : List α) (h : l.Nodup) (i j : Nat) (x : α)
    (hi : l[i]? = some x) (hj : l[j]? = some x) : i = j := by
  obtain ⟨hi1, hi2⟩ := List.getElem?_eq_some_iff.mp hi
  obtain ⟨hj1, hj2⟩ := List.getElem?_eq_some_iff.mp hj
  exact (List.Nodup.getElem_inj_iff h).mp (hi2.trans hj2.symm)

/-- Two entries of the traces in the same block are the same entry. -/
theorem entries_distinct (cfg : Config) (tr : Nat → List TraceEntry)
    (hd : DistinctBlocks cfg tr) (c1 c2 i1 i2 : Nat) (e1 e2 : TraceEntry)
    (hc1 : c1 < 4) (hc2 : c2 < 4) (h1 : (tr c1)[i1]? = some e1) (h2 : (tr c2)[i2]? = some e2)
    (hb : blockOf cfg e1.addr = blockOf cfg e2.addr) : c1 = c2 ∧ i1 = i2 := by
  obtain ⟨g1, l1⟩ := allEntries_get tr c1 i1 e1 hc1 h1
  obtain ⟨g2, l2⟩ := allEntries_get tr c2 i2 e2 hc2 h2
  have m1 : ((allEntries tr).map (fun e => blockOf cfg e.addr))[entryOffset tr c1 + i1]?
      = some (blockOf cfg e1.addr) := by
    rw [List.getElem?_map, g1]
    rfl
  have m2 : ((allEntries tr).map (fun e => blockOf cfg e.addr))[entryOffset tr c2 + i2]?
      = some (blockOf cfg e1.addr) := by
    rw [List.getElem?_map, g2, hb]
    rfl
  have hidx := nodup_index _ hd _ _ _ m1 m2
  have hcases1 : c1 = 0 ∨ c1 = 1 ∨ c1 = 2 ∨ c1 = 3 := by omega
  have hcases2 : c2 = 0 ∨ c2 = 1 ∨ c2 = 2 ∨ c2 = 3 := by omega
  rcases hcases1 with rfl | rfl | rfl | rfl <;> rcases hcases2 with rfl | rfl | rfl | rfl <;>
    simp only [entryOffset, forLoop, Nat.zero_add] at hidx <;> omega

/-! ### Runs of reads of distinct blocks: the steps -/

theorem selectVictim_clean (cfg : Config) (ds : Bool) (st : State) (c s : Nat)
    (hclean : ∀ c2 s2 w2, st.dirtyFlags c2 s2 w2 = false) :
    (selectVictim cfg ds st c s false).2.1 = false
      ∧ (selectVictim cfg ds st c s false).2.2.dataTransferQueue = st.dataTransferQueue
      ∧ (selectVictim cfg ds st c s false).2.2.isStalled = st.isStalled
      ∧ (selectVictim cfg ds st c s false).2.2.dirtyFlags = st.dirtyFlags := by
  unfold selectVictim
  dsimp only
  split
  · rw [if_neg (by rw [hclean]; decide)]
    exact ⟨rfl, rfl, rfl, rfl⟩
  · exact ⟨rfl, rfl, rfl, rfl⟩

/-- Completion of a read fill in a state without dirty lines: no writeback is queued, the
destination is released, and no line is dirty afterwards. -/
theorem completeTransfer_clean (cfg : Config) (st : State) (t : BusDataTransfer)
    (hclean : ∀ c s w, st.dirtyFlags c s w = false)
    (hw : t.isWriteOp = false) (hwb : t.isWritebackOp = false) (hinv : t.isInvalidation = false) :
    (completeTransfer cfg st t).dataTransferQueue = st.dataTransferQueue
      ∧ (completeTransfer cfg st t).isStalled = set1 st.isStalled t.destinationCore false
      ∧ (∀ c s w, (completeTransfer cfg st t).dirtyFlags c s w = false) := by
  obtain ⟨h1, h2, h3, h4⟩ := selectVictim_clean cfg true
    { st with
      totalBusTraffic := st.totalBusTraffic + bytesPerBlock cfg
      trafficBytes := set1 st.trafficBytes t.destinationCore
        (st.trafficBytes t.destinationCore + bytesPerBlock cfg) }
    t.destinationCore (setIndexOf cfg t.targetAddress) hclean
  unfold completeTransfer processReadMiss
  dsimp only
  simp only [hwb, hw, hinv, Bool.not_false, if_true, Bool.false_eq_true, if_false]
  generalize selectVictim cfg true
    { st with
      totalBusTraffic := st.totalBusTraffic + bytesPerBlock cfg
      trafficBytes := set1 st.trafficBytes t.destinationCore
        (st.trafficBytes t.destinationCore + bytesPerBlock cfg) }
    t.destinationCore (setIndexOf cfg t.targetAddress) false = sv at h1 h2 h3 h4
  rw [h1]
  simp only [Bool.false_eq_true, if_false]
  unfold installLine
  dsimp only
  refine ⟨h2, by rw [h3], ?_⟩
  intro c s w
  rw [set3_apply]
  split
  · rfl
  · rw [h4]
    exact hclean c s w

/-- The data phase when the only queued transfer is a read fill with no cycle left, in a state
without dirty lines. -/
theorem dataPhase_read_fill (cfg : Config) (st : State) (t : BusDataTransfer)
    (hq : st.dataTransferQueue = [t]) (hp : t.pendingCycles = 0)
    (hclean : ∀ c s w, st.dirtyFlags c s w = false)
    (hw : t.isWriteOp = false) (hwb : t.isWritebackOp = false) (hinv : t.isInvalidation = false) :
    (dataPhase cfg st).dataTransferQueue = []
      ∧ (dataPhase cfg st).isStalled = set1 st.isStalled t.destinationCore false
      ∧ (∀ c s w, (dataPhase cfg st).dirtyFlags c s w = false)
      ∧ (dataPhase cfg st).missCount = st.missCount
      ∧ (dataPhase cfg st).processorRunning = st.processorRunning
      ∧ ∃ v X, (dataPhase cfg st).tagArray
            = set3 st.tagArray t.destinationCore (setIndexOf cfg t.targetAddress) v
                (toUnsigned (tagOf cfg t.targetAddress))
          ∧ (dataPhase cfg st).coherenceTable
            = set3 st.coherenceTable t.destinationCore (setIndexOf cfg t.targetAddress) v X := by
  obtain ⟨c1, c2, c3⟩ := completeTransfer_clean cfg st t hclean hw hwb hinv
  have hfr := completeTransfer_frame cfg st t
  obtain ⟨v, X, e1, e2, _⟩ := (completeTransfer_effect cfg st t).2 (by simp [isFill, hw, hwb, hinv])
  have hm := hfr.2.2.2.2.2.2.2.2.2.1
  have hr := hfr.2.2.2.2.2.2.2.2.2.2.2.2.2
  unfold dataPhase
  rw [hq]
  dsimp only
  rw [if_pos hp]
  generalize completeTransfer cfg st t = cT at *
  rw [hq] at c1
  split
  · exact ⟨by simp [c1], c2, c3, hm, hr, v, X, e1, e2⟩
  · exact ⟨by simp [c1], c2, c3, hm, hr, v, X, e1, e2⟩

/-- The request loop entered with the bus busy: every request is dropped. -/
theorem requestLoop_busy_view (cfg : Config) (q : List BusTransaction) (st : State)
    (hb : st.busOccupied = true) :
    (requestLoop cfg q st).dirtyFlags = st.dirtyFlags
      ∧ (requestLoop cfg q st).dataTransferQueue = st.dataTransferQueue
      ∧ (requestLoop cfg q st).coherenceTable = st.coherenceTable
      ∧ (requestLoop cfg q st).tagArray = st.tagArray
      ∧ (requestLoop cfg q st).missCount = st.missCount
      ∧ (requestLoop cfg q st).processorRunning = st.processorRunning
      ∧ ∀ c, st.isStalled c = true → (requestLoop cfg q st).isStalled c = true := by
  obtain ⟨⟨w1, _, w3, w4, _, w6⟩, hq, _, _⟩ := requestLoop_busy cfg q st hb
  have h := requestLoop_preserves cfg
    (fun s => s.busOccupied = true ∧ s.dirtyFlags = st.dirtyFlags ∧ s.missCount = st.missCount)
    (fun s rest hs => hs)
    (by
      intro s r ⟨g1, g2, g3⟩
      unfold serviceRequest
      dsimp only
      rw [if_pos g1]
      exact ⟨g1, g2, g3⟩)
    q st ⟨hb, rfl, rfl⟩
  exact ⟨h.2.1, hq, w3, w4, h.2.2, w1, w6⟩

/-- Service of a `READ_SHARED` request with the bus idle when no other core holds the block:
the miss is counted and a fill from memory is queued. -/
theorem serviceRequest_read_idle (cfg : Config) (st : State) (r : BusTransaction)
    (hb : st.busOccupied = false) (hk : r.reqType = BusRequestType.READ_SHARED)
    (hn : findOtherHolder cfg st r.requestorId (setIndexOf cfg r.memoryAddress)
      (tagOf cfg r.memoryAddress) = none) :
    (serviceRequest cfg st r).busOccupied = true
      ∧ (serviceRequest cfg st r).dirtyFlags = st.dirtyFlags
      ∧ (serviceRequest cfg st r).dataTransferQueue
          = st.dataTransferQueue ++ [⟨r.memoryAddress, r.requestorId, false, false, false, 100⟩]
      ∧ (serviceRequest cfg st r).coherenceTable = st.coherenceTable
      ∧ (serviceRequest cfg st r).tagArray = st.tagArray
      ∧ (serviceRequest cfg st r).missCount
          = set1 st.missCount r.requestorId (st.missCount r.requestorId + 1)
      ∧ (serviceRequest cfg st r).processorRunning = st.processorRunning
      ∧ (serviceRequest cfg st r).isStalled = set1 st.isStalled r.requestorId true := by
  unfold serviceRequest
  dsimp only
  rw [if_neg (by rw [hb]; decide), hk]
  dsimp only
  unfold serviceReadShared
  dsimp only
  have hn2 : findOtherHolder cfg
      { st with
        pendingOperations := set1 st.pendingOperations r.requestorId r.memoryAddress
        busOccupied := true
        busTransactionCount := st.busTransactionCount + 1
        missCount := set1 st.missCount r.requestorId (st.missCount r.requestorId + 1)
        ghostLog := st.ghostLog ++ [Event.readSharedServiced r.requestorId] }
      r.requestorId (setIndexOf cfg r.memoryAddress) (tagOf cfg r.memoryAddress) = none := hn
  rw [hn2]
  exact ⟨rfl, rfl, rfl, rfl, rfl, rfl, rfl, rfl⟩

/-- A read that misses: the two cases of `executeMemoryOperation`. -/
theorem executeMemoryOperation_read (cfg : Config) (st : State) (e : TraceEntry) (c : Nat)
    (he : e.op = Op.R)
    (hl : lookupWay cfg st c (setIndexOf cfg e.addr) (tagOf cfg e.addr) = none) :
    (executeMemoryOperation cfg st e c).dirtyFlags = st.dirtyFlags
      ∧ (executeMemoryOperation cfg st e c).coherenceTable = st.coherenceTable
      ∧ ((st.pendingOperations c ≠ -1
          ∧ (executeMemoryOperation cfg st e c).isStalled = st.isStalled
          ∧ (executeMemoryOperation cfg st e c).pendingRequests = st.pendingRequests)
        ∨ (st.pendingOperations c = -1
          ∧ (executeMemoryOperation cfg st e c).isStalled = set1 st.isStalled c true
          ∧ (executeMemoryOperation cfg st e c).pendingRequests
              = st.pendingRequests ++ [⟨c, e.addr, BusRequestType.READ_SHARED⟩])) := by
  unfold executeMemoryOperation
  dsimp only
  split
  · rename_i hp
    exact ⟨rfl, rfl, Or.inl ⟨hp, rfl, rfl⟩⟩
  · rename_i hp
    rw [he]
    dsimp only
    have hl2 : lookupWay cfg { st with operationCounter := st.operationCounter + 1 } c
        (setIndexOf cfg e.addr) (tagOf cfg e.addr) = none := hl
    rw [hl2]
    exact ⟨rfl, rfl, Or.inr ⟨by simpa using hp, rfl, rfl⟩⟩

/-! ### Runs of reads of distinct blocks: the invariant -/

theorem mem_of_getElem_some {α : Type} {l : List α} {i : Nat} {x : α} (h : l[i]? = some x) :
    x ∈ l := by
  obtain ⟨hi, hx⟩ := List.getElem?_eq_some_iff.mp h
  rw [← hx]
  exact List.getElem_mem hi

theorem mem_allEntries (tr : Nat → List TraceEntry) (c : Nat) (hc : c < 4) (e : TraceEntry)
    (h : e ∈ tr c) : e ∈ allEntries tr := by
  have hcases : c = 0 ∨ c = 1 ∨ c = 2 ∨ c = 3 := by omega
  unfold allEntries
  rcases hcases with rfl | rfl | rfl | rfl <;> simp [h]

theorem lineDistinct_of (cfg : Config) (tr : Nat → List TraceEntry)
    (hd : DistinctBlocks cfg tr) (hi : IntAddresses tr) : LineDistinct cfg tr := by
  intro c1 c2 i1 i2 e1 e2 hc1 hc2 h1 h2 hs ht
  have m1 : e1 ∈ allEntries tr := mem_allEntries tr c1 hc1 e1 (mem_of_getElem_some h1)
  have m2 : e2 ∈ allEntries tr := mem_allEntries tr c2 hc2 e2 (mem_of_getElem_some h2)
  exact entries_distinct cfg tr hd c1 c2 i1 i2 e1 e2 hc1 hc2 h1 h2
    (same_line_same_block cfg e1.addr e2.addr (hi e1 m1) (hi e2 m2) hs ht)

theorem advancing_four (sim : SimState) (c : Nat) : advancing 4 sim c = 0 := by
  unfold advancing
  rw [if_neg]
  intro h
  omega

theorem advancing_zero_of (k : Nat) (sim : SimState) (c : Nat)
    (h : c < 4 → sim.st.processorRunning c = true → sim.st.isStalled c = true) :
    advancing k sim c = 0 := by
  unfold advancing
  rw [if_neg]
  rintro ⟨_, hc, hs, hr⟩
  rw [h hc hr] at hs
  exact absurd hs (by decide)

theorem advancing_one_of (k : Nat) (sim : SimState) (c : Nat) (hk : k ≤ c) (hc : c < 4)
    (hs : sim.st.isStalled c = false) (hr : sim.st.processorRunning c = true) :
    advancing k sim c = 1 := by
  unfold advancing
  rw [if_pos ⟨hk, hc, hs, hr⟩]

theorem transferCount_congr {st st2 : State} (h : st2.dataTransferQueue = st.dataTransferQueue)
    (c : Nat) : transferCount c st2 = transferCount c st := by
  unfold transferCount hasTransferFor
  simp only [h]

theorem transferCount_nil {st : State} (h : st.dataTransferQueue = []) (c : Nat) :
    transferCount c st = 0 := by
  unfold transferCount hasTransferFor
  simp [h]

theorem transferCount_single {st : State} {t : BusDataTransfer}
    (h : st.dataTransferQueue = [t]) (c : Nat) :
    transferCount c st = if t.destinationCore = c then 1 else 0 := by
  unfold transferCount hasTransferFor
  simp [h]

/-- In a run of reads of distinct blocks the entry under the cursor of a core is not in its
cache. -/
theorem lookupWay_none_of_lines (cfg : Config) (tr : Nat → List TraceEntry)
    (hd : LineDistinct cfg tr) (sim : SimState) (hl : LinesBelow cfg tr 4 sim) (c : Nat)
    (hc : c < 4) (e : TraceEntry) (he : (tr c)[sim.tracePosition c]? = some e) :
    lookupWay cfg sim.st c (setIndexOf cfg e.addr) (tagOf cfg e.addr) = none := by
  cases h : lookupWay cfg sim.st c (setIndexOf cfg e.addr) (tagOf cfg e.addr) with
  | none => rfl
  | some w =>
    unfold lookupWay at h
    obtain ⟨_, hp, _⟩ := findFirst_some h
    simp only [Bool.and_eq_true, bne_iff_ne, ne_eq, beq_iff_eq] at hp
    obtain ⟨_, j, e2, hj, hget, hset, htag⟩ := hl c _ w hp.1
    rw [advancing_four] at hj
    have := (hd c c j (sim.tracePosition c) e2 e hc hc hget he hset (htag.symm.trans hp.2)).2
    omega

/-- In a run of reads of distinct blocks the entry under the cursor of a core is in no other
cache. -/
theorem findOtherHolder_none_of_lines (cfg : Config) (tr : Nat → List TraceEntry)
    (hd : LineDistinct cfg tr) (sim : SimState) (hl : LinesBelow cfg tr 4 sim) (c : Nat)
    (hc : c < 4) (e : TraceEntry) (he : (tr c)[sim.tracePosition c]? = some e) :
    findOtherHolder cfg sim.st c (setIndexOf cfg e.addr) (tagOf cfg e.addr) = none := by
  cases h : findOtherHolder cfg sim.st c (setIndexOf cfg e.addr) (tagOf cfg e.addr) with
  | none => rfl
  | some p =>
    obtain ⟨d, w⟩ := p
    obtain ⟨hd4, hne, _, hh⟩ := findOtherHolder_some h
    unfold holdsLine at hh
    simp only [Bool.and_eq_true, bne_iff_ne, ne_eq, beq_iff_eq] at hh
    obtain ⟨_, j, e2, hj, hget, hset, htag⟩ := hl d _ w hh.2
    have := (hd d c j (sim.tracePosition c) e2 e hd4 hc hget he hset (htag.symm.trans hh.1)).1
    exact absurd this hne

/-- A step that changes neither lines nor cursors and leaves no core about to retire keeps the
invariant, given the new queue and miss counts. -/
theorem readInv_wait (cfg : Config) (tr : Nat → List TraceEntry) (k : Nat) (sim sim2 : SimState)
    (h : ReadInv cfg tr 4 sim)
    (hdirty : sim2.st.dirtyFlags = sim.st.dirtyFlags)
    (hcoh : sim2.st.coherenceTable = sim.st.coherenceTable)
    (htag : sim2.st.tagArray = sim.st.tagArray)
    (hpos : sim2.tracePosition = sim.tracePosition)
    (hadv : ∀ c, advancing k sim2 c = 0)
    (hq : ReadQueueOk tr sim2)
    (hm : ∀ c, c < 4 → sim2.st.missCount c
      = ((sim.tracePosition c + transferCount c sim2.st : Nat) : Int))
    (hrun : ∀ c, c < 4 → sim2.st.processorRunning c = false →
      sim.tracePosition c = (tr c).length) :
    ReadInv cfg tr k sim2 := by
  obtain ⟨hclean, _, hlines, _, hcur⟩ := h
  refine ⟨?_, hq, ?_, ?_, ?_⟩
  · intro c s w
    rw [hdirty]
    exact hclean c s w
  · intro c s w hv
    rw [hcoh] at hv
    obtain ⟨hc, j, e, hj, hget, hset, ht⟩ := hlines c s w hv
    rw [advancing_four] at hj
    refine ⟨hc, j, e, ?_, hget, hset, ?_⟩
    · rw [hpos, hadv]
      exact hj
    · rw [htag]
      exact ht
  · intro c hc
    rw [hm c hc, hpos, hadv]
    rfl
  · intro c hc
    rw [hpos, hadv]
    have := (hcur c hc).1
    rw [advancing_four] at this
    exact ⟨this, hrun c hc⟩

/-- One iteration of the first loop in a run of reads of distinct blocks, from the facts about
the new state: core `i` has stopped at the end of its trace, or it runs, is stalled and has
offered at most the read of the entry under its cursor. -/
theorem readOffered_step (cfg : Config) (tr : Nat → List TraceEntry) (i : Nat)
    (sim sim2 : SimState) (h : ReadOffered cfg tr i sim)
    (fdirty : sim2.st.dirtyFlags = sim.st.dirtyFlags)
    (fcoh : sim2.st.coherenceTable = sim.st.coherenceTable)
    (ftag : sim2.st.tagArray = sim.st.tagArray)
    (fpos : sim2.tracePosition = sim.tracePosition)
    (fqueue : sim2.st.dataTransferQueue = sim.st.dataTransferQueue)
    (fmiss : sim2.st.missCount = sim.st.missCount)
    (fstall : ∀ c, sim.st.isStalled c = true → sim2.st.isStalled c = true)
    (frun : ∀ c, c ≠ i → sim2.st.processorRunning c = sim.st.processorRunning c)
    (fi : (sim2.st.processorRunning i = false
          ∧ (sim.st.processorRunning i = false ∨ (tr i)[sim.tracePosition i]? = none)
          ∧ sim2.st.pendingRequests = sim.st.pendingRequests)
        ∨ (sim2.st.processorRunning i = true ∧ i < 4 ∧ sim2.st.isStalled i = true
          ∧ (sim2.st.pendingRequests = sim.st.pendingRequests
            ∨ ∃ e, (tr i)[sim.tracePosition i]? = some e
                ∧ sim2.st.pendingRequests
                  = sim.st.pendingRequests ++ [⟨i, e.addr, BusRequestType.READ_SHARED⟩]))) :
    ReadOffered cfg tr (i + 1) sim2 := by
  obtain ⟨hinv, hreq, hst⟩ := h
  have hqok := hinv.2.1
  have hcount := hinv.2.2.2.1
  have hcur := hinv.2.2.2.2
  -- a core that ran with an entry under its cursor still runs
  have hkeep : ∀ c, sim.st.processorRunning c = true →
      (∃ e, (tr c)[sim.tracePosition c]? = some e) → sim2.st.processorRunning c = true := by
    intro c hr he
    by_cases hci : c = i
    · subst hci
      rcases fi with ⟨_, g | g, _⟩ | ⟨g, _⟩
      · rw [hr] at g
        exact absurd g (by decide)
      · obtain ⟨e, he⟩ := he
        rw [he] at g
        exact absurd g (by simp)
      · exact g
    · rw [frun c hci]
      exact hr
  refine ⟨?_, ?_, ?_⟩
  · apply readInv_wait cfg tr 4 sim sim2 hinv fdirty fcoh ftag fpos (advancing_four sim2)
    · refine ⟨by rw [fqueue]; exact hqok.1, ?_⟩
      intro t ht
      rw [fqueue] at ht
      obtain ⟨g1, g2, g3, g4, g5, g6, e, g7, g8⟩ := hqok.2 t ht
      refine ⟨g1, g2, g3, g4, fstall _ g5, hkeep _ g6 ⟨e, g7⟩, e, ?_, g8⟩
      rw [fpos]
      exact g7
    · intro c hc
      rw [fmiss, hcount c hc, advancing_four, transferCount_congr fqueue]
      rfl
    · intro c hc hr
      by_cases hci : c = i
      · subst hci
        rcases fi with ⟨_, g | g, _⟩ | ⟨g, _⟩
        · exact (hcur c hc).2 g
        · have h1 := (hcur c hc).1
          rw [advancing_four] at h1
          have h2 : (tr c).length ≤ sim.tracePosition c := by
            rcases Nat.lt_or_ge (sim.tracePosition c) (tr c).length with g2 | g2
            · rw [List.getElem?_eq_getElem g2] at g
              exact absurd g (by simp)
            · exact g2
          omega
        · rw [g] at hr
          exact absurd hr (by decide)
      · rw [frun c hci] at hr
        exact (hcur c hc).2 hr
  · intro r hr
    have hold : ∀ r ∈ sim.st.pendingRequests,
        r.reqType = BusRequestType.READ_SHARED ∧ r.requestorId < 4
          ∧ sim2.st.processorRunning r.requestorId = true
          ∧ ∃ e, (tr r.requestorId)[sim2.tracePosition r.requestorId]? = some e
              ∧ e.addr = r.memoryAddress := by
      intro r hr
      obtain ⟨g1, g2, g3, e, g4, g5⟩ := hreq r hr
      refine ⟨g1, g2, hkeep _ g3 ⟨e, g4⟩, e, ?_, g5⟩
      rw [fpos]
      exact g4
    rcases fi with ⟨_, _, g⟩ | ⟨g1, g2, _, g | ⟨e, he, g⟩⟩
    · rw [g] at hr
      exact hold r hr
    · rw [g] at hr
      exact hold r hr
    · rw [g] at hr
      rcases List.mem_append.mp hr with hr | hr
      · exact hold r hr
      · have hre : r = ⟨i, e.addr, BusRequestType.READ_SHARED⟩ := by simpa using hr
        rw [hre]
        refine ⟨rfl, g2, g1, e, ?_, rfl⟩
        rw [fpos]
        exact he
  · intro c hc hr
    by_cases hci : c = i
    · subst hci
      rcases fi with ⟨g, _⟩ | ⟨_, _, g, _⟩
      · rw [g] at hr
        exact absurd hr (by decide)
      · exact g
    · rw [frun c hci] at hr
      exact fstall c (hst c (by omega) hr)

/-- One iteration of the first loop in a run of reads of distinct blocks. -/
theorem readOffered_offerCore (cfg : Config) (tr : Nat → List TraceEntry)
    (hreads : AllReads tr) (hd : LineDistinct cfg tr) (i : Nat) (sim : SimState) (hi : i < 4)
    (hterm : TermOffered cfg tr i sim) (h : ReadOffered cfg tr i sim) :
    ReadOffered cfg tr (i + 1) (offerCore cfg tr i sim) := by
  by_cases hrun : sim.st.processorRunning i = true
  · cases he : (tr i)[sim.tracePosition i]? with
    | none =>
      have heq : offerCore cfg tr i sim
          = { sim with
              st := { sim.st with
                processorRunning := set1 sim.st.processorRunning i false } } := by
        unfold offerCore
        dsimp only
        rw [if_neg (by simp [hrun]), he]
      rw [heq]
      refine readOffered_step cfg tr i sim _ h rfl rfl rfl rfl rfl rfl (fun _ g => g) ?_ ?_
      · intro c hc
        exact set1_of_ne _ _ _ _ hc
      · exact Or.inl ⟨by simp, Or.inr he, rfl⟩
    | some e =>
      have heq : offerCore cfg tr i sim
          = { sim with st := executeMemoryOperation cfg sim.st e i } := by
        unfold offerCore
        dsimp only
        rw [if_neg (by simp [hrun]), he]
      rw [heq]
      have hop : e.op = Op.R :=
        hreads e (mem_allEntries tr i hi e (mem_of_getElem_some he))
      have hl := lookupWay_none_of_lines cfg tr hd sim h.1.2.2.1 i hi e he
      obtain ⟨x1, x2, x3⟩ := executeMemoryOperation_read cfg sim.st e i hop hl
      have hf := executeMemoryOperation_frame cfg sim.st e i
      have hrun2 : (executeMemoryOperation cfg sim.st e i).processorRunning
          = sim.st.processorRunning := hf.2.2.2.2.2.2.2.2.2.2.2.2.2.2.2.2.2.1
      refine readOffered_step cfg tr i sim _ h x1 x2 hf.1 rfl hf.2.2.2.2.2.1
        hf.2.2.2.2.2.2.2.2.2.1 ?_ ?_ ?_
      · intro c hc
        rcases x3 with ⟨_, g, _⟩ | ⟨_, g, _⟩
        · show (executeMemoryOperation cfg sim.st e i).isStalled c = true
          rw [g]
          exact hc
        · show (executeMemoryOperation cfg sim.st e i).isStalled c = true
          rw [g, set1_apply]
          split
          · rfl
          · exact hc
      · intro c _
        show (executeMemoryOperation cfg sim.st e i).processorRunning c = _
        rw [hrun2]
      · right
        refine ⟨by show (executeMemoryOperation cfg sim.st e i).processorRunning i = true
                   rw [hrun2]; exact hrun, hi, ?_, ?_⟩
        · show (executeMemoryOperation cfg sim.st e i).isStalled i = true
          rcases x3 with ⟨g0, g, _⟩ | ⟨_, g, _⟩
          · rw [g]
            obtain ⟨t, ht, hdest⟩ := hterm.1.2.2 i g0
            have := (h.1.2.1.2 t ht).2.2.2.2.1
            rw [hdest] at this
            exact this
          · rw [g]
            simp
        · rcases x3 with ⟨_, _, g⟩ | ⟨_, _, g⟩
          · exact Or.inl g
          · exact Or.inr ⟨e, he, g⟩
  · have heq : offerCore cfg tr i sim = sim := by
      unfold offerCore
      dsimp only
      rw [if_pos (by simpa using hrun)]
    rw [heq]
    refine readOffered_step cfg tr i sim sim h rfl rfl rfl rfl rfl rfl (fun _ g => g)
      (fun _ _ => rfl) ?_
    exact Or.inl ⟨by simpa using hrun, Or.inl (by simpa using hrun), rfl⟩

/-- The four cases of a bus tick in a run of reads of distinct blocks: nothing to do; the first
request is serviced from memory and the others are dropped; the queued fill counts down; the
queued fill completes. -/
theorem tick_view (cfg : Config) (st : State) (hbusy : BusBusyInv st)
    (hclean : ∀ c s w, st.dirtyFlags c s w = false)
    (hlen : st.dataTransferQueue.length ≤ 1)
    (hfill : ∀ t ∈ st.dataTransferQueue,
      t.isWriteOp = false ∧ t.isWritebackOp = false ∧ t.isInvalidation = false)
    (hreq : ∀ r ∈ st.pendingRequests, r.reqType = BusRequestType.READ_SHARED
      ∧ findOtherHolder cfg st r.requestorId (setIndexOf cfg r.memoryAddress)
          (tagOf cfg r.memoryAddress) = none) :
    (processBusTransactions cfg st).processorRunning = st.processorRunning
      ∧ ((st.dataTransferQueue = [] ∧ st.pendingRequests = []
          ∧ (processBusTransactions cfg st).dataTransferQueue = []
          ∧ (processBusTransactions cfg st).dirtyFlags = st.dirtyFlags
          ∧ (processBusTransactions cfg st).coherenceTable = st.coherenceTable
          ∧ (processBusTransactions cfg st).tagArray = st.tagArray
          ∧ (processBusTransactions cfg st).missCount = st.missCount
          ∧ (processBusTransactions cfg st).isStalled = st.isStalled)
        ∨ (∃ r rest, st.dataTransferQueue = [] ∧ st.pendingRequests = r :: rest
          ∧ (processBusTransactions cfg st).dataTransferQueue
              = [⟨r.memoryAddress, r.requestorId, false, false, false, 99⟩]
          ∧ (processBusTransactions cfg st).dirtyFlags = st.dirtyFlags
          ∧ (processBusTransactions cfg st).coherenceTable = st.coherenceTable
          ∧ (processBusTransactions cfg st).tagArray = st.tagArray
          ∧ (processBusTransactions cfg st).missCount
              = set1 st.missCount r.requestorId (st.missCount r.requestorId + 1)
          ∧ (∀ c, st.isStalled c = true → (processBusTransactions cfg st).isStalled c = true)
          ∧ (processBusTransactions cfg st).isStalled r.requestorId = true)
        ∨ (∃ t, st.dataTransferQueue = [t] ∧ t.pendingCycles ≠ 0
          ∧ (processBusTransactions cfg st).dataTransferQueue
              = [{ t with pendingCycles := t.pendingCycles - 1 }]
          ∧ (processBusTransactions cfg st).dirtyFlags = st.dirtyFlags
          ∧ (processBusTransactions cfg st).coherenceTable = st.coherenceTable
          ∧ (processBusTransactions cfg st).tagArray = st.tagArray
          ∧ (processBusTransactions cfg st).missCount = st.missCount
          ∧ (∀ c, st.isStalled c = true → (processBusTransactions cfg st).isStalled c = true))
        ∨ (∃ t, st.dataTransferQueue = [t] ∧ t.pendingCycles = 0
          ∧ (processBusTransactions cfg st).dataTransferQueue = []
          ∧ (∀ c s w, (processBusTransactions cfg st).dirtyFlags c s w = false)
          ∧ (processBusTransactions cfg st).missCount = st.missCount
          ∧ (∀ c, c ≠ t.destinationCore → st.isStalled c = true →
              (processBusTransactions cfg st).isStalled c = true)
          ∧ (processBusTransactions cfg st).isStalled t.destinationCore = false
          ∧ ∃ v X, (processBusTransactions cfg st).tagArray
                = set3 st.tagArray t.destinationCore (setIndexOf cfg t.targetAddress) v
                    (toUnsigned (tagOf cfg t.targetAddress))
              ∧ (processBusTransactions cfg st).coherenceTable
                = set3 st.coherenceTable t.destinationCore (setIndexOf cfg t.targetAddress) v
                    X)) := by
  refine ⟨processBusTransactions_running cfg st, ?_⟩
  have hqc : st.dataTransferQueue = [] ∨ ∃ t rest2, st.dataTransferQueue = t :: rest2 := by
    cases st.dataTransferQueue with
    | nil => exact Or.inl rfl
    | cons t rest2 => exact Or.inr ⟨t, rest2, rfl⟩
  have hrc : st.pendingRequests = [] ∨ ∃ r rest, st.pendingRequests = r :: rest := by
    cases st.pendingRequests with
    | nil => exact Or.inl rfl
    | cons r rest => exact Or.inr ⟨r, rest, rfl⟩
  unfold processBusTransactions
  rcases hqc with hq | ⟨t, rest2, hq⟩
  · have hb : st.busOccupied = false := by
      cases hx : st.busOccupied with
      | false => rfl
      | true => exact absurd hq (hbusy.mp hx)
    rcases hrc with hr | ⟨r, rest, hr⟩
    · left
      have hrp : requestPhase cfg { st with busTickCounter := st.busTickCounter + 1 }
          = { st with busTickCounter := st.busTickCounter + 1 } := by
        unfold requestPhase
        have hr2 : ({ st with busTickCounter := st.busTickCounter + 1 } : State).pendingRequests
            = [] := hr
        rw [hr2]
        rfl
      rw [hrp]
      have hdp : dataPhase cfg { st with busTickCounter := st.busTickCounter + 1 }
          = { st with busTickCounter := st.busTickCounter + 1 } := by
        unfold dataPhase
        have hq2 : ({ st with busTickCounter := st.busTickCounter + 1 }
            : State).dataTransferQueue = [] := hq
        rw [hq2]
      rw [hdp]
      exact ⟨hq, hr, hq, rfl, rfl, rfl, rfl, rfl⟩
    · right
      left
      refine ⟨r, rest, hq, hr, ?_⟩
      have hrp : requestPhase cfg { st with busTickCounter := st.busTickCounter + 1 }
          = requestLoop cfg rest (serviceRequest cfg
              { st with
                busTickCounter := st.busTickCounter + 1
                pendingRequests := rest } r) := by
        unfold requestPhase
        have hr2 : ({ st with busTickCounter := st.busTickCounter + 1 } : State).pendingRequests
            = r :: rest := hr
        rw [hr2]
        rfl
      rw [hrp]
      obtain ⟨hk, hn⟩ := hreq r (by rw [hr]; exact List.mem_cons_self _ _)
      obtain ⟨s1, s2, s3, s4, s5, s6, s7, s8⟩ := serviceRequest_read_idle cfg
        { st with
          busTickCounter := st.busTickCounter + 1
          pendingRequests := rest } r hb hk hn
      generalize serviceRequest cfg
        { st with
          busTickCounter := st.busTickCounter + 1
          pendingRequests := rest } r = S at s1 s2 s3 s4 s5 s6 s7 s8
      obtain ⟨b1, b2, b3, b4, b5, b6, b7⟩ := requestLoop_busy_view cfg rest S s1
      generalize requestLoop cfg rest S = R at b1 b2 b3 b4 b5 b6 b7
      have hRq : R.dataTransferQueue
          = [⟨r.memoryAddress, r.requestorId, false, false, false, 100⟩] := by
        rw [b2, s3]
        show st.dataTransferQueue ++ _ = _
        rw [hq]
        rfl
      rw [dataPhase_waits cfg R _ [] hRq (by simp)]
      refine ⟨rfl, b1.trans s2, b3.trans s4, b4.trans s5, b5.trans s6, ?_, ?_⟩
      · intro c hc
        apply b7
        rw [s8, set1_apply]
        split
        · rfl
        · exact hc
      · apply b7
        rw [s8]
        simp
  · have hrest : rest2 = [] := by
      rw [hq] at hlen
      cases rest2 with
      | nil => rfl
      | cons a b => simp at hlen
    subst hrest
    have hb : st.busOccupied = true := hbusy.mpr (by rw [hq]; simp)
    obtain ⟨f1, f2, f3⟩ := hfill t (by rw [hq]; exact List.mem_cons_self _ _)
    have hview : (requestPhase cfg
          { st with busTickCounter := st.busTickCounter + 1 }).dirtyFlags = st.dirtyFlags
        ∧ (requestPhase cfg
          { st with busTickCounter := st.busTickCounter + 1 }).dataTransferQueue
            = st.dataTransferQueue
        ∧ (requestPhase cfg
          { st with busTickCounter := st.busTickCounter + 1 }).coherenceTable
            = st.coherenceTable
        ∧ (requestPhase cfg
          { st with busTickCounter := st.busTickCounter + 1 }).tagArray = st.tagArray
        ∧ (requestPhase cfg
          { st with busTickCounter := st.busTickCounter + 1 }).missCount = st.missCount
        ∧ (requestPhase cfg
          { st with busTickCounter := st.busTickCounter + 1 }).processorRunning
            = st.processorRunning
        ∧ ∀ c, st.isStalled c = true → (requestPhase cfg
          { st with busTickCounter := st.busTickCounter + 1 }).isStalled c = true :=
      requestLoop_busy_view cfg
        ({ st with busTickCounter := st.busTickCounter + 1 } : State).pendingRequests
        { st with busTickCounter := st.busTickCounter + 1 } hb
    generalize requestPhase cfg { st with busTickCounter := st.busTickCounter + 1 } = R
      at hview ⊢
    obtain ⟨b1, b2, b3, b4, b5, b6, b7⟩ := hview
    have hRq : R.dataTransferQueue = [t] := by
      rw [b2]
      exact hq
    right
    right
    by_cases hp : t.pendingCycles = 0
    · right
      obtain ⟨d1, d2, d3, d4, d5, v, X, d6, d7⟩ := dataPhase_read_fill cfg R t hRq hp
        (by intro c s w; rw [b1]; exact hclean c s w) f1 f2 f3
      refine ⟨t, hq, hp, d1, d3, d4.trans b5, ?_, ?_, v, X, ?_, ?_⟩
      · intro c hc hs
        rw [d2, set1_of_ne _ _ _ _ hc]
        exact b7 c hs
      · rw [d2]
        simp
      · rw [d6, b4]
      · rw [d7, b3]
    · left
      rw [dataPhase_waits cfg R t [] hRq hp]
      exact ⟨t, hq, hp, rfl, b1, b3, b4, b5, b7⟩

/-- The bus tick keeps the invariant of a run of reads of distinct blocks: afterwards the only
core that can be about to retire its entry is the destination of the fill that completed. -/
theorem readInv_tick (cfg : Config) (tr : Nat → List TraceEntry) (hd : LineDistinct cfg tr)
    (sim : SimState) (hterm : TermOffered cfg tr 4 sim) (h : ReadOffered cfg tr 4 sim) :
    ReadInv cfg tr 0 { sim with st := processBusTransactions cfg sim.st } := by
  obtain ⟨hinv, hreq, hst⟩ := h
  obtain ⟨hclean, hqok, hlines, hcount, hcur⟩ := hinv
  have hinv : ReadInv cfg tr 4 sim := ⟨hclean, hqok, hlines, hcount, hcur⟩
  obtain ⟨hrun, hcases⟩ := tick_view cfg sim.st hterm.1.1.2.1 hclean hqok.1
    (fun t ht => ⟨(hqok.2 t ht).1, (hqok.2 t ht).2.1, (hqok.2 t ht).2.2.1⟩)
    (by
      intro r hr
      obtain ⟨g1, g2, _, e, g4, g5⟩ := hreq r hr
      refine ⟨g1, ?_⟩
      rw [← g5]
      exact findOtherHolder_none_of_lines cfg tr hd sim hlines _ g2 e g4)
  generalize processBusTransactions cfg sim.st = D at hrun hcases
  -- after a tick in which the stalls only grow, no core is about to retire its entry
  have hnoadv : (∀ c, sim.st.isStalled c = true → D.isStalled c = true) →
      ∀ c, advancing 0 { sim with st := D } c = 0 := by
    intro hmono c
    apply advancing_zero_of
    intro hc hr
    have hr2 : D.processorRunning c = true := hr
    rw [hrun] at hr2
    exact hmono c (hst c hc hr2)
  have hstop : ∀ c, c < 4 → D.processorRunning c = false →
      sim.tracePosition c = (tr c).length := by
    intro c hc hr
    rw [hrun] at hr
    exact (hcur c hc).2 hr
  have hcount0 : ∀ c, c < 4 → sim.st.missCount c
      = ((sim.tracePosition c + transferCount c sim.st : Nat) : Int) := by
    intro c hc
    rw [hcount c hc, advancing_four]
    rfl
  rcases hcases with ⟨q0, _, q1, v1, v2, v3, v4, v5⟩
      | ⟨r, rest, q0, hr, q1, v1, v2, v3, v4, v5, v6⟩
      | ⟨t, q0, hp, q1, v1, v2, v3, v4, v5⟩
      | ⟨t, q0, hp, q1, v1, v4, v5, v6, v, X, v3, v2⟩
  · refine readInv_wait cfg tr 0 sim _ hinv v1 v2 v3 rfl
      (hnoadv (fun c hc => by rw [v5]; exact hc)) ?_ ?_ hstop
    · refine ⟨by show D.dataTransferQueue.length ≤ 1; rw [q1]; simp, ?_⟩
      intro t ht
      have ht2 : t ∈ D.dataTransferQueue := ht
      rw [q1] at ht2
      exact absurd ht2 (List.not_mem_nil _)
    · intro c hc
      show D.missCount c = _
      rw [v4, hcount0 c hc, transferCount_nil q0, transferCount_nil q1]
  · obtain ⟨g1, g2, g3, e, g4, g5⟩ := hreq r (by rw [hr]; exact List.mem_cons_self _ _)
    refine readInv_wait cfg tr 0 sim _ hinv v1 v2 v3 rfl (hnoadv v5) ?_ ?_ hstop
    · refine ⟨by show D.dataTransferQueue.length ≤ 1; rw [q1]; simp, ?_⟩
      intro t ht
      have ht2 : t ∈ D.dataTransferQueue := ht
      rw [q1] at ht2
      have hte : t = ⟨r.memoryAddress, r.requestorId, false, false, false, 99⟩ := by
        simpa using ht2
      rw [hte]
      refine ⟨rfl, rfl, rfl, g2, v6, ?_, e, g4, g5⟩
      show D.processorRunning r.requestorId = true
      rw [hrun]
      exact g3
    · intro c hc
      show D.missCount c = _
      rw [v4, transferCount_single q1, set1_apply, hcount0 c hc, transferCount_nil q0]
      by_cases hcr : c = r.requestorId
      · rw [if_pos hcr, if_pos hcr.symm, hcount0 _ g2, transferCount_nil q0, hcr]
        push_cast
        ring
      · rw [if_neg hcr, if_neg (fun hx => hcr hx.symm)]
  · obtain ⟨g1, g2, g3, g4, g5, g6, e, g7, g8⟩ := hqok.2 t (by rw [q0]; exact List.mem_cons_self _ _)
    refine readInv_wait cfg tr 0 sim _ hinv v1 v2 v3 rfl (hnoadv v5) ?_ ?_ hstop
    · refine ⟨by show D.dataTransferQueue.length ≤ 1; rw [q1]; simp, ?_⟩
      intro t2 ht
      have ht2 : t2 ∈ D.dataTransferQueue := ht
      rw [q1] at ht2
      have hte : t2 = { t with pendingCycles := t.pendingCycles - 1 } := by simpa using ht2
      rw [hte]
      refine ⟨g1, g2, g3, g4, v5 _ g5, ?_, e, g7, g8⟩
      show D.processorRunning t.destinationCore = true
      rw [hrun]
      exact g6
    · intro c hc
      show D.missCount c = _
      rw [v4, hcount0 c hc, transferCount_single q0, transferCount_single q1]
  · obtain ⟨g1, g2, g3, g4, g5, g6, e, g7, g8⟩ := hqok.2 t (by rw [q0]; exact List.mem_cons_self _ _)
    have hadvdest : advancing 0 { sim with st := D } t.destinationCore = 1 := by
      apply advancing_one_of 0 _ _ (Nat.zero_le _) g4 v6
      show D.processorRunning t.destinationCore = true
      rw [hrun]
      exact g6
    have hadvother : ∀ c, c ≠ t.destinationCore → advancing 0 { sim with st := D } c = 0 := by
      intro c hc
      apply advancing_zero_of
      intro hc4 hr
      have hr2 : D.processorRunning c = true := hr
      rw [hrun] at hr2
      exact v5 c hc (hst c hc4 hr2)
    have hlt : sim.tracePosition t.destinationCore < (tr t.destinationCore).length :=
      (List.getElem?_eq_some_iff.mp g7).1
    refine ⟨v1, ?_, ?_, ?_, ?_⟩
    · refine ⟨by show D.dataTransferQueue.length ≤ 1; rw [q1]; simp, ?_⟩
      intro t2 ht
      have ht2 : t2 ∈ D.dataTransferQueue := ht
      rw [q1] at ht2
      exact absurd ht2 (List.not_mem_nil _)
    · intro c s w hv
      have hv2 : D.coherenceTable c s w ≠ CoherenceState.INVALID := hv
      show c < 4 ∧ ∃ j e2, j < sim.tracePosition c + advancing 0 { sim with st := D } c
        ∧ (tr c)[j]? = some e2 ∧ setIndexOf cfg e2.addr = s
        ∧ D.tagArray c s w = toUnsigned (tagOf cfg e2.addr)
      rw [v3]
      rw [v2] at hv2
      rw [set3_apply] at hv2 ⊢
      by_cases hx : c = t.destinationCore ∧ s = setIndexOf cfg t.targetAddress ∧ w = v
      · rw [if_pos hx]
        obtain ⟨hx1, hx2, _⟩ := hx
        subst hx1
        refine ⟨g4, sim.tracePosition t.destinationCore, e, ?_, g7, ?_, ?_⟩
        · rw [hadvdest]
          omega
        · rw [g8, hx2]
        · rw [g8]
      · rw [if_neg hx] at hv2 ⊢
        obtain ⟨hc, j, e2, hj, hget, hset, ht⟩ := hlines c s w hv2
        rw [advancing_four] at hj
        exact ⟨hc, j, e2, by omega, hget, hset, ht⟩
    · intro c hc
      show D.missCount c
        = ((sim.tracePosition c + transferCount c D + advancing 0 { sim with st := D } c : Nat)
            : Int)
      rw [v4, hcount0 c hc, transferCount_single q0, transferCount_nil q1]
      by_cases hcd : c = t.destinationCore
      · rw [hcd, hadvdest, if_pos rfl]
      · rw [hadvother c hcd, if_neg (fun hx => hcd hx.symm)]
    · intro c hc
      refine ⟨?_, hstop c hc⟩
      show sim.tracePosition c + advancing 0 { sim with st := D } c ≤ (tr c).length
      by_cases hcd : c = t.destinationCore
      · rw [hcd, hadvdest]
        omega
      · rw [hadvother c hcd]
        have := (hcur c hc).1
        rw [advancing_four] at this
        exact this

theorem advancing_congr {k k2 : Nat} {sim sim2 : SimState} {c : Nat} (hk : k2 ≤ c ↔ k ≤ c)
    (hs : sim2.st.isStalled c = sim.st.isStalled c)
    (hr : sim2.st.processorRunning c = sim.st.processorRunning c) :
    advancing k2 sim2 c = advancing k sim c := by
  unfold advancing
  rw [hs, hr]
  by_cases h : k ≤ c
  · simp [h, hk.mpr h]
  · have h2 : ¬ k2 ≤ c := fun hx => h (hk.mp hx)
    simp [h, h2]

/-- A step of the third loop keeps the invariant when it leaves the lines, the queue and the
miss counts alone and moves the cursor of a core exactly when the core was about to retire. -/
theorem readInv_shift (cfg : Config) (tr : Nat → List TraceEntry) (k k2 : Nat)
    (sim sim2 : SimState) (h : ReadInv cfg tr k sim)
    (fdirty : sim2.st.dirtyFlags = sim.st.dirtyFlags)
    (fcoh : sim2.st.coherenceTable = sim.st.coherenceTable)
    (ftag : sim2.st.tagArray = sim.st.tagArray)
    (fqueue : sim2.st.dataTransferQueue = sim.st.dataTransferQueue)
    (fmiss : sim2.st.missCount = sim.st.missCount)
    (fstall : sim2.st.isStalled = sim.st.isStalled)
    (fbound : ∀ c, sim2.tracePosition c + advancing k2 sim2 c
      = sim.tracePosition c + advancing k sim c)
    (fkeep : ∀ c, sim.st.isStalled c = true →
      sim2.st.processorRunning c = sim.st.processorRunning c
        ∧ sim2.tracePosition c = sim.tracePosition c)
    (fstop : ∀ c, c < 4 → sim2.st.processorRunning c = false →
      sim2.tracePosition c = (tr c).length) :
    ReadInv cfg tr k2 sim2 := by
  obtain ⟨hclean, hqok, hlines, hcount, hcur⟩ := h
  refine ⟨?_, ?_, ?_, ?_, ?_⟩
  · intro c s w
    rw [fdirty]
    exact hclean c s w
  · refine ⟨by rw [fqueue]; exact hqok.1, ?_⟩
    intro t ht
    rw [fqueue] at ht
    obtain ⟨g1, g2, g3, g4, g5, g6, e, g7, g8⟩ := hqok.2 t ht
    obtain ⟨k1, k2⟩ := fkeep _ g5
    refine ⟨g1, g2, g3, g4, by rw [fstall]; exact g5, by rw [k1]; exact g6, e, ?_, g8⟩
    rw [k2]
    exact g7
  · intro c s w hv
    rw [fcoh] at hv
    obtain ⟨hc, j, e, hj, hget, hset, ht⟩ := hlines c s w hv
    refine ⟨hc, j, e, ?_, hget, hset, ?_⟩
    · rw [fbound]
      exact hj
    · rw [ftag]
      exact ht
  · intro c hc
    rw [fmiss, hcount c hc, transferCount_congr fqueue]
    have := fbound c
    push_cast
    omega
  · intro c hc
    rw [fbound]
    exact ⟨(hcur c hc).1, fstop c hc⟩

theorem advanceCore_view (tr : Nat → List TraceEntry) (i : Nat) (sim : SimState) :
    (advanceCore tr i sim).st.dirtyFlags = sim.st.dirtyFlags
      ∧ (advanceCore tr i sim).st.coherenceTable = sim.st.coherenceTable
      ∧ (advanceCore tr i sim).st.tagArray = sim.st.tagArray
      ∧ ((sim.st.isStalled i = false ∧ sim.st.processorRunning i = true
          ∧ (advanceCore tr i sim).tracePosition i = sim.tracePosition i + 1
          ∧ ((advanceCore tr i sim).st.processorRunning i = false →
              sim.tracePosition i + 1 = (tr i).length))
        ∨ (¬ (sim.st.isStalled i = false ∧ sim.st.processorRunning i = true)
          ∧ advanceCore tr i sim = sim)) := by
  unfold advanceCore
  dsimp only
  split
  · rename_i hcond
    simp only [Bool.and_eq_true, Bool.not_eq_true'] at hcond
    split
    · rename_i hlen
      exact ⟨rfl, rfl, rfl, Or.inl ⟨hcond.1, hcond.2, by simp, fun _ => hlen⟩⟩
    · refine ⟨rfl, rfl, rfl, Or.inl ⟨hcond.1, hcond.2, by simp, ?_⟩⟩
      intro hx
      have hx2 : sim.st.processorRunning i = false := hx
      rw [hcond.2] at hx2
      exact absurd hx2 (by decide)
  · rename_i hcond
    simp only [Bool.and_eq_true, Bool.not_eq_true'] at hcond
    exact ⟨rfl, rfl, rfl, Or.inr ⟨hcond, rfl⟩⟩

/-- One iteration of the third loop in a run of reads of distinct blocks. -/
theorem readInv_advanceCore (cfg : Config) (tr : Nat → List TraceEntry) (i : Nat)
    (sim : SimState) (hi : i < 4) (h : ReadInv cfg tr i sim) :
    ReadInv cfg tr (i + 1) (advanceCore tr i sim) := by
  obtain ⟨v1, v2, v3, v4⟩ := advanceCore_view tr i sim
  obtain ⟨f1, f2, f3, _, _, f6⟩ := advanceCore_frame tr i sim
  rcases v4 with ⟨hs, hr, hpos, hstop⟩ | ⟨hno, heq⟩
  · refine readInv_shift cfg tr i (i + 1) sim _ h v1 v2 v3 f2 f1 f3 ?_ ?_ ?_
    · intro c
      by_cases hci : c = i
      · subst hci
        rw [hpos, advancing_one_of c sim c (Nat.le_refl c) hi hs hr]
        have : advancing (c + 1) (advanceCore tr c sim) c = 0 := by
          unfold advancing
          rw [if_neg]
          intro hx
          omega
        rw [this]
      · rw [(f6 c hci).2]
        congr 1
        apply advancing_congr
        · omega
        · rw [f3]
        · exact (f6 c hci).1
    · intro c hc
      have hci : c ≠ i := by
        intro hx
        rw [hx, hs] at hc
        exact absurd hc (by decide)
      exact f6 c hci
    · intro c hc hrc
      by_cases hci : c = i
      · subst hci
        rw [hpos]
        exact hstop hrc
      · rw [(f6 c hci).1] at hrc
        rw [(f6 c hci).2]
        exact (h.2.2.2.2 c hc).2 hrc
  · rw [heq]
    refine readInv_shift cfg tr i (i + 1) sim sim h rfl rfl rfl rfl rfl rfl ?_
      (fun _ _ => ⟨rfl, rfl⟩) (fun c hc => (h.2.2.2.2 c hc).2)
    intro c
    congr 1
    by_cases hci : c = i
    · subst hci
      have h1 : advancing (c + 1) sim c = 0 := by
        unfold advancing
        rw [if_neg]
        intro hx
        omega
      have h2 : advancing c sim c = 0 := by
        unfold advancing
        rw [if_neg]
        intro hx
        exact hno ⟨hx.2.2.1, hx.2.2.2⟩
      rw [h1, h2]
    · apply advancing_congr
      · omega
      · rfl
      · rfl

theorem termOffered_of_termInv (cfg : Config) (tr : Nat → List TraceEntry) (sim : SimState)
    (h : TermInv cfg tr sim) : TermOffered cfg tr 0 sim := by
  obtain ⟨hbase, hreq, hsj⟩ := h
  refine ⟨hbase, ?_, ?_, ?_, ?_, ?_⟩
  · rw [hreq]
    intro r hr
    exact absurd hr (List.not_mem_nil _)
  · rw [hreq]
    intro r hr
    exact absurd hr (List.not_mem_nil _)
  · rw [hreq]
    intro r hr
    exact absurd hr (List.not_mem_nil _)
  · intro c hc hs
    rcases hsj c hc hs with g | g
    · exact Or.inl g
    · exact Or.inr ⟨g, fun hlt => absurd hlt (Nat.not_lt_zero c)⟩
  · intro c hlt
    exact absurd hlt (Nat.not_lt_zero c)

theorem readInv_initial (cfg : Config) (tr : Nat → List TraceEntry) :
    ReadInv cfg tr 4 (initialSim cfg) := by
  refine ⟨fun _ _ _ => rfl, ⟨by simp [initialSim, initialState], ?_⟩, ?_, ?_, ?_⟩
  · intro t ht
    exact absurd ht (List.not_mem_nil _)
  · intro c s w hv
    exact absurd rfl hv
  · intro c _
    rw [advancing_four, transferCount_nil rfl]
    rfl
  · intro c _
    rw [advancing_four]
    refine ⟨Nat.zero_le _, ?_⟩
    intro hx
    exact absurd hx (by simp [initialSim, initialState])

/-- In a run of reads of distinct blocks the invariant holds at the end of every cycle. -/
theorem readInv_cycles (cfg : Config) (tr : Nat → List TraceEntry) (hreads : AllReads tr)
    (hd : LineDistinct cfg tr) (n : Nat) : ReadInv cfg tr 4 (cycles cfg tr n) := by
  refine ((cycles_phases cfg tr
    (fun sim => TermInv cfg tr sim ∧ ReadInv cfg tr 4 sim)
    (fun i sim => TermOffered cfg tr i sim ∧ ReadOffered cfg tr i sim)
    (fun sim => TermTicked cfg tr sim ∧ ReadInv cfg tr 0 sim)
    (fun i sim => TermTicked cfg tr sim ∧ ReadInv cfg tr i sim)
    ⟨termInv_initial cfg tr, readInv_initial cfg tr⟩ ?_ ?_ ?_ ?_ ?_ ?_ n).1).2
  · intro sim ⟨h1, h2⟩
    refine ⟨termOffered_of_termInv cfg tr sim h1, h2, ?_, ?_⟩
    · intro r hr
      rw [h1.2.1] at hr
      exact absurd hr (List.not_mem_nil _)
    · intro c hc
      exact absurd hc (Nat.not_lt_zero c)
  · intro i sim hi ⟨h1, h2⟩
    exact ⟨termOffered_offerCore cfg tr i sim hi h1,
      readOffered_offerCore cfg tr hreads hd i sim hi h1 h2⟩
  · intro sim ⟨h1, h2⟩
    exact ⟨termTicked_tick cfg tr sim h1, readInv_tick cfg tr hd sim h1 h2⟩
  · intro sim h
    exact h
  · intro i sim hi ⟨h1, h2⟩
    exact ⟨termTicked_advanceCore cfg tr i sim hi h1, readInv_advanceCore cfg tr i sim hi h2⟩
  · intro sim ⟨h1, h2⟩
    exact ⟨h1.1, h2⟩

/-- Claim C16 (compulsory misses): if every entry of the four traces is a read and the
addresses (`int` values) lie in pairwise distinct blocks, then the run terminates, and in the
state that it returns `missCount[c]` is the length of the trace of core `c`, so that the total
miss count is the number of distinct blocks referenced. -/
theorem compulsory_misses (cfg : Config) (tr : Nat → List TraceEntry) (hreads : AllReads tr)
    (hint : IntAddresses tr) (hdist : DistinctBlocks cfg tr) :
    (∃ fuel sim, ∀ k, runMulticoreSimulation cfg tr (fuel + k) = some sim)
      ∧ ∀ fuel sim, runMulticoreSimulation cfg tr fuel = some sim →
          (∀ c, c < 4 → sim.st.missCount c = ((tr c).length : Int))
          ∧ sim.st.missCount 0 + sim.st.missCount 1 + sim.st.missCount 2 + sim.st.missCount 3
            = ((((allEntries tr).map (fun e => blockOf cfg e.addr)).dedup.length : Nat) : Int) := by
  constructor
  · obtain ⟨fuel, r, hr⟩ := cycleLoop_terminates cfg tr _ _ (initialSim cfg)
      (termInv_initial cfg tr) rfl rfl
    refine ⟨fuel,
      { r with
        st := { r.st with
          readCount := fun c => r.st.readCount c + countOps (tr c) Op.R
          writeCount := fun c => r.st.writeCount c + countOps (tr c) Op.W } }, ?_⟩
    intro k
    unfold runMulticoreSimulation
    rw [cycleLoop_more_fuel cfg tr fuel k _ r hr]
  · intro fuel sim hrun
    obtain ⟨m, _, hterm, hpos, hst⟩ := runMulticoreSimulation_result cfg tr fuel sim hrun
    obtain ⟨hq, hcores⟩ := terminated_elim hterm
    obtain ⟨_, _, _, hcount, hcur⟩ :=
      readInv_cycles cfg tr hreads (lineDistinct_of cfg tr hdist hint) m
    have hmiss : ∀ c, c < 4 → sim.st.missCount c = ((tr c).length : Int) := by
      intro c hc
      rw [hst]
      show (cycles cfg tr m).st.missCount c = _
      rw [hcount c hc, advancing_four, transferCount_nil hq, (hcur c hc).2 (hcores c hc).1]
      rfl
    refine ⟨hmiss, ?_⟩
    rw [hmiss 0 (by decide), hmiss 1 (by decide), hmiss 2 (by decide), hmiss 3 (by decide),
      List.Nodup.dedup hdist]
    unfold allEntries
    simp only [List.length_map, List.length_append]
    push_cast
    ring

theorem compulsory_misses_witness :
    AllReads scenarioDistinctReads ∧ IntAddresses scenarioDistinctReads
      ∧ DistinctBlocks scenarioConfig scenarioDistinctReads
      ∧ (∃ fuel sim, ∀ k,
          runMulticoreSimulation scenarioConfig scenarioDistinctReads (fuel + k) = some sim)
      ∧ ∀ fuel sim, runMulticoreSimulation scenarioConfig scenarioDistinctReads fuel = some sim →
          (∀ c, c < 4 → sim.st.missCount c = ((scenarioDistinctReads c).length : Int))
          ∧ sim.st.missCount 0 + sim.st.missCount 1 + sim.st.missCount 2 + sim.st.missCount 3
            = ((((allEntries scenarioDistinctReads).map
                (fun e => blockOf scenarioConfig e.addr)).dedup.length : Nat) : Int) :=
  ⟨by decide, by decide, by decide,
    compulsory_misses scenarioConfig scenarioDistinctReads (by decide) (by decide) (by decide)⟩

/-! ### Effect of the steps on the lines of a set -/

/-- An access that misses with no pending operation: a request of the kind of the access is
queued and the core is stalled; with a pending operation nothing is queued.  The lines and the
LRU lists are not touched. -/
theorem executeMemoryOperation_miss (cfg : Config) (st : State) (e : TraceEntry) (c : Nat)
    (hl : lookupWay cfg st c (setIndexOf cfg e.addr) (tagOf cfg e.addr) = none) :
    (executeMemoryOperation cfg st e c).dirtyFlags = st.dirtyFlags
      ∧ (executeMemoryOperation cfg st e c).coherenceTable = st.coherenceTable
      ∧ (executeMemoryOperation cfg st e c).lruOrder = st.lruOrder
      ∧ ((st.pendingOperations c ≠ -1
          ∧ (executeMemoryOperation cfg st e c).isStalled = st.isStalled
          ∧ (executeMemoryOperation cfg st e c).pendingRequests = st.pendingRequests)
        ∨ (st.pendingOperations c = -1
          ∧ (executeMemoryOperation cfg st e c).isStalled = set1 st.isStalled c true
          ∧ (executeMemoryOperation cfg st e c).pendingRequests
              = st.pendingRequests
                ++ [⟨c, e.addr, if e.op = Op.R then BusRequestType.READ_SHARED
                      else BusRequestType.READ_EXCLUSIVE⟩])) := by
  have hl2 : lookupWay cfg { st with operationCounter := st.operationCounter + 1 } c
      (setIndexOf cfg e.addr) (tagOf cfg e.addr) = none := hl
  unfold executeMemoryOperation
  dsimp only
  split
  · rename_i hp
    exact ⟨rfl, rfl, rfl, Or.inl ⟨hp, rfl, rfl⟩⟩
  · rename_i hp
    have hp2 : st.pendingOperations c = -1 := by simpa using hp
    cases hop : e.op with
    | R =>
      dsimp only
      rw [hl2]
      exact ⟨rfl, rfl, rfl, Or.inr ⟨hp2, rfl, rfl⟩⟩
    | W =>
      dsimp only
      rw [hl2]
      exact ⟨rfl, rfl, rfl, Or.inr ⟨hp2, rfl, by simp⟩⟩

/-- An access of a core with a pending operation only counts the cycle. -/
theorem executeMemoryOperation_pending (cfg : Config) (st : State) (e : TraceEntry) (c : Nat)
    (hp : st.pendingOperations c ≠ -1) :
    (executeMemoryOperation cfg st e c).dirtyFlags = st.dirtyFlags
      ∧ (executeMemoryOperation cfg st e c).coherenceTable = st.coherenceTable
      ∧ (executeMemoryOperation cfg st e c).lruOrder = st.lruOrder
      ∧ (executeMemoryOperation cfg st e c).isStalled = st.isStalled
      ∧ (executeMemoryOperation cfg st e c).pendingRequests = st.pendingRequests := by
  unfold executeMemoryOperation
  dsimp only
  rw [if_pos hp]
  exact ⟨rfl, rfl, rfl, rfl, rfl⟩

/-- The snoop loops of `READ_EXCLUSIVE` do nothing when no other core holds the line. -/
theorem invalidateOthers_none (cfg : Config) (r : Nat) (a : Int) (s : Nat) (tag : Int)
    (st : State) (h : ∀ c, c ≠ r → ∀ w, holdsLine st c s tag w = false) :
    invalidateOthers cfg r a s tag (false, st) = (false, st) := by
  unfold invalidateOthers
  refine forLoop_preserves (fun acc : Bool × State => acc = (false, st)) _ 4 ?_ _ rfl
  intro oc acc _ hacc
  dsimp only
  split
  · rename_i hne
    have hne2 : oc ≠ r := by simpa using hne
    refine forLoop_preserves (fun acc : Bool × State => acc = (false, st)) _ _ ?_ _ hacc
    intro w acc2 _ hacc2
    unfold invalidateWay
    dsimp only
    rw [hacc2]
    dsimp only
    rw [h oc hne2 w]
    simp
  · exact hacc

/-- Service of a `READ_EXCLUSIVE` request with the bus idle when no other core holds the line:
a write fill from memory is queued. -/
theorem serviceRequest_exclusive_idle (cfg : Config) (st : State) (r : BusTransaction)
    (hb : st.busOccupied = false) (hk : r.reqType = BusRequestType.READ_EXCLUSIVE)
    (hn : ∀ c, c ≠ r.requestorId → ∀ w,
      holdsLine st c (setIndexOf cfg r.memoryAddress) (tagOf cfg r.memoryAddress) w = false) :
    (serviceRequest cfg st r).busOccupied = true
      ∧ (serviceRequest cfg st r).dirtyFlags = st.dirtyFlags
      ∧ (serviceRequest cfg st r).dataTransferQueue
          = st.dataTransferQueue ++ [⟨r.memoryAddress, r.requestorId, true, false, false, 100⟩]
      ∧ (serviceRequest cfg st r).coherenceTable = st.coherenceTable
      ∧ (serviceRequest cfg st r).pendingOperations
          = set1 st.pendingOperations r.requestorId r.memoryAddress
      ∧ (serviceRequest cfg st r).isStalled = set1 st.isStalled r.requestorId true := by
  have hinv := invalidateOthers_none cfg r.requestorId r.memoryAddress
    (setIndexOf cfg r.memoryAddress) (tagOf cfg r.memoryAddress)
    { st with
      pendingOperations := set1 st.pendingOperations r.requestorId r.memoryAddress
      busOccupied := true
      busTransactionCount := st.busTransactionCount + 1
      missCount := set1 st.missCount r.requestorId (st.missCount r.requestorId + 1)
      ghostLog := st.ghostLog ++ [Event.readExclusiveServiced r.requestorId] } hn
  unfold serviceRequest
  dsimp only
  rw [if_neg (by rw [hb]; decide), hk]
  dsimp only
  unfold serviceReadExclusive
  dsimp only
  rw [hinv]
  exact ⟨rfl, rfl, rfl, rfl, rfl, rfl⟩

/-- Service of a `READ_SHARED` request with the bus idle when no other core holds the line, as
far as pending operations go. -/
theorem serviceRequest_read_idle_pending (cfg : Config) (st : State) (r : BusTransaction)
    (hb : st.busOccupied = false) (hk : r.reqType = BusRequestType.READ_SHARED)
    (hn : findOtherHolder cfg st r.requestorId (setIndexOf cfg r.memoryAddress)
      (tagOf cfg r.memoryAddress) = none) :
    (serviceRequest cfg st r).pendingOperations
      = set1 st.pendingOperations r.requestorId r.memoryAddress := by
  unfold serviceRequest
  dsimp only
  rw [if_neg (by rw [hb]; decide), hk]
  dsimp only
  unfold serviceReadShared
  dsimp only
  have hn2 : findOtherHolder cfg
      { st with
        pendingOperations := set1 st.pendingOperations r.requestorId r.memoryAddress
        busOccupied := true
        busTransactionCount := st.busTransactionCount + 1
        missCount := set1 st.missCount r.requestorId (st.missCount r.requestorId + 1)
        ghostLog := st.ghostLog ++ [Event.readSharedServiced r.requestorId] }
      r.requestorId (setIndexOf cfg r.memoryAddress) (tagOf cfg r.memoryAddress) = none := hn
  rw [hn2]

theorem set2_set2 {α : Type} (f : Nat → Nat → α) (i j : Nat) (v v2 : α) :
    set2 (set2 f i j v) i j v2 = set2 f i j v2 := by
  funext c s
  simp only [set2_apply]
  split <;> rfl

theorem selectVictim_invalid_eq (cfg : Config) (ds : Bool) (st : State) (c s : Nat) (tw : Bool)
    (w : Nat) (hf : findInvalidWay cfg st c s = some w) :
    selectVictim cfg ds st c s tw
      = (w, tw, { st with lruOrder := set2 st.lruOrder c s ((st.lruOrder c s).erase w) }) := by
  unfold selectVictim
  rw [hf]

theorem selectVictim_clean_eq (cfg : Config) (ds : Bool) (st : State) (c s : Nat) (tw : Bool)
    (hf : findInvalidWay cfg st c s = none)
    (hd : st.dirtyFlags c s ((st.lruOrder c s).headD 0) = false) :
    selectVictim cfg ds st c s tw
      = ((st.lruOrder c s).headD 0, tw,
          { st with
            lruOrder := set2 st.lruOrder c s (st.lruOrder c s).tail
            evictionCount := set1 st.evictionCount c (st.evictionCount c + 1) }) := by
  unfold selectVictim
  rw [hf]
  dsimp only
  rw [if_neg (by rw [hd]; decide)]

theorem selectVictim_dirty_eq (cfg : Config) (ds : Bool) (st : State) (c s : Nat) (tw : Bool)
    (hf : findInvalidWay cfg st c s = none)
    (hd : st.dirtyFlags c s ((st.lruOrder c s).headD 0) = true) :
    selectVictim cfg ds st c s tw
      = ((st.lruOrder c s).headD 0, true,
          { st with
            lruOrder := set2 st.lruOrder c s (st.lruOrder c s).tail
            evictionCount := set1 st.evictionCount c (st.evictionCount c + 1)
            isStalled := if ds = true then set1 st.isStalled c true else st.isStalled
            dataTransferQueue :=
              st.dataTransferQueue
                ++ [⟨evictedAddrOf cfg (st.tagArray c s ((st.lruOrder c s).headD 0)) s, c,
                      false, true, false, 100⟩]
            ghostLog := st.ghostLog ++ [Event.dirtyEviction c] }) := by
  unfold selectVictim
  rw [hf]
  dsimp only
  rw [if_pos hd]

/-- Completion of a fill, given the outcome `sv` of the victim selection: the way `sv.1`
receives the line, a writeback has been queued when `sv.2.1` is set. -/
theorem completeTransfer_of_victim (cfg : Config) (st : State) (t : BusDataTransfer)
    (hwb : t.isWritebackOp = false) (hfill : t.isWriteOp = true ∨ t.isInvalidation = false)
    (ds : Bool) (hds : ds = !t.isWriteOp) (sv : Nat × Bool × State)
    (hsv : selectVictim cfg ds
      { st with
        totalBusTraffic := st.totalBusTraffic + bytesPerBlock cfg
        trafficBytes := set1 st.trafficBytes t.destinationCore
          (st.trafficBytes t.destinationCore + bytesPerBlock cfg) }
      t.destinationCore (setIndexOf cfg t.targetAddress) false = sv) :
    (completeTransfer cfg st t).tagArray
        = set3 sv.2.2.tagArray t.destinationCore (setIndexOf cfg t.targetAddress) sv.1
            (toUnsigned (tagOf cfg t.targetAddress))
      ∧ (∃ X, X ≠ CoherenceState.INVALID ∧ (completeTransfer cfg st t).coherenceTable
          = set3 sv.2.2.coherenceTable t.destinationCore (setIndexOf cfg t.targetAddress)
              sv.1 X)
      ∧ (completeTransfer cfg st t).dirtyFlags
        = set3 sv.2.2.dirtyFlags t.destinationCore (setIndexOf cfg t.targetAddress) sv.1
            t.isWriteOp
      ∧ (completeTransfer cfg st t).lruOrder
        = set2 sv.2.2.lruOrder t.destinationCore (setIndexOf cfg t.targetAddress)
            (sv.2.2.lruOrder t.destinationCore (setIndexOf cfg t.targetAddress) ++ [sv.1])
      ∧ (completeTransfer cfg st t).evictionCount = sv.2.2.evictionCount
      ∧ (completeTransfer cfg st t).writebackCount = sv.2.2.writebackCount
      ∧ (completeTransfer cfg st t).dataTransferQueue = sv.2.2.dataTransferQueue
      ∧ (completeTransfer cfg st t).isStalled t.destinationCore = sv.2.1
      ∧ (completeTransfer cfg st t).pendingOperations t.destinationCore
        = (if sv.2.1 = true then 1 else -1) := by
  have key : ∀ (dirty : Bool) (X : CoherenceState), X ≠ CoherenceState.INVALID →
      let m : State := installLine sv.2.2 t.destinationCore (setIndexOf cfg t.targetAddress)
        sv.1 (tagOf cfg t.targetAddress) dirty
      let m2 : State :=
        { m with
          coherenceTable := set3 m.coherenceTable t.destinationCore
            (setIndexOf cfg t.targetAddress) sv.1 X }
      let st1 : State :=
        { m2 with
          isStalled := set1 m2.isStalled t.destinationCore false
          pendingOperations := set1 m2.pendingOperations t.destinationCore (-1) }
      let res : State :=
        if sv.2.1 = true then
          { st1 with
            isStalled := set1 st1.isStalled t.destinationCore true
            pendingOperations := set1 st1.pendingOperations t.destinationCore 1 }
        else st1
      res.tagArray
          = set3 sv.2.2.tagArray t.destinationCore (setIndexOf cfg t.targetAddress) sv.1
              (toUnsigned (tagOf cfg t.targetAddress))
        ∧ (∃ X, X ≠ CoherenceState.INVALID ∧ res.coherenceTable
            = set3 sv.2.2.coherenceTable t.destinationCore (setIndexOf cfg t.targetAddress)
                sv.1 X)
        ∧ res.dirtyFlags
          = set3 sv.2.2.dirtyFlags t.destinationCore (setIndexOf cfg t.targetAddress) sv.1
              dirty
        ∧ res.lruOrder
          = set2 sv.2.2.lruOrder t.destinationCore (setIndexOf cfg t.targetAddress)
              (sv.2.2.lruOrder t.destinationCore (setIndexOf cfg t.targetAddress) ++ [sv.1])
        ∧ res.evictionCount = sv.2.2.evictionCount
        ∧ res.writebackCount = sv.2.2.writebackCount
        ∧ res.dataTransferQueue = sv.2.2.dataTransferQueue
        ∧ res.isStalled t.destinationCore = sv.2.1
        ∧ res.pendingOperations t.destinationCore = (if sv.2.1 = true then 1 else -1) := by
    intro dirty X hX m m2 st1 res
    cases hb : sv.2.1 with
    | true =>
      have hres : res = { st1 with
            isStalled := set1 st1.isStalled t.destinationCore true
            pendingOperations := set1 st1.pendingOperations t.destinationCore 1 } := by
        show (if sv.2.1 = true then _ else st1) = _
        rw [hb]
        rfl
      rw [hres]
      exact ⟨rfl, ⟨X, hX, rfl⟩, rfl, rfl, rfl, rfl, rfl, by simp, by simp⟩
    | false =>
      have hres : res = st1 := by
        show (if sv.2.1 = true then _ else st1) = st1
        rw [hb]
        rfl
      rw [hres]
      exact ⟨rfl, ⟨X, hX, rfl⟩, rfl, rfl, rfl, rfl, rfl, by simp [st1], by simp [st1]⟩
  unfold completeTransfer
  dsimp only
  rw [hwb]
  simp only [Bool.not_false, if_true]
  cases hw : t.isWriteOp with
  | true =>
    have hds2 : ds = false := by rw [hds, hw]; rfl
    subst hds2
    subst hsv
    simp only [if_true]
    exact key true CoherenceState.MODIFIED (by decide)
  | false =>
    have hds2 : ds = true := by rw [hds, hw]; rfl
    subst hds2
    subst hsv
    have hi : t.isInvalidation = false := by
      rcases hfill with g | g
      · rw [hw] at g
        exact absurd g (by decide)
      · exact g
    rw [hi]
    simp only [Bool.false_eq_true, if_false, Bool.not_false, if_true]
    exact key false _ (by split <;> decide)

/-- Completion of a fill into a set that has an `INVALID` way `w` (the lowest one): the line
is installed in way `w`, which moves to the back of the LRU list; nothing is evicted and the
destination is released. -/
theorem completeTransfer_fill_invalid (cfg : Config) (st : State) (t : BusDataTransfer)
    (w : Nat) (hwb : t.isWritebackOp = false)
    (hfill : t.isWriteOp = true ∨ t.isInvalidation = false)
    (hf : findInvalidWay cfg st t.destinationCore (setIndexOf cfg t.targetAddress) = some w) :
    (completeTransfer cfg st t).tagArray
        = set3 st.tagArray t.destinationCore (setIndexOf cfg t.targetAddress) w
            (toUnsigned (tagOf cfg t.targetAddress))
      ∧ (∃ X, X ≠ CoherenceState.INVALID ∧ (completeTransfer cfg st t).coherenceTable
          = set3 st.coherenceTable t.destinationCore (setIndexOf cfg t.targetAddress) w X)
      ∧ (completeTransfer cfg st t).dirtyFlags
        = set3 st.dirtyFlags t.destinationCore (setIndexOf cfg t.targetAddress) w t.isWriteOp
      ∧ (completeTransfer cfg st t).lruOrder
        = set2 st.lruOrder t.destinationCore (setIndexOf cfg t.targetAddress)
            ((st.lruOrder t.destinationCore (setIndexOf cfg t.targetAddress)).erase w ++ [w])
      ∧ (completeTransfer cfg st t).evictionCount = st.evictionCount
      ∧ (completeTransfer cfg st t).writebackCount = st.writebackCount
      ∧ (completeTransfer cfg st t).dataTransferQueue = st.dataTransferQueue
      ∧ (completeTransfer cfg st t).isStalled t.destinationCore = false
      ∧ (completeTransfer cfg st t).pendingOperations t.destinationCore = -1 := by
  have h := completeTransfer_of_victim cfg st t hwb hfill _ rfl _
    (selectVictim_invalid_eq cfg (!t.isWriteOp)
      { st with
        totalBusTraffic := st.totalBusTraffic + bytesPerBlock cfg
        trafficBytes := set1 st.trafficBytes t.destinationCore
          (st.trafficBytes t.destinationCore + bytesPerBlock cfg) }
      t.destinationCore (setIndexOf cfg t.targetAddress) false w hf)
  dsimp only at h
  obtain ⟨h1, h2, h3, h4, h5, h6, h7, h8, h9⟩ := h
  refine ⟨h1, h2, h3, ?_, h5, h6, h7, h8, ?_⟩
  · rw [h4]
    simp only [set2_same]
    exact set2_set2 _ _ _ _ _
  · rw [h9]
    simp

/-- Completion of a fill into a set without an `INVALID` way: the line replaces the way at
the front of the LRU list, which moves to the back; the eviction is counted; when the victim
is dirty a writeback is queued and the destination stays stalled, and otherwise the destination
is released. -/
theorem completeTransfer_fill_evict (cfg : Config) (st : State) (t : BusDataTransfer)
    (hwb : t.isWritebackOp = false)
    (hfill : t.isWriteOp = true ∨ t.isInvalidation = false)
    (hf : findInvalidWay cfg st t.destinationCore (setIndexOf cfg t.targetAddress) = none) :
    (completeTransfer cfg st t).tagArray
        = set3 st.tagArray t.destinationCore (setIndexOf cfg t.targetAddress)
            ((st.lruOrder t.destinationCore (setIndexOf cfg t.targetAddress)).headD 0)
            (toUnsigned (tagOf cfg t.targetAddress))
      ∧ (∃ X, X ≠ CoherenceState.INVALID ∧ (completeTransfer cfg st t).coherenceTable
          = set3 st.coherenceTable t.destinationCore (setIndexOf cfg t.targetAddress)
              ((st.lruOrder t.destinationCore (setIndexOf cfg t.targetAddress)).headD 0) X)
      ∧ (completeTransfer cfg st t).dirtyFlags
        = set3 st.dirtyFlags t.destinationCore (setIndexOf cfg t.targetAddress)
            ((st.lruOrder t.destinationCore (setIndexOf cfg t.targetAddress)).headD 0)
            t.isWriteOp
      ∧ (completeTransfer cfg st t).lruOrder
        = set2 st.lruOrder t.destinationCore (setIndexOf cfg t.targetAddress)
            ((st.lruOrder t.destinationCore (setIndexOf cfg t.targetAddress)).tail
              ++ [(st.lruOrder t.destinationCore (setIndexOf cfg t.targetAddress)).headD 0])
      ∧ (completeTransfer cfg st t).evictionCount
        = set1 st.evictionCount t.destinationCore (st.evictionCount t.destinationCore + 1)
      ∧ (completeTransfer cfg st t).writebackCount = st.writebackCount
      ∧ (st.dirtyFlags t.destinationCore (setIndexOf cfg t.targetAddress)
            ((st.lruOrder t.destinationCore (setIndexOf cfg t.targetAddress)).headD 0) = true →
          (∃ a, (completeTransfer cfg st t).dataTransferQueue
              = st.dataTransferQueue ++ [⟨a, t.destinationCore, false, true, false, 100⟩])
          ∧ (completeTransfer cfg st t).isStalled t.destinationCore = true
          ∧ (completeTransfer cfg st t).pendingOperations t.destinationCore = 1)
      ∧ (st.dirtyFlags t.destinationCore (setIndexOf cfg t.targetAddress)
            ((st.lruOrder t.destinationCore (setIndexOf cfg t.targetAddress)).headD 0) = false →
          (completeTransfer cfg st t).dataTransferQueue = st.dataTransferQueue
          ∧ (completeTransfer cfg st t).isStalled t.destinationCore = false
          ∧ (completeTransfer cfg st t).pendingOperations t.destinationCore = -1) := by
  cases hd : st.dirtyFlags t.destinationCore (setIndexOf cfg t.targetAddress)
      ((st.lruOrder t.destinationCore (setIndexOf cfg t.targetAddress)).headD 0) with
  | true =>
    have h := completeTransfer_of_victim cfg st t hwb hfill _ rfl _
      (selectVictim_dirty_eq cfg (!t.isWriteOp)
        { st with
          totalBusTraffic := st.totalBusTraffic + bytesPerBlock cfg
          trafficBytes := set1 st.trafficBytes t.destinationCore
            (st.trafficBytes t.destinationCore + bytesPerBlock cfg) }
        t.destinationCore (setIndexOf cfg t.targetAddress) false hf hd)
    dsimp only at h
    obtain ⟨h1, h2, h3, h4, h5, h6, h7, h8, h9⟩ := h
    refine ⟨h1, h2, h3, ?_, h5, h6, ?_, ?_⟩
    · rw [h4]
      simp only [set2_same]
      exact set2_set2 _ _ _ _ _
    · intro _
      exact ⟨⟨_, h7⟩, h8, by rw [h9]; simp⟩
    · intro hx
      exact absurd hx (by decide)
  | false =>
    have h := completeTransfer_of_victim cfg st t hwb hfill _ rfl _
      (selectVictim_clean_eq cfg (!t.isWriteOp)
        { st with
          totalBusTraffic := st.totalBusTraffic + bytesPerBlock cfg
          trafficBytes := set1 st.trafficBytes t.destinationCore
            (st.trafficBytes t.destinationCore + bytesPerBlock cfg) }
        t.destinationCore (setIndexOf cfg t.targetAddress) false hf hd)
    dsimp only at h
    obtain ⟨h1, h2, h3, h4, h5, h6, h7, h8, h9⟩ := h
    refine ⟨h1, h2, h3, ?_, h5, h6, ?_, ?_⟩
    · rw [h4]
      simp only [set2_same]
      exact set2_set2 _ _ _ _ _
    · intro hx
      exact absurd hx (by decide)
    · intro _
      exact ⟨h7, h8, by rw [h9]; simp⟩

/-- Completion of a writeback: it is counted and the destination is released; the lines are
not touched. -/
theorem completeTransfer_writeback_view (cfg : Config) (st : State) (t : BusDataTransfer)
    (hwb : t.isWritebackOp = true) :
    (completeTransfer cfg st t).tagArray = st.tagArray
      ∧ (completeTransfer cfg st t).coherenceTable = st.coherenceTable
      ∧ (completeTransfer cfg st t).dirtyFlags = st.dirtyFlags
      ∧ (completeTransfer cfg st t).lruOrder = st.lruOrder
      ∧ (completeTransfer cfg st t).evictionCount = st.evictionCount
      ∧ (completeTransfer cfg st t).writebackCount
        = set1 st.writebackCount t.destinationCore (st.writebackCount t.destinationCore + 1)
      ∧ (completeTransfer cfg st t).dataTransferQueue = st.dataTransferQueue
      ∧ (completeTransfer cfg st t).isStalled t.destinationCore = false
      ∧ (completeTransfer cfg st t).pendingOperations t.destinationCore = -1 := by
  unfold completeTransfer
  dsimp only
  rw [hwb]
  simp

/-! ### Scenario S6: the invariant -/

theorem findFirst_none_of {n : Nat} {p : Nat → Bool} (h : ∀ j, j < n → p j = false) :
    findFirst n p = none := by
  cases hf : findFirst n p with
  | none => rfl
  | some i =>
    obtain ⟨hi, hp, _⟩ := findFirst_some hf
    rw [h i hi] at hp
    exact absurd hp (by decide)

theorem findFirst_two_zero {p : Nat → Bool} (h : p 0 = true) : findFirst 2 p = some 0 := by
  simp [findFirst, h]

theorem findFirst_two_one {p : Nat → Bool} (h0 : p 0 = false) (h1 : p 1 = true) :
    findFirst 2 p = some 1 := by
  simp [findFirst, h0, h1]

theorem scenarioS6_entry (x : S6) (p : Nat) (hp : p < 3) :
    (scenarioS6 x 0)[p]? = some ⟨s6Op x p, s6Addr x p⟩ := by
  have hcases : p = 0 ∨ p = 1 ∨ p = 2 := by omega
  rcases hcases with rfl | rfl | rfl <;> rfl

theorem scenarioS6_length (x : S6) : (scenarioS6 x 0).length = 3 := rfl

theorem scenarioS6_others (x : S6) (c : Nat) (hc : c ≠ 0) : scenarioS6 x c = [] := by
  unfold scenarioS6
  cases c with
  | zero => exact absurd rfl hc
  | succ n =>
    cases n with
    | zero => rfl
    | succ n =>
      cases n with
      | zero => rfl
      | succ n =>
        cases n with
        | zero => rfl
        | succ n => rfl

theorem s6Tag_ne (x : S6) (h : S6Hyp x) (i j : Nat) (hi : i < 3) (hj : j < 3) (hij : i ≠ j) :
    s6Tag x i ≠ s6Tag x j := by
  obtain ⟨_, hr, _, h01, h02, h12⟩ := h
  have r0 := tagOf_range x.cfg x.a0 (hr 0).1 (hr 0).2
  have r1 := tagOf_range x.cfg x.a1 (hr 1).1 (hr 1).2
  have r2 := tagOf_range x.cfg x.a2 (hr 2).1 (hr 2).2
  have hi3 : i = 0 ∨ i = 1 ∨ i = 2 := by omega
  have hj3 : j = 0 ∨ j = 1 ∨ j = 2 := by omega
  unfold s6Tag toUnsigned
  rcases hi3 with rfl | rfl | rfl <;> rcases hj3 with rfl | rfl | rfl <;>
    simp only [s6Addr] <;> omega

theorem s6Lines_congr (x : S6) (F : Nat) {st st2 : State}
    (htag : st2.tagArray = st.tagArray) (hcoh : st2.coherenceTable = st.coherenceTable)
    (hdirty : st2.dirtyFlags = st.dirtyFlags) (hlru : st2.lruOrder = st.lruOrder)
    (hev : st2.evictionCount = st.evictionCount) (h : S6Lines x F st) : S6Lines x F st2 := by
  unfold S6Lines at *
  rw [htag, hcoh, hdirty, hlru, hev]
  exact h

theorem s6Core_frame (x : S6) (F pos : Nat) (q : List BusDataTransfer) (run stl stl2 : Bool)
    (pend wbc : Int) {sim sim2 : SimState}
    (htag : sim2.st.tagArray = sim.st.tagArray)
    (hcoh : sim2.st.coherenceTable = sim.st.coherenceTable)
    (hdirty : sim2.st.dirtyFlags = sim.st.dirtyFlags)
    (hlru : sim2.st.lruOrder = sim.st.lruOrder)
    (hev : sim2.st.evictionCount = sim.st.evictionCount)
    (hpos : sim2.tracePosition 0 = sim.tracePosition 0)
    (hq : sim2.st.dataTransferQueue = sim.st.dataTransferQueue)
    (hrun : sim2.st.processorRunning 0 = sim.st.processorRunning 0)
    (hpend : sim2.st.pendingOperations 0 = sim.st.pendingOperations 0)
    (hwbc : sim2.st.writebackCount 0 = sim.st.writebackCount 0)
    (hstl : sim2.st.isStalled 0 = stl2)
    (h : S6Core x F pos q run stl pend wbc sim) : S6Core x F pos q run stl2 pend wbc sim2 := by
  obtain ⟨h1, h2, h3, h4, _, h6, h7⟩ := h
  exact ⟨s6Lines_congr x F htag hcoh hdirty hlru hev h1, hpos.trans h2, hq.trans h3,
    hrun.trans h4, hstl, hpend.trans h6, hwbc.trans h7⟩

/-- A step that touches none of the fields that the stages of scenario S6 describe keeps the
stage. -/
theorem s6View_frame (x : S6) (k : S6Kind) {sim sim2 : SimState}
    (htag : sim2.st.tagArray = sim.st.tagArray)
    (hcoh : sim2.st.coherenceTable = sim.st.coherenceTable)
    (hdirty : sim2.st.dirtyFlags = sim.st.dirtyFlags)
    (hlru : sim2.st.lruOrder = sim.st.lruOrder)
    (hev : sim2.st.evictionCount = sim.st.evictionCount)
    (hpos : sim2.tracePosition 0 = sim.tracePosition 0)
    (hq : sim2.st.dataTransferQueue = sim.st.dataTransferQueue)
    (hrun : sim2.st.processorRunning 0 = sim.st.processorRunning 0)
    (hpend : sim2.st.pendingOperations 0 = sim.st.pendingOperations 0)
    (hwbc : sim2.st.writebackCount 0 = sim.st.writebackCount 0)
    (hstl : sim2.st.isStalled 0 = sim.st.isStalled 0)
    (h : S6View x k sim) : S6View x k sim2 := by
  cases k with
  | idle p =>
    exact ⟨h.1, s6Core_frame x _ _ _ _ _ _ _ _ htag hcoh hdirty hlru hev hpos hq hrun hpend hwbc
      (hstl.trans h.2.2.2.2.2.1) h.2⟩
  | offered p =>
    exact ⟨h.1, s6Core_frame x _ _ _ _ _ _ _ _ htag hcoh hdirty hlru hev hpos hq hrun hpend hwbc
      (hstl.trans h.2.2.2.2.2.1) h.2⟩
  | fill p =>
    obtain ⟨h1, pc, h2⟩ := h
    exact ⟨h1, pc, s6Core_frame x _ _ _ _ _ _ _ _ htag hcoh hdirty hlru hev hpos hq hrun hpend
      hwbc (hstl.trans h2.2.2.2.2.1) h2⟩
  | writeback =>
    obtain ⟨h1, a, pc, h2⟩ := h
    exact ⟨h1, a, pc, s6Core_frame x _ _ _ _ _ _ _ _ htag hcoh hdirty hlru hev hpos hq hrun hpend
      hwbc (hstl.trans h2.2.2.2.2.1) h2⟩
  | released p =>
    exact ⟨h.1, s6Core_frame x _ _ _ _ _ _ _ _ htag hcoh hdirty hlru hev hpos hq hrun hpend hwbc
      (hstl.trans h.2.2.2.2.2.1) h.2⟩
  | done =>
    exact s6Core_frame x _ _ _ _ _ _ _ _ htag hcoh hdirty hlru hev hpos hq hrun hpend hwbc
      (hstl.trans h.2.2.2.2.1) h

/-- Before its fill the block of the access `p` is not in the cache of core 0. -/
theorem s6_lookup_none (x : S6) (hyp : S6Hyp x) (p : Nat) (hp : p < 3) (st : State)
    (h : S6Lines x p st) :
    lookupWay x.cfg st 0 (setIndexOf x.cfg (s6Addr x p)) (tagOf x.cfg (s6Addr x p)) = none := by
  obtain ⟨l1, l2, _, l4, l5, _⟩ := h
  unfold lookupWay
  rw [hyp.1, hyp.2.2.1 p]
  apply findFirst_none_of
  intro j hj
  have hj2 : j = 0 ∨ j = 1 := by omega
  rcases hj2 with rfl | rfl
  · by_cases hF : p = 0
    · rw [l1.mpr hF]
      rfl
    · have ht := l2 (by omega)
      rw [if_neg (by omega)] at ht
      rw [ht]
      have hne := s6Tag_ne x hyp 0 p (by omega) hp (fun hx => hF hx.symm)
      have hne2 : (s6Tag x 0 == toUnsigned (tagOf x.cfg (s6Addr x p))) = false := by
        simpa [s6Tag] using hne
      rw [hne2]
      simp
  · by_cases hF : p ≤ 1
    · rw [l4.mpr hF]
      rfl
    · have ht := l5 (by omega)
      rw [ht]
      have hne := s6Tag_ne x hyp 1 p (by omega) hp (by omega)
      have hne2 : (s6Tag x 1 == toUnsigned (tagOf x.cfg (s6Addr x p))) = false := by
        simpa [s6Tag] using hne
      rw [hne2]
      simp

theorem s6_others_hold_nothing (x : S6) (F : Nat) (st : State) (h : S6Lines x F st)
    (c : Nat) (hc : c ≠ 0) (s : Nat) (tag : Int) (w : Nat) : holdsLine st c s tag w = false := by
  unfold holdsLine
  rw [h.2.2.2.2.2.2.2.2 c hc s w]
  simp

theorem s6_findOtherHolder_none (x : S6) (F : Nat) (st : State) (h : S6Lines x F st)
    (s : Nat) (tag : Int) : findOtherHolder x.cfg st 0 s tag = none := by
  cases hf : findOtherHolder x.cfg st 0 s tag with
  | none => rfl
  | some p =>
    obtain ⟨d, w⟩ := p
    obtain ⟨_, hne, _, hh⟩ := findOtherHolder_some hf
    rw [s6_others_hold_nothing x F st h d hne s tag w] at hh
    exact absurd hh (by decide)

/-- The way that the fill number `F` selects: way 0, then way 1, then none is `INVALID`. -/
theorem s6_findInvalidWay (x : S6) (hyp : S6Hyp x) (F : Nat) (st : State) (h : S6Lines x F st) :
    findInvalidWay x.cfg st 0 (setIndexOf x.cfg x.a0)
      = (if F = 0 then some 0 else if F = 1 then some 1 else none) := by
  obtain ⟨l1, _, _, l4, _⟩ := h
  unfold findInvalidWay
  rw [hyp.1]
  by_cases h0 : F = 0
  · rw [if_pos h0]
    apply findFirst_two_zero
    rw [l1.mpr h0]
    rfl
  · rw [if_neg h0]
    have hv0 : (st.coherenceTable 0 (setIndexOf x.cfg x.a0) 0 == CoherenceState.INVALID)
        = false := by
      have : st.coherenceTable 0 (setIndexOf x.cfg x.a0) 0 ≠ CoherenceState.INVALID :=
        fun hx => h0 (l1.mp hx)
      simpa using this
    by_cases h1 : F = 1
    · rw [if_pos h1]
      apply findFirst_two_one hv0
      rw [l4.mpr (by omega)]
      rfl
    · rw [if_neg h1]
      apply findFirst_none_of
      intro j hj
      have hj2 : j = 0 ∨ j = 1 := by omega
      rcases hj2 with rfl | rfl
      · exact hv0
      · have : st.coherenceTable 0 (setIndexOf x.cfg x.a0) 1 ≠ CoherenceState.INVALID :=
          fun hx => by have := l4.mp hx; omega
        simpa using this

/-! ### Scenario S6: the bus tick, on states -/

theorem tick_nothing (cfg : Config) (st : State) (hq : st.dataTransferQueue = [])
    (hr : st.pendingRequests = []) :
    processBusTransactions cfg st = { st with busTickCounter := st.busTickCounter + 1 } := by
  unfold processBusTransactions
  have hrp : requestPhase cfg { st with busTickCounter := st.busTickCounter + 1 }
      = { st with busTickCounter := st.busTickCounter + 1 } := by
    unfold requestPhase
    have hr2 : ({ st with busTickCounter := st.busTickCounter + 1 } : State).pendingRequests
        = [] := hr
    rw [hr2]
    rfl
  rw [hrp]
  unfold dataPhase
  have hq2 : ({ st with busTickCounter := st.busTickCounter + 1 }
      : State).dataTransferQueue = [] := hq
  rw [hq2]

/-- A bus tick that starts with the bus idle and one queued miss request, when no other core
holds the line: the request is serviced from memory and the fill has 99 cycles left at the end
of the tick. -/
theorem tick_service (cfg : Config) (st : State) (r : BusTransaction)
    (hq : st.dataTransferQueue = []) (hr : st.pendingRequests = [r])
    (hb : st.busOccupied = false)
    (hk : r.reqType = BusRequestType.READ_SHARED ∨ r.reqType = BusRequestType.READ_EXCLUSIVE)
    (hn : ∀ c, c ≠ r.requestorId → ∀ w,
      holdsLine st c (setIndexOf cfg r.memoryAddress) (tagOf cfg r.memoryAddress) w = false)
    (hfo : findOtherHolder cfg st r.requestorId (setIndexOf cfg r.memoryAddress)
      (tagOf cfg r.memoryAddress) = none) :
    (processBusTransactions cfg st).dataTransferQueue
        = [⟨r.memoryAddress, r.requestorId,
            decide (r.reqType = BusRequestType.READ_EXCLUSIVE), false, false, 99⟩]
      ∧ (processBusTransactions cfg st).tagArray = st.tagArray
      ∧ (processBusTransactions cfg st).coherenceTable = st.coherenceTable
      ∧ (processBusTransactions cfg st).dirtyFlags = st.dirtyFlags
      ∧ (processBusTransactions cfg st).lruOrder = st.lruOrder
      ∧ (processBusTransactions cfg st).evictionCount = st.evictionCount
      ∧ (processBusTransactions cfg st).writebackCount = st.writebackCount
      ∧ (processBusTransactions cfg st).pendingOperations
          = set1 st.pendingOperations r.requestorId r.memoryAddress
      ∧ (processBusTransactions cfg st).isStalled r.requestorId = true := by
  unfold processBusTransactions
  have hrp : requestPhase cfg { st with busTickCounter := st.busTickCounter + 1 }
      = serviceRequest cfg
          { st with
            busTickCounter := st.busTickCounter + 1
            pendingRequests := [] } r := by
    unfold requestPhase
    have hr2 : ({ st with busTickCounter := st.busTickCounter + 1 } : State).pendingRequests
        = [r] := hr
    rw [hr2]
    rfl
  rw [hrp]
  have hfr := serviceRequest_frame cfg
    { st with
      busTickCounter := st.busTickCounter + 1
      pendingRequests := [] } r
  obtain ⟨f1, _, f3, _, _, _, _, _, _, f10, f11, _, _⟩ := hfr
  have hview : (serviceRequest cfg
        { st with
          busTickCounter := st.busTickCounter + 1
          pendingRequests := [] } r).dataTransferQueue
        = [⟨r.memoryAddress, r.requestorId,
            decide (r.reqType = BusRequestType.READ_EXCLUSIVE), false, false, 100⟩]
      ∧ (serviceRequest cfg
        { st with
          busTickCounter := st.busTickCounter + 1
          pendingRequests := [] } r).coherenceTable = st.coherenceTable
      ∧ (serviceRequest cfg
        { st with
          busTickCounter := st.busTickCounter + 1
          pendingRequests := [] } r).dirtyFlags = st.dirtyFlags
      ∧ (serviceRequest cfg
        { st with
          busTickCounter := st.busTickCounter + 1
          pendingRequests := [] } r).pendingOperations
          = set1 st.pendingOperations r.requestorId r.memoryAddress
      ∧ (serviceRequest cfg
        { st with
          busTickCounter := st.busTickCounter + 1
          pendingRequests := [] } r).isStalled r.requestorId = true := by
    rcases hk with hk | hk
    · obtain ⟨_, s2, s3, s4, _, _, _, s8⟩ := serviceRequest_read_idle cfg
        { st with
          busTickCounter := st.busTickCounter + 1
          pendingRequests := [] } r hb hk hfo
      have s9 := serviceRequest_read_idle_pending cfg
        { st with
          busTickCounter := st.busTickCounter + 1
          pendingRequests := [] } r hb hk hfo
      refine ⟨?_, s4, s2, s9, ?_⟩
      · rw [s3, hk]
        show st.dataTransferQueue ++ _ = _
        rw [hq]
        rfl
      · rw [s8]
        simp
    · obtain ⟨_, s2, s3, s4, s5, s6⟩ := serviceRequest_exclusive_idle cfg
        { st with
          busTickCounter := st.busTickCounter + 1
          pendingRequests := [] } r hb hk hn
      refine ⟨?_, s4, s2, s5, ?_⟩
      · rw [s3, hk]
        show st.dataTransferQueue ++ _ = _
        rw [hq]
        rfl
      · rw [s6]
        simp
  generalize serviceRequest cfg
    { st with
      busTickCounter := st.busTickCounter + 1
      pendingRequests := [] } r = S at f1 f3 f10 f11 hview
  obtain ⟨v1, v2, v3, v4, v5⟩ := hview
  rw [dataPhase_waits cfg S _ [] v1 (by simp)]
  exact ⟨rfl, f1, v2, v3, f3, f10, f11, v4, v5⟩

/-- The request phase entered with the bus busy, on the fields that describe the lines. -/
theorem requestPhase_busy_lines (cfg : Config) (st : State) (hb : st.busOccupied = true) :
    (requestPhase cfg { st with busTickCounter := st.busTickCounter + 1 }).tagArray = st.tagArray
      ∧ (requestPhase cfg
          { st with busTickCounter := st.busTickCounter + 1 }).coherenceTable
            = st.coherenceTable
      ∧ (requestPhase cfg
          { st with busTickCounter := st.busTickCounter + 1 }).dirtyFlags = st.dirtyFlags
      ∧ (requestPhase cfg
          { st with busTickCounter := st.busTickCounter + 1 }).lruOrder = st.lruOrder
      ∧ (requestPhase cfg
          { st with busTickCounter := st.busTickCounter + 1 }).evictionCount
            = st.evictionCount
      ∧ (requestPhase cfg
          { st with busTickCounter := st.busTickCounter + 1 }).writebackCount
            = st.writebackCount
      ∧ (requestPhase cfg
          { st with busTickCounter := st.busTickCounter + 1 }).dataTransferQueue
            = st.dataTransferQueue
      ∧ (requestPhase cfg
          { st with busTickCounter := st.busTickCounter + 1 }).pendingOperations
            = st.pendingOperations
      ∧ ∀ c, st.isStalled c = true → (requestPhase cfg
          { st with busTickCounter := st.busTickCounter + 1 }).isStalled c = true := by
  obtain ⟨b1, b2, b3, b4, _, _, b7⟩ := requestLoop_busy_view cfg
    ({ st with busTickCounter := st.busTickCounter + 1 } : State).pendingRequests
    { st with busTickCounter := st.busTickCounter + 1 } hb
  obtain ⟨⟨_, w2, _⟩, _⟩ := requestLoop_busy cfg
    ({ st with busTickCounter := st.busTickCounter + 1 } : State).pendingRequests
    { st with busTickCounter := st.busTickCounter + 1 } hb
  obtain ⟨_, _, f3, _, _, _, _, _, f9, f10, _⟩ := requestLoop_frame cfg
    ({ st with busTickCounter := st.busTickCounter + 1 } : State).pendingRequests
    { st with busTickCounter := st.busTickCounter + 1 }
  exact ⟨b4, b3, b1, f3, f9, f10, b2, w2, b7⟩

/-- A bus tick that starts with one queued transfer that has cycles left: a cycle is counted
down and the lines are not touched. -/
theorem tick_busy_wait (cfg : Config) (st : State) (t : BusDataTransfer)
    (hq : st.dataTransferQueue = [t]) (hb : st.busOccupied = true) (hp : t.pendingCycles ≠ 0) :
    (processBusTransactions cfg st).dataTransferQueue
        = [{ t with pendingCycles := t.pendingCycles - 1 }]
      ∧ (processBusTransactions cfg st).tagArray = st.tagArray
      ∧ (processBusTransactions cfg st).coherenceTable = st.coherenceTable
      ∧ (processBusTransactions cfg st).dirtyFlags = st.dirtyFlags
      ∧ (processBusTransactions cfg st).lruOrder = st.lruOrder
      ∧ (processBusTransactions cfg st).evictionCount = st.evictionCount
      ∧ (processBusTransactions cfg st).writebackCount = st.writebackCount
      ∧ (processBusTransactions cfg st).pendingOperations = st.pendingOperations
      ∧ ∀ c, st.isStalled c = true → (processBusTransactions cfg st).isStalled c = true := by
  unfold processBusTransactions
  have hv := requestPhase_busy_lines cfg st hb
  generalize requestPhase cfg { st with busTickCounter := st.busTickCounter + 1 } = R at hv
  obtain ⟨r1, r2, r3, r4, r5, r6, r7, r8, r9⟩ := hv
  rw [dataPhase_waits cfg R t [] (r7.trans hq) hp]
  exact ⟨rfl, r1, r2, r3, r4, r5, r6, r8, r9⟩

/-- A bus tick that starts with one queued transfer that has no cycle left: the transfer is
completed in a state `R` that has the lines, the queue and the pending operations of the
state in which the tick started. -/
theorem tick_busy_complete (cfg : Config) (st : State) (t : BusDataTransfer)
    (hq : st.dataTransferQueue = [t]) (hb : st.busOccupied = true) (hp : t.pendingCycles = 0) :
    ∃ R : State, R.tagArray = st.tagArray ∧ R.coherenceTable = st.coherenceTable
      ∧ R.dirtyFlags = st.dirtyFlags ∧ R.lruOrder = st.lruOrder
      ∧ R.evictionCount = st.evictionCount ∧ R.writebackCount = st.writebackCount
      ∧ R.dataTransferQueue = [t] ∧ R.pendingOperations = st.pendingOperations
      ∧ (processBusTransactions cfg st).tagArray = (completeTransfer cfg R t).tagArray
      ∧ (processBusTransactions cfg st).coherenceTable
          = (completeTransfer cfg R t).coherenceTable
      ∧ (processBusTransactions cfg st).dirtyFlags = (completeTransfer cfg R t).dirtyFlags
      ∧ (processBusTransactions cfg st).lruOrder = (completeTransfer cfg R t).lruOrder
      ∧ (processBusTransactions cfg st).evictionCount
          = (completeTransfer cfg R t).evictionCount
      ∧ (processBusTransactions cfg st).writebackCount
          = (completeTransfer cfg R t).writebackCount
      ∧ (processBusTransactions cfg st).isStalled = (completeTransfer cfg R t).isStalled
      ∧ (processBusTransactions cfg st).pendingOperations
          = (completeTransfer cfg R t).pendingOperations
      ∧ (processBusTransactions cfg st).dataTransferQueue
          = (completeTransfer cfg R t).dataTransferQueue.tail := by
  unfold processBusTransactions
  have hv := requestPhase_busy_lines cfg st hb
  generalize requestPhase cfg { st with busTickCounter := st.busTickCounter + 1 } = R at hv
  obtain ⟨r1, r2, r3, r4, r5, r6, r7, r8, _⟩ := hv
  refine ⟨R, r1, r2, r3, r4, r5, r6, r7.trans hq, r8, ?_⟩
  unfold dataPhase
  rw [r7.trans hq]
  dsimp only
  rw [if_pos hp]
  split
  · exact ⟨rfl, rfl, rfl, rfl, rfl, rfl, rfl, rfl, rfl⟩
  · exact ⟨rfl, rfl, rfl, rfl, rfl, rfl, rfl, rfl, rfl⟩

/-! ### Scenario S6: the first loop -/

theorem s6Core_exec (x : S6) (F pos : Nat) (q : List BusDataTransfer) (run stl stl2 : Bool)
    (pend wbc : Int) (sim : SimState) (e : TraceEntry)
    (hd : (executeMemoryOperation x.cfg sim.st e 0).dirtyFlags = sim.st.dirtyFlags)
    (hc : (executeMemoryOperation x.cfg sim.st e 0).coherenceTable = sim.st.coherenceTable)
    (hl : (executeMemoryOperation x.cfg sim.st e 0).lruOrder = sim.st.lruOrder)
    (hs : (executeMemoryOperation x.cfg sim.st e 0).isStalled 0 = stl2)
    (h : S6Core x F pos q run stl pend wbc sim) :
    S6Core x F pos q run stl2 pend wbc
      { sim with st := executeMemoryOperation x.cfg sim.st e 0 } := by
  obtain ⟨f1, _, f3, _, _, f6, _, _, _, _, f11, f12, _, _, _, _, _, f18, _⟩ :=
    executeMemoryOperation_frame x.cfg sim.st e 0
  exact s6Core_frame x F pos q run stl stl2 pend wbc f1 hc hd hl f11 rfl f6
    (congrFun f18 0) (congrFun f3 0) (congrFun f12 0) hs h

/-- The first iteration of the first loop in scenario S6: core 0 offers its access when it
has no pending operation, and the access misses. -/
theorem s6_offer_first (x : S6) (hyp : S6Hyp x) (sim : SimState)
    (hreq : sim.st.pendingRequests = []) (h : S6Between x sim) :
    ∃ k, S6Kind.afterOffers k ∧ S6View x k (offerCore x.cfg (scenarioS6 x) 0 sim)
      ∧ S6Requests x k (offerCore x.cfg (scenarioS6 x) 0 sim).st.pendingRequests := by
  obtain ⟨k, hk, hv⟩ := h
  cases k with
  | idle p =>
    obtain ⟨hp, hc⟩ := hv
    have hrun := hc.2.2.2.1
    have hpos := hc.2.1
    have hpend := hc.2.2.2.2.2.1
    have heq : offerCore x.cfg (scenarioS6 x) 0 sim
        = { sim with
            st := executeMemoryOperation x.cfg sim.st ⟨s6Op x p, s6Addr x p⟩ 0 } := by
      unfold offerCore
      dsimp only
      rw [if_neg (by rw [hrun]; decide), hpos, scenarioS6_entry x p hp]
    rw [heq]
    obtain ⟨m1, m2, m3, m4⟩ := executeMemoryOperation_miss x.cfg sim.st
      ⟨s6Op x p, s6Addr x p⟩ 0 (s6_lookup_none x hyp p hp sim.st hc.1)
    rcases m4 with ⟨g, _⟩ | ⟨_, g1, g2⟩
    · exact absurd hpend g
    · refine ⟨S6Kind.offered p, trivial,
        ⟨hp, s6Core_exec x _ _ _ _ _ _ _ _ sim _ m1 m2 m3 (by rw [g1]; simp) hc⟩, ?_⟩
      show (executeMemoryOperation x.cfg sim.st ⟨s6Op x p, s6Addr x p⟩ 0).pendingRequests
        = [s6Request x p]
      rw [g2, hreq]
      rfl
  | fill p =>
    obtain ⟨hp, pc, hc⟩ := hv
    have hrun := hc.2.2.2.1
    have hpos := hc.2.1
    have hstl := hc.2.2.2.2.1
    have hpend := hc.2.2.2.2.2.1
    have heq : offerCore x.cfg (scenarioS6 x) 0 sim
        = { sim with
            st := executeMemoryOperation x.cfg sim.st ⟨s6Op x p, s6Addr x p⟩ 0 } := by
      unfold offerCore
      dsimp only
      rw [if_neg (by rw [hrun]; decide), hpos, scenarioS6_entry x p hp]
    rw [heq]
    by_cases ha : sim.st.pendingOperations 0 = -1
    · obtain ⟨m1, m2, m3, m4⟩ := executeMemoryOperation_miss x.cfg sim.st
        ⟨s6Op x p, s6Addr x p⟩ 0 (s6_lookup_none x hyp p hp sim.st hc.1)
      rcases m4 with ⟨g, _⟩ | ⟨_, g1, g2⟩
      · exact absurd ha g
      · refine ⟨S6Kind.fill p, trivial,
          ⟨hp, pc, s6Core_exec x _ _ _ _ _ _ _ _ sim _ m1 m2 m3 (by rw [g1]; simp) hc⟩, ?_⟩
        right
        show (executeMemoryOperation x.cfg sim.st ⟨s6Op x p, s6Addr x p⟩ 0).pendingRequests
          = [s6Request x p]
        rw [g2, hreq]
        rfl
    · obtain ⟨m1, m2, m3, m4, m5⟩ := executeMemoryOperation_pending x.cfg sim.st
        ⟨s6Op x p, s6Addr x p⟩ 0 ha
      refine ⟨S6Kind.fill p, trivial,
        ⟨hp, pc, s6Core_exec x _ _ _ _ _ _ _ _ sim _ m1 m2 m3 (by rw [m4]; exact hstl) hc⟩, ?_⟩
      left
      show (executeMemoryOperation x.cfg sim.st ⟨s6Op x p, s6Addr x p⟩ 0).pendingRequests = []
      rw [m5, hreq]
  | writeback =>
    obtain ⟨ho, a, pc, hc⟩ := hv
    have hrun := hc.2.2.2.1
    have hpos := hc.2.1
    have hstl := hc.2.2.2.2.1
    have hpend := hc.2.2.2.2.2.1
    have heq : offerCore x.cfg (scenarioS6 x) 0 sim
        = { sim with
            st := executeMemoryOperation x.cfg sim.st ⟨s6Op x 2, s6Addr x 2⟩ 0 } := by
      unfold offerCore
      dsimp only
      rw [if_neg (by rw [hrun]; decide), hpos, scenarioS6_entry x 2 (by decide)]
    rw [heq]
    obtain ⟨m1, m2, m3, m4, m5⟩ := executeMemoryOperation_pending x.cfg sim.st
      ⟨s6Op x 2, s6Addr x 2⟩ 0 (by rw [hpend]; decide)
    refine ⟨S6Kind.writeback, trivial,
      ⟨ho, a, pc, s6Core_exec x _ _ _ _ _ _ _ _ sim _ m1 m2 m3 (by rw [m4]; exact hstl) hc⟩,
      ?_⟩
    show (executeMemoryOperation x.cfg sim.st ⟨s6Op x 2, s6Addr x 2⟩ 0).pendingRequests = []
    rw [m5, hreq]
  | done =>
    have hrun := hv.2.2.2.1
    have heq : offerCore x.cfg (scenarioS6 x) 0 sim = sim := by
      unfold offerCore
      dsimp only
      rw [if_pos (by rw [hrun]; rfl)]
    rw [heq]
    exact ⟨S6Kind.done, trivial, hv, hreq⟩
  | offered p => exact False.elim hk
  | released p => exact False.elim hk

theorem offerCore_empty (cfg : Config) (tr : Nat → List TraceEntry) (i : Nat) (sim : SimState)
    (ht : tr i = []) :
    (offerCore cfg tr i sim).tracePosition = sim.tracePosition
      ∧ (offerCore cfg tr i sim).st.processorRunning i = false
      ∧ (∀ c, c ≠ i →
          (offerCore cfg tr i sim).st.processorRunning c = sim.st.processorRunning c)
      ∧ (offerCore cfg tr i sim).st.tagArray = sim.st.tagArray
      ∧ (offerCore cfg tr i sim).st.coherenceTable = sim.st.coherenceTable
      ∧ (offerCore cfg tr i sim).st.dirtyFlags = sim.st.dirtyFlags
      ∧ (offerCore cfg tr i sim).st.lruOrder = sim.st.lruOrder
      ∧ (offerCore cfg tr i sim).st.evictionCount = sim.st.evictionCount
      ∧ (offerCore cfg tr i sim).st.dataTransferQueue = sim.st.dataTransferQueue
      ∧ (offerCore cfg tr i sim).st.pendingOperations = sim.st.pendingOperations
      ∧ (offerCore cfg tr i sim).st.writebackCount = sim.st.writebackCount
      ∧ (offerCore cfg tr i sim).st.isStalled = sim.st.isStalled
      ∧ (offerCore cfg tr i sim).st.pendingRequests = sim.st.pendingRequests := by
  unfold offerCore
  dsimp only
  split
  · rename_i hr
    exact ⟨rfl, by simpa using hr, fun _ _ => rfl, rfl, rfl, rfl, rfl, rfl, rfl, rfl, rfl, rfl,
      rfl⟩
  · rw [ht]
    dsimp only [List.getElem?_nil]
    exact ⟨rfl, by simp, fun c hc => set1_of_ne _ _ _ _ hc, rfl, rfl, rfl, rfl, rfl, rfl, rfl,
      rfl, rfl, rfl⟩

/-- One iteration of the first loop in scenario S6. -/
theorem s6Offered_offerCore (x : S6) (hyp : S6Hyp x) (i : Nat) (sim : SimState) (hi : i < 4)
    (h : S6Offered x i sim) :
    S6Offered x (i + 1) (offerCore x.cfg (scenarioS6 x) i sim) := by
  rcases h with ⟨hi0, hreq, hb⟩ | ⟨hi1, hstop, k, hk, hv, hr⟩
  · subst hi0
    obtain ⟨k, hk, hv, hr⟩ := s6_offer_first x hyp sim hreq hb
    exact Or.inr ⟨by omega, fun c h1 h2 => by omega, k, hk, hv, hr⟩
  · obtain ⟨e1, e2, e3, e4, e5, e6, e7, e8, e9, e10, e11, e12, e13⟩ :=
      offerCore_empty x.cfg (scenarioS6 x) i sim (scenarioS6_others x i (by omega))
    refine Or.inr ⟨by omega, ?_, k, hk, ?_, ?_⟩
    · intro c h1 h2
      by_cases hci : c = i
      · rw [hci]
        exact e2
      · rw [e3 c hci]
        exact hstop c h1 (by omega)
    · exact s6View_frame x k e4 e5 e6 e7 e8 (congrFun e1 0) e9 (e3 0 (by omega))
        (congrFun e10 0) (congrFun e11 0) (congrFun e12 0) hv
    · rw [e13]
      exact hr

/-! ### Scenario S6: the bus tick -/

/-- The fill number `F` of scenario S6 in terms of the lines: the way that receives the block,
the new LRU list and the eviction count give the lines after `F + 1` fills. -/
theorem s6Lines_fill (x : S6) (F : Nat) (hF : F < 3) (R D : State) (v : Nat)
    (h : S6Lines x F R) (hv : v = if F = 1 then 1 else 0)
    (htag : D.tagArray = set3 R.tagArray 0 (setIndexOf x.cfg x.a0) v (s6Tag x F))
    (hcoh : ∃ X, X ≠ CoherenceState.INVALID
      ∧ D.coherenceTable = set3 R.coherenceTable 0 (setIndexOf x.cfg x.a0) v X)
    (hdirty : D.dirtyFlags
      = set3 R.dirtyFlags 0 (setIndexOf x.cfg x.a0) v (decide (s6Op x F = Op.W)))
    (hlru : D.lruOrder 0 (setIndexOf x.cfg x.a0) = if (F + 1) % 2 = 1 then [1, 0] else [0, 1])
    (hev : D.evictionCount 0 = if F + 1 = 3 then 1 else 0) :
    S6Lines x (F + 1) D := by
  obtain ⟨l1, l2, l3, l4, l5, l6, _, _, l9⟩ := h
  obtain ⟨X, hX, hcoh⟩ := hcoh
  have hcases : F = 0 ∨ F = 1 ∨ F = 2 := by omega
  unfold S6Lines
  rw [htag, hcoh, hdirty]
  refine ⟨?_, ?_, ?_, ?_, ?_, ?_, hlru, hev, ?_⟩
  · rcases hcases with rfl | rfl | rfl
    · subst hv
      simp [set3_apply, hX]
    · subst hv
      have : R.coherenceTable 0 (setIndexOf x.cfg x.a0) 0 ≠ CoherenceState.INVALID :=
        fun hx => by have := l1.mp hx; omega
      simp [set3_apply, this]
    · subst hv
      simp [set3_apply, hX]
  · intro _
    rcases hcases with rfl | rfl | rfl
    · subst hv
      simp [set3_apply]
    · subst hv
      have := l2 (by omega)
      simpa [set3_apply] using this
    · subst hv
      simp [set3_apply]
  · rcases hcases with rfl | rfl | rfl
    · subst hv
      simp [set3_apply, s6Op]
    · subst hv
      have := l3
      simpa [set3_apply] using this
    · subst hv
      simp [set3_apply, s6Op]
  · rcases hcases with rfl | rfl | rfl
    · subst hv
      have := l4.mpr (by omega)
      simpa [set3_apply] using this
    · subst hv
      simp [set3_apply, hX]
    · subst hv
      have : R.coherenceTable 0 (setIndexOf x.cfg x.a0) 1 ≠ CoherenceState.INVALID :=
        fun hx => by have := l4.mp hx; omega
      simp [set3_apply, this]
  · intro h2
    rcases hcases with rfl | rfl | rfl
    · omega
    · subst hv
      simp [set3_apply]
    · subst hv
      have := l5 (by omega)
      simpa [set3_apply] using this
  · rcases hcases with rfl | rfl | rfl
    · subst hv
      simpa [set3_apply] using l6
    · subst hv
      simp [set3_apply, s6Op]
    · subst hv
      simpa [set3_apply] using l6
  · intro c hc s2 w
    rw [set3_apply, if_neg (fun hx => hc hx.1)]
    exact l9 c hc s2 w

theorem s6Request_kind (x : S6) (p : Nat) :
    ((s6Request x p).reqType = BusRequestType.READ_SHARED
        ∨ (s6Request x p).reqType = BusRequestType.READ_EXCLUSIVE)
      ∧ decide ((s6Request x p).reqType = BusRequestType.READ_EXCLUSIVE)
        = decide (s6Op x p = Op.W) := by
  unfold s6Request
  cases s6Op x p <;> simp

/-- The bus tick in scenario S6. -/
theorem s6Ticked_tick (x : S6) (hyp : S6Hyp x) (sim : SimState) (hbusy : BusBusyInv sim.st)
    (h : S6Offered x 4 sim) :
    S6Ticked x { sim with st := processBusTransactions x.cfg sim.st } := by
  rcases h with ⟨h0, _⟩ | ⟨_, hstop, k, hk, hv, hr⟩
  · exact absurd h0 (by decide)
  have hrun := processBusTransactions_running x.cfg sim.st
  refine ⟨?_, ?_⟩
  · intro c h1 h2
    show (processBusTransactions x.cfg sim.st).processorRunning c = false
    rw [hrun]
    exact hstop c h1 h2
  cases k with
  | idle p => exact False.elim hk
  | released p => exact False.elim hk
  | offered p =>
    obtain ⟨hp, hl, hpos, hq, hr0, hs0, hpe, hwb⟩ := hv
    have hb : sim.st.busOccupied = false := by
      cases hx : sim.st.busOccupied with
      | false => rfl
      | true => exact absurd hq (hbusy.mp hx)
    have hr2 : sim.st.pendingRequests = [s6Request x p] := hr
    obtain ⟨hkind, hdec⟩ := s6Request_kind x p
    obtain ⟨t1, t2, t3, t4, t5, t6, t7, t8, t9⟩ := tick_service x.cfg sim.st (s6Request x p)
      hq hr2 hb hkind
      (fun c hc w => s6_others_hold_nothing x p sim.st hl c hc _ _ w)
      (s6_findOtherHolder_none x p sim.st hl _ _)
    rw [hdec] at t1
    refine ⟨S6Kind.fill p, trivial, hp, 99, ?_, hpos, t1, ?_, t9, ?_, ?_⟩
    · exact s6Lines_congr x p t2 t3 t4 t5 t6 hl
    · show (processBusTransactions x.cfg sim.st).processorRunning 0 = true
      rw [hrun]
      exact hr0
    · show (processBusTransactions x.cfg sim.st).pendingOperations 0 = s6Addr x p
      rw [t8]
      exact set1_same _ _ _
    · show (processBusTransactions x.cfg sim.st).writebackCount 0 = 0
      rw [t7]
      exact hwb
  | fill p =>
    obtain ⟨hp, pc, hl, hpos, hq, hr0, hs0, hpe, hwb⟩ := hv
    have hb : sim.st.busOccupied = true := hbusy.mpr (by rw [hq]; simp)
    by_cases hpc : pc = 0
    · obtain ⟨R, r1, r2, r3, r4, r5, r6, r7, r8, d1, d2, d3, d4, d5, d6, d7, d8, d9⟩ :=
        tick_busy_complete x.cfg sim.st _ hq hb hpc
      have hlR : S6Lines x p R := s6Lines_congr x p r1 r2 r3 r4 r5 hl
      have hfind := s6_findInvalidWay x hyp p R hlR
      have hset : setIndexOf x.cfg (s6Addr x p) = setIndexOf x.cfg x.a0 := hyp.2.2.1 p
      have hrun0 : (processBusTransactions x.cfg sim.st).processorRunning 0 = true := by
        rw [hrun]
        exact hr0
      have hwbR : R.writebackCount 0 = 0 := by
        rw [r6]
        exact hwb
      by_cases hp2 : p = 2
      · -- the third fill evicts the way at the front of the LRU list
        subst hp2
        have hfind2 : findInvalidWay x.cfg R 0 (setIndexOf x.cfg (s6Addr x 2)) = none := by
          rw [hset, hfind]
          rfl
        obtain ⟨c1, c2, c3, c4, c5, c6, c7, c8⟩ := completeTransfer_fill_evict x.cfg R
          ⟨s6Addr x 2, 0, decide (s6Op x 2 = Op.W), false, false, pc⟩ rfl (Or.inr rfl) hfind2
        dsimp only at c1 c2 c3 c4 c5 c6 c7 c8
        rw [hset] at c1 c2 c3 c4 c7 c8
        have hlruR : R.lruOrder 0 (setIndexOf x.cfg x.a0) = [0, 1] := hlR.2.2.2.2.2.2.1
        rw [hlruR] at c1 c2 c3 c4 c7 c8
        simp only [List.headD_cons, List.tail_cons] at c1 c2 c3 c4 c7 c8
        have hlD : S6Lines x (2 + 1) (processBusTransactions x.cfg sim.st) := by
          refine s6Lines_fill x 2 (by decide) R _ 0 hlR rfl (d1.trans c1) ?_ (d3.trans c3)
            ?_ ?_
          · obtain ⟨X, hX, hc⟩ := c2
            exact ⟨X, hX, d2.trans hc⟩
          · rw [d4, c4]
            simp
          · rw [d5, c5, set1_same, hlR.2.2.2.2.2.2.2.1]
            rfl
        by_cases ho : x.o = Op.W
        · have hdirty : R.dirtyFlags 0 (setIndexOf x.cfg x.a0) 0 = true :=
            hlR.2.2.1.mpr ⟨Or.inr rfl, ho⟩
          obtain ⟨⟨a, g1⟩, g2, g3⟩ := c7 hdirty
          refine ⟨S6Kind.writeback, trivial, ho, a, 100, hlD, hpos, ?_, hrun0, ?_, ?_, ?_⟩
          · show (processBusTransactions x.cfg sim.st).dataTransferQueue = _
            rw [d9, g1, r7]
            rfl
          · show (processBusTransactions x.cfg sim.st).isStalled 0 = true
            rw [d7]
            exact g2
          · show (processBusTransactions x.cfg sim.st).pendingOperations 0 = 1
            rw [d8]
            exact g3
          · show (processBusTransactions x.cfg sim.st).writebackCount 0 = 0
            rw [d6, c6]
            exact hwbR
        · have hdirty : R.dirtyFlags 0 (setIndexOf x.cfg x.a0) 0 = false := by
            cases hx : R.dirtyFlags 0 (setIndexOf x.cfg x.a0) 0 with
            | false => rfl
            | true => exact absurd (hlR.2.2.1.mp hx).2 ho
          obtain ⟨g1, g2, g3⟩ := c8 hdirty
          refine ⟨S6Kind.released 2, trivial, by decide, hlD, hpos, ?_, hrun0, ?_, ?_, ?_⟩
          · show (processBusTransactions x.cfg sim.st).dataTransferQueue = _
            rw [d9, g1, r7]
            rfl
          · show (processBusTransactions x.cfg sim.st).isStalled 0 = false
            rw [d7]
            exact g2
          · show (processBusTransactions x.cfg sim.st).pendingOperations 0 = -1
            rw [d8]
            exact g3
          · show (processBusTransactions x.cfg sim.st).writebackCount 0 = _
            rw [d6, c6, hwbR, if_neg (fun hx => ho hx.2)]
      · -- the first two fills go to an `INVALID` way
        have hfind2 : findInvalidWay x.cfg R 0 (setIndexOf x.cfg (s6Addr x p))
            = some (if p = 1 then 1 else 0) := by
          rw [hset, hfind]
          by_cases hp0 : p = 0
          · rw [if_pos hp0, if_neg (by omega)]
          · rw [if_neg hp0, if_pos (by omega), if_pos (by omega)]
        obtain ⟨c1, c2, c3, c4, c5, c6, c7, c8, c9⟩ := completeTransfer_fill_invalid x.cfg R
          ⟨s6Addr x p, 0, decide (s6Op x p = Op.W), false, false, pc⟩ _ rfl (Or.inr rfl) hfind2
        dsimp only at c1 c2 c3 c4 c5 c6 c7 c8 c9
        rw [hset] at c1 c2 c3 c4
        have hlD : S6Lines x (p + 1) (processBusTransactions x.cfg sim.st) := by
          refine s6Lines_fill x p hp R _ _ hlR rfl (d1.trans c1) ?_ (d3.trans c3) ?_ ?_
          · obtain ⟨X, hX, hc⟩ := c2
            exact ⟨X, hX, d2.trans hc⟩
          · rw [d4, c4, set2_same, hlR.2.2.2.2.2.2.1]
            have hcases : p = 0 ∨ p = 1 := by omega
            rcases hcases with rfl | rfl <;> simp
          · rw [d5, c5, hlR.2.2.2.2.2.2.2.1, if_neg (by omega), if_neg (by omega)]
        refine ⟨S6Kind.released p, trivial, hp, hlD, hpos, ?_, hrun0, ?_, ?_, ?_⟩
        · show (processBusTransactions x.cfg sim.st).dataTransferQueue = _
          rw [d9, c7, r7]
          rfl
        · show (processBusTransactions x.cfg sim.st).isStalled 0 = false
          rw [d7]
          exact c8
        · show (processBusTransactions x.cfg sim.st).pendingOperations 0 = -1
          rw [d8]
          exact c9
        · show (processBusTransactions x.cfg sim.st).writebackCount 0 = _
          rw [d6, c6, hwbR, if_neg (fun hx => hp2 hx.1)]
    · obtain ⟨t1, t2, t3, t4, t5, t6, t7, t8, t9⟩ := tick_busy_wait x.cfg sim.st _ hq hb hpc
      refine ⟨S6Kind.fill p, trivial, hp, pc - 1, ?_, hpos, t1, ?_, t9 0 hs0, ?_, ?_⟩
      · exact s6Lines_congr x p t2 t3 t4 t5 t6 hl
      · show (processBusTransactions x.cfg sim.st).processorRunning 0 = true
        rw [hrun]
        exact hr0
      · show (processBusTransactions x.cfg sim.st).pendingOperations 0 = s6Addr x p
        rw [t8]
        exact hpe
      · show (processBusTransactions x.cfg sim.st).writebackCount 0 = 0
        rw [t7]
        exact hwb
  | writeback =>
    obtain ⟨ho, a, pc, hl, hpos, hq, hr0, hs0, hpe, hwb⟩ := hv
    have hb : sim.st.busOccupied = true := hbusy.mpr (by rw [hq]; simp)
    by_cases hpc : pc = 0
    · obtain ⟨R, r1, r2, r3, r4, r5, r6, r7, r8, d1, d2, d3, d4, d5, d6, d7, d8, d9⟩ :=
        tick_busy_complete x.cfg sim.st _ hq hb hpc
      obtain ⟨c1, c2, c3, c4, c5, c6, c7, c8, c9⟩ := completeTransfer_writeback_view x.cfg R
        ⟨a, 0, false, true, false, pc⟩ rfl
      dsimp only at c6 c8 c9
      refine ⟨S6Kind.released 2, trivial, by decide, ?_, hpos, ?_, ?_, ?_, ?_, ?_⟩
      · exact s6Lines_congr x 3 (d1.trans (c1.trans r1)) (d2.trans (c2.trans r2))
          (d3.trans (c3.trans r3)) (d4.trans (c4.trans r4)) (d5.trans (c5.trans r5)) hl
      · show (processBusTransactions x.cfg sim.st).dataTransferQueue = _
        rw [d9, c7, r7]
        rfl
      · show (processBusTransactions x.cfg sim.st).processorRunning 0 = true
        rw [hrun]
        exact hr0
      · show (processBusTransactions x.cfg sim.st).isStalled 0 = false
        rw [d7]
        exact c8
      · show (processBusTransactions x.cfg sim.st).pendingOperations 0 = -1
        rw [d8]
        exact c9
      · show (processBusTransactions x.cfg sim.st).writebackCount 0 = _
        rw [d6, c6, set1_same, r6, hwb, if_pos ⟨rfl, ho⟩]
        rfl
    · obtain ⟨t1, t2, t3, t4, t5, t6, t7, t8, t9⟩ := tick_busy_wait x.cfg sim.st _ hq hb hpc
      refine ⟨S6Kind.writeback, trivial, ho, a, pc - 1, ?_, hpos, t1, ?_, t9 0 hs0, ?_, ?_⟩
      · exact s6Lines_congr x 3 t2 t3 t4 t5 t6 hl
      · show (processBusTransactions x.cfg sim.st).processorRunning 0 = true
        rw [hrun]
        exact hr0
      · show (processBusTransactions x.cfg sim.st).pendingOperations 0 = 1
        rw [t8]
        exact hpe
      · show (processBusTransactions x.cfg sim.st).writebackCount 0 = 0
        rw [t7]
        exact hwb
  | done =>
    have hq := hv.2.2.1
    have hr2 : sim.st.pendingRequests = [] := hr
    rw [tick_nothing x.cfg sim.st hq hr2]
    exact ⟨S6Kind.done, trivial, hv⟩

/-! ### Scenario S6: the third loop and the run -/

theorem advanceCore_running (tr : Nat → List TraceEntry) (i : Nat) (sim : SimState)
    (hs : sim.st.isStalled i = false) (hr : sim.st.processorRunning i = true) :
    (advanceCore tr i sim).st.processorRunning i
      = decide (sim.tracePosition i + 1 ≠ (tr i).length) := by
  unfold advanceCore
  dsimp only
  rw [if_pos (by rw [hs, hr]; rfl)]
  by_cases hl : sim.tracePosition i + 1 = (tr i).length
  · rw [if_pos hl]
    simp [hl]
  · rw [if_neg hl]
    simp [hl, hr]

/-- One iteration of the third loop in scenario S6: core 0 retires its access when it has
been released; the other cores have stopped. -/
theorem s6Advanced_advanceCore (x : S6) (i : Nat) (sim : SimState) (hi : i < 4)
    (h : S6Advanced x i sim) :
    S6Advanced x (i + 1) (advanceCore (scenarioS6 x) i sim) := by
  rcases h with ⟨hi0, hstop, k, hk, hv⟩ | ⟨hi1, hstop, hb⟩
  · subst hi0
    cases k with
    | idle p => exact False.elim hk
    | offered p => exact False.elim hk
    | fill p =>
      have hs : sim.st.isStalled 0 = true := hv.2.choose_spec.2.2.2.2.1
      rw [advanceCore_stays (scenarioS6 x) 0 sim (by rw [hs]; simp)]
      exact Or.inr ⟨by omega, hstop, S6Kind.fill p, trivial, hv⟩
    | writeback =>
      obtain ⟨ho, a, pc, hc⟩ := hv
      have hs : sim.st.isStalled 0 = true := hc.2.2.2.2.1
      rw [advanceCore_stays (scenarioS6 x) 0 sim (by rw [hs]; simp)]
      exact Or.inr ⟨by omega, hstop, S6Kind.writeback, trivial, ho, a, pc, hc⟩
    | done =>
      have hr : sim.st.processorRunning 0 = false := hv.2.2.2.1
      rw [advanceCore_stays (scenarioS6 x) 0 sim (by rw [hr]; simp)]
      exact Or.inr ⟨by omega, hstop, S6Kind.done, trivial, hv⟩
    | released p =>
      obtain ⟨hp, hl, hpos, hq, hr0, hs0, hpe, hwb⟩ := hv
      obtain ⟨a1, a2, a3, a4, a5, a6, a7, _⟩ := advanceCore_lines (scenarioS6 x) 0 sim
      obtain ⟨_, f2, f3, _, _, f6⟩ := advanceCore_frame (scenarioS6 x) 0 sim
      have hpos2 := advanceCore_advances (scenarioS6 x) 0 sim hs0 hr0
      have hrun2 := advanceCore_running (scenarioS6 x) 0 sim hs0 hr0
      rw [hpos, scenarioS6_length] at hrun2
      rw [hpos] at hpos2
      have hlines : S6Lines x (p + 1) (advanceCore (scenarioS6 x) 0 sim).st :=
        s6Lines_congr x (p + 1) a1 a2 a3 a4 a6 hl
      refine Or.inr ⟨by omega, ?_, ?_⟩
      · intro c h1 h2
        rw [(f6 c (by omega)).1]
        exact hstop c h1 h2
      · by_cases hp2 : p = 2
        · subst hp2
          refine ⟨S6Kind.done, trivial, hlines, hpos2, f2.trans hq, ?_, ?_, ?_, ?_⟩
          · rw [hrun2]
            rfl
          · rw [f3]
            exact hs0
          · rw [a5]
            exact hpe
          · rw [a7, hwb]
            simp
        · refine ⟨S6Kind.idle (p + 1), trivial, by omega, hlines, hpos2, f2.trans hq, ?_, ?_,
            ?_, ?_⟩
          · rw [hrun2]
            simp
            omega
          · rw [f3]
            exact hs0
          · rw [a5]
            exact hpe
          · rw [a7, hwb, if_neg (fun hx => hp2 hx.1)]
  · rw [advanceCore_stays (scenarioS6 x) i sim (by rw [hstop i hi1 hi]; simp)]
    exact Or.inr ⟨by omega, hstop, hb⟩

theorem setIndexOf_lt (cfg : Config) (a : Int) : setIndexOf cfg a < 2 ^ cfg.numSetBits := by
  have h := setIndexOf_eq cfg a
  have hpos : (0 : Int) < (2 : Int) ^ cfg.numSetBits := by positivity
  have hlt := Int.emod_lt_of_pos (blockOf cfg a) hpos
  rw [← h] at hlt
  exact_mod_cast hlt

theorem s6Between_initial (x : S6) (hyp : S6Hyp x) : S6Between x (initialSim x.cfg) := by
  refine ⟨S6Kind.idle 0, trivial, by decide, ?_, rfl, rfl, rfl, rfl, rfl, rfl⟩
  refine ⟨by simp [initialSim, initialState], fun h => absurd h (by decide),
    by simp [initialSim, initialState], by simp [initialSim, initialState],
    fun h => absurd h (by decide), rfl, ?_, rfl, fun _ _ _ _ => rfl⟩
  show initializeLruOrder x.cfg (setIndexOf x.cfg x.a0) = _
  unfold initializeLruOrder initialLruList
  rw [if_pos (setIndexOf_lt x.cfg x.a0), hyp.1]
  rfl

/-- In scenario S6 every cycle ends in one of the stages `idle`, `fill`, `writeback`,
`done`. -/
theorem s6Between_cycles (x : S6) (hyp : S6Hyp x) (n : Nat) :
    S6Between x (cycles x.cfg (scenarioS6 x) n) := by
  refine ((cycles_phases x.cfg (scenarioS6 x)
    (fun sim => TermInv x.cfg (scenarioS6 x) sim ∧ S6Between x sim)
    (fun i sim => TermOffered x.cfg (scenarioS6 x) i sim ∧ S6Offered x i sim)
    (fun sim => TermTicked x.cfg (scenarioS6 x) sim ∧ S6Ticked x sim)
    (fun i sim => TermTicked x.cfg (scenarioS6 x) sim ∧ S6Advanced x i sim)
    ⟨termInv_initial x.cfg (scenarioS6 x), s6Between_initial x hyp⟩ ?_ ?_ ?_ ?_ ?_ ?_ n).1).2
  · intro sim ⟨h1, h2⟩
    exact ⟨termOffered_of_termInv x.cfg (scenarioS6 x) sim h1, Or.inl ⟨rfl, h1.2.1, h2⟩⟩
  · intro i sim hi ⟨h1, h2⟩
    exact ⟨termOffered_offerCore x.cfg (scenarioS6 x) i sim hi h1,
      s6Offered_offerCore x hyp i sim hi h2⟩
  · intro sim ⟨h1, h2⟩
    exact ⟨termTicked_tick x.cfg (scenarioS6 x) sim h1, s6Ticked_tick x hyp sim h1.1.1.2.1 h2⟩
  · intro sim ⟨h1, h2⟩
    exact ⟨h1, Or.inl ⟨rfl, h2⟩⟩
  · intro i sim hi ⟨h1, h2⟩
    exact ⟨termTicked_advanceCore x.cfg (scenarioS6 x) i sim hi h1,
      s6Advanced_advanceCore x i sim hi h2⟩
  · intro sim ⟨h1, h2⟩
    refine ⟨h1.1, ?_⟩
    rcases h2 with ⟨h0, _⟩ | ⟨_, _, hb⟩
    · exact absurd h0 (by decide)
    · exact hb

/-- The run of scenario S6 returns, and the state it returns is in the stage `done`: one
eviction, a writeback exactly when the first access is a write, the third block in way 0 and the
second block in way 1. -/
theorem s6_run (x : S6) (hyp : S6Hyp x) :
    (∃ fuel sim, ∀ k, runMulticoreSimulation x.cfg (scenarioS6 x) (fuel + k) = some sim)
      ∧ ∀ fuel sim, runMulticoreSimulation x.cfg (scenarioS6 x) fuel = some sim →
          sim.st.evictionCount 0 = 1
          ∧ sim.st.writebackCount 0 = (if x.o = Op.W then 1 else 0)
          ∧ sim.st.coherenceTable 0 (setIndexOf x.cfg x.a0) 0 ≠ CoherenceState.INVALID
          ∧ sim.st.tagArray 0 (setIndexOf x.cfg x.a0) 0 = toUnsigned (tagOf x.cfg x.a2)
          ∧ sim.st.coherenceTable 0 (setIndexOf x.cfg x.a0) 1 ≠ CoherenceState.INVALID
          ∧ sim.st.tagArray 0 (setIndexOf x.cfg x.a0) 1 = toUnsigned (tagOf x.cfg x.a1)
          ∧ HoldsNoValidCopy x.cfg sim.st 0 x.a0 := by
  constructor
  · obtain ⟨fuel, r, hr⟩ := cycleLoop_terminates x.cfg (scenarioS6 x) _ _ (initialSim x.cfg)
      (termInv_initial x.cfg (scenarioS6 x)) rfl rfl
    refine ⟨fuel,
      { r with
        st := { r.st with
          readCount := fun c => r.st.readCount c + countOps (scenarioS6 x c) Op.R
          writeCount := fun c => r.st.writeCount c + countOps (scenarioS6 x c) Op.W } }, ?_⟩
    intro k
    unfold runMulticoreSimulation
    rw [cycleLoop_more_fuel x.cfg (scenarioS6 x) fuel k _ r hr]
  · intro fuel sim hrun
    obtain ⟨m, _, hterm, _, hst⟩ :=
      runMulticoreSimulation_result x.cfg (scenarioS6 x) fuel sim hrun
    obtain ⟨_, hcores⟩ := terminated_elim hterm
    have hstop := (hcores 0 (by decide)).1
    obtain ⟨k, hk, hv⟩ := s6Between_cycles x hyp m
    have hdone : S6Core x 3 3 [] false false (-1) (if x.o = Op.W then 1 else 0)
        (cycles x.cfg (scenarioS6 x) m) := by
      cases k with
      | idle p =>
        have := hv.2.2.2.2.1
        rw [hstop] at this
        exact absurd this (by decide)
      | fill p =>
        obtain ⟨_, pc, hc⟩ := hv
        have := hc.2.2.2.1
        rw [hstop] at this
        exact absurd this (by decide)
      | writeback =>
        obtain ⟨_, a, pc, hc⟩ := hv
        have := hc.2.2.2.1
        rw [hstop] at this
        exact absurd this (by decide)
      | done => exact hv
      | offered p => exact False.elim hk
      | released p => exact False.elim hk
    obtain ⟨⟨l1, l2, _, l4, l5, _, _, l8, _⟩, _, _, _, _, _, hwb⟩ := hdone
    rw [hst]
    have hne := s6Tag_ne x hyp
    refine ⟨l8, hwb, fun hx => by have := l1.mp hx; omega, l2 (by decide),
      fun hx => by have := l4.mp hx; omega, l5 (by decide), ?_⟩
    intro w hw htag
    rw [hyp.1] at hw
    have htag2 : (cycles x.cfg (scenarioS6 x) m).st.tagArray 0 (setIndexOf x.cfg x.a0) w
        = s6Tag x 0 := htag
    have hw2 : w = 0 ∨ w = 1 := by omega
    rcases hw2 with rfl | rfl
    · rw [l2 (by decide)] at htag2
      exact absurd htag2 (hne 2 0 (by decide) (by decide) (by decide))
    · rw [l5 (by decide)] at htag2
      exact absurd htag2 (hne 1 0 (by decide) (by decide) (by decide))

theorem s6Hyp_of (cfg : Config) (o : Op) (A B C : Int) (hE : cfg.associativity = 2)
    (hA : -2147483648 ≤ A ∧ A < 2147483648) (hB : -2147483648 ≤ B ∧ B < 2147483648)
    (hC : -2147483648 ≤ C ∧ C < 2147483648)
    (hsB : setIndexOf cfg B = setIndexOf cfg A) (hsC : setIndexOf cfg C = setIndexOf cfg A)
    (hAB : tagOf cfg A ≠ tagOf cfg B) (hAC : tagOf cfg A ≠ tagOf cfg C)
    (hBC : tagOf cfg B ≠ tagOf cfg C) : S6Hyp ⟨cfg, o, A, B, C⟩ := by
  refine ⟨hE, ?_, ?_, hAB, hAC, hBC⟩
  · intro p
    unfold s6Addr
    split
    · exact hA
    · exact hB
    · exact hC
  · intro p
    unfold s6Addr
    split
    · rfl
    · exact hsB
    · exact hsC

theorem s6Outcome_of (cfg : Config) (o : Op) (A B C : Int)
    (hyp : S6Hyp ⟨cfg, o, A, B, C⟩) (wb : Int) (hwb : (if o = Op.W then 1 else 0) = wb) :
    (∃ fuel sim, ∀ k,
        runMulticoreSimulation cfg (tracesOf [⟨o, A⟩, ⟨Op.R, B⟩, ⟨Op.R, C⟩] [] [] [])
          (fuel + k) = some sim)
      ∧ ∀ fuel sim,
          runMulticoreSimulation cfg (tracesOf [⟨o, A⟩, ⟨Op.R, B⟩, ⟨Op.R, C⟩] [] [] []) fuel
            = some sim →
          S6Outcome cfg A B C wb sim := by
  obtain ⟨h1, h2⟩ := s6_run ⟨cfg, o, A, B, C⟩ hyp
  refine ⟨h1, ?_⟩
  intro fuel sim hrun
  obtain ⟨g1, g2, g3, g4, g5, g6, g7⟩ := h2 fuel sim hrun
  have hE : cfg.associativity = 2 := hyp.1
  have hsB : setIndexOf cfg B = setIndexOf cfg A := hyp.2.2.1 1
  have hsC : setIndexOf cfg C = setIndexOf cfg A := hyp.2.2.1 2
  refine ⟨g1, g2.trans hwb, g7, ⟨_, ?_, 1, ?_, ?_, rfl⟩, ⟨_, ?_, 0, ?_, ?_, rfl⟩⟩
  · rw [hsB]
    exact g5
  · rw [hE]
    decide
  · rw [hsB]
    exact g6
  · rw [hsC]
    exact g3
  · rw [hE]
    decide
  · rw [hsC]
    exact g4

/-- Claim C13 (scenario S6): with `s = 2, E = 2, b = 4`, for any three `int` addresses `A`, `B`,
`C` that decode to the same set with pairwise distinct tags, the run of core 0 on
`[R A, R B, R C]` returns with `evictionCount[0] = 1` and `writebackCount[0] = 0`, the block of
`A` being the one evicted (core 0 no longer holds it and holds the blocks of `B` and `C`); and
the run on `[W A, R B, R C]` returns with `evictionCount[0] = 1` and
`writebackCount[0] = 1`. -/
theorem scenario_s6_eviction (A B C : Int)
    (hA : -2147483648 ≤ A ∧ A < 2147483648) (hB : -2147483648 ≤ B ∧ B < 2147483648)
    (hC : -2147483648 ≤ C ∧ C < 2147483648)
    (hsB : setIndexOf scenarioConfig B = setIndexOf scenarioConfig A)
    (hsC : setIndexOf scenarioConfig C = setIndexOf scenarioConfig A)
    (hAB : tagOf scenarioConfig A ≠ tagOf scenarioConfig B)
    (hAC : tagOf scenarioConfig A ≠ tagOf scenarioConfig C)
    (hBC : tagOf scenarioConfig B ≠ tagOf scenarioConfig C) :
    ((∃ fuel sim, ∀ k,
        runMulticoreSimulation scenarioConfig
          (tracesOf [⟨Op.R, A⟩, ⟨Op.R, B⟩, ⟨Op.R, C⟩] [] [] []) (fuel + k) = some sim)
      ∧ ∀ fuel sim,
          runMulticoreSimulation scenarioConfig
            (tracesOf [⟨Op.R, A⟩, ⟨Op.R, B⟩, ⟨Op.R, C⟩] [] [] []) fuel = some sim →
          S6Outcome scenarioConfig A B C 0 sim)
      ∧ ((∃ fuel sim, ∀ k,
          runMulticoreSimulation scenarioConfig
            (tracesOf [⟨Op.W, A⟩, ⟨Op.R, B⟩, ⟨Op.R, C⟩] [] [] []) (fuel + k) = some sim)
        ∧ ∀ fuel sim,
            runMulticoreSimulation scenarioConfig
              (tracesOf [⟨Op.W, A⟩, ⟨Op.R, B⟩, ⟨Op.R, C⟩] [] [] []) fuel = some sim →
            S6Outcome scenarioConfig A B C 1 sim) :=
  ⟨s6Outcome_of scenarioConfig Op.R A B C
      (s6Hyp_of scenarioConfig Op.R A B C rfl hA hB hC hsB hsC hAB hAC hBC) 0 rfl,
    s6Outcome_of scenarioConfig Op.W A B C
      (s6Hyp_of scenarioConfig Op.W A B C rfl hA hB hC hsB hsC hAB hAC hBC) 1 rfl⟩

theorem scenario_s6_eviction_witness :
    ((-2147483648 ≤ (0x1000 : Int) ∧ (0x1000 : Int) < 2147483648)
        ∧ (-2147483648 ≤ (0x1040 : Int) ∧ (0x1040 : Int) < 2147483648)
        ∧ (-2147483648 ≤ (0x1080 : Int) ∧ (0x1080 : Int) < 2147483648)
        ∧ setIndexOf scenarioConfig 0x1040 = setIndexOf scenarioConfig 0x1000
        ∧ setIndexOf scenarioConfig 0x1080 = setIndexOf scenarioConfig 0x1000
        ∧ tagOf scenarioConfig 0x1000 ≠ tagOf scenarioConfig 0x1040
        ∧ tagOf scenarioConfig 0x1000 ≠ tagOf scenarioConfig 0x1080
        ∧ tagOf scenarioConfig 0x1040 ≠ tagOf scenarioConfig 0x1080)
      ∧ ((∃ fuel sim, ∀ k,
          runMulticoreSimulation scenarioConfig
            (tracesOf [⟨Op.R, 0x1000⟩, ⟨Op.R, 0x1040⟩, ⟨Op.R, 0x1080⟩] [] [] []) (fuel + k)
              = some sim)
        ∧ ∀ fuel sim,
            runMulticoreSimulation scenarioConfig
              (tracesOf [⟨Op.R, 0x1000⟩, ⟨Op.R, 0x1040⟩, ⟨Op.R, 0x1080⟩] [] [] []) fuel
                = some sim →
            S6Outcome scenarioConfig 0x1000 0x1040 0x1080 0 sim)
      ∧ ((∃ fuel sim, ∀ k,
          runMulticoreSimulation scenarioConfig
            (tracesOf [⟨Op.W, 0x1000⟩, ⟨Op.R, 0x1040⟩, ⟨Op.R, 0x1080⟩] [] [] []) (fuel + k)
              = some sim)
        ∧ ∀ fuel sim,
            runMulticoreSimulation scenarioConfig
              (tracesOf [⟨Op.W, 0x1000⟩, ⟨Op.R, 0x1040⟩, ⟨Op.R, 0x1080⟩] [] [] []) fuel
                = some sim →
            S6Outcome scenarioConfig 0x1000 0x1040 0x1080 1 sim) :=
  ⟨⟨by decide, by decide, by decide, by decide, by decide, by decide, by decide, by decide⟩,
    scenario_s6_eviction 0x1000 0x1040 0x1080 (by decide) (by decide) (by decide) (by decide)
      (by decide) (by decide) (by decide) (by decide)⟩

/-! ### Contracts of the access engine (claims C25, C26, C27) -/

/-- Claim C25: when `pendingOperations[core] != -1`, a call of `executeMemoryOperation`
enqueues nothing and changes no tag, coherence state, dirty flag, LRU list or stalled flag; it
adds one to `totalCycles[core]`, and apart from the call counter `operationCounter` (incremented
at every call, never read) no other global changes. -/
theorem pending_access_skipped (cfg : Config) (st : State) (e : TraceEntry) (core : Nat)
    (hp : st.pendingOperations core ≠ -1) :
    SkippedAccess st core (executeMemoryOperation cfg st e core) := by
  have h : executeMemoryOperation cfg st e core
      = { st with
          operationCounter := st.operationCounter + 1
          totalCycles := set1 st.totalCycles core (st.totalCycles core + 1) } := by
    unfold executeMemoryOperation
    dsimp only
    rw [if_pos hp]
  rw [h]
  exact ⟨rfl, rfl, rfl, rfl, rfl, rfl, rfl, set1_same _ _ _,
    fun k hk => set1_of_ne _ _ _ _ hk, rfl⟩

theorem pending_access_skipped_witness :
    (pendingState 0).pendingOperations 0 ≠ -1
      ∧ SkippedAccess (pendingState 0) 0
          (executeMemoryOperation scenarioConfig (pendingState 0) ⟨Op.R, 0x2000⟩ 0) :=
  ⟨by decide, pending_access_skipped scenarioConfig (pendingState 0) ⟨Op.R, 0x2000⟩ 0 (by decide)⟩

theorem lookupWay_some_line {cfg : Config} {st : State} {c s w : Nat} {tag : Int}
    (h : lookupWay cfg st c s tag = some w) :
    w < cfg.associativity
      ∧ st.tagArray c s w = toUnsigned tag
      ∧ (st.coherenceTable c s w = CoherenceState.MODIFIED
        ∨ st.coherenceTable c s w = CoherenceState.EXCLUSIVE
        ∨ st.coherenceTable c s w = CoherenceState.SHARED) := by
  unfold lookupWay at h
  obtain ⟨hw, hpw, _⟩ := findFirst_some h
  simp only [Bool.and_eq_true, bne_iff_ne, ne_eq, beq_iff_eq] at hpw
  refine ⟨hw, hpw.2, ?_⟩
  cases hx : st.coherenceTable c s w with
  | MODIFIED => exact Or.inl rfl
  | EXCLUSIVE => exact Or.inr (Or.inl rfl)
  | SHARED => exact Or.inr (Or.inr rfl)
  | INVALID => exact absurd hx hpw.1

theorem lookupWay_none_line {cfg : Config} {st : State} {c s : Nat} {tag : Int}
    (h : lookupWay cfg st c s tag = none) (w : Nat) (hw : w < cfg.associativity) :
    st.coherenceTable c s w = CoherenceState.INVALID ∨ st.tagArray c s w ≠ toUnsigned tag := by
  unfold lookupWay at h
  have hp := findFirst_none h w hw
  simp only [Bool.and_eq_false_imp, bne_iff_ne, ne_eq, beq_eq_false_iff_ne] at hp
  by_cases hx : st.coherenceTable c s w = CoherenceState.INVALID
  · exact Or.inl hx
  · exact Or.inr (hp hx)

/-- Value of `executeMemoryOperation` for a core with no pending operation, by operation and by
the result of the tag search. -/
theorem executeMemoryOperation_cases (cfg : Config) (st : State) (e : TraceEntry) (c : Nat)
    (hp : st.pendingOperations c = -1) :
    (e.op = Op.R → lookupWay cfg st c (setIndexOf cfg e.addr) (tagOf cfg e.addr) = none →
      executeMemoryOperation cfg st e c
        = { st with
            operationCounter := st.operationCounter + 1
            pendingRequests :=
              st.pendingRequests ++ [⟨c, e.addr, BusRequestType.READ_SHARED⟩]
            isStalled := set1 st.isStalled c true })
    ∧ (e.op = Op.W → lookupWay cfg st c (setIndexOf cfg e.addr) (tagOf cfg e.addr) = none →
      executeMemoryOperation cfg st e c
        = { st with
            operationCounter := st.operationCounter + 1
            pendingRequests :=
              st.pendingRequests ++ [⟨c, e.addr, BusRequestType.READ_EXCLUSIVE⟩]
            isStalled := set1 st.isStalled c true })
    ∧ (e.op = Op.R → ∀ w,
        lookupWay cfg st c (setIndexOf cfg e.addr) (tagOf cfg e.addr) = some w →
      executeMemoryOperation cfg st e c
        = { st with
            operationCounter := st.operationCounter + 1
            lruOrder := set2 st.lruOrder c (setIndexOf cfg e.addr)
              (touchLru (st.lruOrder c (setIndexOf cfg e.addr)) w) })
    ∧ (e.op = Op.W → ∀ w,
        lookupWay cfg st c (setIndexOf cfg e.addr) (tagOf cfg e.addr) = some w →
        st.coherenceTable c (setIndexOf cfg e.addr) w = CoherenceState.SHARED →
      executeMemoryOperation cfg st e c
        = { st with
            operationCounter := st.operationCounter + 1
            pendingRequests :=
              st.pendingRequests ++ [⟨c, e.addr, BusRequestType.UPGRADE_REQUEST⟩]
            lruOrder := set2 st.lruOrder c (setIndexOf cfg e.addr)
              (touchLru (st.lruOrder c (setIndexOf cfg e.addr)) w) })
    ∧ (e.op = Op.W → ∀ w,
        lookupWay cfg st c (setIndexOf cfg e.addr) (tagOf cfg e.addr) = some w →
        (st.coherenceTable c (setIndexOf cfg e.addr) w = CoherenceState.MODIFIED
          ∨ st.coherenceTable c (setIndexOf cfg e.addr) w = CoherenceState.EXCLUSIVE) →
      executeMemoryOperation cfg st e c
        = { st with
            operationCounter := st.operationCounter + 1
            lruOrder := set2 st.lruOrder c (setIndexOf cfg e.addr)
              (touchLru (st.lruOrder c (setIndexOf cfg e.addr)) w)
            dirtyFlags := set3 st.dirtyFlags c (setIndexOf cfg e.addr) w true
            coherenceTable :=
              set3 st.coherenceTable c (setIndexOf cfg e.addr) w CoherenceState.MODIFIED }) := by
  have hp2 : ¬ ({ st with operationCounter := st.operationCounter + 1 } : State).pendingOperations c
      ≠ -1 := fun h => h hp
  refine ⟨?_, ?_, ?_, ?_, ?_⟩
  · intro hop hl
    have hl2 : lookupWay cfg { st with operationCounter := st.operationCounter + 1 } c
        (setIndexOf cfg e.addr) (tagOf cfg e.addr) = none := hl
    unfold executeMemoryOperation
    dsimp only
    rw [if_neg hp2, hop]
    dsimp only
    rw [hl2]
  · intro hop hl
    have hl2 : lookupWay cfg { st with operationCounter := st.operationCounter + 1 } c
        (setIndexOf cfg e.addr) (tagOf cfg e.addr) = none := hl
    unfold executeMemoryOperation
    dsimp only
    rw [if_neg hp2, hop]
    dsimp only
    rw [hl2]
  · intro hop w hl
    have hl2 : lookupWay cfg { st with operationCounter := st.operationCounter + 1 } c
        (setIndexOf cfg e.addr) (tagOf cfg e.addr) = some w := hl
    unfold executeMemoryOperation
    dsimp only
    rw [if_neg hp2, hop]
    dsimp only
    rw [hl2]
  · intro hop w hl hs
    have hl2 : lookupWay cfg { st with operationCounter := st.operationCounter + 1 } c
        (setIndexOf cfg e.addr) (tagOf cfg e.addr) = some w := hl
    have hne : ¬ (st.coherenceTable c (setIndexOf cfg e.addr) w = CoherenceState.EXCLUSIVE
        ∨ st.coherenceTable c (setIndexOf cfg e.addr) w = CoherenceState.MODIFIED) := by
      rw [hs]
      simp
    unfold executeMemoryOperation
    dsimp only
    rw [if_neg hp2, hop]
    dsimp only
    rw [hl2]
    dsimp only
    rw [if_neg hne]
  · intro hop w hl hs
    have hl2 : lookupWay cfg { st with operationCounter := st.operationCounter + 1 } c
        (setIndexOf cfg e.addr) (tagOf cfg e.addr) = some w := hl
    have hyes : st.coherenceTable c (setIndexOf cfg e.addr) w = CoherenceState.EXCLUSIVE
        ∨ st.coherenceTable c (setIndexOf cfg e.addr) w = CoherenceState.MODIFIED :=
      hs.elim Or.inr Or.inl
    unfold executeMemoryOperation
    dsimp only
    rw [if_neg hp2, hop]
    dsimp only
    rw [hl2]
    dsimp only
    rw [if_pos hyes]
    rcases hs with hm | he
    · have hne : ¬ st.coherenceTable c (setIndexOf cfg e.addr) w = CoherenceState.EXCLUSIVE := by
        rw [hm]
        simp
      rw [if_neg hne, set3_eq_self st.coherenceTable c (setIndexOf cfg e.addr) w _ hm]
    · rw [if_pos he]

/-- The access engine changes no line, dirty flag, LRU list or stalled flag of another core. -/
theorem executeMemoryOperation_others (cfg : Config) (st : State) (e : TraceEntry) (c k : Nat)
    (hk : k ≠ c) :
    (executeMemoryOperation cfg st e c).coherenceTable k = st.coherenceTable k
      ∧ (executeMemoryOperation cfg st e c).dirtyFlags k = st.dirtyFlags k
      ∧ (executeMemoryOperation cfg st e c).lruOrder k = st.lruOrder k
      ∧ (executeMemoryOperation cfg st e c).isStalled k = st.isStalled k := by
  unfold executeMemoryOperation
  dsimp only
  repeat' split
  all_goals
    refine ⟨?_, ?_, ?_, ?_⟩ <;>
      first
        | rfl
        | (funext a b; simp [set3_apply, hk])
        | (funext a; simp [set2_apply, hk])
        | (simp [set1_apply, hk])

/-- Claim C26: for a core with no pending operation, `executeMemoryOperation` enqueues at most
one request, fixed by the operation and by the tag search among the ways that are not
`INVALID`: a read miss enqueues `READ_SHARED` and a write miss `READ_EXCLUSIVE`, both setting
`isStalled`; a write hit on `SHARED` enqueues `UPGRADE_REQUEST` and leaves `isStalled`
unchanged; a read hit and a write hit on `MODIFIED` or `EXCLUSIVE` enqueue nothing.  `missCount`,
the tags and the lines of the other cores never change. -/
theorem access_request_classification (cfg : Config) (st : State) (e : TraceEntry) (core : Nat)
    (hp : st.pendingOperations core = -1) :
    RequestClassified cfg st e core (executeMemoryOperation cfg st e core) := by
  obtain ⟨f1, f2, f3, f4, f5, f6, f7, f8, f9, f10, f11, f12, f13, f14, f15, f16, f17, f18, f19⟩ :=
    executeMemoryOperation_frame cfg st e core
  obtain ⟨c1, c2, c3, c4, c5⟩ := executeMemoryOperation_cases cfg st e core hp
  unfold RequestClassified
  dsimp only
  refine ⟨?_, ?_, ?_, ?_, ?_, ?_, fun w hl => lookupWay_some_line hl,
    fun hl w hw => lookupWay_none_line hl w hw, f10, f1, f6, ?_⟩
  · cases hop : e.op with
    | R =>
      cases hl : lookupWay cfg st core (setIndexOf cfg e.addr) (tagOf cfg e.addr) with
      | none => right; exact ⟨_, by rw [c1 hop hl]⟩
      | some w => left; rw [c3 hop w hl]
    | W =>
      cases hl : lookupWay cfg st core (setIndexOf cfg e.addr) (tagOf cfg e.addr) with
      | none => right; exact ⟨_, by rw [c2 hop hl]⟩
      | some w =>
        rcases (lookupWay_some_line hl).2.2 with hm | he | hs
        · left; rw [c5 hop w hl (Or.inl hm)]
        · left; rw [c5 hop w hl (Or.inr he)]
        · right; exact ⟨_, by rw [c4 hop w hl hs]⟩
  · intro hop hl
    rw [c1 hop hl]
    exact ⟨rfl, rfl⟩
  · intro hop hl
    rw [c2 hop hl]
    exact ⟨rfl, rfl⟩
  · intro hop w hl hs
    rw [c4 hop w hl hs]
    exact ⟨rfl, rfl⟩
  · intro hop w hl hs
    rw [c5 hop w hl hs]
    exact ⟨rfl, rfl⟩
  · intro hop w hl
    rw [c3 hop w hl]
    exact ⟨rfl, rfl⟩
  · exact fun k hk => executeMemoryOperation_others cfg st e core k hk

theorem access_request_classification_witness :
    (lineState 0 CoherenceState.SHARED).pendingOperations 0 = -1
      ∧ RequestClassified scenarioConfig (lineState 0 CoherenceState.SHARED) ⟨Op.W, 0x1000⟩ 0
          (executeMemoryOperation scenarioConfig (lineState 0 CoherenceState.SHARED)
            ⟨Op.W, 0x1000⟩ 0) :=
  ⟨rfl, access_request_classification scenarioConfig (lineState 0 CoherenceState.SHARED)
    ⟨Op.W, 0x1000⟩ 0 rfl⟩

/-- Claim C27: for a core with no pending operation, a write that finds its line in state
`MODIFIED` or `EXCLUSIVE` leaves the line `MODIFIED` with the dirty flag set, moves the way to
the back of the LRU list of the set, enqueues no request and leaves every stalled flag and every
other line as they were; a read hit changes only the LRU list of the set (in both cases the
call counter `operationCounter` is incremented, as at every call). -/
theorem local_hit (cfg : Config) (st : State) (e : TraceEntry) (core w : Nat)
    (hp : st.pendingOperations core = -1)
    (hl : lookupWay cfg st core (setIndexOf cfg e.addr) (tagOf cfg e.addr) = some w)
    (hk : e.op = Op.W →
      st.coherenceTable core (setIndexOf cfg e.addr) w = CoherenceState.MODIFIED
        ∨ st.coherenceTable core (setIndexOf cfg e.addr) w = CoherenceState.EXCLUSIVE) :
    LocalHit st core (setIndexOf cfg e.addr) w (e.op == Op.W)
      (executeMemoryOperation cfg st e core) := by
  obtain ⟨_, _, c3, _, c5⟩ := executeMemoryOperation_cases cfg st e core hp
  unfold LocalHit
  cases hop : e.op with
  | R =>
    rw [c3 hop w hl]
    exact ⟨set2_same _ _ _ _, fun h => absurd h (by decide), rfl, rfl, rfl⟩
  | W =>
    rw [c5 hop w hl (hk hop)]
    exact ⟨set2_same _ _ _ _, fun _ => ⟨set3_same _ _ _ _ _, set3_same _ _ _ _ _⟩, rfl, rfl, rfl⟩

theorem local_hit_witness :
    (lineState 0 CoherenceState.EXCLUSIVE).pendingOperations 0 = -1
      ∧ lookupWay scenarioConfig (lineState 0 CoherenceState.EXCLUSIVE) 0
          (setIndexOf scenarioConfig 0x1000) (tagOf scenarioConfig 0x1000) = some 0
      ∧ LocalHit (lineState 0 CoherenceState.EXCLUSIVE) 0 (setIndexOf scenarioConfig 0x1000) 0
          true
          (executeMemoryOperation scenarioConfig (lineState 0 CoherenceState.EXCLUSIVE)
            ⟨Op.W, 0x1000⟩ 0) :=
  ⟨rfl, by decide,
    local_hit scenarioConfig (lineState 0 CoherenceState.EXCLUSIVE) ⟨Op.W, 0x1000⟩ 0 0 rfl
      (by decide) (fun _ => Or.inr (by decide))⟩

/-! ### Contracts of the request phase (claims C29, C24) -/

/-- Value of the request loop when the bus is occupied: every request is dropped. -/
theorem requestLoop_busy_eq (cfg : Config) :
    ∀ (q : List BusTransaction) (st : State), st.busOccupied = true →
      requestLoop cfg q st
        = { st with
            pendingRequests := (match q with | [] => st.pendingRequests | _ :: _ => [])
            isStalled := fun c => st.isStalled c || q.any (fun r => r.requestorId == c)
            stalledCycles := fun c =>
              st.stalledCycles c + (q.countP (fun r => r.requestorId == c) : Nat)
            ghostLog := st.ghostLog ++ q.map (fun r => Event.busyDropped r.requestorId) } := by
  intro q
  induction q with
  | nil =>
    intro st _
    obtain ⟨f1, f2, f3, f4, f5, f6, f7, f8, f9, f10, f11, f12, f13, f14, f15, f16, f17, f18,
      f19, f20, f21, f22, f23, f24, f25, f26⟩ := st
    simp [requestLoop]
  | cons r rest ih =>
    intro st hb
    have hs : serviceRequest cfg { st with pendingRequests := rest } r
        = { st with
            pendingRequests := rest
            isStalled := set1 st.isStalled r.requestorId true
            stalledCycles := set1 st.stalledCycles r.requestorId
              (st.stalledCycles r.requestorId + 1)
            ghostLog := st.ghostLog ++ [Event.busyDropped r.requestorId] } := by
      unfold serviceRequest
      dsimp only
      rw [if_pos hb]
    simp only [requestLoop]
    rw [hs, ih]
    swap
    · exact hb
    obtain ⟨f1, f2, f3, f4, f5, f6, f7, f8, f9, f10, f11, f12, f13, f14, f15, f16, f17, f18,
      f19, f20, f21, f22, f23, f24, f25, f26⟩ := st
    simp only [State.mk.injEq, true_and, and_true, List.map_cons, List.append_assoc,
      List.singleton_append]
    refine ⟨?_, ?_, ?_⟩
    · funext c
      simp only [set1_apply, List.any_cons]
      by_cases hc : c = r.requestorId
      · simp [hc]
      · have hc2 : (r.requestorId == c) = false := by
          simp only [beq_eq_false_iff_ne, ne_eq]
          exact fun h => hc h.symm
        simp [hc, hc2]
    · cases rest <;> rfl
    · funext c
      simp only [set1_apply, List.countP_cons]
      by_cases hc : c = r.requestorId
      · simp [hc]
        omega
      · have hc2 : (r.requestorId == c) = false := by
          simp only [beq_eq_false_iff_ne, ne_eq]
          exact fun h => hc h.symm
        simp [hc, hc2]

/-- Claim C29: when `processBusTransactions` is entered with the bus occupied, its request
phase drops every queued request, and a drop only sets `isStalled` of the requestor and adds one
to `stalledCycles` of the requestor: no coherence state, tag, dirty flag, LRU list, pending
address, `missCount`, `invalidationCount` or `busTransactionCount` changes and no transfer is
enqueued. -/
theorem busy_drop (cfg : Config) (st : State) (hb : st.busOccupied = true) :
    BusyDrop st (requestPhase cfg { st with busTickCounter := st.busTickCounter + 1 })
      ∧ processBusTransactions cfg st
        = dataPhase cfg (requestPhase cfg { st with busTickCounter := st.busTickCounter + 1 }) := by
  refine ⟨?_, rfl⟩
  have h := requestLoop_busy_eq cfg st.pendingRequests
    { st with busTickCounter := st.busTickCounter + 1 } hb
  have hreq : requestPhase cfg { st with busTickCounter := st.busTickCounter + 1 }
      = requestLoop cfg st.pendingRequests { st with busTickCounter := st.busTickCounter + 1 } :=
    rfl
  rw [hreq, h]
  unfold BusyDrop
  dsimp only
  refine ⟨?_, ?_, fun c => rfl, rfl, rfl, rfl, rfl, rfl, rfl, rfl, rfl, rfl, hb, ?_, ?_⟩
  · intro r hr
    have : st.pendingRequests.any (fun x => x.requestorId == r.requestorId) = true :=
      List.any_eq_true.mpr ⟨r, hr, by simp⟩
    rw [this, Bool.or_true]
  · intro c hc
    have : st.pendingRequests.any (fun x => x.requestorId == c) = false := by
      rw [List.any_eq_false]
      intro x hx
      simpa using hc x hx
    rw [this, Bool.or_false]
  · cases h2 : st.pendingRequests <;> rfl
  · cases h2 : st.pendingRequests <;> rfl

theorem busy_drop_witness :
    busyState.busOccupied = true
      ∧ BusyDrop busyState
          (requestPhase scenarioConfig
            { busyState with busTickCounter := busyState.busTickCounter + 1 })
      ∧ processBusTransactions scenarioConfig busyState
        = dataPhase scenarioConfig
            (requestPhase scenarioConfig
              { busyState with busTickCounter := busyState.busTickCounter + 1 }) :=
  ⟨rfl, busy_drop scenarioConfig busyState rfl⟩

theorem findSharedWay_none_iff {cfg : Config} {st : State} {q : BusTransaction}
    (h : NoSharedCopy cfg st q) :
    findSharedWay cfg st q.requestorId (setIndexOf cfg q.memoryAddress)
      (tagOf cfg q.memoryAddress) = none := by
  unfold findSharedWay
  apply findFirst_eq_none
  intro w hw
  have := h w hw
  simp only [Bool.and_eq_false_imp, beq_iff_eq, beq_eq_false_iff_ne, ne_eq]
  exact fun h1 h2 => this ⟨h1, h2⟩

/-- Value of the body of the request loop for an `UPGRADE_REQUEST` whose requestor holds no
`SHARED` copy, with the bus idle. -/
theorem serviceRequest_upgrade_dropped (cfg : Config) (st : State) (q : BusTransaction)
    (hidle : st.busOccupied = false) (hq : q.reqType = BusRequestType.UPGRADE_REQUEST)
    (hno : NoSharedCopy cfg st q) :
    serviceRequest cfg st q
      = { st with
          pendingOperations := set1 st.pendingOperations q.requestorId q.memoryAddress
          ghostLog := st.ghostLog ++ [Event.upgradeNotFound q.requestorId] } := by
  have hf := findSharedWay_none_iff hno
  have hf2 : findSharedWay cfg
      { st with pendingOperations := set1 st.pendingOperations q.requestorId q.memoryAddress }
      q.requestorId (setIndexOf cfg q.memoryAddress) (tagOf cfg q.memoryAddress) = none := hf
  have hb : ¬ st.busOccupied = true := by simp [hidle]
  unfold serviceRequest
  dsimp only
  rw [if_neg hb, hq]
  dsimp only
  unfold serviceUpgrade
  rw [hf2]

/-- Claim C24, amended: with the bus idle, an `UPGRADE_REQUEST` of core `r` that finds no
`SHARED` copy of its line in the cache of `r` is dropped without any transition, counter,
stalled flag, bus or queue change, but `pendingOperations[r]` has been set to the address of
the request (the assignment of `bus.cpp` line 41 precedes the dispatch on the request type). -/
theorem upgrade_silent_drop (cfg : Config) (st : State) (q : BusTransaction)
    (hidle : st.busOccupied = false) (hq : q.reqType = BusRequestType.UPGRADE_REQUEST)
    (hno : NoSharedCopy cfg st q) :
    SilentDrop st q (serviceRequest cfg st q) := by
  rw [serviceRequest_upgrade_dropped cfg st q hidle hq hno]
  exact ⟨set1_same _ _ _, fun c hc => set1_of_ne _ _ _ _ hc, rfl, rfl, rfl, rfl, rfl, rfl, rfl⟩

theorem noSharedCopy_initial (q : BusTransaction) :
    NoSharedCopy scenarioConfig (initialState scenarioConfig) q := by
  intro w _ h
  have h2 : CoherenceState.INVALID = CoherenceState.SHARED := h.2
  exact absurd h2 (by decide)

theorem upgrade_silent_drop_witness :
    (initialState scenarioConfig).busOccupied = false
      ∧ NoSharedCopy scenarioConfig (initialState scenarioConfig)
          ⟨0, 0x1000, BusRequestType.UPGRADE_REQUEST⟩
      ∧ SilentDrop (initialState scenarioConfig) ⟨0, 0x1000, BusRequestType.UPGRADE_REQUEST⟩
          (serviceRequest scenarioConfig (initialState scenarioConfig)
            ⟨0, 0x1000, BusRequestType.UPGRADE_REQUEST⟩) :=
  ⟨rfl, noSharedCopy_initial _,
    upgrade_silent_drop scenarioConfig (initialState scenarioConfig)
      ⟨0, 0x1000, BusRequestType.UPGRADE_REQUEST⟩ rfl rfl (noSharedCopy_initial _)⟩

/-- Claim C24, counterexample: in the initial state with the single queued request
`UPGRADE_REQUEST` of core 0 for `0x1000`, the bus is idle and core 0 holds no `SHARED` copy, so
the request is dropped; yet after the call of `processBusTransactions` the pending address of
core 0 is `0x1000` where it was `-1`, while core 0 is not stalled and nothing is queued. -/
theorem upgrade_drop_sets_pending :
    droppedUpgradeState.busOccupied = false
      ∧ NoSharedCopy scenarioConfig droppedUpgradeState
          ⟨0, 0x1000, BusRequestType.UPGRADE_REQUEST⟩
      ∧ droppedUpgradeState.pendingOperations 0 = -1
      ∧ (processBusTransactions scenarioConfig droppedUpgradeState).pendingOperations 0 = 0x1000
      ∧ (processBusTransactions scenarioConfig droppedUpgradeState).isStalled 0 = false
      ∧ (processBusTransactions scenarioConfig droppedUpgradeState).dataTransferQueue = []
      ∧ (processBusTransactions scenarioConfig droppedUpgradeState).busOccupied = false := by
  refine ⟨rfl, ?_, rfl, ?_, ?_, ?_, ?_⟩
  · intro w _ h
    have h2 : CoherenceState.INVALID = CoherenceState.SHARED := h.2
    exact absurd h2 (by decide)
  all_goals decide

/-! ### Contracts of the services (claims C21, C22, C23) -/

/-- The donor search returns the lowest-indexed other core that holds the line, and its first
holding way. -/
theorem findOtherHolder_least {cfg : Config} {st : State} {r s : Nat} {tag : Int} {d w : Nat}
    (h : findOtherHolder cfg st r s tag = some (d, w)) :
    (∀ c, c < d → c ≠ r → ∀ w2, w2 < cfg.associativity → holdsLine st c s tag w2 = false)
      ∧ ∀ w2, w2 < w → holdsLine st d s tag w2 = false := by
  unfold findOtherHolder at h
  split at h
  · exact absurd h (by simp)
  · rename_i oc hoc
    split at h
    · exact absurd h (by simp)
    · rename_i wi hwi
      simp only [Option.some.injEq, Prod.mk.injEq] at h
      obtain ⟨h1, h2⟩ := h
      subst h1 h2
      obtain ⟨_, _, hleast⟩ := findFirst_some hoc
      unfold findHolderWay at hwi
      obtain ⟨_, _, hwleast⟩ := findFirst_some hwi
      refine ⟨?_, hwleast⟩
      intro c hc hcr w2 hw2
      have hp := hleast c hc
      simp only [Bool.and_eq_false_imp, bne_iff_ne, ne_eq] at hp
      have hn := hp hcr
      cases hx : findHolderWay cfg st c s tag with
      | none =>
        unfold findHolderWay at hx
        exact findFirst_none hx w2 hw2
      | some j =>
        rw [hx] at hn
        exact absurd hn (by simp)

theorem set3_shared_keeps_valid (f : Nat → Nat → Nat → CoherenceState) (d s w : Nat)
    (c s2 w2 : Nat) (h : set3 f d s w CoherenceState.SHARED c s2 w2 = CoherenceState.INVALID) :
    f c s2 w2 = CoherenceState.INVALID := by
  rw [set3_apply] at h
  split at h
  · exact absurd h (by decide)
  · exact h

/-- Claim C21: a `READ_SHARED` request of core `r` serviced with the bus idle takes the
lowest-indexed other core holding the line as its only donor (`MODIFIED` or `EXCLUSIVE` becomes
`SHARED`, `SHARED` stays), makes no line `INVALID` and changes no other state; it queues exactly
one read fill for `r`, of latency `2^(b-1)` with a donor and 100 without; exactly when the donor
was `MODIFIED` it queues after the fill a writeback of latency 100 for the donor and stalls the
donor with the pending address of the request; `missCount[r]` and `busTransactionCount` are
each one more. -/
theorem read_shared_service (cfg : Config) (st : State) (q : BusTransaction)
    (_hb : 1 ≤ cfg.numBlockBits)
    (hidle : st.busOccupied = false) (hq : q.reqType = BusRequestType.READ_SHARED) :
    ReadSharedService cfg st q (serviceRequest cfg st q) := by
  have hbusy : ¬ st.busOccupied = true := by simp [hidle]
  unfold ReadSharedService serviceRequest
  dsimp only
  rw [if_neg hbusy, hq]
  dsimp only
  unfold serviceReadShared
  dsimp only
  split
  · rename_i d w hfind
    have hfind2 : findOtherHolder cfg st q.requestorId (setIndexOf cfg q.memoryAddress)
        (tagOf cfg q.memoryAddress) = some (d, w) := hfind
    obtain ⟨hd, hdr, hw, hl⟩ := findOtherHolder_some hfind2
    obtain ⟨hleast, hwleast⟩ := findOtherHolder_least hfind2
    have hv := ((holdsLine_iff _ _ _ _ _).mp hl).2
    split
    · rename_i hm
      have hm2 : st.coherenceTable d (setIndexOf cfg q.memoryAddress) w
          = CoherenceState.MODIFIED := hm
      split
      · exact ⟨rfl, rfl, rfl, fun c s2 w2 h => set3_shared_keeps_valid _ _ _ _ _ _ _ h,
          Or.inr ⟨d, w, hd, hdr, hw, hl, hleast, hwleast, rfl,
            fun _ => ⟨by simp [c2cLatency], rfl, rfl⟩, fun hne => absurd hm2 hne⟩⟩
      · exact ⟨rfl, rfl, rfl, fun c s2 w2 h => set3_shared_keeps_valid _ _ _ _ _ _ _ h,
          Or.inr ⟨d, w, hd, hdr, hw, hl, hleast, hwleast, rfl,
            fun _ => ⟨by simp [c2cLatency], rfl, rfl⟩, fun hne => absurd hm2 hne⟩⟩
    · rename_i hm
      have hm2 : st.coherenceTable d (setIndexOf cfg q.memoryAddress) w
          ≠ CoherenceState.MODIFIED := hm
      split
      · exact ⟨rfl, rfl, rfl, fun c s2 w2 h => set3_shared_keeps_valid _ _ _ _ _ _ _ h,
          Or.inr ⟨d, w, hd, hdr, hw, hl, hleast, hwleast, rfl,
            fun h => absurd h hm2, fun _ => ⟨rfl, rfl, rfl⟩⟩⟩
      · rename_i he
        have he2 : st.coherenceTable d (setIndexOf cfg q.memoryAddress) w
            ≠ CoherenceState.EXCLUSIVE := he
        have hsh : st.coherenceTable d (setIndexOf cfg q.memoryAddress) w
            = CoherenceState.SHARED := by
          cases hx : st.coherenceTable d (setIndexOf cfg q.memoryAddress) w with
          | MODIFIED => exact absurd hx hm2
          | EXCLUSIVE => exact absurd hx he2
          | SHARED => rfl
          | INVALID => exact absurd hx hv
        exact ⟨rfl, rfl, rfl, fun c s2 w2 h => h,
          Or.inr ⟨d, w, hd, hdr, hw, hl, hleast, hwleast,
            (set3_eq_self st.coherenceTable d _ w _ hsh).symm,
            fun h => absurd h hm2, fun _ => ⟨rfl, rfl, rfl⟩⟩⟩
  · rename_i hfind
    have hfind2 : findOtherHolder cfg st q.requestorId (setIndexOf cfg q.memoryAddress)
        (tagOf cfg q.memoryAddress) = none := hfind
    exact ⟨rfl, rfl, rfl, fun c s2 w2 h => h,
      Or.inl ⟨findOtherHolder_none hfind2, rfl, rfl, rfl, rfl⟩⟩

theorem read_shared_service_witness :
    1 ≤ scenarioConfig.numBlockBits
      ∧ (lineState 1 CoherenceState.MODIFIED).busOccupied = false
      ∧ ReadSharedService scenarioConfig (lineState 1 CoherenceState.MODIFIED)
          ⟨0, 0x1000, BusRequestType.READ_SHARED⟩
          (serviceRequest scenarioConfig (lineState 1 CoherenceState.MODIFIED)
            ⟨0, 0x1000, BusRequestType.READ_SHARED⟩) :=
  ⟨by decide, rfl,
    read_shared_service scenarioConfig (lineState 1 CoherenceState.MODIFIED)
      ⟨0, 0x1000, BusRequestType.READ_SHARED⟩ (by decide) rfl rfl⟩

/-- Fields of the result of the snoop of one way by `READ_EXCLUSIVE`. -/
theorem invalidateWay_fields (a : Int) (s : Nat) (tag : Int) (c w : Nat) (acc : Bool × State) :
    (invalidateWay a s tag c w acc).2.tagArray = acc.2.tagArray
      ∧ (invalidateWay a s tag c w acc).2.coherenceTable
        = (if holdsLine acc.2 c s tag w = true
            then set3 acc.2.coherenceTable c s w CoherenceState.INVALID
            else acc.2.coherenceTable)
      ∧ (invalidateWay a s tag c w acc).1 = (acc.1 || holdsLine acc.2 c s tag w)
      ∧ (invalidateWay a s tag c w acc).2.dataTransferQueue
        = acc.2.dataTransferQueue
          ++ (if holdsLine acc.2 c s tag w = true
                ∧ acc.2.coherenceTable c s w = CoherenceState.MODIFIED
              then [⟨a, c, false, true, false, 100⟩] else []) := by
  unfold invalidateWay
  dsimp only
  by_cases hl : holdsLine acc.2 c s tag w = true
  · rw [if_pos hl]
    by_cases hm : acc.2.coherenceTable c s w = CoherenceState.MODIFIED
    · rw [if_pos hm]
      by_cases hr : acc.2.processorRunning c = true
      · simp [hl, hm, hr]
      · simp [hl, hm, hr]
    · rw [if_neg hm]
      simp [hl, hm]
  · rw [if_neg hl]
    simp [hl]

theorem exclusiveSnoop_congr {st : State} {addr : Int} {s : Nat} {tag : Int}
    {P P2 : Nat → Nat → Prop} {acc : Bool × State} (h : ∀ c w, P c w ↔ P2 c w)
    (hi : ExclusiveSnoop st addr s tag P acc) : ExclusiveSnoop st addr s tag P2 acc := by
  have : P = P2 := funext fun c => funext fun w => propext (h c w)
  rw [← this]
  exact hi

/-- The snoop of a way not yet visited keeps the invariant of the loops, the way being added
to the visited ones. -/
theorem exclusiveSnoop_step {st : State} {addr : Int} {s : Nat} {tag : Int}
    {P : Nat → Nat → Prop} {acc : Bool × State} (c w : Nat)
    (hi : ExclusiveSnoop st addr s tag P acc) (hn : ¬ P c w) :
    ExclusiveSnoop st addr s tag (fun c2 w2 => P c2 w2 ∨ (c2 = c ∧ w2 = w))
      (invalidateWay addr s tag c w acc) := by
  obtain ⟨ht, hc, hb, wbs, hq, hw1, hw2⟩ := hi
  obtain ⟨f1, f2, f3, f4⟩ := invalidateWay_fields addr s tag c w acc
  have hl : holdsLine acc.2 c s tag w = holdsLine st c s tag w := by
    unfold holdsLine
    rw [ht, hc c w hn]
  have hcw : acc.2.coherenceTable c s w = st.coherenceTable c s w := hc c w hn
  rw [hl] at f2 f3 f4
  rw [hcw] at f4
  refine ⟨f1.trans ht, ?_, ?_, ?_⟩
  · intro c2 w2 hn2
    have hn3 : ¬ P c2 w2 := fun h => hn2 (Or.inl h)
    have hne : ¬ (c2 = c ∧ s = s ∧ w2 = w) := fun h => hn2 (Or.inr ⟨h.1, h.2.2⟩)
    rw [f2]
    split
    · rw [set3_apply, if_neg hne]
      exact hc c2 w2 hn3
    · exact hc c2 w2 hn3
  · rw [f3]
    constructor
    · intro h
      rcases Bool.or_eq_true_iff.mp h with h1 | h1
      · obtain ⟨c2, w2, hp, hh⟩ := hb.mp h1
        exact ⟨c2, w2, Or.inl hp, hh⟩
      · exact ⟨c, w, Or.inr ⟨rfl, rfl⟩, h1⟩
    · rintro ⟨c2, w2, hp | ⟨h1, h2⟩, hh⟩
      · rw [hb.mpr ⟨c2, w2, hp, hh⟩]
        rfl
      · subst h1 h2
        rw [hh]
        simp
  · by_cases hm : holdsLine st c s tag w = true ∧ st.coherenceTable c s w = CoherenceState.MODIFIED
    · rw [if_pos hm] at f4
      refine ⟨wbs ++ [⟨addr, c, false, true, false, 100⟩], ?_, ?_, ?_⟩
      · rw [f4, hq, List.append_assoc]
      · intro t ht2
        rcases List.mem_append.mp ht2 with h1 | h1
        · obtain ⟨c2, w2, hp, hh, hmm, he⟩ := hw1 t h1
          exact ⟨c2, w2, Or.inl hp, hh, hmm, he⟩
        · exact ⟨c, w, Or.inr ⟨rfl, rfl⟩, hm.1, hm.2, List.mem_singleton.mp h1⟩
      · rintro c2 w2 (hp | ⟨h1, h2⟩) hh hmm
        · exact List.mem_append_left _ (hw2 c2 w2 hp hh hmm)
        · subst h1
          exact List.mem_append_right _ (List.mem_singleton.mpr rfl)
    · rw [if_neg hm] at f4
      refine ⟨wbs, ?_, ?_, ?_⟩
      · rw [f4, hq, List.append_nil]
      · intro t ht2
        obtain ⟨c2, w2, hp, hh, hmm, he⟩ := hw1 t ht2
        exact ⟨c2, w2, Or.inl hp, hh, hmm, he⟩
      · rintro c2 w2 (hp | ⟨h1, h2⟩) hh hmm
        · exact hw2 c2 w2 hp hh hmm
        · subst h1 h2
          exact absurd ⟨hh, hmm⟩ hm

/-- The snoop loops of `READ_EXCLUSIVE` visit every way of every core other than the
requestor. -/
theorem invalidateOthers_snoop (cfg : Config) (r : Nat) (addr : Int) (s : Nat) (tag : Int)
    (st : State) (acc : Bool × State)
    (h0 : ExclusiveSnoop st addr s tag (fun _ _ => False) acc) :
    ExclusiveSnoop st addr s tag (fun c w => c < 4 ∧ c ≠ r ∧ w < cfg.associativity)
      (invalidateOthers cfg r addr s tag acc) := by
  unfold invalidateOthers
  refine forLoop_indexed
    (fun i acc2 => ExclusiveSnoop st addr s tag
      (fun c w => c < i ∧ c ≠ r ∧ w < cfg.associativity) acc2) _ 4 ?_ acc
    (exclusiveSnoop_congr (fun c w => by simp) h0)
  intro i acc2 _ hi
  dsimp only
  split
  · rename_i hir
    have hir2 : i ≠ r := by simpa using hir
    have inner := forLoop_indexed
      (fun j acc3 => ExclusiveSnoop st addr s tag
        (fun c w => (c < i ∧ c ≠ r ∧ w < cfg.associativity) ∨ (c = i ∧ w < j)) acc3)
      (invalidateWay addr s tag i) cfg.associativity
      (by
        intro j acc3 _ h3
        have hn : ¬ ((i < i ∧ i ≠ r ∧ j < cfg.associativity) ∨ (i = i ∧ j < j)) := by
          rintro (h | h)
          · exact absurd h.1 (Nat.lt_irrefl i)
          · exact absurd h.2 (Nat.lt_irrefl j)
        refine exclusiveSnoop_congr ?_ (exclusiveSnoop_step i j h3 hn)
        intro c w
        constructor
        · rintro ((h | h) | h)
          · exact Or.inl h
          · exact Or.inr ⟨h.1, Nat.lt_succ_of_lt h.2⟩
          · exact Or.inr ⟨h.1, by rw [h.2]; exact Nat.lt_succ_self j⟩
        · rintro (h | h)
          · exact Or.inl (Or.inl h)
          · rcases Nat.lt_succ_iff_lt_or_eq.mp h.2 with h2 | h2
            · exact Or.inl (Or.inr ⟨h.1, h2⟩)
            · exact Or.inr ⟨h.1, h2⟩)
      acc2 (exclusiveSnoop_congr (fun c w => by simp) hi)
    refine exclusiveSnoop_congr ?_ inner
    intro c w
    constructor
    · rintro (h | h)
      · exact ⟨Nat.lt_succ_of_lt h.1, h.2⟩
      · exact ⟨by rw [h.1]; exact Nat.lt_succ_self i, by rw [h.1]; exact hir2, h.2⟩
    · rintro ⟨h1, h2, h3⟩
      rcases Nat.lt_succ_iff_lt_or_eq.mp h1 with h | h
      · exact Or.inl ⟨h, h2, h3⟩
      · exact Or.inr ⟨h, h3⟩
  · rename_i hir
    have hir2 : i = r := by simpa using hir
    refine exclusiveSnoop_congr ?_ hi
    intro c w
    constructor
    · rintro ⟨h1, h2, h3⟩
      exact ⟨Nat.lt_succ_of_lt h1, h2, h3⟩
    · rintro ⟨h1, h2, h3⟩
      rcases Nat.lt_succ_iff_lt_or_eq.mp h1 with h | h
      · exact ⟨h, h2, h3⟩
      · exact absurd (h.trans hir2) h2

/-- Claim C22: a `READ_EXCLUSIVE` request of core `r` serviced with the bus idle leaves no core
other than `r` holding the line; `invalidationCount[r]` is one more when at least one other
cache held the line (however many did) and unchanged otherwise; a writeback of latency 100 is
queued for each other core that held the line `MODIFIED`, ahead of the write fill of latency 100
of `r`. -/
theorem read_exclusive_service (cfg : Config) (st : State) (q : BusTransaction)
    (hidle : st.busOccupied = false) (hq : q.reqType = BusRequestType.READ_EXCLUSIVE) :
    ReadExclusiveService cfg st q (serviceRequest cfg st q) := by
  have hbusy : ¬ st.busOccupied = true := by simp [hidle]
  have hsnoop := invalidateOthers_snoop cfg q.requestorId q.memoryAddress
    (setIndexOf cfg q.memoryAddress) (tagOf cfg q.memoryAddress) st
    (false,
      { st with
        pendingOperations := set1 st.pendingOperations q.requestorId q.memoryAddress
        busOccupied := true
        busTransactionCount := st.busTransactionCount + 1
        missCount := set1 st.missCount q.requestorId (st.missCount q.requestorId + 1)
        ghostLog := st.ghostLog ++ [Event.readExclusiveServiced q.requestorId] })
    ⟨rfl, fun _ _ _ => rfl,
      ⟨fun h => Bool.noConfusion h, fun ⟨_, _, h, _⟩ => h.elim⟩,
      [], (List.append_nil _).symm, fun t ht => absurd ht (List.not_mem_nil t),
      fun _ _ h => h.elim⟩
  have hfr := invalidateOthers_frame cfg q.requestorId q.memoryAddress
    (setIndexOf cfg q.memoryAddress) (tagOf cfg q.memoryAddress) false
    { st with
      pendingOperations := set1 st.pendingOperations q.requestorId q.memoryAddress
      busOccupied := true
      busTransactionCount := st.busTransactionCount + 1
      missCount := set1 st.missCount q.requestorId (st.missCount q.requestorId + 1)
      ghostLog := st.ghostLog ++ [Event.readExclusiveServiced q.requestorId] }
  have hpost := (serviceReadExclusive_post cfg
    { st with pendingOperations := set1 st.pendingOperations q.requestorId q.memoryAddress }
    q.requestorId q.memoryAddress (setIndexOf cfg q.memoryAddress)
    (tagOf cfg q.memoryAddress)).2
  have hsr : serviceRequest cfg st q
      = serviceReadExclusive cfg
          { st with pendingOperations := set1 st.pendingOperations q.requestorId q.memoryAddress }
          q.requestorId q.memoryAddress (setIndexOf cfg q.memoryAddress)
          (tagOf cfg q.memoryAddress) := by
    unfold serviceRequest
    dsimp only
    rw [if_neg hbusy, hq]
  rw [hsr]
  generalize hX : invalidateOthers cfg q.requestorId q.memoryAddress
    (setIndexOf cfg q.memoryAddress) (tagOf cfg q.memoryAddress)
    (false,
      { st with
        pendingOperations := set1 st.pendingOperations q.requestorId q.memoryAddress
        busOccupied := true
        busTransactionCount := st.busTransactionCount + 1
        missCount := set1 st.missCount q.requestorId (st.missCount q.requestorId + 1)
        ghostLog := st.ghostLog ++ [Event.readExclusiveServiced q.requestorId] }) = X
    at hsnoop hfr
  obtain ⟨ht, _, hb, wbs, hqq, hw1, hw2⟩ := hsnoop
  have hinv : X.2.invalidationCount = st.invalidationCount := hfr.2.2.2.2.2.2.2.2.2.2.2.2.2.2.1
  have hmiss : X.2.missCount = set1 st.missCount q.requestorId (st.missCount q.requestorId + 1) :=
    hfr.2.2.2.2.2.2.2.2.2.2.2.1
  have hbtc : X.2.busTransactionCount = st.busTransactionCount + 1 :=
    hfr.2.2.2.2.2.2.2.2.2.2.2.2.2.2.2.2.2.1
  have hres : serviceReadExclusive cfg
      { st with pendingOperations := set1 st.pendingOperations q.requestorId q.memoryAddress }
      q.requestorId q.memoryAddress (setIndexOf cfg q.memoryAddress)
      (tagOf cfg q.memoryAddress)
      = { X.2 with
          isStalled := set1 X.2.isStalled q.requestorId true
          invalidationCount :=
            if X.1 = true then
              set1 X.2.invalidationCount q.requestorId
                (X.2.invalidationCount q.requestorId + 1)
            else X.2.invalidationCount
          dataTransferQueue :=
            X.2.dataTransferQueue
              ++ [⟨q.memoryAddress, q.requestorId, true, false, false, 100⟩] } := by
    unfold serviceReadExclusive
    dsimp only
    rw [hX]
    by_cases hx : X.1 = true
    · rw [if_pos hx, if_pos hx]
    · rw [if_neg hx, if_neg hx]
  unfold ReadExclusiveService
  dsimp only
  refine ⟨hpost, ?_, ?_, ?_, ?_, ?_, ?_, ?_⟩
  · rintro ⟨c, w, hc, hcr, hw, hl⟩
    have hx : X.1 = true := hb.mpr ⟨c, w, ⟨hc, hcr, hw⟩, hl⟩
    rw [hres]
    dsimp only
    rw [if_pos hx, hinv]
  · intro hnone
    have hx : ¬ X.1 = true := by
      intro h
      obtain ⟨c, w, ⟨hc, hcr, hw⟩, hl⟩ := hb.mp h
      rw [hnone c hc hcr w hw] at hl
      exact absurd hl (by decide)
    rw [hres]
    dsimp only
    rw [if_neg hx, hinv]
  · refine ⟨wbs, ?_, ?_, ?_⟩
    · rw [hres]
      dsimp only
      rw [hqq]
    · intro t ht2
      obtain ⟨c, w, ⟨hc, hcr, hw⟩, hl, hm, he⟩ := hw1 t ht2
      exact ⟨c, w, hc, hcr, hw, hl, hm, he⟩
    · intro c w hc hcr hw hl hm
      exact hw2 c w ⟨hc, hcr, hw⟩ hl hm
  · rw [hres]
    exact hmiss
  · rw [hres]
    exact hbtc
  · rw [hres]
    exact ht
  · rw [hres]
    exact set1_same _ _ _

theorem read_exclusive_service_witness :
    (lineState 1 CoherenceState.MODIFIED).busOccupied = false
      ∧ ReadExclusiveService scenarioConfig (lineState 1 CoherenceState.MODIFIED)
          ⟨0, 0x1000, BusRequestType.READ_EXCLUSIVE⟩
          (serviceRequest scenarioConfig (lineState 1 CoherenceState.MODIFIED)
            ⟨0, 0x1000, BusRequestType.READ_EXCLUSIVE⟩) :=
  ⟨rfl,
    read_exclusive_service scenarioConfig (lineState 1 CoherenceState.MODIFIED)
      ⟨0, 0x1000, BusRequestType.READ_EXCLUSIVE⟩ rfl rfl⟩

/-- The request loop passes over `UPGRADE_REQUEST`s that find no `SHARED` copy while the bus is
idle: they change only pending addresses (and the log). -/
theorem requestLoop_dropped_upgrades (cfg : Config) (q : BusTransaction)
    (rest : List BusTransaction) :
    ∀ (pre : List BusTransaction) (st : State), st.busOccupied = false →
      (∀ p ∈ pre, p.reqType = BusRequestType.UPGRADE_REQUEST ∧ NoSharedCopy cfg st p) →
      ∃ po g, requestLoop cfg (pre ++ q :: rest) st
        = requestLoop cfg rest
            (serviceRequest cfg
              { st with pendingRequests := rest, pendingOperations := po, ghostLog := g } q) := by
  intro pre
  induction pre with
  | nil =>
    intro st _ _
    exact ⟨st.pendingOperations, st.ghostLog, rfl⟩
  | cons p pre ih =>
    intro st hidle hpre
    have hp := hpre p (List.mem_cons_self p pre)
    have hdrop := serviceRequest_upgrade_dropped cfg
      { st with pendingRequests := pre ++ q :: rest } p hidle hp.1 hp.2
    obtain ⟨po, g, h⟩ := ih
      { st with
        pendingRequests := pre ++ q :: rest
        pendingOperations := set1 st.pendingOperations p.requestorId p.memoryAddress
        ghostLog := st.ghostLog ++ [Event.upgradeNotFound p.requestorId] }
      hidle (fun x hx => ⟨(hpre x (List.mem_cons_of_mem p hx)).1,
        (hpre x (List.mem_cons_of_mem p hx)).2⟩)
    have hstep : requestLoop cfg (p :: pre ++ q :: rest) st
        = requestLoop cfg (pre ++ q :: rest)
            (serviceRequest cfg { st with pendingRequests := pre ++ q :: rest } p) := rfl
    exact ⟨po, g,
      hstep.trans ((congrArg (requestLoop cfg (pre ++ q :: rest)) hdrop).trans h)⟩

theorem findSharedWay_of_holds {cfg : Config} {st : State} {q : BusTransaction}
    (h : HoldsSharedCopy cfg st q) :
    ∃ w, findSharedWay cfg st q.requestorId (setIndexOf cfg q.memoryAddress)
        (tagOf cfg q.memoryAddress) = some w
      ∧ w < cfg.associativity
      ∧ st.tagArray q.requestorId (setIndexOf cfg q.memoryAddress) w
        = toUnsigned (tagOf cfg q.memoryAddress)
      ∧ st.coherenceTable q.requestorId (setIndexOf cfg q.memoryAddress) w
        = CoherenceState.SHARED := by
  obtain ⟨w0, hw0, ht0, hc0⟩ := h
  have hsome : (findSharedWay cfg st q.requestorId (setIndexOf cfg q.memoryAddress)
      (tagOf cfg q.memoryAddress)).isSome = true := by
    unfold findSharedWay
    exact findFirst_isSome_of hw0 (by simp [ht0, hc0])
  cases hf : findSharedWay cfg st q.requestorId (setIndexOf cfg q.memoryAddress)
      (tagOf cfg q.memoryAddress) with
  | none =>
    rw [hf] at hsome
    exact absurd hsome (by decide)
  | some w =>
    refine ⟨w, rfl, ?_⟩
    unfold findSharedWay at hf
    obtain ⟨hw, hp, _⟩ := findFirst_some hf
    simp only [Bool.and_eq_true, beq_iff_eq] at hp
    exact ⟨hw, hp.1, hp.2⟩

/-- Fields of the state after the service of an `UPGRADE_REQUEST` that finds its `SHARED` copy
in way `w`, with the bus idle. -/
theorem serviceRequest_upgrade_found (cfg : Config) (st : State) (q : BusTransaction) (w : Nat)
    (hidle : st.busOccupied = false) (hq : q.reqType = BusRequestType.UPGRADE_REQUEST)
    (hf : findSharedWay cfg st q.requestorId (setIndexOf cfg q.memoryAddress)
      (tagOf cfg q.memoryAddress) = some w) :
    (serviceRequest cfg st q).busOccupied = true
      ∧ (serviceRequest cfg st q).dataTransferQueue
        = st.dataTransferQueue ++ [⟨q.memoryAddress, q.requestorId, false, false, true, 0⟩]
      ∧ (serviceRequest cfg st q).tagArray = st.tagArray
      ∧ (serviceRequest cfg st q).coherenceTable q.requestorId
          (setIndexOf cfg q.memoryAddress) w = CoherenceState.MODIFIED
      ∧ (serviceRequest cfg st q).dirtyFlags q.requestorId
          (setIndexOf cfg q.memoryAddress) w = true
      ∧ NoOtherCopy cfg (serviceRequest cfg st q) q.requestorId
          (setIndexOf cfg q.memoryAddress) (tagOf cfg q.memoryAddress)
      ∧ (serviceRequest cfg st q).invalidationCount q.requestorId
        = st.invalidationCount q.requestorId + 1
      ∧ (serviceRequest cfg st q).busTransactionCount = st.busTransactionCount + 1
      ∧ (serviceRequest cfg st q).pendingRequests = st.pendingRequests := by
  have hb : ¬ st.busOccupied = true := by simp [hidle]
  have hf2 : findSharedWay cfg
      { st with pendingOperations := set1 st.pendingOperations q.requestorId q.memoryAddress }
      q.requestorId (setIndexOf cfg q.memoryAddress) (tagOf cfg q.memoryAddress) = some w := hf
  have hpost := (upgradeInvalidateOthers_post cfg q.requestorId (setIndexOf cfg q.memoryAddress)
    (tagOf cfg q.memoryAddress)
    { st with
      pendingOperations := set1 st.pendingOperations q.requestorId q.memoryAddress
      busTransactionCount := st.busTransactionCount + 1
      ghostLog := st.ghostLog ++ [Event.upgradeServiced q.requestorId] }).2
  have hsr : serviceRequest cfg st q
      = serviceUpgrade cfg
          { st with pendingOperations := set1 st.pendingOperations q.requestorId q.memoryAddress }
          q.requestorId q.memoryAddress (setIndexOf cfg q.memoryAddress)
          (tagOf cfg q.memoryAddress) := by
    unfold serviceRequest
    dsimp only
    rw [if_neg hb, hq]
  rw [hsr]
  unfold serviceUpgrade
  rw [hf2]
  dsimp only
  refine ⟨rfl, ?_, ?_, set3_same _ _ _ _ _, set3_same _ _ _ _ _, ?_, ?_, ?_, ?_⟩
  · simp
  · simp
  · intro c hc hcr w2 hw2
    have h := hpost c hc hcr w2 hw2
    unfold holdsLine at h ⊢
    dsimp only
    have hne : ¬ (c = q.requestorId ∧ setIndexOf cfg q.memoryAddress
        = setIndexOf cfg q.memoryAddress ∧ w2 = w) := fun hx => hcr hx.1
    rw [set3_apply, if_neg hne]
    exact h
  · simp
  · simp
  · simp

/-- The data phase on a queue that holds only the completion signal of an `UPGRADE_REQUEST`:
the signal is popped, the bus is released and its core is released; no line changes. -/
theorem dataPhase_signal (cfg : Config) (st : State) (a : Int) (r : Nat)
    (hq : st.dataTransferQueue = [⟨a, r, false, false, true, 0⟩]) :
    (dataPhase cfg st).dataTransferQueue = []
      ∧ (dataPhase cfg st).busOccupied = false
      ∧ (dataPhase cfg st).isStalled r = false
      ∧ (dataPhase cfg st).pendingOperations r = -1
      ∧ (dataPhase cfg st).coherenceTable = st.coherenceTable
      ∧ (dataPhase cfg st).dirtyFlags = st.dirtyFlags
      ∧ (dataPhase cfg st).tagArray = st.tagArray := by
  have h : dataPhase cfg st
      = { completeTransfer cfg st ⟨a, r, false, false, true, 0⟩ with
          dataTransferQueue :=
            (completeTransfer cfg st ⟨a, r, false, false, true, 0⟩).dataTransferQueue.tail
          busOccupied :=
            if (completeTransfer cfg st
                ⟨a, r, false, false, true, 0⟩).dataTransferQueue.tail.isEmpty
            then false
            else (completeTransfer cfg st ⟨a, r, false, false, true, 0⟩).busOccupied } := by
    unfold dataPhase
    rw [hq]
    dsimp only
    rw [if_pos rfl]
    split <;> rfl
  have hc : completeTransfer cfg st ⟨a, r, false, false, true, 0⟩
      = { st with
          totalBusTraffic := st.totalBusTraffic + bytesPerBlock cfg
          trafficBytes := set1 st.trafficBytes r (st.trafficBytes r + bytesPerBlock cfg)
          isStalled := set1 st.isStalled r false
          pendingOperations := set1 st.pendingOperations r (-1) } := by
    unfold completeTransfer
    simp
  rw [h, hc]
  dsimp only
  rw [hq]
  exact ⟨rfl, rfl, set1_same _ _ _, set1_same _ _ _, rfl, rfl, rfl⟩

/-- Claim C23: from a state with the bus idle and the data-transfer queue empty, a call of
`processBusTransactions` that services an `UPGRADE_REQUEST` of core `r` whose line is `SHARED`
in the cache of `r` (the requests queued before it, if any, being `UPGRADE_REQUEST`s that find
no `SHARED` copy) ends with the line of `r` `MODIFIED` and dirty, no other cache holding the
line, `invalidationCount[r]` and `busTransactionCount` one more, the zero-latency completion
transfer already popped (queue empty, bus idle), `r` not stalled and `pendingOperations[r]`
equal to `-1`. -/
theorem upgrade_service_completes (cfg : Config) (st : State) (q : BusTransaction)
    (pre rest : List BusTransaction)
    (hidle : st.busOccupied = false) (hempty : st.dataTransferQueue = [])
    (hreq : st.pendingRequests = pre ++ q :: rest)
    (hpre : ∀ p ∈ pre, p.reqType = BusRequestType.UPGRADE_REQUEST ∧ NoSharedCopy cfg st p)
    (hq : q.reqType = BusRequestType.UPGRADE_REQUEST)
    (hline : HoldsSharedCopy cfg st q) :
    UpgradeCompleted cfg st q (processBusTransactions cfg st) := by
  obtain ⟨w, hf, hw, htag, hsh⟩ := findSharedWay_of_holds hline
  obtain ⟨po, g, hloop⟩ := requestLoop_dropped_upgrades cfg q rest pre
    { st with busTickCounter := st.busTickCounter + 1 } hidle hpre
  have hpbt : processBusTransactions cfg st
      = dataPhase cfg (requestLoop cfg (pre ++ q :: rest)
          { st with busTickCounter := st.busTickCounter + 1 }) := by
    unfold processBusTransactions requestPhase
    dsimp only
    rw [hreq]
  rw [hpbt, hloop]
  obtain ⟨b1, b2, b3, b4, b5, b6, b7, b8, b9⟩ := serviceRequest_upgrade_found cfg
    { st with
      busTickCounter := st.busTickCounter + 1
      pendingRequests := rest
      pendingOperations := po
      ghostLog := g } q w hidle hq hf
  generalize serviceRequest cfg
    { st with
      busTickCounter := st.busTickCounter + 1
      pendingRequests := rest
      pendingOperations := po
      ghostLog := g } q = stB at b1 b2 b3 b4 b5 b6 b7 b8 b9 ⊢
  have hC := requestLoop_busy_eq cfg rest stB b1
  have hpr := requestLoop_pendingRequests cfg rest stB b9
  generalize requestLoop cfg rest stB = stC at hC hpr ⊢
  have c2 : stC.dataTransferQueue = [⟨q.memoryAddress, q.requestorId, false, false, true, 0⟩] := by
    rw [hC]
    dsimp only
    rw [b2]
    exact congrArg (fun l => l ++ [(⟨q.memoryAddress, q.requestorId, false, false, true, 0⟩ :
      BusDataTransfer)]) hempty
  have c3 : stC.tagArray = stB.tagArray := by rw [hC]
  have c4 : stC.coherenceTable = stB.coherenceTable := by rw [hC]
  have c5 : stC.dirtyFlags = stB.dirtyFlags := by rw [hC]
  have c7 : stC.invalidationCount = stB.invalidationCount := by rw [hC]
  have c8 : stC.busTransactionCount = stB.busTransactionCount := by rw [hC]
  obtain ⟨d1, d2, d3, d4, d5, d6, d7⟩ := dataPhase_signal cfg stC q.memoryAddress q.requestorId c2
  obtain ⟨_, _, _, e4, _, _, _, _, _, e10, _, e12, _⟩ := dataPhase_frame cfg stC
  unfold UpgradeCompleted
  dsimp only
  refine ⟨⟨w, hw, htag, hsh, ?_, ?_, ?_⟩, ?_, ?_, ?_, d1, d2, d3, d4, ?_⟩
  · rw [d7, c3, b3]
    exact htag
  · rw [d5, c4]
    exact b4
  · rw [d6, c5]
    exact b5
  · intro c hc hcr w2 hw2
    have h := b6 c hc hcr w2 hw2
    unfold holdsLine at h ⊢
    rw [d7, d5, c3, c4]
    exact h
  · rw [e10, c7]
    exact b7
  · rw [e12, c8]
    exact b8
  · rw [e4]
    exact hpr

theorem upgrade_service_completes_witness :
    upgradeState.busOccupied = false
      ∧ upgradeState.dataTransferQueue = []
      ∧ HoldsSharedCopy scenarioConfig upgradeState ⟨0, 0x1000, BusRequestType.UPGRADE_REQUEST⟩
      ∧ UpgradeCompleted scenarioConfig upgradeState ⟨0, 0x1000, BusRequestType.UPGRADE_REQUEST⟩
          (processBusTransactions scenarioConfig upgradeState) :=
  ⟨rfl, rfl, ⟨0, by decide, by decide, by decide⟩,
    upgrade_service_completes scenarioConfig upgradeState
      ⟨0, 0x1000, BusRequestType.UPGRADE_REQUEST⟩ []
      [⟨2, 0x2000, BusRequestType.READ_SHARED⟩] rfl rfl rfl
      (fun p hp => absurd hp (List.not_mem_nil p)) rfl ⟨0, by decide, by decide, by decide⟩⟩

/-! ### Bus tick and cursor update (claims C28, C30) -/

theorem serviceRequest_busy_after (cfg : Config) (st : State) (q : BusTransaction)
    (h : requestServiced cfg st q = true ∨ st.busOccupied = true) :
    (serviceRequest cfg st q).busOccupied = true := by
  apply serviceRequest_busOccupied
  intro hidle hup
  rcases h with h | h
  · unfold requestServiced at h
    unfold upgradeLineFound
    simpa [hidle, hup] using h
  · rw [hidle] at h
    exact absurd h (by decide)

/-- At most one request is counted by the request loop, and the bus is occupied once one is. -/
theorem requestLoop_at_most_one (cfg : Config) (q : List BusTransaction) (st : State) :
    ((requestLoop cfg q st).busTransactionCount = st.busTransactionCount
        ∧ (requestLoop cfg q st).missCount = st.missCount)
      ∨ ((requestLoop cfg q st).busOccupied = true
        ∧ (requestLoop cfg q st).busTransactionCount = st.busTransactionCount + 1
        ∧ ((requestLoop cfg q st).missCount = st.missCount
          ∨ ∃ r, (requestLoop cfg q st).missCount = set1 st.missCount r (st.missCount r + 1))) := by
  refine requestLoop_preserves cfg
    (fun s => (s.busTransactionCount = st.busTransactionCount ∧ s.missCount = st.missCount)
      ∨ (s.busOccupied = true ∧ s.busTransactionCount = st.busTransactionCount + 1
        ∧ (s.missCount = st.missCount
          ∨ ∃ r, s.missCount = set1 st.missCount r (st.missCount r + 1))))
    (fun s rest h => h) ?_ q st (Or.inl ⟨rfl, rfl⟩)
  intro s r h
  have hacc := (serviceRequest_accounting cfg s r).1
  have hmiss := serviceRequest_missCount cfg s r
  by_cases hs : requestServiced cfg s r = true
  · have hidle : s.busOccupied = false := by
      unfold requestServiced at hs
      simp only [Bool.and_eq_true, Bool.not_eq_true'] at hs
      exact hs.1
    have hbusy := serviceRequest_busy_after cfg s r (Or.inl hs)
    rcases h with ⟨h1, h2⟩ | ⟨h1, _⟩
    · refine Or.inr ⟨hbusy, ?_, ?_⟩
      · rw [hacc, if_pos hs, h1]
      · by_cases hk : r.reqType = BusRequestType.UPGRADE_REQUEST
        · left
          funext c
          rw [hmiss c, h2]
          simp [hk]
        · right
          refine ⟨r.requestorId, ?_⟩
          funext c
          rw [hmiss c, h2, set1_apply]
          by_cases hc : c = r.requestorId
          · simp [hs, hk, hc]
          · simp [hc]
    · rw [hidle] at h1
      exact absurd h1 (by decide)
  · have hbtc : (serviceRequest cfg s r).busTransactionCount = s.busTransactionCount := by
      rw [hacc, if_neg hs, add_zero]
    have hm : (serviceRequest cfg s r).missCount = s.missCount := by
      funext c
      rw [hmiss c]
      simp [hs]
    rcases h with ⟨h1, h2⟩ | ⟨h1, h2, h3⟩
    · exact Or.inl ⟨hbtc.trans h1, hm.trans h2⟩
    · exact Or.inr ⟨serviceRequest_busy_after cfg s r (Or.inr h1), hbtc.trans h2, by
        rw [hm]
        exact h3⟩

/-- The data phase removes at most the head of the data-transfer queue. -/
theorem dataPhase_queue (cfg : Config) (st : State) :
    ∃ kept extra, kept.length ≤ 1
      ∧ (dataPhase cfg st).dataTransferQueue = kept ++ st.dataTransferQueue.tail ++ extra := by
  rcases dataPhase_cases cfg st with ⟨hq, h⟩ | ⟨t, rest, hq, _, h⟩ | ⟨t, rest, hq, _, _, _, h⟩
  · exact ⟨[], [], by simp, by rw [h, hq]; rfl⟩
  · refine ⟨[{ t with pendingCycles := t.pendingCycles - 1 }], [], by simp, ?_⟩
    rw [h, hq]
    simp
  · rcases h with ⟨h, _⟩ | ⟨_, a, h⟩
    · exact ⟨[], [], by simp, by rw [h, hq]; simp⟩
    · exact ⟨[], [⟨a, t.destinationCore, false, true, false, 100⟩], by simp, by
        rw [h, hq]
        simp⟩

theorem totalMisses_set1 (st st2 : State) (r : Nat)
    (h : st2.missCount = set1 st.missCount r (st.missCount r + 1)) :
    totalMisses st2 = totalMisses st ∨ totalMisses st2 = totalMisses st + 1 := by
  unfold totalMisses
  rw [h]
  simp only [set1_apply]
  by_cases h0 : r = 0
  · subst h0
    right
    simp
    omega
  · by_cases h1 : r = 1
    · subst h1
      right
      simp
      omega
    · by_cases h2 : r = 2
      · subst h2
        right
        simp
        omega
      · by_cases h3 : r = 3
        · subst h3
          right
          simp
          omega
        · left
          have e0 : ¬ 0 = r := fun h => h0 h.symm
          have e1 : ¬ 1 = r := fun h => h1 h.symm
          have e2 : ¬ 2 = r := fun h => h2 h.symm
          have e3 : ¬ 3 = r := fun h => h3 h.symm
          simp [e0, e1, e2, e3]

/-- Claim C28: for every state, one call of `processBusTransactions` services at most one
request (`busTransactionCount` and the sum of `missCount` each grow by at most one) and removes
at most one transfer, the head, from the data-transfer queue; when the bus is occupied on entry
no request is serviced; the request queue is empty at the return. -/
theorem bus_mutual_exclusion (cfg : Config) (st : State) :
    BusTick st (processBusTransactions cfg st) := by
  have hpbt : processBusTransactions cfg st
      = dataPhase cfg (requestLoop cfg st.pendingRequests
          { st with busTickCounter := st.busTickCounter + 1 }) := rfl
  have hone := requestLoop_at_most_one cfg st.pendingRequests
    { st with busTickCounter := st.busTickCounter + 1 }
  have hqa := requestLoop_queue_append cfg st.pendingRequests
    { st with busTickCounter := st.busTickCounter + 1 }
  have hpr := requestLoop_pendingRequests cfg st.pendingRequests
    { st with busTickCounter := st.busTickCounter + 1 } rfl
  have hbusy : st.busOccupied = true →
      requestLoop cfg st.pendingRequests { st with busTickCounter := st.busTickCounter + 1 }
        = _ :=
    fun hb => requestLoop_busy_eq cfg st.pendingRequests
      { st with busTickCounter := st.busTickCounter + 1 } hb
  rw [hpbt]
  generalize requestLoop cfg st.pendingRequests
    { st with busTickCounter := st.busTickCounter + 1 } = stR at hone hqa hpr hbusy ⊢
  obtain ⟨_, _, _, e4, _, _, _, _, e9, e10, _, e12, _⟩ := dataPhase_frame cfg stR
  obtain ⟨kept, extra, hk, hq⟩ := dataPhase_queue cfg stR
  obtain ⟨e1, hq1⟩ := hqa
  have hq2 : stR.dataTransferQueue = st.dataTransferQueue ++ e1 := hq1
  have hmc : (dataPhase cfg stR).missCount = st.missCount
      ∨ ∃ r, (dataPhase cfg stR).missCount = set1 st.missCount r (st.missCount r + 1) := by
    rw [e9]
    rcases hone with ⟨_, h⟩ | ⟨_, _, h⟩
    · exact Or.inl h
    · exact h
  refine ⟨?_, hmc, ?_, ?_, ?_, ?_⟩
  · rw [e12]
    rcases hone with ⟨h, _⟩ | ⟨_, h, _⟩
    · exact Or.inl h
    · exact Or.inr h
  · rcases hmc with h | ⟨r, h⟩
    · left
      unfold totalMisses
      rw [h]
    · exact totalMisses_set1 st _ r h
  · cases hst : st.dataTransferQueue with
    | nil =>
      refine ⟨[], kept ++ stR.dataTransferQueue.tail ++ extra, by simp, ?_⟩
      rw [hq]
      simp
    | cons t rest =>
      refine ⟨kept, e1 ++ extra, hk, ?_⟩
      rw [hq, hq2, hst]
      simp
  · intro hb
    have hR := hbusy hb
    have hbtc : stR.busTransactionCount = st.busTransactionCount := by rw [hR]
    have hm : stR.missCount = st.missCount := by rw [hR]
    have hi : stR.invalidationCount = st.invalidationCount := by rw [hR]
    exact ⟨by rw [e12, hbtc], by rw [e9, hm], by rw [e10, hi]⟩
  · rw [e4]
    exact hpr

/-- The first loop of a cycle moves no cursor, retires nothing and starts no core. -/
theorem offerCore_cursor (cfg : Config) (tr : Nat → List TraceEntry) (i : Nat) (sim : SimState) :
    (offerCore cfg tr i sim).tracePosition = sim.tracePosition
      ∧ (offerCore cfg tr i sim).st.executedInstructions = sim.st.executedInstructions
      ∧ ∀ c, sim.st.processorRunning c = false →
          (offerCore cfg tr i sim).st.processorRunning c = false := by
  unfold offerCore
  split
  · exact ⟨rfl, rfl, fun _ h => h⟩
  · split
    · rename_i e _
      obtain ⟨_, _, _, _, _, _, f7, _, _, _, _, _, _, _, _, _, _, f18, _⟩ :=
        executeMemoryOperation_frame cfg sim.st e i
      refine ⟨rfl, f7, ?_⟩
      intro c h
      have h2 : (executeMemoryOperation cfg sim.st e i).processorRunning c
          = sim.st.processorRunning c := by rw [f18]
      exact h2.trans h
    · refine ⟨rfl, rfl, ?_⟩
      intro c h
      show set1 sim.st.processorRunning i false c = false
      rw [set1_apply]
      split
      · rfl
      · exact h

/-- Effect of the body of the third loop for core `i` on the cursors, the retired counts and
the running flags. -/
theorem advanceCore_cursor (tr : Nat → List TraceEntry) (i : Nat) (sim : SimState) :
    (advanceCore tr i sim).st.isStalled = sim.st.isStalled
      ∧ (∀ c, c ≠ i →
          (advanceCore tr i sim).tracePosition c = sim.tracePosition c
            ∧ (advanceCore tr i sim).st.executedInstructions c = sim.st.executedInstructions c
            ∧ (advanceCore tr i sim).st.processorRunning c = sim.st.processorRunning c)
      ∧ ((sim.st.isStalled i = true ∨ sim.st.processorRunning i = false) →
          (advanceCore tr i sim).tracePosition i = sim.tracePosition i
            ∧ (advanceCore tr i sim).st.executedInstructions i = sim.st.executedInstructions i
            ∧ (advanceCore tr i sim).st.processorRunning i = sim.st.processorRunning i)
      ∧ (sim.st.isStalled i = false → sim.st.processorRunning i = true →
          (advanceCore tr i sim).tracePosition i = sim.tracePosition i + 1
            ∧ (advanceCore tr i sim).st.executedInstructions i
              = sim.st.executedInstructions i + 1
            ∧ ((advanceCore tr i sim).st.processorRunning i = false
              ↔ sim.tracePosition i + 1 = (tr i).length)) := by
  unfold advanceCore
  dsimp only
  split
  · rename_i hcond
    simp only [Bool.and_eq_true, Bool.not_eq_true'] at hcond
    split
    · rename_i hlen
      refine ⟨rfl, fun c hc => ⟨set1_of_ne _ _ _ _ hc, set1_of_ne _ _ _ _ hc,
        set1_of_ne _ _ _ _ hc⟩, ?_, ?_⟩
      · rintro (h | h)
        · rw [hcond.1] at h
          exact absurd h (by decide)
        · rw [hcond.2] at h
          exact absurd h (by decide)
      · intro _ _
        exact ⟨set1_same _ _ _, set1_same _ _ _, ⟨fun _ => hlen, fun _ => set1_same _ _ _⟩⟩
    · rename_i hlen
      refine ⟨rfl, fun c hc => ⟨set1_of_ne _ _ _ _ hc, set1_of_ne _ _ _ _ hc, rfl⟩, ?_, ?_⟩
      · rintro (h | h)
        · rw [hcond.1] at h
          exact absurd h (by decide)
        · rw [hcond.2] at h
          exact absurd h (by decide)
      · intro _ hr
        refine ⟨set1_same _ _ _, set1_same _ _ _, ⟨?_, fun h => absurd h hlen⟩⟩
        intro h
        have h2 : sim.st.processorRunning i = false := h
        rw [hr] at h2
        exact absurd h2 (by decide)
  · rename_i hcond
    simp only [Bool.and_eq_true, Bool.not_eq_true'] at hcond
    refine ⟨rfl, fun _ _ => ⟨rfl, rfl, rfl⟩, fun _ => ⟨rfl, rfl, rfl⟩, ?_⟩
    intro hs hr
    exact absurd ⟨hs, hr⟩ hcond

/-- Claim C30: in every cycle of `runMulticoreSimulation` and for every core `c`, the cursor
and `executedInstructions[c]` are unchanged when `c` is stalled after the bus tick of the cycle
(also when the request phase of that cycle has just stalled it) or is not running; otherwise
both are one more, and `c` stops running exactly when its cursor reaches the length of its
trace.  The cursor never exceeds the length of the trace. -/
theorem cursor_advance (cfg : Config) (tr : Nat → List TraceEntry) (n c : Nat) (hc : c < 4) :
    CursorAdvance tr c (cycles cfg tr n) (afterBusTick cfg tr (cycles cfg tr n))
      (cycles cfg tr (n + 1)) := by
  have hfirst := forLoop_preserves
    (fun s : SimState => s.tracePosition = (cycles cfg tr n).tracePosition
      ∧ s.st.executedInstructions = (cycles cfg tr n).st.executedInstructions
      ∧ ∀ k, (cycles cfg tr n).st.processorRunning k = false → s.st.processorRunning k = false)
    (offerCore cfg tr) 4
    (by
      intro i s _ ⟨h1, h2, h3⟩
      obtain ⟨g1, g2, g3⟩ := offerCore_cursor cfg tr i s
      exact ⟨g1.trans h1, g2.trans h2, fun k hk => g3 k (h3 k hk)⟩)
    (cycles cfg tr n) ⟨rfl, rfl, fun _ h => h⟩
  obtain ⟨_, _, p3, _, _, p6⟩ := processBusTransactions_frame cfg
    (forLoop 4 (offerCore cfg tr) (cycles cfg tr n)).st
  have hmid : (afterBusTick cfg tr (cycles cfg tr n)).tracePosition
        = (cycles cfg tr n).tracePosition
      ∧ (afterBusTick cfg tr (cycles cfg tr n)).st.executedInstructions
        = (cycles cfg tr n).st.executedInstructions
      ∧ ∀ k, (cycles cfg tr n).st.processorRunning k = false →
          (afterBusTick cfg tr (cycles cfg tr n)).st.processorRunning k = false := by
    refine ⟨hfirst.1, p3.trans hfirst.2.1, ?_⟩
    intro k hk
    have : (afterBusTick cfg tr (cycles cfg tr n)).st.processorRunning
        = (forLoop 4 (offerCore cfg tr) (cycles cfg tr n)).st.processorRunning := p6
    rw [this]
    exact hfirst.2.2 k hk
  have hnext : cycles cfg tr (n + 1)
      = { forLoop 4 (advanceCore tr) (afterBusTick cfg tr (cycles cfg tr n)) with
          currentCycle :=
            (forLoop 4 (advanceCore tr) (afterBusTick cfg tr (cycles cfg tr n))).currentCycle
              + 1 } := rfl
  have hbound0 := (missBound_cycles cfg tr n c hc).1
  have hbound1 := (missBound_cycles cfg tr (n + 1) c hc).1
  generalize afterBusTick cfg tr (cycles cfg tr n) = mid at hmid hnext
  have hthird := forLoop_indexed
    (fun i (s : SimState) => s.st.isStalled = mid.st.isStalled
      ∧ (i ≤ c → s.tracePosition c = mid.tracePosition c
          ∧ s.st.executedInstructions c = mid.st.executedInstructions c
          ∧ s.st.processorRunning c = mid.st.processorRunning c)
      ∧ (c < i →
          ((mid.st.isStalled c = true ∨ mid.st.processorRunning c = false) →
            s.tracePosition c = mid.tracePosition c
              ∧ s.st.executedInstructions c = mid.st.executedInstructions c
              ∧ s.st.processorRunning c = mid.st.processorRunning c)
          ∧ (mid.st.isStalled c = false → mid.st.processorRunning c = true →
            s.tracePosition c = mid.tracePosition c + 1
              ∧ s.st.executedInstructions c = mid.st.executedInstructions c + 1
              ∧ (s.st.processorRunning c = false
                ↔ mid.tracePosition c + 1 = (tr c).length))))
    (advanceCore tr) 4
    (by
      intro i s _ ⟨h1, h2, h3⟩
      obtain ⟨a1, a2, a3, a4⟩ := advanceCore_cursor tr i s
      refine ⟨a1.trans h1, ?_, ?_⟩
      · intro hle
        have hne : c ≠ i := by omega
        obtain ⟨b1, b2, b3⟩ := a2 c hne
        obtain ⟨d1, d2, d3⟩ := h2 (by omega)
        exact ⟨b1.trans d1, b2.trans d2, b3.trans d3⟩
      · intro hlt
        by_cases hci : c = i
        · subst hci
          obtain ⟨d1, d2, d3⟩ := h2 (Nat.le_refl c)
          have hst : s.st.isStalled c = mid.st.isStalled c := by rw [h1]
          refine ⟨?_, ?_⟩
          · intro hcase
            have hcase2 : s.st.isStalled c = true ∨ s.st.processorRunning c = false := by
              rw [hst, d3]
              exact hcase
            obtain ⟨b1, b2, b3⟩ := a3 hcase2
            exact ⟨b1.trans d1, b2.trans d2, b3.trans d3⟩
          · intro hs hr
            obtain ⟨b1, b2, b3⟩ := a4 (hst.trans hs) (d3.trans hr)
            refine ⟨by rw [b1, d1], by rw [b2, d2], ?_⟩
            rw [b3, d1]
        · have hlt2 : c < i := by omega
          obtain ⟨b1, b2, b3⟩ := a2 c hci
          obtain ⟨d1, d2⟩ := h3 hlt2
          refine ⟨?_, ?_⟩
          · intro hcase
            obtain ⟨e1, e2, e3⟩ := d1 hcase
            exact ⟨b1.trans e1, b2.trans e2, b3.trans e3⟩
          · intro hs hr
            obtain ⟨e1, e2, e3⟩ := d2 hs hr
            refine ⟨b1.trans e1, b2.trans e2, ?_⟩
            rw [b3]
            exact e3)
    mid ⟨rfl, fun _ => ⟨rfl, rfl, rfl⟩, fun h => absurd h (Nat.not_lt_zero c)⟩
  obtain ⟨_, _, t3⟩ := hthird
  obtain ⟨t4, t5⟩ := t3 hc
  rw [hnext] at hbound1 ⊢
  generalize forLoop 4 (advanceCore tr) mid = fin at t4 t5 hbound1 ⊢
  have m1 : mid.tracePosition c = (cycles cfg tr n).tracePosition c := by rw [hmid.1]
  have m2 : mid.st.executedInstructions c = (cycles cfg tr n).st.executedInstructions c := by
    rw [hmid.2.1]
  refine ⟨m1, m2, hmid.2.2 c, ?_, ?_, hbound0, hbound1⟩
  · intro hcase
    obtain ⟨e1, e2, e3⟩ := t4 hcase
    exact ⟨e1.trans m1, e2.trans m2, e3⟩
  · intro hs hr
    obtain ⟨e1, e2, e3⟩ := t5 hs hr
    refine ⟨by rw [← m1]; exact e1, by rw [← m2]; exact e2, ?_⟩
    have e1b : fin.tracePosition c = mid.tracePosition c + 1 := e1
    show fin.st.processorRunning c = false ↔ fin.tracePosition c = (tr c).length
    rw [e1b]
    exact e3

theorem cursor_advance_witness :
    0 < 4
      ∧ CursorAdvance scenarioS2 0 (cycles scenarioConfig scenarioS2 0)
          (afterBusTick scenarioConfig scenarioS2 (cycles scenarioConfig scenarioS2 0))
          (cycles scenarioConfig scenarioS2 (0 + 1)) :=
  ⟨by decide, cursor_advance scenarioConfig scenarioS2 0 0 (by decide)⟩

/-! ### Every reference is retired once (claim C33) -/

theorem retiredInv_offerCore (cfg : Config) (tr : Nat → List TraceEntry) (i : Nat)
    (sim : SimState) (h : RetiredInv tr sim) : RetiredInv tr (offerCore cfg tr i sim) := by
  unfold offerCore
  split
  · exact h
  · split
    · rename_i e _
      obtain ⟨_, _, _, _, _, _, f7, _, _, _, _, _, _, _, _, _, _, f18, _⟩ :=
        executeMemoryOperation_frame cfg sim.st e i
      intro c
      obtain ⟨h1, h2⟩ := h c
      refine ⟨?_, ?_⟩
      · show (executeMemoryOperation cfg sim.st e i).executedInstructions c = _
        rw [f7]
        exact h1
      · intro hr
        have hr2 : (executeMemoryOperation cfg sim.st e i).processorRunning c = false := hr
        rw [f18] at hr2
        exact h2 hr2
    · rename_i hnone
      intro c
      obtain ⟨h1, h2⟩ := h c
      refine ⟨h1, ?_⟩
      intro hr
      have hr2 : set1 sim.st.processorRunning i false c = false := hr
      rw [set1_apply] at hr2
      by_cases hc : c = i
      · subst hc
        have := List.getElem?_eq_none_iff.mp hnone
        exact this
      · rw [if_neg hc] at hr2
        exact h2 hr2

theorem retiredInv_advanceCore (tr : Nat → List TraceEntry) (i : Nat)
    (sim : SimState) (h : RetiredInv tr sim) : RetiredInv tr (advanceCore tr i sim) := by
  obtain ⟨_, a2, a3, a4⟩ := advanceCore_cursor tr i sim
  intro c
  obtain ⟨h1, h2⟩ := h c
  by_cases hc : c = i
  · subst hc
    by_cases hcase : sim.st.isStalled c = true ∨ sim.st.processorRunning c = false
    · obtain ⟨b1, b2, b3⟩ := a3 hcase
      refine ⟨by rw [b2, b1]; exact h1, ?_⟩
      intro hr
      rw [b3] at hr
      rw [b1]
      exact h2 hr
    · have hs : sim.st.isStalled c = false := by
        cases hx : sim.st.isStalled c with
        | true => exact absurd (Or.inl hx) hcase
        | false => rfl
      have hr : sim.st.processorRunning c = true := by
        cases hx : sim.st.processorRunning c with
        | false => exact absurd (Or.inr hx) hcase
        | true => rfl
      obtain ⟨b1, b2, b3⟩ := a4 hs hr
      refine ⟨?_, ?_⟩
      · rw [b2, b1, h1]
        push_cast
        rfl
      · intro hstop
        rw [b1]
        exact Nat.le_of_eq (b3.mp hstop).symm
  · obtain ⟨b1, b2, b3⟩ := a2 c hc
    refine ⟨by rw [b2, b1]; exact h1, ?_⟩
    intro hr
    rw [b3] at hr
    rw [b1]
    exact h2 hr

theorem retiredInv_cycles (cfg : Config) (tr : Nat → List TraceEntry) (n : Nat) :
    RetiredInv tr (cycles cfg tr n) := by
  refine (cycles_phases cfg tr (RetiredInv tr) (fun _ => RetiredInv tr) (RetiredInv tr)
    (fun _ => RetiredInv tr) ?_ (fun _ h => h)
    (fun i sim _ h => retiredInv_offerCore cfg tr i sim h) ?_ (fun _ h => h)
    (fun i sim _ h => retiredInv_advanceCore tr i sim h) (fun _ h => h) n).1
  · intro c
    exact ⟨rfl, fun h => Bool.noConfusion h⟩
  · intro sim h c
    obtain ⟨h1, h2⟩ := h c
    obtain ⟨_, _, p3, _, _, p6⟩ := processBusTransactions_frame cfg sim.st
    refine ⟨?_, ?_⟩
    · show (processBusTransactions cfg sim.st).executedInstructions c = _
      rw [p3]
      exact h1
    · intro hr
      have hr2 : (processBusTransactions cfg sim.st).processorRunning c = false := hr
      rw [p6] at hr2
      exact h2 hr2

/-- Every state returned by `runMulticoreSimulation` has retired every reference once. -/
theorem retiredOnce_of_result (cfg : Config) (tr : Nat → List TraceEntry) (fuel : Nat)
    (sim : SimState) (h : runMulticoreSimulation cfg tr fuel = some sim) :
    RetiredOnce tr sim := by
  obtain ⟨m, _, hterm, hpos, hst⟩ := runMulticoreSimulation_result cfg tr fuel sim h
  obtain ⟨hr0, hw0⟩ := counts_zero_cycles cfg tr m
  have hinv := retiredInv_cycles cfg tr m
  have hcore : ∀ c, c < 4 →
      sim.st.executedInstructions c = ((tr c).length : Int)
        ∧ sim.tracePosition c = (tr c).length
        ∧ sim.st.readCount c + sim.st.writeCount c = ((tr c).length : Int) := by
    intro c hc
    have hrun := ((terminated_elim hterm).2 c hc).1
    obtain ⟨h1, h2⟩ := hinv c
    have hle := (missBound_cycles cfg tr m c hc).1
    have hge := h2 hrun
    have heq : (cycles cfg tr m).tracePosition c = (tr c).length := Nat.le_antisymm hle hge
    refine ⟨?_, ?_, ?_⟩
    · rw [hst]
      show (cycles cfg tr m).st.executedInstructions c = _
      rw [h1, heq]
    · rw [hpos, heq]
    · rw [hst]
      show (cycles cfg tr m).st.readCount c + countOps (tr c) Op.R
        + ((cycles cfg tr m).st.writeCount c + countOps (tr c) Op.W) = _
      rw [hr0, hw0, ← countOps_total (tr c)]
      ring
  refine ⟨hcore, ?_⟩
  rw [(hcore 0 (by decide)).1, (hcore 1 (by decide)).1, (hcore 2 (by decide)).1,
    (hcore 3 (by decide)).1, (hcore 0 (by decide)).2.2, (hcore 1 (by decide)).2.2,
    (hcore 2 (by decide)).2.2, (hcore 3 (by decide)).2.2]

/-- Claim C33: for every geometry with `E ≥ 1` and `b ≥ 1` and every four traces, the cycle
loop of `runMulticoreSimulation` terminates, and in every state it returns
`executedInstructions[c]` is the number of entries of the trace of core `c` for `c = 0 .. 3`
(`0` for an empty trace), which is also `readCount[c] + writeCount[c]`, so the sums over the
cores agree. -/
theorem every_reference_retired (cfg : Config) (tr : Nat → List TraceEntry)
    (_hE : 1 ≤ cfg.associativity) (_hb : 1 ≤ cfg.numBlockBits) :
    (∃ fuel sim, (∀ k, runMulticoreSimulation cfg tr (fuel + k) = some sim)
        ∧ RetiredOnce tr sim)
      ∧ ∀ fuel sim, runMulticoreSimulation cfg tr fuel = some sim → RetiredOnce tr sim := by
  refine ⟨?_, fun fuel sim h => retiredOnce_of_result cfg tr fuel sim h⟩
  obtain ⟨fuel, r, hr⟩ := cycleLoop_terminates cfg tr _ _ (initialSim cfg)
    (termInv_initial cfg tr) rfl rfl
  have hrun : ∀ k, runMulticoreSimulation cfg tr (fuel + k)
      = some { r with
          st := { r.st with
            readCount := fun c => r.st.readCount c + countOps (tr c) Op.R
            writeCount := fun c => r.st.writeCount c + countOps (tr c) Op.W } } := by
    intro k
    unfold runMulticoreSimulation
    rw [cycleLoop_more_fuel cfg tr fuel k _ r hr]
  exact ⟨fuel, _, hrun, retiredOnce_of_result cfg tr (fuel + 0) _ (hrun 0)⟩

theorem every_reference_retired_witness :
    1 ≤ scenarioConfig.associativity ∧ 1 ≤ scenarioConfig.numBlockBits
      ∧ (∃ fuel sim, (∀ k, runMulticoreSimulation scenarioConfig scenarioS2 (fuel + k) = some sim)
          ∧ RetiredOnce scenarioS2 sim)
      ∧ ∀ fuel sim, runMulticoreSimulation scenarioConfig scenarioS2 fuel = some sim →
          RetiredOnce scenarioS2 sim :=
  ⟨by decide, by decide,
    every_reference_retired scenarioConfig scenarioS2 (by decide) (by decide)⟩

/-! ### Address decomposition (claim C32) -/

theorem blockOf_split (cfg : Config) (a : Int) :
    blockOf cfg a = tagOf cfg a * (2 : Int) ^ cfg.numSetBits + (setIndexOf cfg a : Int) := by
  rw [tagOf_eq, setIndexOf_eq]
  exact (Int.ediv_add_emod' (blockOf cfg a) ((2 : Int) ^ cfg.numSetBits)).symm

theorem same_block_iff (cfg : Config) (a a2 : Int) :
    (setIndexOf cfg a2 = setIndexOf cfg a ∧ tagOf cfg a2 = tagOf cfg a)
      ↔ blockOf cfg a2 = blockOf cfg a := by
  constructor
  · rintro ⟨hs, ht⟩
    rw [blockOf_split cfg a2, blockOf_split cfg a, hs, ht]
  · intro hb
    refine ⟨?_, ?_⟩
    · have h : (setIndexOf cfg a2 : Int) = (setIndexOf cfg a : Int) := by
        rw [setIndexOf_eq, setIndexOf_eq, hb]
      exact_mod_cast h
    · rw [tagOf_eq, tagOf_eq, hb]

theorem blockOf_eq_div (cfg : Config) (a : Int) :
    blockOf cfg a = a / (2 : Int) ^ cfg.numBlockBits := by
  unfold blockOf
  rw [Int.shiftRight_eq_div_pow]
  norm_cast

/-- The eviction address of the line of a non-negative `int` address is the start of its
block. -/
theorem evictedAddrOf_block (cfg : Config) (a : Int) (h0 : 0 ≤ a) (h1 : a < 2147483648) :
    evictedAddrOf cfg (toUnsigned (tagOf cfg a)) (setIndexOf cfg a)
      = blockOf cfg a * (2 : Int) ^ cfg.numBlockBits := by
  have hb0 : 0 ≤ blockOf cfg a := by
    rw [blockOf_eq_div]
    exact Int.ediv_nonneg h0 (by positivity)
  have ht0 : 0 ≤ tagOf cfg a := by
    rw [tagOf_eq]
    exact Int.ediv_nonneg hb0 (by positivity)
  have ht1 := (tagOf_range cfg a (by omega) h1).2
  have hu : toUnsigned (tagOf cfg a) = tagOf cfg a := by
    unfold toUnsigned
    omega
  have hsg : toSigned (tagOf cfg a) = tagOf cfg a := by
    unfold toSigned
    have hm : tagOf cfg a % 4294967296 = tagOf cfg a := by omega
    rw [hm, if_pos ht1]
  obtain ⟨T, hT⟩ := Int.eq_ofNat_of_zero_le ht0
  have hslt := setIndexOf_lt cfg a
  have hsplit := blockOf_split cfg a
  unfold evictedAddrOf
  rw [hu, hsg, hsplit, hT]
  have e1 : (T : Int) * (2 : Int) ^ (cfg.numSetBits + cfg.numBlockBits)
      = ((2 ^ (cfg.numSetBits + cfg.numBlockBits) * T : Nat) : Int) := by
    push_cast
    ring
  have e2 : (setIndexOf cfg a : Int) * (2 : Int) ^ cfg.numBlockBits
      = ((setIndexOf cfg a * 2 ^ cfg.numBlockBits : Nat) : Int) := by
    push_cast
    ring
  have hlt : setIndexOf cfg a * 2 ^ cfg.numBlockBits
      < 2 ^ (cfg.numSetBits + cfg.numBlockBits) := by
    rw [Nat.pow_add]
    exact Nat.mul_lt_mul_of_pos_right hslt (Nat.two_pow_pos _)
  rw [e1, e2]
  show ((2 ^ (cfg.numSetBits + cfg.numBlockBits) * T
      ||| setIndexOf cfg a * 2 ^ cfg.numBlockBits : Nat) : Int) = _
  rw [← Nat.mul_add_lt_is_or hlt T]
  push_cast
  ring

/-- Claim C32: for every geometry and every non-negative `int` address `A`, the set index
`(A >> b) mod 2^s` is below `2^s` and `A >> b = tag * 2^s + set_index` with `tag = A >> (s+b)`,
so two addresses have the same set index and tag exactly when they lie in the same block; the
eviction address `(tag << (s+b)) | (set_index << b)` of the miss handlers decodes to the same
set index and tag and is `A` with its `b` offset bits cleared. -/
theorem address_round_trip (cfg : Config) (a : Int) (h0 : 0 ≤ a) (h1 : a < 2147483648) :
    AddressRoundTrip cfg a := by
  have hev := evictedAddrOf_block cfg a h0 h1
  have hpos : (0 : Int) < (2 : Int) ^ cfg.numBlockBits := by positivity
  have hblock : blockOf cfg (evictedAddrOf cfg (toUnsigned (tagOf cfg a)) (setIndexOf cfg a))
      = blockOf cfg a := by
    rw [hev, blockOf_eq_div, Int.mul_ediv_cancel _ (ne_of_gt hpos)]
  obtain ⟨g1, g2⟩ := (same_block_iff cfg a _).mpr hblock
  refine ⟨setIndexOf_lt cfg a, blockOf_split cfg a, fun a2 => same_block_iff cfg a a2,
    g1, g2, ?_⟩
  rw [hev, blockOf_eq_div]
  have := Int.ediv_add_emod' a ((2 : Int) ^ cfg.numBlockBits)
  omega

theorem address_round_trip_witness :
    (0 : Int) ≤ 0x1234 ∧ (0x1234 : Int) < 2147483648 ∧ AddressRoundTrip scenarioConfig 0x1234 :=
  ⟨by decide, by decide, address_round_trip scenarioConfig 0x1234 (by decide) (by decide)⟩

/-! ### Transfer latency (claim C31) -/

theorem headTick_holds (cfg : Config) : HeadTick cfg := by
  intro st t rest hq
  obtain ⟨extra, hx⟩ := requestLoop_queue_append cfg st.pendingRequests
    { st with busTickCounter := st.busTickCounter + 1 }
  have hentry : (requestPhase cfg
      { st with busTickCounter := st.busTickCounter + 1 }).dataTransferQueue
      = t :: (rest ++ extra) := by
    have h2 : (requestPhase cfg
        { st with busTickCounter := st.busTickCounter + 1 }).dataTransferQueue
        = st.dataTransferQueue ++ extra := hx
    rw [h2, hq]
    rfl
  refine ⟨extra, _, rfl, hentry, ?_, ?_⟩
  · intro hp
    exact dataPhase_waits cfg _ t (rest ++ extra) hentry hp
  · intro hp
    show dataPhase cfg (requestPhase cfg { st with busTickCounter := st.busTickCounter + 1 }) = _
    generalize requestPhase cfg { st with busTickCounter := st.busTickCounter + 1 } = entry
      at hentry ⊢
    unfold dataPhase
    rw [hentry]
    dsimp only
    rw [if_pos hp]
    split <;> rfl

/-- Effect of one call of `processBusTransactions` on a queue with head `t`. -/
theorem processBusTransactions_head (cfg : Config) (st : State) (t : BusDataTransfer)
    (rest : List BusDataTransfer) (hq : st.dataTransferQueue = t :: rest) :
    (t.pendingCycles ≠ 0 → ∃ extra, (processBusTransactions cfg st).dataTransferQueue
        = { t with pendingCycles := t.pendingCycles - 1 } :: (rest ++ extra))
      ∧ (t.pendingCycles = 0 →
          ∃ extra, (processBusTransactions cfg st).dataTransferQueue = rest ++ extra) := by
  obtain ⟨extra, entry, _, hentry, h1, h2⟩ := headTick_holds cfg st t rest hq
  refine ⟨?_, ?_⟩
  · intro hp
    exact ⟨extra, by rw [h1 hp]⟩
  · intro hp
    obtain ⟨extra2, hx⟩ := completeTransfer_queue_prefix cfg entry t
    refine ⟨extra ++ extra2, ?_⟩
    rw [h2 hp]
    dsimp only
    rw [hx, hentry]
    simp

/-- The states at the ends of the cycles of a run, from any cycle on, are linked by calls of
`processBusTransactions` as far as the data-transfer queue goes. -/
theorem cycles_queueTicks (cfg : Config) (tr : Nat → List TraceEntry) (k0 : Nat) :
    QueueTicks cfg (fun k => (cycles cfg tr (k0 + k)).st) := by
  intro k
  refine ⟨(forLoop 4 (offerCore cfg tr) (cycles cfg tr (k0 + k))).st, ?_, ?_⟩
  · refine forLoop_preserves
      (fun s : SimState => s.st.dataTransferQueue
        = (cycles cfg tr (k0 + k)).st.dataTransferQueue) (offerCore cfg tr) 4 ?_ _ rfl
    intro i s _ h
    unfold offerCore
    split
    · exact h
    · split
      · rename_i e _
        show (executeMemoryOperation cfg s.st e i).dataTransferQueue = _
        rw [(executeMemoryOperation_frame cfg s.st e i).2.2.2.2.2.1]
        exact h
      · exact h
  · show (cycle cfg tr (cycles cfg tr (k0 + k))).st.dataTransferQueue = _
    unfold cycle
    dsimp only
    refine forLoop_preserves
      (fun s : SimState => s.st.dataTransferQueue
        = (processBusTransactions cfg
            (forLoop 4 (offerCore cfg tr) (cycles cfg tr (k0 + k))).st).dataTransferQueue)
      (advanceCore tr) 4 ?_ _ rfl
    intro i s _ h
    rw [(advanceCore_frame tr i s).2.1]
    exact h

theorem countdown_steps (cfg : Config) (s : Nat → State) (hs : QueueTicks cfg s)
    (t : BusDataTransfer) (rest : List BusDataTransfer) (n : Nat)
    (h0 : (s 0).dataTransferQueue = t :: rest) (hn : t.pendingCycles = (n : Int)) :
    ∀ j, j ≤ n → ∃ extra, (s j).dataTransferQueue
      = { t with pendingCycles := (n : Int) - (j : Int) } :: (rest ++ extra) := by
  intro j
  induction j with
  | zero =>
    intro _
    refine ⟨[], ?_⟩
    rw [h0, List.append_nil, ← hn]
    simp
  | succ j ih =>
    intro hj
    obtain ⟨extra, hq⟩ := ih (by omega)
    obtain ⟨st, hst, hnext⟩ := hs j
    have hne : ({ t with pendingCycles := (n : Int) - (j : Int) } : BusDataTransfer).pendingCycles
        ≠ 0 := by
      show (n : Int) - (j : Int) ≠ 0
      omega
    obtain ⟨extra2, hx⟩ := (processBusTransactions_head cfg st _ _ (hst.trans hq)).1 hne
    refine ⟨extra ++ extra2, ?_⟩
    rw [hnext, hx, List.append_assoc]
    simp only [BusDataTransfer.mk.injEq, List.cons.injEq, and_true, true_and]
    push_cast
    ring

/-- Claim C31, amended: a transfer at the head of the queue with `pendingCycles = n` is still
at the head, with `n - j` cycles left, after `j ≤ n` further calls of `processBusTransactions`,
and it is the call number `n + 1` that applies it and pops it; a call decrements only the head
transfer, by exactly one, and leaves every other queued transfer unchanged. -/
theorem transfer_latency (cfg : Config) (s : Nat → State) (hs : QueueTicks cfg s)
    (t : BusDataTransfer) (rest : List BusDataTransfer) (n : Nat)
    (h0 : (s 0).dataTransferQueue = t :: rest) (hn : t.pendingCycles = (n : Int)) :
    TransferCountdown s t rest n ∧ HeadTick cfg := by
  have hsteps := countdown_steps cfg s hs t rest n h0 hn
  refine ⟨⟨hsteps, ?_⟩, headTick_holds cfg⟩
  obtain ⟨extra, hq⟩ := hsteps n (Nat.le_refl n)
  obtain ⟨st, hst, hnext⟩ := hs n
  have hz : ({ t with pendingCycles := (n : Int) - (n : Int) } : BusDataTransfer).pendingCycles
      = 0 := by
    show (n : Int) - (n : Int) = 0
    omega
  obtain ⟨extra2, hx⟩ := (processBusTransactions_head cfg st _ _ (hst.trans hq)).2 hz
  exact ⟨extra ++ extra2, by rw [hnext, hx, List.append_assoc]⟩

theorem transfer_latency_witness :
    QueueTicks scenarioConfig (fun k => (cycles scenarioConfig scenarioSingleWrite (1 + k)).st)
      ∧ (cycles scenarioConfig scenarioSingleWrite (1 + 0)).st.dataTransferQueue
        = [⟨0x1000, 0, true, false, false, 99⟩]
      ∧ TransferCountdown (fun k => (cycles scenarioConfig scenarioSingleWrite (1 + k)).st)
          ⟨0x1000, 0, true, false, false, 99⟩ [] 99
      ∧ HeadTick scenarioConfig :=
  ⟨cycles_queueTicks scenarioConfig scenarioSingleWrite 1, by decide,
    transfer_latency scenarioConfig
      (fun k => (cycles scenarioConfig scenarioSingleWrite (1 + k)).st)
      (cycles_queueTicks scenarioConfig scenarioSingleWrite 1)
      ⟨0x1000, 0, true, false, false, 99⟩ [] 99 (by decide) rfl⟩

/-- Claim C31, counterexample: in the run of the single write `W 0x1000` of core 0, the write
fill is queued with `pendingCycles = 100` by the request phase of cycle 1, so the call of
cycle 1 is the first to see it at the head; when the data phase of the call of cycle 101
starts, after 100 calls have seen it at the head, the fill is still at the head, now with
`pendingCycles = 0`, and core 0 holds no copy of the block; the call of cycle 101 applies it. -/
theorem fill_completes_one_tick_later :
    (dataPhaseEntry scenarioConfig scenarioSingleWrite 0).dataTransferQueue
        = [⟨0x1000, 0, true, false, false, 100⟩]
      ∧ (cycles scenarioConfig scenarioSingleWrite 1).st.dataTransferQueue
        = [⟨0x1000, 0, true, false, false, 99⟩]
      ∧ (dataPhaseEntry scenarioConfig scenarioSingleWrite 100).dataTransferQueue
        = [⟨0x1000, 0, true, false, false, 0⟩]
      ∧ HoldsNoValidCopy scenarioConfig (dataPhaseEntry scenarioConfig scenarioSingleWrite 100)
          0 0x1000
      ∧ HoldsBlock scenarioConfig (cycles scenarioConfig scenarioSingleWrite 101).st 0
          0x1000 CoherenceState.MODIFIED :=
  ⟨by decide, by decide, scenarioSingleWrite_fill.1, scenarioSingleWrite_fill.2.1,
    scenarioSingleWrite_fill.2.2.1⟩

/-! ### Causes of a writeback -/

theorem findInvalidWay_none_iff (cfg : Config) (st : State) (p s : Nat) :
    findInvalidWay cfg st p s = none ↔ setFull cfg st p s = true := by
  unfold findInvalidWay setFull
  rw [List.all_eq_true]
  constructor
  · intro h w hw
    have := findFirst_none h w (List.mem_range.mp hw)
    simpa using this
  · intro h
    apply findFirst_eq_none
    intro j hj
    have := h j (List.mem_range.mpr hj)
    simpa using this

/-- The log after the victim choice of a miss handler: one dirty eviction exactly when the
handler displaces a dirty line. -/
theorem selectVictim_log (cfg : Config) (ds : Bool) (st : State) (p s : Nat) (tw : Bool) :
    (selectVictim cfg ds st p s tw).2.2.ghostLog
      = st.ghostLog ++ (if displacesDirty cfg st p s = true then [Event.dirtyEviction p]
          else []) := by
  unfold selectVictim displacesDirty
  dsimp only
  split
  · rename_i hnone
    have hfull := (findInvalidWay_none_iff cfg st p s).mp hnone
    rw [hfull, Bool.true_and]
    by_cases hd : st.dirtyFlags p s ((st.lruOrder p s).headD 0) = true
    · rw [if_pos hd, if_pos hd]
    · rw [if_neg hd, if_neg hd]
      simp
  · rename_i w hsome
    have hfull : setFull cfg st p s = false := by
      cases hx : setFull cfg st p s with
      | false => rfl
      | true =>
        rw [(findInvalidWay_none_iff cfg st p s).mpr hx] at hsome
        exact absurd hsome (by simp)
    rw [hfull, Bool.false_and]
    simp

theorem countP_dirtyEviction_ite (c p : Nat) (b : Bool) (l : List Event) :
    (l ++ (if b = true then [Event.dirtyEviction p] else [])).countP (isDirtyEvictionOf c)
      = l.countP (isDirtyEvictionOf c) + (if p = c ∧ b = true then 1 else 0) := by
  cases b with
  | true =>
    by_cases hp : p = c <;> simp [List.countP_append, isDirtyEvictionOf, hp]
  | false => simp

/-- Dirty evictions of core `c` logged by the completion of a transfer. -/
theorem completeTransfer_dirtyEvictions (cfg : Config) (st : State) (t : BusDataTransfer)
    (c : Nat) :
    (completeTransfer cfg st t).ghostLog.countP (isDirtyEvictionOf c)
      = st.ghostLog.countP (isDirtyEvictionOf c)
        + (if (!t.isWritebackOp && (t.isWriteOp || !t.isInvalidation)
              && t.destinationCore == c
              && displacesDirty cfg st c (setIndexOf cfg t.targetAddress)) = true
            then 1 else 0) := by
  have hsame : ∀ p s, displacesDirty cfg
      { st with
        totalBusTraffic := st.totalBusTraffic + bytesPerBlock cfg
        trafficBytes := set1 st.trafficBytes t.destinationCore
          (st.trafficBytes t.destinationCore + bytesPerBlock cfg) } p s
      = displacesDirty cfg st p s := fun _ _ => rfl
  have hlogR := selectVictim_log cfg true
    { st with
      totalBusTraffic := st.totalBusTraffic + bytesPerBlock cfg
      trafficBytes := set1 st.trafficBytes t.destinationCore
        (st.trafficBytes t.destinationCore + bytesPerBlock cfg) }
    t.destinationCore (setIndexOf cfg t.targetAddress) false
  have hlogW := selectVictim_log cfg false
    { st with
      totalBusTraffic := st.totalBusTraffic + bytesPerBlock cfg
      trafficBytes := set1 st.trafficBytes t.destinationCore
        (st.trafficBytes t.destinationCore + bytesPerBlock cfg) }
    t.destinationCore (setIndexOf cfg t.targetAddress) false
  rw [hsame] at hlogR hlogW
  unfold completeTransfer
  dsimp only
  by_cases hwb : t.isWritebackOp = true
  · simp [hwb, List.countP_append, isDirtyEvictionOf]
  · simp only [hwb, Bool.not_false, if_true, Bool.true_and]
    unfold processWriteMiss processReadMiss
    dsimp only
    by_cases hw : t.isWriteOp = true
    · simp only [hw, if_true, Bool.true_or, Bool.true_and]
      have hgoal : (selectVictim cfg false
          { st with
            totalBusTraffic := st.totalBusTraffic + bytesPerBlock cfg
            trafficBytes := set1 st.trafficBytes t.destinationCore
              (st.trafficBytes t.destinationCore + bytesPerBlock cfg) }
          t.destinationCore (setIndexOf cfg t.targetAddress) false).2.2.ghostLog.countP
            (isDirtyEvictionOf c)
          = st.ghostLog.countP (isDirtyEvictionOf c)
            + (if (t.destinationCore == c
                && displacesDirty cfg st c (setIndexOf cfg t.targetAddress)) = true
              then 1 else 0) := by
        rw [hlogW, countP_dirtyEviction_ite]
        by_cases hc : t.destinationCore = c
        · subst hc
          simp
        · simp [hc]
      split <;> simpa using hgoal
    · simp only [hw, Bool.false_eq_true, if_false, Bool.false_or]
      by_cases hi : t.isInvalidation = true
      · simp [hi]
      · simp only [hi, Bool.not_false, if_true, Bool.true_and]
        have hgoal : (selectVictim cfg true
            { st with
              totalBusTraffic := st.totalBusTraffic + bytesPerBlock cfg
              trafficBytes := set1 st.trafficBytes t.destinationCore
                (st.trafficBytes t.destinationCore + bytesPerBlock cfg) }
            t.destinationCore (setIndexOf cfg t.targetAddress) false).2.2.ghostLog.countP
              (isDirtyEvictionOf c)
            = st.ghostLog.countP (isDirtyEvictionOf c)
              + (if (t.destinationCore == c
                  && displacesDirty cfg st c (setIndexOf cfg t.targetAddress)) = true
                then 1 else 0) := by
          rw [hlogR, countP_dirtyEviction_ite]
          by_cases hc : t.destinationCore = c
          · subst hc
            simp
          · simp [hc]
        split <;> simpa using hgoal

/-- Dirty evictions of core `c` logged by the data phase. -/
theorem dataPhase_dirtyEvictions (cfg : Config) (st : State) (c : Nat) :
    countEvents (isDirtyEvictionOf c) (dataPhase cfg st)
      = countEvents (isDirtyEvictionOf c) st
        + (if fillDisplacesDirty cfg st c = true then 1 else 0) := by
  have hcase : st.dataTransferQueue = [] ∨ ∃ t rest, st.dataTransferQueue = t :: rest := by
    cases st.dataTransferQueue with
    | nil => exact Or.inl rfl
    | cons t rest => exact Or.inr ⟨t, rest, rfl⟩
  rcases hcase with hq | ⟨t, rest, hq⟩
  · have hf : fillDisplacesDirty cfg st c = false := by
      unfold fillDisplacesDirty
      rw [hq]
    have hd : dataPhase cfg st = st := by
      unfold dataPhase
      rw [hq]
    rw [hf, hd]
    simp
  · have hf : fillDisplacesDirty cfg st c
        = (t.pendingCycles == 0 && !t.isWritebackOp && (t.isWriteOp || !t.isInvalidation)
            && t.destinationCore == c
            && displacesDirty cfg st c (setIndexOf cfg t.targetAddress)) := by
      unfold fillDisplacesDirty
      rw [hq]
    have hd : (dataPhase cfg st).ghostLog
        = if t.pendingCycles = 0 then (completeTransfer cfg st t).ghostLog else st.ghostLog := by
      unfold dataPhase
      rw [hq]
      dsimp only
      split
      · split <;> rfl
      · rfl
    unfold countEvents
    rw [hf, hd]
    by_cases hz : t.pendingCycles = 0
    · rw [if_pos hz, completeTransfer_dirtyEvictions cfg st t c]
      push_cast
      simp [hz]
    · rw [if_neg hz]
      simp [hz]

/-- The log after the snoop of one way by `READ_EXCLUSIVE`: one event exactly when the way
holds the line `MODIFIED`. -/
theorem invalidateWay_log (a : Int) (s : Nat) (tag : Int) (c w : Nat) (acc : Bool × State) :
    (invalidateWay a s tag c w acc).2.ghostLog
      = acc.2.ghostLog
        ++ (if holdsLine acc.2 c s tag w = true
              ∧ acc.2.coherenceTable c s w = CoherenceState.MODIFIED
            then [Event.modifiedSnooped c] else []) := by
  unfold invalidateWay
  dsimp only
  by_cases hl : holdsLine acc.2 c s tag w = true
  · rw [if_pos hl]
    by_cases hm : acc.2.coherenceTable c s w = CoherenceState.MODIFIED
    · rw [if_pos hm]
      by_cases hr : acc.2.processorRunning c = true
      · simp [hl, hm, hr]
      · simp [hl, hm, hr]
    · rw [if_neg hm]
      simp [hl, hm]
  · rw [if_neg hl]
    simp [hl]

theorem modifiedWaysBelow_succ (st : State) (c s : Nat) (tag : Int) (j : Nat) :
    modifiedWaysBelow st c s tag (j + 1)
      = modifiedWaysBelow st c s tag j
        + (if holdsLine st c s tag j = true
              ∧ st.coherenceTable c s j = CoherenceState.MODIFIED then 1 else 0) := by
  unfold modifiedWaysBelow
  rw [List.range_succ, List.filter_append, List.length_append]
  by_cases hl : holdsLine st c s tag j = true
  · by_cases hm : st.coherenceTable c s j = CoherenceState.MODIFIED
    · simp [hl, hm]
    · simp [hl, hm]
  · simp [hl]

/-- Snoops of `MODIFIED` lines of core `c` logged by the snoop loops of `READ_EXCLUSIVE`
started in the state `st`. -/
theorem invalidateOthers_snooped (cfg : Config) (r : Nat) (addr : Int) (s : Nat) (tag : Int)
    (st : State) (c : Nat) (acc : Bool × State)
    (h0 : ExclusiveSnoop st addr s tag (fun _ _ => False) acc)
    (hlog : acc.2.ghostLog.countP (isModifiedSnoopedOf c)
      = st.ghostLog.countP (isModifiedSnoopedOf c)) :
    (invalidateOthers cfg r addr s tag acc).2.ghostLog.countP (isModifiedSnoopedOf c)
      = st.ghostLog.countP (isModifiedSnoopedOf c)
        + (if c < 4 ∧ c ≠ r then modifiedWaysBelow st c s tag cfg.associativity else 0) := by
  unfold invalidateOthers
  have key := forLoop_indexed
    (fun i (acc2 : Bool × State) => ExclusiveSnoop st addr s tag
        (fun c2 w2 => c2 < i ∧ c2 ≠ r ∧ w2 < cfg.associativity) acc2
      ∧ acc2.2.ghostLog.countP (isModifiedSnoopedOf c)
        = st.ghostLog.countP (isModifiedSnoopedOf c)
          + (if c < i ∧ c ≠ r then modifiedWaysBelow st c s tag cfg.associativity else 0))
    (fun otherCore acc1 =>
      if otherCore != r then
        forLoop cfg.associativity (invalidateWay addr s tag otherCore) acc1
      else acc1) 4
    (by
      intro i acc2 _ ⟨hi, hcount⟩
      dsimp only
      split
      · rename_i hir
        have hir2 : i ≠ r := by simpa using hir
        have inner := forLoop_indexed
          (fun j (acc3 : Bool × State) => ExclusiveSnoop st addr s tag
              (fun c2 w2 => (c2 < i ∧ c2 ≠ r ∧ w2 < cfg.associativity) ∨ (c2 = i ∧ w2 < j))
              acc3
            ∧ acc3.2.ghostLog.countP (isModifiedSnoopedOf c)
              = st.ghostLog.countP (isModifiedSnoopedOf c)
                + (if c < i ∧ c ≠ r then modifiedWaysBelow st c s tag cfg.associativity
                    else 0)
                + (if c = i then modifiedWaysBelow st c s tag j else 0))
          (invalidateWay addr s tag i) cfg.associativity
          (by
            intro j acc3 _ ⟨h3, hc3⟩
            have hn : ¬ ((i < i ∧ i ≠ r ∧ j < cfg.associativity) ∨ (i = i ∧ j < j)) := by
              rintro (h | h)
              · exact absurd h.1 (Nat.lt_irrefl i)
              · exact absurd h.2 (Nat.lt_irrefl j)
            have hl : holdsLine acc3.2 i s tag j = holdsLine st i s tag j := by
              unfold holdsLine
              rw [h3.1, h3.2.1 i j hn]
            have hcw : acc3.2.coherenceTable i s j = st.coherenceTable i s j := h3.2.1 i j hn
            refine ⟨?_, ?_⟩
            · refine exclusiveSnoop_congr ?_ (exclusiveSnoop_step i j h3 hn)
              intro c2 w2
              constructor
              · rintro ((h | h) | h)
                · exact Or.inl h
                · exact Or.inr ⟨h.1, Nat.lt_succ_of_lt h.2⟩
                · exact Or.inr ⟨h.1, by rw [h.2]; exact Nat.lt_succ_self j⟩
              · rintro (h | h)
                · exact Or.inl (Or.inl h)
                · rcases Nat.lt_succ_iff_lt_or_eq.mp h.2 with h2 | h2
                  · exact Or.inl (Or.inr ⟨h.1, h2⟩)
                  · exact Or.inr ⟨h.1, h2⟩
            · rw [invalidateWay_log, hl, hcw, List.countP_append, hc3]
              by_cases hci : c = i
              · subst hci
                rw [if_pos rfl, if_pos rfl, modifiedWaysBelow_succ]
                by_cases hx : holdsLine st c s tag j = true
                    ∧ st.coherenceTable c s j = CoherenceState.MODIFIED
                · rw [if_pos hx, if_pos hx]
                  simp [isModifiedSnoopedOf]
                  omega
                · rw [if_neg hx, if_neg hx]
                  simp
              · rw [if_neg hci, if_neg hci]
                have hci2 : (i == c) = false := by
                  simp only [beq_eq_false_iff_ne, ne_eq]
                  exact fun h => hci h.symm
                have hz : (if holdsLine st i s tag j = true
                      ∧ st.coherenceTable i s j = CoherenceState.MODIFIED
                    then [Event.modifiedSnooped i] else []).countP (isModifiedSnoopedOf c)
                    = 0 := by
                  by_cases hx : holdsLine st i s tag j = true
                      ∧ st.coherenceTable i s j = CoherenceState.MODIFIED
                  · rw [if_pos hx]
                    simp only [List.countP_cons, List.countP_nil, isModifiedSnoopedOf, hci2]
                    simp
                  · rw [if_neg hx]
                    rfl
                rw [hz])
          acc2 ⟨exclusiveSnoop_congr (fun c2 w2 => by simp) hi, by
            rw [hcount]
            simp [modifiedWaysBelow]⟩
        obtain ⟨in1, in2⟩ := inner
        refine ⟨?_, ?_⟩
        · refine exclusiveSnoop_congr ?_ in1
          intro c2 w2
          constructor
          · rintro (h | h)
            · exact ⟨Nat.lt_succ_of_lt h.1, h.2⟩
            · exact ⟨by rw [h.1]; exact Nat.lt_succ_self i, by rw [h.1]; exact hir2, h.2⟩
          · rintro ⟨h1, h2, h3⟩
            rcases Nat.lt_succ_iff_lt_or_eq.mp h1 with h | h
            · exact Or.inl ⟨h, h2, h3⟩
            · exact Or.inr ⟨h, h3⟩
        · rw [in2]
          by_cases hci : c = i
          · subst hci
            have h1 : ¬ (c < c ∧ c ≠ r) := fun h => absurd h.1 (Nat.lt_irrefl c)
            have h2 : c < c + 1 ∧ c ≠ r := ⟨Nat.lt_succ_self c, hir2⟩
            rw [if_neg h1, if_pos rfl, if_pos h2]
            omega
          · rw [if_neg hci]
            by_cases hlt : c < i ∧ c ≠ r
            · have h2 : c < i + 1 ∧ c ≠ r := ⟨Nat.lt_succ_of_lt hlt.1, hlt.2⟩
              rw [if_pos hlt, if_pos h2]
              omega
            · have h2 : ¬ (c < i + 1 ∧ c ≠ r) := by
                rintro ⟨h3, h4⟩
                rcases Nat.lt_succ_iff_lt_or_eq.mp h3 with h | h
                · exact hlt ⟨h, h4⟩
                · exact hci h
              rw [if_neg hlt, if_neg h2]
      · rename_i hir
        have hir2 : i = r := by simpa using hir
        refine ⟨?_, ?_⟩
        · refine exclusiveSnoop_congr ?_ hi
          intro c2 w2
          constructor
          · rintro ⟨h1, h2, h3⟩
            exact ⟨Nat.lt_succ_of_lt h1, h2, h3⟩
          · rintro ⟨h1, h2, h3⟩
            rcases Nat.lt_succ_iff_lt_or_eq.mp h1 with h | h
            · exact ⟨h, h2, h3⟩
            · exact absurd (h.trans hir2) h2
        · rw [hcount]
          by_cases hlt : c < i ∧ c ≠ r
          · have h2 : c < i + 1 ∧ c ≠ r := ⟨Nat.lt_succ_of_lt hlt.1, hlt.2⟩
            rw [if_pos hlt, if_pos h2]
          · have h2 : ¬ (c < i + 1 ∧ c ≠ r) := by
              rintro ⟨h3, h4⟩
              rcases Nat.lt_succ_iff_lt_or_eq.mp h3 with h | h
              · exact hlt ⟨h, h4⟩
              · exact h4 (h.trans hir2)
            rw [if_neg hlt, if_neg h2])
    acc ⟨exclusiveSnoop_congr (fun c2 w2 => by simp) h0, by
      rw [hlog]
      simp⟩
  exact key.2

theorem serviceReadExclusive_log (cfg : Config) (st0 : State) (r : Nat) (a : Int) (s : Nat)
    (tag : Int) :
    (serviceReadExclusive cfg st0 r a s tag).ghostLog
      = (invalidateOthers cfg r a s tag
          (false,
            { st0 with
              busOccupied := true
              busTransactionCount := st0.busTransactionCount + 1
              missCount := set1 st0.missCount r (st0.missCount r + 1)
              ghostLog := st0.ghostLog ++ [Event.readExclusiveServiced r] })).2.ghostLog := by
  unfold serviceReadExclusive
  dsimp only
  split <;> rfl

/-- Snoops of `MODIFIED` lines of core `c` logged by the body of the request loop, and the dirty
evictions it logs (none). -/
theorem serviceRequest_snooped (cfg : Config) (st : State) (q : BusTransaction) (c : Nat) :
    countEvents (isModifiedSnoopedOf c) (serviceRequest cfg st q)
        = countEvents (isModifiedSnoopedOf c) st + ((snoopedModified cfg st q c : Nat) : Int)
      ∧ countEvents (isDirtyEvictionOf c) (serviceRequest cfg st q)
        = countEvents (isDirtyEvictionOf c) st := by
  by_cases hb : st.busOccupied = true
  · have hs : serviceRequest cfg st q
        = { st with
            isStalled := set1 st.isStalled q.requestorId true
            stalledCycles := set1 st.stalledCycles q.requestorId
              (st.stalledCycles q.requestorId + 1)
            ghostLog := st.ghostLog ++ [Event.busyDropped q.requestorId] } := by
      unfold serviceRequest
      dsimp only
      rw [if_pos hb]
    have hz : snoopedModified cfg st q c = 0 := by
      unfold snoopedModified
      rw [if_pos hb]
    rw [hs, hz]
    simp [countEvents, List.countP_append, isModifiedSnoopedOf, isDirtyEvictionOf]
  · cases hq : q.reqType with
    | READ_SHARED =>
      have hs : serviceRequest cfg st q
          = serviceReadShared cfg
              { st with
                pendingOperations := set1 st.pendingOperations q.requestorId q.memoryAddress }
              q.requestorId q.memoryAddress (setIndexOf cfg q.memoryAddress)
              (tagOf cfg q.memoryAddress) := by
        unfold serviceRequest
        dsimp only
        rw [if_neg hb, hq]
      rw [hs]
      unfold serviceReadShared
      dsimp only
      split
      · rename_i d w hfind
        have hfind2 : findOtherHolder cfg st q.requestorId (setIndexOf cfg q.memoryAddress)
            (tagOf cfg q.memoryAddress) = some (d, w) := hfind
        have hz : snoopedModified cfg st q c
            = if d = c ∧ st.coherenceTable d (setIndexOf cfg q.memoryAddress) w
                = CoherenceState.MODIFIED then 1 else 0 := by
          unfold snoopedModified
          rw [if_neg hb, hq]
          dsimp only
          rw [hfind2]
        rw [hz]
        split
        · rename_i hm
          have hm2 : st.coherenceTable d (setIndexOf cfg q.memoryAddress) w
              = CoherenceState.MODIFIED := hm
          by_cases hdc : d = c
          · subst hdc
            split <;>
              simp [countEvents, List.countP_append, isModifiedSnoopedOf, isDirtyEvictionOf,
                hm2]
          · have hdc2 : (d == c) = false := by
              simp only [beq_eq_false_iff_ne, ne_eq]
              exact hdc
            split <;>
              simp [countEvents, List.countP_append, isModifiedSnoopedOf, isDirtyEvictionOf,
                hm2, hdc, hdc2]
        · rename_i hm
          have hm2 : ¬ st.coherenceTable d (setIndexOf cfg q.memoryAddress) w
              = CoherenceState.MODIFIED := hm
          split <;>
            simp [countEvents, List.countP_append, isModifiedSnoopedOf, isDirtyEvictionOf, hm2]
      · rename_i hfind
        have hfind2 : findOtherHolder cfg st q.requestorId (setIndexOf cfg q.memoryAddress)
            (tagOf cfg q.memoryAddress) = none := hfind
        have hz : snoopedModified cfg st q c = 0 := by
          unfold snoopedModified
          rw [if_neg hb, hq]
          dsimp only
          rw [hfind2]
        rw [hz]
        simp [countEvents, List.countP_append, isModifiedSnoopedOf, isDirtyEvictionOf]
    | READ_EXCLUSIVE =>
      have hs : serviceRequest cfg st q
          = serviceReadExclusive cfg
              { st with
                pendingOperations := set1 st.pendingOperations q.requestorId q.memoryAddress }
              q.requestorId q.memoryAddress (setIndexOf cfg q.memoryAddress)
              (tagOf cfg q.memoryAddress) := by
        unfold serviceRequest
        dsimp only
        rw [if_neg hb, hq]
      have hz : snoopedModified cfg st q c
          = if c < 4 ∧ c ≠ q.requestorId then
              modifiedWaysBelow st c (setIndexOf cfg q.memoryAddress)
                (tagOf cfg q.memoryAddress) cfg.associativity
            else 0 := by
        unfold snoopedModified
        rw [if_neg hb, hq]
      have hsn := invalidateOthers_snooped cfg q.requestorId q.memoryAddress
        (setIndexOf cfg q.memoryAddress) (tagOf cfg q.memoryAddress) st c
        (false,
          { st with
            pendingOperations := set1 st.pendingOperations q.requestorId q.memoryAddress
            busOccupied := true
            busTransactionCount := st.busTransactionCount + 1
            missCount := set1 st.missCount q.requestorId (st.missCount q.requestorId + 1)
            ghostLog := st.ghostLog ++ [Event.readExclusiveServiced q.requestorId] })
        ⟨rfl, fun _ _ _ => rfl,
          ⟨fun h => Bool.noConfusion h, fun ⟨_, _, h, _⟩ => h.elim⟩,
          [], (List.append_nil _).symm, fun t ht => absurd ht (List.not_mem_nil t),
          fun _ _ h => h.elim⟩
        (by simp [List.countP_append, isModifiedSnoopedOf])
      have hde := invalidateOthers_countP cfg q.requestorId q.memoryAddress
        (setIndexOf cfg q.memoryAddress) (tagOf cfg q.memoryAddress) (isDirtyEvictionOf c)
        (fun _ => rfl) false
        { st with
          pendingOperations := set1 st.pendingOperations q.requestorId q.memoryAddress
          busOccupied := true
          busTransactionCount := st.busTransactionCount + 1
          missCount := set1 st.missCount q.requestorId (st.missCount q.requestorId + 1)
          ghostLog := st.ghostLog ++ [Event.readExclusiveServiced q.requestorId] }
      have hlog := serviceReadExclusive_log cfg
        { st with pendingOperations := set1 st.pendingOperations q.requestorId q.memoryAddress }
        q.requestorId q.memoryAddress (setIndexOf cfg q.memoryAddress)
        (tagOf cfg q.memoryAddress)
      unfold countEvents
      rw [hs, hz, hlog]
      refine ⟨?_, ?_⟩
      · exact congrArg (fun n : Nat => (n : Int)) hsn |>.trans (by push_cast; rfl)
      · rw [hde]
        simp [List.countP_append, isDirtyEvictionOf]
    | UPGRADE_REQUEST =>
      have hs : serviceRequest cfg st q
          = serviceUpgrade cfg
              { st with
                pendingOperations := set1 st.pendingOperations q.requestorId q.memoryAddress }
              q.requestorId q.memoryAddress (setIndexOf cfg q.memoryAddress)
              (tagOf cfg q.memoryAddress) := by
        unfold serviceRequest
        dsimp only
        rw [if_neg hb, hq]
      have hz : snoopedModified cfg st q c = 0 := by
        unfold snoopedModified
        rw [if_neg hb, hq]
      rw [hs, hz]
      unfold serviceUpgrade
      split <;>
        simp [countEvents, List.countP_append, isModifiedSnoopedOf, isDirtyEvictionOf]

/-- The victim of a miss handler that displaces a dirty line is the way at the front of the LRU
list, and the handler logs one dirty eviction exactly in that case. -/
theorem missHandler_log (cfg : Config) (ds dirty : Bool) (st : State) (p s : Nat) (tag : Int)
    (tw : Bool) :
    (installLine (selectVictim cfg ds st p s tw).2.2 p s (selectVictim cfg ds st p s tw).1 tag
        dirty).ghostLog
        = st.ghostLog
          ++ (if displacesDirty cfg st p s = true then [Event.dirtyEviction p] else [])
      ∧ (displacesDirty cfg st p s = true →
          (selectVictim cfg ds st p s tw).1 = (st.lruOrder p s).headD 0) := by
  refine ⟨by rw [installLine_ghostLog, selectVictim_log], ?_⟩
  intro hd
  unfold displacesDirty at hd
  rw [Bool.and_eq_true] at hd
  have hnone := (findInvalidWay_none_iff cfg st p s).mpr hd.1
  unfold selectVictim
  rw [hnone]
  dsimp only
  split <;> rfl

/-- Events logged by the request loop: the snoops counted by `requestLoopSnooped`, and no dirty
eviction. -/
theorem requestLoop_snooped (cfg : Config) (c : Nat) :
    ∀ (qs : List BusTransaction) (st : State),
      countEvents (isModifiedSnoopedOf c) (requestLoop cfg qs st)
          = countEvents (isModifiedSnoopedOf c) st
            + ((requestLoopSnooped cfg c qs st : Nat) : Int)
        ∧ countEvents (isDirtyEvictionOf c) (requestLoop cfg qs st)
          = countEvents (isDirtyEvictionOf c) st := by
  intro qs
  induction qs with
  | nil =>
    intro st
    simp [requestLoop, requestLoopSnooped]
  | cons q rest ih =>
    intro st
    obtain ⟨h1, h2⟩ := ih (serviceRequest cfg { st with pendingRequests := rest } q)
    obtain ⟨g1, g2⟩ := serviceRequest_snooped cfg { st with pendingRequests := rest } q c
    have e1 : countEvents (isModifiedSnoopedOf c) { st with pendingRequests := rest }
        = countEvents (isModifiedSnoopedOf c) st := rfl
    have e2 : countEvents (isDirtyEvictionOf c) { st with pendingRequests := rest }
        = countEvents (isDirtyEvictionOf c) st := rfl
    simp only [requestLoop, requestLoopSnooped]
    refine ⟨?_, ?_⟩
    · rw [h1, g1, e1]
      push_cast
      ring
    · rw [h2, g2, e2]

/-- Events logged by one call of `processBusTransactions`. -/
theorem processBusTransactions_causes (cfg : Config) (c : Nat) (st : State) :
    countEvents (isDirtyEvictionOf c) (processBusTransactions cfg st)
        + countEvents (isModifiedSnoopedOf c) (processBusTransactions cfg st)
      = countEvents (isDirtyEvictionOf c) st + countEvents (isModifiedSnoopedOf c) st
        + ((tickCauses cfg c st : Nat) : Int) := by
  obtain ⟨h1, h2⟩ := requestLoop_snooped cfg c st.pendingRequests
    { st with busTickCounter := st.busTickCounter + 1 }
  have e1 : countEvents (isModifiedSnoopedOf c)
      { st with busTickCounter := st.busTickCounter + 1 }
      = countEvents (isModifiedSnoopedOf c) st := rfl
  have e2 : countEvents (isDirtyEvictionOf c)
      { st with busTickCounter := st.busTickCounter + 1 }
      = countEvents (isDirtyEvictionOf c) st := rfl
  have hreq : requestPhase cfg { st with busTickCounter := st.busTickCounter + 1 }
      = requestLoop cfg st.pendingRequests
          { st with busTickCounter := st.busTickCounter + 1 } := rfl
  have d1 := dataPhase_dirtyEvictions cfg
    (requestPhase cfg { st with busTickCounter := st.busTickCounter + 1 }) c
  have d2 : countEvents (isModifiedSnoopedOf c)
      (dataPhase cfg (requestPhase cfg { st with busTickCounter := st.busTickCounter + 1 }))
      = countEvents (isModifiedSnoopedOf c)
          (requestPhase cfg { st with busTickCounter := st.busTickCounter + 1 }) := by
    unfold countEvents
    rw [dataPhase_countP cfg _ (isModifiedSnoopedOf c) (fun _ => rfl) (fun _ => rfl)]
  have hpbt : processBusTransactions cfg st
      = dataPhase cfg (requestPhase cfg { st with busTickCounter := st.busTickCounter + 1 }) :=
    rfl
  rw [hpbt, d1, d2]
  unfold tickCauses
  rw [hreq, h1, h2, e1, e2]
  split
  · push_cast
    ring
  · push_cast
    ring

theorem offerCore_log (cfg : Config) (tr : Nat → List TraceEntry) (i : Nat) (sim : SimState) :
    (offerCore cfg tr i sim).st.ghostLog = sim.st.ghostLog := by
  unfold offerCore
  split
  · rfl
  · split
    · exact executeMemoryOperation_ghostLog cfg sim.st _ i
    · rfl

theorem advanceCore_log (tr : Nat → List TraceEntry) (i : Nat) (sim : SimState) :
    (advanceCore tr i sim).st.ghostLog = sim.st.ghostLog := by
  unfold advanceCore
  dsimp only
  split
  · split <;> rfl
  · rfl

/-- In every run, at the end of every cycle, the dirty evictions and the snoops of `MODIFIED`
lines of core `c` recorded in the log are the causes counted from the states by `runCauses`. -/
theorem causes_cycles (cfg : Config) (tr : Nat → List TraceEntry) (c : Nat) :
    ∀ n, countEvents (isDirtyEvictionOf c) (cycles cfg tr n).st
        + countEvents (isModifiedSnoopedOf c) (cycles cfg tr n).st
      = ((runCauses cfg tr c n : Nat) : Int) := by
  intro n
  induction n with
  | zero => simp [cycles, initialSim, initialState, countEvents, runCauses]
  | succ n ih =>
    have hoffer : (forLoop 4 (offerCore cfg tr) (cycles cfg tr n)).st.ghostLog
        = (cycles cfg tr n).st.ghostLog :=
      forLoop_preserves
        (fun s : SimState => s.st.ghostLog = (cycles cfg tr n).st.ghostLog)
        (offerCore cfg tr) 4
        (fun i s _ h => (offerCore_log cfg tr i s).trans h) _ rfl
    have hadv : (cycles cfg tr (n + 1)).st.ghostLog
        = (processBusTransactions cfg
            (forLoop 4 (offerCore cfg tr) (cycles cfg tr n)).st).ghostLog := by
      show (cycle cfg tr (cycles cfg tr n)).st.ghostLog = _
      unfold cycle
      dsimp only
      exact forLoop_preserves
        (fun s : SimState => s.st.ghostLog
          = (processBusTransactions cfg
              (forLoop 4 (offerCore cfg tr) (cycles cfg tr n)).st).ghostLog)
        (advanceCore tr) 4
        (fun i s _ h => (advanceCore_log tr i s).trans h) _ rfl
    have hc := processBusTransactions_causes cfg c
      (forLoop 4 (offerCore cfg tr) (cycles cfg tr n)).st
    unfold countEvents at hc ih ⊢
    rw [hadv, hc, hoffer, ih]
    simp only [runCauses]
    push_cast
    ring

/-- Claim C8 (writeback accounting).  When a run terminates, for every core `c`,
`writebackCount[c]` is the number of dirty evictions of core `c` plus the number of snoops that
hit a `MODIFIED` line of core `c` recorded in the log, and it is the number of completed
writeback transfers with destination `c`.  `executeMemoryOperation` and the service of a
request leave `writebackCount` unchanged, and the data phase adds 1 to `writebackCount[c]`
exactly when it completes a writeback transfer with destination `c`.

The log can be left out: `writebackCount[c]` is `runCauses`, the number of causes counted from
the states of the run alone, that is, over the bus ticks of the run, the `MODIFIED` lines of `c`
hit by the snoops of the request phase plus the fills of `c` that displace a dirty line.

What the log records is fixed by the state alone.  `executeMemoryOperation` records nothing.
The body of the request loop records no dirty eviction, and as snoops of core `c` it records
`snoopedModified`: nothing when the request is dropped or is an `UPGRADE_REQUEST`, one snoop
when the donor of a `READ_SHARED` is `c` with its line `MODIFIED`, and one snoop for each way of
`c` that holds the line `MODIFIED` for a `READ_EXCLUSIVE` of another core.  The data phase
records no snoop, and records one dirty eviction of `c` exactly when it completes a fill of `c`
into a full set whose LRU victim is dirty (`fillDisplacesDirty`).  Both miss handlers record one
dirty eviction exactly when the set is full and the way at the front of the LRU list is dirty,
and that way is then the victim.  The donor of a `READ_SHARED` is the lowest-indexed other core
that holds the line, in its first holding way. -/
theorem writeback_accounting (cfg : Config) (tr : Nat → List TraceEntry) (fuel : Nat)
    (sim : SimState) (hrun : runMulticoreSimulation cfg tr fuel = some sim) (c : Nat) :
    sim.st.writebackCount c
        = countEvents (isDirtyEvictionOf c) sim.st + countEvents (isModifiedSnoopedOf c) sim.st
    ∧ sim.st.writebackCount c = countEvents (isWritebackCompletedOf c) sim.st
    ∧ (∀ (st : State) (e : TraceEntry) (k : Nat),
        (executeMemoryOperation cfg st e k).writebackCount c = st.writebackCount c)
    ∧ (∀ (st : State) (q : BusTransaction),
        (serviceRequest cfg st q).writebackCount c = st.writebackCount c)
    ∧ (∀ st : State,
        (dataPhase cfg st).writebackCount c
          = st.writebackCount c + (if completesWritebackFor c st = true then 1 else 0))
    ∧ (∃ m, 0 < m ∧ Terminated (cycles cfg tr m)
        ∧ sim.st.writebackCount c = (cycles cfg tr m).st.writebackCount c
        ∧ sim.st.writebackCount c = ((runCauses cfg tr c m : Nat) : Int))
    ∧ (∀ n, countEvents (isDirtyEvictionOf c) (cycles cfg tr n).st
          + countEvents (isModifiedSnoopedOf c) (cycles cfg tr n).st
        = ((runCauses cfg tr c n : Nat) : Int))
    ∧ (∀ (st : State) (e : TraceEntry) (k : Nat),
        (executeMemoryOperation cfg st e k).ghostLog = st.ghostLog)
    ∧ (∀ (st : State) (q : BusTransaction),
        countEvents (isModifiedSnoopedOf c) (serviceRequest cfg st q)
            = countEvents (isModifiedSnoopedOf c) st
              + ((snoopedModified cfg st q c : Nat) : Int)
          ∧ countEvents (isDirtyEvictionOf c) (serviceRequest cfg st q)
            = countEvents (isDirtyEvictionOf c) st)
    ∧ (∀ st : State,
        countEvents (isDirtyEvictionOf c) (dataPhase cfg st)
            = countEvents (isDirtyEvictionOf c) st
              + (if fillDisplacesDirty cfg st c = true then 1 else 0)
          ∧ countEvents (isModifiedSnoopedOf c) (dataPhase cfg st)
            = countEvents (isModifiedSnoopedOf c) st)
    ∧ (∀ (st : State) (p s : Nat) (tag : Int) (tw : Bool),
        (processReadMiss cfg st p s tag tw).2.2.ghostLog
            = st.ghostLog
              ++ (if displacesDirty cfg st p s = true then [Event.dirtyEviction p] else [])
          ∧ (processWriteMiss cfg st p s tag tw).2.2.ghostLog
            = st.ghostLog
              ++ (if displacesDirty cfg st p s = true then [Event.dirtyEviction p] else [])
          ∧ (displacesDirty cfg st p s = true →
              (processReadMiss cfg st p s tag tw).1 = (st.lruOrder p s).headD 0
                ∧ (processWriteMiss cfg st p s tag tw).1 = (st.lruOrder p s).headD 0))
    ∧ (∀ (st : State) (r s : Nat) (tag : Int) (d w : Nat),
        findOtherHolder cfg st r s tag = some (d, w) →
          d < 4 ∧ d ≠ r ∧ w < cfg.associativity ∧ holdsLine st d s tag w = true
            ∧ (∀ c2, c2 < d → c2 ≠ r → ∀ w2, w2 < cfg.associativity →
                holdsLine st c2 s tag w2 = false)
            ∧ ∀ w2, w2 < w → holdsLine st d s tag w2 = false) := by
  obtain ⟨m, hm, hterm, _, hst⟩ := runMulticoreSimulation_result cfg tr fuel sim hrun
  have hq := (terminated_elim hterm).1
  have hacc := writebackAccounting_cycles cfg tr c m
  unfold WritebackAccounting countEvents queuedWritebacks at hacc
  rw [hq] at hacc
  simp only [List.countP_nil, Nat.cast_zero, add_zero] at hacc
  have hcauses := causes_cycles cfg tr c
  refine ⟨?_, ?_, fun st e k => by simp, fun st q => by simp,
    fun st => dataPhase_writebackCount cfg st c, ⟨m, hm, hterm, by rw [hst], ?_⟩, hcauses,
    fun st e k => by simp, fun st q => serviceRequest_snooped cfg st q c, ?_, ?_, ?_⟩
  · rw [hst]
    simp only [countEvents]
    exact hacc.1.symm
  · rw [hst]
    simp only [countEvents]
    exact hacc.2
  · rw [hst, ← hcauses m]
    simp only [countEvents]
    exact hacc.1.symm
  · intro st
    refine ⟨dataPhase_dirtyEvictions cfg st c, ?_⟩
    unfold countEvents
    rw [dataPhase_countP cfg st (isModifiedSnoopedOf c) (fun _ => rfl) (fun _ => rfl)]
  · intro st p s tag tw
    obtain ⟨r1, r2⟩ := missHandler_log cfg true false st p s tag tw
    obtain ⟨w1, w2⟩ := missHandler_log cfg false true st p s tag tw
    exact ⟨r1, w1, fun hd => ⟨r2 hd, w2 hd⟩⟩
  · intro st r s tag d w h
    obtain ⟨h1, h2, h3, h4⟩ := findOtherHolder_some h
    obtain ⟨h5, h6⟩ := findOtherHolder_least h
    exact ⟨h1, h2, h3, h4, h5, h6⟩

/-- Witness for the writeback accounting: scenario S3 terminates, and the writeback count of
core 0 is the number of its dirty evictions and snooped `MODIFIED` lines, and the number of
completed writeback transfers with destination 0. -/
theorem writeback_accounting_witness :
    ∃ sim, runMulticoreSimulation scenarioConfig scenarioS3 300 = some sim
      ∧ sim.st.writebackCount 0
          = countEvents (isDirtyEvictionOf 0) sim.st + countEvents (isModifiedSnoopedOf 0) sim.st
      ∧ sim.st.writebackCount 0 = countEvents (isWritebackCompletedOf 0) sim.st := by
  obtain ⟨sim, hs, _⟩ := checkFinal_runWait scenarioS3_evaluated
  exact ⟨sim, hs, (writeback_accounting scenarioConfig scenarioS3 300 sim hs 0).1,
    (writeback_accounting scenarioConfig scenarioS3 300 sim hs 0).2.1⟩

end CacheSim
